import Mathlib

/-! # strengths_engine: a shallow embedding of the simulation kernels

Conventions of the embedding.

* `double` is `ℚ`: arithmetic is exact.  `std::floor` is `Int.floor`.
* `std::vector<T>` is `List T`.  `v[i]` is `rd v i` (a read outside the vector
  yields `0`), `v[i] = a` is `wr v i a` (a write outside the vector is
  dropped).  Indices computed from a neighbour entry are `Int`, because the
  grid uses `-1` for an absent neighbour; they go through `rdI` and `wrI`.
* `for (int i = 0; i < n; i++) body` without `break` is `forLoop n body`.
  Loops that `break` are written as structural recursions over the remaining
  indices.
* The generator `rng` is the record of the outcomes it is going to produce:
  the `k`-th draw of the run returns `uniform k`, `poisson k mean` or
  `normal k mean`, and `pos` counts the draws made so far.
* `std::pow` and `std::log` have no exact rational model; they are fields of
  `Libm`, over which the kernels are parameterised.
-/

namespace Strengths

/-! ## Vectors and loops -/

/-- Value of `v[i]`. -/
def rd {α : Type} [Zero α] (v : List α) (i : Nat) : α := v.getD i 0

/-- Effect of `v[i] = a`. -/
def wr {α : Type} (v : List α) (i : Nat) (a : α) : List α := v.set i a

/-- Value of `v[i]` for a vector of vectors. -/
def rdRow {α : Type} (v : List (List α)) (i : Nat) : List α := v.getD i []

/-- Value of `v[i]` for a signed index. -/
def rdI {α : Type} [Zero α] (v : List α) (i : Int) : α :=
  if 0 ≤ i then rd v i.toNat else 0

/-- Effect of `v[i] = a` for a signed index. -/
def wrI {α : Type} (v : List α) (i : Int) (a : α) : List α :=
  if 0 ≤ i then wr v i.toNat a else v

/-- Loop `for (int i = 0; i < n; i++) st = body i st`. -/
def forLoop {σ : Type} (n : Nat) (body : Nat → σ → σ) (st : σ) : σ :=
  (List.range n).foldl (fun s i => body i s) st

/-- Effect of `v.resize(n, a)`. -/
def resizeD {α : Type} (v : List α) (n : Nat) (a : α) : List α :=
  (v ++ List.replicate (n - v.length) a).take n

/-- Effect of `v.resize(n)` on a vector of numbers (new cells are zero). -/
def resize {α : Type} [Zero α] (v : List α) (n : Nat) : List α := resizeD v n 0

/-- Sum over meshes `i < n_meshes` of `v[i*n_species+s]`. -/
def speciesTotal (v : List ℚ) (n_meshes n_species s : Nat) : ℚ :=
  ((List.range n_meshes).map (fun i => rd v (i * n_species + s))).sum

/-! ## Random generator and math library -/

/-- Outcomes of the pseudo random generator (`std::mt19937` with the
distributions of the source applied to it). -/
structure Rng where
  /-- Number of draws made so far. -/
  pos : Nat
  /-- Outcome of the `k`-th draw when it is `uiud(rng)`. -/
  uniform : Nat → ℚ
  /-- Outcome of the `k`-th draw when it is `poisson_distribution<int>(mean)(rng)`. -/
  poisson : Nat → ℚ → Nat
  /-- Outcome of the `k`-th draw when it is
  `normal_distribution<double>(mean, sqrt(mean))(rng)`. -/
  normal : Nat → ℚ → ℚ

/-- Generator after one more draw. -/
def Rng.advance (g : Rng) : Rng := { g with pos := g.pos + 1 }

/-- Functions of `<cmath>` that are not rational. -/
structure Libm where
  /-- Function `std::pow`. -/
  pow : ℚ → ℚ → ℚ
  /-- Function `std::log`. -/
  log : ℚ → ℚ

/-! ## engine.cpp: GenerateStochasticDistribution -/

/-- Steps 1 and 3 of `GenerateStochasticDistribution`: the loop
`for i<n_meshes, for j<n_species: tot[j] += v[i*n_species+j]`
started from `std::vector<double>(n_species, 0)`. -/
def countSpecies (v : List ℚ) (n_meshes n_species : Nat) : List ℚ :=
  forLoop n_meshes (fun i tot =>
    forLoop n_species (fun j tot => wr tot j (rd tot j + rd v (i * n_species + j))) tot)
    (List.replicate n_species 0)

/-- Step 2 of `GenerateStochasticDistribution`: the trial state. -/
def drawTrialState (mesh_x : List ℚ) (n_meshes n_species : Nat) (rng : Rng) :
    List ℚ × Rng :=
  forLoop (n_meshes * n_species) (fun i (p : List ℚ × Rng) =>
    if rd mesh_x i < 100 then
      (wr p.1 i ((p.2.poisson p.2.pos (rd mesh_x i) : Nat) : ℚ), p.2.advance)
    else
      (wr p.1 i (max 0 ((⌊p.2.normal p.2.pos (rd mesh_x i)⌋ : Int) : ℚ)), p.2.advance))
    (List.replicate mesh_x.length 0, rng)

/-- Conversion `static_cast<int>` of a double: truncation toward zero. -/
def static_cast_int (q : ℚ) : Int := if 0 ≤ q then ⌊q⌋ else ⌈q⌉

/-- Inner loop `for(int i=0; i<n_meshes; i++)` of the correction of species `s`:
walks the cumulated original quantities and corrects the first mesh whose
cumulated quantity exceeds `target`.  The argument lists the meshes still to
visit; the result is the corrected state and `delta_count`. -/
def correctOnce (mesh_x : List ℚ) (n_species s : Nat) (rm_species : Bool) (target : ℚ) :
    List Nat → ℚ → List ℚ → Nat → List ℚ × Nat
  | [], _, mesh_x_sto, delta_count => (mesh_x_sto, delta_count)
  | i :: rest, cumul, mesh_x_sto, delta_count =>
    let cumul := cumul + rd mesh_x (i * n_species + s)
    if target < cumul then
      if rm_species then
        if rd mesh_x_sto (i * n_species + s) > 0 then
          (wr mesh_x_sto (i * n_species + s) (rd mesh_x_sto (i * n_species + s) - 1),
            delta_count + 1)
        else (mesh_x_sto, delta_count)
      else
        (wr mesh_x_sto (i * n_species + s) (rd mesh_x_sto (i * n_species + s) + 1),
          delta_count + 1)
    else correctOnce mesh_x n_species s rm_species target rest cumul mesh_x_sto delta_count

/-- Loop `for(;;)` of the correction of species `s`.  Every round makes one
uniform draw; `fuel` bounds the number of rounds, and `none` means that the
loop is still running after `fuel` rounds. -/
def correctionLoop (mesh_x : List ℚ) (n_meshes n_species s : Nat) (rm_species : Bool)
    (tot_s : ℚ) (delta : Nat) :
    Nat → List ℚ → Nat → Rng → Option (List ℚ × Rng)
  | 0, _, _, _ => none
  | fuel + 1, mesh_x_sto, delta_count, rng =>
    let target := rng.uniform rng.pos * tot_s
    let p := correctOnce mesh_x n_species s rm_species target (List.range n_meshes) 0
      mesh_x_sto delta_count
    if p.2 = delta then some (p.1, rng.advance)
    else correctionLoop mesh_x n_meshes n_species s rm_species tot_s delta fuel p.1 p.2
      rng.advance

/-- Body of the loop over species of step 5. -/
def correctSpecies (fuel : Nat) (mesh_x : List ℚ) (n_meshes n_species : Nat)
    (tot_species dtot_species : List ℚ) (s : Nat) (p : List ℚ × Rng) :
    Option (List ℚ × Rng) :=
  let delta := static_cast_int (rd dtot_species s)
  if delta = 0 then some p
  else
    correctionLoop mesh_x n_meshes n_species s (decide (delta > 0)) (rd tot_species s)
      delta.natAbs fuel p.1 0 p.2

/-- Loop over species of step 5, on the species still to correct. -/
def correctAll (fuel : Nat) (mesh_x : List ℚ) (n_meshes n_species : Nat)
    (tot_species dtot_species : List ℚ) : List Nat → List ℚ × Rng → Option (List ℚ × Rng)
  | [], p => some p
  | s :: rest, p =>
    match correctSpecies fuel mesh_x n_meshes n_species tot_species dtot_species s p with
    | none => none
    | some p => correctAll fuel mesh_x n_meshes n_species tot_species dtot_species rest p

/-- Function `GenerateStochasticDistribution` of engine.cpp, with the generator
in place of the seed.  `fuel` bounds the rounds of each `for(;;)` loop. -/
def GenerateStochasticDistribution (fuel : Nat) (mesh_x : List ℚ) (n_meshes n_species : Nat)
    (rng : Rng) : Option (List ℚ) :=
  let tot_species := (countSpecies mesh_x n_meshes n_species).map (fun q => ((⌊q⌋ : Int) : ℚ))
  let trial := drawTrialState mesh_x n_meshes n_species rng
  let tot2_species := countSpecies trial.1 n_meshes n_species
  let dtot_species := (List.range n_species).map (fun i => rd tot2_species i - rd tot_species i)
  (correctAll fuel mesh_x n_meshes n_species tot_species dtot_species (List.range n_species)
    trial).map Prod.fst

/-! ## Members shared by SimulationAlgorithm3DBase and SimulationAlgorithmGraphBase

The two base classes declare the following members with the same text; they
are embedded once. -/

/-- Members that `SimulationAlgorithm3DBase` and `SimulationAlgorithmGraphBase`
declare identically. -/
structure SimulationAlgorithmBase where
  n_meshes : Nat
  n_species : Nat
  n_reactions : Nat
  n_env : Nat
  mesh_x : List ℚ
  mesh_chstt : List Int
  mesh_env : List Int
  sto : List ℚ
  sub : List ℚ
  mesh_kr : List ℚ
  n_samples : Nat
  sample_pos : Nat
  t_samples : List ℚ
  sampled_mesh_x : List (List ℚ)
  sampled_t : List ℚ
  sampling_policy_code : Int
  sampling_interval : ℚ
  t_max : ℚ
  sampling_done_this_iteration : Bool
  last_tsi_ratio : ℚ
  t : ℚ
  dt : ℚ
  complete : Bool
  rng : Rng

namespace SimulationAlgorithmBase

/-- Method `Sample`: records `(t, mesh_x)` unless the guard is set. -/
def Sample (b : SimulationAlgorithmBase) : SimulationAlgorithmBase :=
  if !b.sampling_done_this_iteration then
    { b with
      sampled_mesh_x := b.sampled_mesh_x ++ [b.mesh_x]
      sampled_t := b.sampled_t ++ [b.t]
      sampling_done_this_iteration := true }
  else b

/-- Method `FlagAsComplete`. -/
def FlagAsComplete (b : SimulationAlgorithmBase) : SimulationAlgorithmBase :=
  { b with complete := true }

/-- Method `CheckTMax`. -/
def CheckTMax (b : SimulationAlgorithmBase) : SimulationAlgorithmBase :=
  if b.t_max ≥ 0 ∧ b.t > b.t_max then b.FlagAsComplete else b

/-- The loop `while(t>=t_samples[sample_pos] && sample_pos<n_samples)` of
`SampleOnTSample`, run for at most the given number of rounds.  The left
operand is evaluated first: once `sample_pos` has reached `n_samples` the
source reads `t_samples` one past its end, which it leaves undefined.  Here
that read gives `0` and the right operand ends the loop; the indices read are
listed by `SampleOnTSampleReads`, and a call that has to return is taken through
`samplingStepInBounds`, which refuses such a read. -/
def SampleOnTSampleLoop : Nat → SimulationAlgorithmBase → SimulationAlgorithmBase
  | 0, b => b
  | k + 1, b =>
    if b.t ≥ rd b.t_samples b.sample_pos ∧ b.sample_pos < b.n_samples then
      SampleOnTSampleLoop k { b.Sample with sample_pos := b.sample_pos + 1 }
    else b

/-- Method `SampleOnTSample`.  Every round advances `sample_pos`, so the loop
has left after `n_samples - sample_pos` rounds. -/
def SampleOnTSample (b : SimulationAlgorithmBase) : SimulationAlgorithmBase :=
  SampleOnTSampleLoop (b.n_samples - b.sample_pos) b

/-- Method `SampleOnInterval`. -/
def SampleOnInterval (b : SimulationAlgorithmBase) : SimulationAlgorithmBase :=
  let tsi_ratio : ℚ := ((⌊b.t / b.sampling_interval⌋ : Int) : ℚ)
  if tsi_ratio > b.last_tsi_ratio then
    { b.Sample with last_tsi_ratio := tsi_ratio }
  else b

/-- Method `SamplingStep`. -/
def SamplingStep (b : SimulationAlgorithmBase) : SimulationAlgorithmBase :=
  if b.sampling_policy_code = 0 then b.SampleOnTSample
  else if b.sampling_policy_code = 1 then b.Sample
  else if b.sampling_policy_code = 2 then b.SampleOnInterval
  else b

/-- Method `ReactionRate`: the deterministic reaction rate. -/
def ReactionRate (m : Libm) (b : SimulationAlgorithmBase) (mesh_index reaction_index : Nat) : ℚ :=
  forLoop b.n_species (fun s r =>
    r * m.pow (rd b.mesh_x (mesh_index * b.n_species + s))
      (rd b.sub (s * b.n_reactions + reaction_index)))
    (rd b.mesh_kr (mesh_index * b.n_reactions + reaction_index))

/-- The loop over species of `ReactionProp`, on the species still to visit. -/
def ReactionPropLoop (b : SimulationAlgorithmBase) (mesh_index reaction_index : Nat) :
    List Nat → ℚ → ℚ
  | [], a => a
  | s :: rest, a =>
    if rd b.mesh_x (mesh_index * b.n_species + s) ≥ rd b.sub (s * b.n_reactions + reaction_index)
    then
      ReactionPropLoop b mesh_index reaction_index rest
        (forLoop ⌈rd b.sub (s * b.n_reactions + reaction_index)⌉₊
          (fun q a => a * (rd b.mesh_x (mesh_index * b.n_species + s) - (q : ℚ))) a)
    else 0

/-- Method `ReactionProp`: the Gillespie reaction propensity. -/
def ReactionProp (b : SimulationAlgorithmBase) (mesh_index reaction_index : Nat) : ℚ :=
  ReactionPropLoop b mesh_index reaction_index (List.range b.n_species)
    (rd b.mesh_kr (mesh_index * b.n_reactions + reaction_index))

/-- Method `Poisson`: one draw, and the generator after it. -/
def Poisson (rng : Rng) (lambda : ℚ) : Int × Rng :=
  ((rng.poisson rng.pos lambda : Nat), rng.advance)

/-- Method `Build_mesh_kr`, with the volume of mesh `i` given by `vol i`
(`mesh_vol` on the grid, `mesh_vol[i]` on the graph). -/
def Build_mesh_kr (m : Libm) (b : SimulationAlgorithmBase) (vol : Nat → ℚ) (k r_env : List ℚ) :
    SimulationAlgorithmBase :=
  { b with
    mesh_kr :=
      forLoop b.n_meshes (fun i mesh_kr =>
        forLoop b.n_reactions (fun r mesh_kr =>
          let q := forLoop b.n_species (fun s q => q + rd b.sub (s * b.n_reactions + r)) 0
          wr mesh_kr (i * b.n_reactions + r)
            (rd k r * m.pow (vol i) (1 - q) * rdI r_env ((r * b.n_env : Nat) + rd b.mesh_env i)))
          mesh_kr)
        (List.replicate (b.n_meshes * b.n_reactions) 0) }

end SimulationAlgorithmBase

/-! ## SimulationAlgorithm3DBase.hpp -/

/-- Class `SimulationAlgorithm3DBase`: the shared members and the members of
the grid. -/
structure SimulationAlgorithm3DBase extends SimulationAlgorithmBase where
  w : Nat
  h : Nat
  d : Nat
  delta_i : List Int
  opposed_direction : List Nat
  mesh_neighbors : List Int
  mesh_vol : ℚ
  mesh_edge : ℚ
  mesh_kd : List ℚ
  boundary_conditions : List Int

namespace SimulationAlgorithm3DBase

/-- Method `GetNeighborIndex`, from the sizes and boundary conditions. -/
def GetNeighborIndex (w h d : Nat) (boundary_conditions : List Int) (x y z : Int)
    (direction : Nat) : Int :=
  let xn := if direction = 0 then x + 1 else if direction = 1 then x - 1 else x
  let yn := if direction = 2 then y + 1 else if direction = 3 then y - 1 else y
  let zn := if direction = 4 then z + 1 else if direction = 5 then z - 1 else z
  let xn := if rd boundary_conditions 0 = 1 then Int.tmod (w + xn) w else xn
  let yn := if rd boundary_conditions 1 = 1 then Int.tmod (h + yn) h else yn
  let zn := if rd boundary_conditions 2 = 1 then Int.tmod (d + zn) d else zn
  if xn ≥ 0 ∧ xn < w ∧ yn ≥ 0 ∧ yn < h ∧ zn ≥ 0 ∧ zn < d then w * h * zn + w * yn + xn
  else -1

/-- Method `BuildMeshNeighbors`: the table `mesh_neighbors`. -/
def BuildMeshNeighbors (w h d : Nat) (boundary_conditions : List Int) : List Int :=
  forLoop (w * h * d) (fun i mesh_neighbors =>
    let xcoord : Int := ((i % w : Nat) : Int)
    let ycoord : Int := ((i % (w * h) / w : Nat) : Int)
    let zcoord : Int := ((i / (w * h) : Nat) : Int)
    forLoop 6 (fun n mesh_neighbors =>
      wr mesh_neighbors (i * 6 + n) (GetNeighborIndex w h d boundary_conditions
        xcoord ycoord zcoord n)) mesh_neighbors)
    (List.replicate (w * h * d * 6) 0)

/-- Method `Build_mesh_kd` of the grid. -/
def Build_mesh_kd (b : SimulationAlgorithm3DBase) (D : List ℚ) : SimulationAlgorithm3DBase :=
  { b with
    mesh_kd :=
      forLoop b.n_species (fun s mesh_kd =>
        forLoop b.n_meshes (fun i mesh_kd =>
          forLoop 6 (fun n mesh_kd =>
            let j := rd b.mesh_neighbors (i * 6 + n)
            if j = -1 then wr mesh_kd (i * b.n_species * 6 + s * 6 + n) 0
            else
              let Di := rdI D ((s * b.n_env : Nat) + rd b.mesh_env i)
              let Dj := rdI D ((s * b.n_env : Nat) + rdI b.mesh_env j)
              let Dij : ℚ :=
                if Di ≠ 0 ∧ Dj ≠ 0 then (2 * b.mesh_edge) / (b.mesh_edge / Di + b.mesh_edge / Dj)
                else 0
              wr mesh_kd (i * b.n_species * 6 + s * 6 + n) (Dij / (b.mesh_edge * b.mesh_edge)))
            mesh_kd) mesh_kd)
        (List.replicate (b.n_species * b.n_meshes * 6) 0) }

/-- Method `DiffusionRate` of the grid; the mesh index may come from the
neighbour table. -/
def DiffusionRate (b : SimulationAlgorithm3DBase) (mesh_index : Int) (species_index direction : Nat) :
    ℚ :=
  rdI b.mesh_x (mesh_index * b.n_species + species_index) *
    rdI b.mesh_kd (mesh_index * b.n_species * 6 + species_index * 6 + direction)

/-- Method `DiffusionRateDifference` of the grid. -/
def DiffusionRateDifference (b : SimulationAlgorithm3DBase)
    (src_mesh_index species_index direction : Nat) : ℚ :=
  b.DiffusionRate src_mesh_index species_index direction -
    b.DiffusionRate (rd b.mesh_neighbors (src_mesh_index * 6 + direction)) species_index
      (rd b.opposed_direction direction)

/-- Method `DiffusionProp` of the grid. -/
def DiffusionProp (b : SimulationAlgorithm3DBase) (mesh_index species_index direction : Nat) : ℚ :=
  rd b.mesh_x (mesh_index * b.n_species + species_index) *
    rd b.mesh_kd (mesh_index * b.n_species * 6 + species_index * 6 + direction)

end SimulationAlgorithm3DBase

/-! ## Euler3D.hpp -/

/-- Class `Euler3D`. -/
structure Euler3D extends SimulationAlgorithm3DBase where
  mesh_dxdt : List ℚ

namespace Euler3D

/-- Method `Compute_dxdt`. -/
def Compute_dxdt (m : Libm) (e : Euler3D) : Euler3D :=
  { e with
    mesh_dxdt :=
      forLoop e.n_meshes (fun i mesh_dxdt =>
        let rr := forLoop e.n_reactions
          (fun r rr => wr rr r (e.toSimulationAlgorithmBase.ReactionRate m i r))
          (List.replicate e.n_reactions 0)
        forLoop e.n_species (fun s mesh_dxdt =>
          let mesh_dxdt := wr mesh_dxdt (i * e.n_species + s) 0
          if rd e.mesh_chstt (i * e.n_species + s) ≠ 0 then mesh_dxdt
          else
            let mesh_dxdt := forLoop e.n_reactions (fun r mesh_dxdt =>
              wr mesh_dxdt (i * e.n_species + s)
                (rd mesh_dxdt (i * e.n_species + s) + rd e.sto (s * e.n_reactions + r) * rd rr r))
              mesh_dxdt
            forLoop 6 (fun n mesh_dxdt =>
              if rd e.mesh_neighbors (i * 6 + n) ≠ -1 then
                wr mesh_dxdt (i * e.n_species + s)
                  (rd mesh_dxdt (i * e.n_species + s) -
                    e.toSimulationAlgorithm3DBase.DiffusionRateDifference i s n)
              else mesh_dxdt) mesh_dxdt) mesh_dxdt)
        e.mesh_dxdt }

/-- Method `Apply_dxdt`. -/
def Apply_dxdt (e : Euler3D) : Euler3D :=
  { e with
    mesh_x :=
      forLoop e.n_meshes (fun i mesh_x =>
        forLoop e.n_species (fun j mesh_x =>
          wr mesh_x (i * e.n_species + j)
            (rd mesh_x (i * e.n_species + j) + rd e.mesh_dxdt (i * e.n_species + j) * e.dt))
          mesh_x)
        e.mesh_x }

/-- Method `AlgorithmSpecificInit`. -/
def AlgorithmSpecificInit (e : Euler3D) : Euler3D :=
  { e with mesh_dxdt := resize e.mesh_dxdt (e.n_species * e.n_meshes) }

/-- Method `Iterate`: the returned flag and the state after the call. -/
def Iterate (m : Libm) (e : Euler3D) : Bool × Euler3D :=
  let e := { e with sampling_done_this_iteration := false }
  if e.complete then (false, e)
  else
    let e := (e.Compute_dxdt m).Apply_dxdt
    let e := { e with t := e.t + e.dt }
    let e := { e with
      toSimulationAlgorithmBase := e.toSimulationAlgorithmBase.SamplingStep.CheckTMax }
    (!e.complete, e)

end Euler3D

/-! ## Gillespie3D.hpp -/

/-- Class `Gillespie3D`. -/
structure Gillespie3D extends SimulationAlgorithm3DBase where
  mesh_ar : List ℚ
  mesh_ad : List ℚ
  mesh_a0r : List ℚ
  mesh_a0d : List ℚ
  a0 : ℚ

namespace Gillespie3D

/-- Method `ComputePropensities`.  The loops change the propensity tables
only; what they read of the rest of the object is read from `g`. -/
def ComputePropensities (g : Gillespie3D) : Gillespie3D :=
  forLoop g.n_meshes (fun i st =>
    let st := { st with mesh_a0d := wr st.mesh_a0d i 0 }
    let st := { st with mesh_a0r := wr st.mesh_a0r i 0 }
    let st := forLoop g.n_reactions (fun r st =>
      let st := { st with
        mesh_ar := wr st.mesh_ar (i * g.n_reactions + r)
          (g.toSimulationAlgorithmBase.ReactionProp i r) }
      let st := { st with
        mesh_a0r := wr st.mesh_a0r i (rd st.mesh_a0r i + rd st.mesh_ar (i * g.n_reactions + r)) }
      { st with a0 := st.a0 + rd st.mesh_ar (i * g.n_reactions + r) }) st
    forLoop g.n_species (fun s st =>
      forLoop 6 (fun n st =>
        let st :=
          if rd g.mesh_neighbors (i * 6 + n) ≠ -1 then
            { st with
              mesh_ad := wr st.mesh_ad (i * 6 * g.n_species + s * 6 + n)
                (g.toSimulationAlgorithm3DBase.DiffusionProp i s n) }
          else
            { st with mesh_ad := wr st.mesh_ad (i * 6 * g.n_species + s * 6 + n) 0 }
        let st := { st with
          mesh_a0d := wr st.mesh_a0d i
            (rd st.mesh_a0d i + rd st.mesh_ad (i * 6 * g.n_species + s * 6 + n)) }
        { st with a0 := st.a0 + rd st.mesh_ad (i * 6 * g.n_species + s * 6 + n) }) st) st)
    { g with a0 := 0 }

/-- Method `ApplyReaction` of the grid kernel. -/
def ApplyReaction (g : Gillespie3D) (mesh_index reaction_index : Nat) : Gillespie3D :=
  { g with
    mesh_x :=
      forLoop g.n_species (fun s mesh_x =>
        wr mesh_x (mesh_index * g.n_species + s)
          (rd mesh_x (mesh_index * g.n_species + s) + rd g.sto (s * g.n_reactions + reaction_index)))
        g.mesh_x }

/-- Method `ApplyDiffusion` of the grid kernel. -/
def ApplyDiffusion (g : Gillespie3D) (mesh_index species_index direction : Nat) : Gillespie3D :=
  let j := rd g.mesh_neighbors (mesh_index * 6 + direction)
  let g := { g with
    mesh_x := wr g.mesh_x (mesh_index * g.n_species + species_index)
      (rd g.mesh_x (mesh_index * g.n_species + species_index) - 1) }
  { g with
    mesh_x := wrI g.mesh_x (j * g.n_species + species_index)
      (rdI g.mesh_x (j * g.n_species + species_index) + 1) }

/-- The loop over reactions of `DrawAndApplyEvent`, on the reactions still to
visit. -/
def walkReactions (g : Gillespie3D) (i : Nat) (r2 : ℚ) : List Nat → ℚ → Gillespie3D
  | [], _ => g
  | j :: rest, a_cumul =>
    let a_cumul := a_cumul + rd g.mesh_ar (i * g.n_reactions + j)
    if r2 < a_cumul then g.ApplyReaction i j else walkReactions g i r2 rest a_cumul

/-- The loop over directions of `DrawAndApplyEvent` for species `j`, on the
directions still to visit; the result is the state, `a_cumul` and
`diff_is_done`. -/
def walkDirections (g : Gillespie3D) (i j : Nat) (r2 : ℚ) :
    List Nat → ℚ → Gillespie3D × ℚ × Bool
  | [], a_cumul => (g, a_cumul, false)
  | n :: rest, a_cumul =>
    let a_cumul := a_cumul + rd g.mesh_ad (i * g.n_species * 6 + j * 6 + n)
    if r2 < a_cumul then (g.ApplyDiffusion i j n, a_cumul, true)
    else walkDirections g i j r2 rest a_cumul

/-- The loop over species of `DrawAndApplyEvent`, on the species still to
visit. -/
def walkSpecies (g : Gillespie3D) (i : Nat) (r2 : ℚ) : List Nat → ℚ → Gillespie3D
  | [], _ => g
  | j :: rest, a_cumul =>
    let p := walkDirections g i j r2 (List.range 6) a_cumul
    if p.2.2 then p.1 else walkSpecies g i r2 rest p.2.1

/-- The loop over meshes of `DrawAndApplyEvent`, on the meshes still to visit. -/
def walkMeshes (g : Gillespie3D) (r : ℚ) : List Nat → ℚ → Gillespie3D
  | [], _ => g
  | i :: rest, a0_cumul =>
    if r < a0_cumul + rd g.mesh_a0r i then
      walkReactions g i (r - a0_cumul) (List.range g.n_reactions) 0
    else
      let a0_cumul := a0_cumul + rd g.mesh_a0r i
      if r < a0_cumul + rd g.mesh_a0d i then
        walkSpecies g i (r - a0_cumul) (List.range g.n_species) 0
      else walkMeshes g r rest (a0_cumul + rd g.mesh_a0d i)

/-- Method `DrawAndApplyEvent`. -/
def DrawAndApplyEvent (g : Gillespie3D) : Gillespie3D :=
  let r := g.rng.uniform g.rng.pos * g.a0
  let g := { g with rng := g.rng.advance }
  walkMeshes g r (List.range g.n_meshes) 0

/-- Method `AlgorithmSpecificInit`. -/
def AlgorithmSpecificInit (g : Gillespie3D) : Gillespie3D :=
  { g with
    mesh_ar := resize g.mesh_ar (g.n_reactions * g.n_meshes)
    mesh_ad := resize g.mesh_ad (6 * g.n_species * g.n_meshes)
    mesh_a0r := resize g.mesh_a0r g.n_meshes
    mesh_a0d := resize g.mesh_a0d g.n_meshes }

/-- Method `Iterate`: the returned flag and the state after the call. -/
def Iterate (m : Libm) (g : Gillespie3D) : Bool × Gillespie3D :=
  let g := { g with sampling_done_this_iteration := false }
  if g.complete then (false, g)
  else
    let g := g.ComputePropensities
    if g.a0 = 0 then
      let g := { g with toSimulationAlgorithmBase := g.toSimulationAlgorithmBase.FlagAsComplete }
      (!g.complete, g)
    else
      let g := g.DrawAndApplyEvent
      let g := { g with dt := m.log (1 / g.rng.uniform g.rng.pos) / g.a0, rng := g.rng.advance }
      let g := { g with t := g.t + g.dt }
      let g := { g with
        toSimulationAlgorithmBase := g.toSimulationAlgorithmBase.SamplingStep.CheckTMax }
      (!g.complete, g)

end Gillespie3D

/-! ## TauLeap3D.hpp -/

/-- Class `TauLeap3D`. -/
structure TauLeap3D extends SimulationAlgorithm3DBase where
  mesh_nr : List Int
  mesh_nd : List Int

namespace TauLeap3D

/-- Method `Compute_nevt`.  The loops change the event counts and the
generator only; what they read of the rest of the object is read from `e`. -/
def Compute_nevt (e : TauLeap3D) : TauLeap3D :=
  forLoop e.n_meshes (fun i st =>
    let st := forLoop e.n_reactions (fun r st =>
      let p := SimulationAlgorithmBase.Poisson st.rng
        (e.toSimulationAlgorithmBase.ReactionProp i r * e.dt)
      { st with mesh_nr := wr st.mesh_nr (i * e.n_reactions + r) p.1, rng := p.2 }) st
    forLoop e.n_species (fun s st =>
      forLoop 6 (fun n st =>
        if rd e.mesh_neighbors (i * 6 + n) ≠ -1 then
          let p := SimulationAlgorithmBase.Poisson st.rng
            (e.toSimulationAlgorithm3DBase.DiffusionProp i s n * e.dt)
          { st with mesh_nd := wr st.mesh_nd (i * 6 * e.n_species + s * 6 + n) p.1, rng := p.2 }
        else
          { st with mesh_nd := wr st.mesh_nd (i * 6 * e.n_species + s * 6 + n) 0 }) st) st) e

/-- Method `Apply_nevt`. -/
def Apply_nevt (e : TauLeap3D) : TauLeap3D :=
  { e with
    mesh_x :=
      forLoop e.n_meshes (fun i mesh_x =>
        let mesh_x := forLoop e.n_reactions (fun r mesh_x =>
          forLoop e.n_species (fun j mesh_x =>
            if rd e.mesh_chstt (i * e.n_species + j) ≠ 0 then mesh_x
            else
              wr mesh_x (i * e.n_species + j)
                (rd mesh_x (i * e.n_species + j) +
                  rd e.sto (j * e.n_reactions + r) * ((rd e.mesh_nr (i * e.n_reactions + r) : Int) : ℚ)))
            mesh_x) mesh_x
        forLoop e.n_species (fun s mesh_x =>
          forLoop 6 (fun n mesh_x =>
            if rd e.mesh_nd (i * 6 * e.n_species + s * 6 + n) = 0 then mesh_x
            else
              let mesh_x :=
                if ¬ (rd e.mesh_chstt (i * e.n_species + s) ≠ 0) then
                  wr mesh_x (i * e.n_species + s)
                    (rd mesh_x (i * e.n_species + s) -
                      ((rd e.mesh_nd (i * 6 * e.n_species + s * 6 + n) : Int) : ℚ))
                else mesh_x
              let j := rd e.mesh_neighbors (i * 6 + n)
              if ¬ (rdI e.mesh_chstt (j * e.n_species + s) ≠ 0) then
                wrI mesh_x (j * e.n_species + s)
                  (rdI mesh_x (j * e.n_species + s) +
                    ((rd e.mesh_nd (i * 6 * e.n_species + s * 6 + n) : Int) : ℚ))
              else mesh_x) mesh_x) mesh_x)
        e.mesh_x }

/-- Method `AlgorithmSpecificInit`. -/
def AlgorithmSpecificInit (e : TauLeap3D) : TauLeap3D :=
  { e with
    mesh_nr := resize e.mesh_nr (e.n_reactions * e.n_meshes)
    mesh_nd := resize e.mesh_nd (6 * e.n_species * e.n_meshes) }

/-- Method `Iterate`: the returned flag and the state after the call. -/
def Iterate (e : TauLeap3D) : Bool × TauLeap3D :=
  let e := { e with sampling_done_this_iteration := false }
  if e.complete then (false, e)
  else
    let e := e.Compute_nevt.Apply_nevt
    let e := { e with t := e.t + e.dt }
    let e := { e with
      toSimulationAlgorithmBase := e.toSimulationAlgorithmBase.SamplingStep.CheckTMax }
    (!e.complete, e)

end TauLeap3D

/-! ## SimulationAlgorithmGraphBase.hpp -/

/-- Class `SimulationAlgorithmGraphBase`: the shared members and the members
of the graph. -/
structure SimulationAlgorithmGraphBase extends SimulationAlgorithmBase where
  n_edges : Nat
  mesh_vol : List ℚ
  mesh_neighbor_n : List Nat
  mesh_neighbor_index : List (List Nat)
  mesh_neighbor_sfc : List (List ℚ)
  mesh_neighbor_dst : List (List ℚ)
  mesh_kd_out : List (List ℚ)
  mesh_kd_in : List (List ℚ)

namespace SimulationAlgorithmGraphBase

/-- Method `SetNeighbors`. -/
def SetNeighbors (b : SimulationAlgorithmGraphBase) (n_edges : Nat) (edge_i edge_j : List Nat)
    (edge_sfc edge_dst : List ℚ) : SimulationAlgorithmGraphBase :=
  let b := { b with
    mesh_neighbor_n := resize b.mesh_neighbor_n b.n_meshes
    mesh_neighbor_index := resizeD b.mesh_neighbor_index b.n_meshes []
    mesh_neighbor_sfc := resizeD b.mesh_neighbor_sfc b.n_meshes []
    mesh_neighbor_dst := resizeD b.mesh_neighbor_dst b.n_meshes [] }
  forLoop n_edges (fun i b =>
    let b := { b with
      mesh_neighbor_n :=
        wr b.mesh_neighbor_n (rd edge_i i) (rd b.mesh_neighbor_n (rd edge_i i) + 1) }
    let b := { b with
      mesh_neighbor_n :=
        wr b.mesh_neighbor_n (rd edge_j i) (rd b.mesh_neighbor_n (rd edge_j i) + 1) }
    let b := { b with
      mesh_neighbor_index :=
        wr b.mesh_neighbor_index (rd edge_i i)
          (rdRow b.mesh_neighbor_index (rd edge_i i) ++ [rd edge_j i]) }
    let b := { b with
      mesh_neighbor_index :=
        wr b.mesh_neighbor_index (rd edge_j i)
          (rdRow b.mesh_neighbor_index (rd edge_j i) ++ [rd edge_i i]) }
    let b := { b with
      mesh_neighbor_sfc :=
        wr b.mesh_neighbor_sfc (rd edge_i i)
          (rdRow b.mesh_neighbor_sfc (rd edge_i i) ++ [rd edge_sfc i]) }
    let b := { b with
      mesh_neighbor_sfc :=
        wr b.mesh_neighbor_sfc (rd edge_j i)
          (rdRow b.mesh_neighbor_sfc (rd edge_j i) ++ [rd edge_sfc i]) }
    let b := { b with
      mesh_neighbor_dst :=
        wr b.mesh_neighbor_dst (rd edge_i i)
          (rdRow b.mesh_neighbor_dst (rd edge_i i) ++ [rd edge_dst i]) }
    { b with
      mesh_neighbor_dst :=
        wr b.mesh_neighbor_dst (rd edge_j i)
          (rdRow b.mesh_neighbor_dst (rd edge_j i) ++ [rd edge_dst i]) })
    b

/-- Method `Build_mesh_kd` of the graph. -/
def Build_mesh_kd (m : Libm) (b : SimulationAlgorithmGraphBase) (D : List ℚ) :
    SimulationAlgorithmGraphBase :=
  forLoop b.n_meshes (fun i b =>
    let b := { b with
      mesh_kd_out :=
        wr b.mesh_kd_out i (resize (rdRow b.mesh_kd_out i) (b.n_species * rd b.mesh_neighbor_n i))
      mesh_kd_in :=
        wr b.mesh_kd_in i (resize (rdRow b.mesh_kd_in i) (b.n_species * rd b.mesh_neighbor_n i)) }
    forLoop b.n_species (fun s b =>
      forLoop (rd b.mesh_neighbor_n i) (fun n b =>
        let j := rd (rdRow b.mesh_neighbor_index i) n
        let hi := m.pow (rd b.mesh_vol i) (1 / 3)
        let hj := m.pow (rd b.mesh_vol j) (1 / 3)
        let Di := rdI D ((s * b.n_env : Nat) + rd b.mesh_env i)
        let Dj := rdI D ((s * b.n_env : Nat) + rd b.mesh_env j)
        let Dij : ℚ := if Di ≠ 0 ∧ Dj ≠ 0 then (hi + hj) / (hi / Di + hj / Dj) else 0
        let b := { b with
          mesh_kd_out :=
            wr b.mesh_kd_out i
              (wr (rdRow b.mesh_kd_out i) (s * rd b.mesh_neighbor_n i + n)
                (Dij * rd (rdRow b.mesh_neighbor_sfc i) n /
                  (rd b.mesh_vol i * rd (rdRow b.mesh_neighbor_dst i) n))) }
        { b with
          mesh_kd_in :=
            wr b.mesh_kd_in i
              (wr (rdRow b.mesh_kd_in i) (s * rd b.mesh_neighbor_n i + n)
                (Dij * rd (rdRow b.mesh_neighbor_sfc i) n /
                  (rd b.mesh_vol j * rd (rdRow b.mesh_neighbor_dst i) n))) }) b) b)
    { b with
      mesh_kd_out := List.replicate b.n_meshes []
      mesh_kd_in := List.replicate b.n_meshes [] }

/-- Method `DiffusionRateDifference` of the graph. -/
def DiffusionRateDifference (b : SimulationAlgorithmGraphBase)
    (mesh_index species_index direction : Nat) : ℚ :=
  rd b.mesh_x (mesh_index * b.n_species + species_index) *
      rd (rdRow b.mesh_kd_out mesh_index)
        (species_index * rd b.mesh_neighbor_n mesh_index + direction) -
    rd b.mesh_x (rd (rdRow b.mesh_neighbor_index mesh_index) direction * b.n_species +
        species_index) *
      rd (rdRow b.mesh_kd_in mesh_index)
        (species_index * rd b.mesh_neighbor_n mesh_index + direction)

/-- Method `DiffusionProp` of the graph. -/
def DiffusionProp (b : SimulationAlgorithmGraphBase) (mesh_index species_index direction : Nat) :
    ℚ :=
  rd b.mesh_x (mesh_index * b.n_species + species_index) *
    rd (rdRow b.mesh_kd_out mesh_index)
      (species_index * rd b.mesh_neighbor_n mesh_index + direction)

end SimulationAlgorithmGraphBase

/-! ## EulerGraph.hpp -/

/-- Class `EulerGraph`. -/
structure EulerGraph extends SimulationAlgorithmGraphBase where
  mesh_dxdt : List ℚ

namespace EulerGraph

/-- Method `Compute_dxdt`. -/
def Compute_dxdt (m : Libm) (e : EulerGraph) : EulerGraph :=
  { e with
    mesh_dxdt :=
      forLoop e.n_meshes (fun i mesh_dxdt =>
        let rr := forLoop e.n_reactions
          (fun r rr => wr rr r (e.toSimulationAlgorithmBase.ReactionRate m i r))
          (List.replicate e.n_reactions 0)
        forLoop e.n_species (fun s mesh_dxdt =>
          let mesh_dxdt := wr mesh_dxdt (i * e.n_species + s) 0
          if rd e.mesh_chstt (i * e.n_species + s) ≠ 0 then mesh_dxdt
          else
            let mesh_dxdt := forLoop e.n_reactions (fun r mesh_dxdt =>
              wr mesh_dxdt (i * e.n_species + s)
                (rd mesh_dxdt (i * e.n_species + s) + rd e.sto (s * e.n_reactions + r) * rd rr r))
              mesh_dxdt
            forLoop (rd e.mesh_neighbor_n i) (fun n mesh_dxdt =>
              wr mesh_dxdt (i * e.n_species + s)
                (rd mesh_dxdt (i * e.n_species + s) -
                  e.toSimulationAlgorithmGraphBase.DiffusionRateDifference i s n)) mesh_dxdt)
          mesh_dxdt)
        e.mesh_dxdt }

/-- Method `Apply_dxdt`. -/
def Apply_dxdt (e : EulerGraph) : EulerGraph :=
  { e with
    mesh_x :=
      forLoop e.n_meshes (fun i mesh_x =>
        forLoop e.n_species (fun j mesh_x =>
          wr mesh_x (i * e.n_species + j)
            (rd mesh_x (i * e.n_species + j) + rd e.mesh_dxdt (i * e.n_species + j) * e.dt))
          mesh_x)
        e.mesh_x }

/-- Method `AlgorithmSpecificInit`. -/
def AlgorithmSpecificInit (e : EulerGraph) : EulerGraph :=
  { e with mesh_dxdt := resize e.mesh_dxdt (e.n_species * e.n_meshes) }

/-- Method `Iterate`: the returned flag and the state after the call. -/
def Iterate (m : Libm) (e : EulerGraph) : Bool × EulerGraph :=
  let e := { e with sampling_done_this_iteration := false }
  if e.complete then (false, e)
  else
    let e := (e.Compute_dxdt m).Apply_dxdt
    let e := { e with t := e.t + e.dt }
    let e := { e with
      toSimulationAlgorithmBase := e.toSimulationAlgorithmBase.SamplingStep.CheckTMax }
    (!e.complete, e)

end EulerGraph

/-! ## GillespieGraph.hpp -/

/-- Class `GillespieGraph`. -/
structure GillespieGraph extends SimulationAlgorithmGraphBase where
  mesh_ar : List ℚ
  mesh_ad : List (List ℚ)
  mesh_a0r : List ℚ
  mesh_a0d : List ℚ
  a0 : ℚ

namespace GillespieGraph

/-- Method `ComputePropensities`.  The loops change the propensity tables
only; what they read of the rest of the object is read from `g`. -/
def ComputePropensities (g : GillespieGraph) : GillespieGraph :=
  forLoop g.n_meshes (fun i st =>
    let st := { st with mesh_a0d := wr st.mesh_a0d i 0 }
    let st := { st with mesh_a0r := wr st.mesh_a0r i 0 }
    let st := forLoop g.n_reactions (fun r st =>
      let st := { st with
        mesh_ar := wr st.mesh_ar (i * g.n_reactions + r)
          (g.toSimulationAlgorithmBase.ReactionProp i r) }
      let st := { st with
        mesh_a0r := wr st.mesh_a0r i (rd st.mesh_a0r i + rd st.mesh_ar (i * g.n_reactions + r)) }
      { st with a0 := st.a0 + rd st.mesh_ar (i * g.n_reactions + r) }) st
    forLoop g.n_species (fun s st =>
      forLoop (rd g.mesh_neighbor_n i) (fun n st =>
        let st := { st with
          mesh_ad :=
            wr st.mesh_ad i
              (wr (rdRow st.mesh_ad i) (s * rd g.mesh_neighbor_n i + n)
                (g.toSimulationAlgorithmGraphBase.DiffusionProp i s n)) }
        let st := { st with
          mesh_a0d := wr st.mesh_a0d i
            (rd st.mesh_a0d i + rd (rdRow st.mesh_ad i) (s * rd g.mesh_neighbor_n i + n)) }
        { st with a0 := st.a0 + rd (rdRow st.mesh_ad i) (s * rd g.mesh_neighbor_n i + n) }) st) st)
    { g with a0 := 0 }

/-- Method `ApplyReaction` of the graph kernel. -/
def ApplyReaction (g : GillespieGraph) (mesh_index reaction_index : Nat) : GillespieGraph :=
  { g with
    mesh_x :=
      forLoop g.n_species (fun s mesh_x =>
        if ¬ (rd g.mesh_chstt (mesh_index * g.n_species + s) ≠ 0) then
          wr mesh_x (mesh_index * g.n_species + s)
            (rd mesh_x (mesh_index * g.n_species + s) +
              rd g.sto (s * g.n_reactions + reaction_index))
        else mesh_x)
        g.mesh_x }

/-- Method `ApplyDiffusion` of the graph kernel. -/
def ApplyDiffusion (g : GillespieGraph) (mesh_index species_index direction : Nat) :
    GillespieGraph :=
  let j := rd (rdRow g.mesh_neighbor_index mesh_index) direction
  let g :=
    if ¬ (rd g.mesh_chstt (mesh_index * g.n_species + species_index) ≠ 0) then
      { g with
        mesh_x := wr g.mesh_x (mesh_index * g.n_species + species_index)
          (rd g.mesh_x (mesh_index * g.n_species + species_index) - 1) }
    else g
  if ¬ (rd g.mesh_chstt (j * g.n_species + species_index) ≠ 0) then
    { g with
      mesh_x := wr g.mesh_x (j * g.n_species + species_index)
        (rd g.mesh_x (j * g.n_species + species_index) + 1) }
  else g

/-- The loop over reactions of `DrawAndApplyEvent`, on the reactions still to
visit. -/
def walkReactions (g : GillespieGraph) (i : Nat) (r2 : ℚ) : List Nat → ℚ → GillespieGraph
  | [], _ => g
  | j :: rest, a_cumul =>
    let a_cumul := a_cumul + rd g.mesh_ar (i * g.n_reactions + j)
    if r2 < a_cumul then g.ApplyReaction i j else walkReactions g i r2 rest a_cumul

/-- The loop over neighbours of `DrawAndApplyEvent` for species `j`, on the
neighbours still to visit; the result is the state, `a_cumul` and
`diff_is_done`. -/
def walkDirections (g : GillespieGraph) (i j : Nat) (r2 : ℚ) :
    List Nat → ℚ → GillespieGraph × ℚ × Bool
  | [], a_cumul => (g, a_cumul, false)
  | n :: rest, a_cumul =>
    let a_cumul := a_cumul + rd (rdRow g.mesh_ad i) (j * rd g.mesh_neighbor_n i + n)
    if r2 < a_cumul then (g.ApplyDiffusion i j n, a_cumul, true)
    else walkDirections g i j r2 rest a_cumul

/-- The loop over species of `DrawAndApplyEvent`, on the species still to
visit. -/
def walkSpecies (g : GillespieGraph) (i : Nat) (r2 : ℚ) : List Nat → ℚ → GillespieGraph
  | [], _ => g
  | j :: rest, a_cumul =>
    let p := walkDirections g i j r2 (List.range (rd g.mesh_neighbor_n i)) a_cumul
    if p.2.2 then p.1 else walkSpecies g i r2 rest p.2.1

/-- The loop over meshes of `DrawAndApplyEvent`, on the meshes still to visit. -/
def walkMeshes (g : GillespieGraph) (r : ℚ) : List Nat → ℚ → GillespieGraph
  | [], _ => g
  | i :: rest, a0_cumul =>
    if r < a0_cumul + rd g.mesh_a0r i then
      walkReactions g i (r - a0_cumul) (List.range g.n_reactions) 0
    else
      let a0_cumul := a0_cumul + rd g.mesh_a0r i
      if r < a0_cumul + rd g.mesh_a0d i then
        walkSpecies g i (r - a0_cumul) (List.range g.n_species) 0
      else walkMeshes g r rest (a0_cumul + rd g.mesh_a0d i)

/-- Method `DrawAndApplyEvent`. -/
def DrawAndApplyEvent (g : GillespieGraph) : GillespieGraph :=
  let r := g.rng.uniform g.rng.pos * g.a0
  let g := { g with rng := g.rng.advance }
  walkMeshes g r (List.range g.n_meshes) 0

/-- Method `AlgorithmSpecificInit`. -/
def AlgorithmSpecificInit (g : GillespieGraph) : GillespieGraph :=
  let g := { g with
    mesh_ar := resize g.mesh_ar (g.n_reactions * g.n_meshes)
    mesh_ad := resizeD g.mesh_ad g.n_meshes [] }
  let g := forLoop g.n_meshes (fun i g =>
    { g with
      mesh_ad := wr g.mesh_ad i (resize (rdRow g.mesh_ad i) (rd g.mesh_neighbor_n i * g.n_species)) })
    g
  { g with
    mesh_a0r := resize g.mesh_a0r g.n_meshes
    mesh_a0d := resize g.mesh_a0d g.n_meshes }

/-- Method `Iterate`: the returned flag and the state after the call. -/
def Iterate (m : Libm) (g : GillespieGraph) : Bool × GillespieGraph :=
  let g := { g with sampling_done_this_iteration := false }
  if g.complete then (false, g)
  else
    let g := g.ComputePropensities
    if g.a0 = 0 then
      let g := { g with toSimulationAlgorithmBase := g.toSimulationAlgorithmBase.FlagAsComplete }
      (!g.complete, g)
    else
      let g := g.DrawAndApplyEvent
      let g := { g with dt := m.log (1 / g.rng.uniform g.rng.pos) / g.a0, rng := g.rng.advance }
      let g := { g with t := g.t + g.dt }
      let g := { g with
        toSimulationAlgorithmBase := g.toSimulationAlgorithmBase.SamplingStep.CheckTMax }
      (!g.complete, g)

end GillespieGraph

/-! ## TauLeapGraph.hpp -/

/-- Class `TauLeapGraph`. -/
structure TauLeapGraph extends SimulationAlgorithmGraphBase where
  mesh_nr : List Int
  mesh_nd : List (List Int)

namespace TauLeapGraph

/-- Method `Compute_nevt`.  The loops change the event counts and the
generator only; what they read of the rest of the object is read from `e`. -/
def Compute_nevt (e : TauLeapGraph) : TauLeapGraph :=
  forLoop e.n_meshes (fun i st =>
    let st := forLoop e.n_reactions (fun r st =>
      let p := SimulationAlgorithmBase.Poisson st.rng
        (e.toSimulationAlgorithmBase.ReactionProp i r * e.dt)
      { st with mesh_nr := wr st.mesh_nr (i * e.n_reactions + r) p.1, rng := p.2 }) st
    forLoop e.n_species (fun s st =>
      forLoop (rd e.mesh_neighbor_n i) (fun n st =>
        let p := SimulationAlgorithmBase.Poisson st.rng
          (e.toSimulationAlgorithmGraphBase.DiffusionProp i s n * e.dt)
        { st with
          mesh_nd := wr st.mesh_nd i (wr (rdRow st.mesh_nd i) (s * rd e.mesh_neighbor_n i + n) p.1)
          rng := p.2 }) st) st) e

/-- Method `Apply_nevt`. -/
def Apply_nevt (e : TauLeapGraph) : TauLeapGraph :=
  { e with
    mesh_x :=
      forLoop e.n_meshes (fun i mesh_x =>
        let mesh_x := forLoop e.n_reactions (fun r mesh_x =>
          forLoop e.n_species (fun j mesh_x =>
            if rd e.mesh_chstt (i * e.n_species + j) ≠ 0 then mesh_x
            else
              wr mesh_x (i * e.n_species + j)
                (rd mesh_x (i * e.n_species + j) +
                  rd e.sto (j * e.n_reactions + r) * ((rd e.mesh_nr (i * e.n_reactions + r) : Int) : ℚ)))
            mesh_x) mesh_x
        forLoop e.n_species (fun s mesh_x =>
          forLoop (rd e.mesh_neighbor_n i) (fun n mesh_x =>
            if rd (rdRow e.mesh_nd i) (s * rd e.mesh_neighbor_n i + n) = 0 then mesh_x
            else
              let mesh_x :=
                if ¬ (rd e.mesh_chstt (i * e.n_species + s) ≠ 0) then
                  wr mesh_x (i * e.n_species + s)
                    (rd mesh_x (i * e.n_species + s) -
                      ((rd (rdRow e.mesh_nd i) (s * rd e.mesh_neighbor_n i + n) : Int) : ℚ))
                else mesh_x
              let j := rd (rdRow e.mesh_neighbor_index i) n
              if ¬ (rd e.mesh_chstt (j * e.n_species + s) ≠ 0) then
                wr mesh_x (j * e.n_species + s)
                  (rd mesh_x (j * e.n_species + s) +
                    ((rd (rdRow e.mesh_nd i) (s * rd e.mesh_neighbor_n i + n) : Int) : ℚ))
              else mesh_x) mesh_x) mesh_x)
        e.mesh_x }

/-- Method `AlgorithmSpecificInit`. -/
def AlgorithmSpecificInit (e : TauLeapGraph) : TauLeapGraph :=
  let e := { e with
    mesh_nr := resize e.mesh_nr (e.n_reactions * e.n_meshes)
    mesh_nd := resizeD e.mesh_nd e.n_meshes [] }
  forLoop e.n_meshes (fun i e =>
    { e with
      mesh_nd := wr e.mesh_nd i (resize (rdRow e.mesh_nd i) (rd e.mesh_neighbor_n i * e.n_species)) })
    e

/-- Method `Iterate`: the returned flag and the state after the call. -/
def Iterate (e : TauLeapGraph) : Bool × TauLeapGraph :=
  let e := { e with sampling_done_this_iteration := false }
  if e.complete then (false, e)
  else
    let e := e.Compute_nevt.Apply_nevt
    let e := { e with t := e.t + e.dt }
    let e := { e with
      toSimulationAlgorithmBase := e.toSimulationAlgorithmBase.SamplingStep.CheckTMax }
    (!e.complete, e)

end TauLeapGraph

/-! ## Init of the two base classes

`Init` is a method of the base class that calls the virtual
`AlgorithmSpecificInit`; `Init` below is the part of it before that call, and
`GridAlgo.Init` / `GraphAlgo.Init` complete it.  The generator built from
`seed` is passed in place of `seed`. -/

namespace SimulationAlgorithm3DBase

/-- Method `Init` of `SimulationAlgorithm3DBase`, up to the call of
`AlgorithmSpecificInit`. -/
def Init (m : Libm) (b : SimulationAlgorithm3DBase) (w h d n_species n_reactions n_env : Nat)
    (mesh_x0 : List ℚ) (mesh_chstt mesh_env : List Int) (mesh_vol : ℚ)
    (k sub sto r_env D : List ℚ) (boundary_conditions : List Int) (sample_n : Nat)
    (t_samples : List ℚ) (sampling_policy_code : Int) (sampling_interval t_max time_step : ℚ)
    (seed : Rng) : SimulationAlgorithm3DBase :=
  let b := { b with boundary_conditions := boundary_conditions, w := w, h := h, d := d }
  let b := { b with delta_i := [1, -1, (w : Int), -(w : Int), ((w * h : Nat) : Int), -((w * h : Nat) : Int)] }
  let b := { b with mesh_neighbors := BuildMeshNeighbors b.w b.h b.d b.boundary_conditions }
  let b := { b with opposed_direction := [1, 0, 3, 2, 5, 4] }
  let b := { b with
    n_meshes := w * h * d
    n_species := n_species
    n_reactions := n_reactions
    n_env := n_env
    mesh_x := mesh_x0
    mesh_chstt := mesh_chstt
    mesh_env := mesh_env
    mesh_vol := mesh_vol
    mesh_edge := m.pow mesh_vol (1 / 3)
    sub := sub
    sto := sto
    n_samples := sample_n
    t_samples := t_samples
    sample_pos := 0
    sampled_mesh_x := []
    sampled_t := []
    sampling_policy_code := sampling_policy_code
    sampling_interval := sampling_interval
    t_max := t_max
    sampling_done_this_iteration := false
    last_tsi_ratio := -1
    t := 0
    dt := time_step
    complete := false }
  let b := { b with
    toSimulationAlgorithmBase :=
      b.toSimulationAlgorithmBase.Build_mesh_kr m (fun _ => b.mesh_vol) k r_env }
  let b := b.Build_mesh_kd D
  { b with rng := seed }

end SimulationAlgorithm3DBase

namespace SimulationAlgorithmGraphBase

/-- Method `Init` of `SimulationAlgorithmGraphBase`, up to the call of
`AlgorithmSpecificInit`. -/
def Init (m : Libm) (b : SimulationAlgorithmGraphBase) (n_nodes n_species n_reactions n_env : Nat)
    (n_edges : Nat) (edge_i edge_j : List Nat) (edge_sfc edge_dst : List ℚ)
    (mesh_x0 : List ℚ) (mesh_chstt mesh_env : List Int) (mesh_vol : List ℚ)
    (k sub sto r_env D : List ℚ) (sample_n : Nat)
    (t_samples : List ℚ) (sampling_policy_code : Int) (sampling_interval t_max time_step : ℚ)
    (seed : Rng) : SimulationAlgorithmGraphBase :=
  let b := { b with n_meshes := n_nodes }
  let b := b.SetNeighbors n_edges edge_i edge_j edge_sfc edge_dst
  let b := { b with
    n_species := n_species
    n_reactions := n_reactions
    n_env := n_env
    mesh_x := mesh_x0
    mesh_chstt := mesh_chstt
    mesh_env := mesh_env
    mesh_vol := mesh_vol
    sub := sub
    sto := sto
    n_samples := sample_n
    t_samples := t_samples
    sample_pos := 0
    sampled_mesh_x := []
    sampled_t := []
    sampling_policy_code := sampling_policy_code
    sampling_interval := sampling_interval
    t_max := t_max
    sampling_done_this_iteration := false
    last_tsi_ratio := -1
    t := 0
    dt := time_step
    complete := false }
  let b := { b with
    toSimulationAlgorithmBase :=
      b.toSimulationAlgorithmBase.Build_mesh_kr m (fun i => rd b.mesh_vol i) k r_env }
  let b := b.Build_mesh_kd m D
  { b with rng := seed }

end SimulationAlgorithmGraphBase

/-- A default-constructed generator (overwritten by `Init`). -/
def Rng.default : Rng :=
  { pos := 0, uniform := fun _ => 0, poisson := fun _ _ => 0, normal := fun _ _ => 0 }

/-- Shared members of a default-constructed object: the vectors are empty; the
scalars, which C++ leaves indeterminate and `Init` overwrites, are zero. -/
def SimulationAlgorithmBase.new : SimulationAlgorithmBase :=
  { n_meshes := 0, n_species := 0, n_reactions := 0, n_env := 0, mesh_x := [], mesh_chstt := [],
    mesh_env := [], sto := [], sub := [], mesh_kr := [], n_samples := 0, sample_pos := 0,
    t_samples := [], sampled_mesh_x := [], sampled_t := [], sampling_policy_code := 0,
    sampling_interval := 0, t_max := 0, sampling_done_this_iteration := false,
    last_tsi_ratio := 0, t := 0, dt := 0, complete := false, rng := Rng.default }

/-- A default-constructed `SimulationAlgorithm3DBase`. -/
def SimulationAlgorithm3DBase.new : SimulationAlgorithm3DBase :=
  { SimulationAlgorithmBase.new with
    w := 0, h := 0, d := 0, delta_i := [], opposed_direction := [], mesh_neighbors := [],
    mesh_vol := 0, mesh_edge := 0, mesh_kd := [], boundary_conditions := [] }

/-- A default-constructed `SimulationAlgorithmGraphBase`. -/
def SimulationAlgorithmGraphBase.new : SimulationAlgorithmGraphBase :=
  { SimulationAlgorithmBase.new with
    n_edges := 0, mesh_vol := [], mesh_neighbor_n := [], mesh_neighbor_index := [],
    mesh_neighbor_sfc := [], mesh_neighbor_dst := [], mesh_kd_out := [], mesh_kd_in := [] }

/-- Expression `new Euler3D()`. -/
def Euler3D.new : Euler3D := { SimulationAlgorithm3DBase.new with mesh_dxdt := [] }

/-- Expression `new Gillespie3D()`. -/
def Gillespie3D.new : Gillespie3D :=
  { SimulationAlgorithm3DBase.new with
    mesh_ar := [], mesh_ad := [], mesh_a0r := [], mesh_a0d := [], a0 := 0 }

/-- Expression `new TauLeap3D()`. -/
def TauLeap3D.new : TauLeap3D := { SimulationAlgorithm3DBase.new with mesh_nr := [], mesh_nd := [] }

/-- Expression `new EulerGraph()`. -/
def EulerGraph.new : EulerGraph := { SimulationAlgorithmGraphBase.new with mesh_dxdt := [] }

/-- Expression `new GillespieGraph()`. -/
def GillespieGraph.new : GillespieGraph :=
  { SimulationAlgorithmGraphBase.new with
    mesh_ar := [], mesh_ad := [], mesh_a0r := [], mesh_a0d := [], a0 := 0 }

/-- Expression `new TauLeapGraph()`. -/
def TauLeapGraph.new : TauLeapGraph :=
  { SimulationAlgorithmGraphBase.new with mesh_nr := [], mesh_nd := [] }

/-! ## Objects behind the base-class pointers -/

/-- What a `SimulationAlgorithm3DBase *` points to. -/
inductive GridAlgo where
  | gillespie (g : Gillespie3D)
  | tauleap (e : TauLeap3D)
  | euler (e : Euler3D)

/-- What a `SimulationAlgorithmGraphBase *` points to. -/
inductive GraphAlgo where
  | gillespie (g : GillespieGraph)
  | tauleap (e : TauLeapGraph)
  | euler (e : EulerGraph)

namespace GridAlgo

/-- The base-class part of the object. -/
def base : GridAlgo → SimulationAlgorithm3DBase
  | gillespie g => g.toSimulationAlgorithm3DBase
  | tauleap e => e.toSimulationAlgorithm3DBase
  | euler e => e.toSimulationAlgorithm3DBase

/-- The object with its base-class part replaced. -/
def withBase : GridAlgo → SimulationAlgorithm3DBase → GridAlgo
  | gillespie g, b => gillespie { g with toSimulationAlgorithm3DBase := b }
  | tauleap e, b => tauleap { e with toSimulationAlgorithm3DBase := b }
  | euler e, b => euler { e with toSimulationAlgorithm3DBase := b }

/-- Virtual method `AlgorithmSpecificInit`. -/
def AlgorithmSpecificInit : GridAlgo → GridAlgo
  | gillespie g => gillespie g.AlgorithmSpecificInit
  | tauleap e => tauleap e.AlgorithmSpecificInit
  | euler e => euler e.AlgorithmSpecificInit

/-- Virtual method `Iterate`. -/
def Iterate (m : Libm) : GridAlgo → Bool × GridAlgo
  | gillespie g => ((g.Iterate m).1, gillespie (g.Iterate m).2)
  | tauleap e => (e.Iterate.1, tauleap e.Iterate.2)
  | euler e => ((e.Iterate m).1, euler (e.Iterate m).2)

/-- Method `Sample` on the object. -/
def Sample (a : GridAlgo) : GridAlgo :=
  a.withBase { a.base with toSimulationAlgorithmBase := a.base.toSimulationAlgorithmBase.Sample }

/-- Method `Init` on the object. -/
def Init (m : Libm) (a : GridAlgo) (w h d n_species n_reactions n_env : Nat)
    (mesh_x0 : List ℚ) (mesh_chstt mesh_env : List Int) (mesh_vol : ℚ)
    (k sub sto r_env D : List ℚ) (boundary_conditions : List Int) (sample_n : Nat)
    (t_samples : List ℚ) (sampling_policy_code : Int) (sampling_interval t_max time_step : ℚ)
    (seed : Rng) : GridAlgo :=
  let a := a.withBase (a.base.Init m w h d n_species n_reactions n_env mesh_x0 mesh_chstt mesh_env
    mesh_vol k sub sto r_env D boundary_conditions sample_n t_samples sampling_policy_code
    sampling_interval t_max time_step seed)
  let a := a.AlgorithmSpecificInit
  a.withBase { a.base with
    toSimulationAlgorithmBase := a.base.toSimulationAlgorithmBase.SamplingStep }

end GridAlgo

namespace GraphAlgo

/-- The base-class part of the object. -/
def base : GraphAlgo → SimulationAlgorithmGraphBase
  | gillespie g => g.toSimulationAlgorithmGraphBase
  | tauleap e => e.toSimulationAlgorithmGraphBase
  | euler e => e.toSimulationAlgorithmGraphBase

/-- The object with its base-class part replaced. -/
def withBase : GraphAlgo → SimulationAlgorithmGraphBase → GraphAlgo
  | gillespie g, b => gillespie { g with toSimulationAlgorithmGraphBase := b }
  | tauleap e, b => tauleap { e with toSimulationAlgorithmGraphBase := b }
  | euler e, b => euler { e with toSimulationAlgorithmGraphBase := b }

/-- Virtual method `AlgorithmSpecificInit`. -/
def AlgorithmSpecificInit : GraphAlgo → GraphAlgo
  | gillespie g => gillespie g.AlgorithmSpecificInit
  | tauleap e => tauleap e.AlgorithmSpecificInit
  | euler e => euler e.AlgorithmSpecificInit

/-- Virtual method `Iterate`. -/
def Iterate (m : Libm) : GraphAlgo → Bool × GraphAlgo
  | gillespie g => ((g.Iterate m).1, gillespie (g.Iterate m).2)
  | tauleap e => (e.Iterate.1, tauleap e.Iterate.2)
  | euler e => ((e.Iterate m).1, euler (e.Iterate m).2)

/-- Method `Sample` on the object. -/
def Sample (a : GraphAlgo) : GraphAlgo :=
  a.withBase { a.base with toSimulationAlgorithmBase := a.base.toSimulationAlgorithmBase.Sample }

/-- Method `Init` on the object. -/
def Init (m : Libm) (a : GraphAlgo) (n_nodes n_species n_reactions n_env : Nat)
    (n_edges : Nat) (edge_i edge_j : List Nat) (edge_sfc edge_dst : List ℚ)
    (mesh_x0 : List ℚ) (mesh_chstt mesh_env : List Int) (mesh_vol : List ℚ)
    (k sub sto r_env D : List ℚ) (sample_n : Nat)
    (t_samples : List ℚ) (sampling_policy_code : Int) (sampling_interval t_max time_step : ℚ)
    (seed : Rng) : GraphAlgo :=
  let a := a.withBase (a.base.Init m n_nodes n_species n_reactions n_env n_edges edge_i edge_j
    edge_sfc edge_dst mesh_x0 mesh_chstt mesh_env mesh_vol k sub sto r_env D sample_n t_samples
    sampling_policy_code sampling_interval t_max time_step seed)
  let a := a.AlgorithmSpecificInit
  a.withBase { a.base with
    toSimulationAlgorithmBase := a.base.toSimulationAlgorithmBase.SamplingStep }

end GraphAlgo

/-! ## SampleOnTSample: the reads of `t_samples` -/

/-- The indices at which the loop of `SampleOnTSample` reads `t_samples`, in
order.  Every test of the condition
`t>=t_samples[sample_pos] && sample_pos<n_samples` evaluates its left operand
first, and so reads `t_samples[sample_pos]`, the test that leaves the loop
included.  The rounds are counted as in `SampleOnTSampleLoop`. -/
def SimulationAlgorithmBase.SampleOnTSampleReads : Nat → SimulationAlgorithmBase → List Nat
  | 0, b => [b.sample_pos]
  | k + 1, b =>
    b.sample_pos ::
      (if b.t ≥ rd b.t_samples b.sample_pos ∧ b.sample_pos < b.n_samples then
        SampleOnTSampleReads k { b.Sample with sample_pos := b.sample_pos + 1 }
      else [])

/-- The indices at which one call of `SampleOnTSample` reads `t_samples`. -/
def SimulationAlgorithmBase.tSampleReads (b : SimulationAlgorithmBase) : List Nat :=
  SimulationAlgorithmBase.SampleOnTSampleReads (b.n_samples - b.sample_pos) b

/-- The indices at which one call of `SamplingStep` reads `t_samples`: those of
`SampleOnTSample` under the policy `on_t_sample` (case `0` of the `switch`),
none in the other cases. -/
def SimulationAlgorithmBase.samplingStepReads (b : SimulationAlgorithmBase) : List Nat :=
  if b.sampling_policy_code = 0 then b.tSampleReads else []

/-- Whether every read of `t_samples` made by one call of `SamplingStep` is
inside the vector. -/
def SimulationAlgorithmBase.samplingStepInBounds (b : SimulationAlgorithmBase) : Bool :=
  b.samplingStepReads.all (fun k => decide (k < b.t_samples.length))

/-- Method `Init` on a grid object up to its last statement: the object on
which `Init` calls `SamplingStep`. -/
def GridAlgo.InitSetup (m : Libm) (a : GridAlgo) (w h d n_species n_reactions n_env : Nat)
    (mesh_x0 : List ℚ) (mesh_chstt mesh_env : List Int) (mesh_vol : ℚ)
    (k sub sto r_env D : List ℚ) (boundary_conditions : List Int) (sample_n : Nat)
    (t_samples : List ℚ) (sampling_policy_code : Int) (sampling_interval t_max time_step : ℚ)
    (seed : Rng) : GridAlgo :=
  (a.withBase (a.base.Init m w h d n_species n_reactions n_env mesh_x0 mesh_chstt mesh_env
    mesh_vol k sub sto r_env D boundary_conditions sample_n t_samples sampling_policy_code
    sampling_interval t_max time_step seed)).AlgorithmSpecificInit

/-- The call of `Init` on a grid object as a call that may fail.  The
`SamplingStep` that ends `Init` indexes `t_samples` with `operator[]`; a read
outside the vector is undefined in the source (with no target the vector is
empty and the read is a null read), and the call is then `none`. -/
def GridAlgo.InitChecked (m : Libm) (a : GridAlgo) (w h d n_species n_reactions n_env : Nat)
    (mesh_x0 : List ℚ) (mesh_chstt mesh_env : List Int) (mesh_vol : ℚ)
    (k sub sto r_env D : List ℚ) (boundary_conditions : List Int) (sample_n : Nat)
    (t_samples : List ℚ) (sampling_policy_code : Int) (sampling_interval t_max time_step : ℚ)
    (seed : Rng) : Option GridAlgo :=
  if (a.InitSetup m w h d n_species n_reactions n_env mesh_x0 mesh_chstt mesh_env mesh_vol k sub
      sto r_env D boundary_conditions sample_n t_samples sampling_policy_code sampling_interval
      t_max time_step seed).base.toSimulationAlgorithmBase.samplingStepInBounds then
    some (a.Init m w h d n_species n_reactions n_env mesh_x0 mesh_chstt mesh_env mesh_vol k sub
      sto r_env D boundary_conditions sample_n t_samples sampling_policy_code sampling_interval
      t_max time_step seed)
  else none

/-- Method `Init` on a graph object up to its last statement: the object on
which `Init` calls `SamplingStep`. -/
def GraphAlgo.InitSetup (m : Libm) (a : GraphAlgo) (n_nodes n_species n_reactions n_env : Nat)
    (n_edges : Nat) (edge_i edge_j : List Nat) (edge_sfc edge_dst : List ℚ)
    (mesh_x0 : List ℚ) (mesh_chstt mesh_env : List Int) (mesh_vol : List ℚ)
    (k sub sto r_env D : List ℚ) (sample_n : Nat)
    (t_samples : List ℚ) (sampling_policy_code : Int) (sampling_interval t_max time_step : ℚ)
    (seed : Rng) : GraphAlgo :=
  (a.withBase (a.base.Init m n_nodes n_species n_reactions n_env n_edges edge_i edge_j
    edge_sfc edge_dst mesh_x0 mesh_chstt mesh_env mesh_vol k sub sto r_env D sample_n t_samples
    sampling_policy_code sampling_interval t_max time_step seed)).AlgorithmSpecificInit

/-- The call of `Init` on a graph object as a call that may fail: `none` when
the `SamplingStep` that ends `Init` reads `t_samples` outside the vector. -/
def GraphAlgo.InitChecked (m : Libm) (a : GraphAlgo) (n_nodes n_species n_reactions n_env : Nat)
    (n_edges : Nat) (edge_i edge_j : List Nat) (edge_sfc edge_dst : List ℚ)
    (mesh_x0 : List ℚ) (mesh_chstt mesh_env : List Int) (mesh_vol : List ℚ)
    (k sub sto r_env D : List ℚ) (sample_n : Nat)
    (t_samples : List ℚ) (sampling_policy_code : Int) (sampling_interval t_max time_step : ℚ)
    (seed : Rng) : Option GraphAlgo :=
  if (a.InitSetup m n_nodes n_species n_reactions n_env n_edges edge_i edge_j edge_sfc edge_dst
      mesh_x0 mesh_chstt mesh_env mesh_vol k sub sto r_env D sample_n t_samples
      sampling_policy_code sampling_interval t_max time_step
      seed).base.toSimulationAlgorithmBase.samplingStepInBounds then
    some (a.Init m n_nodes n_species n_reactions n_env n_edges edge_i edge_j edge_sfc edge_dst
      mesh_x0 mesh_chstt mesh_env mesh_vol k sub sto r_env D sample_n t_samples
      sampling_policy_code sampling_interval t_max time_step seed)
  else none

/-! ## engine.cpp: the session and its entry points -/

/-- Template `MkVec<T_out, T_in>`; `cast` is the `static_cast`. -/
def MkVec {α β : Type} [Zero α] [Zero β] (cast : α → β) (a : List α) (len : Nat) : List β :=
  forLoop len (fun i v => wr v i (cast (rd a i))) (List.replicate len 0)

/-- Template `SpeciesFirstToMeshFirstArray`. -/
def SpeciesFirstToMeshFirstArray {α : Type} [Zero α] (species_first_array : List α)
    (n_species n_meshes : Nat) : List α :=
  forLoop n_species (fun s mesh_first_array =>
    forLoop n_meshes (fun i mesh_first_array =>
      wr mesh_first_array (i * n_species + s) (rd species_first_array (s * n_meshes + i)))
      mesh_first_array)
    (List.replicate species_first_array.length 0)

/-- Function `CompareStr`. -/
def CompareStr (str1 str2 : String) : Bool := str1 == str2

/-- The globals of engine.cpp.  A pointer that was never assigned is `none`. -/
structure Session where
  global_grid_algo : Option GridAlgo
  global_graph_algo : Option GraphAlgo
  global_space_type : Int
  global_algo_freed : Bool

/-- The globals when the library is loaded. -/
def Session.initial : Session :=
  { global_grid_algo := none, global_graph_algo := none, global_space_type := 0,
    global_algo_freed := true }

/-- The `if / else if / else return 2` chain of one boundary string: the code
stored in `boundary_conditions`, or `none` for the `return`. -/
def boundaryCode (boundary_conditions_a : String) : Option Int :=
  if CompareStr boundary_conditions_a "reflecting" then some 0
  else if CompareStr boundary_conditions_a "periodical" then some 1
  else none

/-- The `if / else if / else return 3` chain of the sampling policy. -/
def samplingPolicyCode (sampling_policy : String) : Option Int :=
  if CompareStr sampling_policy "on_t_sample" then some 0
  else if CompareStr sampling_policy "on_iteration" then some 1
  else if CompareStr sampling_policy "on_interval" then some 2
  else if CompareStr sampling_policy "no_sampling" then some 3
  else none

/-- The `if / else if / else return 1` chain of `Initialize3D` that allocates
the kernel. -/
def newGridAlgo (option : String) : Option GridAlgo :=
  if CompareStr option "gillespie" then some (GridAlgo.gillespie Gillespie3D.new)
  else if CompareStr option "tauleap" then some (GridAlgo.tauleap TauLeap3D.new)
  else if CompareStr option "euler" then some (GridAlgo.euler Euler3D.new)
  else none

/-- The `if / else if / else return 1` chain of `InitializeGraph` that
allocates the kernel. -/
def newGraphAlgo (option : String) : Option GraphAlgo :=
  if CompareStr option "gillespie" then some (GraphAlgo.gillespie GillespieGraph.new)
  else if CompareStr option "tauleap" then some (GraphAlgo.tauleap TauLeapGraph.new)
  else if CompareStr option "euler" then some (GraphAlgo.euler EulerGraph.new)
  else none

/-- The initial `mesh_x` computed by `Initialize3D` and `InitializeGraph`;
`none` when `GenerateStochasticDistribution` is still running after `fuel`
rounds. -/
def initialMeshX (fuel : Nat) (option : String) (mesh_state : List ℚ) (n_meshes n_species : Nat)
    (seed : Rng) : Option (List ℚ) :=
  let is_stochastic := CompareStr option "tauleap" || CompareStr option "gillespie"
  if is_stochastic then
    GenerateStochasticDistribution fuel
      (SpeciesFirstToMeshFirstArray (MkVec (fun q : ℚ => q) mesh_state (n_meshes * n_species))
        n_species n_meshes)
      n_meshes n_species seed
  else
    some (SpeciesFirstToMeshFirstArray (MkVec (fun q : ℚ => q) mesh_state (n_meshes * n_species))
      n_species n_meshes)

/-- Function `Initialize3D`: the status and the globals after the call; `none`
when the call returns no status: it is still running after `fuel` rounds of a
correction loop, or the sampling pass of `Init` reads `t_samples` outside the
vector. -/
def Initialize3D (fuel : Nat) (m : Libm) (G : Session) (w h d n_species n_reactions n_env : Nat)
    (mesh_state : List ℚ) (mesh_chstt mesh_env : List Int) (mesh_vol : ℚ) (k : List ℚ)
    (sub sto r_env : List Int) (D : List ℚ)
    (boundary_conditions_x boundary_conditions_y boundary_conditions_z : String)
    (sample_n : Nat) (sample_t : List ℚ) (sampling_policy : String)
    (sampling_interval t_max time_step : ℚ) (seed : Rng) (option : String) :
    Option (Int × Session) :=
  let G := { G with global_space_type := 0 }
  let n_meshes := w * h * d
  match boundaryCode boundary_conditions_x with
  | none => some (2, G)
  | some bx =>
  match boundaryCode boundary_conditions_y with
  | none => some (2, G)
  | some b_y =>
  match boundaryCode boundary_conditions_z with
  | none => some (2, G)
  | some bz =>
  let boundary_conditions : List Int := [bx, b_y, bz]
  match samplingPolicyCode sampling_policy with
  | none => some (3, G)
  | some sampling_policy_code =>
  match newGridAlgo option with
  | none => some (1, G)
  | some algo =>
  let G := { G with global_grid_algo := some algo, global_algo_freed := false }
  match initialMeshX fuel option mesh_state n_meshes n_species seed with
  | none => none
  | some mesh_x =>
  match algo.InitChecked m w h d n_species n_reactions n_env mesh_x
    (SpeciesFirstToMeshFirstArray (MkVec (fun z : Int => z) mesh_chstt (n_meshes * n_species))
      n_species n_meshes)
    (MkVec (fun z : Int => z) mesh_env n_meshes)
    mesh_vol
    (MkVec (fun q : ℚ => q) k n_reactions)
    (MkVec (fun z : Int => (z : ℚ)) sub (n_species * n_reactions))
    (MkVec (fun z : Int => (z : ℚ)) sto (n_species * n_reactions))
    (MkVec (fun z : Int => (z : ℚ)) r_env (n_reactions * n_env))
    (MkVec (fun q : ℚ => q) D (n_species * n_env))
    boundary_conditions sample_n
    (MkVec (fun q : ℚ => q) sample_t sample_n)
    sampling_policy_code sampling_interval t_max time_step seed with
  | none => none
  | some algo => some (0, { G with global_grid_algo := some algo })

/-- Function `InitializeGraph`: the status and the globals after the call;
`none` when the call returns no status: it is still running after `fuel`
rounds of a correction loop, or the sampling pass of `Init` reads `t_samples`
outside the vector. -/
def InitializeGraph (fuel : Nat) (m : Libm) (G : Session) (n_nodes n_species n_reactions n_env : Nat)
    (n_edges : Nat) (edge_i edge_j : List Nat) (edge_sfc edge_dst : List ℚ)
    (mesh_state : List ℚ) (mesh_chstt mesh_env : List Int) (mesh_vol : List ℚ) (k : List ℚ)
    (sub sto r_env : List Int) (D : List ℚ)
    (sample_n : Nat) (sample_t : List ℚ) (sampling_policy : String)
    (sampling_interval t_max time_step : ℚ) (seed : Rng) (option : String) :
    Option (Int × Session) :=
  let G := { G with global_space_type := 1 }
  let n_meshes := n_nodes
  match samplingPolicyCode sampling_policy with
  | none => some (3, G)
  | some sampling_policy_code =>
  match newGraphAlgo option with
  | none => some (1, G)
  | some algo =>
  let G := { G with global_graph_algo := some algo, global_algo_freed := false }
  match initialMeshX fuel option mesh_state n_meshes n_species seed with
  | none => none
  | some mesh_x =>
  match algo.InitChecked m n_meshes n_species n_reactions n_env n_edges
    (MkVec (fun z : Nat => z) edge_i n_edges)
    (MkVec (fun z : Nat => z) edge_j n_edges)
    (MkVec (fun q : ℚ => q) edge_sfc n_edges)
    (MkVec (fun q : ℚ => q) edge_dst n_edges)
    mesh_x
    (SpeciesFirstToMeshFirstArray (MkVec (fun z : Int => z) mesh_chstt (n_meshes * n_species))
      n_species n_meshes)
    (MkVec (fun z : Int => z) mesh_env n_meshes)
    (MkVec (fun q : ℚ => q) mesh_vol n_meshes)
    (MkVec (fun q : ℚ => q) k n_reactions)
    (MkVec (fun z : Int => (z : ℚ)) sub (n_species * n_reactions))
    (MkVec (fun z : Int => (z : ℚ)) sto (n_species * n_reactions))
    (MkVec (fun z : Int => (z : ℚ)) r_env (n_reactions * n_env))
    (MkVec (fun q : ℚ => q) D (n_species * n_env))
    sample_n
    (MkVec (fun q : ℚ => q) sample_t sample_n)
    sampling_policy_code sampling_interval t_max time_step seed with
  | none => none
  | some algo => some (0, { G with global_graph_algo := some algo })

/-- The two loops of `GetState` that copy a mesh-major state into the
caller's species-major buffer. -/
def copyState (state_data_vec : List ℚ) (n_species n_meshes : Nat) (state_data : List ℚ) :
    List ℚ :=
  forLoop n_species (fun s state_data =>
    forLoop n_meshes (fun i state_data =>
      wr state_data (s * n_meshes + i) (rd state_data_vec (i * n_species + s))) state_data)
    state_data

/-- Function `GetState`: the status and the caller's buffer after the call;
`none` when the pointer it dereferences was never assigned. -/
def GetState (G : Session) (state_data : List ℚ) : Option (Int × List ℚ) :=
  if G.global_space_type = 0 then
    match G.global_grid_algo with
    | none => none
    | some a => some (0, copyState a.base.mesh_x a.base.n_species a.base.n_meshes state_data)
  else
    match G.global_graph_algo with
    | none => none
    | some a => some (0, copyState a.base.mesh_x a.base.n_species a.base.n_meshes state_data)

/-- Function `Iterate` of engine.cpp: the returned flag and the globals after
the call; `none` when the pointer it dereferences was never assigned. -/
def Iterate (m : Libm) (G : Session) : Option (Bool × Session) :=
  if G.global_space_type = 0 then
    match G.global_grid_algo with
    | none => none
    | some a => some ((a.Iterate m).1, { G with global_grid_algo := some (a.Iterate m).2 })
  else if G.global_space_type = 1 then
    match G.global_graph_algo with
    | none => none
    | some a => some ((a.Iterate m).1, { G with global_graph_algo := some (a.Iterate m).2 })
  else some (true, G)

/-- Function `Sample` of engine.cpp. -/
def Sample (G : Session) : Option (Int × Session) :=
  if G.global_space_type = 0 then
    match G.global_grid_algo with
    | none => none
    | some a => some (0, { G with global_grid_algo := some a.Sample })
  else
    match G.global_graph_algo with
    | none => none
    | some a => some (0, { G with global_graph_algo := some a.Sample })

/-- The pointer that a `delete` expression of `Finalize` is applied to. -/
inductive Deleted where
  | global_grid_algo
  | global_graph_algo

/-- Function `Finalize`: the status, the globals after the call (the function
assigns none of them) and the `delete` expressions that the call executes. -/
def Finalize (G : Session) : Int × Session × List Deleted :=
  if G.global_algo_freed then (0, G, [])
  else if G.global_space_type = 0 then (0, G, [Deleted.global_grid_algo])
  else (0, G, [Deleted.global_graph_algo])

/-- The three loops of `GetOutput` that copy the sampled states into the
caller's buffer. -/
def copyOutput (trajectory_data_vec : List (List ℚ)) (n_samples n_species n_meshes : Nat)
    (trajectory_data : List ℚ) : List ℚ :=
  forLoop n_samples (fun n trajectory_data =>
    forLoop n_species (fun s trajectory_data =>
      forLoop n_meshes (fun i trajectory_data =>
        wr trajectory_data (n * n_meshes * n_species + s * n_meshes + i)
          (rd (rdRow trajectory_data_vec n) (i * n_species + s))) trajectory_data)
      trajectory_data)
    trajectory_data

/-- Function `GetOutput`: the status and the caller's buffer after the call;
`none` when the pointer it dereferences was never assigned.  `NSamples()` is
the size of `sampled_t`. -/
def GetOutput (G : Session) (trajectory_data : List ℚ) : Option (Int × List ℚ) :=
  if G.global_space_type = 0 then
    match G.global_grid_algo with
    | none => none
    | some a =>
      some (0, copyOutput a.base.sampled_mesh_x a.base.sampled_t.length a.base.n_species
        a.base.n_meshes trajectory_data)
  else
    match G.global_graph_algo with
    | none => none
    | some a =>
      some (0, copyOutput a.base.sampled_mesh_x a.base.sampled_t.length a.base.n_species
        a.base.n_meshes trajectory_data)


/-! ## Sequences of calls made by the caller -/

/-- A call of the interface on a live session that may record a snapshot:
`Iterate` or `Sample`. -/
inductive Call where
  | iterate
  | sample

/-- The object after one call. -/
def GridAlgo.call (m : Libm) (c : Call) (a : GridAlgo) : GridAlgo :=
  match c with
  | Call.iterate => (a.Iterate m).2
  | Call.sample => a.Sample

/-- The object after a sequence of calls. -/
def GridAlgo.run (m : Libm) (a : GridAlgo) (calls : List Call) : GridAlgo :=
  calls.foldl (fun a c => a.call m c) a

/-- The object after one call. -/
def GraphAlgo.call (m : Libm) (c : Call) (a : GraphAlgo) : GraphAlgo :=
  match c with
  | Call.iterate => (a.Iterate m).2
  | Call.sample => a.Sample

/-- The object after a sequence of calls. -/
def GraphAlgo.run (m : Libm) (a : GraphAlgo) (calls : List Call) : GraphAlgo :=
  calls.foldl (fun a c => a.call m c) a

/-! ## Scenarios used to exercise the statements -/

/-- A math library for scenarios whose volumes are all `1`: `pow 1 y = 1` is
exact there; `log` is replaced by the rational function `x - 1`. -/
def scenarioLibm : Libm := { pow := fun x _ => x, log := fun x => x - 1 }

/-- A generator for the scenarios: uniform draws `1/2`, Poisson draws cycling
through `0, 1, 2` (and `0` for mean `0`), normal draws equal to their mean. -/
def scenarioRng : Rng :=
  { pos := 0, uniform := fun _ => 1 / 2, poisson := fun k mean => if mean = 0 then 0 else k % 3,
    normal := fun _ mean => mean }

/-- Scenario S5 on the grid: 2x1x1 reflecting grid, one species, `x0 = [100, 0]`,
mesh 0 chemostatted, `D = 1`, one reaction `A -> 0` with `k = 1`, `dt = 1/10`,
`t_max = 10`, sampling on every iteration. -/
def chemostatGrid : SimulationAlgorithm3DBase :=
  SimulationAlgorithm3DBase.new.Init scenarioLibm 2 1 1 1 1 1 [100, 0] [1, 0] [0, 0] 1 [1] [1]
    [-1] [1] [1] [0, 0, 0] 0 [] 1 1 10 (1 / 10) scenarioRng

/-- Scenario S5 on the graph: the same two meshes joined by one edge of
surface `1` and distance `1`. -/
def chemostatGraph : SimulationAlgorithmGraphBase :=
  SimulationAlgorithmGraphBase.new.Init scenarioLibm 2 1 1 1 1 [0] [1] [1] [1] [100, 0] [1, 0]
    [0, 0] [1, 1] [1] [1] [-1] [1] [1] 0 [] 1 1 10 (1 / 10) scenarioRng

/-- Scenario S5 under `Euler3D`. -/
def chemostatEuler3D : Euler3D :=
  Euler3D.AlgorithmSpecificInit { chemostatGrid with mesh_dxdt := [] }

/-- Scenario S5 under `TauLeap3D`. -/
def chemostatTauLeap3D : TauLeap3D :=
  TauLeap3D.AlgorithmSpecificInit { chemostatGrid with mesh_nr := [], mesh_nd := [] }

/-- Scenario S5 under `Gillespie3D`. -/
def chemostatGillespie3D : Gillespie3D :=
  Gillespie3D.AlgorithmSpecificInit
    { chemostatGrid with mesh_ar := [], mesh_ad := [], mesh_a0r := [], mesh_a0d := [], a0 := 0 }

/-- Scenario S5 under `EulerGraph`. -/
def chemostatEulerGraph : EulerGraph :=
  EulerGraph.AlgorithmSpecificInit { chemostatGraph with mesh_dxdt := [] }

/-- Scenario S5 under `TauLeapGraph`. -/
def chemostatTauLeapGraph : TauLeapGraph :=
  TauLeapGraph.AlgorithmSpecificInit { chemostatGraph with mesh_nr := [], mesh_nd := [] }

/-- Scenario S5 under `GillespieGraph`. -/
def chemostatGillespieGraph : GillespieGraph :=
  GillespieGraph.AlgorithmSpecificInit
    { chemostatGraph with mesh_ar := [], mesh_ad := [], mesh_a0r := [], mesh_a0d := [], a0 := 0 }

/-- Scenario S3 on the grid: 3x1x1 reflecting grid, one species,
`x0 = [10, 0, 0]`, no chemostat, `D = 1`, one reaction `A -> 0` with `k = 0`,
`dt = 1/10`, `t_max = 50`, sampling on every iteration. -/
def diffusionGrid : SimulationAlgorithm3DBase :=
  SimulationAlgorithm3DBase.new.Init scenarioLibm 3 1 1 1 1 1 [10, 0, 0] [0, 0, 0] [0, 0, 0] 1
    [0] [1] [-1] [1] [1] [0, 0, 0] 0 [] 1 1 50 (1 / 10) scenarioRng

/-- Scenario S3 on the graph: the same three meshes in a chain of two edges of
surface `1` and distance `1`. -/
def diffusionGraph : SimulationAlgorithmGraphBase :=
  SimulationAlgorithmGraphBase.new.Init scenarioLibm 3 1 1 1 2 [0, 1] [1, 2] [1, 1] [1, 1]
    [10, 0, 0] [0, 0, 0] [0, 0, 0] [1, 1, 1] [0] [1] [-1] [1] [1] 0 [] 1 1 50 (1 / 10)
    scenarioRng

/-- Scenario S3 under `Gillespie3D`. -/
def diffusionGillespie3D : Gillespie3D :=
  Gillespie3D.AlgorithmSpecificInit
    { diffusionGrid with mesh_ar := [], mesh_ad := [], mesh_a0r := [], mesh_a0d := [], a0 := 0 }

/-- Scenario S3 under `TauLeap3D`. -/
def diffusionTauLeap3D : TauLeap3D :=
  TauLeap3D.AlgorithmSpecificInit { diffusionGrid with mesh_nr := [], mesh_nd := [] }

/-- Scenario S3 under `Euler3D`. -/
def diffusionEuler3D : Euler3D :=
  Euler3D.AlgorithmSpecificInit { diffusionGrid with mesh_dxdt := [] }

/-- Scenario S3 under `GillespieGraph`. -/
def diffusionGillespieGraph : GillespieGraph :=
  GillespieGraph.AlgorithmSpecificInit
    { diffusionGraph with mesh_ar := [], mesh_ad := [], mesh_a0r := [], mesh_a0d := [], a0 := 0 }

/-- Scenario S3 under `TauLeapGraph`. -/
def diffusionTauLeapGraph : TauLeapGraph :=
  TauLeapGraph.AlgorithmSpecificInit { diffusionGraph with mesh_nr := [], mesh_nd := [] }

/-- Scenario S3 under `EulerGraph`. -/
def diffusionEulerGraph : EulerGraph :=
  EulerGraph.AlgorithmSpecificInit { diffusionGraph with mesh_dxdt := [] }

/-- Scenario with targets: `Euler3D` on a 2x1x1 reflecting grid, one species,
`x0 = [100, 0]`, one reaction `A -> 0` with `k = 0`, `D = 1/10`, `dt = 1`,
`t_max = 10`, policy `on_t_sample` with the two given targets. -/
def targetsGrid (t_samples : List ℚ) : GridAlgo :=
  (GridAlgo.euler Euler3D.new).Init scenarioLibm 2 1 1 1 1 1 [100, 0] [0, 0] [0, 0] 1
    [0] [1] [-1] [1] [1 / 10] [0, 0, 0] 2 t_samples 0 1 10 1 scenarioRng

/-- The same scenario on the graph of one edge, under `EulerGraph`. -/
def targetsGraph (t_samples : List ℚ) : GraphAlgo :=
  (GraphAlgo.euler EulerGraph.new).Init scenarioLibm 2 1 1 1 1 [0] [1] [1] [1]
    [100, 0] [0, 0] [0, 0] [1, 1] [0] [1] [-1] [1] [1 / 10] 2 t_samples 0 1 10 1 scenarioRng

/-- Scenario with two environments on the grid: 2x1x1 reflecting grid, one
species, `x0 = [10, 0]`, `mesh_env = [0, 1]`, volume `1`, one reaction `A -> 0`
with `k = 3` and `r_env = [1, 1/2]`, `D = [1, 3]`, `dt = 1/10`, `t_max = 10`,
sampling on every iteration. -/
def environmentsGrid : SimulationAlgorithm3DBase :=
  SimulationAlgorithm3DBase.new.Init scenarioLibm 2 1 1 1 1 2 [10, 0] [0, 0] [0, 1] 1 [3] [1]
    [-1] [1, 1 / 2] [1, 3] [0, 0, 0] 0 [] 1 1 10 (1 / 10) scenarioRng

/-- The same scenario on the graph: the two meshes joined by one edge of
surface `1` and distance `1`. -/
def environmentsGraph : SimulationAlgorithmGraphBase :=
  SimulationAlgorithmGraphBase.new.Init scenarioLibm 2 1 1 2 1 [0] [1] [1] [1] [10, 0] [0, 0]
    [0, 1] [1, 1] [3] [1] [-1] [1, 1 / 2] [1, 3] 0 [] 1 1 10 (1 / 10) scenarioRng

/-- Scenario S6: two nodes of volumes `[1, 8]` and environments `[0, 1]`, one
edge of surface `1` and distance `1`, one species with `D = 1` in both
environments, `x0 = [9, 0]`, no reaction, no sampling; the math library and
the generator are left open. -/
def harmonicGraph (m : Libm) (seed : Rng) : SimulationAlgorithmGraphBase :=
  SimulationAlgorithmGraphBase.new.Init m 2 1 0 2 1 [0] [1] [1] [1] [9, 0] [0, 0] [0, 1] [1, 8]
    [] [] [] [] [1, 1] 0 [] 3 1 10 (1 / 10) seed

/-- A math library for scenario S6: `pow(8, 1/3) = 2`, and `pow(1, y) = 1`. -/
def cubeRootLibm : Libm :=
  { pow := fun x y => if x = 8 ∧ y = 1 / 3 then 2 else x, log := fun x => x - 1 }

/-- An empty system on the grid under `Gillespie3D`: 2x1x1 reflecting grid, one
species, `x0 = [0, 0]`, `D = 1`, one reaction `A -> 0` with `k = 1`,
`t_max = 10`, sampling on every iteration. -/
def quiescentGillespie3D : Gillespie3D :=
  Gillespie3D.AlgorithmSpecificInit
    { SimulationAlgorithm3DBase.new.Init scenarioLibm 2 1 1 1 1 1 [0, 0] [0, 0] [0, 0] 1 [1] [1]
        [-1] [1] [1] [0, 0, 0] 0 [] 1 1 10 (1 / 10) scenarioRng with
      mesh_ar := [], mesh_ad := [], mesh_a0r := [], mesh_a0d := [], a0 := 0 }

/-- The same empty system on the graph of one edge, under `GillespieGraph`. -/
def quiescentGillespieGraph : GillespieGraph :=
  GillespieGraph.AlgorithmSpecificInit
    { SimulationAlgorithmGraphBase.new.Init scenarioLibm 2 1 1 1 1 [0] [1] [1] [1] [0, 0] [0, 0]
        [0, 0] [1, 1] [1] [1] [-1] [1] [1] 0 [] 1 1 10 (1 / 10) scenarioRng with
      mesh_ar := [], mesh_ad := [], mesh_a0r := [], mesh_a0d := [], a0 := 0 }

/-- A generator whose Poisson draws of a positive mean all give `2` (and `0`
for the mean `0`); uniform draws `1/2`. -/
def burstRng : Rng :=
  { pos := 0, uniform := fun _ => 1 / 2, poisson := fun _ mean => if mean = 0 then 0 else 2,
    normal := fun _ mean => mean }

/-- One mesh holding one molecule under `TauLeap3D`: 1x1x1 reflecting grid, one
species, `x0 = [1]`, one reaction `A -> 0` with `k = 1`, `D = 1`, `dt = 1/10`,
no `t_max`, no sampling, with the generator `burstRng`. -/
def burstTauLeap3D : TauLeap3D :=
  TauLeap3D.AlgorithmSpecificInit
    { SimulationAlgorithm3DBase.new.Init scenarioLibm 1 1 1 1 1 1 [1] [0] [0] 1 [1] [1] [-1] [1]
        [1] [0, 0, 0] 0 [] 3 1 (-1) (1 / 10) burstRng with
      mesh_nr := [], mesh_nd := [] }

/-- The same mesh as a graph of one node without edge, under `TauLeapGraph`. -/
def burstTauLeapGraph : TauLeapGraph :=
  TauLeapGraph.AlgorithmSpecificInit
    { SimulationAlgorithmGraphBase.new.Init scenarioLibm 1 1 1 1 0 [] [] [] [] [1] [0] [0] [1]
        [1] [1] [-1] [1] [1] 0 [] 3 1 (-1) (1 / 10) burstRng with
      mesh_nr := [], mesh_nd := [] }


/-- Scenario S1: the Euler kernel on a grid of one mesh with one species that
decays (`A -> 0`, `k = 1`), `x0 = 100`, `dt = 1/100`, `t_max = 5`, sampling on
the interval `1`; the object after `Init`. -/
def decayGrid (m : Libm) : GridAlgo :=
  GridAlgo.Init m (GridAlgo.euler Euler3D.new) 1 1 1 1 1 1 [100] [0] [0] 1 [1] [1] [-1] [1] [0]
    [0, 0, 0] 0 [] 2 1 5 (1 / 100) Rng.default


/-- Scenario S2: the grid Gillespie kernel on one mesh holding `10` molecules
of one species that decays (`A -> 0`, `k = 1`, `mesh_vol = 1`), reflecting
boundaries; the object after `Init`, for any sampling plan, `t_max`, time step
and generator. -/
def extinctionGrid (m : Libm) (sample_n : Nat) (t_samples : List ℚ) (sampling_policy_code : Int)
    (sampling_interval t_max time_step : ℚ) (seed : Rng) : GridAlgo :=
  GridAlgo.Init m (GridAlgo.gillespie Gillespie3D.new) 1 1 1 1 1 1 [10] [0] [0] 1 [1] [1] [-1] [1]
    [0] [0, 0, 0] sample_n t_samples sampling_policy_code sampling_interval t_max time_step seed

/-- Scenario with a reaction of order three: 2x1x1 reflecting grid, two species
`A`, `B`, one reaction `2 A + B -> 0` with `k = 2` (`sub = [2, 1]`), volume `1`;
mesh 0 holds `5 A` and `3 B`, mesh 1 holds `1 A` and `3 B`. -/
def trimolecularGrid : SimulationAlgorithm3DBase :=
  SimulationAlgorithm3DBase.new.Init scenarioLibm 2 1 1 2 1 1 [5, 3, 1, 3] [0, 0, 0, 0] [0, 0] 1
    [2] [2, 1] [-2, -1] [1] [0, 0] [0, 0, 0] 0 [] 3 1 10 (1 / 10) scenarioRng

/-- Scenario without target: the grid of `targetsGrid` under `Euler3D`, policy
`on_t_sample` with `n_samples = 0` and an empty `t_samples`; the object after
`Init`. -/
def noTargetGrid : GridAlgo :=
  (GridAlgo.euler Euler3D.new).Init scenarioLibm 2 1 1 1 1 1 [100, 0] [0, 0] [0, 0] 1
    [0] [1] [-1] [1] [1 / 10] [0, 0, 0] 0 [] 0 1 10 1 scenarioRng

/-- A generator whose first Poisson draw gives `0` and whose second Poisson draw
gives `1`; the uniform and the normal draws are left open. -/
def stuckRng (uniform : Nat → ℚ) (normal : Nat → ℚ → ℚ) : Rng :=
  { pos := 0, uniform := uniform, poisson := fun k _ => if k = 1 then 1 else 0,
    normal := normal }

/-! ## Predicates and quantities used in the statements -/

/-- The cells of a state are integers. -/
def IntegerValued (v : List ℚ) : Prop := ∀ i, ∃ z : Int, rd v i = (z : ℚ)

/-- Signed change of the total of species `s` when `delta_count` goes from `c`
to `c'`: a removal lowers it, an addition raises it. -/
def signedChange (rm_species : Bool) (c c' : Nat) : ℚ :=
  if rm_species then (c : ℚ) - (c' : ℚ) else (c' : ℚ) - (c : ℚ)

/-- Relation between a `GillespieGraph` state and a later one that differs
from it in `mesh_x` only and agrees with it on the chemostatted cells. -/
def GillespieGraph.KeepsChemostats (g g' : GillespieGraph) : Prop :=
  ∃ x, g' = { g with mesh_x := x } ∧ ∀ f, rd g.mesh_chstt f ≠ 0 → rd x f = rd g.mesh_x f

/-- Every cell of a state holds a natural number (a non-negative integer). -/
def CountsAreNaturals (v : List ℚ) : Prop := ∀ f, ∃ n : Nat, rd v f = (n : ℚ)

/-- Every entry of the neighbour table of the grid is the sentinel `-1` or the
index of a mesh. -/
def SimulationAlgorithm3DBase.NeighborsInRange (b : SimulationAlgorithm3DBase) : Prop :=
  ∀ i n, i < b.n_meshes → n < 6 →
    rd b.mesh_neighbors (i * 6 + n) = -1 ∨
    (0 ≤ rd b.mesh_neighbors (i * 6 + n) ∧ rd b.mesh_neighbors (i * 6 + n) < b.n_meshes)

/-- Every entry of the neighbour lists of the graph is the index of a mesh. -/
def SimulationAlgorithmGraphBase.NeighborsInRange (b : SimulationAlgorithmGraphBase) : Prop :=
  ∀ i n, i < b.n_meshes → n < rd b.mesh_neighbor_n i →
    rd (rdRow b.mesh_neighbor_index i) n < b.n_meshes

/-- The neighbour table of the grid pairs the faces: the neighbour `j` of
mesh `i` across face `n` is a mesh, and the neighbour of `j` across the
opposed face is `i`. -/
def SimulationAlgorithm3DBase.FacesPaired (b : SimulationAlgorithm3DBase) : Prop :=
  ∀ i, i < b.n_meshes → ∀ n, n < 6 → rd b.mesh_neighbors (i * 6 + n) ≠ -1 →
    0 ≤ rd b.mesh_neighbors (i * 6 + n) ∧
    (rd b.mesh_neighbors (i * 6 + n)).toNat < b.n_meshes ∧
    rd b.opposed_direction n < 6 ∧
    rd b.opposed_direction (rd b.opposed_direction n) = n ∧
    rd b.mesh_neighbors
      ((rd b.mesh_neighbors (i * 6 + n)).toNat * 6 + rd b.opposed_direction n) = i

/-- Slot `back i n` of the neighbour of mesh `i` in slot `n` is the other end
of the same edge: it points back to `i`, and the constant that multiplies the
neighbour's state in the flux of `i` is the constant that multiplies it in
the neighbour's own flux. -/
def SimulationAlgorithmGraphBase.EdgesPairedBy (b : SimulationAlgorithmGraphBase)
    (back : Nat → Nat → Nat) : Prop :=
  ∀ i, i < b.n_meshes → ∀ n, n < rd b.mesh_neighbor_n i →
    rd (rdRow b.mesh_neighbor_index i) n < b.n_meshes ∧
    back i n < rd b.mesh_neighbor_n (rd (rdRow b.mesh_neighbor_index i) n) ∧
    rd (rdRow b.mesh_neighbor_index (rd (rdRow b.mesh_neighbor_index i) n)) (back i n) = i ∧
    back (rd (rdRow b.mesh_neighbor_index i) n) (back i n) = n ∧
    ∀ s, s < b.n_species →
      rd (rdRow b.mesh_kd_in i) (s * rd b.mesh_neighbor_n i + n) =
        rd (rdRow b.mesh_kd_out (rd (rdRow b.mesh_neighbor_index i) n))
          (s * rd b.mesh_neighbor_n (rd (rdRow b.mesh_neighbor_index i) n) + back i n)

instance SimulationAlgorithm3DBase.decidableFacesPaired (b : SimulationAlgorithm3DBase) :
    Decidable b.FacesPaired := by
  unfold SimulationAlgorithm3DBase.FacesPaired
  infer_instance

instance SimulationAlgorithmGraphBase.decidableEdgesPairedBy (b : SimulationAlgorithmGraphBase)
    (back : Nat → Nat → Nat) : Decidable (b.EdgesPairedBy back) := by
  unfold SimulationAlgorithmGraphBase.EdgesPairedBy
  infer_instance

/-- How one `Iterate` call of a kernel acts on the shared members: the guard
is reset; then either nothing else happens (the simulation is complete, or is
flagged complete), or the kernel sets the state, the generator, the step and
the time, and `SamplingStep` and `CheckTMax` run. -/
def SimulationAlgorithmBase.IterateShape (b b1 : SimulationAlgorithmBase) : Prop :=
  b1 = { b with sampling_done_this_iteration := false } ∨
  b1 = { b with sampling_done_this_iteration := false, complete := true } ∨
  ∃ x r dt t, b1 = SimulationAlgorithmBase.CheckTMax (SimulationAlgorithmBase.SamplingStep
    { b with mesh_x := x, rng := r, dt := dt, t := t, sampling_done_this_iteration := false })

/-- The targets `t_samples[0..n)` are sorted. -/
def SortedTargets (t_samples : List ℚ) (n : Nat) : Prop :=
  ∀ k, k < n → ∀ j, j < k → rd t_samples j ≤ rd t_samples k

instance decidableSortedTargets (t_samples : List ℚ) (n : Nat) :
    Decidable (SortedTargets t_samples n) := by
  unfold SortedTargets
  infer_instance

/-- The snapshots follow the targets: at most one snapshot per consumed
target, every snapshot `k` taken at or after target `k`, and the next target
not reached yet. -/
def SimulationAlgorithmBase.SnapshotsFollowTargets (b : SimulationAlgorithmBase) : Prop :=
  b.sample_pos ≤ b.n_samples ∧ b.sampled_t.length ≤ b.sample_pos ∧
  (∀ k, k < b.sampled_t.length → rd b.t_samples k ≤ rd b.sampled_t k) ∧
  (b.sample_pos < b.n_samples → b.t < rd b.t_samples b.sample_pos)

/-- What a call keeps of the sampling plan, and how it moves `sample_pos` and
the number of snapshots: one more snapshot exactly when `sample_pos` moves. -/
def SimulationAlgorithmBase.TargetPass (b b1 : SimulationAlgorithmBase) : Prop :=
  b1.t_samples = b.t_samples ∧ b1.n_samples = b.n_samples ∧
  b1.sampling_policy_code = b.sampling_policy_code ∧ b.sample_pos ≤ b1.sample_pos ∧
  b1.sampled_t.length = b.sampled_t.length + (if b.sample_pos < b1.sample_pos then 1 else 0)

/-- From `b` to `r` the trajectory is unchanged, or exactly one snapshot, the
time and state of `r`, has been appended. -/
def SimulationAlgorithmBase.AtMostOneSnapshot (b r : SimulationAlgorithmBase) : Prop :=
  (r.sampled_t = b.sampled_t ∧ r.sampled_mesh_x = b.sampled_mesh_x) ∨
  (r.sampled_t = b.sampled_t ++ [r.t] ∧ r.sampled_mesh_x = b.sampled_mesh_x ++ [r.mesh_x])

/-- One coordinate after a move by `δ`, wrapped when the axis is periodic: the
computation of `GetNeighborIndex` on one axis. -/
def axisStep (per : Prop) [Decidable per] (w c δ : Int) : Int :=
  if per then Int.tmod (w + (c + δ)) w else c + δ

/-- The move of direction `n` along axis `a` in `GetNeighborIndex`. -/
def dirDelta (a n : Nat) : Int := if n = 2 * a then 1 else if n = 2 * a + 1 then -1 else 0

/-- The flat index of the mesh of coordinates `(X, Y, Z)`. -/
def meshIndex (w h X Y Z : Nat) : Nat := w * h * Z + w * Y + X

/-- Effect of `T[i].push_back(x)` on a vector of vectors. -/
def pushRow {α : Type} (T : List (List α)) (i : Nat) (x : α) : List (List α) :=
  wr T i (rdRow T i ++ [x])

/-- The neighbour tables of a graph of `nm` meshes pair the two ends of every
edge: slot `back i n` of the neighbour of mesh `i` in slot `n` points back to
`i`, with the same surface and distance. -/
def AdjacencyPaired (nm : Nat) (nn : List Nat) (idx : List (List Nat)) (sfc dst : List (List ℚ))
    (back : Nat → Nat → Nat) : Prop :=
  nn.length = nm ∧ idx.length = nm ∧ sfc.length = nm ∧ dst.length = nm ∧
  (∀ i, i < nm → rd nn i = (rdRow idx i).length ∧
    (rdRow sfc i).length = (rdRow idx i).length ∧
    (rdRow dst i).length = (rdRow idx i).length) ∧
  (∀ i, i < nm → ∀ n, n < (rdRow idx i).length →
    rd (rdRow idx i) n < nm ∧
    back i n < (rdRow idx (rd (rdRow idx i) n)).length ∧
    rd (rdRow idx (rd (rdRow idx i) n)) (back i n) = i ∧
    back (rd (rdRow idx i) n) (back i n) = n ∧
    rd (rdRow sfc (rd (rdRow idx i) n)) (back i n) = rd (rdRow sfc i) n ∧
    rd (rdRow dst (rd (rdRow idx i) n)) (back i n) = rd (rdRow dst i) n)

/-- The value that `Build_mesh_kd` of the graph computes for `Dij`, for mesh
`i`, its neighbour `j` and species `s`. -/
def SimulationAlgorithmGraphBase.Dij (m : Libm) (b : SimulationAlgorithmGraphBase) (D : List ℚ)
    (i j s : Nat) : ℚ :=
  if rdI D ((s * b.n_env : Nat) + rd b.mesh_env i) ≠ 0 ∧
      rdI D ((s * b.n_env : Nat) + rd b.mesh_env j) ≠ 0 then
    (m.pow (rd b.mesh_vol i) (1 / 3) + m.pow (rd b.mesh_vol j) (1 / 3)) /
      (m.pow (rd b.mesh_vol i) (1 / 3) / rdI D ((s * b.n_env : Nat) + rd b.mesh_env i) +
        m.pow (rd b.mesh_vol j) (1 / 3) / rdI D ((s * b.n_env : Nat) + rd b.mesh_env j))
  else 0

/-- The value that `Build_mesh_kd` of the graph writes in `mesh_kd_out[i]` for
species `s` and slot `n`. -/
def SimulationAlgorithmGraphBase.kdOutCell (m : Libm) (b : SimulationAlgorithmGraphBase)
    (D : List ℚ) (i s n : Nat) : ℚ :=
  b.Dij m D i (rd (rdRow b.mesh_neighbor_index i) n) s * rd (rdRow b.mesh_neighbor_sfc i) n /
    (rd b.mesh_vol i * rd (rdRow b.mesh_neighbor_dst i) n)

/-- The value that `Build_mesh_kd` of the graph writes in `mesh_kd_in[i]` for
species `s` and slot `n`. -/
def SimulationAlgorithmGraphBase.kdInCell (m : Libm) (b : SimulationAlgorithmGraphBase)
    (D : List ℚ) (i s n : Nat) : ℚ :=
  b.Dij m D i (rd (rdRow b.mesh_neighbor_index i) n) s * rd (rdRow b.mesh_neighbor_sfc i) n /
    (rd b.mesh_vol (rd (rdRow b.mesh_neighbor_index i) n) * rd (rdRow b.mesh_neighbor_dst i) n)

/-- A state of the loops of `Build_mesh_kd` of the graph while row `i` is
filled: it differs from `b` in the two tables only, row `i` of both tables has
its final length, and the other rows are those of `ko0` and `ki0`. -/
def SimulationAlgorithmGraphBase.KdFrame (b : SimulationAlgorithmGraphBase) (i : Nat)
    (ko0 ki0 : List (List ℚ)) (s : SimulationAlgorithmGraphBase) : Prop :=
  ∃ ko ki, s = { b with mesh_kd_out := ko, mesh_kd_in := ki } ∧
    ko.length = b.n_meshes ∧ ki.length = b.n_meshes ∧
    (rdRow ko i).length = b.n_species * rd b.mesh_neighbor_n i ∧
    (rdRow ki i).length = b.n_species * rd b.mesh_neighbor_n i ∧
    ∀ r, r ≠ i → rdRow ko r = rdRow ko0 r ∧ rdRow ki r = rdRow ki0 r

/-- The entries that the edges `k < n_edges` put, in the order of the edges, in
a list of node `v`: edge `k` puts `at_i k` when `edge_i[k] = v`, and then
`at_j k` when `edge_j[k] = v`. -/
def edgeEntries {α : Type} (edge_i edge_j : List Nat) (at_i at_j : Nat → α) (v n_edges : Nat) :
    List α :=
  ((List.range n_edges).map (fun k =>
    (if rd edge_i k = v then [at_i k] else []) ++
      (if rd edge_j k = v then [at_j k] else []))).flatten


/-- The object of scenario S1 after `n` steps of the Euler kernel. -/
def Euler3D.DecayAfter (n : Nat) (e : Euler3D) : Prop :=
  e.n_meshes = 1 ∧ e.n_species = 1 ∧ e.n_reactions = 1 ∧ e.mesh_chstt = [0] ∧ e.sub = [1] ∧
  e.sto = [-1] ∧ e.mesh_kr = [1] ∧ e.mesh_neighbors = [-1, -1, -1, -1, -1, -1] ∧
  e.mesh_dxdt.length = 1 ∧ e.dt = 1 / 100 ∧ e.t_max = 5 ∧ e.sampling_policy_code = 2 ∧
  e.sampling_interval = 1 ∧ e.complete = decide (500 < n) ∧ e.t = (n : ℚ) / 100 ∧
  e.mesh_x = [100 * (99 / 100) ^ n] ∧ e.last_tsi_ratio = ((n / 100 : Nat) : ℚ) ∧
  e.sampled_t = (List.range (n / 100 + 1)).map (fun k => (k : ℚ)) ∧
  e.sampled_mesh_x = (List.range (n / 100 + 1)).map (fun k => [100 * (99 / 100) ^ (100 * k)])


/-- The object of scenario S2 when the mesh holds `x` molecules: what the
kernel reads, and the sizes of its tables. -/
def Gillespie3D.ExtinctionShape (x : ℚ) (g : Gillespie3D) : Prop :=
  g.n_meshes = 1 ∧ g.n_species = 1 ∧ g.n_reactions = 1 ∧ g.sub = [1] ∧ g.sto = [-1] ∧
  g.mesh_kr = [1] ∧ g.mesh_neighbors = [-1, -1, -1, -1, -1, -1] ∧ g.mesh_x = [x] ∧
  g.mesh_ar.length = 1 ∧ g.mesh_ad.length = 6 ∧ g.mesh_a0r.length = 1 ∧ g.mesh_a0d.length = 1


/-- The kernel advances the time by the fixed step `dt` (`Euler3D`,
`TauLeap3D`). -/
def GridAlgo.fixedStep : GridAlgo → Bool
  | GridAlgo.gillespie _ => false
  | GridAlgo.tauleap _ => true
  | GridAlgo.euler _ => true

/-- The kernel advances the time by the fixed step `dt` (`EulerGraph`,
`TauLeapGraph`). -/
def GraphAlgo.fixedStep : GraphAlgo → Bool
  | GraphAlgo.gillespie _ => false
  | GraphAlgo.tauleap _ => true
  | GraphAlgo.euler _ => true

/-- The trajectory read after the calls `calls`, where `at_ pre` is the shared
part of the object after the calls `pre`: the times and the states are as
many, the times are in non-decreasing order and not after the current time,
and snapshot `k` was recorded by `Init` or by one of the calls, as the `k`-th
snapshot, and is the time and the state that the object had after that
call. -/
def RecordedInOrder (at_ : List Call → SimulationAlgorithmBase) (calls : List Call) : Prop :=
  (at_ calls).sampled_t.length = (at_ calls).sampled_mesh_x.length ∧
  (∀ j k, j ≤ k → k < (at_ calls).sampled_t.length →
    rd (at_ calls).sampled_t j ≤ rd (at_ calls).sampled_t k) ∧
  (∀ k, k < (at_ calls).sampled_t.length → rd (at_ calls).sampled_t k ≤ (at_ calls).t) ∧
  (∀ k, k < (at_ calls).sampled_t.length → ∃ pre post, calls = pre ++ post ∧
    (at_ pre).sampled_t.length = k + 1 ∧
    (pre = [] ∨ ∃ pre1 c, pre = pre1 ++ [c] ∧ (at_ pre1).sampled_t.length = k) ∧
    rd (at_ calls).sampled_t k = (at_ pre).t ∧
    rdRow (at_ calls).sampled_mesh_x k = (at_ pre).mesh_x)


/-- An event of the Gillespie kernels: a reaction in a mesh, or the move of
one molecule of a species from a mesh along one of its directions. -/
inductive Event where
  | reaction (mesh_index reaction_index : Nat)
  | diffusion (mesh_index species_index direction : Nat)
  deriving DecidableEq

/-- Sum of the propensities of a list of events. -/
def totalPropensity {α : Type} (l : List (α × ℚ)) : ℚ := (l.map Prod.snd).sum

/-- In the list `l` of events with their propensities, cumulated from `acc`,
the interval of event `e` holds the target `r`. -/
def Selects {α : Type} (l : List (α × ℚ)) (acc r : ℚ) (e : α) : Prop :=
  ∃ pre p post, l = pre ++ (e, p) :: post ∧ acc + totalPropensity pre ≤ r ∧
    r < acc + totalPropensity pre + p

/-- The reactions of mesh `i` by index, with the propensities of `mesh_ar`. -/
def Gillespie3D.reactionEvents (g : Gillespie3D) (i : Nat) : List (Event × ℚ) :=
  (List.range g.n_reactions).map
    (fun r => (Event.reaction i r, rd g.mesh_ar (i * g.n_reactions + r)))

/-- The diffusion events of mesh `i` by species, then direction, with the
propensities of `mesh_ad`. -/
def Gillespie3D.diffusionEvents (g : Gillespie3D) (i : Nat) : List (Event × ℚ) :=
  (List.range g.n_species).flatMap (fun s => (List.range 6).map
    (fun n => (Event.diffusion i s n, rd g.mesh_ad (i * g.n_species * 6 + s * 6 + n))))

/-- The events in canonical order: mesh by mesh, in a mesh the reactions, then
the diffusion events. -/
def Gillespie3D.events (g : Gillespie3D) : List (Event × ℚ) :=
  (List.range g.n_meshes).flatMap (fun i => g.reactionEvents i ++ g.diffusionEvents i)

/-- The state after an event. -/
def Gillespie3D.applyEvent (g : Gillespie3D) : Event → Gillespie3D
  | Event.reaction i r => g.ApplyReaction i r
  | Event.diffusion i s n => g.ApplyDiffusion i s n

/-- The reactions of node `i` by index, with the propensities of `mesh_ar`. -/
def GillespieGraph.reactionEvents (g : GillespieGraph) (i : Nat) : List (Event × ℚ) :=
  (List.range g.n_reactions).map
    (fun r => (Event.reaction i r, rd g.mesh_ar (i * g.n_reactions + r)))

/-- The diffusion events of node `i` by species, then neighbour, with the
propensities of `mesh_ad[i]`. -/
def GillespieGraph.diffusionEvents (g : GillespieGraph) (i : Nat) : List (Event × ℚ) :=
  (List.range g.n_species).flatMap (fun s => (List.range (rd g.mesh_neighbor_n i)).map
    (fun n => (Event.diffusion i s n,
      rd (rdRow g.mesh_ad i) (s * rd g.mesh_neighbor_n i + n))))

/-- The events in canonical order: node by node, in a node the reactions, then
the diffusion events. -/
def GillespieGraph.events (g : GillespieGraph) : List (Event × ℚ) :=
  (List.range g.n_meshes).flatMap (fun i => g.reactionEvents i ++ g.diffusionEvents i)

/-- The state after an event. -/
def GillespieGraph.applyEvent (g : GillespieGraph) : Event → GillespieGraph
  | Event.reaction i r => g.ApplyReaction i r
  | Event.diffusion i s n => g.ApplyDiffusion i s n

/-- The cells of `sto` are natural numbers, and `sto` is `0` wherever the
original state `mesh_x` is `0`. -/
def StochasticShape (mesh_x sto : List ℚ) : Prop :=
  CountsAreNaturals sto ∧ ∀ f, rd mesh_x f = 0 → rd sto f = 0

/-- The call that the loop over reactions of `DrawAndApplyEvent` makes:
`ApplyReaction(i, j)` at the first `j` with `r2 < a_cumul`, or no call. -/
def Gillespie3D.callReactions (g : Gillespie3D) (i : Nat) (r2 : ℚ) : List Nat → ℚ → Option Event
  | [], _ => none
  | j :: rest, a_cumul =>
    let a_cumul := a_cumul + rd g.mesh_ar (i * g.n_reactions + j)
    if r2 < a_cumul then some (Event.reaction i j) else callReactions g i r2 rest a_cumul

/-- The call that the loop over directions of `DrawAndApplyEvent` makes for
species `j`: `ApplyDiffusion(i, j, n)` at the first `n` with `r2 < a_cumul`, or
no call; and `a_cumul` after the loop. -/
def Gillespie3D.callDirections (g : Gillespie3D) (i j : Nat) (r2 : ℚ) :
    List Nat → ℚ → Option Event × ℚ
  | [], a_cumul => (none, a_cumul)
  | n :: rest, a_cumul =>
    let a_cumul := a_cumul + rd g.mesh_ad (i * g.n_species * 6 + j * 6 + n)
    if r2 < a_cumul then (some (Event.diffusion i j n), a_cumul)
    else callDirections g i j r2 rest a_cumul

/-- The call that the loop over species of `DrawAndApplyEvent` makes. -/
def Gillespie3D.callSpecies (g : Gillespie3D) (i : Nat) (r2 : ℚ) : List Nat → ℚ → Option Event
  | [], _ => none
  | j :: rest, a_cumul =>
    let p := callDirections g i j r2 (List.range 6) a_cumul
    if p.1.isSome then p.1 else callSpecies g i r2 rest p.2

/-- The call that the loop over meshes of `DrawAndApplyEvent` makes. -/
def Gillespie3D.callMeshes (g : Gillespie3D) (r : ℚ) : List Nat → ℚ → Option Event
  | [], _ => none
  | i :: rest, a0_cumul =>
    if r < a0_cumul + rd g.mesh_a0r i then
      callReactions g i (r - a0_cumul) (List.range g.n_reactions) 0
    else
      let a0_cumul := a0_cumul + rd g.mesh_a0r i
      if r < a0_cumul + rd g.mesh_a0d i then
        callSpecies g i (r - a0_cumul) (List.range g.n_species) 0
      else callMeshes g r rest (a0_cumul + rd g.mesh_a0d i)

/-- The call of `ApplyReaction` or `ApplyDiffusion` that `DrawAndApplyEvent`
makes, if it makes one. -/
def Gillespie3D.drawnCall (g : Gillespie3D) : Option Event :=
  let r := g.rng.uniform g.rng.pos * g.a0
  let g := { g with rng := g.rng.advance }
  callMeshes g r (List.range g.n_meshes) 0

/-- Method `Apply_nevt` of the grid, run with the accesses through a neighbour
checked.  In a round `(i, s, n)` that passes the test
`mesh_nd[i*6*n_species+s*6+n]==0`, the source reads `j = mesh_neighbors[i*6+n]`
and indexes `mesh_chstt[j*n_species+s]`, then `mesh_x[j*n_species+s]`; here the
run stops with `none` when this `j` is `-1`, the mark of an absent neighbour.
Everything else is the text of `Apply_nevt`. -/
def TauLeap3D.Apply_nevtChecked (e : TauLeap3D) : Option TauLeap3D :=
  (forLoop e.n_meshes (fun i (acc : Option (List ℚ)) =>
    acc.bind (fun mesh_x =>
      let mesh_x := forLoop e.n_reactions (fun r mesh_x =>
        forLoop e.n_species (fun j mesh_x =>
          if rd e.mesh_chstt (i * e.n_species + j) ≠ 0 then mesh_x
          else
            wr mesh_x (i * e.n_species + j)
              (rd mesh_x (i * e.n_species + j) +
                rd e.sto (j * e.n_reactions + r) * ((rd e.mesh_nr (i * e.n_reactions + r) : Int) : ℚ)))
          mesh_x) mesh_x
      forLoop e.n_species (fun s (acc : Option (List ℚ)) =>
        acc.bind (fun mesh_x =>
          forLoop 6 (fun n (acc : Option (List ℚ)) =>
            acc.bind (fun mesh_x =>
              if rd e.mesh_nd (i * 6 * e.n_species + s * 6 + n) = 0 then some mesh_x
              else
                let mesh_x :=
                  if ¬ (rd e.mesh_chstt (i * e.n_species + s) ≠ 0) then
                    wr mesh_x (i * e.n_species + s)
                      (rd mesh_x (i * e.n_species + s) -
                        ((rd e.mesh_nd (i * 6 * e.n_species + s * 6 + n) : Int) : ℚ))
                  else mesh_x
                let j := rd e.mesh_neighbors (i * 6 + n)
                if j = -1 then none
                else if ¬ (rdI e.mesh_chstt (j * e.n_species + s) ≠ 0) then
                  some (wrI mesh_x (j * e.n_species + s)
                    (rdI mesh_x (j * e.n_species + s) +
                      ((rd e.mesh_nd (i * 6 * e.n_species + s * 6 + n) : Int) : ℚ)))
                else some mesh_x)) (some mesh_x))) (some mesh_x)))
    (some e.mesh_x)).map (fun mesh_x => { e with mesh_x := mesh_x })

/-- The function `f` keeps the size `L` of a state and adds `δ` to its cell
`c`. -/
def AddsAt (L c : Nat) (f : List ℚ → List ℚ) (δ : ℚ) : Prop :=
  ∀ v : List ℚ, v.length = L → (f v).length = L ∧ rd (f v) c = rd v c + δ

/-! # Properties -/

/-! ## Vectors and loops -/

theorem rd_wr {α : Type} [Zero α] (v : List α) (i j : Nat) (a : α) :
    rd (wr v i a) j = if i = j ∧ i < v.length then a else rd v j := by
  unfold rd wr
  rw [List.getD_eq_getElem?_getD, List.getD_eq_getElem?_getD, List.getElem?_set]
  by_cases hij : i = j
  · subst hij
    by_cases hl : i < v.length
    · simp [hl]
    · simp [hl, List.getElem?_eq_none (Nat.le_of_not_lt hl)]
  · simp [hij]

theorem rd_wr_ne {α : Type} [Zero α] (v : List α) {i j : Nat} (a : α) (h : i ≠ j) :
    rd (wr v i a) j = rd v j := by
  rw [rd_wr]; simp [h]

theorem rd_wr_self {α : Type} [Zero α] (v : List α) {i : Nat} (a : α) (h : i < v.length) :
    rd (wr v i a) i = a := by
  rw [rd_wr]; simp [h]

theorem rd_of_length_le {α : Type} [Zero α] (v : List α) {i : Nat} (h : v.length ≤ i) :
    rd v i = 0 := by
  unfold rd
  rw [List.getD_eq_getElem?_getD, List.getElem?_eq_none h]
  rfl

@[simp] theorem length_wr {α : Type} (v : List α) (i : Nat) (a : α) :
    (wr v i a).length = v.length := by
  unfold wr; simp

theorem rd_replicate_zero {α : Type} [Zero α] (n i : Nat) :
    rd (List.replicate n (0 : α)) i = 0 := by
  unfold rd
  rw [List.getD_eq_getElem?_getD]
  by_cases h : i < n
  · simp [List.getElem?_replicate, h]
  · simp [List.getElem?_replicate, h]

@[simp] theorem forLoop_zero {σ : Type} (body : Nat → σ → σ) (st : σ) :
    forLoop 0 body st = st := rfl

theorem forLoop_succ {σ : Type} (n : Nat) (body : Nat → σ → σ) (st : σ) :
    forLoop (n + 1) body st = body n (forLoop n body st) := by
  unfold forLoop
  rw [List.range_succ, List.foldl_append]
  rfl

/-- Invariant rule for `forLoop`: `P k` holds after `k` rounds. -/
theorem forLoop_induction {σ : Type} (P : Nat → σ → Prop) (n : Nat) (body : Nat → σ → σ) (st : σ)
    (h0 : P 0 st) (hstep : ∀ k, k < n → ∀ s, P k s → P (k + 1) (body k s)) :
    P n (forLoop n body st) := by
  induction n with
  | zero => simpa using h0
  | succ n ih =>
    rw [forLoop_succ]
    exact hstep n (Nat.lt_succ_self n) _
      (ih (fun k hk s hs => hstep k (Nat.lt_succ_of_lt hk) s hs))

/-- Invariant rule for `forLoop` with an invariant that does not depend on the
round. -/
theorem forLoop_invariant {σ : Type} (P : σ → Prop) (n : Nat) (body : Nat → σ → σ) (st : σ)
    (h0 : P st) (hstep : ∀ k, k < n → ∀ s, P s → P (body k s)) :
    P (forLoop n body st) :=
  forLoop_induction (fun _ s => P s) n body st h0 hstep

theorem speciesTotal_succ (v : List ℚ) (n m s : Nat) :
    speciesTotal v (n + 1) m s = speciesTotal v n m s + rd v (n * m + s) := by
  unfold speciesTotal
  rw [List.sum_range_succ]

@[simp] theorem speciesTotal_zero (v : List ℚ) (m s : Nat) : speciesTotal v 0 m s = 0 := by
  simp [speciesTotal]

/-- Cell `(i, s)` and cell `(i0, s0)` of a mesh-major array coincide only when
`i = i0` and `s = s0`. -/
theorem flat_index_inj {m i s i0 s0 : Nat} (hs : s < m) (hs0 : s0 < m)
    (h : i * m + s = i0 * m + s0) : i = i0 ∧ s = s0 := by
  have h1 : (i * m + s) / m = (i0 * m + s0) / m := by rw [h]
  have h2 : (i * m + s) % m = (i0 * m + s0) % m := by rw [h]
  have hm : 0 < m := Nat.lt_of_le_of_lt (Nat.zero_le _) hs
  rw [Nat.mul_comm i m, Nat.mul_comm i0 m, Nat.mul_add_div hm, Nat.mul_add_div hm,
    Nat.div_eq_of_lt hs, Nat.div_eq_of_lt hs0] at h1
  rw [Nat.mul_comm i m, Nat.mul_comm i0 m, Nat.mul_add_mod, Nat.mul_add_mod,
    Nat.mod_eq_of_lt hs, Nat.mod_eq_of_lt hs0] at h2
  exact ⟨by simpa using h1, h2⟩

theorem flat_index_lt {n m i s : Nat} (hi : i < n) (hs : s < m) : i * m + s < n * m := by
  calc i * m + s < i * m + m := by omega
    _ = (i + 1) * m := by ring
    _ ≤ n * m := Nat.mul_le_mul_right m hi

/-- Effect of one write on the total of a species. -/
theorem speciesTotal_wr (v : List ℚ) (n m s i0 s0 : Nat) (a : ℚ) (hs : s < m) (hs0 : s0 < m)
    (hlen : i0 * m + s0 < v.length) :
    speciesTotal (wr v (i0 * m + s0) a) n m s =
      speciesTotal v n m s + (if s = s0 ∧ i0 < n then a - rd v (i0 * m + s0) else 0) := by
  induction n with
  | zero => simp
  | succ n ih =>
    rw [speciesTotal_succ, speciesTotal_succ, ih, rd_wr]
    by_cases hc : i0 * m + s0 = n * m + s
    · obtain ⟨h1, h2⟩ := flat_index_inj hs0 hs hc
      subst h1; subst h2
      simp [hlen]
    · have hne : ¬ (s = s0 ∧ i0 = n) := by
        rintro ⟨h1, h2⟩; exact hc (by rw [h1, h2])
      have e1 : (if i0 * m + s0 = n * m + s ∧ i0 * m + s0 < v.length then a
          else rd v (n * m + s)) = rd v (n * m + s) := if_neg (fun h => hc h.1)
      rw [e1]
      split_ifs with h1 h2 h2
      · ring
      · exfalso; omega
      · exfalso; omega
      · ring

/-! ## GenerateStochasticDistribution -/

/-- A loop `for j<n: tot[j] += f j` adds `f j` to each of the first `n` cells. -/
theorem forLoop_accumulate (f : Nat → ℚ) (n : Nat) (tot : List ℚ) (hn : n ≤ tot.length) :
    (forLoop n (fun j t => wr t j (rd t j + f j)) tot).length = tot.length ∧
    ∀ s, rd (forLoop n (fun j t => wr t j (rd t j + f j)) tot) s =
      if s < n then rd tot s + f s else rd tot s := by
  refine forLoop_induction
    (fun k t => k ≤ n → (t.length = tot.length ∧
      ∀ s, rd t s = if s < k then rd tot s + f s else rd tot s)) n _ tot ?_ ?_ (le_refl n)
  · intro _; exact ⟨rfl, fun s => by simp⟩
  · intro k hk t ih _
    obtain ⟨hlen, hrd⟩ := ih (Nat.le_of_lt hk)
    refine ⟨by simp [hlen], fun s => ?_⟩
    rw [rd_wr, hlen]
    by_cases hks : k = s
    · subst hks
      have : k < tot.length := by omega
      simp [this, hrd]
    · rw [if_neg (fun h => hks h.1), hrd]
      by_cases h1 : s < k
      · have : s < k + 1 := by omega
        simp [h1, this]
      · have : ¬ s < k + 1 := by omega
        simp [h1, this]

theorem countSpecies_spec (v : List ℚ) (n m : Nat) :
    (countSpecies v n m).length = m ∧
    ∀ s, s < m → rd (countSpecies v n m) s = speciesTotal v n m s := by
  unfold countSpecies
  refine forLoop_induction
    (fun k t => t.length = m ∧ ∀ s, s < m → rd t s = speciesTotal v k m s) n _ _ ?_ ?_
  · exact ⟨by simp, fun s _ => by simp [rd_replicate_zero]⟩
  · intro k _ t ⟨hlen, hrd⟩
    have h := forLoop_accumulate (fun j => rd v (k * m + j)) m t (by omega)
    refine ⟨by rw [h.1, hlen], fun s hs => ?_⟩
    rw [h.2 s, if_pos hs, hrd s hs, speciesTotal_succ]

theorem IntegerValued.wr_int {v : List ℚ} (h : IntegerValued v) (i : Nat) (z : Int) :
    IntegerValued (wr v i (z : ℚ)) := by
  intro j
  rw [rd_wr]
  split_ifs
  · exact ⟨z, rfl⟩
  · exact h j

theorem IntegerValued.total_int {v : List ℚ} (h : IntegerValued v) (n m s : Nat) :
    ∃ z : Int, speciesTotal v n m s = (z : ℚ) := by
  induction n with
  | zero => exact ⟨0, by simp⟩
  | succ n ih =>
    obtain ⟨a, ha⟩ := ih
    obtain ⟨b, hb⟩ := h (n * m + s)
    exact ⟨a + b, by rw [speciesTotal_succ, ha, hb]; push_cast; ring⟩

theorem drawTrialState_spec (mesh_x : List ℚ) (n m : Nat) (rng : Rng) :
    (drawTrialState mesh_x n m rng).1.length = mesh_x.length ∧
    IntegerValued (drawTrialState mesh_x n m rng).1 := by
  unfold drawTrialState
  refine forLoop_invariant
    (fun p : List ℚ × Rng => p.1.length = mesh_x.length ∧ IntegerValued p.1) _ _ _ ?_ ?_
  · exact ⟨by simp, fun i => ⟨0, by simp [rd_replicate_zero]⟩⟩
  · intro k _ p ⟨hlen, hint⟩
    split_ifs
    · refine ⟨by simp [hlen], ?_⟩
      have := hint.wr_int k ((p.2.poisson p.2.pos (rd mesh_x k) : Nat) : Int)
      simpa using this
    · refine ⟨by simp [hlen], ?_⟩
      have := hint.wr_int k (max 0 ⌊p.2.normal p.2.pos (rd mesh_x k)⌋)
      simpa using this

theorem static_cast_int_intCast (z : Int) : static_cast_int (z : ℚ) = z := by
  unfold static_cast_int
  split_ifs <;> simp

theorem correctOnce_spec (mesh_x : List ℚ) (n m s : Nat) (rm_species : Bool) (target : ℚ)
    (hs : s < m) (meshes : List Nat) (hmeshes : ∀ i ∈ meshes, i < n) (cumul : ℚ)
    (sto : List ℚ) (c : Nat) (hlen : sto.length = n * m) :
    (correctOnce mesh_x m s rm_species target meshes cumul sto c).1.length = n * m ∧
    ∀ s', s' < m →
      speciesTotal (correctOnce mesh_x m s rm_species target meshes cumul sto c).1 n m s' =
        speciesTotal sto n m s' +
          (if s' = s then
            signedChange rm_species c
              (correctOnce mesh_x m s rm_species target meshes cumul sto c).2
           else 0) := by
  induction meshes generalizing cumul with
  | nil =>
    refine ⟨by simpa [correctOnce] using hlen, fun s' _ => ?_⟩
    simp [correctOnce, signedChange]
  | cons i rest ih =>
    have hi : i < n := hmeshes i (List.mem_cons_self _ _)
    have hidx : i * m + s < sto.length := by rw [hlen]; exact flat_index_lt hi hs
    unfold correctOnce
    dsimp only
    by_cases ht : target < cumul + rd mesh_x (i * m + s)
    · rw [if_pos ht]
      cases rm_species with
      | true =>
        by_cases hpos : rd sto (i * m + s) > 0
        · simp only [if_true, if_pos hpos]
          refine ⟨by simp [hlen], fun s' hs' => ?_⟩
          rw [speciesTotal_wr sto n m s' i s _ hs' hs hidx]
          by_cases e : s' = s
          · simp [e, hi, signedChange]
          · simp [e]
        · simp only [if_true, if_neg hpos]
          exact ⟨hlen, fun s' _ => by simp [signedChange]⟩
      | false =>
        simp only [Bool.false_eq_true, if_false]
        refine ⟨by simp [hlen], fun s' hs' => ?_⟩
        rw [speciesTotal_wr sto n m s' i s _ hs' hs hidx]
        by_cases e : s' = s
        · simp [e, hi, signedChange]
        · simp [e]
    · rw [if_neg ht]
      exact ih (fun j hj => hmeshes j (List.mem_cons_of_mem _ hj)) _

theorem signedChange_trans (rm_species : Bool) (a b c : Nat) :
    signedChange rm_species a b + signedChange rm_species b c = signedChange rm_species a c := by
  unfold signedChange
  split_ifs <;> ring

theorem correctionLoop_spec (mesh_x : List ℚ) (n m s : Nat) (rm_species : Bool) (tot_s : ℚ)
    (delta : Nat) (hs : s < m) (fuel : Nat) :
    ∀ (sto : List ℚ) (c : Nat) (rng : Rng) (out : List ℚ × Rng), sto.length = n * m →
      correctionLoop mesh_x n m s rm_species tot_s delta fuel sto c rng = some out →
      out.1.length = n * m ∧
      ∀ s', s' < m → speciesTotal out.1 n m s' =
        speciesTotal sto n m s' + (if s' = s then signedChange rm_species c delta else 0) := by
  induction fuel with
  | zero => intro sto c rng out _ h; simp [correctionLoop] at h
  | succ fuel ih =>
    intro sto c rng out hlen h
    unfold correctionLoop at h
    dsimp only at h
    have hone := correctOnce_spec mesh_x n m s rm_species (rng.uniform rng.pos * tot_s) hs
      (List.range n) (fun i hi => List.mem_range.mp hi) 0 sto c hlen
    by_cases hd : (correctOnce mesh_x m s rm_species (rng.uniform rng.pos * tot_s)
        (List.range n) 0 sto c).2 = delta
    · rw [if_pos hd] at h
      have hout := Option.some.inj h
      subst hout
      refine ⟨hone.1, fun s' hs' => ?_⟩
      rw [hone.2 s' hs', hd]
    · rw [if_neg hd] at h
      obtain ⟨h1, h2⟩ := ih _ _ _ out hone.1 h
      refine ⟨h1, fun s' hs' => ?_⟩
      rw [h2 s' hs', hone.2 s' hs']
      by_cases e : s' = s
      · simp only [if_pos e]
        rw [add_assoc, signedChange_trans]
      · simp [e]

theorem correctSpecies_spec (fuel : Nat) (mesh_x : List ℚ) (n m : Nat)
    (tot_species dtot_species : List ℚ) (s : Nat) (hs : s < m) (D : Int)
    (hD : rd dtot_species s = (D : ℚ)) (p out : List ℚ × Rng) (hlen : p.1.length = n * m)
    (h : correctSpecies fuel mesh_x n m tot_species dtot_species s p = some out) :
    out.1.length = n * m ∧
    ∀ s', s' < m → speciesTotal out.1 n m s' =
      speciesTotal p.1 n m s' + (if s' = s then -(D : ℚ) else 0) := by
  unfold correctSpecies at h
  rw [hD, static_cast_int_intCast] at h
  dsimp only at h
  by_cases hz : D = 0
  · rw [if_pos hz] at h
    have := Option.some.inj h
    subst this
    exact ⟨hlen, fun s' _ => by simp [hz]⟩
  · rw [if_neg hz] at h
    obtain ⟨h1, h2⟩ := correctionLoop_spec mesh_x n m s _ _ _ hs fuel _ _ _ out hlen h
    refine ⟨h1, fun s' hs' => ?_⟩
    rw [h2 s' hs']
    by_cases e : s' = s
    · simp only [if_pos e, signedChange]
      by_cases hpos : D > 0
      · have hz1 : ((D.natAbs : Nat) : Int) = D := Int.natAbs_of_nonneg (le_of_lt hpos)
        have hq : ((D.natAbs : Nat) : ℚ) = (D : ℚ) := by
          rw [← Int.cast_natCast, hz1]
        simp only [decide_eq_true hpos, if_true, hq]
        simp
      · have hneg : D ≤ 0 := not_lt.mp hpos
        have hz1 : ((D.natAbs : Nat) : Int) = -D := Int.ofNat_natAbs_of_nonpos hneg
        have hq : ((D.natAbs : Nat) : ℚ) = -(D : ℚ) := by
          rw [← Int.cast_natCast, hz1, Int.cast_neg]
        simp only [decide_eq_false hpos, Bool.false_eq_true, if_false, hq]
        simp
    · simp [e]

theorem correctAll_spec (fuel : Nat) (mesh_x : List ℚ) (n m : Nat)
    (tot_species dtot_species : List ℚ) (D : Nat → Int) (species : List Nat) :
    ∀ (p out : List ℚ × Rng), species.Nodup → (∀ s ∈ species, s < m) →
      (∀ s ∈ species, rd dtot_species s = (D s : ℚ)) → p.1.length = n * m →
      correctAll fuel mesh_x n m tot_species dtot_species species p = some out →
      out.1.length = n * m ∧
      ∀ s', s' < m → speciesTotal out.1 n m s' =
        speciesTotal p.1 n m s' + (if s' ∈ species then -(D s' : ℚ) else 0) := by
  induction species with
  | nil =>
    intro p out _ _ _ hlen h
    simp only [correctAll] at h
    have := Option.some.inj h
    subst this
    exact ⟨hlen, fun s' _ => by simp⟩
  | cons s rest ih =>
    intro p out hnd hlt hD hlen h
    unfold correctAll at h
    cases hc : correctSpecies fuel mesh_x n m tot_species dtot_species s p with
    | none => rw [hc] at h; simp at h
    | some q =>
      rw [hc] at h
      dsimp only at h
      have hs : s < m := hlt s (List.mem_cons_self _ _)
      obtain ⟨q1, q2⟩ := correctSpecies_spec fuel mesh_x n m tot_species dtot_species s hs (D s)
        (hD s (List.mem_cons_self _ _)) p q hlen hc
      obtain ⟨r1, r2⟩ := ih q out (List.nodup_cons.mp hnd).2
        (fun x hx => hlt x (List.mem_cons_of_mem _ hx))
        (fun x hx => hD x (List.mem_cons_of_mem _ hx)) q1 h
      refine ⟨r1, fun s' hs' => ?_⟩
      rw [r2 s' hs', q2 s' hs']
      have hnotin : s ∉ rest := (List.nodup_cons.mp hnd).1
      by_cases e : s' = s
      · subst e
        simp [hnotin]
      · simp [e]

theorem rd_map_floor (v : List ℚ) (s : Nat) :
    rd (v.map (fun q => ((⌊q⌋ : Int) : ℚ))) s = ((⌊rd v s⌋ : Int) : ℚ) := by
  unfold rd
  rw [List.getD_eq_getElem?_getD, List.getD_eq_getElem?_getD, List.getElem?_map]
  cases v[s]? <;> simp

theorem rd_map_range (g : Nat → ℚ) (n s : Nat) (hs : s < n) :
    rd ((List.range n).map g) s = g s := by
  unfold rd
  rw [List.getD_eq_getElem?_getD, List.getElem?_map, List.getElem?_range hs]
  rfl

/-- C1.  Whenever `GenerateStochasticDistribution` returns on a non-negative
mesh-major input of `n_meshes * n_species` cells, the returned state has, for
every species `s`, a total over the meshes equal to the floor of the total of
the input. -/
theorem C1_stochastic_totals (fuel n_meshes n_species : Nat) (mesh_x : List ℚ) (rng : Rng)
    (out : List ℚ) (hlen : mesh_x.length = n_meshes * n_species)
    (_hnn : ∀ q ∈ mesh_x, 0 ≤ q)
    (hret : GenerateStochasticDistribution fuel mesh_x n_meshes n_species rng = some out) :
    ∀ s, s < n_species →
      speciesTotal out n_meshes n_species s =
        ((⌊speciesTotal mesh_x n_meshes n_species s⌋ : Int) : ℚ) := by
  intro s hs
  unfold GenerateStochasticDistribution at hret
  dsimp only at hret
  obtain ⟨tlen, tint⟩ := drawTrialState_spec mesh_x n_meshes n_species rng
  obtain ⟨_, c1⟩ := countSpecies_spec mesh_x n_meshes n_species
  obtain ⟨_, c2⟩ := countSpecies_spec (drawTrialState mesh_x n_meshes n_species rng).1
    n_meshes n_species
  have hZ : ∀ s', ∃ z : Int,
      speciesTotal (drawTrialState mesh_x n_meshes n_species rng).1 n_meshes n_species s' -
        ((⌊speciesTotal mesh_x n_meshes n_species s'⌋ : Int) : ℚ) = (z : ℚ) := by
    intro s'
    obtain ⟨a, ha⟩ := tint.total_int n_meshes n_species s'
    exact ⟨a - ⌊speciesTotal mesh_x n_meshes n_species s'⌋, by rw [ha]; push_cast; ring⟩
  choose D hD using hZ
  cases hc : correctAll fuel mesh_x n_meshes n_species
      ((countSpecies mesh_x n_meshes n_species).map (fun q => ((⌊q⌋ : Int) : ℚ)))
      ((List.range n_species).map (fun i =>
        rd (countSpecies (drawTrialState mesh_x n_meshes n_species rng).1 n_meshes n_species) i -
          rd ((countSpecies mesh_x n_meshes n_species).map (fun q => ((⌊q⌋ : Int) : ℚ))) i))
      (List.range n_species) (drawTrialState mesh_x n_meshes n_species rng) with
  | none => rw [hc] at hret; simp at hret
  | some p =>
    rw [hc] at hret
    have hp : p.1 = out := by simpa using hret
    have key := correctAll_spec fuel mesh_x n_meshes n_species _ _ (fun s' => D s')
      (List.range n_species) _ p (List.nodup_range _) (fun x hx => List.mem_range.mp hx)
      (fun x hx => by
        have hx' : x < n_species := List.mem_range.mp hx
        rw [rd_map_range _ _ _ hx', rd_map_floor, c1 x hx', c2 x hx']
        exact hD x)
      (by rw [tlen, hlen]) hc
    rw [← hp, key.2 s hs, if_pos (List.mem_range.mpr hs), ← hD s]
    ring

/-- C1 on a run: two meshes holding `1/2` and `3/2` of one species, all trial
draws `0`, uniform draws `1/2`; the two corrections land on mesh 1. -/
theorem C1_stochastic_totals_witness :
    GenerateStochasticDistribution 5 [1 / 2, 3 / 2] 2 1
        { pos := 0, uniform := fun _ => 1 / 2, poisson := fun _ _ => 0, normal := fun _ _ => 0 }
      = some [0, 2] ∧
    ∀ s, s < 1 → speciesTotal [0, 2] 2 1 s = ((⌊speciesTotal [1 / 2, 3 / 2] 2 1 s⌋ : Int) : ℚ) :=
  ⟨by decide!, C1_stochastic_totals 5 2 1 [1 / 2, 3 / 2]
    { pos := 0, uniform := fun _ => 1 / 2, poisson := fun _ _ => 0, normal := fun _ _ => 0 }
    [0, 2] (by decide) (by decide!) (by decide!)⟩

/-! ## Frame properties of the sampling scheduler -/

/-- A loop whose body preserves a projection of the state preserves it. -/
theorem forLoop_preserve {σ β : Type} (proj : σ → β) (n : Nat) (body : Nat → σ → σ) (st : σ)
    (h : ∀ k, k < n → ∀ s, proj (body k s) = proj s) :
    proj (forLoop n body st) = proj st :=
  forLoop_invariant (fun s => proj s = proj st) n body st rfl
    (fun k hk s hs => (h k hk s).trans hs)

namespace SimulationAlgorithmBase

/-- The scheduler state: what the sampling methods may change. -/
theorem Sample_frame (b : SimulationAlgorithmBase) :
    ∃ sx st g, b.Sample =
      { b with sampled_mesh_x := sx, sampled_t := st, sampling_done_this_iteration := g } := by
  unfold Sample
  split_ifs
  · exact ⟨_, _, _, rfl⟩
  · exact ⟨_, _, _, rfl⟩

theorem SampleOnTSampleLoop_frame (k : Nat) : ∀ b : SimulationAlgorithmBase,
    ∃ sx st g p, SampleOnTSampleLoop k b =
      { b with sampled_mesh_x := sx, sampled_t := st, sampling_done_this_iteration := g,
               sample_pos := p } := by
  induction k with
  | zero => intro b; exact ⟨_, _, _, _, rfl⟩
  | succ k ih =>
    intro b
    unfold SampleOnTSampleLoop
    split_ifs
    · obtain ⟨sx, st, g, hs⟩ := b.Sample_frame
      obtain ⟨sx', st', g', p', h'⟩ := ih { b.Sample with sample_pos := b.sample_pos + 1 }
      rw [h', hs]
      exact ⟨_, _, _, _, rfl⟩
    · exact ⟨_, _, _, _, rfl⟩

theorem SamplingStep_frame (b : SimulationAlgorithmBase) :
    ∃ sx st g p l, b.SamplingStep =
      { b with sampled_mesh_x := sx, sampled_t := st, sampling_done_this_iteration := g,
               sample_pos := p, last_tsi_ratio := l } := by
  unfold SamplingStep
  split_ifs
  · obtain ⟨sx, st, g, p, h⟩ := SampleOnTSampleLoop_frame (b.n_samples - b.sample_pos) b
    unfold SampleOnTSample
    rw [h]
    exact ⟨_, _, _, _, _, rfl⟩
  · obtain ⟨sx, st, g, h⟩ := b.Sample_frame
    rw [h]
    exact ⟨_, _, _, _, _, rfl⟩
  · obtain ⟨sx, st, g, h⟩ := b.Sample_frame
    unfold SampleOnInterval
    dsimp only
    split_ifs
    · rw [h]; exact ⟨_, _, _, _, _, rfl⟩
    · exact ⟨_, _, _, _, _, rfl⟩
  · exact ⟨_, _, _, _, _, rfl⟩

theorem CheckTMax_frame (b : SimulationAlgorithmBase) :
    ∃ c, b.CheckTMax = { b with complete := c } := by
  unfold CheckTMax FlagAsComplete
  split_ifs
  · exact ⟨_, rfl⟩
  · exact ⟨_, rfl⟩

/-- The sampling pass and the `t_max` test together. -/
theorem SamplingStep_CheckTMax_frame (b : SimulationAlgorithmBase) :
    ∃ sx st g p l c, b.SamplingStep.CheckTMax =
      { b with sampled_mesh_x := sx, sampled_t := st, sampling_done_this_iteration := g,
               sample_pos := p, last_tsi_ratio := l, complete := c } := by
  obtain ⟨sx, st, g, p, l, h⟩ := b.SamplingStep_frame
  obtain ⟨c, h'⟩ := b.SamplingStep.CheckTMax_frame
  rw [h', h]
  exact ⟨_, _, _, _, _, _, rfl⟩

end SimulationAlgorithmBase

/-! ## Chemostats: the Euler kernels -/

/-- Writing `0` into a cell makes it read `0`, inside the vector or not. -/
theorem rd_wr_zero {α : Type} [Zero α] (v : List α) (i : Nat) : rd (wr v i 0) i = 0 := by
  rw [rd_wr]
  split_ifs with h
  · rfl
  · exact rd_of_length_le v (by
      have : ¬ i < v.length := fun hl => h ⟨rfl, hl⟩
      omega)

/-- A write of the value already read leaves every cell as it reads. -/
theorem rd_wr_of_eq (v : List ℚ) (i j : Nat) (a : ℚ) (h : i = j → a = rd v j) :
    rd (wr v i a) j = rd v j := by
  rw [rd_wr]
  split_ifs with hc
  · exact h hc.1
  · rfl

/-- The loop of `Apply_dxdt` (both topologies) keeps every cell whose
derivative reads `0`. -/
theorem apply_dxdt_keeps (n_meshes n_species : Nat) (mesh_dxdt : List ℚ) (dt : ℚ)
    (mesh_x : List ℚ) (f : Nat) (h0 : rd mesh_dxdt f = 0) :
    rd (forLoop n_meshes (fun i mesh_x =>
        forLoop n_species (fun j mesh_x =>
          wr mesh_x (i * n_species + j)
            (rd mesh_x (i * n_species + j) + rd mesh_dxdt (i * n_species + j) * dt))
          mesh_x) mesh_x) f = rd mesh_x f := by
  refine forLoop_preserve (fun v => rd v f) _ _ _ (fun i _ v => ?_)
  refine forLoop_preserve (fun v => rd v f) _ _ _ (fun j _ v => ?_)
  exact rd_wr_of_eq _ _ _ _ (fun e => by rw [e, h0]; ring)

/-- The body of the loop over species of `Compute_dxdt` writes cell
`idx = i * n_species + s` only: the shape shared by both topologies. -/
theorem dxdt_cell_other (idx f : Nat) (hne : idx ≠ f) (c : Prop) [Decidable c]
    (n1 n2 : Nat) (body1 body2 : Nat → List ℚ → List ℚ)
    (h1 : ∀ r v, rd (body1 r v) f = rd v f) (h2 : ∀ n v, rd (body2 n v) f = rd v f)
    (d : List ℚ) :
    rd (if c then wr d idx 0 else forLoop n2 body2 (forLoop n1 body1 (wr d idx 0))) f =
      rd d f := by
  split_ifs
  · exact rd_wr_ne _ _ hne
  · have e2 := forLoop_preserve (fun v => rd v f) n2 body2 (forLoop n1 body1 (wr d idx 0))
      (fun n _ v => h2 n v)
    have e1 := forLoop_preserve (fun v => rd v f) n1 body1 (wr d idx 0) (fun r _ v => h1 r v)
    exact e2.trans (e1.trans (rd_wr_ne _ _ hne))

/-- The two outer loops of `Compute_dxdt`: when every cell body writes its own
cell only and leaves `0` in a chemostatted cell, a chemostatted cell reads `0`
after the loops. -/
theorem compute_dxdt_chstt (n_meshes n_species : Nat) (mesh_chstt : List Int)
    (cell : Nat → Nat → List ℚ → List ℚ)
    (hother : ∀ i j v f, i * n_species + j ≠ f → rd (cell i j v) f = rd v f)
    (hchstt : ∀ i j v, rd mesh_chstt (i * n_species + j) ≠ 0 →
      rd (cell i j v) (i * n_species + j) = 0)
    (d : List ℚ) (i0 s0 : Nat) (hi : i0 < n_meshes) (hs : s0 < n_species)
    (hc : rd mesh_chstt (i0 * n_species + s0) ≠ 0) :
    rd (forLoop n_meshes (fun i d => forLoop n_species (fun j d => cell i j d) d) d)
      (i0 * n_species + s0) = 0 := by
  refine forLoop_induction
    (fun k d => i0 < k → rd d (i0 * n_species + s0) = 0) n_meshes _ _
    (fun h => absurd h (Nat.not_lt_zero _)) ?_ hi
  intro k _ d ih hlt
  by_cases hk : i0 < k
  · refine Eq.trans ?_ (ih hk)
    refine forLoop_preserve (fun v => rd v (i0 * n_species + s0)) _ _ _ (fun j hj v => ?_)
    exact hother k j v _ (fun h => by
      have := (flat_index_inj hj hs h).1
      omega)
  · have hik : i0 = k := by omega
    subst hik
    refine forLoop_induction
      (fun j v => s0 < j → rd v (i0 * n_species + s0) = 0) n_species _ _
      (fun h => absurd h (Nat.not_lt_zero _)) ?_ hs
    intro j hj v ihj hlt'
    by_cases hjs : s0 < j
    · refine Eq.trans ?_ (ihj hjs)
      exact hother i0 j v _ (by omega)
    · have hsj : s0 = j := by omega
      subst hsj
      exact hchstt i0 s0 v hc

/-- Iterating a step keeps a quantity that every step keeps under an
invariant of the step. -/
theorem iterate_keeps {σ β : Type} (step : σ → σ) (inv : σ → Prop) (val : σ → β)
    (hinv : ∀ s, inv s → inv (step s)) (hval : ∀ s, inv s → val (step s) = val s) (n : Nat) :
    ∀ s, inv s → inv (step^[n] s) ∧ val (step^[n] s) = val s := by
  induction n with
  | zero => intro s hs; exact ⟨hs, rfl⟩
  | succ n ih =>
    intro s hs
    rw [Function.iterate_succ_apply]
    obtain ⟨h1, h2⟩ := ih (step s) (hinv s hs)
    exact ⟨h1, h2.trans (hval s hs)⟩

namespace Euler3D

theorem Compute_dxdt_chstt_euler3D (m : Libm) (e : Euler3D) (i0 s0 : Nat) (hi : i0 < e.n_meshes)
    (hs : s0 < e.n_species) (hc : rd e.mesh_chstt (i0 * e.n_species + s0) ≠ 0) :
    rd (e.Compute_dxdt m).mesh_dxdt (i0 * e.n_species + s0) = 0 := by
  unfold Compute_dxdt
  dsimp only
  refine compute_dxdt_chstt e.n_meshes e.n_species e.mesh_chstt _ ?_ ?_ _ i0 s0 hi hs hc
  · intro i j v f hne
    refine dxdt_cell_other _ f hne _ _ _ _ _ (fun r v => rd_wr_ne _ _ hne) (fun n v => ?_) v
    split_ifs
    · exact rd_wr_ne _ _ hne
    · rfl
  · intro i j v hch
    rw [if_pos hch]
    exact rd_wr_zero _ _

/-- What one `Iterate` of `Euler3D` keeps: the sizes, the chemostat table and
every chemostatted cell. -/
theorem Iterate_chstt_euler3D (m : Libm) (e : Euler3D) (i0 s0 : Nat) (hi : i0 < e.n_meshes)
    (hs : s0 < e.n_species) (hc : rd e.mesh_chstt (i0 * e.n_species + s0) ≠ 0) :
    ((e.Iterate m).2.n_meshes = e.n_meshes ∧ (e.Iterate m).2.n_species = e.n_species ∧
      (e.Iterate m).2.mesh_chstt = e.mesh_chstt) ∧
    rd (e.Iterate m).2.mesh_x (i0 * e.n_species + s0) = rd e.mesh_x (i0 * e.n_species + s0) := by
  unfold Iterate
  dsimp only
  split_ifs
  · exact ⟨⟨rfl, rfl, rfl⟩, rfl⟩
  · obtain ⟨sx, st, g, p, l, c, h⟩ := SimulationAlgorithmBase.SamplingStep_CheckTMax_frame
      { (Apply_dxdt (Compute_dxdt m { e with sampling_done_this_iteration := false })).toSimulationAlgorithmBase with
        t := (Apply_dxdt (Compute_dxdt m { e with sampling_done_this_iteration := false })).t +
          (Apply_dxdt (Compute_dxdt m { e with sampling_done_this_iteration := false })).dt }
    rw [h]
    exact ⟨⟨rfl, rfl, rfl⟩, apply_dxdt_keeps _ _ _ _ _ _
      (Compute_dxdt_chstt_euler3D m { e with sampling_done_this_iteration := false } i0 s0 hi hs hc)⟩

end Euler3D

namespace EulerGraph

theorem Compute_dxdt_chstt_eulerGraph (m : Libm) (e : EulerGraph) (i0 s0 : Nat) (hi : i0 < e.n_meshes)
    (hs : s0 < e.n_species) (hc : rd e.mesh_chstt (i0 * e.n_species + s0) ≠ 0) :
    rd (e.Compute_dxdt m).mesh_dxdt (i0 * e.n_species + s0) = 0 := by
  unfold Compute_dxdt
  dsimp only
  refine compute_dxdt_chstt e.n_meshes e.n_species e.mesh_chstt _ ?_ ?_ _ i0 s0 hi hs hc
  · intro i j v f hne
    exact dxdt_cell_other _ f hne _ _ _ _ _ (fun r v => rd_wr_ne _ _ hne)
      (fun n v => rd_wr_ne _ _ hne) v
  · intro i j v hch
    rw [if_pos hch]
    exact rd_wr_zero _ _

/-- What one `Iterate` of `EulerGraph` keeps: the sizes, the chemostat table
and every chemostatted cell. -/
theorem Iterate_chstt_eulerGraph (m : Libm) (e : EulerGraph) (i0 s0 : Nat) (hi : i0 < e.n_meshes)
    (hs : s0 < e.n_species) (hc : rd e.mesh_chstt (i0 * e.n_species + s0) ≠ 0) :
    ((e.Iterate m).2.n_meshes = e.n_meshes ∧ (e.Iterate m).2.n_species = e.n_species ∧
      (e.Iterate m).2.mesh_chstt = e.mesh_chstt) ∧
    rd (e.Iterate m).2.mesh_x (i0 * e.n_species + s0) = rd e.mesh_x (i0 * e.n_species + s0) := by
  unfold Iterate
  dsimp only
  split_ifs
  · exact ⟨⟨rfl, rfl, rfl⟩, rfl⟩
  · obtain ⟨sx, st, g, p, l, c, h⟩ := SimulationAlgorithmBase.SamplingStep_CheckTMax_frame
      { (Apply_dxdt (Compute_dxdt m { e with sampling_done_this_iteration := false })).toSimulationAlgorithmBase with
        t := (Apply_dxdt (Compute_dxdt m { e with sampling_done_this_iteration := false })).t +
          (Apply_dxdt (Compute_dxdt m { e with sampling_done_this_iteration := false })).dt }
    rw [h]
    exact ⟨⟨rfl, rfl, rfl⟩, apply_dxdt_keeps _ _ _ _ _ _
      (Compute_dxdt_chstt_eulerGraph m { e with sampling_done_this_iteration := false } i0 s0 hi hs hc)⟩

end EulerGraph

/-! ## Chemostats: the tau-leap kernels and the graph Gillespie kernel -/

/-- A write guarded by the chemostat flag of the written cell keeps every
chemostatted cell. -/
theorem guarded_wr_keeps (mesh_chstt : List Int) (f : Nat) (hc : rd mesh_chstt f ≠ 0)
    (v : List ℚ) (idx : Nat) (a : ℚ) :
    rd (if ¬ (rd mesh_chstt idx ≠ 0) then wr v idx a else v) f = rd v f := by
  by_cases h : rd mesh_chstt idx ≠ 0
  · rw [if_neg (fun hn => hn h)]
  · rw [if_pos h]
    exact rd_wr_ne _ _ (fun e => h (by rw [e]; exact hc))

/-- The same, with the test written the other way round (`continue`). -/
theorem skipped_wr_keeps (mesh_chstt : List Int) (f : Nat) (hc : rd mesh_chstt f ≠ 0)
    (v : List ℚ) (idx : Nat) (a : ℚ) :
    rd (if rd mesh_chstt idx ≠ 0 then v else wr v idx a) f = rd v f := by
  by_cases h : rd mesh_chstt idx ≠ 0
  · rw [if_pos h]
  · rw [if_neg h]
    exact rd_wr_ne _ _ (fun e => h (by rw [e]; exact hc))

/-- The same, for a signed index. -/
theorem guarded_wrI_keeps (mesh_chstt : List Int) (f : Nat) (hc : rd mesh_chstt f ≠ 0)
    (v : List ℚ) (idx : Int) (a : ℚ) :
    rd (if ¬ (rdI mesh_chstt idx ≠ 0) then wrI v idx a else v) f = rd v f := by
  by_cases h : rdI mesh_chstt idx ≠ 0
  · rw [if_neg (fun hn => hn h)]
  · rw [if_pos h]
    unfold wrI
    by_cases h0 : 0 ≤ idx
    · rw [if_pos h0]
      refine rd_wr_ne _ _ (fun e => h ?_)
      unfold rdI
      rw [if_pos h0, e]
      exact hc
    · rw [if_neg h0]

namespace TauLeap3D

/-- Method `Compute_nevt` changes the event counts and the generator only. -/
theorem Compute_nevt_frame_tauLeap3D (e : TauLeap3D) :
    ∃ nr nd g, e.Compute_nevt = { e with mesh_nr := nr, mesh_nd := nd, rng := g } := by
  unfold Compute_nevt
  refine forLoop_invariant
    (fun s : TauLeap3D => ∃ nr nd g, s = { e with mesh_nr := nr, mesh_nd := nd, rng := g })
    _ _ _ ⟨_, _, _, rfl⟩ (fun i _ s hs => ?_)
  refine forLoop_invariant
    (fun s : TauLeap3D => ∃ nr nd g, s = { e with mesh_nr := nr, mesh_nd := nd, rng := g })
    _ _ _ ?_ (fun sp _ s hs => ?_)
  · refine forLoop_invariant
      (fun s : TauLeap3D => ∃ nr nd g, s = { e with mesh_nr := nr, mesh_nd := nd, rng := g })
      _ _ _ hs (fun r _ s hs => ?_)
    obtain ⟨nr, nd, g, rfl⟩ := hs
    exact ⟨_, _, _, rfl⟩
  · refine forLoop_invariant
      (fun s : TauLeap3D => ∃ nr nd g, s = { e with mesh_nr := nr, mesh_nd := nd, rng := g })
      _ _ _ hs (fun n _ s hs => ?_)
    obtain ⟨nr, nd, g, rfl⟩ := hs
    split_ifs
    · exact ⟨_, _, _, rfl⟩
    · exact ⟨_, _, _, rfl⟩

theorem Apply_nevt_chstt_tauLeap3D (e : TauLeap3D) (f : Nat) (hc : rd e.mesh_chstt f ≠ 0) :
    rd e.Apply_nevt.mesh_x f = rd e.mesh_x f := by
  unfold Apply_nevt
  dsimp only
  refine forLoop_preserve (fun v => rd v f) _ _ _ (fun i _ v => ?_)
  refine Eq.trans (forLoop_preserve (fun v => rd v f) _ _ _ (fun sp _ v => ?_)) ?_
  · refine forLoop_preserve (fun v => rd v f) _ _ _ (fun n _ v => ?_)
    by_cases h : rd e.mesh_nd (i * 6 * e.n_species + sp * 6 + n) = 0
    · exact congrArg (fun v => rd v f) (if_pos h)
    · refine (congrArg (fun v => rd v f) (if_neg h)).trans ?_
      exact (guarded_wrI_keeps e.mesh_chstt f hc _ _ _).trans
        (guarded_wr_keeps e.mesh_chstt f hc _ _ _)
  · refine forLoop_preserve (fun v => rd v f) _ _ _ (fun r _ v => ?_)
    refine forLoop_preserve (fun v => rd v f) _ _ _ (fun j _ v => ?_)
    exact skipped_wr_keeps e.mesh_chstt f hc v _ _

/-- What one `Iterate` of `TauLeap3D` keeps: the sizes, the chemostat table
and every chemostatted cell. -/
theorem Iterate_chstt_tauLeap3D (e : TauLeap3D) (f : Nat) (hc : rd e.mesh_chstt f ≠ 0) :
    (e.Iterate.2.n_meshes = e.n_meshes ∧ e.Iterate.2.n_species = e.n_species ∧
      e.Iterate.2.mesh_chstt = e.mesh_chstt) ∧
    rd e.Iterate.2.mesh_x f = rd e.mesh_x f := by
  unfold Iterate
  dsimp only
  split_ifs
  · exact ⟨⟨rfl, rfl, rfl⟩, rfl⟩
  · obtain ⟨sx, st, g, p, l, c, h⟩ := SimulationAlgorithmBase.SamplingStep_CheckTMax_frame
      { (Apply_nevt (Compute_nevt { e with sampling_done_this_iteration := false })).toSimulationAlgorithmBase with
        t := (Apply_nevt (Compute_nevt { e with sampling_done_this_iteration := false })).t +
          (Apply_nevt (Compute_nevt { e with sampling_done_this_iteration := false })).dt }
    rw [h]
    obtain ⟨nr, nd, g', hg⟩ := Compute_nevt_frame_tauLeap3D { e with sampling_done_this_iteration := false }
    have hx := Apply_nevt_chstt_tauLeap3D (Compute_nevt { e with sampling_done_this_iteration := false }) f
      (by rw [hg]; exact hc)
    refine ⟨⟨?_, ?_, ?_⟩, ?_⟩
    · show (Compute_nevt { e with sampling_done_this_iteration := false }).n_meshes = _
      rw [hg]
    · show (Compute_nevt { e with sampling_done_this_iteration := false }).n_species = _
      rw [hg]
    · show (Compute_nevt { e with sampling_done_this_iteration := false }).mesh_chstt = _
      rw [hg]
    · refine hx.trans ?_
      rw [hg]

end TauLeap3D


namespace TauLeapGraph

/-- Method `Compute_nevt` changes the event counts and the generator only. -/
theorem Compute_nevt_frame_tauLeapGraph (e : TauLeapGraph) :
    ∃ nr nd g, e.Compute_nevt = { e with mesh_nr := nr, mesh_nd := nd, rng := g } := by
  unfold Compute_nevt
  refine forLoop_invariant
    (fun s : TauLeapGraph => ∃ nr nd g, s = { e with mesh_nr := nr, mesh_nd := nd, rng := g })
    _ _ _ ⟨_, _, _, rfl⟩ (fun i _ s hs => ?_)
  refine forLoop_invariant
    (fun s : TauLeapGraph => ∃ nr nd g, s = { e with mesh_nr := nr, mesh_nd := nd, rng := g })
    _ _ _ ?_ (fun sp _ s hs => ?_)
  · refine forLoop_invariant
      (fun s : TauLeapGraph => ∃ nr nd g, s = { e with mesh_nr := nr, mesh_nd := nd, rng := g })
      _ _ _ hs (fun r _ s hs => ?_)
    obtain ⟨nr, nd, g, rfl⟩ := hs
    exact ⟨_, _, _, rfl⟩
  · refine forLoop_invariant
      (fun s : TauLeapGraph => ∃ nr nd g, s = { e with mesh_nr := nr, mesh_nd := nd, rng := g })
      _ _ _ hs (fun n _ s hs => ?_)
    obtain ⟨nr, nd, g, rfl⟩ := hs
    exact ⟨_, _, _, rfl⟩

theorem Apply_nevt_chstt_tauLeapGraph (e : TauLeapGraph) (f : Nat) (hc : rd e.mesh_chstt f ≠ 0) :
    rd e.Apply_nevt.mesh_x f = rd e.mesh_x f := by
  unfold Apply_nevt
  dsimp only
  refine forLoop_preserve (fun v => rd v f) _ _ _ (fun i _ v => ?_)
  refine Eq.trans (forLoop_preserve (fun v => rd v f) _ _ _ (fun sp _ v => ?_)) ?_
  · refine forLoop_preserve (fun v => rd v f) _ _ _ (fun n _ v => ?_)
    by_cases h : rd (rdRow e.mesh_nd i) (sp * rd e.mesh_neighbor_n i + n) = 0
    · exact congrArg (fun v => rd v f) (if_pos h)
    · refine (congrArg (fun v => rd v f) (if_neg h)).trans ?_
      exact (guarded_wr_keeps e.mesh_chstt f hc _ _ _).trans
        (guarded_wr_keeps e.mesh_chstt f hc _ _ _)
  · refine forLoop_preserve (fun v => rd v f) _ _ _ (fun r _ v => ?_)
    refine forLoop_preserve (fun v => rd v f) _ _ _ (fun j _ v => ?_)
    exact skipped_wr_keeps e.mesh_chstt f hc v _ _

/-- What one `Iterate` of `TauLeapGraph` keeps: the sizes, the chemostat table
and every chemostatted cell. -/
theorem Iterate_chstt_tauLeapGraph (e : TauLeapGraph) (f : Nat) (hc : rd e.mesh_chstt f ≠ 0) :
    (e.Iterate.2.n_meshes = e.n_meshes ∧ e.Iterate.2.n_species = e.n_species ∧
      e.Iterate.2.mesh_chstt = e.mesh_chstt) ∧
    rd e.Iterate.2.mesh_x f = rd e.mesh_x f := by
  unfold Iterate
  dsimp only
  split_ifs
  · exact ⟨⟨rfl, rfl, rfl⟩, rfl⟩
  · obtain ⟨sx, st, g, p, l, c, h⟩ := SimulationAlgorithmBase.SamplingStep_CheckTMax_frame
      { (Apply_nevt (Compute_nevt { e with sampling_done_this_iteration := false })).toSimulationAlgorithmBase with
        t := (Apply_nevt (Compute_nevt { e with sampling_done_this_iteration := false })).t +
          (Apply_nevt (Compute_nevt { e with sampling_done_this_iteration := false })).dt }
    rw [h]
    obtain ⟨nr, nd, g', hg⟩ := Compute_nevt_frame_tauLeapGraph { e with sampling_done_this_iteration := false }
    have hx := Apply_nevt_chstt_tauLeapGraph (Compute_nevt { e with sampling_done_this_iteration := false }) f
      (by rw [hg]; exact hc)
    refine ⟨⟨?_, ?_, ?_⟩, ?_⟩
    · show (Compute_nevt { e with sampling_done_this_iteration := false }).n_meshes = _
      rw [hg]
    · show (Compute_nevt { e with sampling_done_this_iteration := false }).n_species = _
      rw [hg]
    · show (Compute_nevt { e with sampling_done_this_iteration := false }).mesh_chstt = _
      rw [hg]
    · refine hx.trans ?_
      rw [hg]

end TauLeapGraph

namespace GillespieGraph

/-- Method `ComputePropensities` changes the propensity tables only. -/
theorem ComputePropensities_frame_gillespieGraph (g : GillespieGraph) :
    ∃ ar ad a0r a0d a0, g.ComputePropensities =
      { g with mesh_ar := ar, mesh_ad := ad, mesh_a0r := a0r, mesh_a0d := a0d, a0 := a0 } := by
  unfold ComputePropensities
  refine forLoop_invariant
    (fun s : GillespieGraph => ∃ ar ad a0r a0d a0, s =
      { g with mesh_ar := ar, mesh_ad := ad, mesh_a0r := a0r, mesh_a0d := a0d, a0 := a0 })
    _ _ _ ⟨_, _, _, _, _, rfl⟩ (fun i _ s hs => ?_)
  refine forLoop_invariant
    (fun s : GillespieGraph => ∃ ar ad a0r a0d a0, s =
      { g with mesh_ar := ar, mesh_ad := ad, mesh_a0r := a0r, mesh_a0d := a0d, a0 := a0 })
    _ _ _ ?_ (fun sp _ s hs => ?_)
  · refine forLoop_invariant
      (fun s : GillespieGraph => ∃ ar ad a0r a0d a0, s =
        { g with mesh_ar := ar, mesh_ad := ad, mesh_a0r := a0r, mesh_a0d := a0d, a0 := a0 })
      _ _ _ ?_ (fun r _ s hs => ?_)
    · obtain ⟨ar, ad, a0r, a0d, a0, rfl⟩ := hs
      exact ⟨_, _, _, _, _, rfl⟩
    · obtain ⟨ar, ad, a0r, a0d, a0, rfl⟩ := hs
      exact ⟨_, _, _, _, _, rfl⟩
  · refine forLoop_invariant
      (fun s : GillespieGraph => ∃ ar ad a0r a0d a0, s =
        { g with mesh_ar := ar, mesh_ad := ad, mesh_a0r := a0r, mesh_a0d := a0d, a0 := a0 })
      _ _ _ hs (fun n _ s hs => ?_)
    obtain ⟨ar, ad, a0r, a0d, a0, rfl⟩ := hs
    exact ⟨_, _, _, _, _, rfl⟩

theorem KeepsChemostats.refl (g : GillespieGraph) : KeepsChemostats g g :=
  ⟨g.mesh_x, rfl, fun _ _ => rfl⟩

theorem ApplyReaction_keeps (g : GillespieGraph) (i j : Nat) :
    KeepsChemostats g (g.ApplyReaction i j) := by
  refine ⟨_, rfl, fun f hc => ?_⟩
  refine forLoop_preserve (fun v => rd v f) _ _ _ (fun s _ v => ?_)
  exact guarded_wr_keeps g.mesh_chstt f hc v _ _

theorem ApplyDiffusion_keeps (g : GillespieGraph) (i j n : Nat) :
    KeepsChemostats g (g.ApplyDiffusion i j n) := by
  unfold ApplyDiffusion
  dsimp only
  by_cases h1 : rd g.mesh_chstt (i * g.n_species + j) ≠ 0
  · have e1 : (if ¬ (rd g.mesh_chstt (i * g.n_species + j) ≠ 0) then
        { g with
          mesh_x := wr g.mesh_x (i * g.n_species + j) (rd g.mesh_x (i * g.n_species + j) - 1) }
        else g) = g := if_neg (fun hn => hn h1)
    rw [e1]
    by_cases h2 : rd g.mesh_chstt
        (rd (rdRow g.mesh_neighbor_index i) n * g.n_species + j) ≠ 0
    · rw [if_neg (fun hn => hn h2)]
      exact KeepsChemostats.refl g
    · rw [if_pos h2]
      exact ⟨_, rfl, fun f hc => rd_wr_ne _ _ (fun e => h2 (by rw [e]; exact hc))⟩
  · have e1 : (if ¬ (rd g.mesh_chstt (i * g.n_species + j) ≠ 0) then
        { g with
          mesh_x := wr g.mesh_x (i * g.n_species + j) (rd g.mesh_x (i * g.n_species + j) - 1) }
        else g) =
        { g with
          mesh_x := wr g.mesh_x (i * g.n_species + j) (rd g.mesh_x (i * g.n_species + j) - 1) } :=
      if_pos h1
    rw [e1]
    dsimp only
    by_cases h2 : rd g.mesh_chstt
        (rd (rdRow g.mesh_neighbor_index i) n * g.n_species + j) ≠ 0
    · rw [if_neg (fun hn => hn h2)]
      exact ⟨_, rfl, fun f hc => rd_wr_ne _ _ (fun e => h1 (by rw [e]; exact hc))⟩
    · rw [if_pos h2]
      refine ⟨_, rfl, fun f hc => ?_⟩
      exact (rd_wr_ne _ _ (fun e => h2 (by rw [e]; exact hc))).trans
        (rd_wr_ne _ _ (fun e => h1 (by rw [e]; exact hc)))

theorem walkReactions_keeps (g : GillespieGraph) (i : Nat) (r2 : ℚ) (l : List Nat) :
    ∀ a, KeepsChemostats g (walkReactions g i r2 l a) := by
  induction l with
  | nil => intro a; exact KeepsChemostats.refl g
  | cons j rest ih =>
    intro a
    unfold walkReactions
    dsimp only
    split_ifs
    · exact ApplyReaction_keeps g i j
    · exact ih _

theorem walkDirections_keeps (g : GillespieGraph) (i j : Nat) (r2 : ℚ) (l : List Nat) :
    ∀ a, KeepsChemostats g (walkDirections g i j r2 l a).1 := by
  induction l with
  | nil => intro a; exact KeepsChemostats.refl g
  | cons n rest ih =>
    intro a
    unfold walkDirections
    dsimp only
    split_ifs
    · exact ApplyDiffusion_keeps g i j n
    · exact ih _

theorem walkSpecies_keeps (g : GillespieGraph) (i : Nat) (r2 : ℚ) (l : List Nat) :
    ∀ a, KeepsChemostats g (walkSpecies g i r2 l a) := by
  induction l with
  | nil => intro a; exact KeepsChemostats.refl g
  | cons j rest ih =>
    intro a
    unfold walkSpecies
    dsimp only
    split_ifs
    · exact walkDirections_keeps g i j r2 _ a
    · exact ih _

theorem walkMeshes_keeps (g : GillespieGraph) (r : ℚ) (l : List Nat) :
    ∀ a, KeepsChemostats g (walkMeshes g r l a) := by
  induction l with
  | nil => intro a; exact KeepsChemostats.refl g
  | cons i rest ih =>
    intro a
    unfold walkMeshes
    dsimp only
    split_ifs
    · exact walkReactions_keeps g i _ _ _
    · exact walkSpecies_keeps g i _ _ _
    · exact ih _

end GillespieGraph

namespace GillespieGraph

theorem DrawAndApplyEvent_keeps (g : GillespieGraph) :
    ∃ x gr, g.DrawAndApplyEvent = { g with mesh_x := x, rng := gr } ∧
      ∀ f, rd g.mesh_chstt f ≠ 0 → rd x f = rd g.mesh_x f := by
  unfold DrawAndApplyEvent
  dsimp only
  obtain ⟨x, hx, hk⟩ := walkMeshes_keeps { g with rng := g.rng.advance }
    (g.rng.uniform g.rng.pos * g.a0) (List.range g.n_meshes) 0
  exact ⟨x, g.rng.advance, hx, hk⟩

/-- What one `Iterate` of `GillespieGraph` keeps: the sizes, the chemostat
table and every chemostatted cell. -/
theorem Iterate_chstt_gillespieGraph (m : Libm) (g : GillespieGraph) (f : Nat) (hc : rd g.mesh_chstt f ≠ 0) :
    ((g.Iterate m).2.n_meshes = g.n_meshes ∧ (g.Iterate m).2.n_species = g.n_species ∧
      (g.Iterate m).2.mesh_chstt = g.mesh_chstt) ∧
    rd (g.Iterate m).2.mesh_x f = rd g.mesh_x f := by
  unfold Iterate
  dsimp only
  obtain ⟨ar, ad, a0r, a0d, a0, hcp⟩ :=
    ComputePropensities_frame_gillespieGraph { g with sampling_done_this_iteration := false }
  by_cases hcomp : g.complete = true
  · rw [if_pos hcomp]
    exact ⟨⟨rfl, rfl, rfl⟩, rfl⟩
  · rw [if_neg hcomp, hcp]
    dsimp only
    by_cases ha : a0 = 0
    · rw [if_pos ha]
      exact ⟨⟨rfl, rfl, rfl⟩, rfl⟩
    · rw [if_neg ha]
      obtain ⟨x, gr, hd, hk⟩ := DrawAndApplyEvent_keeps
        { g with sampling_done_this_iteration := false, mesh_ar := ar, mesh_ad := ad,
                 mesh_a0r := a0r, mesh_a0d := a0d, a0 := a0 }
      rw [hd]
      dsimp only
      obtain ⟨sx, st, gd, p, l, c, h⟩ := SimulationAlgorithmBase.SamplingStep_CheckTMax_frame
        { g.toSimulationAlgorithmBase with
          sampling_done_this_iteration := false, mesh_x := x,
          dt := m.log (1 / gr.uniform gr.pos) / a0, rng := gr.advance,
          t := g.t + m.log (1 / gr.uniform gr.pos) / a0 }
      rw [h]
      exact ⟨⟨rfl, rfl, rfl⟩, hk f hc⟩

end GillespieGraph

/-! ## C2: chemostatted cells are immutable -/

/-- C2.  For `Euler3D`, `EulerGraph`, `TauLeap3D`, `TauLeapGraph` and
`GillespieGraph`, for every state (and every generator in it) and every cell
`(i, s)` whose chemostat flag is not `0`, one `Iterate` call leaves
`mesh_x[i*n_species+s]` unchanged, and so does any number `n` of calls. -/
theorem C2_chemostat_immutable :
    (∀ (m : Libm) (e : Euler3D) (i s n : Nat), i < e.n_meshes → s < e.n_species →
      rd e.mesh_chstt (i * e.n_species + s) ≠ 0 →
      rd (e.Iterate m).2.mesh_x (i * e.n_species + s) = rd e.mesh_x (i * e.n_species + s) ∧
      rd ((fun e => (Euler3D.Iterate m e).2)^[n] e).mesh_x (i * e.n_species + s) =
        rd e.mesh_x (i * e.n_species + s)) ∧
    (∀ (m : Libm) (e : EulerGraph) (i s n : Nat), i < e.n_meshes → s < e.n_species →
      rd e.mesh_chstt (i * e.n_species + s) ≠ 0 →
      rd (e.Iterate m).2.mesh_x (i * e.n_species + s) = rd e.mesh_x (i * e.n_species + s) ∧
      rd ((fun e => (EulerGraph.Iterate m e).2)^[n] e).mesh_x (i * e.n_species + s) =
        rd e.mesh_x (i * e.n_species + s)) ∧
    (∀ (e : TauLeap3D) (i s n : Nat), rd e.mesh_chstt (i * e.n_species + s) ≠ 0 →
      rd e.Iterate.2.mesh_x (i * e.n_species + s) = rd e.mesh_x (i * e.n_species + s) ∧
      rd ((fun e => (TauLeap3D.Iterate e).2)^[n] e).mesh_x (i * e.n_species + s) =
        rd e.mesh_x (i * e.n_species + s)) ∧
    (∀ (e : TauLeapGraph) (i s n : Nat), rd e.mesh_chstt (i * e.n_species + s) ≠ 0 →
      rd e.Iterate.2.mesh_x (i * e.n_species + s) = rd e.mesh_x (i * e.n_species + s) ∧
      rd ((fun e => (TauLeapGraph.Iterate e).2)^[n] e).mesh_x (i * e.n_species + s) =
        rd e.mesh_x (i * e.n_species + s)) ∧
    (∀ (m : Libm) (g : GillespieGraph) (i s n : Nat),
      rd g.mesh_chstt (i * g.n_species + s) ≠ 0 →
      rd (g.Iterate m).2.mesh_x (i * g.n_species + s) = rd g.mesh_x (i * g.n_species + s) ∧
      rd ((fun g => (GillespieGraph.Iterate m g).2)^[n] g).mesh_x (i * g.n_species + s) =
        rd g.mesh_x (i * g.n_species + s)) := by
  refine ⟨?_, ?_, ?_, ?_, ?_⟩
  · intro m e i s n hi hs hc
    refine ⟨(Euler3D.Iterate_chstt_euler3D m e i s hi hs hc).2, ?_⟩
    refine (iterate_keeps (fun e => (Euler3D.Iterate m e).2)
      (fun e' => e'.n_meshes = e.n_meshes ∧ e'.n_species = e.n_species ∧
        e'.mesh_chstt = e.mesh_chstt)
      (fun e' => rd e'.mesh_x (i * e.n_species + s)) ?_ ?_ n e ⟨rfl, rfl, rfl⟩).2
    · intro e' ⟨h1, h2, h3⟩
      obtain ⟨⟨k1, k2, k3⟩, _⟩ := Euler3D.Iterate_chstt_euler3D m e' i s (by rw [h1]; exact hi)
        (by rw [h2]; exact hs) (by rw [h2, h3]; exact hc)
      exact ⟨k1.trans h1, k2.trans h2, k3.trans h3⟩
    · intro e' ⟨h1, h2, h3⟩
      have := (Euler3D.Iterate_chstt_euler3D m e' i s (by rw [h1]; exact hi)
        (by rw [h2]; exact hs) (by rw [h2, h3]; exact hc)).2
      rw [h2] at this
      exact this
  · intro m e i s n hi hs hc
    refine ⟨(EulerGraph.Iterate_chstt_eulerGraph m e i s hi hs hc).2, ?_⟩
    refine (iterate_keeps (fun e => (EulerGraph.Iterate m e).2)
      (fun e' => e'.n_meshes = e.n_meshes ∧ e'.n_species = e.n_species ∧
        e'.mesh_chstt = e.mesh_chstt)
      (fun e' => rd e'.mesh_x (i * e.n_species + s)) ?_ ?_ n e ⟨rfl, rfl, rfl⟩).2
    · intro e' ⟨h1, h2, h3⟩
      obtain ⟨⟨k1, k2, k3⟩, _⟩ := EulerGraph.Iterate_chstt_eulerGraph m e' i s (by rw [h1]; exact hi)
        (by rw [h2]; exact hs) (by rw [h2, h3]; exact hc)
      exact ⟨k1.trans h1, k2.trans h2, k3.trans h3⟩
    · intro e' ⟨h1, h2, h3⟩
      have := (EulerGraph.Iterate_chstt_eulerGraph m e' i s (by rw [h1]; exact hi)
        (by rw [h2]; exact hs) (by rw [h2, h3]; exact hc)).2
      rw [h2] at this
      exact this
  · intro e i s n hc
    refine ⟨(TauLeap3D.Iterate_chstt_tauLeap3D e _ hc).2, ?_⟩
    refine (iterate_keeps (fun e => (TauLeap3D.Iterate e).2)
      (fun e' => e'.mesh_chstt = e.mesh_chstt)
      (fun e' => rd e'.mesh_x (i * e.n_species + s)) ?_ ?_ n e rfl).2
    · intro e' h3
      exact (TauLeap3D.Iterate_chstt_tauLeap3D e' _ (by rw [h3]; exact hc)).1.2.2.trans h3
    · intro e' h3
      exact (TauLeap3D.Iterate_chstt_tauLeap3D e' _ (by rw [h3]; exact hc)).2
  · intro e i s n hc
    refine ⟨(TauLeapGraph.Iterate_chstt_tauLeapGraph e _ hc).2, ?_⟩
    refine (iterate_keeps (fun e => (TauLeapGraph.Iterate e).2)
      (fun e' => e'.mesh_chstt = e.mesh_chstt)
      (fun e' => rd e'.mesh_x (i * e.n_species + s)) ?_ ?_ n e rfl).2
    · intro e' h3
      exact (TauLeapGraph.Iterate_chstt_tauLeapGraph e' _ (by rw [h3]; exact hc)).1.2.2.trans h3
    · intro e' h3
      exact (TauLeapGraph.Iterate_chstt_tauLeapGraph e' _ (by rw [h3]; exact hc)).2
  · intro m g i s n hc
    refine ⟨(GillespieGraph.Iterate_chstt_gillespieGraph m g _ hc).2, ?_⟩
    refine (iterate_keeps (fun g => (GillespieGraph.Iterate m g).2)
      (fun g' => g'.mesh_chstt = g.mesh_chstt)
      (fun g' => rd g'.mesh_x (i * g.n_species + s)) ?_ ?_ n g rfl).2
    · intro g' h3
      exact (GillespieGraph.Iterate_chstt_gillespieGraph m g' _ (by rw [h3]; exact hc)).1.2.2.trans h3
    · intro g' h3
      exact (GillespieGraph.Iterate_chstt_gillespieGraph m g' _ (by rw [h3]; exact hc)).2

/-- C2 on scenario S5 (mesh 0 chemostatted at 100): the flag of cell `(0, 0)`
is set and the cell is unchanged after one and after three `Iterate` calls of
each of the five kernels. -/
theorem C2_chemostat_immutable_witness :
    (rd chemostatEuler3D.mesh_chstt (0 * chemostatEuler3D.n_species + 0) ≠ 0 ∧
      rd (chemostatEuler3D.Iterate scenarioLibm).2.mesh_x (0 * chemostatEuler3D.n_species + 0) =
        rd chemostatEuler3D.mesh_x (0 * chemostatEuler3D.n_species + 0) ∧
      rd ((fun e => (Euler3D.Iterate scenarioLibm e).2)^[3] chemostatEuler3D).mesh_x
          (0 * chemostatEuler3D.n_species + 0) =
        rd chemostatEuler3D.mesh_x (0 * chemostatEuler3D.n_species + 0)) ∧
    (rd chemostatEulerGraph.mesh_chstt (0 * chemostatEulerGraph.n_species + 0) ≠ 0 ∧
      rd (chemostatEulerGraph.Iterate scenarioLibm).2.mesh_x
          (0 * chemostatEulerGraph.n_species + 0) =
        rd chemostatEulerGraph.mesh_x (0 * chemostatEulerGraph.n_species + 0) ∧
      rd ((fun e => (EulerGraph.Iterate scenarioLibm e).2)^[3] chemostatEulerGraph).mesh_x
          (0 * chemostatEulerGraph.n_species + 0) =
        rd chemostatEulerGraph.mesh_x (0 * chemostatEulerGraph.n_species + 0)) ∧
    (rd chemostatTauLeap3D.mesh_chstt (0 * chemostatTauLeap3D.n_species + 0) ≠ 0 ∧
      rd chemostatTauLeap3D.Iterate.2.mesh_x (0 * chemostatTauLeap3D.n_species + 0) =
        rd chemostatTauLeap3D.mesh_x (0 * chemostatTauLeap3D.n_species + 0) ∧
      rd ((fun e => (TauLeap3D.Iterate e).2)^[3] chemostatTauLeap3D).mesh_x
          (0 * chemostatTauLeap3D.n_species + 0) =
        rd chemostatTauLeap3D.mesh_x (0 * chemostatTauLeap3D.n_species + 0)) ∧
    (rd chemostatTauLeapGraph.mesh_chstt (0 * chemostatTauLeapGraph.n_species + 0) ≠ 0 ∧
      rd chemostatTauLeapGraph.Iterate.2.mesh_x (0 * chemostatTauLeapGraph.n_species + 0) =
        rd chemostatTauLeapGraph.mesh_x (0 * chemostatTauLeapGraph.n_species + 0) ∧
      rd ((fun e => (TauLeapGraph.Iterate e).2)^[3] chemostatTauLeapGraph).mesh_x
          (0 * chemostatTauLeapGraph.n_species + 0) =
        rd chemostatTauLeapGraph.mesh_x (0 * chemostatTauLeapGraph.n_species + 0)) ∧
    (rd chemostatGillespieGraph.mesh_chstt (0 * chemostatGillespieGraph.n_species + 0) ≠ 0 ∧
      rd (chemostatGillespieGraph.Iterate scenarioLibm).2.mesh_x
          (0 * chemostatGillespieGraph.n_species + 0) =
        rd chemostatGillespieGraph.mesh_x (0 * chemostatGillespieGraph.n_species + 0) ∧
      rd ((fun g => (GillespieGraph.Iterate scenarioLibm g).2)^[3] chemostatGillespieGraph).mesh_x
          (0 * chemostatGillespieGraph.n_species + 0) =
        rd chemostatGillespieGraph.mesh_x (0 * chemostatGillespieGraph.n_species + 0)) :=
  ⟨⟨by decide!, C2_chemostat_immutable.1 scenarioLibm chemostatEuler3D 0 0 3
      (by decide!) (by decide!) (by decide!)⟩,
   ⟨by decide!, C2_chemostat_immutable.2.1 scenarioLibm chemostatEulerGraph 0 0 3
      (by decide!) (by decide!) (by decide!)⟩,
   ⟨by decide!, C2_chemostat_immutable.2.2.1 chemostatTauLeap3D 0 0 3 (by decide!)⟩,
   ⟨by decide!, C2_chemostat_immutable.2.2.2.1 chemostatTauLeapGraph 0 0 3 (by decide!)⟩,
   ⟨by decide!, C2_chemostat_immutable.2.2.2.2 scenarioLibm chemostatGillespieGraph 0 0 3
      (by decide!)⟩⟩

/-! ## C3: the grid Gillespie kernel and chemostats -/

/-- C3 fails on the code.  In scenario S5 under `Gillespie3D` the cell `(0, 0)`
is chemostatted and holds 100.  With the uniform draw `1/2` the first
`Iterate` applies a diffusion event out of mesh 0, with the draw `1/4` it
applies the reaction in mesh 0; both leave 99 in the chemostatted cell. -/
theorem C3_grid_gillespie_changes_chemostat :
    rd chemostatGillespie3D.mesh_chstt (0 * chemostatGillespie3D.n_species + 0) = 1 ∧
    rd chemostatGillespie3D.mesh_x (0 * chemostatGillespie3D.n_species + 0) = 100 ∧
    (chemostatGillespie3D.Iterate scenarioLibm).2.mesh_x = [99, 1] ∧
    (Gillespie3D.Iterate scenarioLibm
      { chemostatGillespie3D with
        rng := { scenarioRng with uniform := fun _ => 1 / 4 } }).2.mesh_x = [99, 0] := by
  refine ⟨by decide!, by decide!, by decide!, by decide!⟩

/-! ## Gillespie: propensities and event selection -/

/-- Invariant rule for a loop that fills the cells of a table, read through
`read`: every round `k` owns a set of cells, the sets of different rounds are
disjoint, and round `k` makes its own cells good and leaves the other cells as
they read.  Then every owned cell is good after the loop.  `J` is an invariant
of the rounds. -/
theorem forLoop_cells {σ κ α : Type} (read : σ → κ → α) (J : σ → Prop)
    (owner : Nat → κ → Prop) (good : κ → α → Prop) (n : Nat) (body : Nat → σ → σ) (st : σ)
    (hJ : J st)
    (hdisj : ∀ a b f, a < n → b < n → owner a f → owner b f → a = b)
    (hbody : ∀ k, k < n → ∀ s, J s → J (body k s) ∧
      (∀ f, owner k f → good f (read (body k s) f)) ∧
      (∀ f, ¬ owner k f → read (body k s) f = read s f)) :
    J (forLoop n body st) ∧
    ∀ k, k < n → ∀ f, owner k f → good f (read (forLoop n body st) f) := by
  refine forLoop_induction
    (fun m s => m ≤ n → (J s ∧ ∀ k, k < m → ∀ f, owner k f → good f (read s f))) n body st
    (fun _ => ⟨hJ, fun k hk => absurd hk (Nat.not_lt_zero _)⟩) ?_ (le_refl n)
  intro m hm s ih _
  obtain ⟨hJs, hgood⟩ := ih (Nat.le_of_lt hm)
  obtain ⟨h1, h2, h3⟩ := hbody m hm s hJs
  refine ⟨h1, fun k hk f hf => ?_⟩
  by_cases hkm : k = m
  · subst hkm
    exact h2 f hf
  · have hk' : k < m := by omega
    rw [h3 f (fun ho => hkm (hdisj k m f (by omega) hm hf ho))]
    exact hgood k hk' f hf

namespace SimulationAlgorithmBase

theorem forLoop_factors_nonneg (x : ℚ) (n : Nat) (hn : ∀ q, q < n → (q : ℚ) ≤ x) (a : ℚ)
    (ha : 0 ≤ a) : 0 ≤ forLoop n (fun q a => a * (x - (q : ℚ))) a := by
  refine forLoop_invariant (fun a => 0 ≤ a) n _ a ha (fun q hq a ha => ?_)
  exact mul_nonneg ha (by linarith [hn q hq])

theorem ReactionPropLoop_nonneg (b : SimulationAlgorithmBase) (i r : Nat) (l : List Nat) :
    ∀ a, 0 ≤ a → 0 ≤ ReactionPropLoop b i r l a := by
  induction l with
  | nil => intro a ha; exact ha
  | cons s rest ih =>
    intro a ha
    unfold ReactionPropLoop
    split_ifs with h
    · refine ih _ (forLoop_factors_nonneg _ _ (fun q hq => ?_) a ha)
      have : (q : ℚ) < rd b.sub (s * b.n_reactions + r) := Nat.lt_ceil.mp hq
      linarith
    · exact le_refl 0

theorem ReactionProp_nonneg (b : SimulationAlgorithmBase) (i r : Nat)
    (hkr : 0 ≤ rd b.mesh_kr (i * b.n_reactions + r)) : 0 ≤ b.ReactionProp i r :=
  ReactionPropLoop_nonneg b i r _ _ hkr

theorem ReactionPropLoop_pos (b : SimulationAlgorithmBase) (i r : Nat) (l : List Nat) :
    ∀ a, 0 < ReactionPropLoop b i r l a →
      ∀ s ∈ l, rd b.sub (s * b.n_reactions + r) ≤ rd b.mesh_x (i * b.n_species + s) := by
  induction l with
  | nil => intro a _ s hs; simp at hs
  | cons s0 rest ih =>
    intro a hpos s hs
    unfold ReactionPropLoop at hpos
    by_cases h : rd b.mesh_x (i * b.n_species + s0) ≥ rd b.sub (s0 * b.n_reactions + r)
    · rw [if_pos h] at hpos
      rcases List.mem_cons.mp hs with e | e
      · rw [e]; exact h
      · exact ih _ hpos s e
    · rw [if_neg h] at hpos
      exact absurd hpos (lt_irrefl 0)

/-- A positive reaction propensity means that the mesh holds the substrates. -/
theorem ReactionProp_pos (b : SimulationAlgorithmBase) (i r : Nat) (h : 0 < b.ReactionProp i r) :
    ∀ s, s < b.n_species →
      rd b.sub (s * b.n_reactions + r) ≤ rd b.mesh_x (i * b.n_species + s) :=
  fun s hs => ReactionPropLoop_pos b i r _ _ h s (List.mem_range.mpr hs)

end SimulationAlgorithmBase

namespace Gillespie3D

/-- The reaction walk applies nothing, or a reaction of positive propensity. -/
theorem walkReactions_event_gillespie3D (g : Gillespie3D) (i : Nat) (r2 : ℚ) (P : Gillespie3D → Prop)
    (hg : P g) (l : List Nat)
    (hR : ∀ j ∈ l, 0 < rd g.mesh_ar (i * g.n_reactions + j) → P (g.ApplyReaction i j)) :
    ∀ a, a ≤ r2 → P (walkReactions g i r2 l a) := by
  induction l with
  | nil => intro a _; exact hg
  | cons j rest ih =>
    intro a ha
    unfold walkReactions
    dsimp only
    by_cases h : r2 < a + rd g.mesh_ar (i * g.n_reactions + j)
    · rw [if_pos h]
      exact hR j (List.mem_cons_self _ _) (by linarith)
    · rw [if_neg h]
      exact ih (fun j' hj' => hR j' (List.mem_cons_of_mem _ hj')) _ (not_lt.mp h)

/-- The direction walk either applies a diffusion of positive propensity, or
applies nothing and leaves `a_cumul` at most `r2`. -/
theorem walkDirections_event_gillespie3D (g : Gillespie3D) (i j : Nat) (r2 : ℚ) (P : Gillespie3D → Prop)
    (l : List Nat)
    (hD : ∀ n ∈ l, 0 < rd g.mesh_ad (i * g.n_species * 6 + j * 6 + n) →
      P (g.ApplyDiffusion i j n)) :
    ∀ a, a ≤ r2 →
      ((walkDirections g i j r2 l a).2.2 = true → P (walkDirections g i j r2 l a).1) ∧
      ((walkDirections g i j r2 l a).2.2 = false →
        (walkDirections g i j r2 l a).1 = g ∧ (walkDirections g i j r2 l a).2.1 ≤ r2) := by
  induction l with
  | nil => intro a ha; exact ⟨fun h => by simp [walkDirections] at h, fun _ => ⟨rfl, ha⟩⟩
  | cons n rest ih =>
    intro a ha
    unfold walkDirections
    dsimp only
    by_cases h : r2 < a + rd g.mesh_ad (i * g.n_species * 6 + j * 6 + n)
    · rw [if_pos h]
      exact ⟨fun _ => hD n (List.mem_cons_self _ _) (by linarith), fun hf => by simp at hf⟩
    · rw [if_neg h]
      exact ih (fun n' hn' => hD n' (List.mem_cons_of_mem _ hn')) _ (not_lt.mp h)

/-- The species walk applies nothing, or a diffusion of positive propensity. -/
theorem walkSpecies_event_gillespie3D (g : Gillespie3D) (i : Nat) (r2 : ℚ) (P : Gillespie3D → Prop)
    (hg : P g) (l : List Nat)
    (hD : ∀ j ∈ l, ∀ n, n < 6 → 0 < rd g.mesh_ad (i * g.n_species * 6 + j * 6 + n) →
      P (g.ApplyDiffusion i j n)) :
    ∀ a, a ≤ r2 → P (walkSpecies g i r2 l a) := by
  induction l with
  | nil => intro a _; exact hg
  | cons j rest ih =>
    intro a ha
    unfold walkSpecies
    dsimp only
    obtain ⟨h1, h2⟩ := walkDirections_event_gillespie3D g i j r2 P (List.range 6)
      (fun n hn => hD j (List.mem_cons_self _ _) n (List.mem_range.mp hn)) a ha
    by_cases hd : (walkDirections g i j r2 (List.range 6) a).2.2 = true
    · rw [if_pos hd]
      exact h1 hd
    · rw [if_neg hd]
      exact ih (fun j' hj' => hD j' (List.mem_cons_of_mem _ hj')) _
        (h2 (by simpa using hd)).2

/-- The mesh walk applies nothing, or one event of positive propensity. -/
theorem walkMeshes_event_gillespie3D (g : Gillespie3D) (r : ℚ) (P : Gillespie3D → Prop) (hg : P g)
    (l : List Nat)
    (hR : ∀ i ∈ l, ∀ j, j < g.n_reactions → 0 < rd g.mesh_ar (i * g.n_reactions + j) →
      P (g.ApplyReaction i j))
    (hD : ∀ i ∈ l, ∀ j, j < g.n_species → ∀ n, n < 6 →
      0 < rd g.mesh_ad (i * g.n_species * 6 + j * 6 + n) → P (g.ApplyDiffusion i j n)) :
    ∀ a, a ≤ r → P (walkMeshes g r l a) := by
  induction l with
  | nil => intro a _; exact hg
  | cons i rest ih =>
    intro a ha
    unfold walkMeshes
    dsimp only
    by_cases h1 : r < a + rd g.mesh_a0r i
    · rw [if_pos h1]
      exact walkReactions_event_gillespie3D g i _ P hg _
        (fun j hj => hR i (List.mem_cons_self _ _) j (List.mem_range.mp hj)) 0 (by linarith)
    · rw [if_neg h1]
      by_cases h2 : r < a + rd g.mesh_a0r i + rd g.mesh_a0d i
      · rw [if_pos h2]
        exact walkSpecies_event_gillespie3D g i _ P hg _
          (fun j hj => hD i (List.mem_cons_self _ _) j (List.mem_range.mp hj)) 0
          (by linarith [not_lt.mp h1])
      · rw [if_neg h2]
        exact ih (fun i' hi' => hR i' (List.mem_cons_of_mem _ hi'))
          (fun i' hi' => hD i' (List.mem_cons_of_mem _ hi')) _ (not_lt.mp h2)

end Gillespie3D

/-- A cell just written reads the written value, or `0` when the write fell
outside the vector. -/
theorem rd_wr_self_or {α : Type} [Zero α] (v : List α) (i : Nat) (a : α) :
    rd (wr v i a) i = a ∨ rd (wr v i a) i = 0 := by
  by_cases h : i < v.length
  · exact Or.inl (rd_wr_self v a h)
  · right
    rw [rd_wr, if_neg (fun hc => h hc.2)]
    exact rd_of_length_le v (not_lt.mp h)

theorem rd_wr_self_nonneg (v : List ℚ) (i : Nat) (a : ℚ) (ha : 0 ≤ a) :
    0 ≤ rd (wr v i a) i := by
  rcases rd_wr_self_or v i a with h | h <;> rw [h]
  exact ha

/-- Cells `(i, s, n)` of a table with six slots per species are distinct. -/
theorem flat3_index_inj {m i s n i0 s0 n0 : Nat} (hs : s < m) (hs0 : s0 < m) (hn : n < 6)
    (hn0 : n0 < 6) (h : i * 6 * m + s * 6 + n = i0 * 6 * m + s0 * 6 + n0) :
    i = i0 ∧ s = s0 ∧ n = n0 := by
  have h' : (i * m + s) * 6 + n = (i0 * m + s0) * 6 + n0 := by
    have e1 : (i * m + s) * 6 + n = i * 6 * m + s * 6 + n := by ring
    have e2 : (i0 * m + s0) * 6 + n0 = i0 * 6 * m + s0 * 6 + n0 := by ring
    rw [e1, e2, h]
  obtain ⟨h1, h2⟩ := flat_index_inj hn hn0 h'
  obtain ⟨h3, h4⟩ := flat_index_inj hs hs0 h1
  exact ⟨h3, h4, h2⟩

namespace Gillespie3D

/-- Method `ComputePropensities` changes the propensity tables only. -/
theorem ComputePropensities_frame_gillespie3D (g : Gillespie3D) :
    ∃ ar ad a0r a0d a0, g.ComputePropensities =
      { g with mesh_ar := ar, mesh_ad := ad, mesh_a0r := a0r, mesh_a0d := a0d, a0 := a0 } := by
  unfold ComputePropensities
  refine forLoop_invariant
    (fun s : Gillespie3D => ∃ ar ad a0r a0d a0, s =
      { g with mesh_ar := ar, mesh_ad := ad, mesh_a0r := a0r, mesh_a0d := a0d, a0 := a0 })
    _ _ _ ⟨_, _, _, _, _, rfl⟩ (fun i _ s hs => ?_)
  refine forLoop_invariant
    (fun s : Gillespie3D => ∃ ar ad a0r a0d a0, s =
      { g with mesh_ar := ar, mesh_ad := ad, mesh_a0r := a0r, mesh_a0d := a0d, a0 := a0 })
    _ _ _ ?_ (fun sp _ s hs => ?_)
  · refine forLoop_invariant
      (fun s : Gillespie3D => ∃ ar ad a0r a0d a0, s =
        { g with mesh_ar := ar, mesh_ad := ad, mesh_a0r := a0r, mesh_a0d := a0d, a0 := a0 })
      _ _ _ ?_ (fun r _ s hs => ?_)
    · obtain ⟨ar, ad, a0r, a0d, a0, rfl⟩ := hs
      exact ⟨_, _, _, _, _, rfl⟩
    · obtain ⟨ar, ad, a0r, a0d, a0, rfl⟩ := hs
      exact ⟨_, _, _, _, _, rfl⟩
  · refine forLoop_invariant
      (fun s : Gillespie3D => ∃ ar ad a0r a0d a0, s =
        { g with mesh_ar := ar, mesh_ad := ad, mesh_a0r := a0r, mesh_a0d := a0d, a0 := a0 })
      _ _ _ hs (fun n _ s hs => ?_)
    obtain ⟨ar, ad, a0r, a0d, a0, rfl⟩ := hs
    dsimp only
    split_ifs
    · exact ⟨_, _, _, _, _, rfl⟩
    · exact ⟨_, _, _, _, _, rfl⟩

/-- The total propensity is non-negative when the rate constants and the
counts are. -/
theorem ComputePropensities_a0_nonneg_gillespie3D (g : Gillespie3D) (hkr : ∀ f, 0 ≤ rd g.mesh_kr f)
    (hkd : ∀ f, 0 ≤ rd g.mesh_kd f) (hx : ∀ f, 0 ≤ rd g.mesh_x f) :
    0 ≤ g.ComputePropensities.a0 := by
  unfold ComputePropensities
  refine forLoop_invariant (fun s : Gillespie3D => 0 ≤ s.a0) _ _ _ (le_refl _)
    (fun i _ s hs => ?_)
  refine forLoop_invariant (fun s : Gillespie3D => 0 ≤ s.a0) _ _ _ ?_ (fun sp _ s hs => ?_)
  · refine forLoop_invariant (fun s : Gillespie3D => 0 ≤ s.a0) _ _ _ hs (fun r _ s hs => ?_)
    exact add_nonneg hs (rd_wr_self_nonneg _ _ _
      (SimulationAlgorithmBase.ReactionProp_nonneg _ _ _ (hkr _)))
  · refine forLoop_invariant (fun s : Gillespie3D => 0 ≤ s.a0) _ _ _ hs (fun n _ s hs => ?_)
    dsimp only
    split_ifs
    · exact add_nonneg hs (rd_wr_self_nonneg _ _ _ (mul_nonneg (hx _) (hkd _)))
    · exact add_nonneg hs (rd_wr_self_nonneg _ _ _ (le_refl _))

/-- After `ComputePropensities`, a cell of `mesh_ar` reads `0` or the reaction
propensity of its mesh and reaction. -/
theorem ComputePropensities_mesh_ar_gillespie3D (g : Gillespie3D) (i r : Nat) (hi : i < g.n_meshes)
    (hr : r < g.n_reactions) :
    rd g.ComputePropensities.mesh_ar (i * g.n_reactions + r) = 0 ∨
    rd g.ComputePropensities.mesh_ar (i * g.n_reactions + r) =
      g.toSimulationAlgorithmBase.ReactionProp i r := by
  have key : ∀ k, k < g.n_meshes → ∀ f, (∃ r, r < g.n_reactions ∧ f = k * g.n_reactions + r) →
      (rd g.ComputePropensities.mesh_ar f = 0 ∨
        ∃ i r, r < g.n_reactions ∧ f = i * g.n_reactions + r ∧
          rd g.ComputePropensities.mesh_ar f = g.toSimulationAlgorithmBase.ReactionProp i r) := by
    unfold ComputePropensities
    refine (forLoop_cells (fun (s : Gillespie3D) f => rd s.mesh_ar f) (fun _ => True)
      (fun i f => ∃ r, r < g.n_reactions ∧ f = i * g.n_reactions + r)
      (fun f v => v = 0 ∨ ∃ i r, r < g.n_reactions ∧ f = i * g.n_reactions + r ∧
        v = g.toSimulationAlgorithmBase.ReactionProp i r)
      g.n_meshes _ { g with a0 := 0 } trivial ?_ ?_).2
    · rintro a b f _ _ ⟨r1, hr1, e1⟩ ⟨r2, hr2, e2⟩
      exact (flat_index_inj hr1 hr2 (e1.symm.trans e2)).1
    · intro k _ s _
      refine ⟨trivial, ?_, ?_⟩
      · rintro f ⟨r0, hr0, rfl⟩
        dsimp only
        rw [forLoop_preserve (fun s : Gillespie3D => s.mesh_ar) _ _ _ (fun sp _ s => ?_)]
        · refine (forLoop_cells (fun (s : Gillespie3D) f => rd s.mesh_ar f) (fun _ => True)
            (fun r f => f = k * g.n_reactions + r)
            (fun f v => v = 0 ∨ ∃ i r, r < g.n_reactions ∧ f = i * g.n_reactions + r ∧
              v = g.toSimulationAlgorithmBase.ReactionProp i r)
            g.n_reactions _ _ trivial ?_ ?_).2 r0 hr0 _ rfl
          · intro a b f _ _ e1 e2
            omega
          · intro r1 hr1 s _
            refine ⟨trivial, ?_, ?_⟩
            · rintro f rfl
              rcases rd_wr_self_or s.mesh_ar (k * g.n_reactions + r1)
                (g.toSimulationAlgorithmBase.ReactionProp k r1) with h | h
              · exact Or.inr ⟨k, r1, hr1, rfl, h⟩
              · exact Or.inl h
            · intro f hf
              exact rd_wr_ne _ _ (fun e => hf e.symm)
        · refine forLoop_preserve (fun s : Gillespie3D => s.mesh_ar) _ _ _ (fun n _ s => ?_)
          dsimp only
          split_ifs <;> rfl
      · intro f hf
        dsimp only
        rw [forLoop_preserve (fun s : Gillespie3D => s.mesh_ar) _ _ _ (fun sp _ s => ?_)]
        · refine forLoop_preserve (fun s : Gillespie3D => rd s.mesh_ar f) _ _ _
            (fun r1 hr1 s => ?_)
          exact rd_wr_ne _ _ (fun e => hf ⟨r1, hr1, e.symm⟩)
        · refine forLoop_preserve (fun s : Gillespie3D => s.mesh_ar) _ _ _ (fun n _ s => ?_)
          dsimp only
          split_ifs <;> rfl
  rcases key i hi (i * g.n_reactions + r) ⟨r, hr, rfl⟩ with h | ⟨i', r', hr', he, hv⟩
  · exact Or.inl h
  · obtain ⟨e1, e2⟩ := flat_index_inj hr hr' he
    subst e1; subst e2
    exact Or.inr hv

end Gillespie3D

namespace Gillespie3D

/-- After `ComputePropensities`, a cell of `mesh_ad` reads `0`, or the
neighbour is present and the cell reads the diffusion propensity. -/
theorem ComputePropensities_mesh_ad_gillespie3D (g : Gillespie3D) (i s n : Nat) (hi : i < g.n_meshes)
    (hs : s < g.n_species) (hn : n < 6) :
    rd g.ComputePropensities.mesh_ad (i * 6 * g.n_species + s * 6 + n) = 0 ∨
    (rd g.mesh_neighbors (i * 6 + n) ≠ -1 ∧
      rd g.ComputePropensities.mesh_ad (i * 6 * g.n_species + s * 6 + n) =
        g.toSimulationAlgorithm3DBase.DiffusionProp i s n) := by
  have key : ∀ k, k < g.n_meshes → ∀ f,
      (∃ s n, s < g.n_species ∧ n < 6 ∧ f = k * 6 * g.n_species + s * 6 + n) →
      (rd g.ComputePropensities.mesh_ad f = 0 ∨
        ∃ i s n, s < g.n_species ∧ n < 6 ∧ f = i * 6 * g.n_species + s * 6 + n ∧
          rd g.mesh_neighbors (i * 6 + n) ≠ -1 ∧
          rd g.ComputePropensities.mesh_ad f =
            g.toSimulationAlgorithm3DBase.DiffusionProp i s n) := by
    unfold ComputePropensities
    refine (forLoop_cells (fun (s : Gillespie3D) f => rd s.mesh_ad f) (fun _ => True)
      (fun k f => ∃ s n, s < g.n_species ∧ n < 6 ∧ f = k * 6 * g.n_species + s * 6 + n)
      (fun f v => v = 0 ∨ ∃ i s n, s < g.n_species ∧ n < 6 ∧
        f = i * 6 * g.n_species + s * 6 + n ∧ rd g.mesh_neighbors (i * 6 + n) ≠ -1 ∧
        v = g.toSimulationAlgorithm3DBase.DiffusionProp i s n)
      g.n_meshes _ { g with a0 := 0 } trivial ?_ ?_).2
    · rintro a b f _ _ ⟨s1, n1, hs1, hn1, e1⟩ ⟨s2, n2, hs2, hn2, e2⟩
      exact (flat3_index_inj hs1 hs2 hn1 hn2 (e1.symm.trans e2)).1
    · intro k _ st _
      refine ⟨trivial, ?_, ?_⟩
      · rintro f ⟨s0, n0, hs0, hn0, rfl⟩
        dsimp only
        refine (forLoop_cells (fun (s : Gillespie3D) f => rd s.mesh_ad f) (fun _ => True)
          (fun s f => ∃ n, n < 6 ∧ f = k * 6 * g.n_species + s * 6 + n)
          (fun f v => v = 0 ∨ ∃ i s n, s < g.n_species ∧ n < 6 ∧
            f = i * 6 * g.n_species + s * 6 + n ∧ rd g.mesh_neighbors (i * 6 + n) ≠ -1 ∧
            v = g.toSimulationAlgorithm3DBase.DiffusionProp i s n)
          g.n_species _ _ trivial ?_ ?_).2 s0 hs0 _ ⟨n0, hn0, rfl⟩
        · rintro a b f _ _ ⟨n1, hn1, e1⟩ ⟨n2, hn2, e2⟩
          omega
        · intro s1 hs1 st _
          refine ⟨trivial, ?_, ?_⟩
          · rintro f ⟨n1, hn1, rfl⟩
            refine (forLoop_cells (fun (s : Gillespie3D) f => rd s.mesh_ad f) (fun _ => True)
              (fun n f => f = k * 6 * g.n_species + s1 * 6 + n)
              (fun f v => v = 0 ∨ ∃ i s n, s < g.n_species ∧ n < 6 ∧
                f = i * 6 * g.n_species + s * 6 + n ∧ rd g.mesh_neighbors (i * 6 + n) ≠ -1 ∧
                v = g.toSimulationAlgorithm3DBase.DiffusionProp i s n)
              6 _ _ trivial ?_ ?_).2 n1 hn1 _ rfl
            · intro a b f _ _ e1 e2
              omega
            · intro n2 hn2 st _
              refine ⟨trivial, ?_, ?_⟩
              · rintro f rfl
                dsimp only
                by_cases hc : rd g.mesh_neighbors (k * 6 + n2) ≠ -1
                · rw [if_pos hc]
                  rcases rd_wr_self_or st.mesh_ad (k * 6 * g.n_species + s1 * 6 + n2)
                    (g.toSimulationAlgorithm3DBase.DiffusionProp k s1 n2) with h | h
                  · exact Or.inr ⟨k, s1, n2, hs1, hn2, rfl, hc, h⟩
                  · exact Or.inl h
                · rw [if_neg hc]
                  exact Or.inl (rd_wr_zero _ _)
              · intro f hf
                dsimp only
                split_ifs
                · exact rd_wr_ne _ _ (fun e => hf e.symm)
                · exact rd_wr_ne _ _ (fun e => hf e.symm)
          · intro f hf
            refine forLoop_preserve (fun s : Gillespie3D => rd s.mesh_ad f) _ _ _
              (fun n2 hn2 st => ?_)
            dsimp only
            split_ifs
            · exact rd_wr_ne _ _ (fun e => hf ⟨n2, hn2, e.symm⟩)
            · exact rd_wr_ne _ _ (fun e => hf ⟨n2, hn2, e.symm⟩)
      · intro f hf
        dsimp only
        refine Eq.trans (forLoop_preserve (fun s : Gillespie3D => rd s.mesh_ad f) _ _ _
          (fun s1 hs1 st => ?_)) ?_
        · refine forLoop_preserve (fun s : Gillespie3D => rd s.mesh_ad f) _ _ _
            (fun n2 hn2 st => ?_)
          dsimp only
          split_ifs
          · exact rd_wr_ne _ _ (fun e => hf ⟨s1, n2, hs1, hn2, e.symm⟩)
          · exact rd_wr_ne _ _ (fun e => hf ⟨s1, n2, hs1, hn2, e.symm⟩)
        · exact forLoop_preserve (fun s : Gillespie3D => rd s.mesh_ad f) _ _ _
            (fun r1 _ st => rfl)
  rcases key i hi (i * 6 * g.n_species + s * 6 + n) ⟨s, n, hs, hn, rfl⟩ with
    h | ⟨i', s', n', hs', hn', he, hnb, hv⟩
  · exact Or.inl h
  · obtain ⟨e1, e2, e3⟩ := flat3_index_inj hs hs' hn hn' he
    subst e1; subst e2; subst e3
    exact Or.inr ⟨hnb, hv⟩

end Gillespie3D

/-! ## C4: the Gillespie kernels keep the counts natural -/

theorem CountsAreNaturals.nonneg_nat {v : List ℚ} (h : CountsAreNaturals v) (f : Nat) :
    0 ≤ rd v f := by
  obtain ⟨n, hn⟩ := h f
  rw [hn]
  exact Nat.cast_nonneg n

theorem CountsAreNaturals.wr_nat {v : List ℚ} (h : CountsAreNaturals v) (i : Nat) (n : Nat) :
    CountsAreNaturals (wr v i (n : ℚ)) := by
  intro f
  rw [rd_wr]
  split_ifs
  · exact ⟨n, rfl⟩
  · exact h f

theorem CountsAreNaturals.wrI_nat {v : List ℚ} (h : CountsAreNaturals v) (i : Int) (n : Nat) :
    CountsAreNaturals (wrI v i (n : ℚ)) := by
  unfold Strengths.wrI
  split_ifs
  · exact h.wr_nat _ n
  · exact h

theorem CountsAreNaturals.rdI_nat {v : List ℚ} (h : CountsAreNaturals v) (i : Int) :
    ∃ n : Nat, rdI v i = (n : ℚ) := by
  unfold Strengths.rdI
  split_ifs
  · exact h _
  · exact ⟨0, by simp⟩

/-- A natural count plus an integer that keeps it non-negative is natural. -/
theorem natural_add_int (n : Nat) (z : Int) (h : 0 ≤ (n : ℚ) + (z : ℚ)) :
    ∃ k : Nat, (n : ℚ) + (z : ℚ) = (k : ℚ) := by
  have hz : (0 : Int) ≤ (n : Int) + z := by exact_mod_cast h
  refine ⟨((n : Int) + z).toNat, ?_⟩
  have e : ((((n : Int) + z).toNat : Int) : ℚ) = (((n : Int) + z : Int) : ℚ) := by
    rw [Int.toNat_of_nonneg hz]
  rw [Int.cast_natCast] at e
  rw [e]
  push_cast
  ring

/-- The loop of `ApplyReaction` (without chemostat test) keeps the counts
natural when the mesh holds the substrates of the reaction. -/
theorem applyReaction_naturals (n_species n_reactions : Nat) (sto sub mesh_x : List ℚ)
    (i r : Nat) (hx : CountsAreNaturals mesh_x)
    (hsto : ∀ s, s < n_species → (∃ z : Int, rd sto (s * n_reactions + r) = (z : ℚ)) ∧
      -rd sub (s * n_reactions + r) ≤ rd sto (s * n_reactions + r))
    (hsub : ∀ s, s < n_species → rd sub (s * n_reactions + r) ≤ rd mesh_x (i * n_species + s))
    (guard : Nat → Prop) [DecidablePred guard] :
    CountsAreNaturals (forLoop n_species (fun s v =>
      if guard s then
        wr v (i * n_species + s) (rd v (i * n_species + s) + rd sto (s * n_reactions + r))
      else v) mesh_x) := by
  refine (forLoop_induction
    (fun k v => CountsAreNaturals v ∧
      ∀ s, k ≤ s → s < n_species → rd v (i * n_species + s) = rd mesh_x (i * n_species + s))
    n_species _ mesh_x ⟨hx, fun _ _ _ => rfl⟩ ?_).1
  intro k hk v ⟨hv, hrest⟩
  by_cases hg : guard k
  · simp only [if_pos hg]
    obtain ⟨z, hz⟩ := (hsto k hk).1
    obtain ⟨n, hn⟩ := hx (i * n_species + k)
    have hval : 0 ≤ (n : ℚ) + (z : ℚ) := by
      have h1 := (hsto k hk).2
      have h2 := hsub k hk
      rw [hz] at h1
      rw [hn] at h2
      linarith
    obtain ⟨m, hm⟩ := natural_add_int n z hval
    refine ⟨?_, fun s hs hs' => ?_⟩
    · rw [hrest k (le_refl k) hk, hn, hz, hm]
      exact hv.wr_nat _ m
    · rw [rd_wr_ne _ _ (by omega)]
      exact hrest s (by omega) hs'
  · simp only [if_neg hg]
    exact ⟨hv, fun s hs hs' => hrest s (by omega) hs'⟩

namespace Gillespie3D

theorem ApplyReaction_naturals_gillespie3D (g : Gillespie3D) (i r : Nat) (hx : CountsAreNaturals g.mesh_x)
    (hsto : ∀ s, s < g.n_species → (∃ z : Int, rd g.sto (s * g.n_reactions + r) = (z : ℚ)) ∧
      -rd g.sub (s * g.n_reactions + r) ≤ rd g.sto (s * g.n_reactions + r))
    (hsub : ∀ s, s < g.n_species →
      rd g.sub (s * g.n_reactions + r) ≤ rd g.mesh_x (i * g.n_species + s)) :
    CountsAreNaturals (g.ApplyReaction i r).mesh_x := by
  have h := applyReaction_naturals g.n_species g.n_reactions g.sto g.sub g.mesh_x i r hx hsto hsub
    (fun _ => True)
  simpa [ApplyReaction] using h

theorem ApplyDiffusion_naturals_gillespie3D (g : Gillespie3D) (i j n : Nat) (hx : CountsAreNaturals g.mesh_x)
    (hpos : 0 < rd g.mesh_x (i * g.n_species + j)) :
    CountsAreNaturals (g.ApplyDiffusion i j n).mesh_x := by
  unfold ApplyDiffusion
  dsimp only
  obtain ⟨k, hk⟩ := hx (i * g.n_species + j)
  have hk1 : 1 ≤ k := by
    rw [hk] at hpos
    exact_mod_cast hpos
  have h1 : CountsAreNaturals
      (wr g.mesh_x (i * g.n_species + j) (rd g.mesh_x (i * g.n_species + j) - 1)) := by
    have e : rd g.mesh_x (i * g.n_species + j) - 1 = ((k - 1 : Nat) : ℚ) := by
      rw [hk, Nat.cast_sub hk1]; simp
    rw [e]
    exact hx.wr_nat _ _
  obtain ⟨m, hm⟩ := h1.rdI_nat (rd g.mesh_neighbors (i * 6 + n) * g.n_species + j)
  rw [hm]
  have e2 : (m : ℚ) + 1 = ((m + 1 : Nat) : ℚ) := by push_cast; ring
  rw [e2]
  exact h1.wrI_nat _ _

end Gillespie3D

namespace Gillespie3D

theorem DrawAndApplyEvent_naturals_gillespie3D (g : Gillespie3D) (hx : CountsAreNaturals g.mesh_x)
    (hsto : ∀ s r, s < g.n_species → r < g.n_reactions →
      (∃ z : Int, rd g.sto (s * g.n_reactions + r) = (z : ℚ)) ∧
      -rd g.sub (s * g.n_reactions + r) ≤ rd g.sto (s * g.n_reactions + r))
    (hu : 0 ≤ g.rng.uniform g.rng.pos) (ha0 : 0 ≤ g.a0)
    (hAR : ∀ i r, i < g.n_meshes → r < g.n_reactions →
      0 < rd g.mesh_ar (i * g.n_reactions + r) →
      ∀ s, s < g.n_species → rd g.sub (s * g.n_reactions + r) ≤ rd g.mesh_x (i * g.n_species + s))
    (hAD : ∀ i s n, i < g.n_meshes → s < g.n_species → n < 6 →
      0 < rd g.mesh_ad (i * g.n_species * 6 + s * 6 + n) →
      0 < rd g.mesh_x (i * g.n_species + s)) :
    ∃ x, g.DrawAndApplyEvent = { g with mesh_x := x, rng := g.rng.advance } ∧
      CountsAreNaturals x := by
  unfold DrawAndApplyEvent
  dsimp only
  refine walkMeshes_event_gillespie3D { g with rng := g.rng.advance } _
    (fun g' => ∃ x, g' = { g with mesh_x := x, rng := g.rng.advance } ∧ CountsAreNaturals x)
    ⟨g.mesh_x, rfl, hx⟩ _ ?_ ?_ 0 (mul_nonneg hu ha0)
  · intro i hi j hj hpos
    exact ⟨_, rfl, ApplyReaction_naturals_gillespie3D { g with rng := g.rng.advance } i j hx
      (fun s hs => hsto s j hs hj) (hAR i j (List.mem_range.mp hi) hj hpos)⟩
  · intro i hi j hj n hn hpos
    exact ⟨_, rfl, ApplyDiffusion_naturals_gillespie3D { g with rng := g.rng.advance } i j n hx
      (hAD i j n (List.mem_range.mp hi) hj hn hpos)⟩

/-- One `Iterate` of `Gillespie3D` keeps the model and keeps the counts
natural. -/
theorem Iterate_naturals_gillespie3D (m : Libm) (g : Gillespie3D) (hx : CountsAreNaturals g.mesh_x)
    (hsto : ∀ s r, s < g.n_species → r < g.n_reactions →
      (∃ z : Int, rd g.sto (s * g.n_reactions + r) = (z : ℚ)) ∧
      -rd g.sub (s * g.n_reactions + r) ≤ rd g.sto (s * g.n_reactions + r))
    (hkr : ∀ f, 0 ≤ rd g.mesh_kr f) (hkd : ∀ f, 0 ≤ rd g.mesh_kd f)
    (hu : 0 ≤ g.rng.uniform g.rng.pos) :
    ((g.Iterate m).2.n_species = g.n_species ∧ (g.Iterate m).2.n_reactions = g.n_reactions ∧
      (g.Iterate m).2.sto = g.sto ∧ (g.Iterate m).2.sub = g.sub ∧
      (g.Iterate m).2.mesh_kr = g.mesh_kr ∧ (g.Iterate m).2.mesh_kd = g.mesh_kd ∧
      (g.Iterate m).2.rng.uniform = g.rng.uniform) ∧
    CountsAreNaturals (g.Iterate m).2.mesh_x := by
  have hA0 := ComputePropensities_a0_nonneg_gillespie3D { g with sampling_done_this_iteration := false }
    hkr hkd hx.nonneg_nat
  have hAR : ∀ i r, i < g.n_meshes → r < g.n_reactions →
      0 < rd (ComputePropensities { g with sampling_done_this_iteration := false }).mesh_ar
        (i * g.n_reactions + r) →
      ∀ s, s < g.n_species →
        rd g.sub (s * g.n_reactions + r) ≤ rd g.mesh_x (i * g.n_species + s) := by
    intro i r hi hr hpos
    rcases ComputePropensities_mesh_ar_gillespie3D { g with sampling_done_this_iteration := false } i r hi hr
      with h | h
    · rw [h] at hpos; exact absurd hpos (lt_irrefl 0)
    · rw [h] at hpos
      exact SimulationAlgorithmBase.ReactionProp_pos
        ({ g with sampling_done_this_iteration := false } : Gillespie3D).toSimulationAlgorithmBase
        i r hpos
  have hAD : ∀ i s n, i < g.n_meshes → s < g.n_species → n < 6 →
      0 < rd (ComputePropensities { g with sampling_done_this_iteration := false }).mesh_ad
        (i * g.n_species * 6 + s * 6 + n) →
      0 < rd g.mesh_x (i * g.n_species + s) := by
    intro i s n hi hs hn hpos
    have e : i * g.n_species * 6 + s * 6 + n = i * 6 * g.n_species + s * 6 + n := by ring
    rw [e] at hpos
    rcases ComputePropensities_mesh_ad_gillespie3D { g with sampling_done_this_iteration := false } i s n
      hi hs hn with h | ⟨_, h⟩
    · rw [h] at hpos; exact absurd hpos (lt_irrefl 0)
    · rw [h] at hpos
      by_contra hneg
      have hz : rd g.mesh_x (i * g.n_species + s) = 0 :=
        le_antisymm (not_lt.mp hneg) (hx.nonneg_nat _)
      unfold SimulationAlgorithm3DBase.DiffusionProp at hpos
      dsimp only at hpos
      rw [hz, zero_mul] at hpos
      exact absurd hpos (lt_irrefl 0)
  obtain ⟨ar, ad, a0r, a0d, a0, hcp⟩ :=
    ComputePropensities_frame_gillespie3D { g with sampling_done_this_iteration := false }
  rw [hcp] at hA0 hAR hAD
  dsimp only at hA0 hAR hAD
  unfold Iterate
  dsimp only
  by_cases hcomp : g.complete = true
  · rw [if_pos hcomp]
    exact ⟨⟨rfl, rfl, rfl, rfl, rfl, rfl, rfl⟩, hx⟩
  · rw [if_neg hcomp, hcp]
    dsimp only
    by_cases ha : a0 = 0
    · rw [if_pos ha]
      exact ⟨⟨rfl, rfl, rfl, rfl, rfl, rfl, rfl⟩, hx⟩
    · rw [if_neg ha]
      obtain ⟨x, hd, hnat⟩ := DrawAndApplyEvent_naturals_gillespie3D
        { g with sampling_done_this_iteration := false, mesh_ar := ar, mesh_ad := ad,
                 mesh_a0r := a0r, mesh_a0d := a0d, a0 := a0 }
        hx hsto hu hA0 hAR hAD
      rw [hd]
      dsimp only
      obtain ⟨sx, st, gd, p, l, c, h⟩ := SimulationAlgorithmBase.SamplingStep_CheckTMax_frame
        { g.toSimulationAlgorithmBase with
          sampling_done_this_iteration := false, mesh_x := x,
          dt := m.log (1 / g.rng.advance.uniform g.rng.advance.pos) / a0,
          rng := g.rng.advance.advance,
          t := g.t + m.log (1 / g.rng.advance.uniform g.rng.advance.pos) / a0 }
      rw [h]
      exact ⟨⟨rfl, rfl, rfl, rfl, rfl, rfl, rfl⟩, hnat⟩

end Gillespie3D

/-! ### The graph kernel -/

theorem rdRow_wr {α : Type} (v : List (List α)) (i j : Nat) (row : List α) :
    rdRow (wr v i row) j = if i = j ∧ i < v.length then row else rdRow v j := by
  unfold rdRow wr
  rw [List.getD_eq_getElem?_getD, List.getD_eq_getElem?_getD, List.getElem?_set]
  by_cases hij : i = j
  · subst hij
    by_cases hl : i < v.length
    · simp [hl]
    · simp [hl, List.getElem?_eq_none (Nat.le_of_not_lt hl)]
  · simp [hij]

theorem rdRow_of_length_le {α : Type} (v : List (List α)) {i : Nat} (h : v.length ≤ i) :
    rdRow v i = [] := by
  unfold rdRow
  rw [List.getD_eq_getElem?_getD, List.getElem?_eq_none h]
  rfl

theorem rd_nil (i : Nat) : rd ([] : List ℚ) i = 0 := rfl

/-- A cell of a table of rows just written reads the written value, or `0`
when the write fell outside the table. -/
theorem rd_row_wr_self_or (ad : List (List ℚ)) (i idx : Nat) (a : ℚ) :
    rd (rdRow (wr ad i (wr (rdRow ad i) idx a)) i) idx = a ∨
    rd (rdRow (wr ad i (wr (rdRow ad i) idx a)) i) idx = 0 := by
  rw [rdRow_wr]
  by_cases h : i < ad.length
  · rw [if_pos ⟨rfl, h⟩]
    exact rd_wr_self_or _ _ _
  · rw [if_neg (fun hc => h hc.2), rdRow_of_length_le ad (not_lt.mp h)]
    exact Or.inr (rd_nil _)

/-- The other cells of the table read as before. -/
theorem rd_row_wr_other (ad : List (List ℚ)) (i idx : Nat) (a : ℚ) (i' idx' : Nat)
    (h : ¬ (i' = i ∧ idx' = idx)) :
    rd (rdRow (wr ad i (wr (rdRow ad i) idx a)) i') idx' = rd (rdRow ad i') idx' := by
  rw [rdRow_wr]
  by_cases hc : i = i' ∧ i < ad.length
  · rw [if_pos hc]
    obtain ⟨e, _⟩ := hc
    subst e
    exact rd_wr_ne _ _ (fun e' => h ⟨rfl, e'.symm⟩)
  · rw [if_neg hc]

namespace GillespieGraph

/-- The reaction walk applies nothing, or a reaction of positive propensity. -/
theorem walkReactions_event_gillespieGraph (g : GillespieGraph) (i : Nat) (r2 : ℚ) (P : GillespieGraph → Prop)
    (hg : P g) (l : List Nat)
    (hR : ∀ j ∈ l, 0 < rd g.mesh_ar (i * g.n_reactions + j) → P (g.ApplyReaction i j)) :
    ∀ a, a ≤ r2 → P (walkReactions g i r2 l a) := by
  induction l with
  | nil => intro a _; exact hg
  | cons j rest ih =>
    intro a ha
    unfold walkReactions
    dsimp only
    by_cases h : r2 < a + rd g.mesh_ar (i * g.n_reactions + j)
    · rw [if_pos h]
      exact hR j (List.mem_cons_self _ _) (by linarith)
    · rw [if_neg h]
      exact ih (fun j' hj' => hR j' (List.mem_cons_of_mem _ hj')) _ (not_lt.mp h)

/-- The neighbour walk either applies a diffusion of positive propensity, or
applies nothing and leaves `a_cumul` at most `r2`. -/
theorem walkDirections_event_gillespieGraph (g : GillespieGraph) (i j : Nat) (r2 : ℚ)
    (P : GillespieGraph → Prop) (l : List Nat)
    (hD : ∀ n ∈ l, 0 < rd (rdRow g.mesh_ad i) (j * rd g.mesh_neighbor_n i + n) →
      P (g.ApplyDiffusion i j n)) :
    ∀ a, a ≤ r2 →
      ((walkDirections g i j r2 l a).2.2 = true → P (walkDirections g i j r2 l a).1) ∧
      ((walkDirections g i j r2 l a).2.2 = false →
        (walkDirections g i j r2 l a).1 = g ∧ (walkDirections g i j r2 l a).2.1 ≤ r2) := by
  induction l with
  | nil => intro a ha; exact ⟨fun h => by simp [walkDirections] at h, fun _ => ⟨rfl, ha⟩⟩
  | cons n rest ih =>
    intro a ha
    unfold walkDirections
    dsimp only
    by_cases h : r2 < a + rd (rdRow g.mesh_ad i) (j * rd g.mesh_neighbor_n i + n)
    · rw [if_pos h]
      exact ⟨fun _ => hD n (List.mem_cons_self _ _) (by linarith), fun hf => by simp at hf⟩
    · rw [if_neg h]
      exact ih (fun n' hn' => hD n' (List.mem_cons_of_mem _ hn')) _ (not_lt.mp h)

/-- The species walk applies nothing, or a diffusion of positive propensity. -/
theorem walkSpecies_event_gillespieGraph (g : GillespieGraph) (i : Nat) (r2 : ℚ) (P : GillespieGraph → Prop)
    (hg : P g) (l : List Nat)
    (hD : ∀ j ∈ l, ∀ n, n < rd g.mesh_neighbor_n i →
      0 < rd (rdRow g.mesh_ad i) (j * rd g.mesh_neighbor_n i + n) → P (g.ApplyDiffusion i j n)) :
    ∀ a, a ≤ r2 → P (walkSpecies g i r2 l a) := by
  induction l with
  | nil => intro a _; exact hg
  | cons j rest ih =>
    intro a ha
    unfold walkSpecies
    dsimp only
    obtain ⟨h1, h2⟩ := walkDirections_event_gillespieGraph g i j r2 P (List.range (rd g.mesh_neighbor_n i))
      (fun n hn => hD j (List.mem_cons_self _ _) n (List.mem_range.mp hn)) a ha
    by_cases hd : (walkDirections g i j r2 (List.range (rd g.mesh_neighbor_n i)) a).2.2 = true
    · rw [if_pos hd]
      exact h1 hd
    · rw [if_neg hd]
      exact ih (fun j' hj' => hD j' (List.mem_cons_of_mem _ hj')) _
        (h2 (by simpa using hd)).2

/-- The mesh walk applies nothing, or one event of positive propensity. -/
theorem walkMeshes_event_gillespieGraph (g : GillespieGraph) (r : ℚ) (P : GillespieGraph → Prop) (hg : P g)
    (l : List Nat)
    (hR : ∀ i ∈ l, ∀ j, j < g.n_reactions → 0 < rd g.mesh_ar (i * g.n_reactions + j) →
      P (g.ApplyReaction i j))
    (hD : ∀ i ∈ l, ∀ j, j < g.n_species → ∀ n, n < rd g.mesh_neighbor_n i →
      0 < rd (rdRow g.mesh_ad i) (j * rd g.mesh_neighbor_n i + n) →
      P (g.ApplyDiffusion i j n)) :
    ∀ a, a ≤ r → P (walkMeshes g r l a) := by
  induction l with
  | nil => intro a _; exact hg
  | cons i rest ih =>
    intro a ha
    unfold walkMeshes
    dsimp only
    by_cases h1 : r < a + rd g.mesh_a0r i
    · rw [if_pos h1]
      exact walkReactions_event_gillespieGraph g i _ P hg _
        (fun j hj => hR i (List.mem_cons_self _ _) j (List.mem_range.mp hj)) 0 (by linarith)
    · rw [if_neg h1]
      by_cases h2 : r < a + rd g.mesh_a0r i + rd g.mesh_a0d i
      · rw [if_pos h2]
        exact walkSpecies_event_gillespieGraph g i _ P hg _
          (fun j hj => hD i (List.mem_cons_self _ _) j (List.mem_range.mp hj)) 0
          (by linarith [not_lt.mp h1])
      · rw [if_neg h2]
        exact ih (fun i' hi' => hR i' (List.mem_cons_of_mem _ hi'))
          (fun i' hi' => hD i' (List.mem_cons_of_mem _ hi')) _ (not_lt.mp h2)

/-- The total propensity is non-negative when the rate constants and the
counts are. -/
theorem ComputePropensities_a0_nonneg_gillespieGraph (g : GillespieGraph) (hkr : ∀ f, 0 ≤ rd g.mesh_kr f)
    (hkd : ∀ i f, 0 ≤ rd (rdRow g.mesh_kd_out i) f) (hx : ∀ f, 0 ≤ rd g.mesh_x f) :
    0 ≤ g.ComputePropensities.a0 := by
  unfold ComputePropensities
  refine forLoop_invariant (fun s : GillespieGraph => 0 ≤ s.a0) _ _ _ (le_refl _)
    (fun i _ s hs => ?_)
  refine forLoop_invariant (fun s : GillespieGraph => 0 ≤ s.a0) _ _ _ ?_ (fun sp _ s hs => ?_)
  · refine forLoop_invariant (fun s : GillespieGraph => 0 ≤ s.a0) _ _ _ hs (fun r _ s hs => ?_)
    exact add_nonneg hs (rd_wr_self_nonneg _ _ _
      (SimulationAlgorithmBase.ReactionProp_nonneg _ _ _ (hkr _)))
  · refine forLoop_invariant (fun s : GillespieGraph => 0 ≤ s.a0) _ _ _ hs (fun n _ s hs => ?_)
    dsimp only
    refine add_nonneg hs ?_
    rcases rd_row_wr_self_or s.mesh_ad i (sp * rd g.mesh_neighbor_n i + n)
      (g.toSimulationAlgorithmGraphBase.DiffusionProp i sp n) with h | h
    · rw [h]; exact mul_nonneg (hx _) (hkd _ _)
    · rw [h]

/-- After `ComputePropensities`, a cell of `mesh_ar` reads `0` or the reaction
propensity of its mesh and reaction. -/
theorem ComputePropensities_mesh_ar_gillespieGraph (g : GillespieGraph) (i r : Nat) (hi : i < g.n_meshes)
    (hr : r < g.n_reactions) :
    rd g.ComputePropensities.mesh_ar (i * g.n_reactions + r) = 0 ∨
    rd g.ComputePropensities.mesh_ar (i * g.n_reactions + r) =
      g.toSimulationAlgorithmBase.ReactionProp i r := by
  have key : ∀ k, k < g.n_meshes → ∀ f, (∃ r, r < g.n_reactions ∧ f = k * g.n_reactions + r) →
      (rd g.ComputePropensities.mesh_ar f = 0 ∨
        ∃ i r, r < g.n_reactions ∧ f = i * g.n_reactions + r ∧
          rd g.ComputePropensities.mesh_ar f = g.toSimulationAlgorithmBase.ReactionProp i r) := by
    unfold ComputePropensities
    refine (forLoop_cells (fun (s : GillespieGraph) f => rd s.mesh_ar f) (fun _ => True)
      (fun i f => ∃ r, r < g.n_reactions ∧ f = i * g.n_reactions + r)
      (fun f v => v = 0 ∨ ∃ i r, r < g.n_reactions ∧ f = i * g.n_reactions + r ∧
        v = g.toSimulationAlgorithmBase.ReactionProp i r)
      g.n_meshes _ { g with a0 := 0 } trivial ?_ ?_).2
    · rintro a b f _ _ ⟨r1, hr1, e1⟩ ⟨r2, hr2, e2⟩
      exact (flat_index_inj hr1 hr2 (e1.symm.trans e2)).1
    · intro k _ s _
      refine ⟨trivial, ?_, ?_⟩
      · rintro f ⟨r0, hr0, rfl⟩
        dsimp only
        rw [forLoop_preserve (fun s : GillespieGraph => s.mesh_ar) _ _ _ (fun sp _ s => ?_)]
        · refine (forLoop_cells (fun (s : GillespieGraph) f => rd s.mesh_ar f) (fun _ => True)
            (fun r f => f = k * g.n_reactions + r)
            (fun f v => v = 0 ∨ ∃ i r, r < g.n_reactions ∧ f = i * g.n_reactions + r ∧
              v = g.toSimulationAlgorithmBase.ReactionProp i r)
            g.n_reactions _ _ trivial ?_ ?_).2 r0 hr0 _ rfl
          · intro a b f _ _ e1 e2
            omega
          · intro r1 hr1 s _
            refine ⟨trivial, ?_, ?_⟩
            · rintro f rfl
              rcases rd_wr_self_or s.mesh_ar (k * g.n_reactions + r1)
                (g.toSimulationAlgorithmBase.ReactionProp k r1) with h | h
              · exact Or.inr ⟨k, r1, hr1, rfl, h⟩
              · exact Or.inl h
            · intro f hf
              exact rd_wr_ne _ _ (fun e => hf e.symm)
        · exact forLoop_preserve (fun s : GillespieGraph => s.mesh_ar) _ _ _ (fun n _ s => rfl)
      · intro f hf
        dsimp only
        rw [forLoop_preserve (fun s : GillespieGraph => s.mesh_ar) _ _ _ (fun sp _ s => ?_)]
        · refine forLoop_preserve (fun s : GillespieGraph => rd s.mesh_ar f) _ _ _
            (fun r1 hr1 s => ?_)
          exact rd_wr_ne _ _ (fun e => hf ⟨r1, hr1, e.symm⟩)
        · exact forLoop_preserve (fun s : GillespieGraph => s.mesh_ar) _ _ _ (fun n _ s => rfl)
  rcases key i hi (i * g.n_reactions + r) ⟨r, hr, rfl⟩ with h | ⟨i', r', hr', he, hv⟩
  · exact Or.inl h
  · obtain ⟨e1, e2⟩ := flat_index_inj hr hr' he
    subst e1; subst e2
    exact Or.inr hv

end GillespieGraph

namespace GillespieGraph

/-- After `ComputePropensities`, a cell of `mesh_ad` reads `0` or the diffusion
propensity of its mesh, species and neighbour slot. -/
theorem ComputePropensities_mesh_ad_gillespieGraph (g : GillespieGraph) (i s n : Nat) (hi : i < g.n_meshes)
    (hs : s < g.n_species) (hn : n < rd g.mesh_neighbor_n i) :
    rd (rdRow g.ComputePropensities.mesh_ad i) (s * rd g.mesh_neighbor_n i + n) = 0 ∨
    rd (rdRow g.ComputePropensities.mesh_ad i) (s * rd g.mesh_neighbor_n i + n) =
      g.toSimulationAlgorithmGraphBase.DiffusionProp i s n := by
  have key : ∀ k, k < g.n_meshes → ∀ p : Nat × Nat,
      (p.1 = k ∧ ∃ s n, s < g.n_species ∧ n < rd g.mesh_neighbor_n k ∧
        p.2 = s * rd g.mesh_neighbor_n k + n) →
      (rd (rdRow g.ComputePropensities.mesh_ad p.1) p.2 = 0 ∨
        ∃ s n, s < g.n_species ∧ n < rd g.mesh_neighbor_n p.1 ∧
          p.2 = s * rd g.mesh_neighbor_n p.1 + n ∧
          rd (rdRow g.ComputePropensities.mesh_ad p.1) p.2 =
            g.toSimulationAlgorithmGraphBase.DiffusionProp p.1 s n) := by
    unfold ComputePropensities
    refine (forLoop_cells
      (fun (st : GillespieGraph) (p : Nat × Nat) => rd (rdRow st.mesh_ad p.1) p.2)
      (fun _ => True)
      (fun k p => p.1 = k ∧ ∃ s n, s < g.n_species ∧ n < rd g.mesh_neighbor_n k ∧
        p.2 = s * rd g.mesh_neighbor_n k + n)
      (fun p v => v = 0 ∨ ∃ s n, s < g.n_species ∧ n < rd g.mesh_neighbor_n p.1 ∧
        p.2 = s * rd g.mesh_neighbor_n p.1 + n ∧
        v = g.toSimulationAlgorithmGraphBase.DiffusionProp p.1 s n)
      g.n_meshes _ { g with a0 := 0 } trivial ?_ ?_).2
    · rintro a b p _ _ ⟨e1, _⟩ ⟨e2, _⟩
      exact e1.symm.trans e2
    · intro k _ st _
      refine ⟨trivial, ?_, ?_⟩
      · rintro ⟨p1, p2⟩ ⟨e, s0, n0, hs0, hn0, e2⟩
        dsimp only at e e2
        subst e; subst e2
        dsimp only
        refine (forLoop_cells
          (fun (st : GillespieGraph) (p : Nat × Nat) => rd (rdRow st.mesh_ad p.1) p.2)
          (fun _ => True)
          (fun s p => p.1 = p1 ∧ ∃ n, n < rd g.mesh_neighbor_n p1 ∧
            p.2 = s * rd g.mesh_neighbor_n p1 + n)
          (fun p v => v = 0 ∨ ∃ s n, s < g.n_species ∧ n < rd g.mesh_neighbor_n p.1 ∧
            p.2 = s * rd g.mesh_neighbor_n p.1 + n ∧
            v = g.toSimulationAlgorithmGraphBase.DiffusionProp p.1 s n)
          g.n_species _ _ trivial ?_ ?_).2 s0 hs0 (p1, s0 * rd g.mesh_neighbor_n p1 + n0)
            ⟨rfl, n0, hn0, rfl⟩
        · rintro a b p _ _ ⟨_, n1, hn1, e1⟩ ⟨_, n2, hn2, e2⟩
          exact (flat_index_inj hn1 hn2 (e1.symm.trans e2)).1
        · intro s1 hs1 st _
          refine ⟨trivial, ?_, ?_⟩
          · rintro ⟨q1, q2⟩ ⟨e, n1, hn1, e2⟩
            dsimp only at e e2
            subst e; subst e2
            refine (forLoop_cells
              (fun (st : GillespieGraph) (p : Nat × Nat) => rd (rdRow st.mesh_ad p.1) p.2)
              (fun _ => True)
              (fun n p => p = (q1, s1 * rd g.mesh_neighbor_n q1 + n))
              (fun p v => v = 0 ∨ ∃ s n, s < g.n_species ∧ n < rd g.mesh_neighbor_n p.1 ∧
                p.2 = s * rd g.mesh_neighbor_n p.1 + n ∧
                v = g.toSimulationAlgorithmGraphBase.DiffusionProp p.1 s n)
              (rd g.mesh_neighbor_n q1) _ _ trivial ?_ ?_).2 n1 hn1 _ rfl
            · intro a b p _ _ e1 e2
              have := e1.symm.trans e2
              simp only [Prod.mk.injEq, true_and] at this
              omega
            · intro n2 hn2 st _
              refine ⟨trivial, ?_, ?_⟩
              · rintro p rfl
                dsimp only
                rcases rd_row_wr_self_or st.mesh_ad q1 (s1 * rd g.mesh_neighbor_n q1 + n2)
                  (g.toSimulationAlgorithmGraphBase.DiffusionProp q1 s1 n2) with h | h
                · exact Or.inr ⟨s1, n2, hs1, hn2, rfl, h⟩
                · exact Or.inl h
              · rintro ⟨r1, r2⟩ hf
                dsimp only
                exact rd_row_wr_other _ _ _ _ _ _ (fun hc => hf (by rw [hc.1, hc.2]))
          · rintro ⟨q1, q2⟩ hf
            refine forLoop_preserve
              (fun st : GillespieGraph => rd (rdRow st.mesh_ad q1) q2) _ _ _
              (fun n2 hn2 st => ?_)
            dsimp only
            exact rd_row_wr_other _ _ _ _ _ _ (fun hc => hf ⟨hc.1, n2, hn2, hc.2⟩)
      · rintro ⟨q1, q2⟩ hf
        dsimp only
        refine Eq.trans (forLoop_preserve
          (fun st : GillespieGraph => rd (rdRow st.mesh_ad q1) q2) _ _ _
          (fun s1 hs1 st => ?_)) ?_
        · refine forLoop_preserve
            (fun st : GillespieGraph => rd (rdRow st.mesh_ad q1) q2) _ _ _
            (fun n2 hn2 st => ?_)
          dsimp only
          exact rd_row_wr_other _ _ _ _ _ _ (fun hc => hf ⟨hc.1, s1, n2, hs1, hn2, hc.2⟩)
        · exact forLoop_preserve
            (fun st : GillespieGraph => rd (rdRow st.mesh_ad q1) q2) _ _ _
            (fun r1 _ st => rfl)
  rcases key i hi (i, s * rd g.mesh_neighbor_n i + n) ⟨rfl, s, n, hs, hn, rfl⟩ with
    h | ⟨s', n', hs', hn', he, hv⟩
  · exact Or.inl h
  · dsimp only at he hv hn'
    obtain ⟨e1, e2⟩ := flat_index_inj hn hn' he
    subst e1; subst e2
    exact Or.inr hv

theorem ApplyReaction_naturals_gillespieGraph (g : GillespieGraph) (i r : Nat)
    (hx : CountsAreNaturals g.mesh_x)
    (hsto : ∀ s, s < g.n_species → (∃ z : Int, rd g.sto (s * g.n_reactions + r) = (z : ℚ)) ∧
      -rd g.sub (s * g.n_reactions + r) ≤ rd g.sto (s * g.n_reactions + r))
    (hsub : ∀ s, s < g.n_species →
      rd g.sub (s * g.n_reactions + r) ≤ rd g.mesh_x (i * g.n_species + s)) :
    CountsAreNaturals (g.ApplyReaction i r).mesh_x :=
  applyReaction_naturals g.n_species g.n_reactions g.sto g.sub g.mesh_x i r hx hsto hsub
    (fun s => ¬ (rd g.mesh_chstt (i * g.n_species + s) ≠ 0))

theorem ApplyDiffusion_naturals_gillespieGraph (g : GillespieGraph) (i j n : Nat)
    (hx : CountsAreNaturals g.mesh_x) (hpos : 0 < rd g.mesh_x (i * g.n_species + j)) :
    CountsAreNaturals (g.ApplyDiffusion i j n).mesh_x := by
  obtain ⟨k, hk⟩ := hx (i * g.n_species + j)
  have hk1 : 1 ≤ k := by
    rw [hk] at hpos
    exact_mod_cast hpos
  have h1 : CountsAreNaturals
      (wr g.mesh_x (i * g.n_species + j) (rd g.mesh_x (i * g.n_species + j) - 1)) := by
    have e : rd g.mesh_x (i * g.n_species + j) - 1 = ((k - 1 : Nat) : ℚ) := by
      rw [hk, Nat.cast_sub hk1]; simp
    rw [e]
    exact hx.wr_nat _ _
  have step2 : ∀ v : List ℚ, CountsAreNaturals v → ∀ idx : Nat,
      CountsAreNaturals (wr v idx (rd v idx + 1)) := by
    intro v hv idx
    obtain ⟨m, hm⟩ := hv idx
    have e2 : rd v idx + 1 = ((m + 1 : Nat) : ℚ) := by rw [hm]; push_cast; ring
    rw [e2]
    exact hv.wr_nat _ _
  unfold ApplyDiffusion
  dsimp only
  by_cases c1 : rd g.mesh_chstt (i * g.n_species + j) ≠ 0
  · have e1 : (if ¬ (rd g.mesh_chstt (i * g.n_species + j) ≠ 0) then
        { g with
          mesh_x := wr g.mesh_x (i * g.n_species + j) (rd g.mesh_x (i * g.n_species + j) - 1) }
        else g) = g := if_neg (fun hn => hn c1)
    rw [e1]
    by_cases c2 : rd g.mesh_chstt
        (rd (rdRow g.mesh_neighbor_index i) n * g.n_species + j) ≠ 0
    · rw [if_neg (fun hn => hn c2)]
      exact hx
    · rw [if_pos c2]
      exact step2 _ hx _
  · have e1 : (if ¬ (rd g.mesh_chstt (i * g.n_species + j) ≠ 0) then
        { g with
          mesh_x := wr g.mesh_x (i * g.n_species + j) (rd g.mesh_x (i * g.n_species + j) - 1) }
        else g) =
        { g with
          mesh_x := wr g.mesh_x (i * g.n_species + j) (rd g.mesh_x (i * g.n_species + j) - 1) } :=
      if_pos c1
    rw [e1]
    dsimp only
    by_cases c2 : rd g.mesh_chstt
        (rd (rdRow g.mesh_neighbor_index i) n * g.n_species + j) ≠ 0
    · rw [if_neg (fun hn => hn c2)]
      exact h1
    · rw [if_pos c2]
      exact step2 _ h1 _

end GillespieGraph

namespace GillespieGraph

theorem DrawAndApplyEvent_naturals_gillespieGraph (g : GillespieGraph) (hx : CountsAreNaturals g.mesh_x)
    (hsto : ∀ s r, s < g.n_species → r < g.n_reactions →
      (∃ z : Int, rd g.sto (s * g.n_reactions + r) = (z : ℚ)) ∧
      -rd g.sub (s * g.n_reactions + r) ≤ rd g.sto (s * g.n_reactions + r))
    (hu : 0 ≤ g.rng.uniform g.rng.pos) (ha0 : 0 ≤ g.a0)
    (hAR : ∀ i r, i < g.n_meshes → r < g.n_reactions →
      0 < rd g.mesh_ar (i * g.n_reactions + r) →
      ∀ s, s < g.n_species → rd g.sub (s * g.n_reactions + r) ≤ rd g.mesh_x (i * g.n_species + s))
    (hAD : ∀ i s n, i < g.n_meshes → s < g.n_species → n < rd g.mesh_neighbor_n i →
      0 < rd (rdRow g.mesh_ad i) (s * rd g.mesh_neighbor_n i + n) →
      0 < rd g.mesh_x (i * g.n_species + s)) :
    ∃ x, g.DrawAndApplyEvent = { g with mesh_x := x, rng := g.rng.advance } ∧
      CountsAreNaturals x := by
  unfold DrawAndApplyEvent
  dsimp only
  refine walkMeshes_event_gillespieGraph { g with rng := g.rng.advance } _
    (fun g' => ∃ x, g' = { g with mesh_x := x, rng := g.rng.advance } ∧ CountsAreNaturals x)
    ⟨g.mesh_x, rfl, hx⟩ _ ?_ ?_ 0 (mul_nonneg hu ha0)
  · intro i hi j hj hpos
    exact ⟨_, rfl, ApplyReaction_naturals_gillespieGraph { g with rng := g.rng.advance } i j hx
      (fun s hs => hsto s j hs hj) (hAR i j (List.mem_range.mp hi) hj hpos)⟩
  · intro i hi j hj n hn hpos
    obtain ⟨x, hk1, hk2⟩ := ApplyDiffusion_keeps { g with rng := g.rng.advance } i j n
    refine ⟨x, hk1, ?_⟩
    have := ApplyDiffusion_naturals_gillespieGraph { g with rng := g.rng.advance } i j n hx
      (hAD i j n (List.mem_range.mp hi) hj hn hpos)
    rw [hk1] at this
    exact this

/-- One `Iterate` of `GillespieGraph` keeps the model and keeps the counts
natural. -/
theorem Iterate_naturals_gillespieGraph (m : Libm) (g : GillespieGraph) (hx : CountsAreNaturals g.mesh_x)
    (hsto : ∀ s r, s < g.n_species → r < g.n_reactions →
      (∃ z : Int, rd g.sto (s * g.n_reactions + r) = (z : ℚ)) ∧
      -rd g.sub (s * g.n_reactions + r) ≤ rd g.sto (s * g.n_reactions + r))
    (hkr : ∀ f, 0 ≤ rd g.mesh_kr f) (hkd : ∀ i f, 0 ≤ rd (rdRow g.mesh_kd_out i) f)
    (hu : 0 ≤ g.rng.uniform g.rng.pos) :
    ((g.Iterate m).2.n_species = g.n_species ∧ (g.Iterate m).2.n_reactions = g.n_reactions ∧
      (g.Iterate m).2.sto = g.sto ∧ (g.Iterate m).2.sub = g.sub ∧
      (g.Iterate m).2.mesh_kr = g.mesh_kr ∧ (g.Iterate m).2.mesh_kd_out = g.mesh_kd_out ∧
      (g.Iterate m).2.rng.uniform = g.rng.uniform) ∧
    CountsAreNaturals (g.Iterate m).2.mesh_x := by
  have hA0 := ComputePropensities_a0_nonneg_gillespieGraph { g with sampling_done_this_iteration := false }
    hkr hkd hx.nonneg_nat
  have hAR : ∀ i r, i < g.n_meshes → r < g.n_reactions →
      0 < rd (ComputePropensities { g with sampling_done_this_iteration := false }).mesh_ar
        (i * g.n_reactions + r) →
      ∀ s, s < g.n_species →
        rd g.sub (s * g.n_reactions + r) ≤ rd g.mesh_x (i * g.n_species + s) := by
    intro i r hi hr hpos
    rcases ComputePropensities_mesh_ar_gillespieGraph { g with sampling_done_this_iteration := false } i r hi hr
      with h | h
    · rw [h] at hpos; exact absurd hpos (lt_irrefl 0)
    · rw [h] at hpos
      exact SimulationAlgorithmBase.ReactionProp_pos
        ({ g with sampling_done_this_iteration := false } :
          GillespieGraph).toSimulationAlgorithmBase i r hpos
  have hAD : ∀ i s n, i < g.n_meshes → s < g.n_species → n < rd g.mesh_neighbor_n i →
      0 < rd (rdRow
        (ComputePropensities { g with sampling_done_this_iteration := false }).mesh_ad i)
        (s * rd g.mesh_neighbor_n i + n) →
      0 < rd g.mesh_x (i * g.n_species + s) := by
    intro i s n hi hs hn hpos
    rcases ComputePropensities_mesh_ad_gillespieGraph { g with sampling_done_this_iteration := false } i s n
      hi hs hn with h | h
    · rw [h] at hpos; exact absurd hpos (lt_irrefl 0)
    · rw [h] at hpos
      by_contra hneg
      have hz : rd g.mesh_x (i * g.n_species + s) = 0 :=
        le_antisymm (not_lt.mp hneg) (hx.nonneg_nat _)
      unfold SimulationAlgorithmGraphBase.DiffusionProp at hpos
      dsimp only at hpos
      rw [hz, zero_mul] at hpos
      exact absurd hpos (lt_irrefl 0)
  obtain ⟨ar, ad, a0r, a0d, a0, hcp⟩ :=
    ComputePropensities_frame_gillespieGraph { g with sampling_done_this_iteration := false }
  rw [hcp] at hA0 hAR hAD
  dsimp only at hA0 hAR hAD
  unfold Iterate
  dsimp only
  by_cases hcomp : g.complete = true
  · rw [if_pos hcomp]
    exact ⟨⟨rfl, rfl, rfl, rfl, rfl, rfl, rfl⟩, hx⟩
  · rw [if_neg hcomp, hcp]
    dsimp only
    by_cases ha : a0 = 0
    · rw [if_pos ha]
      exact ⟨⟨rfl, rfl, rfl, rfl, rfl, rfl, rfl⟩, hx⟩
    · rw [if_neg ha]
      obtain ⟨x, hd, hnat⟩ := DrawAndApplyEvent_naturals_gillespieGraph
        { g with sampling_done_this_iteration := false, mesh_ar := ar, mesh_ad := ad,
                 mesh_a0r := a0r, mesh_a0d := a0d, a0 := a0 }
        hx hsto hu hA0 hAR hAD
      rw [hd]
      dsimp only
      obtain ⟨sx, st, gd, p, l, c, h⟩ := SimulationAlgorithmBase.SamplingStep_CheckTMax_frame
        { g.toSimulationAlgorithmBase with
          sampling_done_this_iteration := false, mesh_x := x,
          dt := m.log (1 / g.rng.advance.uniform g.rng.advance.pos) / a0,
          rng := g.rng.advance.advance,
          t := g.t + m.log (1 / g.rng.advance.uniform g.rng.advance.pos) / a0 }
      rw [h]
      exact ⟨⟨rfl, rfl, rfl, rfl, rfl, rfl, rfl⟩, hnat⟩

end GillespieGraph

/-- C4.  For `Gillespie3D` and `GillespieGraph` in exact arithmetic: when the
counts are natural numbers, `sub[s,r]` is a natural number, `sto[s,r]` is an
integer with `sto[s,r] ≥ -sub[s,r]`, the rate constants `mesh_kr` and `mesh_kd`
(`mesh_kd_out` on the graph) are non-negative and every uniform draw lies in
`[0, 1)`, the counts are natural numbers again after one `Iterate` call and
after any number `n` of calls. -/
theorem C4_gillespie_counts_stay_natural :
    (∀ (m : Libm) (g : Gillespie3D) (n : Nat), CountsAreNaturals g.mesh_x →
      (∀ s r, s < g.n_species → r < g.n_reactions →
        (∃ k : Nat, rd g.sub (s * g.n_reactions + r) = (k : ℚ)) ∧
        (∃ z : Int, rd g.sto (s * g.n_reactions + r) = (z : ℚ)) ∧
        -rd g.sub (s * g.n_reactions + r) ≤ rd g.sto (s * g.n_reactions + r)) →
      (∀ f, 0 ≤ rd g.mesh_kr f) → (∀ f, 0 ≤ rd g.mesh_kd f) →
      (∀ k, 0 ≤ g.rng.uniform k ∧ g.rng.uniform k < 1) →
      CountsAreNaturals (g.Iterate m).2.mesh_x ∧
      CountsAreNaturals ((fun g => (Gillespie3D.Iterate m g).2)^[n] g).mesh_x) ∧
    (∀ (m : Libm) (g : GillespieGraph) (n : Nat), CountsAreNaturals g.mesh_x →
      (∀ s r, s < g.n_species → r < g.n_reactions →
        (∃ k : Nat, rd g.sub (s * g.n_reactions + r) = (k : ℚ)) ∧
        (∃ z : Int, rd g.sto (s * g.n_reactions + r) = (z : ℚ)) ∧
        -rd g.sub (s * g.n_reactions + r) ≤ rd g.sto (s * g.n_reactions + r)) →
      (∀ f, 0 ≤ rd g.mesh_kr f) → (∀ i f, 0 ≤ rd (rdRow g.mesh_kd_out i) f) →
      (∀ k, 0 ≤ g.rng.uniform k ∧ g.rng.uniform k < 1) →
      CountsAreNaturals (g.Iterate m).2.mesh_x ∧
      CountsAreNaturals ((fun g => (GillespieGraph.Iterate m g).2)^[n] g).mesh_x) := by
  constructor
  · intro m g n hx hsto hkr hkd hu
    refine ⟨(Gillespie3D.Iterate_naturals_gillespie3D m g hx (fun s r hs hr => (hsto s r hs hr).2) hkr hkd
      (hu _).1).2, ?_⟩
    have key := iterate_keeps (fun g => (Gillespie3D.Iterate m g).2)
      (fun g' => (g'.n_species = g.n_species ∧ g'.n_reactions = g.n_reactions ∧
        g'.sto = g.sto ∧ g'.sub = g.sub ∧ g'.mesh_kr = g.mesh_kr ∧ g'.mesh_kd = g.mesh_kd ∧
        g'.rng.uniform = g.rng.uniform) ∧ CountsAreNaturals g'.mesh_x)
      (fun _ => ()) ?_ (fun _ _ => rfl) n g ⟨⟨rfl, rfl, rfl, rfl, rfl, rfl, rfl⟩, hx⟩
    · exact key.1.2
    · rintro g' ⟨⟨e1, e2, e3, e4, e5, e6, e7⟩, hx'⟩
      obtain ⟨⟨f1, f2, f3, f4, f5, f6, f7⟩, hnat⟩ := Gillespie3D.Iterate_naturals_gillespie3D m g' hx'
        (by rw [e1, e2, e3, e4]; exact fun s r hs hr => (hsto s r hs hr).2)
        (by rw [e5]; exact hkr) (by rw [e6]; exact hkd) (by rw [e7]; exact (hu _).1)
      exact ⟨⟨f1.trans e1, f2.trans e2, f3.trans e3, f4.trans e4, f5.trans e5, f6.trans e6,
        f7.trans e7⟩, hnat⟩
  · intro m g n hx hsto hkr hkd hu
    refine ⟨(GillespieGraph.Iterate_naturals_gillespieGraph m g hx (fun s r hs hr => (hsto s r hs hr).2) hkr hkd
      (hu _).1).2, ?_⟩
    have key := iterate_keeps (fun g => (GillespieGraph.Iterate m g).2)
      (fun g' => (g'.n_species = g.n_species ∧ g'.n_reactions = g.n_reactions ∧
        g'.sto = g.sto ∧ g'.sub = g.sub ∧ g'.mesh_kr = g.mesh_kr ∧
        g'.mesh_kd_out = g.mesh_kd_out ∧
        g'.rng.uniform = g.rng.uniform) ∧ CountsAreNaturals g'.mesh_x)
      (fun _ => ()) ?_ (fun _ _ => rfl) n g ⟨⟨rfl, rfl, rfl, rfl, rfl, rfl, rfl⟩, hx⟩
    · exact key.1.2
    · rintro g' ⟨⟨e1, e2, e3, e4, e5, e6, e7⟩, hx'⟩
      obtain ⟨⟨f1, f2, f3, f4, f5, f6, f7⟩, hnat⟩ := GillespieGraph.Iterate_naturals_gillespieGraph m g' hx'
        (by rw [e1, e2, e3, e4]; exact fun s r hs hr => (hsto s r hs hr).2)
        (by rw [e5]; exact hkr) (by rw [e6]; exact hkd) (by rw [e7]; exact (hu _).1)
      exact ⟨⟨f1.trans e1, f2.trans e2, f3.trans e3, f4.trans e4, f5.trans e5, f6.trans e6,
        f7.trans e7⟩, hnat⟩

theorem rd_mem_or_zero (v : List ℚ) (f : Nat) : rd v f ∈ v ∨ rd v f = 0 := by
  by_cases h : f < v.length
  · left
    unfold rd
    rw [List.getD_eq_getElem?_getD, List.getElem?_eq_getElem h]
    exact List.getElem_mem h
  · exact Or.inr (rd_of_length_le v (not_lt.mp h))

/-- A vector whose entries are natural numbers reads natural numbers. -/
theorem countsAreNaturals_of_forall (v : List ℚ) (h : ∀ q ∈ v, q.den = 1 ∧ 0 ≤ q.num) :
    CountsAreNaturals v := by
  intro f
  rcases rd_mem_or_zero v f with hm | hz
  · obtain ⟨hd, hn⟩ := h _ hm
    refine ⟨(rd v f).num.toNat, ?_⟩
    have e1 : ((rd v f).num : ℚ) = rd v f := by
      rw [← Rat.den_eq_one_iff]; exact hd
    have e2 : (((rd v f).num.toNat : Int) : ℚ) = ((rd v f).num : ℚ) := by
      rw [Int.toNat_of_nonneg hn]
    rw [Int.cast_natCast] at e2
    rw [e2, e1]
  · exact ⟨0, by rw [hz]; simp⟩

/-- A vector whose entries are non-negative reads non-negative numbers. -/
theorem rd_nonneg_of_forall (v : List ℚ) (h : ∀ q ∈ v, 0 ≤ q) (f : Nat) : 0 ≤ rd v f := by
  rcases rd_mem_or_zero v f with hm | hz
  · exact h _ hm
  · rw [hz]

/-- The same for a table of rows. -/
theorem rd_row_nonneg_of_forall (v : List (List ℚ)) (h : ∀ row ∈ v, ∀ q ∈ row, 0 ≤ q)
    (i f : Nat) : 0 ≤ rd (rdRow v i) f := by
  by_cases hi : i < v.length
  · refine rd_nonneg_of_forall _ (h _ ?_) f
    unfold rdRow
    rw [List.getD_eq_getElem?_getD, List.getElem?_eq_getElem hi]
    exact List.getElem_mem hi
  · rw [rdRow_of_length_le v (not_lt.mp hi)]
    exact le_refl 0

/-- C4 on scenario S5 (counts `[100, 0]`, one reaction `A -> 0`): the
hypotheses hold and the counts are natural after one and after five `Iterate`
calls of both Gillespie kernels. -/
theorem C4_gillespie_counts_stay_natural_witness :
    (CountsAreNaturals chemostatGillespie3D.mesh_x ∧
      CountsAreNaturals (chemostatGillespie3D.Iterate scenarioLibm).2.mesh_x ∧
      CountsAreNaturals
        ((fun g => (Gillespie3D.Iterate scenarioLibm g).2)^[5] chemostatGillespie3D).mesh_x) ∧
    (CountsAreNaturals chemostatGillespieGraph.mesh_x ∧
      CountsAreNaturals (chemostatGillespieGraph.Iterate scenarioLibm).2.mesh_x ∧
      CountsAreNaturals
        ((fun g => (GillespieGraph.Iterate scenarioLibm g).2)^[5]
          chemostatGillespieGraph).mesh_x) :=
  ⟨⟨countsAreNaturals_of_forall _ (by decide!),
    C4_gillespie_counts_stay_natural.1 scenarioLibm chemostatGillespie3D 5
      (countsAreNaturals_of_forall _ (by decide!))
      (fun s r (hs : s < 1) (hr : r < 1) => by
        obtain rfl : s = 0 := by omega
        obtain rfl : r = 0 := by omega
        exact ⟨⟨1, by decide!⟩, ⟨-1, by decide!⟩, by decide!⟩)
      (rd_nonneg_of_forall _ (by decide!)) (rd_nonneg_of_forall _ (by decide!))
      (fun _ => (⟨by decide!, by decide!⟩ : (0 : ℚ) ≤ 1 / 2 ∧ (1 / 2 : ℚ) < 1))⟩,
   ⟨countsAreNaturals_of_forall _ (by decide!),
    C4_gillespie_counts_stay_natural.2 scenarioLibm chemostatGillespieGraph 5
      (countsAreNaturals_of_forall _ (by decide!))
      (fun s r (hs : s < 1) (hr : r < 1) => by
        obtain rfl : s = 0 := by omega
        obtain rfl : r = 0 := by omega
        exact ⟨⟨1, by decide!⟩, ⟨-1, by decide!⟩, by decide!⟩)
      (rd_nonneg_of_forall _ (by decide!)) (rd_row_nonneg_of_forall _ (by decide!))
      (fun _ => (⟨by decide!, by decide!⟩ : (0 : ℚ) ≤ 1 / 2 ∧ (1 / 2 : ℚ) < 1))⟩⟩

/-! ## The stochastic kernels without reactions -/

namespace SimulationAlgorithmBase

theorem ReactionPropLoop_zero (b : SimulationAlgorithmBase) (i r : Nat) (l : List Nat) :
    ReactionPropLoop b i r l 0 = 0 := by
  induction l with
  | nil => rfl
  | cons s rest ih =>
    unfold ReactionPropLoop
    split_ifs
    · have e : forLoop ⌈rd b.sub (s * b.n_reactions + r)⌉₊
          (fun q a => a * (rd b.mesh_x (i * b.n_species + s) - (q : ℚ))) 0 = 0 :=
        forLoop_invariant (fun a => a = 0) _ _ _ rfl (fun q _ a ha => by rw [ha, zero_mul])
      rw [e]
      exact ih
    · rfl

/-- A reaction whose rate constant is `0` has propensity `0`. -/
theorem ReactionProp_zero (b : SimulationAlgorithmBase) (i r : Nat)
    (hkr : rd b.mesh_kr (i * b.n_reactions + r) = 0) : b.ReactionProp i r = 0 := by
  unfold ReactionProp
  rw [hkr]
  exact ReactionPropLoop_zero b i r _

/-- With every `k[r] = 0`, `Build_mesh_kr` builds a table of zeros. -/
theorem Build_mesh_kr_zero (m : Libm) (b : SimulationAlgorithmBase) (vol : Nat → ℚ)
    (k r_env : List ℚ) (hk : ∀ r, rd k r = 0) (f : Nat) :
    rd (b.Build_mesh_kr m vol k r_env).mesh_kr f = 0 := by
  unfold Build_mesh_kr
  dsimp only
  refine forLoop_invariant (fun v : List ℚ => rd v f = 0) _ _ _ (rd_replicate_zero _ _)
    (fun i _ v hv => ?_)
  refine forLoop_invariant (fun v : List ℚ => rd v f = 0) _ _ _ hv (fun r _ v hv => ?_)
  show rd (wr v _ _) f = 0
  rw [rd_wr]
  split_ifs
  · rw [hk r]; ring
  · exact hv

end SimulationAlgorithmBase

theorem rdI_of_nonneg {α : Type} [Zero α] (v : List α) (j : Int) (hj : 0 ≤ j) (ns s : Nat) :
    rdI v (j * ns + s) = rd v (j.toNat * ns + s) := by
  unfold rdI
  have h0 : (0 : Int) ≤ j * ns + s := by positivity
  rw [if_pos h0]
  congr 1
  have : (j * ns + s : Int) = ((j.toNat * ns + s : Nat) : Int) := by
    push_cast
    rw [Int.toNat_of_nonneg hj]
  rw [this, Int.toNat_natCast]

theorem wrI_of_nonneg {α : Type} (v : List α) (j : Int) (hj : 0 ≤ j) (ns s : Nat) (a : α) :
    wrI v (j * ns + s) a = wr v (j.toNat * ns + s) a := by
  unfold wrI
  have h0 : (0 : Int) ≤ j * ns + s := by positivity
  rw [if_pos h0]
  congr 1
  have : (j * ns + s : Int) = ((j.toNat * ns + s : Nat) : Int) := by
    push_cast
    rw [Int.toNat_of_nonneg hj]
  rw [this, Int.toNat_natCast]

/-- Moving `c` molecules of species `s` from mesh `i` to mesh `j` keeps the
size of the state and the total of every species. -/
theorem speciesTotal_move (v : List ℚ) (nm ns i j s : Nat) (c : ℚ) (hi : i < nm) (hj : j < nm)
    (hs : s < ns) (hlen : v.length = nm * ns) :
    (wr (wr v (i * ns + s) (rd v (i * ns + s) - c)) (j * ns + s)
      (rd (wr v (i * ns + s) (rd v (i * ns + s) - c)) (j * ns + s) + c)).length = nm * ns ∧
    ∀ s', s' < ns →
      speciesTotal (wr (wr v (i * ns + s) (rd v (i * ns + s) - c)) (j * ns + s)
        (rd (wr v (i * ns + s) (rd v (i * ns + s) - c)) (j * ns + s) + c)) nm ns s' =
      speciesTotal v nm ns s' := by
  refine ⟨by simp [hlen], fun s' hs' => ?_⟩
  rw [speciesTotal_wr _ nm ns s' j s _ hs' hs (by simp [hlen]; exact flat_index_lt hj hs),
    speciesTotal_wr _ nm ns s' i s _ hs' hs (by rw [hlen]; exact flat_index_lt hi hs)]
  by_cases e : s' = s
  · simp only [e, hi, hj, and_self, if_true]
    ring
  · simp [e]

namespace Gillespie3D

theorem ApplyDiffusion_conserves (g : Gillespie3D) (i s n : Nat) (hi : i < g.n_meshes)
    (hs : s < g.n_species) (hlen : g.mesh_x.length = g.n_meshes * g.n_species)
    (hj0 : 0 ≤ rd g.mesh_neighbors (i * 6 + n))
    (hj1 : rd g.mesh_neighbors (i * 6 + n) < g.n_meshes) :
    (g.ApplyDiffusion i s n).mesh_x.length = g.n_meshes * g.n_species ∧
    ∀ s', s' < g.n_species →
      speciesTotal (g.ApplyDiffusion i s n).mesh_x g.n_meshes g.n_species s' =
        speciesTotal g.mesh_x g.n_meshes g.n_species s' := by
  unfold ApplyDiffusion
  dsimp only
  rw [rdI_of_nonneg _ _ hj0, wrI_of_nonneg _ _ hj0]
  exact speciesTotal_move g.mesh_x g.n_meshes g.n_species i
    (rd g.mesh_neighbors (i * 6 + n)).toNat s 1 hi (by omega) hs hlen

theorem DrawAndApplyEvent_conserves (g : Gillespie3D)
    (hlen : g.mesh_x.length = g.n_meshes * g.n_species)
    (hnb : g.toSimulationAlgorithm3DBase.NeighborsInRange)
    (hu : 0 ≤ g.rng.uniform g.rng.pos) (ha0 : 0 ≤ g.a0)
    (hAR : ∀ i r, i < g.n_meshes → r < g.n_reactions → rd g.mesh_ar (i * g.n_reactions + r) = 0)
    (hAD : ∀ i s n, i < g.n_meshes → s < g.n_species → n < 6 →
      0 < rd g.mesh_ad (i * g.n_species * 6 + s * 6 + n) →
      rd g.mesh_neighbors (i * 6 + n) ≠ -1) :
    ∃ x, g.DrawAndApplyEvent = { g with mesh_x := x, rng := g.rng.advance } ∧
      x.length = g.n_meshes * g.n_species ∧
      ∀ s, s < g.n_species →
        speciesTotal x g.n_meshes g.n_species s =
          speciesTotal g.mesh_x g.n_meshes g.n_species s := by
  unfold DrawAndApplyEvent
  dsimp only
  refine walkMeshes_event_gillespie3D { g with rng := g.rng.advance } _
    (fun g' => ∃ x, g' = { g with mesh_x := x, rng := g.rng.advance } ∧
      x.length = g.n_meshes * g.n_species ∧
      ∀ s, s < g.n_species →
        speciesTotal x g.n_meshes g.n_species s =
          speciesTotal g.mesh_x g.n_meshes g.n_species s)
    ⟨g.mesh_x, rfl, hlen, fun _ _ => rfl⟩ _ ?_ ?_ 0 (mul_nonneg hu ha0)
  · intro i hi j hj hpos
    have h0 : rd g.mesh_ar (i * g.n_reactions + j) = 0 := hAR i j (List.mem_range.mp hi) hj
    have hpos' : 0 < rd g.mesh_ar (i * g.n_reactions + j) := hpos
    rw [h0] at hpos'
    exact absurd hpos' (lt_irrefl 0)
  · intro i hi j hj n hn hpos
    have hi' := List.mem_range.mp hi
    have hne := hAD i j n hi' hj hn hpos
    rcases hnb i n hi' hn with h | ⟨h0, h1⟩
    · exact absurd h hne
    · obtain ⟨c1, c2⟩ := ApplyDiffusion_conserves { g with rng := g.rng.advance } i j n hi' hj
        hlen h0 h1
      exact ⟨_, rfl, c1, c2⟩

/-- One `Iterate` of `Gillespie3D` with all reaction constants `0` keeps the
size of the state and the total of every species. -/
theorem Iterate_conserves_gillespie3D (m : Libm) (g : Gillespie3D)
    (hlen : g.mesh_x.length = g.n_meshes * g.n_species)
    (hnb : g.toSimulationAlgorithm3DBase.NeighborsInRange)
    (hkr : ∀ f, rd g.mesh_kr f = 0) (hkd : ∀ f, 0 ≤ rd g.mesh_kd f)
    (hx : ∀ f, 0 ≤ rd g.mesh_x f) (hu : 0 ≤ g.rng.uniform g.rng.pos) :
    (g.Iterate m).2.mesh_x.length = g.n_meshes * g.n_species ∧
    ∀ s, s < g.n_species →
      speciesTotal (g.Iterate m).2.mesh_x g.n_meshes g.n_species s =
        speciesTotal g.mesh_x g.n_meshes g.n_species s := by
  have hA0 := ComputePropensities_a0_nonneg_gillespie3D
    { g with sampling_done_this_iteration := false } (fun f => le_of_eq (hkr f).symm) hkd hx
  have hAR : ∀ i r, i < g.n_meshes → r < g.n_reactions →
      rd (ComputePropensities { g with sampling_done_this_iteration := false }).mesh_ar
        (i * g.n_reactions + r) = 0 := by
    intro i r hi hr
    rcases ComputePropensities_mesh_ar_gillespie3D
      { g with sampling_done_this_iteration := false } i r hi hr with h | h
    · exact h
    · rw [h]
      exact SimulationAlgorithmBase.ReactionProp_zero _ i r (hkr _)
  have hAD : ∀ i s n, i < g.n_meshes → s < g.n_species → n < 6 →
      0 < rd (ComputePropensities { g with sampling_done_this_iteration := false }).mesh_ad
        (i * g.n_species * 6 + s * 6 + n) →
      rd g.mesh_neighbors (i * 6 + n) ≠ -1 := by
    intro i s n hi hs hn hpos
    have e : i * g.n_species * 6 + s * 6 + n = i * 6 * g.n_species + s * 6 + n := by ring
    rw [e] at hpos
    rcases ComputePropensities_mesh_ad_gillespie3D
      { g with sampling_done_this_iteration := false } i s n hi hs hn with h | ⟨h, _⟩
    · rw [h] at hpos; exact absurd hpos (lt_irrefl 0)
    · exact h
  obtain ⟨ar, ad, a0r, a0d, a0, hcp⟩ :=
    ComputePropensities_frame_gillespie3D { g with sampling_done_this_iteration := false }
  rw [hcp] at hA0 hAR hAD
  dsimp only at hA0 hAR hAD
  unfold Iterate
  dsimp only
  by_cases hcomp : g.complete = true
  · rw [if_pos hcomp]
    exact ⟨hlen, fun _ _ => rfl⟩
  · rw [if_neg hcomp, hcp]
    dsimp only
    by_cases ha : a0 = 0
    · rw [if_pos ha]
      exact ⟨hlen, fun _ _ => rfl⟩
    · rw [if_neg ha]
      obtain ⟨x, hd, hl, htot⟩ := DrawAndApplyEvent_conserves
        { g with sampling_done_this_iteration := false, mesh_ar := ar, mesh_ad := ad,
                 mesh_a0r := a0r, mesh_a0d := a0d, a0 := a0 }
        hlen hnb hu hA0 hAR hAD
      rw [hd]
      dsimp only
      obtain ⟨sx, st, gd, p, l, c, h⟩ := SimulationAlgorithmBase.SamplingStep_CheckTMax_frame
        { g.toSimulationAlgorithmBase with
          sampling_done_this_iteration := false, mesh_x := x,
          dt := m.log (1 / g.rng.advance.uniform g.rng.advance.pos) / a0,
          rng := g.rng.advance.advance,
          t := g.t + m.log (1 / g.rng.advance.uniform g.rng.advance.pos) / a0 }
      rw [h]
      exact ⟨hl, htot⟩

end Gillespie3D

namespace GillespieGraph

theorem ApplyDiffusion_conserves_graph (g : GillespieGraph) (i s n : Nat) (hi : i < g.n_meshes)
    (hs : s < g.n_species) (hlen : g.mesh_x.length = g.n_meshes * g.n_species)
    (hch : ∀ f, rd g.mesh_chstt f = 0)
    (hj : rd (rdRow g.mesh_neighbor_index i) n < g.n_meshes) :
    (g.ApplyDiffusion i s n).mesh_x.length = g.n_meshes * g.n_species ∧
    ∀ s', s' < g.n_species →
      speciesTotal (g.ApplyDiffusion i s n).mesh_x g.n_meshes g.n_species s' =
        speciesTotal g.mesh_x g.n_meshes g.n_species s' := by
  unfold ApplyDiffusion
  dsimp only
  have c1 : ¬ (rd g.mesh_chstt (i * g.n_species + s) ≠ 0) := fun h => h (hch _)
  have c2 : ¬ (rd g.mesh_chstt (rd (rdRow g.mesh_neighbor_index i) n * g.n_species + s) ≠ 0) :=
    fun h => h (hch _)
  have e1 : (if ¬ (rd g.mesh_chstt (i * g.n_species + s) ≠ 0) then
      { g with
        mesh_x := wr g.mesh_x (i * g.n_species + s) (rd g.mesh_x (i * g.n_species + s) - 1) }
      else g) =
      { g with
        mesh_x := wr g.mesh_x (i * g.n_species + s) (rd g.mesh_x (i * g.n_species + s) - 1) } :=
    if_pos c1
  rw [e1]
  dsimp only
  rw [if_pos c2]
  exact speciesTotal_move g.mesh_x g.n_meshes g.n_species i
    (rd (rdRow g.mesh_neighbor_index i) n) s 1 hi hj hs hlen

theorem DrawAndApplyEvent_conserves_graph (g : GillespieGraph)
    (hlen : g.mesh_x.length = g.n_meshes * g.n_species)
    (hnb : g.toSimulationAlgorithmGraphBase.NeighborsInRange)
    (hch : ∀ f, rd g.mesh_chstt f = 0)
    (hu : 0 ≤ g.rng.uniform g.rng.pos) (ha0 : 0 ≤ g.a0)
    (hAR : ∀ i r, i < g.n_meshes → r < g.n_reactions →
      rd g.mesh_ar (i * g.n_reactions + r) = 0) :
    ∃ x, g.DrawAndApplyEvent = { g with mesh_x := x, rng := g.rng.advance } ∧
      x.length = g.n_meshes * g.n_species ∧
      ∀ s, s < g.n_species →
        speciesTotal x g.n_meshes g.n_species s =
          speciesTotal g.mesh_x g.n_meshes g.n_species s := by
  unfold DrawAndApplyEvent
  dsimp only
  refine walkMeshes_event_gillespieGraph { g with rng := g.rng.advance } _
    (fun g' => ∃ x, g' = { g with mesh_x := x, rng := g.rng.advance } ∧
      x.length = g.n_meshes * g.n_species ∧
      ∀ s, s < g.n_species →
        speciesTotal x g.n_meshes g.n_species s =
          speciesTotal g.mesh_x g.n_meshes g.n_species s)
    ⟨g.mesh_x, rfl, hlen, fun _ _ => rfl⟩ _ ?_ ?_ 0 (mul_nonneg hu ha0)
  · intro i hi j hj hpos
    have h0 : rd g.mesh_ar (i * g.n_reactions + j) = 0 := hAR i j (List.mem_range.mp hi) hj
    have hpos' : 0 < rd g.mesh_ar (i * g.n_reactions + j) := hpos
    rw [h0] at hpos'
    exact absurd hpos' (lt_irrefl 0)
  · intro i hi j hj n hn hpos
    have hi' := List.mem_range.mp hi
    obtain ⟨x, hk1, _⟩ := ApplyDiffusion_keeps { g with rng := g.rng.advance } i j n
    obtain ⟨c1, c2⟩ := ApplyDiffusion_conserves_graph { g with rng := g.rng.advance } i j n
      hi' hj hlen hch (hnb i n hi' hn)
    rw [hk1] at c1 c2
    exact ⟨x, hk1, c1, c2⟩

/-- One `Iterate` of `GillespieGraph` with all reaction constants `0` and no
chemostat keeps the size of the state and the total of every species. -/
theorem Iterate_conserves_gillespieGraph (m : Libm) (g : GillespieGraph)
    (hlen : g.mesh_x.length = g.n_meshes * g.n_species)
    (hnb : g.toSimulationAlgorithmGraphBase.NeighborsInRange)
    (hch : ∀ f, rd g.mesh_chstt f = 0)
    (hkr : ∀ f, rd g.mesh_kr f = 0) (hkd : ∀ i f, 0 ≤ rd (rdRow g.mesh_kd_out i) f)
    (hx : ∀ f, 0 ≤ rd g.mesh_x f) (hu : 0 ≤ g.rng.uniform g.rng.pos) :
    (g.Iterate m).2.mesh_x.length = g.n_meshes * g.n_species ∧
    ∀ s, s < g.n_species →
      speciesTotal (g.Iterate m).2.mesh_x g.n_meshes g.n_species s =
        speciesTotal g.mesh_x g.n_meshes g.n_species s := by
  have hA0 := ComputePropensities_a0_nonneg_gillespieGraph
    { g with sampling_done_this_iteration := false } (fun f => le_of_eq (hkr f).symm) hkd hx
  have hAR : ∀ i r, i < g.n_meshes → r < g.n_reactions →
      rd (ComputePropensities { g with sampling_done_this_iteration := false }).mesh_ar
        (i * g.n_reactions + r) = 0 := by
    intro i r hi hr
    rcases ComputePropensities_mesh_ar_gillespieGraph
      { g with sampling_done_this_iteration := false } i r hi hr with h | h
    · exact h
    · rw [h]
      exact SimulationAlgorithmBase.ReactionProp_zero _ i r (hkr _)
  obtain ⟨ar, ad, a0r, a0d, a0, hcp⟩ :=
    ComputePropensities_frame_gillespieGraph { g with sampling_done_this_iteration := false }
  rw [hcp] at hA0 hAR
  dsimp only at hA0 hAR
  unfold Iterate
  dsimp only
  by_cases hcomp : g.complete = true
  · rw [if_pos hcomp]
    exact ⟨hlen, fun _ _ => rfl⟩
  · rw [if_neg hcomp, hcp]
    dsimp only
    by_cases ha : a0 = 0
    · rw [if_pos ha]
      exact ⟨hlen, fun _ _ => rfl⟩
    · rw [if_neg ha]
      obtain ⟨x, hd, hl, htot⟩ := DrawAndApplyEvent_conserves_graph
        { g with sampling_done_this_iteration := false, mesh_ar := ar, mesh_ad := ad,
                 mesh_a0r := a0r, mesh_a0d := a0d, a0 := a0 }
        hlen hnb hch hu hA0 hAR
      rw [hd]
      dsimp only
      obtain ⟨sx, st, gd, p, l, c, h⟩ := SimulationAlgorithmBase.SamplingStep_CheckTMax_frame
        { g.toSimulationAlgorithmBase with
          sampling_done_this_iteration := false, mesh_x := x,
          dt := m.log (1 / g.rng.advance.uniform g.rng.advance.pos) / a0,
          rng := g.rng.advance.advance,
          t := g.t + m.log (1 / g.rng.advance.uniform g.rng.advance.pos) / a0 }
      rw [h]
      exact ⟨hl, htot⟩

end GillespieGraph

namespace TauLeap3D

/-- After `Compute_nevt` with all reaction constants `0` and a generator whose
Poisson draws of mean `0` are `0`, every reaction count is `0`. -/
theorem Compute_nevt_mesh_nr (e : TauLeap3D) (hkr : ∀ f, rd e.mesh_kr f = 0)
    (hP : ∀ k, e.rng.poisson k 0 = 0) (i r : Nat) (hi : i < e.n_meshes)
    (hr : r < e.n_reactions) :
    rd e.Compute_nevt.mesh_nr (i * e.n_reactions + r) = 0 := by
  have key : ∀ k, k < e.n_meshes → ∀ f, (∃ r, r < e.n_reactions ∧ f = k * e.n_reactions + r) →
      rd e.Compute_nevt.mesh_nr f = 0 := by
    unfold Compute_nevt
    refine (forLoop_cells (fun (st : TauLeap3D) f => rd st.mesh_nr f)
      (fun st => st.rng.poisson = e.rng.poisson)
      (fun i f => ∃ r, r < e.n_reactions ∧ f = i * e.n_reactions + r)
      (fun _ v => v = 0) e.n_meshes _ e rfl ?_ ?_).2
    · rintro a b f _ _ ⟨r1, hr1, e1⟩ ⟨r2, hr2, e2⟩
      exact (flat_index_inj hr1 hr2 (e1.symm.trans e2)).1
    · intro k _ st hJ
      have hD : ∀ st0 : TauLeap3D,
          (forLoop e.n_species (fun s st =>
            forLoop 6 (fun n st =>
              if rd e.mesh_neighbors (k * 6 + n) ≠ -1 then
                { st with
                  mesh_nd := wr st.mesh_nd (k * 6 * e.n_species + s * 6 + n)
                    (SimulationAlgorithmBase.Poisson st.rng
                      (e.toSimulationAlgorithm3DBase.DiffusionProp k s n * e.dt)).1
                  rng := (SimulationAlgorithmBase.Poisson st.rng
                      (e.toSimulationAlgorithm3DBase.DiffusionProp k s n * e.dt)).2 }
              else
                { st with mesh_nd := wr st.mesh_nd (k * 6 * e.n_species + s * 6 + n) 0 })
              st) st0).mesh_nr = st0.mesh_nr ∧
          (st0.rng.poisson = e.rng.poisson →
            (forLoop e.n_species (fun s st =>
              forLoop 6 (fun n st =>
                if rd e.mesh_neighbors (k * 6 + n) ≠ -1 then
                  { st with
                    mesh_nd := wr st.mesh_nd (k * 6 * e.n_species + s * 6 + n)
                      (SimulationAlgorithmBase.Poisson st.rng
                        (e.toSimulationAlgorithm3DBase.DiffusionProp k s n * e.dt)).1
                    rng := (SimulationAlgorithmBase.Poisson st.rng
                        (e.toSimulationAlgorithm3DBase.DiffusionProp k s n * e.dt)).2 }
                else
                  { st with mesh_nd := wr st.mesh_nd (k * 6 * e.n_species + s * 6 + n) 0 })
                st) st0).rng.poisson = e.rng.poisson) := by
        intro st0
        constructor
        · refine forLoop_preserve (fun st : TauLeap3D => st.mesh_nr) _ _ _ (fun s _ st => ?_)
          refine forLoop_preserve (fun st : TauLeap3D => st.mesh_nr) _ _ _ (fun n _ st => ?_)
          dsimp only
          split_ifs <;> rfl
        · intro h0
          refine forLoop_invariant (fun st : TauLeap3D => st.rng.poisson = e.rng.poisson)
            _ _ _ h0 (fun s _ st hst => ?_)
          refine forLoop_invariant (fun st : TauLeap3D => st.rng.poisson = e.rng.poisson)
            _ _ _ hst (fun n _ st hst => ?_)
          dsimp only
          split_ifs
          · exact hst
          · exact hst
      have hR := forLoop_cells (fun (st : TauLeap3D) f => rd st.mesh_nr f)
        (fun st => st.rng.poisson = e.rng.poisson)
        (fun r f => f = k * e.n_reactions + r) (fun _ v => v = 0) e.n_reactions
        (fun r st =>
          { st with
            mesh_nr := wr st.mesh_nr (k * e.n_reactions + r)
              (SimulationAlgorithmBase.Poisson st.rng
                (e.toSimulationAlgorithmBase.ReactionProp k r * e.dt)).1
            rng := (SimulationAlgorithmBase.Poisson st.rng
                (e.toSimulationAlgorithmBase.ReactionProp k r * e.dt)).2 })
        st hJ (fun a b f _ _ e1 e2 => by omega)
        (fun r1 hr1 st1 hJ1 => by
          refine ⟨hJ1, ?_, ?_⟩
          · rintro f rfl
            dsimp only
            rcases rd_wr_self_or st1.mesh_nr (k * e.n_reactions + r1)
              (SimulationAlgorithmBase.Poisson st1.rng
                (e.toSimulationAlgorithmBase.ReactionProp k r1 * e.dt)).1 with h | h
            · rw [h]
              unfold SimulationAlgorithmBase.Poisson
              dsimp only
              rw [SimulationAlgorithmBase.ReactionProp_zero _ k r1 (hkr _), zero_mul, hJ1, hP]
              rfl
            · exact h
          · intro f hf
            exact rd_wr_ne _ _ (fun e' => hf e'.symm))
      refine ⟨?_, ?_, ?_⟩
      · exact (hD _).2 hR.1
      · rintro f ⟨r0, hr0, rfl⟩
        dsimp only
        rw [(hD _).1]
        exact hR.2 r0 hr0 _ rfl
      · intro f hf
        dsimp only
        rw [(hD _).1]
        refine forLoop_preserve (fun st : TauLeap3D => rd st.mesh_nr f) _ _ _
          (fun r1 hr1 st => ?_)
        exact rd_wr_ne _ _ (fun e' => hf ⟨r1, hr1, e'.symm⟩)
  exact key i hi _ ⟨r, hr, rfl⟩

end TauLeap3D

namespace TauLeap3D

/-- After `Compute_nevt`, a diffusion count that is not `0` belongs to a
present neighbour. -/
theorem Compute_nevt_mesh_nd (e : TauLeap3D) (i s n : Nat) (hi : i < e.n_meshes)
    (hs : s < e.n_species) (hn : n < 6) :
    rd e.Compute_nevt.mesh_nd (i * 6 * e.n_species + s * 6 + n) = 0 ∨
    rd e.mesh_neighbors (i * 6 + n) ≠ -1 := by
  have key : ∀ k, k < e.n_meshes → ∀ f,
      (∃ s n, s < e.n_species ∧ n < 6 ∧ f = k * 6 * e.n_species + s * 6 + n) →
      (rd e.Compute_nevt.mesh_nd f = 0 ∨
        ∃ i s n, s < e.n_species ∧ n < 6 ∧ f = i * 6 * e.n_species + s * 6 + n ∧
          rd e.mesh_neighbors (i * 6 + n) ≠ -1) := by
    unfold Compute_nevt
    refine (forLoop_cells (fun (st : TauLeap3D) f => rd st.mesh_nd f) (fun _ => True)
      (fun k f => ∃ s n, s < e.n_species ∧ n < 6 ∧ f = k * 6 * e.n_species + s * 6 + n)
      (fun f v => v = 0 ∨ ∃ i s n, s < e.n_species ∧ n < 6 ∧
        f = i * 6 * e.n_species + s * 6 + n ∧ rd e.mesh_neighbors (i * 6 + n) ≠ -1)
      e.n_meshes _ e trivial ?_ ?_).2
    · rintro a b f _ _ ⟨s1, n1, hs1, hn1, e1⟩ ⟨s2, n2, hs2, hn2, e2⟩
      exact (flat3_index_inj hs1 hs2 hn1 hn2 (e1.symm.trans e2)).1
    · intro k _ st _
      refine ⟨trivial, ?_, ?_⟩
      · rintro f ⟨s0, n0, hs0, hn0, rfl⟩
        dsimp only
        refine (forLoop_cells (fun (st : TauLeap3D) f => rd st.mesh_nd f) (fun _ => True)
          (fun s f => ∃ n, n < 6 ∧ f = k * 6 * e.n_species + s * 6 + n)
          (fun f v => v = 0 ∨ ∃ i s n, s < e.n_species ∧ n < 6 ∧
            f = i * 6 * e.n_species + s * 6 + n ∧ rd e.mesh_neighbors (i * 6 + n) ≠ -1)
          e.n_species _ _ trivial ?_ ?_).2 s0 hs0 _ ⟨n0, hn0, rfl⟩
        · rintro a b f _ _ ⟨n1, hn1, e1⟩ ⟨n2, hn2, e2⟩
          omega
        · intro s1 hs1 st _
          refine ⟨trivial, ?_, ?_⟩
          · rintro f ⟨n1, hn1, rfl⟩
            refine (forLoop_cells (fun (st : TauLeap3D) f => rd st.mesh_nd f) (fun _ => True)
              (fun n f => f = k * 6 * e.n_species + s1 * 6 + n)
              (fun f v => v = 0 ∨ ∃ i s n, s < e.n_species ∧ n < 6 ∧
                f = i * 6 * e.n_species + s * 6 + n ∧ rd e.mesh_neighbors (i * 6 + n) ≠ -1)
              6 _ _ trivial ?_ ?_).2 n1 hn1 _ rfl
            · intro a b f _ _ e1 e2
              omega
            · intro n2 hn2 st _
              refine ⟨trivial, ?_, ?_⟩
              · rintro f rfl
                dsimp only
                by_cases hc : rd e.mesh_neighbors (k * 6 + n2) ≠ -1
                · exact Or.inr ⟨k, s1, n2, hs1, hn2, rfl, hc⟩
                · rw [if_neg hc]
                  exact Or.inl (rd_wr_zero _ _)
              · intro f hf
                dsimp only
                split_ifs
                · exact rd_wr_ne _ _ (fun e' => hf e'.symm)
                · exact rd_wr_ne _ _ (fun e' => hf e'.symm)
          · intro f hf
            refine forLoop_preserve (fun st : TauLeap3D => rd st.mesh_nd f) _ _ _
              (fun n2 hn2 st => ?_)
            dsimp only
            split_ifs
            · exact rd_wr_ne _ _ (fun e' => hf ⟨n2, hn2, e'.symm⟩)
            · exact rd_wr_ne _ _ (fun e' => hf ⟨n2, hn2, e'.symm⟩)
      · intro f hf
        dsimp only
        refine Eq.trans (forLoop_preserve (fun st : TauLeap3D => rd st.mesh_nd f) _ _ _
          (fun s1 hs1 st => ?_)) ?_
        · refine forLoop_preserve (fun st : TauLeap3D => rd st.mesh_nd f) _ _ _
            (fun n2 hn2 st => ?_)
          dsimp only
          split_ifs
          · exact rd_wr_ne _ _ (fun e' => hf ⟨s1, n2, hs1, hn2, e'.symm⟩)
          · exact rd_wr_ne _ _ (fun e' => hf ⟨s1, n2, hs1, hn2, e'.symm⟩)
        · exact forLoop_preserve (fun st : TauLeap3D => rd st.mesh_nd f) _ _ _
            (fun r1 _ st => rfl)
  rcases key i hi (i * 6 * e.n_species + s * 6 + n) ⟨s, n, hs, hn, rfl⟩ with
    h | ⟨i', s', n', hs', hn', he, hnb⟩
  · exact Or.inl h
  · obtain ⟨e1, e2, e3⟩ := flat3_index_inj hs hs' hn hn' he
    subst e1; subst e2; subst e3
    exact Or.inr hnb

/-- Method `Apply_nevt` keeps the size of the state and the total of every
species when no reaction fired, no cell is chemostatted and every count that
is not `0` belongs to a present neighbour. -/
theorem Apply_nevt_conserves (e : TauLeap3D)
    (hlen : e.mesh_x.length = e.n_meshes * e.n_species)
    (hnb : e.toSimulationAlgorithm3DBase.NeighborsInRange)
    (hch : ∀ f, rd e.mesh_chstt f = 0)
    (hNR : ∀ i r, i < e.n_meshes → r < e.n_reactions → rd e.mesh_nr (i * e.n_reactions + r) = 0)
    (hND : ∀ i s n, i < e.n_meshes → s < e.n_species → n < 6 →
      rd e.mesh_nd (i * 6 * e.n_species + s * 6 + n) = 0 ∨
      rd e.mesh_neighbors (i * 6 + n) ≠ -1) :
    e.Apply_nevt.mesh_x.length = e.n_meshes * e.n_species ∧
    ∀ s, s < e.n_species →
      speciesTotal e.Apply_nevt.mesh_x e.n_meshes e.n_species s =
        speciesTotal e.mesh_x e.n_meshes e.n_species s := by
  unfold Apply_nevt
  dsimp only
  refine forLoop_invariant
    (fun v : List ℚ => v.length = e.n_meshes * e.n_species ∧
      ∀ s, s < e.n_species →
        speciesTotal v e.n_meshes e.n_species s =
          speciesTotal e.mesh_x e.n_meshes e.n_species s)
    _ _ _ ⟨hlen, fun _ _ => rfl⟩ (fun i hi v hv => ?_)
  refine forLoop_invariant
    (fun v : List ℚ => v.length = e.n_meshes * e.n_species ∧
      ∀ s, s < e.n_species →
        speciesTotal v e.n_meshes e.n_species s =
          speciesTotal e.mesh_x e.n_meshes e.n_species s)
    _ _ _ ?_ (fun s hs v hv => ?_)
  · refine forLoop_invariant
      (fun v : List ℚ => v.length = e.n_meshes * e.n_species ∧
        ∀ s, s < e.n_species →
          speciesTotal v e.n_meshes e.n_species s =
            speciesTotal e.mesh_x e.n_meshes e.n_species s)
      _ _ _ hv (fun r hr v hv => ?_)
    refine forLoop_invariant
      (fun v : List ℚ => v.length = e.n_meshes * e.n_species ∧
        ∀ s, s < e.n_species →
          speciesTotal v e.n_meshes e.n_species s =
            speciesTotal e.mesh_x e.n_meshes e.n_species s)
      _ _ _ hv (fun j hj v hv => ?_)
    rw [if_neg (fun h => h (hch _)), hNR i r hi hr]
    refine ⟨by rw [length_wr]; exact hv.1, fun s' hs' => ?_⟩
    rw [speciesTotal_wr v _ _ s' i j _ hs' hj (by rw [hv.1]; exact flat_index_lt hi hj),
      hv.2 s' hs']
    split_ifs <;> simp
  · refine forLoop_invariant
      (fun v : List ℚ => v.length = e.n_meshes * e.n_species ∧
        ∀ s, s < e.n_species →
          speciesTotal v e.n_meshes e.n_species s =
            speciesTotal e.mesh_x e.n_meshes e.n_species s)
      _ _ _ hv (fun n hn v hv => ?_)
    by_cases h0 : rd e.mesh_nd (i * 6 * e.n_species + s * 6 + n) = 0
    · rw [if_pos h0]
      exact hv
    · rw [if_neg h0]
      dsimp only
      have hne : rd e.mesh_neighbors (i * 6 + n) ≠ -1 := by
        rcases hND i s n hi hs hn with h | h
        · exact absurd h h0
        · exact h
      obtain ⟨hj0, hj1⟩ : 0 ≤ rd e.mesh_neighbors (i * 6 + n) ∧
          rd e.mesh_neighbors (i * 6 + n) < e.n_meshes := by
        rcases hnb i n hi hn with h | h
        · exact absurd h hne
        · exact h
      have c1 : ¬ (rd e.mesh_chstt (i * e.n_species + s) ≠ 0) := fun h => h (hch _)
      have c2 : ¬ (rdI e.mesh_chstt (rd e.mesh_neighbors (i * 6 + n) * e.n_species + s) ≠ 0) := by
        rw [rdI_of_nonneg _ _ hj0]
        exact fun h => h (hch _)
      rw [if_pos c2, if_pos c1, rdI_of_nonneg _ _ hj0, wrI_of_nonneg _ _ hj0]
      obtain ⟨m1, m2⟩ := speciesTotal_move v e.n_meshes e.n_species i
        (rd e.mesh_neighbors (i * 6 + n)).toNat s
        ((rd e.mesh_nd (i * 6 * e.n_species + s * 6 + n) : Int) : ℚ) hi (by omega) hs hv.1
      exact ⟨m1, fun s' hs' => (m2 s' hs').trans (hv.2 s' hs')⟩

/-- One `Iterate` of `TauLeap3D` with all reaction constants `0` and no
chemostat keeps the size of the state and the total of every species. -/
theorem Iterate_conserves_tauLeap3D (e : TauLeap3D)
    (hlen : e.mesh_x.length = e.n_meshes * e.n_species)
    (hnb : e.toSimulationAlgorithm3DBase.NeighborsInRange)
    (hch : ∀ f, rd e.mesh_chstt f = 0) (hkr : ∀ f, rd e.mesh_kr f = 0)
    (hP : ∀ k, e.rng.poisson k 0 = 0) :
    e.Iterate.2.mesh_x.length = e.n_meshes * e.n_species ∧
    ∀ s, s < e.n_species →
      speciesTotal e.Iterate.2.mesh_x e.n_meshes e.n_species s =
        speciesTotal e.mesh_x e.n_meshes e.n_species s := by
  have hNR := Compute_nevt_mesh_nr { e with sampling_done_this_iteration := false } hkr hP
  have hND := Compute_nevt_mesh_nd { e with sampling_done_this_iteration := false }
  obtain ⟨nr, nd, g', hg⟩ :=
    Compute_nevt_frame_tauLeap3D { e with sampling_done_this_iteration := false }
  have hA := Apply_nevt_conserves (Compute_nevt { e with sampling_done_this_iteration := false })
  rw [hg] at hNR hND hA
  dsimp only at hNR hND hA
  have hA' := hA hlen hnb hch hNR hND
  unfold Iterate
  dsimp only
  split_ifs
  · exact ⟨hlen, fun _ _ => rfl⟩
  · obtain ⟨sx, st, g, p, l, c, h⟩ := SimulationAlgorithmBase.SamplingStep_CheckTMax_frame
      { (Apply_nevt (Compute_nevt { e with sampling_done_this_iteration := false })).toSimulationAlgorithmBase with
        t := (Apply_nevt (Compute_nevt { e with sampling_done_this_iteration := false })).t +
          (Apply_nevt (Compute_nevt { e with sampling_done_this_iteration := false })).dt }
    rw [h, hg]
    exact hA'

end TauLeap3D

namespace TauLeapGraph

/-- After `Compute_nevt` with all reaction constants `0` and a generator whose
Poisson draws of mean `0` are `0`, every reaction count is `0`. -/
theorem Compute_nevt_mesh_nr_graph (e : TauLeapGraph) (hkr : ∀ f, rd e.mesh_kr f = 0)
    (hP : ∀ k, e.rng.poisson k 0 = 0) (i r : Nat) (hi : i < e.n_meshes)
    (hr : r < e.n_reactions) :
    rd e.Compute_nevt.mesh_nr (i * e.n_reactions + r) = 0 := by
  have key : ∀ k, k < e.n_meshes → ∀ f, (∃ r, r < e.n_reactions ∧ f = k * e.n_reactions + r) →
      rd e.Compute_nevt.mesh_nr f = 0 := by
    unfold Compute_nevt
    refine (forLoop_cells (fun (st : TauLeapGraph) f => rd st.mesh_nr f)
      (fun st => st.rng.poisson = e.rng.poisson)
      (fun i f => ∃ r, r < e.n_reactions ∧ f = i * e.n_reactions + r)
      (fun _ v => v = 0) e.n_meshes _ e rfl ?_ ?_).2
    · rintro a b f _ _ ⟨r1, hr1, e1⟩ ⟨r2, hr2, e2⟩
      exact (flat_index_inj hr1 hr2 (e1.symm.trans e2)).1
    · intro k _ st hJ
      have hD : ∀ st0 : TauLeapGraph,
          (forLoop e.n_species (fun s st =>
            forLoop (rd e.mesh_neighbor_n k) (fun n st =>
              { st with
                mesh_nd := wr st.mesh_nd k
                  (wr (rdRow st.mesh_nd k) (s * rd e.mesh_neighbor_n k + n)
                    (SimulationAlgorithmBase.Poisson st.rng
                      (e.toSimulationAlgorithmGraphBase.DiffusionProp k s n * e.dt)).1)
                rng := (SimulationAlgorithmBase.Poisson st.rng
                    (e.toSimulationAlgorithmGraphBase.DiffusionProp k s n * e.dt)).2 })
              st) st0).mesh_nr = st0.mesh_nr ∧
          (st0.rng.poisson = e.rng.poisson →
            (forLoop e.n_species (fun s st =>
              forLoop (rd e.mesh_neighbor_n k) (fun n st =>
                { st with
                  mesh_nd := wr st.mesh_nd k
                    (wr (rdRow st.mesh_nd k) (s * rd e.mesh_neighbor_n k + n)
                      (SimulationAlgorithmBase.Poisson st.rng
                        (e.toSimulationAlgorithmGraphBase.DiffusionProp k s n * e.dt)).1)
                  rng := (SimulationAlgorithmBase.Poisson st.rng
                      (e.toSimulationAlgorithmGraphBase.DiffusionProp k s n * e.dt)).2 })
                st) st0).rng.poisson = e.rng.poisson) := by
        intro st0
        constructor
        · refine forLoop_preserve (fun st : TauLeapGraph => st.mesh_nr) _ _ _ (fun s _ st => ?_)
          exact forLoop_preserve (fun st : TauLeapGraph => st.mesh_nr) _ _ _ (fun n _ st => rfl)
        · intro h0
          refine forLoop_invariant (fun st : TauLeapGraph => st.rng.poisson = e.rng.poisson)
            _ _ _ h0 (fun s _ st hst => ?_)
          exact forLoop_invariant (fun st : TauLeapGraph => st.rng.poisson = e.rng.poisson)
            _ _ _ hst (fun n _ st hst => hst)
      have hR := forLoop_cells (fun (st : TauLeapGraph) f => rd st.mesh_nr f)
        (fun st => st.rng.poisson = e.rng.poisson)
        (fun r f => f = k * e.n_reactions + r) (fun _ v => v = 0) e.n_reactions
        (fun r st =>
          { st with
            mesh_nr := wr st.mesh_nr (k * e.n_reactions + r)
              (SimulationAlgorithmBase.Poisson st.rng
                (e.toSimulationAlgorithmBase.ReactionProp k r * e.dt)).1
            rng := (SimulationAlgorithmBase.Poisson st.rng
                (e.toSimulationAlgorithmBase.ReactionProp k r * e.dt)).2 })
        st hJ (fun a b f _ _ e1 e2 => by omega)
        (fun r1 hr1 st1 hJ1 => by
          refine ⟨hJ1, ?_, ?_⟩
          · rintro f rfl
            dsimp only
            rcases rd_wr_self_or st1.mesh_nr (k * e.n_reactions + r1)
              (SimulationAlgorithmBase.Poisson st1.rng
                (e.toSimulationAlgorithmBase.ReactionProp k r1 * e.dt)).1 with h | h
            · rw [h]
              unfold SimulationAlgorithmBase.Poisson
              dsimp only
              rw [SimulationAlgorithmBase.ReactionProp_zero _ k r1 (hkr _), zero_mul, hJ1, hP]
              rfl
            · exact h
          · intro f hf
            exact rd_wr_ne _ _ (fun e' => hf e'.symm))
      refine ⟨?_, ?_, ?_⟩
      · exact (hD _).2 hR.1
      · rintro f ⟨r0, hr0, rfl⟩
        dsimp only
        rw [(hD _).1]
        exact hR.2 r0 hr0 _ rfl
      · intro f hf
        dsimp only
        rw [(hD _).1]
        refine forLoop_preserve (fun st : TauLeapGraph => rd st.mesh_nr f) _ _ _
          (fun r1 hr1 st => ?_)
        exact rd_wr_ne _ _ (fun e' => hf ⟨r1, hr1, e'.symm⟩)
  exact key i hi _ ⟨r, hr, rfl⟩

/-- Method `Apply_nevt` keeps the size of the state and the total of every
species when no reaction fired and no cell is chemostatted. -/
theorem Apply_nevt_conserves_graph (e : TauLeapGraph)
    (hlen : e.mesh_x.length = e.n_meshes * e.n_species)
    (hnb : e.toSimulationAlgorithmGraphBase.NeighborsInRange)
    (hch : ∀ f, rd e.mesh_chstt f = 0)
    (hNR : ∀ i r, i < e.n_meshes → r < e.n_reactions →
      rd e.mesh_nr (i * e.n_reactions + r) = 0) :
    e.Apply_nevt.mesh_x.length = e.n_meshes * e.n_species ∧
    ∀ s, s < e.n_species →
      speciesTotal e.Apply_nevt.mesh_x e.n_meshes e.n_species s =
        speciesTotal e.mesh_x e.n_meshes e.n_species s := by
  unfold Apply_nevt
  dsimp only
  refine forLoop_invariant
    (fun v : List ℚ => v.length = e.n_meshes * e.n_species ∧
      ∀ s, s < e.n_species →
        speciesTotal v e.n_meshes e.n_species s =
          speciesTotal e.mesh_x e.n_meshes e.n_species s)
    _ _ _ ⟨hlen, fun _ _ => rfl⟩ (fun i hi v hv => ?_)
  refine forLoop_invariant
    (fun v : List ℚ => v.length = e.n_meshes * e.n_species ∧
      ∀ s, s < e.n_species →
        speciesTotal v e.n_meshes e.n_species s =
          speciesTotal e.mesh_x e.n_meshes e.n_species s)
    _ _ _ ?_ (fun s hs v hv => ?_)
  · refine forLoop_invariant
      (fun v : List ℚ => v.length = e.n_meshes * e.n_species ∧
        ∀ s, s < e.n_species →
          speciesTotal v e.n_meshes e.n_species s =
            speciesTotal e.mesh_x e.n_meshes e.n_species s)
      _ _ _ hv (fun r hr v hv => ?_)
    refine forLoop_invariant
      (fun v : List ℚ => v.length = e.n_meshes * e.n_species ∧
        ∀ s, s < e.n_species →
          speciesTotal v e.n_meshes e.n_species s =
            speciesTotal e.mesh_x e.n_meshes e.n_species s)
      _ _ _ hv (fun j hj v hv => ?_)
    rw [if_neg (fun h => h (hch _)), hNR i r hi hr]
    refine ⟨by rw [length_wr]; exact hv.1, fun s' hs' => ?_⟩
    rw [speciesTotal_wr v _ _ s' i j _ hs' hj (by rw [hv.1]; exact flat_index_lt hi hj),
      hv.2 s' hs']
    split_ifs <;> simp
  · refine forLoop_invariant
      (fun v : List ℚ => v.length = e.n_meshes * e.n_species ∧
        ∀ s, s < e.n_species →
          speciesTotal v e.n_meshes e.n_species s =
            speciesTotal e.mesh_x e.n_meshes e.n_species s)
      _ _ _ hv (fun n hn v hv => ?_)
    by_cases h0 : rd (rdRow e.mesh_nd i) (s * rd e.mesh_neighbor_n i + n) = 0
    · rw [if_pos h0]
      exact hv
    · rw [if_neg h0]
      dsimp only
      have c1 : ¬ (rd e.mesh_chstt (i * e.n_species + s) ≠ 0) := fun h => h (hch _)
      have c2 : ¬ (rd e.mesh_chstt
          (rd (rdRow e.mesh_neighbor_index i) n * e.n_species + s) ≠ 0) := fun h => h (hch _)
      rw [if_pos c2, if_pos c1]
      obtain ⟨m1, m2⟩ := speciesTotal_move v e.n_meshes e.n_species i
        (rd (rdRow e.mesh_neighbor_index i) n) s
        ((rd (rdRow e.mesh_nd i) (s * rd e.mesh_neighbor_n i + n) : Int) : ℚ) hi
        (hnb i n hi hn) hs hv.1
      exact ⟨m1, fun s' hs' => (m2 s' hs').trans (hv.2 s' hs')⟩

/-- One `Iterate` of `TauLeapGraph` with all reaction constants `0` and no
chemostat keeps the size of the state and the total of every species. -/
theorem Iterate_conserves_tauLeapGraph (e : TauLeapGraph)
    (hlen : e.mesh_x.length = e.n_meshes * e.n_species)
    (hnb : e.toSimulationAlgorithmGraphBase.NeighborsInRange)
    (hch : ∀ f, rd e.mesh_chstt f = 0) (hkr : ∀ f, rd e.mesh_kr f = 0)
    (hP : ∀ k, e.rng.poisson k 0 = 0) :
    e.Iterate.2.mesh_x.length = e.n_meshes * e.n_species ∧
    ∀ s, s < e.n_species →
      speciesTotal e.Iterate.2.mesh_x e.n_meshes e.n_species s =
        speciesTotal e.mesh_x e.n_meshes e.n_species s := by
  have hNR := Compute_nevt_mesh_nr_graph { e with sampling_done_this_iteration := false } hkr hP
  obtain ⟨nr, nd, g', hg⟩ :=
    Compute_nevt_frame_tauLeapGraph { e with sampling_done_this_iteration := false }
  have hA := Apply_nevt_conserves_graph
    (Compute_nevt { e with sampling_done_this_iteration := false })
  rw [hg] at hNR hA
  dsimp only at hNR hA
  have hA' := hA hlen hnb hch hNR
  unfold Iterate
  dsimp only
  split_ifs
  · exact ⟨hlen, fun _ _ => rfl⟩
  · obtain ⟨sx, st, g, p, l, c, h⟩ := SimulationAlgorithmBase.SamplingStep_CheckTMax_frame
      { (Apply_nevt (Compute_nevt { e with sampling_done_this_iteration := false })).toSimulationAlgorithmBase with
        t := (Apply_nevt (Compute_nevt { e with sampling_done_this_iteration := false })).t +
          (Apply_nevt (Compute_nevt { e with sampling_done_this_iteration := false })).dt }
    rw [h, hg]
    exact hA'

end TauLeapGraph

/-- A property that holds of `0` and of every entry of a vector holds of every
read of the vector. -/
theorem rd_forall {α : Type} [Zero α] (P : α → Prop) (v : List α) (h0 : P 0)
    (h : ∀ q ∈ v, P q) (f : Nat) : P (rd v f) := by
  by_cases hf : f < v.length
  · unfold rd
    rw [List.getD_eq_getElem?_getD, List.getElem?_eq_getElem hf]
    exact h _ (List.getElem_mem hf)
  · rw [rd_of_length_le v (not_lt.mp hf)]
    exact h0

/-- The same for a table of rows. -/
theorem rd_row_forall {α : Type} [Zero α] (P : α → Prop) (v : List (List α)) (h0 : P 0)
    (h : ∀ row ∈ v, ∀ q ∈ row, P q) (i f : Nat) : P (rd (rdRow v i) f) := by
  by_cases hi : i < v.length
  · refine rd_forall P _ h0 (h _ ?_) f
    unfold rdRow
    rw [List.getD_eq_getElem?_getD, List.getElem?_eq_getElem hi]
    exact List.getElem_mem hi
  · rw [rdRow_of_length_le v (not_lt.mp hi)]
    exact h0

/-! ## The Euler kernels without reactions -/

theorem wr_rd_self (v : List ℚ) (c : Nat) : wr v c (rd v c) = v := by
  unfold wr rd
  by_cases h : c < v.length
  · rw [List.getD_eq_getElem?_getD, List.getElem?_eq_getElem h]
    refine List.ext_getElem (by simp) (fun n h1 h2 => ?_)
    rw [List.getElem_set]
    split_ifs with hh
    · subst hh
      rfl
    · rfl
  · exact List.set_eq_of_length_le (not_lt.mp h)

theorem wr_wr (v : List ℚ) (c : Nat) (a b : ℚ) : wr (wr v c a) c b = wr v c b := by
  unfold wr
  exact List.set_set a b v c

/-- A loop that adds `g n` to cell `c` in round `n` adds the sum of the
`g n`. -/
theorem forLoop_cell_acc (c N : Nat) (g : Nat → ℚ) (v : List ℚ) :
    forLoop N (fun n v => wr v c (rd v c + g n)) v =
      wr v c (rd v c + ∑ n in Finset.range N, g n) := by
  induction N with
  | zero => simp [wr_rd_self]
  | succ N ih =>
    rw [forLoop_succ, ih, Finset.sum_range_succ, wr_wr]
    by_cases h : c < v.length
    · rw [rd_wr_self _ _ h, add_assoc]
    · unfold wr
      rw [List.set_eq_of_length_le (not_lt.mp h), List.set_eq_of_length_le (not_lt.mp h)]

theorem forLoop_congr {σ : Type} (n : Nat) (f g : Nat → σ → σ) (st : σ)
    (h : ∀ k, k < n → ∀ s, f k s = g k s) : forLoop n f st = forLoop n g st := by
  induction n with
  | zero => simp
  | succ n ih =>
    rw [forLoop_succ, forLoop_succ, ih (fun k hk s => h k (Nat.lt_succ_of_lt hk) s),
      h n (Nat.lt_succ_self n)]

theorem forLoop_add {σ : Type} (a b : Nat) (body : Nat → σ → σ) (st : σ) :
    forLoop (a + b) body st = forLoop b (fun j s => body (a + j) s) (forLoop a body st) := by
  induction b with
  | zero => simp
  | succ b ih => rw [← Nat.add_assoc, forLoop_succ, ih, forLoop_succ]

/-- Two nested loops over `i < nm` and `j < ns` are one loop over the flat
index `i * ns + j`. -/
theorem forLoop_nested {σ : Type} (nm ns : Nat) (body : Nat → Nat → σ → σ) (st : σ) :
    forLoop nm (fun i s => forLoop ns (fun j s => body i j s) s) st =
      forLoop (nm * ns) (fun c s => body (c / ns) (c % ns) s) st := by
  induction nm with
  | zero => simp
  | succ nm ih =>
    rw [forLoop_succ, ih, Nat.succ_mul, forLoop_add]
    refine forLoop_congr _ _ _ _ (fun j hj s => ?_)
    have hns : 0 < ns := by omega
    have e1 : (nm * ns + j) / ns = nm := by
      rw [Nat.mul_comm, Nat.mul_add_div hns, Nat.div_eq_of_lt hj, Nat.add_zero]
    have e2 : (nm * ns + j) % ns = j := by
      rw [Nat.mul_comm, Nat.mul_add_mod, Nat.mod_eq_of_lt hj]
    rw [e1, e2]

/-- A loop that updates cell `c` in round `c` leaves `upd c (x[c])` in every
visited cell. -/
theorem forLoop_update {α : Type} [Zero α] (N : Nat) (upd : Nat → α → α) (x : List α)
    (hlen : N ≤ x.length)
    (c : Nat) (hc : c < N) :
    rd (forLoop N (fun c x => wr x c (upd c (rd x c))) x) c = upd c (rd x c) := by
  have key := forLoop_induction
    (fun k v => v.length = x.length ∧
      ∀ f, (f < k → rd v f = upd f (rd x f)) ∧ (k ≤ f → rd v f = rd x f))
    N (fun c x => wr x c (upd c (rd x c))) x
    ⟨rfl, fun f => ⟨fun h => absurd h (Nat.not_lt_zero _), fun _ => rfl⟩⟩
    (fun k hk v ih => by
      obtain ⟨hl, hv⟩ := ih
      refine ⟨by rw [length_wr, hl], fun f => ⟨fun hf => ?_, fun hf => ?_⟩⟩
      · by_cases hfk : f = k
        · subst hfk
          show rd (wr v f _) f = _
          rw [rd_wr_self _ _ (by omega), (hv f).2 (le_refl f)]
        · show rd (wr v k _) f = _
          rw [rd_wr_ne _ _ (fun h => hfk h.symm)]
          exact (hv f).1 (by omega)
      · show rd (wr v k _) f = _
        rw [rd_wr_ne _ _ (by omega)]
        exact (hv f).2 (by omega))
  exact (key.2 c).1 hc

/-- The two nested loops of the Euler kernels: cell `(i, s)` is updated by the
body of round `(i, s)`. -/
theorem forLoop_update_cells {α : Type} [Zero α] (nm ns : Nat) (upd : Nat → Nat → α → α)
    (x : List α)
    (hlen : nm * ns ≤ x.length) (i0 s0 : Nat) (hi : i0 < nm) (hs : s0 < ns) :
    rd (forLoop nm (fun i x => forLoop ns (fun j x =>
        wr x (i * ns + j) (upd i j (rd x (i * ns + j)))) x) x) (i0 * ns + s0) =
      upd i0 s0 (rd x (i0 * ns + s0)) := by
  rw [forLoop_nested nm ns (fun i j x => wr x (i * ns + j) (upd i j (rd x (i * ns + j))))]
  have e : forLoop (nm * ns)
      (fun c x => wr x (c / ns * ns + c % ns) (upd (c / ns) (c % ns) (rd x (c / ns * ns + c % ns))))
      x = forLoop (nm * ns) (fun c x => wr x c ((fun c => upd (c / ns) (c % ns)) c (rd x c))) x := by
    refine forLoop_congr _ _ _ _ (fun c _ v => ?_)
    rw [Nat.div_add_mod']
  rw [e, forLoop_update _ _ _ hlen _ (flat_index_lt hi hs)]
  have hns : 0 < ns := by omega
  have e1 : (i0 * ns + s0) / ns = i0 := by
    rw [Nat.mul_comm, Nat.mul_add_div hns, Nat.div_eq_of_lt hs, Nat.add_zero]
  have e2 : (i0 * ns + s0) % ns = s0 := by
    rw [Nat.mul_comm, Nat.mul_add_mod, Nat.mod_eq_of_lt hs]
  rw [e1, e2]

theorem speciesTotal_eq_sum (v : List ℚ) (nm ns s : Nat) :
    speciesTotal v nm ns s = ∑ i in Finset.range nm, rd v (i * ns + s) := by
  induction nm with
  | zero => simp
  | succ nm ih => rw [speciesTotal_succ, Finset.sum_range_succ, ih]

/-- Cancellation over the two ends of every interface: when every valid slot
`(i, n)` has a partner slot `(bi i n, bn i n)` whose partner it is, and the
inflow of a slot is the outflow of its partner, the differences sum to `0`. -/
theorem sum_pairs_cancel (nm : Nat) (deg : Nat → Nat) (valid : Nat → Nat → Prop)
    [∀ i n, Decidable (valid i n)] (bi bn : Nat → Nat → Nat) (out inn : Nat → Nat → ℚ)
    (h : ∀ i n, i < nm → n < deg i → valid i n →
      bi i n < nm ∧ bn i n < deg (bi i n) ∧ valid (bi i n) (bn i n) ∧
      bi (bi i n) (bn i n) = i ∧ bn (bi i n) (bn i n) = n ∧
      inn i n = out (bi i n) (bn i n)) :
    ∑ i in Finset.range nm, ∑ n in Finset.range (deg i),
      (if valid i n then out i n - inn i n else 0) = 0 := by
  rw [Finset.sum_sigma' (Finset.range nm) (fun i => Finset.range (deg i))
    (fun i n => if valid i n then out i n - inn i n else 0)]
  rw [← Finset.sum_filter, Finset.sum_sub_distrib, sub_eq_zero]
  symm
  refine Finset.sum_bij' (fun x _ => ⟨bi x.1 x.2, bn x.1 x.2⟩)
    (fun x _ => ⟨bi x.1 x.2, bn x.1 x.2⟩) ?_ ?_ ?_ ?_ ?_
  · intro x hx
    simp only [Finset.mem_filter, Finset.mem_sigma, Finset.mem_range] at hx ⊢
    obtain ⟨h1, h2, h3, _, _, _⟩ := h x.1 x.2 hx.1.1 hx.1.2 hx.2
    exact ⟨⟨h1, h2⟩, h3⟩
  · intro x hx
    simp only [Finset.mem_filter, Finset.mem_sigma, Finset.mem_range] at hx ⊢
    obtain ⟨h1, h2, h3, _, _, _⟩ := h x.1 x.2 hx.1.1 hx.1.2 hx.2
    exact ⟨⟨h1, h2⟩, h3⟩
  · intro x hx
    simp only [Finset.mem_filter, Finset.mem_sigma, Finset.mem_range] at hx
    obtain ⟨_, _, _, h4, h5, _⟩ := h x.1 x.2 hx.1.1 hx.1.2 hx.2
    exact Sigma.ext h4 (heq_of_eq h5)
  · intro x hx
    simp only [Finset.mem_filter, Finset.mem_sigma, Finset.mem_range] at hx
    obtain ⟨_, _, _, h4, h5, _⟩ := h x.1 x.2 hx.1.1 hx.1.2 hx.2
    exact Sigma.ext h4 (heq_of_eq h5)
  · intro x hx
    simp only [Finset.mem_filter, Finset.mem_sigma, Finset.mem_range] at hx
    exact (h x.1 x.2 hx.1.1 hx.1.2 hx.2).2.2.2.2.2

/-- A loop that subtracts `g n` from cell `c` in the rounds `n` that pass the
test subtracts the sum of these `g n`. -/
theorem forLoop_cell_sub_if (c N : Nat) (valid : Nat → Prop) [DecidablePred valid] (g : Nat → ℚ)
    (v : List ℚ) :
    forLoop N (fun n v => if valid n then wr v c (rd v c - g n) else v) v =
      wr v c (rd v c + ∑ n in Finset.range N, (if valid n then -g n else 0)) := by
  rw [← forLoop_cell_acc]
  refine forLoop_congr _ _ _ _ (fun n _ d => ?_)
  split_ifs
  · rw [sub_eq_add_neg]
  · rw [add_zero, wr_rd_self]

/-- A loop that subtracts `g n` from cell `c` in every round subtracts the sum
of the `g n`. -/
theorem forLoop_cell_sub (c N : Nat) (g : Nat → ℚ) (v : List ℚ) :
    forLoop N (fun n v => wr v c (rd v c - g n)) v =
      wr v c (rd v c + ∑ n in Finset.range N, -g n) := by
  rw [← forLoop_cell_acc]
  refine forLoop_congr _ _ _ _ (fun n _ d => ?_)
  rw [sub_eq_add_neg]

/-- Writing `b`, then a value computed from the cell just written. -/
theorem wr_wr_rd (v : List ℚ) (c : Nat) (b : ℚ) (f : ℚ → ℚ) :
    wr (wr v c b) c (f (rd (wr v c b) c)) = wr v c (f b) := by
  rw [wr_wr]
  by_cases h : c < v.length
  · rw [rd_wr_self _ _ h]
  · unfold wr
    rw [List.set_eq_of_length_le (not_lt.mp h), List.set_eq_of_length_le (not_lt.mp h)]

namespace SimulationAlgorithmBase

theorem ReactionRate_zero (m : Libm) (b : SimulationAlgorithmBase) (i r : Nat)
    (hkr : rd b.mesh_kr (i * b.n_reactions + r) = 0) : b.ReactionRate m i r = 0 := by
  unfold ReactionRate
  refine forLoop_invariant (fun a => a = 0) _ _ _ hkr (fun s _ a ha => ?_)
  rw [ha, zero_mul]

/-- The local table of reaction rates of `Compute_dxdt` reads `0` everywhere
when `mesh_kr` does. -/
theorem reactionRates_zero (m : Libm) (b : SimulationAlgorithmBase) (i : Nat)
    (hkr : ∀ f, rd b.mesh_kr f = 0) (f : Nat) :
    rd (forLoop b.n_reactions (fun r rr => wr rr r (b.ReactionRate m i r))
      (List.replicate b.n_reactions 0)) f = 0 := by
  refine forLoop_invariant (fun v => rd v f = 0) _ _ _ (rd_replicate_zero _ _) (fun r _ v hv => ?_)
  show rd (wr v r _) f = 0
  rw [rd_wr, b.ReactionRate_zero m i r (hkr _)]
  split_ifs
  · rfl
  · exact hv

end SimulationAlgorithmBase

namespace Euler3D

/-- The derivative that `Compute_dxdt` leaves in cell `(i, s)` when nothing is
chemostatted and `mesh_kr` is `0`: minus the flux differences over the faces
that have a neighbour. -/
theorem Compute_dxdt_cell_euler3D (m : Libm) (e : Euler3D)
    (hlen : e.n_meshes * e.n_species ≤ e.mesh_dxdt.length)
    (hch : ∀ f, rd e.mesh_chstt f = 0) (hkr : ∀ f, rd e.mesh_kr f = 0)
    (i s : Nat) (hi : i < e.n_meshes) (hs : s < e.n_species) :
    rd (e.Compute_dxdt m).mesh_dxdt (i * e.n_species + s) =
      ∑ n in Finset.range 6, (if rd e.mesh_neighbors (i * 6 + n) ≠ -1 then
        -e.toSimulationAlgorithm3DBase.DiffusionRateDifference i s n else 0) := by
  unfold Compute_dxdt
  dsimp only
  have hcell : ∀ i', i' < e.n_meshes → ∀ v : List ℚ,
      forLoop e.n_species (fun s mesh_dxdt =>
        if rd e.mesh_chstt (i' * e.n_species + s) ≠ 0 then wr mesh_dxdt (i' * e.n_species + s) 0
        else
          forLoop 6 (fun n mesh_dxdt =>
            if rd e.mesh_neighbors (i' * 6 + n) ≠ -1 then
              wr mesh_dxdt (i' * e.n_species + s)
                (rd mesh_dxdt (i' * e.n_species + s) -
                  e.toSimulationAlgorithm3DBase.DiffusionRateDifference i' s n)
            else mesh_dxdt)
          (forLoop e.n_reactions (fun r mesh_dxdt =>
            wr mesh_dxdt (i' * e.n_species + s)
              (rd mesh_dxdt (i' * e.n_species + s) + rd e.sto (s * e.n_reactions + r) *
                rd (forLoop e.n_reactions
                  (fun r rr => wr rr r (e.toSimulationAlgorithmBase.ReactionRate m i' r))
                  (List.replicate e.n_reactions 0)) r))
            (wr mesh_dxdt (i' * e.n_species + s) 0))) v =
      forLoop e.n_species (fun s x => wr x (i' * e.n_species + s)
        ((fun i s (_ : ℚ) => ∑ n in Finset.range 6,
          (if rd e.mesh_neighbors (i * 6 + n) ≠ -1 then
            -e.toSimulationAlgorithm3DBase.DiffusionRateDifference i s n else 0)) i' s
          (rd x (i' * e.n_species + s)))) v := by
    intro i' _ v
    refine forLoop_congr _ _ _ _ (fun s' _ d => ?_)
    rw [if_neg (not_not.mpr (hch _))]
    have hR : forLoop e.n_reactions (fun r mesh_dxdt =>
        wr mesh_dxdt (i' * e.n_species + s')
          (rd mesh_dxdt (i' * e.n_species + s') + rd e.sto (s' * e.n_reactions + r) *
            rd (forLoop e.n_reactions
              (fun r rr => wr rr r (e.toSimulationAlgorithmBase.ReactionRate m i' r))
              (List.replicate e.n_reactions 0)) r))
        (wr d (i' * e.n_species + s') 0) = wr d (i' * e.n_species + s') 0 := by
      refine forLoop_invariant (fun v => v = wr d (i' * e.n_species + s') 0) _ _ _ rfl
        (fun r _ v hv => ?_)
      show wr v _ _ = _
      rw [hv, e.toSimulationAlgorithmBase.reactionRates_zero m i' hkr, mul_zero, add_zero,
        wr_rd_self]
    rw [hR, forLoop_cell_sub_if]
    exact (wr_wr_rd d _ 0 (fun a => a + ∑ n in Finset.range 6,
      (if rd e.mesh_neighbors (i' * 6 + n) ≠ -1 then
        -e.toSimulationAlgorithm3DBase.DiffusionRateDifference i' s' n else 0))).trans
      (by rw [zero_add])
  rw [forLoop_congr _ _ _ _ (fun i' hi' v => hcell i' hi' v)]
  exact forLoop_update_cells e.n_meshes e.n_species
    (fun i s (_ : ℚ) => ∑ n in Finset.range 6,
      (if rd e.mesh_neighbors (i * 6 + n) ≠ -1 then
        -e.toSimulationAlgorithm3DBase.DiffusionRateDifference i s n else 0))
    e.mesh_dxdt hlen i s hi hs

/-- The state that `Apply_dxdt` leaves in cell `(i, s)`. -/
theorem Apply_dxdt_cell_euler3D (e : Euler3D) (hlen : e.n_meshes * e.n_species ≤ e.mesh_x.length)
    (i s : Nat) (hi : i < e.n_meshes) (hs : s < e.n_species) :
    rd e.Apply_dxdt.mesh_x (i * e.n_species + s) =
      rd e.mesh_x (i * e.n_species + s) + rd e.mesh_dxdt (i * e.n_species + s) * e.dt :=
  forLoop_update_cells e.n_meshes e.n_species
    (fun i j a => a + rd e.mesh_dxdt (i * e.n_species + j) * e.dt) e.mesh_x hlen i s hi hs

end Euler3D

namespace Euler3D

/-- With paired faces, no chemostat and `mesh_kr = 0`, the step
`Compute_dxdt`, `Apply_dxdt` keeps the total of every species. -/
theorem step_conserves_euler3D (m : Libm) (e : Euler3D)
    (hx : e.n_meshes * e.n_species ≤ e.mesh_x.length)
    (hd : e.n_meshes * e.n_species ≤ e.mesh_dxdt.length)
    (hch : ∀ f, rd e.mesh_chstt f = 0) (hkr : ∀ f, rd e.mesh_kr f = 0)
    (hp : e.toSimulationAlgorithm3DBase.FacesPaired) (s : Nat) (hs : s < e.n_species) :
    speciesTotal (e.Compute_dxdt m).Apply_dxdt.mesh_x e.n_meshes e.n_species s =
      speciesTotal e.mesh_x e.n_meshes e.n_species s := by
  rw [speciesTotal_eq_sum, speciesTotal_eq_sum]
  have h1 : ∀ i ∈ Finset.range e.n_meshes,
      rd (e.Compute_dxdt m).Apply_dxdt.mesh_x (i * e.n_species + s) =
        rd e.mesh_x (i * e.n_species + s) +
          (∑ n in Finset.range 6, (if rd e.mesh_neighbors (i * 6 + n) ≠ -1 then
            -e.toSimulationAlgorithm3DBase.DiffusionRateDifference i s n else 0)) * e.dt := by
    intro i hi
    have h : rd (e.Compute_dxdt m).Apply_dxdt.mesh_x (i * e.n_species + s) =
        rd e.mesh_x (i * e.n_species + s) +
          rd (e.Compute_dxdt m).mesh_dxdt (i * e.n_species + s) * e.dt :=
      Apply_dxdt_cell_euler3D (e.Compute_dxdt m) hx i s (Finset.mem_range.mp hi) hs
    rw [Compute_dxdt_cell_euler3D m e hd hch hkr i s (Finset.mem_range.mp hi) hs] at h
    exact h
  rw [Finset.sum_congr rfl h1, Finset.sum_add_distrib, ← Finset.sum_mul]
  have h2 : ∑ i in Finset.range e.n_meshes, ∑ n in Finset.range 6,
      (if rd e.mesh_neighbors (i * 6 + n) ≠ -1 then
        e.toSimulationAlgorithm3DBase.DiffusionRate (i : Int) s n -
          e.toSimulationAlgorithm3DBase.DiffusionRate (rd e.mesh_neighbors (i * 6 + n)) s
            (rd e.opposed_direction n)
       else 0) = 0 := by
    refine sum_pairs_cancel e.n_meshes (fun _ => 6)
      (fun i n => rd e.mesh_neighbors (i * 6 + n) ≠ -1)
      (fun i n => (rd e.mesh_neighbors (i * 6 + n)).toNat) (fun _ n => rd e.opposed_direction n)
      (fun i n => e.toSimulationAlgorithm3DBase.DiffusionRate (i : Int) s n)
      (fun i n => e.toSimulationAlgorithm3DBase.DiffusionRate (rd e.mesh_neighbors (i * 6 + n)) s
        (rd e.opposed_direction n)) ?_
    intro i n hi hn hv
    obtain ⟨h0, hj, ho, hoo, hback⟩ := hp i hi n hn hv
    refine ⟨hj, ho, ?_, ?_, hoo, ?_⟩
    · show rd e.mesh_neighbors _ ≠ -1
      rw [hback]
      omega
    · show (rd e.mesh_neighbors _).toNat = i
      rw [hback]
      exact Int.toNat_natCast i
    · show _ = e.toSimulationAlgorithm3DBase.DiffusionRate
        (((rd e.mesh_neighbors (i * 6 + n)).toNat : Nat) : Int) s (rd e.opposed_direction n)
      rw [Int.toNat_of_nonneg h0]
  have h3 : ∑ i in Finset.range e.n_meshes, ∑ n in Finset.range 6,
      (if rd e.mesh_neighbors (i * 6 + n) ≠ -1 then
        -e.toSimulationAlgorithm3DBase.DiffusionRateDifference i s n else 0) = 0 := by
    have e1 : ∀ i n, (if rd e.mesh_neighbors (i * 6 + n) ≠ -1 then
        -e.toSimulationAlgorithm3DBase.DiffusionRateDifference i s n else 0) =
        -(if rd e.mesh_neighbors (i * 6 + n) ≠ -1 then
          e.toSimulationAlgorithm3DBase.DiffusionRate (i : Int) s n -
            e.toSimulationAlgorithm3DBase.DiffusionRate (rd e.mesh_neighbors (i * 6 + n)) s
              (rd e.opposed_direction n)
          else 0) := by
      intro i n
      unfold SimulationAlgorithm3DBase.DiffusionRateDifference
      split_ifs
      · rfl
      · exact neg_zero.symm
    simp only [e1, Finset.sum_neg_distrib, h2, neg_zero]
  rw [h3, zero_mul, add_zero]

/-- One `Iterate` of `Euler3D` keeps the total of every species, with paired
faces, no chemostat and `mesh_kr = 0`. -/
theorem Iterate_conserves_euler3D (m : Libm) (e : Euler3D)
    (hx : e.n_meshes * e.n_species ≤ e.mesh_x.length)
    (hd : e.n_meshes * e.n_species ≤ e.mesh_dxdt.length)
    (hch : ∀ f, rd e.mesh_chstt f = 0) (hkr : ∀ f, rd e.mesh_kr f = 0)
    (hp : e.toSimulationAlgorithm3DBase.FacesPaired) (s : Nat) (hs : s < e.n_species) :
    speciesTotal (e.Iterate m).2.mesh_x e.n_meshes e.n_species s =
      speciesTotal e.mesh_x e.n_meshes e.n_species s := by
  unfold Iterate
  dsimp only
  split_ifs
  · rfl
  · obtain ⟨sx, st, g, p, l, c, h⟩ := SimulationAlgorithmBase.SamplingStep_CheckTMax_frame
      { (Apply_dxdt (Compute_dxdt m { e with sampling_done_this_iteration := false })).toSimulationAlgorithmBase with
        t := (Apply_dxdt (Compute_dxdt m { e with sampling_done_this_iteration := false })).t +
          (Apply_dxdt (Compute_dxdt m { e with sampling_done_this_iteration := false })).dt }
    rw [h]
    exact step_conserves_euler3D m { e with sampling_done_this_iteration := false } hx hd hch hkr
      hp s hs

end Euler3D

namespace EulerGraph

/-- The derivative that `Compute_dxdt` leaves in cell `(i, s)` when nothing is
chemostatted and `mesh_kr` is `0`: minus the flux differences over the
neighbours of `i`. -/
theorem Compute_dxdt_cell_eulerGraph (m : Libm) (e : EulerGraph)
    (hlen : e.n_meshes * e.n_species ≤ e.mesh_dxdt.length)
    (hch : ∀ f, rd e.mesh_chstt f = 0) (hkr : ∀ f, rd e.mesh_kr f = 0)
    (i s : Nat) (hi : i < e.n_meshes) (hs : s < e.n_species) :
    rd (e.Compute_dxdt m).mesh_dxdt (i * e.n_species + s) =
      ∑ n in Finset.range (rd e.mesh_neighbor_n i),
        -e.toSimulationAlgorithmGraphBase.DiffusionRateDifference i s n := by
  unfold Compute_dxdt
  dsimp only
  have hcell : ∀ i', i' < e.n_meshes → ∀ v : List ℚ,
      forLoop e.n_species (fun s mesh_dxdt =>
        if rd e.mesh_chstt (i' * e.n_species + s) ≠ 0 then wr mesh_dxdt (i' * e.n_species + s) 0
        else
          forLoop (rd e.mesh_neighbor_n i') (fun n mesh_dxdt =>
            wr mesh_dxdt (i' * e.n_species + s)
              (rd mesh_dxdt (i' * e.n_species + s) -
                e.toSimulationAlgorithmGraphBase.DiffusionRateDifference i' s n))
          (forLoop e.n_reactions (fun r mesh_dxdt =>
            wr mesh_dxdt (i' * e.n_species + s)
              (rd mesh_dxdt (i' * e.n_species + s) + rd e.sto (s * e.n_reactions + r) *
                rd (forLoop e.n_reactions
                  (fun r rr => wr rr r (e.toSimulationAlgorithmBase.ReactionRate m i' r))
                  (List.replicate e.n_reactions 0)) r))
            (wr mesh_dxdt (i' * e.n_species + s) 0))) v =
      forLoop e.n_species (fun s x => wr x (i' * e.n_species + s)
        ((fun i s (_ : ℚ) => ∑ n in Finset.range (rd e.mesh_neighbor_n i),
            -e.toSimulationAlgorithmGraphBase.DiffusionRateDifference i s n) i' s
          (rd x (i' * e.n_species + s)))) v := by
    intro i' _ v
    refine forLoop_congr _ _ _ _ (fun s' _ d => ?_)
    rw [if_neg (not_not.mpr (hch _))]
    have hR : forLoop e.n_reactions (fun r mesh_dxdt =>
        wr mesh_dxdt (i' * e.n_species + s')
          (rd mesh_dxdt (i' * e.n_species + s') + rd e.sto (s' * e.n_reactions + r) *
            rd (forLoop e.n_reactions
              (fun r rr => wr rr r (e.toSimulationAlgorithmBase.ReactionRate m i' r))
              (List.replicate e.n_reactions 0)) r))
        (wr d (i' * e.n_species + s') 0) = wr d (i' * e.n_species + s') 0 := by
      refine forLoop_invariant (fun v => v = wr d (i' * e.n_species + s') 0) _ _ _ rfl
        (fun r _ v hv => ?_)
      show wr v _ _ = _
      rw [hv, e.toSimulationAlgorithmBase.reactionRates_zero m i' hkr, mul_zero, add_zero,
        wr_rd_self]
    rw [hR, forLoop_cell_sub]
    exact (wr_wr_rd d _ 0 (fun a => a + ∑ n in Finset.range (rd e.mesh_neighbor_n i'),
      -e.toSimulationAlgorithmGraphBase.DiffusionRateDifference i' s' n)).trans
      (by rw [zero_add])
  rw [forLoop_congr _ _ _ _ (fun i' hi' v => hcell i' hi' v)]
  exact forLoop_update_cells e.n_meshes e.n_species
    (fun i s (_ : ℚ) => ∑ n in Finset.range (rd e.mesh_neighbor_n i),
      -e.toSimulationAlgorithmGraphBase.DiffusionRateDifference i s n)
    e.mesh_dxdt hlen i s hi hs

/-- The state that `Apply_dxdt` leaves in cell `(i, s)`. -/
theorem Apply_dxdt_cell_eulerGraph (e : EulerGraph)
    (hlen : e.n_meshes * e.n_species ≤ e.mesh_x.length)
    (i s : Nat) (hi : i < e.n_meshes) (hs : s < e.n_species) :
    rd e.Apply_dxdt.mesh_x (i * e.n_species + s) =
      rd e.mesh_x (i * e.n_species + s) + rd e.mesh_dxdt (i * e.n_species + s) * e.dt :=
  forLoop_update_cells e.n_meshes e.n_species
    (fun i j a => a + rd e.mesh_dxdt (i * e.n_species + j) * e.dt) e.mesh_x hlen i s hi hs

/-- With paired edges, no chemostat and `mesh_kr = 0`, the step
`Compute_dxdt`, `Apply_dxdt` keeps the total of every species. -/
theorem step_conserves_eulerGraph (m : Libm) (e : EulerGraph)
    (hx : e.n_meshes * e.n_species ≤ e.mesh_x.length)
    (hd : e.n_meshes * e.n_species ≤ e.mesh_dxdt.length)
    (hch : ∀ f, rd e.mesh_chstt f = 0) (hkr : ∀ f, rd e.mesh_kr f = 0)
    (back : Nat → Nat → Nat) (hp : e.toSimulationAlgorithmGraphBase.EdgesPairedBy back)
    (s : Nat) (hs : s < e.n_species) :
    speciesTotal (e.Compute_dxdt m).Apply_dxdt.mesh_x e.n_meshes e.n_species s =
      speciesTotal e.mesh_x e.n_meshes e.n_species s := by
  rw [speciesTotal_eq_sum, speciesTotal_eq_sum]
  have h1 : ∀ i ∈ Finset.range e.n_meshes,
      rd (e.Compute_dxdt m).Apply_dxdt.mesh_x (i * e.n_species + s) =
        rd e.mesh_x (i * e.n_species + s) +
          (∑ n in Finset.range (rd e.mesh_neighbor_n i),
            -e.toSimulationAlgorithmGraphBase.DiffusionRateDifference i s n) * e.dt := by
    intro i hi
    have h : rd (e.Compute_dxdt m).Apply_dxdt.mesh_x (i * e.n_species + s) =
        rd e.mesh_x (i * e.n_species + s) +
          rd (e.Compute_dxdt m).mesh_dxdt (i * e.n_species + s) * e.dt :=
      Apply_dxdt_cell_eulerGraph (e.Compute_dxdt m) hx i s (Finset.mem_range.mp hi) hs
    rw [Compute_dxdt_cell_eulerGraph m e hd hch hkr i s (Finset.mem_range.mp hi) hs] at h
    exact h
  rw [Finset.sum_congr rfl h1, Finset.sum_add_distrib, ← Finset.sum_mul]
  have h2 : ∑ i in Finset.range e.n_meshes, ∑ n in Finset.range (rd e.mesh_neighbor_n i),
      (if True then
        rd e.mesh_x (i * e.n_species + s) *
            rd (rdRow e.mesh_kd_out i) (s * rd e.mesh_neighbor_n i + n) -
          rd e.mesh_x (rd (rdRow e.mesh_neighbor_index i) n * e.n_species + s) *
            rd (rdRow e.mesh_kd_in i) (s * rd e.mesh_neighbor_n i + n)
       else 0) = 0 := by
    refine sum_pairs_cancel e.n_meshes (fun i => rd e.mesh_neighbor_n i) (fun _ _ => True)
      (fun i n => rd (rdRow e.mesh_neighbor_index i) n) back
      (fun i n => rd e.mesh_x (i * e.n_species + s) *
        rd (rdRow e.mesh_kd_out i) (s * rd e.mesh_neighbor_n i + n))
      (fun i n => rd e.mesh_x (rd (rdRow e.mesh_neighbor_index i) n * e.n_species + s) *
        rd (rdRow e.mesh_kd_in i) (s * rd e.mesh_neighbor_n i + n)) ?_
    intro i n hi hn _
    obtain ⟨hj, hb, hback, hbb, hk⟩ := hp i hi n hn
    refine ⟨hj, hb, trivial, hback, hbb, ?_⟩
    show _ * _ = _ * _
    rw [hk s hs]
  have h3 : ∑ i in Finset.range e.n_meshes, ∑ n in Finset.range (rd e.mesh_neighbor_n i),
      -e.toSimulationAlgorithmGraphBase.DiffusionRateDifference i s n = 0 := by
    simp only [if_true] at h2
    unfold SimulationAlgorithmGraphBase.DiffusionRateDifference
    simp only [Finset.sum_neg_distrib, h2, neg_zero]
  rw [h3, zero_mul, add_zero]

/-- One `Iterate` of `EulerGraph` keeps the total of every species, with
paired edges, no chemostat and `mesh_kr = 0`. -/
theorem Iterate_conserves_eulerGraph (m : Libm) (e : EulerGraph)
    (hx : e.n_meshes * e.n_species ≤ e.mesh_x.length)
    (hd : e.n_meshes * e.n_species ≤ e.mesh_dxdt.length)
    (hch : ∀ f, rd e.mesh_chstt f = 0) (hkr : ∀ f, rd e.mesh_kr f = 0)
    (back : Nat → Nat → Nat) (hp : e.toSimulationAlgorithmGraphBase.EdgesPairedBy back)
    (s : Nat) (hs : s < e.n_species) :
    speciesTotal (e.Iterate m).2.mesh_x e.n_meshes e.n_species s =
      speciesTotal e.mesh_x e.n_meshes e.n_species s := by
  unfold Iterate
  dsimp only
  split_ifs
  · rfl
  · obtain ⟨sx, st, g, p, l, c, h⟩ := SimulationAlgorithmBase.SamplingStep_CheckTMax_frame
      { (Apply_dxdt (Compute_dxdt m { e with sampling_done_this_iteration := false })).toSimulationAlgorithmBase with
        t := (Apply_dxdt (Compute_dxdt m { e with sampling_done_this_iteration := false })).t +
          (Apply_dxdt (Compute_dxdt m { e with sampling_done_this_iteration := false })).dt }
    rw [h]
    exact step_conserves_eulerGraph m { e with sampling_done_this_iteration := false } hx hd hch
      hkr back hp s hs

end EulerGraph

/-! ## The sampling scheduler -/

namespace SimulationAlgorithmBase

/-- What `Sample` leaves: the guard is set, and the snapshot `(t, mesh_x)` is
appended when the guard was unset. -/
theorem Sample_eq (b : SimulationAlgorithmBase) :
    b.Sample =
      { b with
        sampled_mesh_x :=
          if b.sampling_done_this_iteration then b.sampled_mesh_x
          else b.sampled_mesh_x ++ [b.mesh_x]
        sampled_t :=
          if b.sampling_done_this_iteration then b.sampled_t else b.sampled_t ++ [b.t]
        sampling_done_this_iteration := true } := by
  unfold Sample
  cases h : b.sampling_done_this_iteration
  · simp
  · cases b
    simp at h
    simp [h]

/-- A second `Sample` does nothing. -/
theorem Sample_Sample (b : SimulationAlgorithmBase) : b.Sample.Sample = b.Sample := by
  rw [b.Sample_eq]
  rfl

/-- After a `Sample`, any number of further `Sample` calls does nothing. -/
theorem Sample_iterate (b : SimulationAlgorithmBase) (n : Nat) :
    Sample^[n + 1] b = b.Sample := by
  induction n with
  | zero => rfl
  | succ n ih => rw [Function.iterate_succ_apply', ih, Sample_Sample]

/-- What `Sample` keeps, and the guard after it. -/
theorem Sample_proj (b : SimulationAlgorithmBase) :
    b.Sample.t = b.t ∧ b.Sample.t_samples = b.t_samples ∧ b.Sample.n_samples = b.n_samples ∧
      b.Sample.sample_pos = b.sample_pos ∧ b.Sample.sampling_done_this_iteration = true := by
  rw [b.Sample_eq]
  exact ⟨rfl, rfl, rfl, rfl, rfl⟩

/-- With the guard set, `Sample` does nothing. -/
theorem Sample_of_guard (b : SimulationAlgorithmBase)
    (h : b.sampling_done_this_iteration = true) : b.Sample = b := by
  unfold Sample
  simp [h]

/-- The loop of `SampleOnTSample` moves `sample_pos` to some `p`; when it
moves, the current target is reached and one `Sample` call has had effect;
when the loop has run to its end, the target at `p` is not reached. -/
theorem SampleOnTSampleLoop_spec (fuel : Nat) : ∀ b : SimulationAlgorithmBase,
    ∃ p, SampleOnTSampleLoop fuel b =
        (if b.sample_pos < p then { b.Sample with sample_pos := p } else b) ∧
      b.sample_pos ≤ p ∧
      (b.sample_pos < p → rd b.t_samples b.sample_pos ≤ b.t ∧ p ≤ b.n_samples) ∧
      (b.n_samples - b.sample_pos ≤ fuel → p < b.n_samples → b.t < rd b.t_samples p) := by
  induction fuel with
  | zero =>
    intro b
    refine ⟨b.sample_pos, ?_, le_refl _, fun h => absurd h (lt_irrefl _), fun h1 h2 => ?_⟩
    · rw [if_neg (lt_irrefl _)]
      rfl
    · omega
  | succ k ih =>
    intro b
    unfold SampleOnTSampleLoop
    by_cases hc : b.t ≥ rd b.t_samples b.sample_pos ∧ b.sample_pos < b.n_samples
    · rw [if_pos hc]
      obtain ⟨b1, hb1⟩ : ∃ b1 : SimulationAlgorithmBase,
          b1 = { b.Sample with sample_pos := b.sample_pos + 1 } := ⟨_, rfl⟩
      obtain ⟨ht, hts, hn, _, hg⟩ := b.Sample_proj
      have e1 : b1.t = b.t := by rw [hb1]; exact ht
      have e2 : b1.t_samples = b.t_samples := by rw [hb1]; exact hts
      have e3 : b1.n_samples = b.n_samples := by rw [hb1]; exact hn
      have e4 : b1.sample_pos = b.sample_pos + 1 := by rw [hb1]
      have e5 : b1.sampling_done_this_iteration = true := by rw [hb1]; exact hg
      rw [← hb1]
      obtain ⟨p, h1, hle, hadv, hexit⟩ := ih b1
      rw [e4] at h1 hle hadv hexit
      rw [e1, e2, e3] at hexit
      rw [e3] at hadv
      refine ⟨p, ?_, by omega, fun _ => ⟨hc.1, ?_⟩, fun hf hp => ?_⟩
      · rw [if_pos (by omega : b.sample_pos < p), h1]
        by_cases hp : b.sample_pos + 1 < p
        · rw [if_pos hp, b1.Sample_of_guard e5, hb1]
        · rw [if_neg hp, hb1]
          have : p = b.sample_pos + 1 := by omega
          rw [this]
      · by_cases hp : b.sample_pos + 1 < p
        · exact (hadv hp).2
        · have : p = b.sample_pos + 1 := by omega
          rw [this]
          exact hc.2
      · exact hexit (by omega) hp
    · rw [if_neg hc]
      refine ⟨b.sample_pos, ?_, le_refl _, fun h => absurd h (lt_irrefl _), fun _ h2 => ?_⟩
      · rw [if_neg (lt_irrefl _)]
      · by_contra hn
        exact hc ⟨not_lt.mp hn, h2⟩

/-- One sampling pass, whatever the policy: the time and the state stay, and
either nothing is recorded, or the snapshot `(t, mesh_x)` is appended and the
guard is set. -/
theorem SamplingStep_once (b : SimulationAlgorithmBase) :
    ∃ g p l, b.SamplingStep =
        { b with sampling_done_this_iteration := g, sample_pos := p, last_tsi_ratio := l } ∨
      (b.sampling_done_this_iteration = false ∧ b.SamplingStep =
        { b with sampled_mesh_x := b.sampled_mesh_x ++ [b.mesh_x],
                 sampled_t := b.sampled_t ++ [b.t],
                 sampling_done_this_iteration := true, sample_pos := p,
                 last_tsi_ratio := l }) := by
  unfold SamplingStep
  split_ifs
  · unfold SampleOnTSample
    obtain ⟨p, h, _⟩ := SampleOnTSampleLoop_spec (b.n_samples - b.sample_pos) b
    rw [h]
    split_ifs
    · rw [b.Sample_eq]
      cases hg : b.sampling_done_this_iteration
      · exact ⟨true, p, b.last_tsi_ratio, Or.inr ⟨rfl, by simp⟩⟩
      · exact ⟨true, p, b.last_tsi_ratio, Or.inl (by simp)⟩
    · exact ⟨b.sampling_done_this_iteration, b.sample_pos, b.last_tsi_ratio, Or.inl rfl⟩
  · rw [b.Sample_eq]
    cases hg : b.sampling_done_this_iteration
    · exact ⟨true, b.sample_pos, b.last_tsi_ratio, Or.inr ⟨rfl, by simp⟩⟩
    · exact ⟨true, b.sample_pos, b.last_tsi_ratio, Or.inl (by simp)⟩
  · unfold SampleOnInterval
    dsimp only
    split_ifs
    · rw [b.Sample_eq]
      cases hg : b.sampling_done_this_iteration
      · exact ⟨true, b.sample_pos, ((⌊b.t / b.sampling_interval⌋ : Int) : ℚ),
          Or.inr ⟨rfl, by simp⟩⟩
      · exact ⟨true, b.sample_pos, ((⌊b.t / b.sampling_interval⌋ : Int) : ℚ),
          Or.inl (by simp)⟩
    · exact ⟨b.sampling_done_this_iteration, b.sample_pos, b.last_tsi_ratio, Or.inl rfl⟩
  · exact ⟨b.sampling_done_this_iteration, b.sample_pos, b.last_tsi_ratio, Or.inl rfl⟩

end SimulationAlgorithmBase

/-! ## The shape of `Iterate` on the shared members -/

theorem Euler3D.Iterate_shape_euler3D (m : Libm) (e : Euler3D) :
    e.toSimulationAlgorithmBase.IterateShape (e.Iterate m).2.toSimulationAlgorithmBase := by
  unfold Euler3D.Iterate
  dsimp only
  split_ifs
  · exact Or.inl rfl
  · exact Or.inr (Or.inr ⟨_, e.rng, e.dt, e.t + e.dt, rfl⟩)

theorem EulerGraph.Iterate_shape_eulerGraph (m : Libm) (e : EulerGraph) :
    e.toSimulationAlgorithmBase.IterateShape (e.Iterate m).2.toSimulationAlgorithmBase := by
  unfold EulerGraph.Iterate
  dsimp only
  split_ifs
  · exact Or.inl rfl
  · exact Or.inr (Or.inr ⟨_, e.rng, e.dt, e.t + e.dt, rfl⟩)

theorem TauLeap3D.Iterate_shape_tauLeap3D (e : TauLeap3D) :
    e.toSimulationAlgorithmBase.IterateShape e.Iterate.2.toSimulationAlgorithmBase := by
  unfold TauLeap3D.Iterate
  dsimp only
  split_ifs
  · exact Or.inl rfl
  · obtain ⟨nr, nd, g, hg⟩ :=
      TauLeap3D.Compute_nevt_frame_tauLeap3D { e with sampling_done_this_iteration := false }
    rw [hg]
    exact Or.inr (Or.inr ⟨_, g, e.dt, e.t + e.dt, rfl⟩)

theorem TauLeapGraph.Iterate_shape_tauLeapGraph (e : TauLeapGraph) :
    e.toSimulationAlgorithmBase.IterateShape e.Iterate.2.toSimulationAlgorithmBase := by
  unfold TauLeapGraph.Iterate
  dsimp only
  split_ifs
  · exact Or.inl rfl
  · obtain ⟨nr, nd, g, hg⟩ :=
      TauLeapGraph.Compute_nevt_frame_tauLeapGraph { e with sampling_done_this_iteration := false }
    rw [hg]
    exact Or.inr (Or.inr ⟨_, g, e.dt, e.t + e.dt, rfl⟩)

namespace Gillespie3D

theorem walkReactions_frame (g : Gillespie3D) (i : Nat) (r2 : ℚ) (l : List Nat) :
    ∀ a, ∃ x, walkReactions g i r2 l a = { g with mesh_x := x } := by
  induction l with
  | nil => intro a; exact ⟨_, rfl⟩
  | cons j rest ih =>
    intro a
    unfold walkReactions
    dsimp only
    split_ifs
    · exact ⟨_, rfl⟩
    · exact ih _

theorem walkDirections_frame (g : Gillespie3D) (i j : Nat) (r2 : ℚ) (l : List Nat) :
    ∀ a, ∃ x, (walkDirections g i j r2 l a).1 = { g with mesh_x := x } := by
  induction l with
  | nil => intro a; exact ⟨_, rfl⟩
  | cons n rest ih =>
    intro a
    unfold walkDirections
    dsimp only
    split_ifs
    · exact ⟨_, rfl⟩
    · exact ih _

theorem walkSpecies_frame (g : Gillespie3D) (i : Nat) (r2 : ℚ) (l : List Nat) :
    ∀ a, ∃ x, walkSpecies g i r2 l a = { g with mesh_x := x } := by
  induction l with
  | nil => intro a; exact ⟨_, rfl⟩
  | cons j rest ih =>
    intro a
    unfold walkSpecies
    dsimp only
    split_ifs
    · exact walkDirections_frame g i j r2 _ a
    · exact ih _

theorem walkMeshes_frame (g : Gillespie3D) (r : ℚ) (l : List Nat) :
    ∀ a, ∃ x, walkMeshes g r l a = { g with mesh_x := x } := by
  induction l with
  | nil => intro a; exact ⟨_, rfl⟩
  | cons i rest ih =>
    intro a
    unfold walkMeshes
    dsimp only
    split_ifs
    · exact walkReactions_frame g i _ _ _
    · exact walkSpecies_frame g i _ _ _
    · exact ih _

/-- Method `DrawAndApplyEvent` changes the state and the generator only. -/
theorem DrawAndApplyEvent_frame (g : Gillespie3D) :
    ∃ x, g.DrawAndApplyEvent = { g with mesh_x := x, rng := g.rng.advance } := by
  unfold DrawAndApplyEvent
  dsimp only
  exact walkMeshes_frame { g with rng := g.rng.advance } _ _ 0

theorem Iterate_shape_gillespie3D (m : Libm) (g : Gillespie3D) :
    g.toSimulationAlgorithmBase.IterateShape (g.Iterate m).2.toSimulationAlgorithmBase := by
  unfold Iterate
  dsimp only
  obtain ⟨ar, ad, a0r, a0d, a0, hcp⟩ :=
    ComputePropensities_frame_gillespie3D { g with sampling_done_this_iteration := false }
  by_cases hcomp : g.complete = true
  · rw [if_pos hcomp]
    exact Or.inl rfl
  · rw [if_neg hcomp, hcp]
    dsimp only
    by_cases ha : a0 = 0
    · rw [if_pos ha]
      exact Or.inr (Or.inl rfl)
    · rw [if_neg ha]
      obtain ⟨x, hd⟩ := DrawAndApplyEvent_frame
        { g with sampling_done_this_iteration := false, mesh_ar := ar, mesh_ad := ad,
                 mesh_a0r := a0r, mesh_a0d := a0d, a0 := a0 }
      rw [hd]
      exact Or.inr (Or.inr ⟨x, _, _, _, rfl⟩)

end Gillespie3D

theorem GillespieGraph.Iterate_shape_gillespieGraph (m : Libm) (g : GillespieGraph) :
    g.toSimulationAlgorithmBase.IterateShape (g.Iterate m).2.toSimulationAlgorithmBase := by
  unfold GillespieGraph.Iterate
  dsimp only
  obtain ⟨ar, ad, a0r, a0d, a0, hcp⟩ :=
    GillespieGraph.ComputePropensities_frame_gillespieGraph
      { g with sampling_done_this_iteration := false }
  by_cases hcomp : g.complete = true
  · rw [if_pos hcomp]
    exact Or.inl rfl
  · rw [if_neg hcomp, hcp]
    dsimp only
    by_cases ha : a0 = 0
    · rw [if_pos ha]
      exact Or.inr (Or.inl rfl)
    · rw [if_neg ha]
      obtain ⟨x, gr, hd, _⟩ := GillespieGraph.DrawAndApplyEvent_keeps
        { g with sampling_done_this_iteration := false, mesh_ar := ar, mesh_ad := ad,
                 mesh_a0r := a0r, mesh_a0d := a0d, a0 := a0 }
      rw [hd]
      exact Or.inr (Or.inr ⟨x, _, _, _, rfl⟩)

/-- One `Iterate` on a grid object acts on the shared members as
`IterateShape` says, whatever the kernel. -/
theorem GridAlgo.Iterate_shape_grid (m : Libm) (a : GridAlgo) :
    a.base.toSimulationAlgorithmBase.IterateShape (a.Iterate m).2.base.toSimulationAlgorithmBase := by
  cases a with
  | gillespie g => exact Gillespie3D.Iterate_shape_gillespie3D m g
  | tauleap e => exact TauLeap3D.Iterate_shape_tauLeap3D e
  | euler e => exact Euler3D.Iterate_shape_euler3D m e

/-- One `Iterate` on a graph object acts on the shared members as
`IterateShape` says, whatever the kernel. -/
theorem GraphAlgo.Iterate_shape_graph (m : Libm) (a : GraphAlgo) :
    a.base.toSimulationAlgorithmBase.IterateShape (a.Iterate m).2.base.toSimulationAlgorithmBase := by
  cases a with
  | gillespie g => exact GillespieGraph.Iterate_shape_gillespieGraph m g
  | tauleap e => exact TauLeapGraph.Iterate_shape_tauLeapGraph e
  | euler e => exact EulerGraph.Iterate_shape_eulerGraph m e

/-! ## The shared members after `Init` -/

/-- Method `Init` of the grid sets the shared members from its arguments. -/
theorem SimulationAlgorithm3DBase.Init_base (m : Libm) (b : SimulationAlgorithm3DBase)
    (w h d n_species n_reactions n_env : Nat) (mesh_x0 : List ℚ) (mesh_chstt mesh_env : List Int)
    (mesh_vol : ℚ) (k sub sto r_env D : List ℚ) (boundary_conditions : List Int) (sample_n : Nat)
    (t_samples : List ℚ) (sampling_policy_code : Int) (sampling_interval t_max time_step : ℚ)
    (seed : Rng) :
    ∃ kr, (b.Init m w h d n_species n_reactions n_env mesh_x0 mesh_chstt mesh_env mesh_vol k sub
        sto r_env D boundary_conditions sample_n t_samples sampling_policy_code sampling_interval
        t_max time_step seed).toSimulationAlgorithmBase =
      { n_meshes := w * h * d, n_species := n_species, n_reactions := n_reactions, n_env := n_env,
        mesh_x := mesh_x0, mesh_chstt := mesh_chstt, mesh_env := mesh_env, sto := sto, sub := sub,
        mesh_kr := kr, n_samples := sample_n, sample_pos := 0, t_samples := t_samples,
        sampled_mesh_x := [], sampled_t := [], sampling_policy_code := sampling_policy_code,
        sampling_interval := sampling_interval, t_max := t_max,
        sampling_done_this_iteration := false, last_tsi_ratio := -1, t := 0, dt := time_step,
        complete := false, rng := seed } :=
  ⟨_, rfl⟩

namespace SimulationAlgorithmGraphBase

/-- Method `SetNeighbors` leaves the shared members. -/
theorem SetNeighbors_base (b : SimulationAlgorithmGraphBase) (n_edges : Nat)
    (edge_i edge_j : List Nat) (edge_sfc edge_dst : List ℚ) :
    (b.SetNeighbors n_edges edge_i edge_j edge_sfc edge_dst).toSimulationAlgorithmBase =
      b.toSimulationAlgorithmBase := by
  unfold SetNeighbors
  exact forLoop_preserve (fun s : SimulationAlgorithmGraphBase => s.toSimulationAlgorithmBase)
    _ _ _ (fun i _ s => rfl)

/-- Method `Build_mesh_kd` of the graph leaves the shared members. -/
theorem Build_mesh_kd_base (m : Libm) (b : SimulationAlgorithmGraphBase) (D : List ℚ) :
    (b.Build_mesh_kd m D).toSimulationAlgorithmBase = b.toSimulationAlgorithmBase := by
  unfold Build_mesh_kd
  refine forLoop_preserve (fun s : SimulationAlgorithmGraphBase => s.toSimulationAlgorithmBase)
    _ _ _ (fun i _ s => ?_)
  refine Eq.trans (forLoop_preserve
    (fun s : SimulationAlgorithmGraphBase => s.toSimulationAlgorithmBase) _ _ _
    (fun sp _ s => ?_)) rfl
  exact forLoop_preserve (fun s : SimulationAlgorithmGraphBase => s.toSimulationAlgorithmBase)
    _ _ _ (fun n _ s => rfl)

/-- Method `Init` of the graph sets the shared members from its arguments. -/
theorem Init_base_graph (m : Libm) (b : SimulationAlgorithmGraphBase)
    (n_nodes n_species n_reactions n_env n_edges : Nat) (edge_i edge_j : List Nat)
    (edge_sfc edge_dst : List ℚ) (mesh_x0 : List ℚ) (mesh_chstt mesh_env : List Int)
    (mesh_vol : List ℚ) (k sub sto r_env D : List ℚ) (sample_n : Nat) (t_samples : List ℚ)
    (sampling_policy_code : Int) (sampling_interval t_max time_step : ℚ) (seed : Rng) :
    ∃ kr, (b.Init m n_nodes n_species n_reactions n_env n_edges edge_i edge_j edge_sfc edge_dst
        mesh_x0 mesh_chstt mesh_env mesh_vol k sub sto r_env D sample_n t_samples
        sampling_policy_code sampling_interval t_max time_step seed).toSimulationAlgorithmBase =
      { n_meshes := n_nodes, n_species := n_species, n_reactions := n_reactions, n_env := n_env,
        mesh_x := mesh_x0, mesh_chstt := mesh_chstt, mesh_env := mesh_env, sto := sto, sub := sub,
        mesh_kr := kr, n_samples := sample_n, sample_pos := 0, t_samples := t_samples,
        sampled_mesh_x := [], sampled_t := [], sampling_policy_code := sampling_policy_code,
        sampling_interval := sampling_interval, t_max := t_max,
        sampling_done_this_iteration := false, last_tsi_ratio := -1, t := 0, dt := time_step,
        complete := false, rng := seed } := by
  unfold Init
  dsimp only
  simp only [Build_mesh_kd_base]
  have hn := congrArg SimulationAlgorithmBase.n_meshes
    (SetNeighbors_base { b with n_meshes := n_nodes } n_edges edge_i edge_j edge_sfc edge_dst)
  unfold SimulationAlgorithmBase.Build_mesh_kr
  dsimp only
  rw [hn]
  exact ⟨_, rfl⟩

end SimulationAlgorithmGraphBase

/-- After `Init` on a grid object, whatever the kernel, the shared members are
those set from the arguments, followed by one `SamplingStep`. -/
theorem GridAlgo.Init_base_grid (m : Libm) (a : GridAlgo)
    (w h d n_species n_reactions n_env : Nat) (mesh_x0 : List ℚ) (mesh_chstt mesh_env : List Int)
    (mesh_vol : ℚ) (k sub sto r_env D : List ℚ) (boundary_conditions : List Int) (sample_n : Nat)
    (t_samples : List ℚ) (sampling_policy_code : Int) (sampling_interval t_max time_step : ℚ)
    (seed : Rng) :
    ∃ kr, (a.Init m w h d n_species n_reactions n_env mesh_x0 mesh_chstt mesh_env mesh_vol k sub
        sto r_env D boundary_conditions sample_n t_samples sampling_policy_code sampling_interval
        t_max time_step seed).base.toSimulationAlgorithmBase =
      SimulationAlgorithmBase.SamplingStep
        { n_meshes := w * h * d, n_species := n_species, n_reactions := n_reactions,
          n_env := n_env, mesh_x := mesh_x0, mesh_chstt := mesh_chstt, mesh_env := mesh_env,
          sto := sto, sub := sub, mesh_kr := kr, n_samples := sample_n, sample_pos := 0,
          t_samples := t_samples, sampled_mesh_x := [], sampled_t := [],
          sampling_policy_code := sampling_policy_code, sampling_interval := sampling_interval,
          t_max := t_max, sampling_done_this_iteration := false, last_tsi_ratio := -1, t := 0,
          dt := time_step, complete := false, rng := seed } := by
  obtain ⟨kr, hkr⟩ := SimulationAlgorithm3DBase.Init_base m a.base w h d n_species n_reactions
    n_env mesh_x0 mesh_chstt mesh_env mesh_vol k sub sto r_env D boundary_conditions sample_n
    t_samples sampling_policy_code sampling_interval t_max time_step seed
  refine ⟨kr, ?_⟩
  rw [← hkr]
  cases a <;> rfl

theorem GillespieGraph.AlgorithmSpecificInit_base_gillespieGraph (g : GillespieGraph) :
    g.AlgorithmSpecificInit.toSimulationAlgorithmGraphBase = g.toSimulationAlgorithmGraphBase := by
  unfold GillespieGraph.AlgorithmSpecificInit
  dsimp only
  exact forLoop_preserve (fun s : GillespieGraph => s.toSimulationAlgorithmGraphBase)
    _ _ _ (fun i _ s => rfl)

theorem TauLeapGraph.AlgorithmSpecificInit_base_tauLeapGraph (e : TauLeapGraph) :
    e.AlgorithmSpecificInit.toSimulationAlgorithmGraphBase = e.toSimulationAlgorithmGraphBase := by
  unfold TauLeapGraph.AlgorithmSpecificInit
  dsimp only
  exact forLoop_preserve (fun s : TauLeapGraph => s.toSimulationAlgorithmGraphBase)
    _ _ _ (fun i _ s => rfl)

/-- Method `AlgorithmSpecificInit` leaves the members of the base class. -/
theorem GraphAlgo.AlgorithmSpecificInit_base (a : GraphAlgo) :
    a.AlgorithmSpecificInit.base = a.base := by
  cases a with
  | gillespie g => exact GillespieGraph.AlgorithmSpecificInit_base_gillespieGraph g
  | tauleap e => exact TauLeapGraph.AlgorithmSpecificInit_base_tauLeapGraph e
  | euler e => rfl

theorem GraphAlgo.base_withBase (a : GraphAlgo) (b : SimulationAlgorithmGraphBase) :
    (a.withBase b).base = b := by
  cases a <;> rfl

/-- After `Init` on a graph object, whatever the kernel, the shared members
are those set from the arguments, followed by one `SamplingStep`. -/
theorem GraphAlgo.Init_base_graphAlgo (m : Libm) (a : GraphAlgo)
    (n_nodes n_species n_reactions n_env n_edges : Nat) (edge_i edge_j : List Nat)
    (edge_sfc edge_dst : List ℚ) (mesh_x0 : List ℚ) (mesh_chstt mesh_env : List Int)
    (mesh_vol : List ℚ) (k sub sto r_env D : List ℚ) (sample_n : Nat) (t_samples : List ℚ)
    (sampling_policy_code : Int) (sampling_interval t_max time_step : ℚ) (seed : Rng) :
    ∃ kr, (a.Init m n_nodes n_species n_reactions n_env n_edges edge_i edge_j edge_sfc edge_dst
        mesh_x0 mesh_chstt mesh_env mesh_vol k sub sto r_env D sample_n t_samples
        sampling_policy_code sampling_interval t_max time_step seed).base.toSimulationAlgorithmBase =
      SimulationAlgorithmBase.SamplingStep
        { n_meshes := n_nodes, n_species := n_species, n_reactions := n_reactions,
          n_env := n_env, mesh_x := mesh_x0, mesh_chstt := mesh_chstt, mesh_env := mesh_env,
          sto := sto, sub := sub, mesh_kr := kr, n_samples := sample_n, sample_pos := 0,
          t_samples := t_samples, sampled_mesh_x := [], sampled_t := [],
          sampling_policy_code := sampling_policy_code, sampling_interval := sampling_interval,
          t_max := t_max, sampling_done_this_iteration := false, last_tsi_ratio := -1, t := 0,
          dt := time_step, complete := false, rng := seed } := by
  obtain ⟨kr, hkr⟩ := SimulationAlgorithmGraphBase.Init_base_graph m a.base n_nodes n_species
    n_reactions n_env n_edges edge_i edge_j edge_sfc edge_dst mesh_x0 mesh_chstt mesh_env mesh_vol
    k sub sto r_env D sample_n t_samples sampling_policy_code sampling_interval t_max time_step
    seed
  refine ⟨kr, ?_⟩
  rw [← hkr]
  unfold GraphAlgo.Init
  dsimp only
  rw [GraphAlgo.base_withBase, GraphAlgo.AlgorithmSpecificInit_base, GraphAlgo.base_withBase]

/-! ## Sampling on targets -/

theorem rd_append_left {α : Type} [Zero α] (l l1 : List α) {k : Nat} (h : k < l.length) :
    rd (l ++ l1) k = rd l k := by
  unfold rd
  rw [List.getD_eq_getElem?_getD, List.getD_eq_getElem?_getD, List.getElem?_append_left h]

theorem rd_append_length {α : Type} [Zero α] (l : List α) (a : α) :
    rd (l ++ [a]) l.length = a := by
  unfold rd
  rw [List.getD_eq_getElem?_getD, List.getElem?_append_right (le_refl _)]
  simp

namespace SimulationAlgorithmBase

/-- One pass of `SamplingStep` under the policy `on_t_sample`, entered with
the guard unset: it keeps the sampling plan, records one snapshot exactly when
it consumes at least one target, and leaves the snapshots following the
targets. -/
theorem SamplingStep_targets (b : SimulationAlgorithmBase) (hpol : b.sampling_policy_code = 0)
    (hg : b.sampling_done_this_iteration = false) :
    b.TargetPass b.SamplingStep ∧ b.SamplingStep.t = b.t ∧
    (SortedTargets b.t_samples b.n_samples → b.sample_pos ≤ b.n_samples →
      b.sampled_t.length ≤ b.sample_pos →
      (∀ k, k < b.sampled_t.length → rd b.t_samples k ≤ rd b.sampled_t k) →
      b.SamplingStep.SnapshotsFollowTargets) := by
  unfold SamplingStep
  rw [if_pos hpol]
  unfold SampleOnTSample
  obtain ⟨p, h, hle, hadv, hexit⟩ := SampleOnTSampleLoop_spec (b.n_samples - b.sample_pos) b
  rw [h]
  by_cases hp : b.sample_pos < p
  · rw [if_pos hp, b.Sample_eq, hg]
    refine ⟨⟨rfl, rfl, rfl, hle, ?_⟩, rfl, fun hs h1 h2 h3 => ⟨(hadv hp).2, ?_, ?_, ?_⟩⟩
    · show (b.sampled_t ++ [b.t]).length = _
      rw [if_pos hp, List.length_append]
      rfl
    · show (b.sampled_t ++ [b.t]).length ≤ p
      rw [List.length_append]
      show b.sampled_t.length + 1 ≤ p
      omega
    · intro k hk
      have hk' : k < (b.sampled_t ++ [b.t]).length := hk
      rw [List.length_append] at hk'
      have hk'' : k < b.sampled_t.length + 1 := hk'
      show rd b.t_samples k ≤ rd (b.sampled_t ++ [b.t]) k
      by_cases hkl : k < b.sampled_t.length
      · rw [rd_append_left _ _ hkl]
        exact h3 k hkl
      · have hkeq : k = b.sampled_t.length := by omega
        rw [hkeq, rd_append_length]
        refine le_trans ?_ (hadv hp).1
        by_cases hlt : b.sampled_t.length < b.sample_pos
        · exact hs b.sample_pos (by have := (hadv hp).2; omega) _ hlt
        · have : b.sampled_t.length = b.sample_pos := by omega
          rw [this]
    · exact hexit (le_refl _)
  · rw [if_neg hp]
    have hpe : p = b.sample_pos := by omega
    refine ⟨⟨rfl, rfl, rfl, le_refl _, ?_⟩, rfl, fun _ h1 h2 h3 => ⟨h1, h2, h3, ?_⟩⟩
    · rw [if_neg (lt_irrefl _), add_zero]
    · rw [← hpe]
      exact hexit (le_refl _)

/-- One `Iterate` call under the policy `on_t_sample`. -/
theorem IterateShape_targets (b b1 : SimulationAlgorithmBase) (hsh : b.IterateShape b1)
    (hpol : b.sampling_policy_code = 0) :
    b.TargetPass b1 ∧
    (SortedTargets b.t_samples b.n_samples → b.SnapshotsFollowTargets →
      b1.SnapshotsFollowTargets) := by
  rcases hsh with h | h | ⟨x, r, dt, t, h⟩
  · rw [h]
    refine ⟨⟨rfl, rfl, rfl, le_refl _, ?_⟩, fun _ hinv => hinv⟩
    show b.sampled_t.length = b.sampled_t.length + (if b.sample_pos < b.sample_pos then 1 else 0)
    rw [if_neg (lt_irrefl _), add_zero]
  · rw [h]
    refine ⟨⟨rfl, rfl, rfl, le_refl _, ?_⟩, fun _ hinv => hinv⟩
    show b.sampled_t.length = b.sampled_t.length + (if b.sample_pos < b.sample_pos then 1 else 0)
    rw [if_neg (lt_irrefl _), add_zero]
  · obtain ⟨c, hc⟩ := CheckTMax_frame (SamplingStep
      { b with mesh_x := x, rng := r, dt := dt, t := t, sampling_done_this_iteration := false })
    obtain ⟨hpass, ht, hinv⟩ := SamplingStep_targets
      { b with mesh_x := x, rng := r, dt := dt, t := t, sampling_done_this_iteration := false }
      hpol rfl
    rw [h, hc]
    exact ⟨hpass, fun hs hb => hinv hs hb.1 hb.2.1 hb.2.2.1⟩

end SimulationAlgorithmBase

namespace SimulationAlgorithmBase

/-- With sorted targets, snapshots that follow the targets have consumed every
target once the time has reached the last one. -/
theorem SnapshotsFollowTargets.all_consumed (b : SimulationAlgorithmBase)
    (hs : SortedTargets b.t_samples b.n_samples) (hinv : b.SnapshotsFollowTargets)
    (hn : 0 < b.n_samples) (ht : rd b.t_samples (b.n_samples - 1) ≤ b.t) :
    b.sample_pos = b.n_samples := by
  by_contra hne
  have hlt : b.sample_pos < b.n_samples := lt_of_le_of_ne hinv.1 hne
  have h1 := hinv.2.2.2 hlt
  by_cases hp : b.sample_pos < b.n_samples - 1
  · have := hs (b.n_samples - 1) (by omega) _ hp
    linarith
  · have hpe : b.sample_pos = b.n_samples - 1 := by omega
    rw [hpe] at h1
    linarith

end SimulationAlgorithmBase

/-- Any number of `Iterate` calls on a grid object under the policy
`on_t_sample` with sorted targets keeps the sampling plan and keeps the
snapshots following the targets. -/
theorem GridAlgo.run_targets (m : Libm) (n : Nat) (a : GridAlgo)
    (hpol : a.base.sampling_policy_code = 0)
    (hs : SortedTargets a.base.t_samples a.base.n_samples)
    (hinv : a.base.toSimulationAlgorithmBase.SnapshotsFollowTargets) :
    ((fun a => (GridAlgo.Iterate m a).2)^[n] a).base.toSimulationAlgorithmBase.SnapshotsFollowTargets ∧
    ((fun a => (GridAlgo.Iterate m a).2)^[n] a).base.t_samples = a.base.t_samples ∧
    ((fun a => (GridAlgo.Iterate m a).2)^[n] a).base.n_samples = a.base.n_samples := by
  have key := iterate_keeps (fun a => (GridAlgo.Iterate m a).2)
    (fun a : GridAlgo => a.base.sampling_policy_code = 0 ∧
      SortedTargets a.base.t_samples a.base.n_samples ∧
      a.base.toSimulationAlgorithmBase.SnapshotsFollowTargets)
    (fun a : GridAlgo => (a.base.t_samples, a.base.n_samples))
    (fun a ha => by
      obtain ⟨hp, hi⟩ := SimulationAlgorithmBase.IterateShape_targets _ _
        (GridAlgo.Iterate_shape_grid m a) ha.1
      obtain ⟨e1, e2, e3, _, _⟩ := hp
      refine ⟨e3.trans ha.1, ?_, hi ha.2.1 ha.2.2⟩
      show SortedTargets (a.Iterate m).2.base.t_samples (a.Iterate m).2.base.n_samples
      rw [e1, e2]
      exact ha.2.1)
    (fun a ha => by
      obtain ⟨hp, _⟩ := SimulationAlgorithmBase.IterateShape_targets _ _
        (GridAlgo.Iterate_shape_grid m a) ha.1
      obtain ⟨e1, e2, _, _, _⟩ := hp
      show ((a.Iterate m).2.base.t_samples, (a.Iterate m).2.base.n_samples) = _
      rw [e1, e2])
    n a ⟨hpol, hs, hinv⟩
  exact ⟨key.1.2.2, congrArg Prod.fst key.2, congrArg Prod.snd key.2⟩

/-- Any number of `Iterate` calls on a graph object under the policy
`on_t_sample` with sorted targets keeps the sampling plan and keeps the
snapshots following the targets. -/
theorem GraphAlgo.run_targets_graph (m : Libm) (n : Nat) (a : GraphAlgo)
    (hpol : a.base.sampling_policy_code = 0)
    (hs : SortedTargets a.base.t_samples a.base.n_samples)
    (hinv : a.base.toSimulationAlgorithmBase.SnapshotsFollowTargets) :
    ((fun a => (GraphAlgo.Iterate m a).2)^[n] a).base.toSimulationAlgorithmBase.SnapshotsFollowTargets ∧
    ((fun a => (GraphAlgo.Iterate m a).2)^[n] a).base.t_samples = a.base.t_samples ∧
    ((fun a => (GraphAlgo.Iterate m a).2)^[n] a).base.n_samples = a.base.n_samples := by
  have key := iterate_keeps (fun a => (GraphAlgo.Iterate m a).2)
    (fun a : GraphAlgo => a.base.sampling_policy_code = 0 ∧
      SortedTargets a.base.t_samples a.base.n_samples ∧
      a.base.toSimulationAlgorithmBase.SnapshotsFollowTargets)
    (fun a : GraphAlgo => (a.base.t_samples, a.base.n_samples))
    (fun a ha => by
      obtain ⟨hp, hi⟩ := SimulationAlgorithmBase.IterateShape_targets _ _
        (GraphAlgo.Iterate_shape_graph m a) ha.1
      obtain ⟨e1, e2, e3, _, _⟩ := hp
      refine ⟨e3.trans ha.1, ?_, hi ha.2.1 ha.2.2⟩
      show SortedTargets (a.Iterate m).2.base.t_samples (a.Iterate m).2.base.n_samples
      rw [e1, e2]
      exact ha.2.1)
    (fun a ha => by
      obtain ⟨hp, _⟩ := SimulationAlgorithmBase.IterateShape_targets _ _
        (GraphAlgo.Iterate_shape_graph m a) ha.1
      obtain ⟨e1, e2, _, _, _⟩ := hp
      show ((a.Iterate m).2.base.t_samples, (a.Iterate m).2.base.n_samples) = _
      rw [e1, e2])
    n a ⟨hpol, hs, hinv⟩
  exact ⟨key.1.2.2, congrArg Prod.fst key.2, congrArg Prod.snd key.2⟩

/-- What `Init` establishes under the policy `on_t_sample`, from the shared
members it leaves. -/
theorem SimulationAlgorithmBase.init_targets (b0 b : SimulationAlgorithmBase)
    (hb : b = b0.SamplingStep) (hpol : b0.sampling_policy_code = 0)
    (hg : b0.sampling_done_this_iteration = false) (hp : b0.sample_pos = 0)
    (hl : b0.sampled_t = []) (hs : SortedTargets b0.t_samples b0.n_samples) :
    b.sampling_policy_code = 0 ∧ b.t_samples = b0.t_samples ∧ b.n_samples = b0.n_samples ∧
    b.SnapshotsFollowTargets := by
  obtain ⟨⟨e1, e2, e3, _, _⟩, _, hinv⟩ := b0.SamplingStep_targets hpol hg
  rw [hb]
  refine ⟨e3.trans hpol, e1, e2, hinv hs (by omega) (by rw [hl, hp]; exact le_refl _) ?_⟩
  intro k hk
  rw [hl] at hk
  exact absurd hk (Nat.not_lt_zero _)

/-- The sampling pass of `Init` under the policy `on_t_sample` records one
snapshot exactly when it moves `sample_pos`. -/
theorem SimulationAlgorithmBase.init_count (b0 b : SimulationAlgorithmBase)
    (hb : b = b0.SamplingStep) (hpol : b0.sampling_policy_code = 0)
    (hg : b0.sampling_done_this_iteration = false) (hp : b0.sample_pos = 0)
    (hl : b0.sampled_t = []) :
    b.sampled_t.length = (if 0 < b.sample_pos then 1 else 0) := by
  obtain ⟨⟨_, _, _, _, h5⟩, _⟩ := b0.SamplingStep_targets hpol hg
  rw [hb, h5, hl, hp]
  exact Nat.zero_add _

/-! ## C7: snapshots under the policy `on_t_sample` -/

/-- C7, as stated, fails when one sampling pass reaches two targets.  `Euler3D`
with `dt = 1`, `t_max = 10` and the sorted targets `[1/2, 7/10]`: after the
first `Iterate` the time is `1`, past the last target, both targets are
consumed (`sample_pos = 2`), and one snapshot is recorded; after five
`Iterate` calls the time is `5`, the simulation is not complete, and the
number of snapshots is still `1`, not `n_samples = 2`. -/
theorem C7_two_targets_in_one_pass :
    SortedTargets [1 / 2, 7 / 10] 2 ∧
    ((targetsGrid [1 / 2, 7 / 10]).Iterate scenarioLibm).2.base.n_samples = 2 ∧
    ((targetsGrid [1 / 2, 7 / 10]).Iterate scenarioLibm).2.base.sampling_policy_code = 0 ∧
    ((targetsGrid [1 / 2, 7 / 10]).Iterate scenarioLibm).2.base.t = 1 ∧
    ((targetsGrid [1 / 2, 7 / 10]).Iterate scenarioLibm).2.base.sample_pos = 2 ∧
    ((targetsGrid [1 / 2, 7 / 10]).Iterate scenarioLibm).2.base.sampled_t = [1] ∧
    ((fun a => (GridAlgo.Iterate scenarioLibm a).2)^[5] (targetsGrid [1 / 2, 7 / 10])).base.t = 5 ∧
    ((fun a => (GridAlgo.Iterate scenarioLibm a).2)^[5]
      (targetsGrid [1 / 2, 7 / 10])).base.complete = false ∧
    ((fun a => (GridAlgo.Iterate scenarioLibm a).2)^[5]
      (targetsGrid [1 / 2, 7 / 10])).base.sampled_t = [1] := by
  refine ⟨?_, ?_, ?_, ?_, ?_, ?_, ?_, ?_, ?_⟩ <;> decide!

/-- C7, amended.  Under the policy `on_t_sample` (code `0`) with sorted
targets, after `Init` and any number `n` of `Iterate` calls, for every kernel
of the grid and of the graph: the number of snapshots is at most `sample_pos`,
which is at most `n_samples`; every snapshot `k` has
`sampled_t[k] >= t_samples[k]`; and once the time has reached the last target,
`sample_pos = n_samples`.  The sampling pass of `Init` and every `Iterate`
call record one snapshot exactly when they move `sample_pos`, however many
targets they consume. -/
theorem C7_on_t_sample_snapshots :
    (∀ (m : Libm) (a : GridAlgo) (w h d n_species n_reactions n_env : Nat) (mesh_x0 : List ℚ)
      (mesh_chstt mesh_env : List Int) (mesh_vol : ℚ) (k sub sto r_env D : List ℚ)
      (boundary_conditions : List Int) (sample_n : Nat) (t_samples : List ℚ)
      (sampling_interval t_max time_step : ℚ) (seed : Rng) (n : Nat) (r : GridAlgo),
      SortedTargets t_samples sample_n →
      r = (fun a => (GridAlgo.Iterate m a).2)^[n]
        (a.Init m w h d n_species n_reactions n_env mesh_x0 mesh_chstt mesh_env mesh_vol k sub
          sto r_env D boundary_conditions sample_n t_samples 0 sampling_interval t_max time_step
          seed) →
      r.base.sampled_t.length ≤ r.base.sample_pos ∧ r.base.sample_pos ≤ sample_n ∧
      (∀ j, j < r.base.sampled_t.length → rd t_samples j ≤ rd r.base.sampled_t j) ∧
      (0 < sample_n → rd t_samples (sample_n - 1) ≤ r.base.t → r.base.sample_pos = sample_n)) ∧
    (∀ (m : Libm) (a : GraphAlgo) (n_nodes n_species n_reactions n_env n_edges : Nat)
      (edge_i edge_j : List Nat) (edge_sfc edge_dst : List ℚ) (mesh_x0 : List ℚ)
      (mesh_chstt mesh_env : List Int) (mesh_vol : List ℚ) (k sub sto r_env D : List ℚ)
      (sample_n : Nat) (t_samples : List ℚ) (sampling_interval t_max time_step : ℚ) (seed : Rng)
      (n : Nat) (r : GraphAlgo),
      SortedTargets t_samples sample_n →
      r = (fun a => (GraphAlgo.Iterate m a).2)^[n]
        (a.Init m n_nodes n_species n_reactions n_env n_edges edge_i edge_j edge_sfc edge_dst
          mesh_x0 mesh_chstt mesh_env mesh_vol k sub sto r_env D sample_n t_samples 0
          sampling_interval t_max time_step seed) →
      r.base.sampled_t.length ≤ r.base.sample_pos ∧ r.base.sample_pos ≤ sample_n ∧
      (∀ j, j < r.base.sampled_t.length → rd t_samples j ≤ rd r.base.sampled_t j) ∧
      (0 < sample_n → rd t_samples (sample_n - 1) ≤ r.base.t → r.base.sample_pos = sample_n)) ∧
    (∀ (m : Libm) (a : GridAlgo), a.base.sampling_policy_code = 0 →
      a.base.sample_pos ≤ (a.Iterate m).2.base.sample_pos ∧
      (a.Iterate m).2.base.sampled_t.length = a.base.sampled_t.length +
        (if a.base.sample_pos < (a.Iterate m).2.base.sample_pos then 1 else 0)) ∧
    (∀ (m : Libm) (a : GraphAlgo), a.base.sampling_policy_code = 0 →
      a.base.sample_pos ≤ (a.Iterate m).2.base.sample_pos ∧
      (a.Iterate m).2.base.sampled_t.length = a.base.sampled_t.length +
        (if a.base.sample_pos < (a.Iterate m).2.base.sample_pos then 1 else 0)) ∧
    (∀ (m : Libm) (a : GridAlgo) (w h d n_species n_reactions n_env : Nat) (mesh_x0 : List ℚ)
      (mesh_chstt mesh_env : List Int) (mesh_vol : ℚ) (k sub sto r_env D : List ℚ)
      (boundary_conditions : List Int) (sample_n : Nat) (t_samples : List ℚ)
      (sampling_interval t_max time_step : ℚ) (seed : Rng) (r : GridAlgo),
      r = a.Init m w h d n_species n_reactions n_env mesh_x0 mesh_chstt mesh_env mesh_vol k sub
          sto r_env D boundary_conditions sample_n t_samples 0 sampling_interval t_max time_step
          seed →
      r.base.sampled_t.length = (if 0 < r.base.sample_pos then 1 else 0)) ∧
    (∀ (m : Libm) (a : GraphAlgo) (n_nodes n_species n_reactions n_env n_edges : Nat)
      (edge_i edge_j : List Nat) (edge_sfc edge_dst : List ℚ) (mesh_x0 : List ℚ)
      (mesh_chstt mesh_env : List Int) (mesh_vol : List ℚ) (k sub sto r_env D : List ℚ)
      (sample_n : Nat) (t_samples : List ℚ) (sampling_interval t_max time_step : ℚ) (seed : Rng)
      (r : GraphAlgo),
      r = a.Init m n_nodes n_species n_reactions n_env n_edges edge_i edge_j edge_sfc edge_dst
          mesh_x0 mesh_chstt mesh_env mesh_vol k sub sto r_env D sample_n t_samples 0
          sampling_interval t_max time_step seed →
      r.base.sampled_t.length = (if 0 < r.base.sample_pos then 1 else 0)) := by
  refine ⟨?_, ?_, ?_, ?_, ?_, ?_⟩
  · intro m a w h d n_species n_reactions n_env mesh_x0 mesh_chstt mesh_env mesh_vol k sub sto
      r_env D boundary_conditions sample_n t_samples sampling_interval t_max time_step seed n r
      hs hr
    obtain ⟨kr, hkr⟩ := GridAlgo.Init_base_grid m a w h d n_species n_reactions n_env mesh_x0
      mesh_chstt mesh_env mesh_vol k sub sto r_env D boundary_conditions sample_n t_samples 0
      sampling_interval t_max time_step seed
    obtain ⟨hpol, hts, hns, hinv⟩ :=
      SimulationAlgorithmBase.init_targets _ _ hkr rfl rfl rfl rfl hs
    obtain ⟨hrun, e1, e2⟩ := GridAlgo.run_targets m n _ hpol (by rw [hts, hns]; exact hs) hinv
    rw [← hr] at hrun e1 e2
    have e1' : r.base.t_samples = t_samples := e1.trans hts
    have e2' : r.base.n_samples = sample_n := e2.trans hns
    have hall := SimulationAlgorithmBase.SnapshotsFollowTargets.all_consumed
      r.base.toSimulationAlgorithmBase (by rw [e1', e2']; exact hs) hrun
    obtain ⟨h1, h2, h3, _⟩ := hrun
    rw [e2'] at h1 hall
    rw [e1'] at h3 hall
    exact ⟨h2, h1, h3, fun hn ht => hall hn ht⟩
  · intro m a n_nodes n_species n_reactions n_env n_edges edge_i edge_j edge_sfc edge_dst mesh_x0
      mesh_chstt mesh_env mesh_vol k sub sto r_env D sample_n t_samples sampling_interval t_max
      time_step seed n r hs hr
    obtain ⟨kr, hkr⟩ := GraphAlgo.Init_base_graphAlgo m a n_nodes n_species n_reactions n_env
      n_edges edge_i edge_j edge_sfc edge_dst mesh_x0 mesh_chstt mesh_env mesh_vol k sub sto
      r_env D sample_n t_samples 0 sampling_interval t_max time_step seed
    obtain ⟨hpol, hts, hns, hinv⟩ :=
      SimulationAlgorithmBase.init_targets _ _ hkr rfl rfl rfl rfl hs
    obtain ⟨hrun, e1, e2⟩ :=
      GraphAlgo.run_targets_graph m n _ hpol (by rw [hts, hns]; exact hs) hinv
    rw [← hr] at hrun e1 e2
    have e1' : r.base.t_samples = t_samples := e1.trans hts
    have e2' : r.base.n_samples = sample_n := e2.trans hns
    have hall := SimulationAlgorithmBase.SnapshotsFollowTargets.all_consumed
      r.base.toSimulationAlgorithmBase (by rw [e1', e2']; exact hs) hrun
    obtain ⟨h1, h2, h3, _⟩ := hrun
    rw [e2'] at h1 hall
    rw [e1'] at h3 hall
    exact ⟨h2, h1, h3, fun hn ht => hall hn ht⟩
  · intro m a hpol
    obtain ⟨⟨_, _, _, h4, h5⟩, _⟩ := SimulationAlgorithmBase.IterateShape_targets _ _
      (GridAlgo.Iterate_shape_grid m a) hpol
    exact ⟨h4, h5⟩
  · intro m a hpol
    obtain ⟨⟨_, _, _, h4, h5⟩, _⟩ := SimulationAlgorithmBase.IterateShape_targets _ _
      (GraphAlgo.Iterate_shape_graph m a) hpol
    exact ⟨h4, h5⟩
  · intro m a w h d n_species n_reactions n_env mesh_x0 mesh_chstt mesh_env mesh_vol k sub sto
      r_env D boundary_conditions sample_n t_samples sampling_interval t_max time_step seed r hr
    obtain ⟨kr, hkr⟩ := GridAlgo.Init_base_grid m a w h d n_species n_reactions n_env mesh_x0
      mesh_chstt mesh_env mesh_vol k sub sto r_env D boundary_conditions sample_n t_samples 0
      sampling_interval t_max time_step seed
    rw [← hr] at hkr
    exact SimulationAlgorithmBase.init_count _ _ hkr rfl rfl rfl rfl
  · intro m a n_nodes n_species n_reactions n_env n_edges edge_i edge_j edge_sfc edge_dst mesh_x0
      mesh_chstt mesh_env mesh_vol k sub sto r_env D sample_n t_samples sampling_interval t_max
      time_step seed r hr
    obtain ⟨kr, hkr⟩ := GraphAlgo.Init_base_graphAlgo m a n_nodes n_species n_reactions n_env
      n_edges edge_i edge_j edge_sfc edge_dst mesh_x0 mesh_chstt mesh_env mesh_vol k sub sto
      r_env D sample_n t_samples 0 sampling_interval t_max time_step seed
    rw [← hr] at hkr
    exact SimulationAlgorithmBase.init_count _ _ hkr rfl rfl rfl rfl

/-- C7 amended, on the scenario with targets `[1/2, 3/2]` and `dt = 1`: after
two `Iterate` calls the two targets are consumed and two snapshots are
recorded, at times `1` and `2`; the first `Iterate` call moves `sample_pos`
and records one snapshot. -/
theorem C7_on_t_sample_snapshots_witness :
    SortedTargets [1 / 2, 3 / 2] 2 ∧
    ((fun a => (GridAlgo.Iterate scenarioLibm a).2)^[2]
      (targetsGrid [1 / 2, 3 / 2])).base.sampled_t = [1, 2] ∧
    (((fun a => (GridAlgo.Iterate scenarioLibm a).2)^[2]
        (targetsGrid [1 / 2, 3 / 2])).base.sampled_t.length ≤
      ((fun a => (GridAlgo.Iterate scenarioLibm a).2)^[2]
        (targetsGrid [1 / 2, 3 / 2])).base.sample_pos ∧
     ((fun a => (GridAlgo.Iterate scenarioLibm a).2)^[2]
        (targetsGrid [1 / 2, 3 / 2])).base.sample_pos ≤ 2 ∧
     ((fun a => (GridAlgo.Iterate scenarioLibm a).2)^[2]
        (targetsGrid [1 / 2, 3 / 2])).base.sample_pos = 2) ∧
    ((targetsGrid [1 / 2, 3 / 2]).base.sample_pos ≤
        ((targetsGrid [1 / 2, 3 / 2]).Iterate scenarioLibm).2.base.sample_pos ∧
      ((targetsGrid [1 / 2, 3 / 2]).Iterate scenarioLibm).2.base.sampled_t.length =
        (targetsGrid [1 / 2, 3 / 2]).base.sampled_t.length +
          (if (targetsGrid [1 / 2, 3 / 2]).base.sample_pos <
            ((targetsGrid [1 / 2, 3 / 2]).Iterate scenarioLibm).2.base.sample_pos then 1 else 0)) :=
  ⟨by decide!, by decide!,
   ⟨(C7_on_t_sample_snapshots.1 scenarioLibm (GridAlgo.euler Euler3D.new) 2 1 1 1 1 1 [100, 0]
      [0, 0] [0, 0] 1 [0] [1] [-1] [1] [1 / 10] [0, 0, 0] 2 [1 / 2, 3 / 2] 1 10 1 scenarioRng 2 _
      (by decide!) rfl).1,
    (C7_on_t_sample_snapshots.1 scenarioLibm (GridAlgo.euler Euler3D.new) 2 1 1 1 1 1 [100, 0]
      [0, 0] [0, 0] 1 [0] [1] [-1] [1] [1 / 10] [0, 0, 0] 2 [1 / 2, 3 / 2] 1 10 1 scenarioRng 2 _
      (by decide!) rfl).2.1,
    (C7_on_t_sample_snapshots.1 scenarioLibm (GridAlgo.euler Euler3D.new) 2 1 1 1 1 1 [100, 0]
      [0, 0] [0, 0] 1 [0] [1] [-1] [1] [1 / 10] [0, 0, 0] 2 [1 / 2, 3 / 2] 1 10 1 scenarioRng 2 _
      (by decide!) rfl).2.2.2 (by decide) (by decide!)⟩,
   C7_on_t_sample_snapshots.2.2.1 scenarioLibm (targetsGrid [1 / 2, 3 / 2]) (by decide!)⟩

/-! ## C8: at most one snapshot per iteration -/

namespace SimulationAlgorithmBase

/-- Any number of `Sample` calls: nothing happens, or the guard was unset and
one snapshot is appended. -/
theorem Sample_iterate_cases (b : SimulationAlgorithmBase) (n : Nat) :
    Sample^[n] b = b ∨
    (b.sampling_done_this_iteration = false ∧ Sample^[n] b =
      { b with sampled_mesh_x := b.sampled_mesh_x ++ [b.mesh_x],
               sampled_t := b.sampled_t ++ [b.t], sampling_done_this_iteration := true }) := by
  cases n with
  | zero => exact Or.inl rfl
  | succ n =>
    rw [Sample_iterate]
    cases hg : b.sampling_done_this_iteration
    · refine Or.inr ⟨rfl, ?_⟩
      rw [b.Sample_eq, hg]
      rfl
    · exact Or.inl (b.Sample_of_guard hg)

/-- After a call of the shape of `Iterate`, any number of `Sample` calls
leaves at most one snapshot more than before the call. -/
theorem IterateShape_once (b b1 : SimulationAlgorithmBase) (hsh : b.IterateShape b1) (n : Nat) :
    b.AtMostOneSnapshot (Sample^[n] b1) := by
  have hplain : ∀ b2 : SimulationAlgorithmBase, b2.sampled_t = b.sampled_t →
      b2.sampled_mesh_x = b.sampled_mesh_x → b.AtMostOneSnapshot (Sample^[n] b2) := by
    intro b2 h1 h2
    rcases b2.Sample_iterate_cases n with h | ⟨_, h⟩
    · rw [h]
      exact Or.inl ⟨h1, h2⟩
    · rw [h]
      refine Or.inr ⟨?_, ?_⟩
      · show b2.sampled_t ++ [b2.t] = b.sampled_t ++ [b2.t]
        rw [h1]
      · show b2.sampled_mesh_x ++ [b2.mesh_x] = b.sampled_mesh_x ++ [b2.mesh_x]
        rw [h2]
  rcases hsh with h | h | ⟨x, r, dt, t, h⟩
  · exact hplain b1 (by rw [h]) (by rw [h])
  · exact hplain b1 (by rw [h]) (by rw [h])
  · obtain ⟨c, hc⟩ := CheckTMax_frame (SamplingStep
      { b with mesh_x := x, rng := r, dt := dt, t := t, sampling_done_this_iteration := false })
    obtain ⟨g, p, l, hs⟩ := SamplingStep_once
      { b with mesh_x := x, rng := r, dt := dt, t := t, sampling_done_this_iteration := false }
    rcases hs with hs | ⟨_, hs⟩
    · exact hplain b1 (by rw [h, hc, hs]) (by rw [h, hc, hs])
    · have hb1 : b1 =
          { b with
            mesh_x := x, rng := r, dt := dt, t := t,
            sampled_mesh_x := b.sampled_mesh_x ++ [x], sampled_t := b.sampled_t ++ [t],
            sampling_done_this_iteration := true, sample_pos := p, last_tsi_ratio := l,
            complete := c } := by
        rw [h, hc, hs]
      rcases b1.Sample_iterate_cases n with h' | ⟨hg, _⟩
      · rw [h', hb1]
        exact Or.inr ⟨rfl, rfl⟩
      · rw [hb1] at hg
        exact absurd hg Bool.noConfusion

end SimulationAlgorithmBase

theorem GridAlgo.Sample_base (a : GridAlgo) :
    a.Sample.base.toSimulationAlgorithmBase = a.base.toSimulationAlgorithmBase.Sample := by
  cases a <;> rfl

theorem GraphAlgo.Sample_base_graph (a : GraphAlgo) :
    a.Sample.base.toSimulationAlgorithmBase = a.base.toSimulationAlgorithmBase.Sample := by
  cases a <;> rfl

theorem GridAlgo.Sample_iterate_base (n : Nat) (a : GridAlgo) :
    (GridAlgo.Sample^[n] a).base.toSimulationAlgorithmBase =
      SimulationAlgorithmBase.Sample^[n] a.base.toSimulationAlgorithmBase := by
  induction n with
  | zero => rfl
  | succ n ih =>
    rw [Function.iterate_succ_apply', Function.iterate_succ_apply', GridAlgo.Sample_base, ih]

theorem GraphAlgo.Sample_iterate_base_graph (n : Nat) (a : GraphAlgo) :
    (GraphAlgo.Sample^[n] a).base.toSimulationAlgorithmBase =
      SimulationAlgorithmBase.Sample^[n] a.base.toSimulationAlgorithmBase := by
  induction n with
  | zero => rfl
  | succ n ih =>
    rw [Function.iterate_succ_apply', Function.iterate_succ_apply', GraphAlgo.Sample_base_graph,
      ih]

/-- C8.  For every kernel of the grid and of the graph, every sampling policy
and every state, one `Iterate` call followed by any number `n` of `Sample`
calls leaves the trajectory unchanged or appends exactly one snapshot (the
time and state then current); and a `Sample` call leaves the object unchanged
when the guard is set, and otherwise appends `(t, mesh_x)` and sets the
guard. -/
theorem C8_one_snapshot_per_iteration :
    (∀ (m : Libm) (a : GridAlgo) (n : Nat),
      a.base.toSimulationAlgorithmBase.AtMostOneSnapshot
        (GridAlgo.Sample^[n] (a.Iterate m).2).base.toSimulationAlgorithmBase) ∧
    (∀ (m : Libm) (a : GraphAlgo) (n : Nat),
      a.base.toSimulationAlgorithmBase.AtMostOneSnapshot
        (GraphAlgo.Sample^[n] (a.Iterate m).2).base.toSimulationAlgorithmBase) ∧
    (∀ a : GridAlgo, a.Sample.base.toSimulationAlgorithmBase =
      (if a.base.sampling_done_this_iteration then a.base.toSimulationAlgorithmBase
       else { a.base.toSimulationAlgorithmBase with
              sampled_mesh_x := a.base.sampled_mesh_x ++ [a.base.mesh_x],
              sampled_t := a.base.sampled_t ++ [a.base.t],
              sampling_done_this_iteration := true })) ∧
    (∀ a : GraphAlgo, a.Sample.base.toSimulationAlgorithmBase =
      (if a.base.sampling_done_this_iteration then a.base.toSimulationAlgorithmBase
       else { a.base.toSimulationAlgorithmBase with
              sampled_mesh_x := a.base.sampled_mesh_x ++ [a.base.mesh_x],
              sampled_t := a.base.sampled_t ++ [a.base.t],
              sampling_done_this_iteration := true })) := by
  have hS : ∀ b : SimulationAlgorithmBase, b.Sample =
      (if b.sampling_done_this_iteration then b
       else { b with sampled_mesh_x := b.sampled_mesh_x ++ [b.mesh_x],
                     sampled_t := b.sampled_t ++ [b.t],
                     sampling_done_this_iteration := true }) := by
    intro b
    cases hg : b.sampling_done_this_iteration
    · rw [b.Sample_eq, hg]
      rfl
    · exact b.Sample_of_guard hg
  refine ⟨fun m a n => ?_, fun m a n => ?_, fun a => ?_, fun a => ?_⟩
  · rw [GridAlgo.Sample_iterate_base]
    exact SimulationAlgorithmBase.IterateShape_once _ _ (GridAlgo.Iterate_shape_grid m a) n
  · rw [GraphAlgo.Sample_iterate_base_graph]
    exact SimulationAlgorithmBase.IterateShape_once _ _ (GraphAlgo.Iterate_shape_graph m a) n
  · rw [GridAlgo.Sample_base]
    exact hS _
  · rw [GraphAlgo.Sample_base_graph]
    exact hS _

/-! ## The tests of the initialisers on their strings -/

theorem CompareStr_iff (a b : String) : CompareStr a b = true ↔ a = b := by
  unfold CompareStr
  exact beq_iff_eq

theorem boundaryCode_eq_none (s : String) :
    boundaryCode s = none ↔ (s ≠ "reflecting" ∧ s ≠ "periodical") := by
  unfold boundaryCode
  by_cases h1 : s = "reflecting"
  · rw [if_pos ((CompareStr_iff _ _).mpr h1)]
    exact ⟨fun h => Option.noConfusion h, fun h => absurd h1 h.1⟩
  · rw [if_neg (fun h => h1 ((CompareStr_iff _ _).mp h))]
    by_cases h2 : s = "periodical"
    · rw [if_pos ((CompareStr_iff _ _).mpr h2)]
      exact ⟨fun h => Option.noConfusion h, fun h => absurd h2 h.2⟩
    · rw [if_neg (fun h => h2 ((CompareStr_iff _ _).mp h))]
      exact ⟨fun _ => ⟨h1, h2⟩, fun _ => rfl⟩

theorem samplingPolicyCode_eq_none (s : String) :
    samplingPolicyCode s = none ↔
      (s ≠ "on_t_sample" ∧ s ≠ "on_iteration" ∧ s ≠ "on_interval" ∧ s ≠ "no_sampling") := by
  unfold samplingPolicyCode
  by_cases h1 : s = "on_t_sample"
  · rw [if_pos ((CompareStr_iff _ _).mpr h1)]
    exact ⟨fun h => Option.noConfusion h, fun h => absurd h1 h.1⟩
  · rw [if_neg (fun h => h1 ((CompareStr_iff _ _).mp h))]
    by_cases h2 : s = "on_iteration"
    · rw [if_pos ((CompareStr_iff _ _).mpr h2)]
      exact ⟨fun h => Option.noConfusion h, fun h => absurd h2 h.2.1⟩
    · rw [if_neg (fun h => h2 ((CompareStr_iff _ _).mp h))]
      by_cases h3 : s = "on_interval"
      · rw [if_pos ((CompareStr_iff _ _).mpr h3)]
        exact ⟨fun h => Option.noConfusion h, fun h => absurd h3 h.2.2.1⟩
      · rw [if_neg (fun h => h3 ((CompareStr_iff _ _).mp h))]
        by_cases h4 : s = "no_sampling"
        · rw [if_pos ((CompareStr_iff _ _).mpr h4)]
          exact ⟨fun h => Option.noConfusion h, fun h => absurd h4 h.2.2.2⟩
        · rw [if_neg (fun h => h4 ((CompareStr_iff _ _).mp h))]
          exact ⟨fun _ => ⟨h1, h2, h3, h4⟩, fun _ => rfl⟩

theorem newGridAlgo_eq_none (s : String) :
    newGridAlgo s = none ↔ (s ≠ "gillespie" ∧ s ≠ "tauleap" ∧ s ≠ "euler") := by
  unfold newGridAlgo
  by_cases h1 : s = "gillespie"
  · rw [if_pos ((CompareStr_iff _ _).mpr h1)]
    exact ⟨fun h => Option.noConfusion h, fun h => absurd h1 h.1⟩
  · rw [if_neg (fun h => h1 ((CompareStr_iff _ _).mp h))]
    by_cases h2 : s = "tauleap"
    · rw [if_pos ((CompareStr_iff _ _).mpr h2)]
      exact ⟨fun h => Option.noConfusion h, fun h => absurd h2 h.2.1⟩
    · rw [if_neg (fun h => h2 ((CompareStr_iff _ _).mp h))]
      by_cases h3 : s = "euler"
      · rw [if_pos ((CompareStr_iff _ _).mpr h3)]
        exact ⟨fun h => Option.noConfusion h, fun h => absurd h3 h.2.2⟩
      · rw [if_neg (fun h => h3 ((CompareStr_iff _ _).mp h))]
        exact ⟨fun _ => ⟨h1, h2, h3⟩, fun _ => rfl⟩

theorem newGraphAlgo_eq_none (s : String) :
    newGraphAlgo s = none ↔ (s ≠ "gillespie" ∧ s ≠ "tauleap" ∧ s ≠ "euler") := by
  unfold newGraphAlgo
  by_cases h1 : s = "gillespie"
  · rw [if_pos ((CompareStr_iff _ _).mpr h1)]
    exact ⟨fun h => Option.noConfusion h, fun h => absurd h1 h.1⟩
  · rw [if_neg (fun h => h1 ((CompareStr_iff _ _).mp h))]
    by_cases h2 : s = "tauleap"
    · rw [if_pos ((CompareStr_iff _ _).mpr h2)]
      exact ⟨fun h => Option.noConfusion h, fun h => absurd h2 h.2.1⟩
    · rw [if_neg (fun h => h2 ((CompareStr_iff _ _).mp h))]
      by_cases h3 : s = "euler"
      · rw [if_pos ((CompareStr_iff _ _).mpr h3)]
        exact ⟨fun h => Option.noConfusion h, fun h => absurd h3 h.2.2⟩
      · rw [if_neg (fun h => h3 ((CompareStr_iff _ _).mp h))]
        exact ⟨fun _ => ⟨h1, h2, h3⟩, fun _ => rfl⟩

/-- With the option `euler` the initial state is computed without a loop. -/
theorem initialMeshX_euler (fuel : Nat) (mesh_state : List ℚ) (n_meshes n_species : Nat)
    (seed : Rng) :
    initialMeshX fuel "euler" mesh_state n_meshes n_species seed =
      some (SpeciesFirstToMeshFirstArray
        (MkVec (fun q : ℚ => q) mesh_state (n_meshes * n_species)) n_species n_meshes) := by
  unfold initialMeshX
  have h : (CompareStr "euler" "tauleap" || CompareStr "euler" "gillespie") = false := by decide
  simp only [h]
  rfl

/-! ## The two layouts -/

/-- Two vectors of the same length with the same reads are equal. -/
theorem list_ext_rd {α : Type} [Zero α] (u v : List α) (hl : u.length = v.length)
    (h : ∀ c, c < u.length → rd u c = rd v c) : u = v := by
  refine List.ext_getElem hl (fun c h1 h2 => ?_)
  have := h c h1
  unfold rd at this
  rw [List.getD_eq_getElem?_getD, List.getD_eq_getElem?_getD, List.getElem?_eq_getElem h1,
    List.getElem?_eq_getElem h2] at this
  exact this

/-- Two nested loops of writes keep the length. -/
theorem forLoop_wr_length {α : Type} (n1 n2 : Nat) (idx : Nat → Nat → Nat)
    (val : Nat → Nat → List α → α) (v : List α) :
    (forLoop n1 (fun a v => forLoop n2 (fun b v => wr v (idx a b) (val a b v)) v) v).length =
      v.length := by
  refine forLoop_preserve (fun v : List α => v.length) _ _ _ (fun a _ v => ?_)
  refine forLoop_preserve (fun v : List α => v.length) _ _ _ (fun b _ v => ?_)
  exact length_wr _ _ _

/-- The loops of `SpeciesFirstToMeshFirstArray`: cell `i * ns + s` receives
the value of round `(s, i)`. -/
theorem forLoop_transpose {α : Type} [Zero α] (ns nm : Nat) (val : Nat → Nat → α) (v : List α)
    (hlen : nm * ns ≤ v.length) (i0 s0 : Nat) (hi : i0 < nm) (hs : s0 < ns) :
    rd (forLoop ns (fun s v => forLoop nm (fun i v => wr v (i * ns + s) (val s i)) v) v)
      (i0 * ns + s0) = val s0 i0 := by
  have key := (forLoop_cells (fun (v : List α) f => rd v f) (fun v => nm * ns ≤ v.length)
    (fun s f => s < ns ∧ ∃ i, i < nm ∧ f = i * ns + s)
    (fun f a => ∀ i s, i < nm → s < ns → f = i * ns + s → a = val s i) ns
    (fun s v => forLoop nm (fun i v => wr v (i * ns + s) (val s i)) v) v hlen ?_ ?_).2
    s0 hs (i0 * ns + s0) ⟨hs, i0, hi, rfl⟩
  · exact key i0 s0 hi hs rfl
  · rintro a b f _ _ ⟨ha, i1, _, e1⟩ ⟨hb, i2, _, e2⟩
    exact (flat_index_inj ha hb (e1.symm.trans e2)).2
  · intro s hs' v hv
    have hinner := forLoop_cells (fun (v : List α) f => rd v f) (fun v => nm * ns ≤ v.length)
      (fun i f => f = i * ns + s)
      (fun f a => ∀ i s, i < nm → s < ns → f = i * ns + s → a = val s i) nm
      (fun i v => wr v (i * ns + s) (val s i)) v hv
      (fun a b f _ _ e1 e2 => by
        have := (flat_index_inj hs' hs' (e1.symm.trans e2)).1
        exact this)
      (fun i hi' v hv => by
        refine ⟨?_, ?_, ?_⟩
        · show nm * ns ≤ (wr v (i * ns + s) (val s i)).length
          rw [length_wr]
          exact hv
        · rintro f rfl i1 s1 hi1 hs1 e
          obtain ⟨e1, e2⟩ := flat_index_inj hs' hs1 e
          subst e1; subst e2
          exact rd_wr_self _ _ (lt_of_lt_of_le (flat_index_lt hi' hs') hv)
        · intro f hf
          exact rd_wr_ne _ _ (fun e => hf e.symm))
    refine ⟨hinner.1, ?_, ?_⟩
    · rintro f ⟨_, i1, hi1, rfl⟩
      exact hinner.2 i1 hi1 _ rfl
    · intro f hf
      refine forLoop_preserve (fun v : List α => rd v f) _ _ _ (fun i hi' v => ?_)
      exact rd_wr_ne _ _ (fun e => hf ⟨hs', i, hi', e.symm⟩)

/-- Template `MkVec` with the identity conversion copies a vector of the given
length. -/
theorem MkVec_id (a : List ℚ) (len : Nat) (h : a.length = len) :
    MkVec (fun q : ℚ => q) a len = a := by
  have hl : (MkVec (fun q : ℚ => q) a len).length = a.length := by
    unfold MkVec
    rw [forLoop_preserve (fun v : List ℚ => v.length) _ _ _ (fun i _ v => length_wr _ _ _),
      List.length_replicate, h]
  refine list_ext_rd _ _ hl (fun c hc => ?_)
  rw [hl, h] at hc
  unfold MkVec
  exact forLoop_update len (fun c _ => rd a c) (List.replicate len 0)
    (by rw [List.length_replicate]) c hc

/-- The round trip of the two layouts: `SpeciesFirstToMeshFirstArray`, then
the loops of `GetState`, give the array back. -/
theorem copyState_SpeciesFirstToMeshFirstArray (n_species n_meshes : Nat) (a buf : List ℚ)
    (ha : a.length = n_species * n_meshes) (hb : buf.length = n_species * n_meshes) :
    copyState (SpeciesFirstToMeshFirstArray a n_species n_meshes) n_species n_meshes buf = a := by
  have hl : (copyState (SpeciesFirstToMeshFirstArray a n_species n_meshes) n_species n_meshes
      buf).length = a.length := by
    unfold copyState
    rw [forLoop_wr_length n_species n_meshes (fun s i => s * n_meshes + i), hb, ha]
  refine list_ext_rd _ _ hl (fun c hc => ?_)
  rw [hl, ha] at hc
  have hnm : 0 < n_meshes := by
    rcases Nat.eq_zero_or_pos n_meshes with h | h
    · rw [h, Nat.mul_zero] at hc
      exact absurd hc (Nat.not_lt_zero _)
    · exact h
  have hs : c / n_meshes < n_species := by
    rw [Nat.div_lt_iff_lt_mul hnm]
    exact hc
  have hi : c % n_meshes < n_meshes := Nat.mod_lt _ hnm
  have hcd : c = c / n_meshes * n_meshes + c % n_meshes := (Nat.div_add_mod' c n_meshes).symm
  have h1 : rd (copyState (SpeciesFirstToMeshFirstArray a n_species n_meshes) n_species n_meshes
      buf) (c / n_meshes * n_meshes + c % n_meshes) =
      rd (SpeciesFirstToMeshFirstArray a n_species n_meshes)
        (c % n_meshes * n_species + c / n_meshes) := by
    unfold copyState
    exact forLoop_update_cells n_species n_meshes
      (fun s i _ => rd (SpeciesFirstToMeshFirstArray a n_species n_meshes) (i * n_species + s))
      buf (by rw [hb]) (c / n_meshes) (c % n_meshes) hs hi
  have h2 : rd (SpeciesFirstToMeshFirstArray a n_species n_meshes)
      (c % n_meshes * n_species + c / n_meshes) =
      rd a (c / n_meshes * n_meshes + c % n_meshes) := by
    unfold SpeciesFirstToMeshFirstArray
    exact forLoop_transpose n_species n_meshes (fun s i => rd a (s * n_meshes + i))
      (List.replicate a.length 0)
      (by rw [List.length_replicate, ha, Nat.mul_comm]) (c % n_meshes) (c / n_meshes) hi hs
  rw [← hcd] at h1 h2
  rw [h1, h2]

/-- After `Init` on a grid object the state is the one passed to `Init`, with
the sizes passed to `Init`. -/
theorem GridAlgo.Init_state (m : Libm) (a : GridAlgo)
    (w h d n_species n_reactions n_env : Nat) (mesh_x0 : List ℚ) (mesh_chstt mesh_env : List Int)
    (mesh_vol : ℚ) (k sub sto r_env D : List ℚ) (boundary_conditions : List Int) (sample_n : Nat)
    (t_samples : List ℚ) (sampling_policy_code : Int) (sampling_interval t_max time_step : ℚ)
    (seed : Rng) (r : GridAlgo)
    (hr : r = a.Init m w h d n_species n_reactions n_env mesh_x0 mesh_chstt mesh_env mesh_vol k
      sub sto r_env D boundary_conditions sample_n t_samples sampling_policy_code
      sampling_interval t_max time_step seed) :
    r.base.mesh_x = mesh_x0 ∧ r.base.n_species = n_species ∧ r.base.n_meshes = w * h * d := by
  obtain ⟨kr, hkr⟩ := GridAlgo.Init_base_grid m a w h d n_species n_reactions n_env mesh_x0
    mesh_chstt mesh_env mesh_vol k sub sto r_env D boundary_conditions sample_n t_samples
    sampling_policy_code sampling_interval t_max time_step seed
  rw [← hr] at hkr
  obtain ⟨sx, st, g, p, l, hf⟩ := SimulationAlgorithmBase.SamplingStep_frame
    { n_meshes := w * h * d, n_species := n_species, n_reactions := n_reactions,
      n_env := n_env, mesh_x := mesh_x0, mesh_chstt := mesh_chstt, mesh_env := mesh_env,
      sto := sto, sub := sub, mesh_kr := kr, n_samples := sample_n, sample_pos := 0,
      t_samples := t_samples, sampled_mesh_x := [], sampled_t := [],
      sampling_policy_code := sampling_policy_code, sampling_interval := sampling_interval,
      t_max := t_max, sampling_done_this_iteration := false, last_tsi_ratio := -1, t := 0,
      dt := time_step, complete := false, rng := seed }
  rw [hf] at hkr
  exact ⟨by rw [hkr], by rw [hkr], by rw [hkr]⟩

/-- After `Init` on a graph object the state is the one passed to `Init`, with
the sizes passed to `Init`. -/
theorem GraphAlgo.Init_state_graph (m : Libm) (a : GraphAlgo)
    (n_nodes n_species n_reactions n_env n_edges : Nat) (edge_i edge_j : List Nat)
    (edge_sfc edge_dst : List ℚ) (mesh_x0 : List ℚ) (mesh_chstt mesh_env : List Int)
    (mesh_vol : List ℚ) (k sub sto r_env D : List ℚ) (sample_n : Nat) (t_samples : List ℚ)
    (sampling_policy_code : Int) (sampling_interval t_max time_step : ℚ) (seed : Rng)
    (r : GraphAlgo)
    (hr : r = a.Init m n_nodes n_species n_reactions n_env n_edges edge_i edge_j edge_sfc edge_dst
      mesh_x0 mesh_chstt mesh_env mesh_vol k sub sto r_env D sample_n t_samples
      sampling_policy_code sampling_interval t_max time_step seed) :
    r.base.mesh_x = mesh_x0 ∧ r.base.n_species = n_species ∧ r.base.n_meshes = n_nodes := by
  obtain ⟨kr, hkr⟩ := GraphAlgo.Init_base_graphAlgo m a n_nodes n_species n_reactions n_env
    n_edges edge_i edge_j edge_sfc edge_dst mesh_x0 mesh_chstt mesh_env mesh_vol k sub sto r_env
    D sample_n t_samples sampling_policy_code sampling_interval t_max time_step seed
  rw [← hr] at hkr
  obtain ⟨sx, st, g, p, l, hf⟩ := SimulationAlgorithmBase.SamplingStep_frame
    { n_meshes := n_nodes, n_species := n_species, n_reactions := n_reactions,
      n_env := n_env, mesh_x := mesh_x0, mesh_chstt := mesh_chstt, mesh_env := mesh_env,
      sto := sto, sub := sub, mesh_kr := kr, n_samples := sample_n, sample_pos := 0,
      t_samples := t_samples, sampled_mesh_x := [], sampled_t := [],
      sampling_policy_code := sampling_policy_code, sampling_interval := sampling_interval,
      t_max := t_max, sampling_done_this_iteration := false, last_tsi_ratio := -1, t := 0,
      dt := time_step, complete := false, rng := seed }
  rw [hf] at hkr
  exact ⟨by rw [hkr], by rw [hkr], by rw [hkr]⟩

theorem newGridAlgo_euler : newGridAlgo "euler" = some (GridAlgo.euler Euler3D.new) := by
  unfold newGridAlgo
  have h1 : CompareStr "euler" "gillespie" = false := by decide
  have h2 : CompareStr "euler" "tauleap" = false := by decide
  have h3 : CompareStr "euler" "euler" = true := by decide
  simp only [h1, h2, h3]
  rfl

theorem newGraphAlgo_euler : newGraphAlgo "euler" = some (GraphAlgo.euler EulerGraph.new) := by
  unfold newGraphAlgo
  have h1 : CompareStr "euler" "gillespie" = false := by decide
  have h2 : CompareStr "euler" "tauleap" = false := by decide
  have h3 : CompareStr "euler" "euler" = true := by decide
  simp only [h1, h2, h3]
  rfl

theorem boundaryCode_valid (s : String) (h : s = "reflecting" ∨ s = "periodical") :
    ∃ c, boundaryCode s = some c := by
  rcases h with h | h <;> rw [h]
  · exact ⟨0, by decide⟩
  · exact ⟨1, by decide⟩

theorem samplingPolicyCode_valid (s : String)
    (h : s = "on_t_sample" ∨ s = "on_iteration" ∨ s = "on_interval" ∨ s = "no_sampling") :
    ∃ c, samplingPolicyCode s = some c := by
  rcases h with h | h | h | h <;> rw [h]
  · exact ⟨0, by decide⟩
  · exact ⟨1, by decide⟩
  · exact ⟨2, by decide⟩
  · exact ⟨3, by decide⟩

/-! ## The neighbour table of the grid -/

theorem tmod_add_self (w c : Int) (h0 : 0 ≤ c) (h1 : c < w) : Int.tmod (w + c) w = c := by
  rw [Int.tmod_eq_emod (by omega) (by omega), Int.add_emod_self_left, Int.emod_eq_of_lt h0 h1]

theorem tmod_self_add_self (w : Int) (h1 : 0 < w) : Int.tmod (w + w) w = 0 := by
  rw [Int.tmod_eq_emod (by omega) (by omega), Int.add_emod_self_left, Int.emod_self]

/-- Moving by `δ` and then by `-δ` on one axis comes back, when both
coordinates are in range. -/
theorem axisStep_back (per : Prop) [Decidable per] (w c δ : Int)
    (hδ : δ = 1 ∨ δ = -1 ∨ δ = 0) (hc0 : 0 ≤ c) (hc1 : c < w) :
    axisStep per w (axisStep per w c δ) (-δ) = c := by
  unfold axisStep
  by_cases hp : per
  · rw [if_pos hp, if_pos hp]
    rcases hδ with h | h | h <;> subst h
    · by_cases hw : c + 1 < w
      · rw [tmod_add_self w (c + 1) (by omega) hw]
        have : w + (c + 1 + -1) = w + c := by ring
        rw [this, tmod_add_self w c hc0 hc1]
      · have hcw : c + 1 = w := by omega
        rw [hcw, tmod_self_add_self w (by omega)]
        have : w + (0 + -1) = w - 1 := by ring
        rw [this, Int.tmod_eq_of_lt (by omega) (by omega)]
        omega
    · by_cases hw : 1 ≤ c
      · rw [tmod_add_self w (c + -1) (by omega) (by omega)]
        have : w + (c + -1 + - -1) = w + c := by ring
        rw [this, tmod_add_self w c hc0 hc1]
      · have hcw : c = 0 := by omega
        subst hcw
        have e1 : w + (0 + -1) = w - 1 := by ring
        rw [e1, Int.tmod_eq_of_lt (by omega : (0 : Int) ≤ w - 1) (by omega)]
        have e2 : w + (w - 1 + - -1) = w + w := by ring
        rw [e2, tmod_self_add_self w (by omega)]
    · have e1 : w + (c + 0) = w + c := by ring
      rw [e1, tmod_add_self w c hc0 hc1]
      have e2 : w + (c + -0) = w + c := by ring
      rw [e2, tmod_add_self w c hc0 hc1]
  · rw [if_neg hp, if_neg hp]
    ring

theorem GetNeighborIndex_eq (w h d : Nat) (bc : List Int) (x y z : Int) (n : Nat) :
    SimulationAlgorithm3DBase.GetNeighborIndex w h d bc x y z n =
      (if axisStep (rd bc 0 = 1) w x (dirDelta 0 n) ≥ 0 ∧ axisStep (rd bc 0 = 1) w x (dirDelta 0 n) < w ∧
          axisStep (rd bc 1 = 1) h y (dirDelta 1 n) ≥ 0 ∧ axisStep (rd bc 1 = 1) h y (dirDelta 1 n) < h ∧
          axisStep (rd bc 2 = 1) d z (dirDelta 2 n) ≥ 0 ∧ axisStep (rd bc 2 = 1) d z (dirDelta 2 n) < d
       then w * h * axisStep (rd bc 2 = 1) d z (dirDelta 2 n) +
          w * axisStep (rd bc 1 = 1) h y (dirDelta 1 n) + axisStep (rd bc 0 = 1) w x (dirDelta 0 n)
       else -1) := by
  have ex : (if n = 0 then x + 1 else if n = 1 then x - 1 else x) = x + dirDelta 0 n := by
    unfold dirDelta
    split_ifs <;> first | rfl | ring
  have ey : (if n = 2 then y + 1 else if n = 3 then y - 1 else y) = y + dirDelta 1 n := by
    unfold dirDelta
    split_ifs <;> first | rfl | ring
  have ez : (if n = 4 then z + 1 else if n = 5 then z - 1 else z) = z + dirDelta 2 n := by
    unfold dirDelta
    split_ifs <;> first | rfl | ring
  unfold SimulationAlgorithm3DBase.GetNeighborIndex axisStep
  simp only [ex, ey, ez]

theorem dirDelta_opposed (a n : Nat) (ha : a < 3) (hn : n < 6) :
    dirDelta a (rd [1, 0, 3, 2, 5, 4] n) = -dirDelta a n := by
  interval_cases n <;> interval_cases a <;> decide

theorem dirDelta_cases (a n : Nat) : dirDelta a n = 1 ∨ dirDelta a n = -1 ∨ dirDelta a n = 0 := by
  unfold dirDelta
  split_ifs
  · exact Or.inl rfl
  · exact Or.inr (Or.inl rfl)
  · exact Or.inr (Or.inr rfl)

theorem meshIndex_lt {w h d X Y Z : Nat} (hX : X < w) (hY : Y < h) (hZ : Z < d) :
    meshIndex w h X Y Z < w * h * d := by
  unfold meshIndex
  have h1 : w * Y + X < w * h := by
    calc w * Y + X < w * Y + w := by omega
      _ = w * (Y + 1) := by ring
      _ ≤ w * h := Nat.mul_le_mul_left w hY
  calc w * h * Z + w * Y + X < w * h * Z + w * h := by omega
    _ = w * h * (Z + 1) := by ring
    _ ≤ w * h * d := Nat.mul_le_mul_left (w * h) hZ

theorem meshIndex_coords {w h X Y Z : Nat} (hX : X < w) (hY : Y < h) :
    meshIndex w h X Y Z % w = X ∧ meshIndex w h X Y Z % (w * h) / w = Y ∧
      meshIndex w h X Y Z / (w * h) = Z := by
  unfold meshIndex
  have hw : 0 < w := by omega
  have hh : 0 < h := by omega
  have hwh : 0 < w * h := Nat.mul_pos hw hh
  have h1 : w * Y + X < w * h := by
    calc w * Y + X < w * Y + w := by omega
      _ = w * (Y + 1) := by ring
      _ ≤ w * h := Nat.mul_le_mul_left w hY
  refine ⟨?_, ?_, ?_⟩
  · have : w * h * Z + w * Y + X = w * (h * Z + Y) + X := by ring
    rw [this, Nat.mul_add_mod, Nat.mod_eq_of_lt hX]
  · have : w * h * Z + w * Y + X = w * h * Z + (w * Y + X) := by ring
    rw [this, Nat.mul_add_mod, Nat.mod_eq_of_lt h1, Nat.mul_add_div hw, Nat.div_eq_of_lt hX,
      Nat.add_zero]
  · have : w * h * Z + w * Y + X = w * h * Z + (w * Y + X) := by ring
    rw [this, Nat.mul_add_div hwh, Nat.div_eq_of_lt h1, Nat.add_zero]

theorem coords_meshIndex {w h d i : Nat} (hi : i < w * h * d) :
    i % w < w ∧ i % (w * h) / w < h ∧ i / (w * h) < d ∧
      meshIndex w h (i % w) (i % (w * h) / w) (i / (w * h)) = i := by
  have hwh : 0 < w * h := by
    rcases Nat.eq_zero_or_pos (w * h) with h0 | h0
    · rw [h0, Nat.zero_mul] at hi
      exact absurd hi (Nat.not_lt_zero _)
    · exact h0
  have hw : 0 < w := Nat.pos_of_mul_pos_right hwh
  refine ⟨Nat.mod_lt _ hw, ?_, ?_, ?_⟩
  · rw [Nat.div_lt_iff_lt_mul hw, Nat.mul_comm h w]
    exact Nat.mod_lt _ hwh
  · rw [Nat.div_lt_iff_lt_mul hwh, Nat.mul_comm d (w * h)]
    exact hi
  · unfold meshIndex
    have e1 : i % (w * h) % w = i % w := Nat.mod_mul_right_mod i w h
    have e2 := Nat.div_add_mod (i % (w * h)) w
    have e3 := Nat.div_add_mod i (w * h)
    rw [e1] at e2
    omega

theorem GetNeighborIndex_back (w h d : Nat) (bc : List Int) (X Y Z n : Nat) (hX : X < w)
    (hY : Y < h) (hZ : Z < d) (hn : n < 6)
    (hne : SimulationAlgorithm3DBase.GetNeighborIndex w h d bc X Y Z n ≠ -1) :
    ∃ X1 Y1 Z1 : Nat, X1 < w ∧ Y1 < h ∧ Z1 < d ∧
      SimulationAlgorithm3DBase.GetNeighborIndex w h d bc X Y Z n = ((meshIndex w h X1 Y1 Z1 : Nat) : Int) ∧
      SimulationAlgorithm3DBase.GetNeighborIndex w h d bc X1 Y1 Z1 (rd [1, 0, 3, 2, 5, 4] n) =
        ((meshIndex w h X Y Z : Nat) : Int) := by
  rw [GetNeighborIndex_eq] at hne ⊢
  by_cases hin : axisStep (rd bc 0 = 1) w X (dirDelta 0 n) ≥ 0 ∧
      axisStep (rd bc 0 = 1) w X (dirDelta 0 n) < w ∧
      axisStep (rd bc 1 = 1) h Y (dirDelta 1 n) ≥ 0 ∧
      axisStep (rd bc 1 = 1) h Y (dirDelta 1 n) < h ∧
      axisStep (rd bc 2 = 1) d Z (dirDelta 2 n) ≥ 0 ∧
      axisStep (rd bc 2 = 1) d Z (dirDelta 2 n) < d
  · rw [if_pos hin]
    obtain ⟨x0, x1, y0, y1, z0, z1⟩ := hin
    have bx := axisStep_back (rd bc 0 = 1) w X (dirDelta 0 n) (dirDelta_cases 0 n)
      (by omega) (by omega)
    have b_y := axisStep_back (rd bc 1 = 1) h Y (dirDelta 1 n) (dirDelta_cases 1 n)
      (by omega) (by omega)
    have bz := axisStep_back (rd bc 2 = 1) d Z (dirDelta 2 n) (dirDelta_cases 2 n)
      (by omega) (by omega)
    obtain ⟨X1, hX1⟩ := Int.eq_ofNat_of_zero_le x0
    obtain ⟨Y1, hY1⟩ := Int.eq_ofNat_of_zero_le y0
    obtain ⟨Z1, hZ1⟩ := Int.eq_ofNat_of_zero_le z0
    rw [hX1] at x1 bx
    rw [hY1] at y1 b_y
    rw [hZ1] at z1 bz
    rw [hX1, hY1, hZ1]
    refine ⟨X1, Y1, Z1, by omega, by omega, by omega, ?_, ?_⟩
    · unfold meshIndex
      push_cast
      ring
    · rw [GetNeighborIndex_eq, dirDelta_opposed 0 n (by omega) hn,
        dirDelta_opposed 1 n (by omega) hn, dirDelta_opposed 2 n (by omega) hn, bx, b_y, bz]
      rw [if_pos ⟨by omega, by omega, by omega, by omega, by omega, by omega⟩]
      unfold meshIndex
      push_cast
      ring
  · rw [if_neg hin] at hne
    exact absurd rfl hne


namespace SimulationAlgorithm3DBase

/-- The cell of `mesh_neighbors` that `BuildMeshNeighbors` fills for mesh `i`
and direction `n`. -/
theorem BuildMeshNeighbors_cell (w h d : Nat) (bc : List Int) (i n : Nat) (hi : i < w * h * d)
    (hn : n < 6) :
    rd (BuildMeshNeighbors w h d bc) (i * 6 + n) =
      GetNeighborIndex w h d bc ((i % w : Nat) : Int) ((i % (w * h) / w : Nat) : Int)
        ((i / (w * h) : Nat) : Int) n := by
  unfold BuildMeshNeighbors
  exact forLoop_update_cells (w * h * d) 6
    (fun i n (_ : Int) => GetNeighborIndex w h d bc ((i % w : Nat) : Int)
      ((i % (w * h) / w : Nat) : Int) ((i / (w * h) : Nat) : Int) n)
    (List.replicate (w * h * d * 6) 0) (by rw [List.length_replicate]) i n hi hn

/-- The neighbour table that `Init` builds pairs the faces. -/
theorem FacesPaired_of_built (b : SimulationAlgorithm3DBase)
    (hnb : b.mesh_neighbors = BuildMeshNeighbors b.w b.h b.d b.boundary_conditions)
    (hnm : b.n_meshes = b.w * b.h * b.d) (hopp : b.opposed_direction = [1, 0, 3, 2, 5, 4]) :
    b.FacesPaired := by
  intro i hi n hn hne
  rw [hnm] at hi
  rw [hnb, BuildMeshNeighbors_cell _ _ _ _ i n hi hn] at hne
  obtain ⟨cx, cy, cz, henc⟩ := coords_meshIndex hi
  obtain ⟨X1, Y1, Z1, hX1, hY1, hZ1, hfwd, hback⟩ :=
    GetNeighborIndex_back b.w b.h b.d b.boundary_conditions _ _ _ n cx cy cz hn hne
  obtain ⟨dx, dy, dz⟩ := meshIndex_coords (Z := Z1) hX1 hY1
  have hj : rd b.mesh_neighbors (i * 6 + n) = ((meshIndex b.w b.h X1 Y1 Z1 : Nat) : Int) := by
    rw [hnb, BuildMeshNeighbors_cell _ _ _ _ i n hi hn]
    exact hfwd
  have ho : rd b.opposed_direction n < 6 := by
    rw [hopp]
    interval_cases n <;> decide
  have hoo : rd b.opposed_direction (rd b.opposed_direction n) = n := by
    rw [hopp]
    interval_cases n <;> decide
  rw [hj, Int.toNat_natCast, hnm]
  refine ⟨Int.natCast_nonneg _, meshIndex_lt hX1 hY1 hZ1, ho, hoo, ?_⟩
  rw [hnb, BuildMeshNeighbors_cell _ _ _ _ _ _ (meshIndex_lt hX1 hY1 hZ1) ho, dx, dy, dz, hopp,
    hback, henc]

end SimulationAlgorithm3DBase

/-! ## The neighbour tables of the graph -/

theorem rdRow_pushRow {α : Type} (T : List (List α)) (i j : Nat) (x : α) (hi : i < T.length) :
    rdRow (pushRow T i x) j = if i = j then rdRow T j ++ [x] else rdRow T j := by
  unfold pushRow
  rw [rdRow_wr]
  by_cases h : i = j
  · subst h
    rw [if_pos ⟨rfl, hi⟩, if_pos rfl]
  · rw [if_neg (fun hc => h hc.1), if_neg h]

theorem length_pushRow {α : Type} (T : List (List α)) (i : Nat) (x : α) :
    (pushRow T i x).length = T.length := by
  unfold pushRow
  exact length_wr _ _ _

/-- Two `push_back` calls, on rows `a` and `c`: the lengths of the rows, the
cells already there, and the two new cells. -/
theorem pushRow_pushRow {α : Type} [Zero α] (T : List (List α)) (a c : Nat) (x y : α)
    (ha : a < T.length) (hc : c < T.length) :
    (pushRow (pushRow T a x) c y).length = T.length ∧
    (∀ j, (rdRow (pushRow (pushRow T a x) c y) j).length =
      (rdRow T j).length + (if a = j then 1 else 0) + (if c = j then 1 else 0)) ∧
    (∀ j n, n < (rdRow T j).length →
      rd (rdRow (pushRow (pushRow T a x) c y) j) n = rd (rdRow T j) n) ∧
    rd (rdRow (pushRow (pushRow T a x) c y) a) (rdRow T a).length = x ∧
    rd (rdRow (pushRow (pushRow T a x) c y) c)
      ((rdRow T c).length + (if a = c then 1 else 0)) = y := by
  have hc1 : c < (pushRow T a x).length := by rw [length_pushRow]; exact hc
  have hrow : ∀ j, rdRow (pushRow (pushRow T a x) c y) j =
      if c = j then (if a = j then rdRow T j ++ [x] else rdRow T j) ++ [y]
      else (if a = j then rdRow T j ++ [x] else rdRow T j) := by
    intro j
    rw [rdRow_pushRow _ _ _ _ hc1, rdRow_pushRow _ _ _ _ ha]
  refine ⟨by rw [length_pushRow, length_pushRow], fun j => ?_, fun j n hn => ?_, ?_, ?_⟩
  · rw [hrow]
    by_cases h1 : c = j <;> by_cases h2 : a = j <;>
      simp only [h1, h2, if_true, if_false, List.length_append, List.length_singleton,
        Nat.add_zero]
  · rw [hrow]
    by_cases h1 : c = j <;> by_cases h2 : a = j <;>
      simp only [h1, h2, if_true, if_false]
    · rw [rd_append_left _ _ (by rw [List.length_append]; omega), rd_append_left _ _ hn]
    · rw [rd_append_left _ _ hn]
    · rw [rd_append_left _ _ hn]
  · rw [hrow]
    by_cases h1 : c = a
    · rw [if_pos h1, if_pos rfl,
        rd_append_left _ _ (by rw [List.length_append, List.length_singleton]; omega),
        rd_append_length]
    · rw [if_neg h1, if_pos rfl, rd_append_length]
  · rw [hrow, if_pos rfl]
    by_cases h2 : a = c
    · rw [if_pos h2, if_pos h2]
      have : (rdRow T c).length + 1 = (rdRow T c ++ [x]).length := by
        rw [List.length_append, List.length_singleton]
      rw [this, rd_append_length]
    · rw [if_neg h2, if_neg h2, Nat.add_zero, rd_append_length]

theorem rd_wr_wr_count (nn : List Nat) (a c j : Nat) (ha : a < nn.length) (hc : c < nn.length) :
    rd (wr (wr nn a (rd nn a + 1)) c (rd (wr nn a (rd nn a + 1)) c + 1)) j =
      rd nn j + (if a = j then 1 else 0) + (if c = j then 1 else 0) := by
  have hc1 : c < (wr nn a (rd nn a + 1)).length := by rw [length_wr]; exact hc
  by_cases h1 : c = j
  · subst h1
    rw [rd_wr_self _ _ hc1, if_pos rfl]
    by_cases h2 : a = c
    · subst h2
      rw [rd_wr_self _ _ ha, if_pos rfl]
    · rw [rd_wr_ne _ _ h2, if_neg h2]
  · rw [rd_wr_ne _ _ h1, if_neg h1]
    by_cases h2 : a = j
    · subst h2
      rw [rd_wr_self _ _ ha, if_pos rfl]
    · rw [rd_wr_ne _ _ h2, if_neg h2]
      rfl

/-- One edge more keeps the tables paired. -/
theorem AdjacencyPaired.step (nm : Nat) (nn : List Nat) (idx : List (List Nat))
    (sfc dst : List (List ℚ)) (back : Nat → Nat → Nat)
    (hp : AdjacencyPaired nm nn idx sfc dst back) (a c : Nat) (ha : a < nm) (hc : c < nm)
    (s d : ℚ) :
    ∃ back1, AdjacencyPaired nm
      (wr (wr nn a (rd nn a + 1)) c (rd (wr nn a (rd nn a + 1)) c + 1))
      (pushRow (pushRow idx a c) c a) (pushRow (pushRow sfc a s) c s)
      (pushRow (pushRow dst a d) c d) back1 := by
  obtain ⟨l1, l2, l3, l4, hN, hP⟩ := hp
  obtain ⟨i1, i2, i3, i4, i5⟩ := pushRow_pushRow idx a c c a (by omega) (by omega)
  obtain ⟨s1, s2, s3, s4, s5⟩ := pushRow_pushRow sfc a c s s (by omega) (by omega)
  obtain ⟨d1, d2, d3, d4, d5⟩ := pushRow_pushRow dst a c d d (by omega) (by omega)
  rw [(hN a ha).2.1] at s4
  rw [(hN c hc).2.1] at s5
  rw [(hN a ha).2.2] at d4
  rw [(hN c hc).2.2] at d5
  have hnn := fun j => rd_wr_wr_count nn a c j (by omega) (by omega)
  obtain ⟨nn1, hnn1⟩ : ∃ t, t = wr (wr nn a (rd nn a + 1)) c (rd (wr nn a (rd nn a + 1)) c + 1) :=
    ⟨_, rfl⟩
  obtain ⟨idx1, hidx1⟩ : ∃ t, t = pushRow (pushRow idx a c) c a := ⟨_, rfl⟩
  obtain ⟨sfc1, hsfc1⟩ : ∃ t, t = pushRow (pushRow sfc a s) c s := ⟨_, rfl⟩
  obtain ⟨dst1, hdst1⟩ : ∃ t, t = pushRow (pushRow dst a d) c d := ⟨_, rfl⟩
  obtain ⟨La, hLa⟩ : ∃ t, t = (rdRow idx a).length := ⟨_, rfl⟩
  obtain ⟨Lc, hLc⟩ : ∃ t, t = (rdRow idx c).length + (if a = c then 1 else 0) := ⟨_, rfl⟩
  obtain ⟨back1, hb1⟩ : ∃ f : Nat → Nat → Nat, ∀ i n, f i n =
      if i = a ∧ n = La then Lc else if i = c ∧ n = Lc then La else back i n :=
    ⟨fun i n => if i = a ∧ n = La then Lc else if i = c ∧ n = Lc then La else back i n,
      fun _ _ => rfl⟩
  have hnl : nn1.length = nm := by rw [hnn1, length_wr, length_wr]; exact l1
  rw [← hnn1] at hnn
  rw [← hidx1] at i1 i2 i3 i4 i5
  rw [← hsfc1] at s1 s2 s3 s4 s5
  rw [← hdst1] at d1 d2 d3 d4 d5
  rw [← hLa] at i4 s4 d4
  rw [← hLc] at i5 s5 d5
  rw [← hnn1, ← hidx1, ← hsfc1, ← hdst1]
  have hdiff : ¬ (c = a ∧ Lc = La) := by
    rintro ⟨e1, e2⟩
    rw [hLc, hLa, e1, if_pos rfl] at e2
    omega
  have hLc_lt : Lc < (rdRow idx1 c).length := by
    rw [i2 c, if_pos rfl, hLc]
    omega
  have hLa_lt : La < (rdRow idx1 a).length := by
    rw [i2 a, if_pos rfl, hLa]
    omega
  have hb_a : back1 a La = Lc := by rw [hb1, if_pos ⟨rfl, rfl⟩]
  have hb_c : back1 c Lc = La := by rw [hb1, if_neg hdiff, if_pos ⟨rfl, rfl⟩]
  refine ⟨back1, hnl, by rw [i1]; exact l2, by rw [s1]; exact l3, by rw [d1]; exact l4,
    fun i hi => ?_, fun i hi n hn => ?_⟩
  · rw [hnn i, i2 i, s2 i, d2 i, (hN i hi).1, (hN i hi).2.1, (hN i hi).2.2]
    exact ⟨rfl, rfl, rfl⟩
  · by_cases h1 : i = a ∧ n = La
    · obtain ⟨e1, e2⟩ := h1
      rw [e1, e2, i4, hb_a, i5, hb_c, s5, s4, d5, d4]
      exact ⟨hc, hLc_lt, rfl, rfl, rfl, rfl⟩
    · by_cases h2 : i = c ∧ n = Lc
      · obtain ⟨e1, e2⟩ := h2
        rw [e1, e2, i5, hb_c, i4, hb_a, s5, s4, d5, d4]
        exact ⟨ha, hLa_lt, rfl, rfl, rfl, rfl⟩
      · have hn0 : n < (rdRow idx i).length := by
          rw [i2 i] at hn
          by_cases ea : a = i
          · rw [if_pos ea] at hn
            have n1 : n ≠ La := fun e => h1 ⟨ea.symm, e⟩
            rw [← ea] at hn ⊢
            by_cases ec : c = a
            · rw [if_pos ec] at hn
              have n2 : n ≠ Lc := fun e => h2 ⟨ea.symm.trans ec.symm, e⟩
              rw [if_pos ec.symm, ec] at hLc
              omega
            · rw [if_neg ec] at hn
              omega
          · rw [if_neg ea] at hn
            by_cases ec : c = i
            · rw [if_pos ec] at hn
              have n2 : n ≠ Lc := fun e => h2 ⟨ec.symm, e⟩
              rw [if_neg (fun e => ea (e.trans ec))] at hLc
              rw [← ec] at hn ⊢
              omega
            · rw [if_neg ec] at hn
              exact hn
        obtain ⟨p1, p2, p3, p4, p5, p6⟩ := hP i hi n hn0
        have hbn : back1 i n = back i n := by rw [hb1, if_neg h1, if_neg h2]
        have hj : rd (rdRow idx1 i) n = rd (rdRow idx i) n := i3 i n hn0
        have hbb : back1 (rd (rdRow idx i) n) (back i n) = back (rd (rdRow idx i) n) (back i n) := by
          have g1 : ¬ (rd (rdRow idx i) n = a ∧ back i n = La) := by
            rintro ⟨e1, e2⟩
            rw [e1, ← hLa] at p2
            omega
          have g2 : ¬ (rd (rdRow idx i) n = c ∧ back i n = Lc) := by
            rintro ⟨e1, e2⟩
            rw [e1] at p2
            rw [hLc] at e2
            omega
          rw [hb1, if_neg g1, if_neg g2]
        rw [hj, hbn, hbb, i3 _ _ p2, s3 _ _ (by rw [(hN _ p1).2.1]; exact p2),
          s3 _ _ (by rw [(hN i hi).2.1]; exact hn0), d3 _ _ (by rw [(hN _ p1).2.2]; exact p2),
          d3 _ _ (by rw [(hN i hi).2.2]; exact hn0)]
        refine ⟨p1, ?_, p3, p4, p5, p6⟩
        rw [i2]
        omega

theorem resizeD_nil {α : Type} (n : Nat) (a : α) : resizeD ([] : List α) n a = List.replicate n a := by
  unfold resizeD
  simp

theorem rdRow_replicate_nil {α : Type} (n i : Nat) :
    rdRow (List.replicate n ([] : List α)) i = [] := by
  unfold rdRow
  rw [List.getD_eq_getElem?_getD]
  by_cases h : i < n
  · simp [List.getElem?_replicate, h]
  · simp [List.getElem?_replicate, h]

namespace SimulationAlgorithmGraphBase

/-- Method `SetNeighbors` on an object whose neighbour tables are empty, with
edges between meshes of the graph, builds paired tables. -/
theorem SetNeighbors_paired (b : SimulationAlgorithmGraphBase)
    (h1 : b.mesh_neighbor_n = []) (h2 : b.mesh_neighbor_index = [])
    (h3 : b.mesh_neighbor_sfc = []) (h4 : b.mesh_neighbor_dst = [])
    (n_edges : Nat) (edge_i edge_j : List Nat) (edge_sfc edge_dst : List ℚ)
    (hrange : ∀ e, e < n_edges → rd edge_i e < b.n_meshes ∧ rd edge_j e < b.n_meshes) :
    ∃ back, AdjacencyPaired b.n_meshes
      (b.SetNeighbors n_edges edge_i edge_j edge_sfc edge_dst).mesh_neighbor_n
      (b.SetNeighbors n_edges edge_i edge_j edge_sfc edge_dst).mesh_neighbor_index
      (b.SetNeighbors n_edges edge_i edge_j edge_sfc edge_dst).mesh_neighbor_sfc
      (b.SetNeighbors n_edges edge_i edge_j edge_sfc edge_dst).mesh_neighbor_dst back := by
  unfold SetNeighbors
  dsimp only
  refine forLoop_invariant
    (fun s : SimulationAlgorithmGraphBase => ∃ back, AdjacencyPaired b.n_meshes
      s.mesh_neighbor_n s.mesh_neighbor_index s.mesh_neighbor_sfc s.mesh_neighbor_dst back)
    _ _ _ ?_ (fun e he s hs => ?_)
  · refine ⟨fun _ _ => 0, ?_⟩
    show AdjacencyPaired b.n_meshes (resize b.mesh_neighbor_n b.n_meshes)
      (resizeD b.mesh_neighbor_index b.n_meshes []) (resizeD b.mesh_neighbor_sfc b.n_meshes [])
      (resizeD b.mesh_neighbor_dst b.n_meshes [])  (fun _ _ => 0)
    rw [h1, h2, h3, h4]
    unfold resize
    rw [resizeD_nil, resizeD_nil, resizeD_nil]
    refine ⟨List.length_replicate _ _, List.length_replicate _ _, List.length_replicate _ _,
      List.length_replicate _ _, fun i _ => ?_, fun i _ n hn => ?_⟩
    · rw [rd_replicate_zero, rdRow_replicate_nil]
      exact ⟨rfl, by rw [rdRow_replicate_nil]; rfl, by rw [rdRow_replicate_nil]; rfl⟩
    · rw [rdRow_replicate_nil] at hn
      exact absurd hn (Nat.not_lt_zero _)
  · obtain ⟨back, hb⟩ := hs
    exact AdjacencyPaired.step b.n_meshes _ _ _ _ back hb (rd edge_i e) (rd edge_j e)
      (hrange e he).1 (hrange e he).2 (rd edge_sfc e) (rd edge_dst e)

end SimulationAlgorithmGraphBase

theorem length_resize {α : Type} [Zero α] (v : List α) (n : Nat) : (resize v n).length = n := by
  unfold resize resizeD
  rw [List.length_take, List.length_append, List.length_replicate]
  omega

namespace SimulationAlgorithmGraphBase

/-- The innermost loop of `Build_mesh_kd`, for mesh `i` and species `sp`, on a
state that differs from `b` in the two tables only. -/
theorem Build_mesh_kd_inner (m : Libm) (b : SimulationAlgorithmGraphBase) (D : List ℚ)
    (i sp : Nat) (hi : i < b.n_meshes) (hsp : sp < b.n_species)
    (ko0 ki0 : List (List ℚ)) (s0 : SimulationAlgorithmGraphBase)
    (body : Nat → SimulationAlgorithmGraphBase → SimulationAlgorithmGraphBase)
    (hbody : ∀ n ko ki, body n { b with mesh_kd_out := ko, mesh_kd_in := ki } =
      { b with
        mesh_kd_out := wr ko i (wr (rdRow ko i) (sp * rd b.mesh_neighbor_n i + n)
          (b.kdOutCell m D i sp n))
        mesh_kd_in := wr ki i (wr (rdRow ki i) (sp * rd b.mesh_neighbor_n i + n)
          (b.kdInCell m D i sp n)) })
    (J : SimulationAlgorithmGraphBase → Prop)
    (hJ : ∀ s, J s ↔ ∃ ko ki, s = { b with mesh_kd_out := ko, mesh_kd_in := ki } ∧
      ko.length = b.n_meshes ∧ ki.length = b.n_meshes ∧
      (rdRow ko i).length = b.n_species * rd b.mesh_neighbor_n i ∧
      (rdRow ki i).length = b.n_species * rd b.mesh_neighbor_n i ∧
      ∀ r, r ≠ i → rdRow ko r = rdRow ko0 r ∧ rdRow ki r = rdRow ki0 r)
    (h0 : J s0) :
    J (forLoop (rd b.mesh_neighbor_n i) body s0) ∧
    (∀ n, n < rd b.mesh_neighbor_n i →
      rd (rdRow (forLoop (rd b.mesh_neighbor_n i) body s0).mesh_kd_out i)
        (sp * rd b.mesh_neighbor_n i + n) = b.kdOutCell m D i sp n ∧
      rd (rdRow (forLoop (rd b.mesh_neighbor_n i) body s0).mesh_kd_in i)
        (sp * rd b.mesh_neighbor_n i + n) = b.kdInCell m D i sp n) ∧
    (∀ c, (∀ n, n < rd b.mesh_neighbor_n i → c ≠ sp * rd b.mesh_neighbor_n i + n) →
      rd (rdRow (forLoop (rd b.mesh_neighbor_n i) body s0).mesh_kd_out i) c =
        rd (rdRow s0.mesh_kd_out i) c ∧
      rd (rdRow (forLoop (rd b.mesh_neighbor_n i) body s0).mesh_kd_in i) c =
        rd (rdRow s0.mesh_kd_in i) c) := by
  have key := forLoop_induction
    (fun k s => J s ∧
      (∀ n, n < k → rd (rdRow s.mesh_kd_out i) (sp * rd b.mesh_neighbor_n i + n) =
          b.kdOutCell m D i sp n ∧
        rd (rdRow s.mesh_kd_in i) (sp * rd b.mesh_neighbor_n i + n) = b.kdInCell m D i sp n) ∧
      (∀ c, (∀ n, n < k → c ≠ sp * rd b.mesh_neighbor_n i + n) →
        rd (rdRow s.mesh_kd_out i) c = rd (rdRow s0.mesh_kd_out i) c ∧
        rd (rdRow s.mesh_kd_in i) c = rd (rdRow s0.mesh_kd_in i) c))
    (rd b.mesh_neighbor_n i) body s0
    ⟨h0, fun n hn => absurd hn (Nat.not_lt_zero _), fun c _ => ⟨rfl, rfl⟩⟩ ?_
  · exact key
  · intro k hk s ⟨hJs, hdone, hrest⟩
    obtain ⟨ko, ki, rfl, l1, l2, r1, r2, hoth⟩ := (hJ s).mp hJs
    rw [hbody]
    have hc : sp * rd b.mesh_neighbor_n i + k < b.n_species * rd b.mesh_neighbor_n i :=
      flat_index_lt hsp hk
    have ro : ∀ c, rd (rdRow (wr ko i (wr (rdRow ko i) (sp * rd b.mesh_neighbor_n i + k)
        (b.kdOutCell m D i sp k))) i) c =
        if sp * rd b.mesh_neighbor_n i + k = c then b.kdOutCell m D i sp k
        else rd (rdRow ko i) c := by
      intro c
      rw [rdRow_wr, if_pos ⟨rfl, by omega⟩, rd_wr]
      by_cases e : sp * rd b.mesh_neighbor_n i + k = c
      · rw [if_pos ⟨e, by omega⟩, if_pos e]
      · rw [if_neg (fun h => e h.1), if_neg e]
    have ri : ∀ c, rd (rdRow (wr ki i (wr (rdRow ki i) (sp * rd b.mesh_neighbor_n i + k)
        (b.kdInCell m D i sp k))) i) c =
        if sp * rd b.mesh_neighbor_n i + k = c then b.kdInCell m D i sp k
        else rd (rdRow ki i) c := by
      intro c
      rw [rdRow_wr, if_pos ⟨rfl, by omega⟩, rd_wr]
      by_cases e : sp * rd b.mesh_neighbor_n i + k = c
      · rw [if_pos ⟨e, by omega⟩, if_pos e]
      · rw [if_neg (fun h => e h.1), if_neg e]
    refine ⟨(hJ _).mpr ⟨_, _, rfl, by rw [length_wr]; exact l1, by rw [length_wr]; exact l2,
      ?_, ?_, fun r hr => ?_⟩, fun n hn => ?_, fun c hc' => ?_⟩
    · rw [rdRow_wr, if_pos ⟨rfl, by omega⟩, length_wr]
      exact r1
    · rw [rdRow_wr, if_pos ⟨rfl, by omega⟩, length_wr]
      exact r2
    · rw [rdRow_wr, rdRow_wr, if_neg (fun h => hr h.1.symm), if_neg (fun h => hr h.1.symm)]
      exact hoth r hr
    · show rd (rdRow (wr ko i _) i) _ = _ ∧ rd (rdRow (wr ki i _) i) _ = _
      rw [ro, ri]
      by_cases e : n = k
      · subst e
        rw [if_pos rfl, if_pos rfl]
        exact ⟨rfl, rfl⟩
      · rw [if_neg (by omega), if_neg (by omega)]
        exact hdone n (by omega)
    · show rd (rdRow (wr ko i _) i) _ = _ ∧ rd (rdRow (wr ki i _) i) _ = _
      rw [ro, ri, if_neg (fun e => hc' k (Nat.lt_succ_self k) e.symm),
        if_neg (fun e => hc' k (Nat.lt_succ_self k) e.symm)]
      exact hrest c (fun n hn => hc' n (Nat.lt_succ_of_lt hn))

end SimulationAlgorithmGraphBase

namespace SimulationAlgorithmGraphBase

/-- The loops of `Build_mesh_kd` for one mesh `i`: they fill row `i` of both
tables and leave the other rows.  `inner` is the body of the innermost
loop. -/
theorem Build_mesh_kd_row (m : Libm) (b : SimulationAlgorithmGraphBase) (D : List ℚ)
    (i : Nat) (hi : i < b.n_meshes) (ko0 ki0 : List (List ℚ)) (s0 : SimulationAlgorithmGraphBase)
    (inner : Nat → Nat → SimulationAlgorithmGraphBase → SimulationAlgorithmGraphBase)
    (hinner : ∀ sp n ko ki, inner sp n { b with mesh_kd_out := ko, mesh_kd_in := ki } =
      { b with
        mesh_kd_out := wr ko i (wr (rdRow ko i) (sp * rd b.mesh_neighbor_n i + n)
          (b.kdOutCell m D i sp n))
        mesh_kd_in := wr ki i (wr (rdRow ki i) (sp * rd b.mesh_neighbor_n i + n)
          (b.kdInCell m D i sp n)) })
    (h0 : b.KdFrame i ko0 ki0 s0) :
    b.KdFrame i ko0 ki0
      (forLoop b.n_species (fun sp b1 =>
        forLoop (rd b1.mesh_neighbor_n i) (fun n b1 => inner sp n b1) b1) s0) ∧
    ∀ sp n, sp < b.n_species → n < rd b.mesh_neighbor_n i →
      rd (rdRow (forLoop b.n_species (fun sp b1 =>
          forLoop (rd b1.mesh_neighbor_n i) (fun n b1 => inner sp n b1) b1) s0).mesh_kd_out i)
        (sp * rd b.mesh_neighbor_n i + n) = b.kdOutCell m D i sp n ∧
      rd (rdRow (forLoop b.n_species (fun sp b1 =>
          forLoop (rd b1.mesh_neighbor_n i) (fun n b1 => inner sp n b1) b1) s0).mesh_kd_in i)
        (sp * rd b.mesh_neighbor_n i + n) = b.kdInCell m D i sp n := by
  have key := forLoop_induction
    (fun k s => b.KdFrame i ko0 ki0 s ∧
      ∀ sp n, sp < k → n < rd b.mesh_neighbor_n i →
        rd (rdRow s.mesh_kd_out i) (sp * rd b.mesh_neighbor_n i + n) = b.kdOutCell m D i sp n ∧
        rd (rdRow s.mesh_kd_in i) (sp * rd b.mesh_neighbor_n i + n) = b.kdInCell m D i sp n)
    b.n_species
    (fun sp b1 => forLoop (rd b1.mesh_neighbor_n i) (fun n b1 => inner sp n b1) b1) s0
    ⟨h0, fun sp n hsp => absurd hsp (Nat.not_lt_zero _)⟩ ?_
  · exact key
  · intro k hk s ⟨hF, hdone⟩
    have hnn : s.mesh_neighbor_n = b.mesh_neighbor_n := by
      obtain ⟨ko, ki, rfl, _⟩ := hF
      rfl
    dsimp only
    rw [hnn]
    obtain ⟨g1, g2, g3⟩ := Build_mesh_kd_inner m b D i k hi hk ko0 ki0 s
      (fun n b1 => inner k n b1) (fun n ko ki => hinner k n ko ki) (b.KdFrame i ko0 ki0)
      (fun s => Iff.rfl) hF
    refine ⟨g1, fun sp n hsp hn => ?_⟩
    by_cases e : sp = k
    · subst e
      exact g2 n hn
    · have hne : ∀ n1, n1 < rd b.mesh_neighbor_n i →
          sp * rd b.mesh_neighbor_n i + n ≠ k * rd b.mesh_neighbor_n i + n1 := fun n1 hn1 h =>
        e (flat_index_inj hn hn1 h).1
      obtain ⟨u1, u2⟩ := g3 _ hne
      rw [u1, u2]
      exact hdone sp n (by omega) hn

end SimulationAlgorithmGraphBase

namespace SimulationAlgorithmGraphBase

/-- The loop over meshes of `Build_mesh_kd`, when the body for mesh `k` fills
row `k` and leaves the other rows. -/
theorem Build_mesh_kd_outer (m : Libm) (b : SimulationAlgorithmGraphBase) (D : List ℚ)
    (body : Nat → SimulationAlgorithmGraphBase → SimulationAlgorithmGraphBase)
    (hbody : ∀ k, k < b.n_meshes → ∀ ko ki : List (List ℚ), ko.length = b.n_meshes →
      ki.length = b.n_meshes →
      b.KdFrame k ko ki (body k { b with mesh_kd_out := ko, mesh_kd_in := ki }) ∧
      ∀ sp n, sp < b.n_species → n < rd b.mesh_neighbor_n k →
        rd (rdRow (body k { b with mesh_kd_out := ko, mesh_kd_in := ki }).mesh_kd_out k)
          (sp * rd b.mesh_neighbor_n k + n) = b.kdOutCell m D k sp n ∧
        rd (rdRow (body k { b with mesh_kd_out := ko, mesh_kd_in := ki }).mesh_kd_in k)
          (sp * rd b.mesh_neighbor_n k + n) = b.kdInCell m D k sp n)
    (s0 : SimulationAlgorithmGraphBase)
    (hs0 : s0 = { b with
      mesh_kd_out := List.replicate b.n_meshes []
      mesh_kd_in := List.replicate b.n_meshes [] }) :
    (∃ ko ki, forLoop b.n_meshes body s0 = { b with mesh_kd_out := ko, mesh_kd_in := ki }) ∧
    ∀ i sp n, i < b.n_meshes → sp < b.n_species → n < rd b.mesh_neighbor_n i →
      rd (rdRow (forLoop b.n_meshes body s0).mesh_kd_out i) (sp * rd b.mesh_neighbor_n i + n) =
        b.kdOutCell m D i sp n ∧
      rd (rdRow (forLoop b.n_meshes body s0).mesh_kd_in i) (sp * rd b.mesh_neighbor_n i + n) =
        b.kdInCell m D i sp n := by
  have key := forLoop_induction
    (fun k s => (∃ ko ki, s = { b with mesh_kd_out := ko, mesh_kd_in := ki } ∧
        ko.length = b.n_meshes ∧ ki.length = b.n_meshes) ∧
      ∀ i sp n, i < k → sp < b.n_species → n < rd b.mesh_neighbor_n i →
        rd (rdRow s.mesh_kd_out i) (sp * rd b.mesh_neighbor_n i + n) = b.kdOutCell m D i sp n ∧
        rd (rdRow s.mesh_kd_in i) (sp * rd b.mesh_neighbor_n i + n) = b.kdInCell m D i sp n)
    b.n_meshes body s0
    ⟨⟨_, _, hs0, List.length_replicate _ _, List.length_replicate _ _⟩,
      fun i sp n hi => absurd hi (Nat.not_lt_zero _)⟩ ?_
  · obtain ⟨⟨ko, ki, h, _⟩, hcells⟩ := key
    exact ⟨⟨ko, ki, h⟩, fun i sp n hi hsp hn => hcells i sp n hi hsp hn⟩
  · intro k hk s ⟨⟨ko, ki, hs, l1, l2⟩, hdone⟩
    subst hs
    obtain ⟨hF, hrow⟩ := hbody k hk ko ki l1 l2
    refine ⟨?_, fun i sp n hik hsp hn => ?_⟩
    · obtain ⟨ko1, ki1, e, m1, m2, _⟩ := hF
      exact ⟨ko1, ki1, e, m1, m2⟩
    · by_cases e : i = k
      · subst e
        exact hrow sp n hsp hn
      · obtain ⟨ko1, ki1, e1, _, _, _, _, hoth⟩ := hF
        rw [e1]
        show rd (rdRow ko1 i) _ = _ ∧ rd (rdRow ki1 i) _ = _
        rw [(hoth i e).1, (hoth i e).2]
        exact hdone i sp n (by omega) hsp hn

/-- Method `Build_mesh_kd` of the graph changes the two tables only, and
leaves in them the constants `kdOutCell` and `kdInCell`. -/
theorem Build_mesh_kd_cells (m : Libm) (b : SimulationAlgorithmGraphBase) (D : List ℚ) :
    (∃ ko ki, b.Build_mesh_kd m D = { b with mesh_kd_out := ko, mesh_kd_in := ki }) ∧
    ∀ i sp n, i < b.n_meshes → sp < b.n_species → n < rd b.mesh_neighbor_n i →
      rd (rdRow (b.Build_mesh_kd m D).mesh_kd_out i) (sp * rd b.mesh_neighbor_n i + n) =
        b.kdOutCell m D i sp n ∧
      rd (rdRow (b.Build_mesh_kd m D).mesh_kd_in i) (sp * rd b.mesh_neighbor_n i + n) =
        b.kdInCell m D i sp n := by
  unfold Build_mesh_kd
  refine Build_mesh_kd_outer m b D _ (fun k hk ko ki l1 l2 => ?_) _ rfl
  dsimp only
  exact Build_mesh_kd_row m b D k hk ko ki
    { b with
      mesh_kd_out := wr ko k (resize (rdRow ko k) (b.n_species * rd b.mesh_neighbor_n k))
      mesh_kd_in := wr ki k (resize (rdRow ki k) (b.n_species * rd b.mesh_neighbor_n k)) }
    _ (fun sp n ko ki => rfl)
    ⟨_, _, rfl, by rw [length_wr]; exact l1, by rw [length_wr]; exact l2,
      by rw [rdRow_wr, if_pos ⟨rfl, by omega⟩, length_resize],
      by rw [rdRow_wr, if_pos ⟨rfl, by omega⟩, length_resize],
      fun r hr => ⟨by rw [rdRow_wr, if_neg (fun h => hr h.1.symm)],
        by rw [rdRow_wr, if_neg (fun h => hr h.1.symm)]⟩⟩

end SimulationAlgorithmGraphBase

namespace SimulationAlgorithmGraphBase

theorem Dij_comm (m : Libm) (b : SimulationAlgorithmGraphBase) (D : List ℚ) (i j s : Nat) :
    b.Dij m D i j s = b.Dij m D j i s := by
  unfold Dij
  by_cases h : rdI D ((s * b.n_env : Nat) + rd b.mesh_env i) ≠ 0 ∧
      rdI D ((s * b.n_env : Nat) + rd b.mesh_env j) ≠ 0
  · rw [if_pos h, if_pos ⟨h.2, h.1⟩, add_comm (m.pow (rd b.mesh_vol i) (1 / 3)),
      add_comm (m.pow (rd b.mesh_vol i) (1 / 3) / _)]
  · rw [if_neg h, if_neg (fun hc => h ⟨hc.2, hc.1⟩)]

/-- On paired neighbour tables, `Build_mesh_kd` builds constants that pair the
two ends of every edge. -/
theorem EdgesPairedBy_of_built (m : Libm) (b : SimulationAlgorithmGraphBase) (D : List ℚ)
    (back : Nat → Nat → Nat)
    (hp : AdjacencyPaired b.n_meshes b.mesh_neighbor_n b.mesh_neighbor_index
      b.mesh_neighbor_sfc b.mesh_neighbor_dst back) :
    (b.Build_mesh_kd m D).EdgesPairedBy back := by
  obtain ⟨⟨ko, ki, hf⟩, hcells⟩ := b.Build_mesh_kd_cells m D
  obtain ⟨_, _, _, _, hN, hP⟩ := hp
  have e1 : (b.Build_mesh_kd m D).n_meshes = b.n_meshes := by rw [hf]
  have e2 : (b.Build_mesh_kd m D).mesh_neighbor_n = b.mesh_neighbor_n := by rw [hf]
  have e3 : (b.Build_mesh_kd m D).mesh_neighbor_index = b.mesh_neighbor_index := by rw [hf]
  have e4 : (b.Build_mesh_kd m D).n_species = b.n_species := by rw [hf]
  intro i hi n hn
  rw [e1] at hi
  rw [e2] at hn
  rw [e1, e2, e3, e4]
  have hn1 : n < (rdRow b.mesh_neighbor_index i).length := by
    rw [← (hN i hi).1]
    exact hn
  obtain ⟨p1, p2, p3, p4, p5, p6⟩ := hP i hi n hn1
  have hb : back i n < rd b.mesh_neighbor_n (rd (rdRow b.mesh_neighbor_index i) n) := by
    rw [(hN _ p1).1]
    exact p2
  refine ⟨p1, hb, p3, p4, fun s hs => ?_⟩
  rw [(hcells i s n hi hs hn).2, (hcells _ s _ p1 hs hb).1]
  unfold kdInCell kdOutCell
  rw [p3, p5, p6, Dij_comm]

/-- Method `Init` of the graph, on an object whose neighbour tables are empty
and with edges between meshes of the graph, builds tables that pair the two
ends of every edge. -/
theorem Init_EdgesPaired (m : Libm) (b : SimulationAlgorithmGraphBase)
    (h1 : b.mesh_neighbor_n = []) (h2 : b.mesh_neighbor_index = [])
    (h3 : b.mesh_neighbor_sfc = []) (h4 : b.mesh_neighbor_dst = [])
    (n_nodes n_species n_reactions n_env n_edges : Nat) (edge_i edge_j : List Nat)
    (edge_sfc edge_dst : List ℚ) (mesh_x0 : List ℚ) (mesh_chstt mesh_env : List Int)
    (mesh_vol : List ℚ) (k sub sto r_env D : List ℚ) (sample_n : Nat) (t_samples : List ℚ)
    (sampling_policy_code : Int) (sampling_interval t_max time_step : ℚ) (seed : Rng)
    (hrange : ∀ e, e < n_edges → rd edge_i e < n_nodes ∧ rd edge_j e < n_nodes) :
    ∃ back, (b.Init m n_nodes n_species n_reactions n_env n_edges edge_i edge_j edge_sfc edge_dst
      mesh_x0 mesh_chstt mesh_env mesh_vol k sub sto r_env D sample_n t_samples
      sampling_policy_code sampling_interval t_max time_step seed).EdgesPairedBy back := by
  obtain ⟨back, hb⟩ := SetNeighbors_paired { b with n_meshes := n_nodes } h1 h2 h3 h4 n_edges
    edge_i edge_j edge_sfc edge_dst hrange
  have hn := congrArg SimulationAlgorithmBase.n_meshes
    (SetNeighbors_base { b with n_meshes := n_nodes } n_edges edge_i edge_j edge_sfc edge_dst)
  refine ⟨back, ?_⟩
  unfold Init
  dsimp only
  refine EdgesPairedBy_of_built m _ D back ?_
  dsimp only
  unfold SimulationAlgorithmBase.Build_mesh_kr
  dsimp only
  rw [hn]
  exact hb

end SimulationAlgorithmGraphBase

/-- Method `Init` of the grid builds a neighbour table that pairs the
faces. -/
theorem SimulationAlgorithm3DBase.Init_FacesPaired (m : Libm) (b : SimulationAlgorithm3DBase)
    (w h d n_species n_reactions n_env : Nat) (mesh_x0 : List ℚ) (mesh_chstt mesh_env : List Int)
    (mesh_vol : ℚ) (k sub sto r_env D : List ℚ) (boundary_conditions : List Int) (sample_n : Nat)
    (t_samples : List ℚ) (sampling_policy_code : Int) (sampling_interval t_max time_step : ℚ)
    (seed : Rng) :
    (b.Init m w h d n_species n_reactions n_env mesh_x0 mesh_chstt mesh_env mesh_vol k sub
      sto r_env D boundary_conditions sample_n t_samples sampling_policy_code sampling_interval
      t_max time_step seed).FacesPaired :=
  SimulationAlgorithm3DBase.FacesPaired_of_built _ rfl rfl rfl

/-! ## C6: exact conservation in the Euler kernels -/

/-- C6.  For `Euler3D` and `EulerGraph` in exact arithmetic, on a state whose
vectors `mesh_x` and `mesh_dxdt` hold the `n_meshes * n_species` cells, with
`mesh_kr` equal to `0` everywhere (every `k[r] = 0`), no chemostatted cell, and
neighbour tables that pair the two ends of every interface, the total of every
species is exactly the same before and after `Iterate`, whatever the state
`mesh_x` and the time step `dt`.  The tables that `Init` builds pair the two
ends of every interface: on the grid for all sizes and boundary conditions; on
the graph when the object is new (its neighbour tables are empty) and every
edge joins two meshes of the graph. -/
theorem C6_euler_exact_conservation :
    (∀ (m : Libm) (e : Euler3D), e.n_meshes * e.n_species ≤ e.mesh_x.length →
      e.n_meshes * e.n_species ≤ e.mesh_dxdt.length → (∀ f, rd e.mesh_chstt f = 0) →
      (∀ f, rd e.mesh_kr f = 0) → e.toSimulationAlgorithm3DBase.FacesPaired →
      ∀ s, s < e.n_species →
        speciesTotal (e.Iterate m).2.mesh_x e.n_meshes e.n_species s =
          speciesTotal e.mesh_x e.n_meshes e.n_species s) ∧
    (∀ (m : Libm) (e : EulerGraph), e.n_meshes * e.n_species ≤ e.mesh_x.length →
      e.n_meshes * e.n_species ≤ e.mesh_dxdt.length → (∀ f, rd e.mesh_chstt f = 0) →
      (∀ f, rd e.mesh_kr f = 0) →
      ∀ back : Nat → Nat → Nat, e.toSimulationAlgorithmGraphBase.EdgesPairedBy back →
      ∀ s, s < e.n_species →
        speciesTotal (e.Iterate m).2.mesh_x e.n_meshes e.n_species s =
          speciesTotal e.mesh_x e.n_meshes e.n_species s) ∧
    (∀ (m : Libm) (b : SimulationAlgorithm3DBase) (w h d n_species n_reactions n_env : Nat)
      (mesh_x0 : List ℚ) (mesh_chstt mesh_env : List Int) (mesh_vol : ℚ)
      (k sub sto r_env D : List ℚ) (boundary_conditions : List Int) (sample_n : Nat)
      (t_samples : List ℚ) (sampling_policy_code : Int) (sampling_interval t_max time_step : ℚ)
      (seed : Rng),
      (b.Init m w h d n_species n_reactions n_env mesh_x0 mesh_chstt mesh_env mesh_vol k sub
        sto r_env D boundary_conditions sample_n t_samples sampling_policy_code
        sampling_interval t_max time_step seed).FacesPaired) ∧
    (∀ (m : Libm) (b : SimulationAlgorithmGraphBase)
      (n_nodes n_species n_reactions n_env n_edges : Nat) (edge_i edge_j : List Nat)
      (edge_sfc edge_dst : List ℚ) (mesh_x0 : List ℚ) (mesh_chstt mesh_env : List Int)
      (mesh_vol : List ℚ) (k sub sto r_env D : List ℚ) (sample_n : Nat) (t_samples : List ℚ)
      (sampling_policy_code : Int) (sampling_interval t_max time_step : ℚ) (seed : Rng),
      b.mesh_neighbor_n = [] → b.mesh_neighbor_index = [] → b.mesh_neighbor_sfc = [] →
      b.mesh_neighbor_dst = [] →
      (∀ e, e < n_edges → rd edge_i e < n_nodes ∧ rd edge_j e < n_nodes) →
      ∃ back, (b.Init m n_nodes n_species n_reactions n_env n_edges edge_i edge_j edge_sfc
        edge_dst mesh_x0 mesh_chstt mesh_env mesh_vol k sub sto r_env D sample_n t_samples
        sampling_policy_code sampling_interval t_max time_step seed).EdgesPairedBy back) :=
  ⟨fun m e hx hd hch hkr hp s hs => Euler3D.Iterate_conserves_euler3D m e hx hd hch hkr hp s hs,
   fun m e hx hd hch hkr back hp s hs =>
    EulerGraph.Iterate_conserves_eulerGraph m e hx hd hch hkr back hp s hs,
   fun m b w h d n_species n_reactions n_env mesh_x0 mesh_chstt mesh_env mesh_vol k sub sto r_env
      D boundary_conditions sample_n t_samples sampling_policy_code sampling_interval t_max
      time_step seed =>
    SimulationAlgorithm3DBase.Init_FacesPaired m b w h d n_species n_reactions n_env mesh_x0
      mesh_chstt mesh_env mesh_vol k sub sto r_env D boundary_conditions sample_n t_samples
      sampling_policy_code sampling_interval t_max time_step seed,
   fun m b n_nodes n_species n_reactions n_env n_edges edge_i edge_j edge_sfc edge_dst mesh_x0
      mesh_chstt mesh_env mesh_vol k sub sto r_env D sample_n t_samples sampling_policy_code
      sampling_interval t_max time_step seed h1 h2 h3 h4 hrange =>
    SimulationAlgorithmGraphBase.Init_EdgesPaired m b h1 h2 h3 h4 n_nodes n_species n_reactions
      n_env n_edges edge_i edge_j edge_sfc edge_dst mesh_x0 mesh_chstt mesh_env mesh_vol k sub
      sto r_env D sample_n t_samples sampling_policy_code sampling_interval t_max time_step seed
      hrange⟩

/-- C6 on scenario S3 (counts `[10, 0, 0]`, `D = 1`, `dt = 1/10`, one reaction
with `k = 0`), on the grid and on the chain of two edges, with the tables that
`Init` builds: one `Iterate` moves one unit from mesh `0` to mesh `1` and the
total stays `10`. -/
theorem C6_euler_exact_conservation_witness :
    ((diffusionEuler3D.Iterate scenarioLibm).2.mesh_x = [9, 1, 0] ∧
      speciesTotal (diffusionEuler3D.Iterate scenarioLibm).2.mesh_x 3 1 0 =
        speciesTotal diffusionEuler3D.mesh_x 3 1 0) ∧
    ((diffusionEulerGraph.Iterate scenarioLibm).2.mesh_x = [9, 1, 0] ∧
      speciesTotal (diffusionEulerGraph.Iterate scenarioLibm).2.mesh_x 3 1 0 =
        speciesTotal diffusionEulerGraph.mesh_x 3 1 0) :=
  ⟨⟨by decide!,
    C6_euler_exact_conservation.1 scenarioLibm diffusionEuler3D (by decide!) (by decide!)
      (rd_forall (fun z : Int => z = 0) _ rfl (by decide!))
      (rd_forall (fun q : ℚ => q = 0) _ rfl (by decide!))
      (C6_euler_exact_conservation.2.2.1 scenarioLibm SimulationAlgorithm3DBase.new 3 1 1 1 1 1
        [10, 0, 0] [0, 0, 0] [0, 0, 0] 1 [0] [1] [-1] [1] [1] [0, 0, 0] 0 [] 1 1 50 (1 / 10)
        scenarioRng) 0 (by decide!)⟩,
   ⟨by decide!,
    (C6_euler_exact_conservation.2.2.2 scenarioLibm SimulationAlgorithmGraphBase.new 3 1 1 1 2
      [0, 1] [1, 2] [1, 1] [1, 1] [10, 0, 0] [0, 0, 0] [0, 0, 0] [1, 1, 1] [0] [1] [-1] [1] [1]
      0 [] 1 1 50 (1 / 10) scenarioRng rfl rfl rfl rfl (by decide)).elim
      (fun back hb =>
        C6_euler_exact_conservation.2.1 scenarioLibm diffusionEulerGraph (by decide!) (by decide!)
          (rd_forall (fun z : Int => z = 0) _ rfl (by decide!))
          (rd_forall (fun q : ℚ => q = 0) _ rfl (by decide!)) back hb 0 (by decide!))⟩⟩

/-! ## C5: conservation in the stochastic kernels -/

theorem SimulationAlgorithm3DBase.FacesPaired.inRange (b : SimulationAlgorithm3DBase)
    (h : b.FacesPaired) : b.NeighborsInRange := by
  intro i n hi hn
  by_cases e : rd b.mesh_neighbors (i * 6 + n) = -1
  · exact Or.inl e
  · obtain ⟨h0, h1, _⟩ := h i hi n hn e
    refine Or.inr ⟨h0, ?_⟩
    have := Int.toNat_of_nonneg h0
    omega

theorem SimulationAlgorithmGraphBase.EdgesPairedBy.inRange_graph (b : SimulationAlgorithmGraphBase)
    (back : Nat → Nat → Nat) (h : b.EdgesPairedBy back) : b.NeighborsInRange :=
  fun i n hi hn => (h i hi n hn).1

/-- C5.  With every `k[r] = 0` the table `mesh_kr` built by `Build_mesh_kr` is
`0` everywhere; and for `Gillespie3D`, `GillespieGraph`, `TauLeap3D` and
`TauLeapGraph`, on a state of `n_meshes * n_species` cells whose neighbour
entries are mesh indices (or the grid sentinel), with `mesh_kr` equal to `0`
everywhere and no chemostatted cell, the total of every species is the same
before and after `Iterate`, for every outcome of the draws (uniform draws in
`[0, 1)`, Poisson draws of mean `0` equal to `0`).  The Gillespie kernels are
taken on non-negative counts and non-negative diffusion constants.  The
neighbour tables that `Init` builds hold mesh indices (or the grid sentinel):
on the grid always; on the graph when the object is new and every edge joins
two meshes of the graph. -/
theorem C5_stochastic_mass_conservation :
    (∀ (m : Libm) (b : SimulationAlgorithmBase) (vol : Nat → ℚ) (k r_env : List ℚ),
      (∀ r, rd k r = 0) → ∀ f, rd (b.Build_mesh_kr m vol k r_env).mesh_kr f = 0) ∧
    (∀ (m : Libm) (g : Gillespie3D), g.mesh_x.length = g.n_meshes * g.n_species →
      g.toSimulationAlgorithm3DBase.NeighborsInRange → (∀ f, rd g.mesh_chstt f = 0) →
      (∀ f, rd g.mesh_kr f = 0) → (∀ f, 0 ≤ rd g.mesh_kd f) → (∀ f, 0 ≤ rd g.mesh_x f) →
      (∀ k, 0 ≤ g.rng.uniform k ∧ g.rng.uniform k < 1) →
      ∀ s, s < g.n_species →
        speciesTotal (g.Iterate m).2.mesh_x g.n_meshes g.n_species s =
          speciesTotal g.mesh_x g.n_meshes g.n_species s) ∧
    (∀ (m : Libm) (g : GillespieGraph), g.mesh_x.length = g.n_meshes * g.n_species →
      g.toSimulationAlgorithmGraphBase.NeighborsInRange → (∀ f, rd g.mesh_chstt f = 0) →
      (∀ f, rd g.mesh_kr f = 0) → (∀ i f, 0 ≤ rd (rdRow g.mesh_kd_out i) f) →
      (∀ f, 0 ≤ rd g.mesh_x f) →
      (∀ k, 0 ≤ g.rng.uniform k ∧ g.rng.uniform k < 1) →
      ∀ s, s < g.n_species →
        speciesTotal (g.Iterate m).2.mesh_x g.n_meshes g.n_species s =
          speciesTotal g.mesh_x g.n_meshes g.n_species s) ∧
    (∀ (e : TauLeap3D), e.mesh_x.length = e.n_meshes * e.n_species →
      e.toSimulationAlgorithm3DBase.NeighborsInRange → (∀ f, rd e.mesh_chstt f = 0) →
      (∀ f, rd e.mesh_kr f = 0) → (∀ k, e.rng.poisson k 0 = 0) →
      ∀ s, s < e.n_species →
        speciesTotal e.Iterate.2.mesh_x e.n_meshes e.n_species s =
          speciesTotal e.mesh_x e.n_meshes e.n_species s) ∧
    (∀ (e : TauLeapGraph), e.mesh_x.length = e.n_meshes * e.n_species →
      e.toSimulationAlgorithmGraphBase.NeighborsInRange → (∀ f, rd e.mesh_chstt f = 0) →
      (∀ f, rd e.mesh_kr f = 0) → (∀ k, e.rng.poisson k 0 = 0) →
      ∀ s, s < e.n_species →
        speciesTotal e.Iterate.2.mesh_x e.n_meshes e.n_species s =
          speciesTotal e.mesh_x e.n_meshes e.n_species s) ∧
    (∀ (m : Libm) (b : SimulationAlgorithm3DBase) (w h d n_species n_reactions n_env : Nat)
      (mesh_x0 : List ℚ) (mesh_chstt mesh_env : List Int) (mesh_vol : ℚ)
      (k sub sto r_env D : List ℚ) (boundary_conditions : List Int) (sample_n : Nat)
      (t_samples : List ℚ) (sampling_policy_code : Int) (sampling_interval t_max time_step : ℚ)
      (seed : Rng),
      (b.Init m w h d n_species n_reactions n_env mesh_x0 mesh_chstt mesh_env mesh_vol k sub
        sto r_env D boundary_conditions sample_n t_samples sampling_policy_code
        sampling_interval t_max time_step seed).NeighborsInRange) ∧
    (∀ (m : Libm) (b : SimulationAlgorithmGraphBase)
      (n_nodes n_species n_reactions n_env n_edges : Nat) (edge_i edge_j : List Nat)
      (edge_sfc edge_dst : List ℚ) (mesh_x0 : List ℚ) (mesh_chstt mesh_env : List Int)
      (mesh_vol : List ℚ) (k sub sto r_env D : List ℚ) (sample_n : Nat) (t_samples : List ℚ)
      (sampling_policy_code : Int) (sampling_interval t_max time_step : ℚ) (seed : Rng),
      b.mesh_neighbor_n = [] → b.mesh_neighbor_index = [] → b.mesh_neighbor_sfc = [] →
      b.mesh_neighbor_dst = [] →
      (∀ e, e < n_edges → rd edge_i e < n_nodes ∧ rd edge_j e < n_nodes) →
      (b.Init m n_nodes n_species n_reactions n_env n_edges edge_i edge_j edge_sfc
        edge_dst mesh_x0 mesh_chstt mesh_env mesh_vol k sub sto r_env D sample_n t_samples
        sampling_policy_code sampling_interval t_max time_step seed).NeighborsInRange) :=
  ⟨fun m b vol k r_env hk f => SimulationAlgorithmBase.Build_mesh_kr_zero m b vol k r_env hk f,
   fun m g hlen hnb _ hkr hkd hx hu =>
    (Gillespie3D.Iterate_conserves_gillespie3D m g hlen hnb hkr hkd hx (hu _).1).2,
   fun m g hlen hnb hch hkr hkd hx hu =>
    (GillespieGraph.Iterate_conserves_gillespieGraph m g hlen hnb hch hkr hkd hx (hu _).1).2,
   fun e hlen hnb hch hkr hP => (TauLeap3D.Iterate_conserves_tauLeap3D e hlen hnb hch hkr hP).2,
   fun e hlen hnb hch hkr hP =>
    (TauLeapGraph.Iterate_conserves_tauLeapGraph e hlen hnb hch hkr hP).2,
   fun m b w h d n_species n_reactions n_env mesh_x0 mesh_chstt mesh_env mesh_vol k sub sto r_env
      D boundary_conditions sample_n t_samples sampling_policy_code sampling_interval t_max
      time_step seed =>
    SimulationAlgorithm3DBase.FacesPaired.inRange _
      (SimulationAlgorithm3DBase.Init_FacesPaired m b w h d n_species n_reactions n_env mesh_x0
        mesh_chstt mesh_env mesh_vol k sub sto r_env D boundary_conditions sample_n t_samples
        sampling_policy_code sampling_interval t_max time_step seed),
   fun m b n_nodes n_species n_reactions n_env n_edges edge_i edge_j edge_sfc edge_dst mesh_x0
      mesh_chstt mesh_env mesh_vol k sub sto r_env D sample_n t_samples sampling_policy_code
      sampling_interval t_max time_step seed h1 h2 h3 h4 hrange =>
    (SimulationAlgorithmGraphBase.Init_EdgesPaired m b h1 h2 h3 h4 n_nodes n_species n_reactions
      n_env n_edges edge_i edge_j edge_sfc edge_dst mesh_x0 mesh_chstt mesh_env mesh_vol k sub
      sto r_env D sample_n t_samples sampling_policy_code sampling_interval t_max time_step seed
      hrange).elim (fun back hb => SimulationAlgorithmGraphBase.EdgesPairedBy.inRange_graph _ back hb)⟩

/-- C5 on scenario S3 (counts `[10, 0, 0]`, `D = 1`, one reaction with
`k = 0`): the total of the species is the same before and after one `Iterate`
of each of the four stochastic kernels. -/
theorem C5_stochastic_mass_conservation_witness :
    (speciesTotal (diffusionGillespie3D.Iterate scenarioLibm).2.mesh_x 3 1 0 =
      speciesTotal diffusionGillespie3D.mesh_x 3 1 0) ∧
    (speciesTotal (diffusionGillespieGraph.Iterate scenarioLibm).2.mesh_x 3 1 0 =
      speciesTotal diffusionGillespieGraph.mesh_x 3 1 0) ∧
    (speciesTotal diffusionTauLeap3D.Iterate.2.mesh_x 3 1 0 =
      speciesTotal diffusionTauLeap3D.mesh_x 3 1 0) ∧
    (speciesTotal diffusionTauLeapGraph.Iterate.2.mesh_x 3 1 0 =
      speciesTotal diffusionTauLeapGraph.mesh_x 3 1 0) :=
  ⟨C5_stochastic_mass_conservation.2.1 scenarioLibm diffusionGillespie3D (by decide!)
      (C5_stochastic_mass_conservation.2.2.2.2.2.1 scenarioLibm SimulationAlgorithm3DBase.new 3 1 1 1 1
        1 [10, 0, 0] [0, 0, 0] [0, 0, 0] 1 [0] [1] [-1] [1] [1] [0, 0, 0] 0 [] 1 1 50 (1 / 10)
        scenarioRng) (rd_forall (fun z : Int => z = 0) _ rfl (by decide!))
      (rd_forall (fun q : ℚ => q = 0) _ rfl (by decide!))
      (rd_forall (fun q : ℚ => 0 ≤ q) _ (le_refl _) (by decide!))
      (rd_forall (fun q : ℚ => 0 ≤ q) _ (le_refl _) (by decide!))
      (fun _ => (⟨by decide!, by decide!⟩ : (0 : ℚ) ≤ 1 / 2 ∧ (1 / 2 : ℚ) < 1)) 0 (by decide!),
   C5_stochastic_mass_conservation.2.2.1 scenarioLibm diffusionGillespieGraph (by decide!)
      (C5_stochastic_mass_conservation.2.2.2.2.2.2 scenarioLibm SimulationAlgorithmGraphBase.new 3 1
        1 1 2 [0, 1] [1, 2] [1, 1] [1, 1] [10, 0, 0] [0, 0, 0] [0, 0, 0] [1, 1, 1] [0] [1] [-1]
        [1] [1] 0 [] 1 1 50 (1 / 10) scenarioRng rfl rfl rfl rfl (by decide)) (rd_forall (fun z : Int => z = 0) _ rfl (by decide!))
      (rd_forall (fun q : ℚ => q = 0) _ rfl (by decide!))
      (rd_row_forall (fun q : ℚ => 0 ≤ q) _ (le_refl _) (by decide!))
      (rd_forall (fun q : ℚ => 0 ≤ q) _ (le_refl _) (by decide!))
      (fun _ => (⟨by decide!, by decide!⟩ : (0 : ℚ) ≤ 1 / 2 ∧ (1 / 2 : ℚ) < 1)) 0 (by decide!),
   C5_stochastic_mass_conservation.2.2.2.1 diffusionTauLeap3D (by decide!)
      (C5_stochastic_mass_conservation.2.2.2.2.2.1 scenarioLibm SimulationAlgorithm3DBase.new 3 1 1 1 1
        1 [10, 0, 0] [0, 0, 0] [0, 0, 0] 1 [0] [1] [-1] [1] [1] [0, 0, 0] 0 [] 1 1 50 (1 / 10)
        scenarioRng) (rd_forall (fun z : Int => z = 0) _ rfl (by decide!))
      (rd_forall (fun q : ℚ => q = 0) _ rfl (by decide!))
      (fun k => (if_pos rfl : (if (0 : ℚ) = 0 then 0 else k % 3) = 0)) 0 (by decide!),
   C5_stochastic_mass_conservation.2.2.2.2.1 diffusionTauLeapGraph (by decide!)
      (C5_stochastic_mass_conservation.2.2.2.2.2.2 scenarioLibm SimulationAlgorithmGraphBase.new 3 1
        1 1 2 [0, 1] [1, 2] [1, 1] [1, 1] [10, 0, 0] [0, 0, 0] [0, 0, 0] [1, 1, 1] [0] [1] [-1]
        [1] [1] 0 [] 1 1 50 (1 / 10) scenarioRng rfl rfl rfl rfl (by decide)) (rd_forall (fun z : Int => z = 0) _ rfl (by decide!))
      (rd_forall (fun q : ℚ => q = 0) _ rfl (by decide!))
      (fun k => (if_pos rfl : (if (0 : ℚ) = 0 then 0 else k % 3) = 0)) 0 (by decide!)⟩


/-! ## C11: the reaction constants of the meshes -/

/-- A loop that adds `f s` to an accumulator computes the sum of `f`. -/
theorem forLoop_sum (f : Nat → ℚ) (n : Nat) (q0 : ℚ) :
    forLoop n (fun s q => q + f s) q0 = q0 + ∑ s in Finset.range n, f s := by
  induction n with
  | zero => simp
  | succ n ih => rw [forLoop_succ, ih, Finset.sum_range_succ]; ring

/-- Cell `(i, r)` of the table that `Build_mesh_kr` builds. -/
theorem SimulationAlgorithmBase.Build_mesh_kr_cell (m : Libm) (b : SimulationAlgorithmBase)
    (vol : Nat → ℚ) (k r_env : List ℚ) (i r : Nat) (hi : i < b.n_meshes) (hr : r < b.n_reactions) :
    rd (b.Build_mesh_kr m vol k r_env).mesh_kr (i * b.n_reactions + r) =
      rd k r *
        m.pow (vol i) (1 - ∑ s in Finset.range b.n_species, rd b.sub (s * b.n_reactions + r)) *
        rdI r_env ((r * b.n_env : Nat) + rd b.mesh_env i) := by
  have h := forLoop_update_cells b.n_meshes b.n_reactions
    (fun i r (_ : ℚ) =>
      rd k r *
        m.pow (vol i)
          (1 - forLoop b.n_species (fun s q => q + rd b.sub (s * b.n_reactions + r)) 0) *
        rdI r_env ((r * b.n_env : Nat) + rd b.mesh_env i))
    (List.replicate (b.n_meshes * b.n_reactions) 0) (by simp) i r hi hr
  have e : ∑ s in Finset.range b.n_species, rd b.sub (s * b.n_reactions + r) =
      forLoop b.n_species (fun s q => q + rd b.sub (s * b.n_reactions + r)) 0 := by
    rw [forLoop_sum, zero_add]
  rw [e]
  exact h

/-- C11.  After `Build_mesh_kr`, for every mesh `i` and reaction `r`,
`mesh_kr[i*n_reactions+r] = k[r] * pow(vol_i, 1 - q_r) * r_env[r*n_env + mesh_env[i]]`
with `q_r` the sum over the species `s` of `sub[s*n_reactions+r]`; in the table
that `Init` builds, `vol_i` is `mesh_vol` on the grid and `mesh_vol[i]` on the
graph. -/
theorem C11_reaction_constants :
    (∀ (m : Libm) (b : SimulationAlgorithmBase) (vol : Nat → ℚ) (k r_env : List ℚ) (i r : Nat),
      i < b.n_meshes → r < b.n_reactions →
      rd (b.Build_mesh_kr m vol k r_env).mesh_kr (i * b.n_reactions + r) =
        rd k r *
          m.pow (vol i) (1 - ∑ s in Finset.range b.n_species, rd b.sub (s * b.n_reactions + r)) *
          rdI r_env ((r * b.n_env : Nat) + rd b.mesh_env i)) ∧
    (∀ (m : Libm) (b : SimulationAlgorithm3DBase) (w h d n_species n_reactions n_env : Nat)
      (mesh_x0 : List ℚ) (mesh_chstt mesh_env : List Int) (mesh_vol : ℚ)
      (k sub sto r_env D : List ℚ) (boundary_conditions : List Int) (sample_n : Nat)
      (t_samples : List ℚ) (sampling_policy_code : Int) (sampling_interval t_max time_step : ℚ)
      (seed : Rng) (i r : Nat), i < w * h * d → r < n_reactions →
      rd (b.Init m w h d n_species n_reactions n_env mesh_x0 mesh_chstt mesh_env mesh_vol k sub
          sto r_env D boundary_conditions sample_n t_samples sampling_policy_code
          sampling_interval t_max time_step seed).mesh_kr (i * n_reactions + r) =
        rd k r *
          m.pow mesh_vol (1 - ∑ s in Finset.range n_species, rd sub (s * n_reactions + r)) *
          rdI r_env ((r * n_env : Nat) + rd mesh_env i)) ∧
    (∀ (m : Libm) (b : SimulationAlgorithmGraphBase)
      (n_nodes n_species n_reactions n_env n_edges : Nat) (edge_i edge_j : List Nat)
      (edge_sfc edge_dst : List ℚ) (mesh_x0 : List ℚ) (mesh_chstt mesh_env : List Int)
      (mesh_vol : List ℚ) (k sub sto r_env D : List ℚ) (sample_n : Nat) (t_samples : List ℚ)
      (sampling_policy_code : Int) (sampling_interval t_max time_step : ℚ) (seed : Rng)
      (i r : Nat), i < n_nodes → r < n_reactions →
      rd (b.Init m n_nodes n_species n_reactions n_env n_edges edge_i edge_j edge_sfc edge_dst
          mesh_x0 mesh_chstt mesh_env mesh_vol k sub sto r_env D sample_n t_samples
          sampling_policy_code sampling_interval t_max time_step seed).mesh_kr
          (i * n_reactions + r) =
        rd k r *
          m.pow (rd mesh_vol i)
            (1 - ∑ s in Finset.range n_species, rd sub (s * n_reactions + r)) *
          rdI r_env ((r * n_env : Nat) + rd mesh_env i)) := by
  refine ⟨fun m b vol k r_env i r hi hr =>
    SimulationAlgorithmBase.Build_mesh_kr_cell m b vol k r_env i r hi hr, ?_, ?_⟩
  · intro m b w h d n_species n_reactions n_env mesh_x0 mesh_chstt mesh_env mesh_vol k sub sto
      r_env D boundary_conditions sample_n t_samples sampling_policy_code sampling_interval t_max
      time_step seed i r hi hr
    exact SimulationAlgorithmBase.Build_mesh_kr_cell m _ (fun _ => mesh_vol) k r_env i r hi hr
  · intro m b n_nodes n_species n_reactions n_env n_edges edge_i edge_j edge_sfc edge_dst mesh_x0
      mesh_chstt mesh_env mesh_vol k sub sto r_env D sample_n t_samples sampling_policy_code
      sampling_interval t_max time_step seed i r hi hr
    unfold SimulationAlgorithmGraphBase.Init
    dsimp only
    rw [SimulationAlgorithmGraphBase.Build_mesh_kd_base]
    have hb := SimulationAlgorithmGraphBase.SetNeighbors_base
      { b with n_meshes := n_nodes } n_edges edge_i edge_j edge_sfc edge_dst
    have key := SimulationAlgorithmBase.Build_mesh_kr_cell m
      { (SimulationAlgorithmGraphBase.SetNeighbors { b with n_meshes := n_nodes } n_edges edge_i
          edge_j edge_sfc edge_dst).toSimulationAlgorithmBase with
        n_species := n_species
        n_reactions := n_reactions
        n_env := n_env
        mesh_x := mesh_x0
        mesh_chstt := mesh_chstt
        mesh_env := mesh_env
        sub := sub
        sto := sto
        n_samples := sample_n
        t_samples := t_samples
        sample_pos := 0
        sampled_mesh_x := []
        sampled_t := []
        sampling_policy_code := sampling_policy_code
        sampling_interval := sampling_interval
        t_max := t_max
        sampling_done_this_iteration := false
        last_tsi_ratio := -1
        t := 0
        dt := time_step
        complete := false } (fun i => rd mesh_vol i) k r_env i r
      (by show (SimulationAlgorithmGraphBase.SetNeighbors { b with n_meshes := n_nodes } n_edges
            edge_i edge_j edge_sfc edge_dst).toSimulationAlgorithmBase.n_meshes > i
          rw [hb]; exact hi) hr
    exact key
/-- C11 on the scenario with two environments: in mesh `1`, of environment `1`,
the constant is `3 * 1 * 1/2`, on the grid and on the graph. -/
theorem C11_reaction_constants_witness :
    rd environmentsGrid.mesh_kr (1 * 1 + 0) = 3 / 2 ∧
    rd environmentsGraph.mesh_kr (1 * 1 + 0) = 3 / 2 :=
  ⟨(C11_reaction_constants.2.1 scenarioLibm SimulationAlgorithm3DBase.new 2 1 1 1 1 2 [10, 0]
      [0, 0] [0, 1] 1 [3] [1] [-1] [1, 1 / 2] [1, 3] [0, 0, 0] 0 [] 1 1 10 (1 / 10) scenarioRng
      1 0 (by decide) (by decide)).trans (by decide!),
   (C11_reaction_constants.2.2 scenarioLibm SimulationAlgorithmGraphBase.new 2 1 1 2 1 [0] [1]
      [1] [1] [10, 0] [0, 0] [0, 1] [1, 1] [3] [1] [-1] [1, 1 / 2] [1, 3] 0 [] 1 1 10 (1 / 10)
      scenarioRng 1 0 (by decide) (by decide)).trans (by decide!)⟩

/-! ## C12: the diffusion constants of the grid -/

/-- Three nested loops that write `val a b c` in cell `idx a b c`, with `idx`
injective on the range of the loops: in the end every such cell holds its
value. -/
theorem forLoop_write3 {α : Type} [Zero α] (n1 n2 n3 : Nat) (idx : Nat → Nat → Nat → Nat)
    (val : Nat → Nat → Nat → α) (v : List α)
    (hinj : ∀ a b c a1 b1 c1, a < n1 → b < n2 → c < n3 → a1 < n1 → b1 < n2 → c1 < n3 →
      idx a b c = idx a1 b1 c1 → a = a1 ∧ b = b1 ∧ c = c1)
    (hlen : ∀ a b c, a < n1 → b < n2 → c < n3 → idx a b c < v.length)
    (a b c : Nat) (ha : a < n1) (hb : b < n2) (hc : c < n3) :
    rd (forLoop n1 (fun a v => forLoop n2 (fun b v => forLoop n3 (fun c v =>
      wr v (idx a b c) (val a b c)) v) v) v) (idx a b c) = val a b c := by
  have key : ∀ A, A ≤ n1 →
      (forLoop A (fun a v => forLoop n2 (fun b v => forLoop n3 (fun c v =>
        wr v (idx a b c) (val a b c)) v) v) v).length = v.length ∧
      ∀ a1 b1 c1, a1 < A → b1 < n2 → c1 < n3 →
        rd (forLoop A (fun a v => forLoop n2 (fun b v => forLoop n3 (fun c v =>
          wr v (idx a b c) (val a b c)) v) v) v) (idx a1 b1 c1) = val a1 b1 c1 := by
    intro A
    induction A with
    | zero =>
      intro _
      exact ⟨by simp, fun a1 b1 c1 h => absurd h (Nat.not_lt_zero _)⟩
    | succ A ih =>
      intro hA
      obtain ⟨hl0, h0⟩ := ih (by omega)
      rw [forLoop_succ]
      generalize forLoop A (fun a v => forLoop n2 (fun b v => forLoop n3 (fun c v =>
        wr v (idx a b c) (val a b c)) v) v) v = s0 at hl0 h0
      have mid : ∀ B, B ≤ n2 →
          (forLoop B (fun b v => forLoop n3 (fun c v =>
            wr v (idx A b c) (val A b c)) v) s0).length = v.length ∧
          ∀ a1 b1 c1, a1 < A ∨ (a1 = A ∧ b1 < B) → b1 < n2 → c1 < n3 →
            rd (forLoop B (fun b v => forLoop n3 (fun c v =>
              wr v (idx A b c) (val A b c)) v) s0) (idx a1 b1 c1) = val a1 b1 c1 := by
        intro B
        induction B with
        | zero =>
          intro _
          refine ⟨by simpa using hl0, fun a1 b1 c1 h hb1 hc1 => ?_⟩
          rw [forLoop_zero]
          exact h0 a1 b1 c1 (by omega) hb1 hc1
        | succ B ihB =>
          intro hB
          obtain ⟨hl1, h1⟩ := ihB (by omega)
          rw [forLoop_succ]
          generalize forLoop B (fun b v => forLoop n3 (fun c v =>
            wr v (idx A b c) (val A b c)) v) s0 = s1 at hl1 h1
          have inn : ∀ C, C ≤ n3 →
              (forLoop C (fun c v => wr v (idx A B c) (val A B c)) s1).length = v.length ∧
              ∀ a1 b1 c1, a1 < A ∨ (a1 = A ∧ (b1 < B ∨ (b1 = B ∧ c1 < C))) → b1 < n2 → c1 < n3 →
                rd (forLoop C (fun c v => wr v (idx A B c) (val A B c)) s1) (idx a1 b1 c1) =
                  val a1 b1 c1 := by
            intro C
            induction C with
            | zero =>
              intro _
              refine ⟨by simpa using hl1, fun a1 b1 c1 h hb1 hc1 => ?_⟩
              rw [forLoop_zero]
              exact h1 a1 b1 c1 (by omega) hb1 hc1
            | succ C ihC =>
              intro hC
              obtain ⟨hl2, h2⟩ := ihC (by omega)
              rw [forLoop_succ]
              generalize forLoop C (fun c v => wr v (idx A B c) (val A B c)) s1 = s2 at hl2 h2
              refine ⟨by rw [length_wr]; exact hl2, fun a1 b1 c1 h hb1 hc1 => ?_⟩
              by_cases e : a1 = A ∧ b1 = B ∧ c1 = C
              · obtain ⟨e1, e2, e3⟩ := e
                subst e1 e2 e3
                exact rd_wr_self _ _ (by rw [hl2]; exact hlen _ _ _ (by omega) (by omega) (by omega))
              · have hne : idx A B C ≠ idx a1 b1 c1 := by
                  intro heq
                  have := hinj A B C a1 b1 c1 (by omega) (by omega) (by omega) (by omega) hb1 hc1
                    heq
                  omega
                rw [rd_wr_ne _ _ hne]
                exact h2 a1 b1 c1 (by omega) hb1 hc1
          obtain ⟨hl3, h3⟩ := inn n3 (le_refl _)
          exact ⟨hl3, fun a1 b1 c1 h hb1 hc1 => h3 a1 b1 c1 (by omega) hb1 hc1⟩
      obtain ⟨hl4, h4⟩ := mid n2 (le_refl _)
      exact ⟨hl4, fun a1 b1 c1 h hb1 hc1 => h4 a1 b1 c1 (by omega) hb1 hc1⟩
  exact (key n1 (le_refl _)).2 a b c ha hb hc

namespace SimulationAlgorithm3DBase

/-- Cell `(i, s, n)` of the table that `Build_mesh_kd` of the grid builds. -/
theorem Build_mesh_kd_cell (b : SimulationAlgorithm3DBase) (D : List ℚ) (i s n : Nat)
    (hi : i < b.n_meshes) (hs : s < b.n_species) (hn : n < 6) :
    rd (b.Build_mesh_kd D).mesh_kd (i * b.n_species * 6 + s * 6 + n) =
      if rd b.mesh_neighbors (i * 6 + n) = -1 then 0
      else
        (if rdI D ((s * b.n_env : Nat) + rd b.mesh_env i) ≠ 0 ∧
            rdI D ((s * b.n_env : Nat) + rdI b.mesh_env (rd b.mesh_neighbors (i * 6 + n))) ≠ 0
          then (2 * b.mesh_edge) /
            (b.mesh_edge / rdI D ((s * b.n_env : Nat) + rd b.mesh_env i) +
              b.mesh_edge /
                rdI D ((s * b.n_env : Nat) + rdI b.mesh_env (rd b.mesh_neighbors (i * 6 + n))))
          else 0) / (b.mesh_edge * b.mesh_edge) := by
  have h := forLoop_write3 b.n_species b.n_meshes 6
    (fun s i n => i * b.n_species * 6 + s * 6 + n)
    (fun s i n =>
      if rd b.mesh_neighbors (i * 6 + n) = -1 then (0 : ℚ)
      else
        (if rdI D ((s * b.n_env : Nat) + rd b.mesh_env i) ≠ 0 ∧
            rdI D ((s * b.n_env : Nat) + rdI b.mesh_env (rd b.mesh_neighbors (i * 6 + n))) ≠ 0
          then (2 * b.mesh_edge) /
            (b.mesh_edge / rdI D ((s * b.n_env : Nat) + rd b.mesh_env i) +
              b.mesh_edge /
                rdI D ((s * b.n_env : Nat) + rdI b.mesh_env (rd b.mesh_neighbors (i * 6 + n))))
          else 0) / (b.mesh_edge * b.mesh_edge))
    (List.replicate (b.n_species * b.n_meshes * 6) 0)
    (fun a1 b1 c1 a2 b2 c2 h1 h2 h3 h4 h5 h6 he => by
      dsimp only at he
      have e1 : b1 * b.n_species * 6 + a1 * 6 + c1 = (b1 * b.n_species + a1) * 6 + c1 := by ring
      have e2 : b2 * b.n_species * 6 + a2 * 6 + c2 = (b2 * b.n_species + a2) * 6 + c2 := by ring
      rw [e1, e2] at he
      obtain ⟨q1, q2⟩ := flat_index_inj h3 h6 he
      obtain ⟨q3, q4⟩ := flat_index_inj h1 h4 q1
      exact ⟨q4, q3, q2⟩)
    (fun a1 b1 c1 h1 h2 h3 => by
      dsimp only
      rw [List.length_replicate]
      have e1 : b1 * b.n_species * 6 + a1 * 6 + c1 = (b1 * b.n_species + a1) * 6 + c1 := by ring
      have e3 : b.n_species * b.n_meshes * 6 = (b.n_meshes * b.n_species) * 6 := by ring
      rw [e1, e3]
      exact flat_index_lt (flat_index_lt h2 h1) h3)
    s i n hs hi hn
  dsimp only at h
  rw [← h]
  unfold Build_mesh_kd
  dsimp only
  congr 1
  refine forLoop_congr _ _ _ _ (fun s _ v => ?_)
  refine forLoop_congr _ _ _ _ (fun i _ v => ?_)
  refine forLoop_congr _ _ _ _ (fun n _ v => ?_)
  split_ifs <;> rfl

end SimulationAlgorithm3DBase
/-- C12.  In the table that `Build_mesh_kd` of the grid builds, for mesh `i`,
species `s` and direction `n`, with `j = mesh_neighbors[i*6+n]`,
`Di = D[s*n_env+mesh_env[i]]` and `Dj = D[s*n_env+mesh_env[j]]`: the cell
`mesh_kd[i*n_species*6+s*6+n]` is `0` when `j` is the sentinel `-1`; it is `0`
when `Di = 0` or `Dj = 0`; otherwise it is `Dij / edge^2` with
`Dij = (2*edge)/(edge/Di + edge/Dj)`, which for positive `Di`, `Dj` is the
harmonic mean `2*Di*Dj/(Di+Dj)` (the edge is not `0`, so that the divisions
are defined).  The last part is the table after `Init`, whose neighbour table
is the one of `BuildMeshNeighbors` and whose edge is `pow(mesh_vol, 1/3)`. -/
theorem C12_grid_diffusion_constants :
    (∀ (b : SimulationAlgorithm3DBase) (D : List ℚ) (i s n : Nat) (j : Int) (Di Dj : ℚ),
      i < b.n_meshes → s < b.n_species → n < 6 →
      j = rd b.mesh_neighbors (i * 6 + n) →
      Di = rdI D ((s * b.n_env : Nat) + rd b.mesh_env i) →
      Dj = rdI D ((s * b.n_env : Nat) + rdI b.mesh_env j) →
      (j = -1 → rd (b.Build_mesh_kd D).mesh_kd (i * b.n_species * 6 + s * 6 + n) = 0) ∧
      (b.mesh_edge ≠ 0 → Di = 0 ∨ Dj = 0 →
        rd (b.Build_mesh_kd D).mesh_kd (i * b.n_species * 6 + s * 6 + n) = 0) ∧
      (j ≠ -1 → Di ≠ 0 → Dj ≠ 0 →
        rd (b.Build_mesh_kd D).mesh_kd (i * b.n_species * 6 + s * 6 + n) =
          (2 * b.mesh_edge) / (b.mesh_edge / Di + b.mesh_edge / Dj) /
            (b.mesh_edge * b.mesh_edge)) ∧
      (j ≠ -1 → b.mesh_edge ≠ 0 → 0 < Di → 0 < Dj →
        rd (b.Build_mesh_kd D).mesh_kd (i * b.n_species * 6 + s * 6 + n) =
          2 * Di * Dj / (Di + Dj) / (b.mesh_edge * b.mesh_edge))) ∧
    (∀ (m : Libm) (b : SimulationAlgorithm3DBase) (w h d n_species n_reactions n_env : Nat)
      (mesh_x0 : List ℚ) (mesh_chstt mesh_env : List Int) (mesh_vol : ℚ)
      (k sub sto r_env D : List ℚ) (boundary_conditions : List Int) (sample_n : Nat)
      (t_samples : List ℚ) (sampling_policy_code : Int) (sampling_interval t_max time_step : ℚ)
      (seed : Rng) (i s n : Nat) (j : Int) (Di Dj edge : ℚ),
      i < w * h * d → s < n_species → n < 6 →
      j = rd (SimulationAlgorithm3DBase.BuildMeshNeighbors w h d boundary_conditions) (i * 6 + n) →
      Di = rdI D ((s * n_env : Nat) + rd mesh_env i) →
      Dj = rdI D ((s * n_env : Nat) + rdI mesh_env j) →
      edge = m.pow mesh_vol (1 / 3) →
      rd (b.Init m w h d n_species n_reactions n_env mesh_x0 mesh_chstt mesh_env mesh_vol k sub
          sto r_env D boundary_conditions sample_n t_samples sampling_policy_code
          sampling_interval t_max time_step seed).mesh_kd (i * n_species * 6 + s * 6 + n) =
        if j = -1 then 0
        else (if Di ≠ 0 ∧ Dj ≠ 0 then (2 * edge) / (edge / Di + edge / Dj) else 0) /
          (edge * edge)) := by
  constructor
  · intro b D i s n j Di Dj hi hs hn hj hDi hDj
    have hc := SimulationAlgorithm3DBase.Build_mesh_kd_cell b D i s n hi hs hn
    rw [← hj, ← hDi, ← hDj] at hc
    refine ⟨fun h => ?_, fun he h => ?_, fun h h1 h2 => ?_, fun h he h1 h2 => ?_⟩
    · rw [hc, if_pos h]
    · rw [hc]
      split_ifs with h3 h4
      · rfl
      · rcases h with h | h
        · exact absurd h h4.1
        · exact absurd h h4.2
      · exact zero_div _
    · rw [hc, if_neg h, if_pos ⟨h1, h2⟩]
    · rw [hc, if_neg h, if_pos ⟨ne_of_gt h1, ne_of_gt h2⟩]
      congr 1
      have h3 : Di + Dj ≠ 0 := ne_of_gt (add_pos h1 h2)
      have h4 : Di ≠ 0 := ne_of_gt h1
      have h5 : Dj ≠ 0 := ne_of_gt h2
      have e1 : b.mesh_edge / Di + b.mesh_edge / Dj = b.mesh_edge * (Di + Dj) / (Di * Dj) := by
        field_simp
        ring
      rw [e1]
      field_simp
      ring
  · intro m b w h d n_species n_reactions n_env mesh_x0 mesh_chstt mesh_env mesh_vol k sub sto
      r_env D boundary_conditions sample_n t_samples sampling_policy_code sampling_interval t_max
      time_step seed i s n j Di Dj edge hi hs hn hj hDi hDj he
    subst hj hDi hDj he
    exact SimulationAlgorithm3DBase.Build_mesh_kd_cell _ D i s n hi hs hn

/-- C12 on the scenario with two environments (`D = [1, 3]`, edge `1`): the
constant of mesh `0` toward its neighbour `1` is the harmonic mean `3/2`; there
is no mesh in direction `1`, and the constant is `0`. -/
theorem C12_grid_diffusion_constants_witness :
    rd environmentsGrid.mesh_kd (0 * 1 * 6 + 0 * 6 + 0) = 3 / 2 ∧
    rd environmentsGrid.mesh_kd (0 * 1 * 6 + 0 * 6 + 1) = 0 ∧
    rd (environmentsGrid.Build_mesh_kd [1, 3]).mesh_kd (0 * 1 * 6 + 0 * 6 + 0) =
      2 * 1 * 3 / (1 + 3) / (1 * 1) :=
  ⟨(C12_grid_diffusion_constants.2 scenarioLibm SimulationAlgorithm3DBase.new 2 1 1 1 1 2 [10, 0]
      [0, 0] [0, 1] 1 [3] [1] [-1] [1, 1 / 2] [1, 3] [0, 0, 0] 0 [] 1 1 10 (1 / 10) scenarioRng
      0 0 0 1 1 3 1 (by decide) (by decide) (by decide) (by decide!) (by decide!) (by decide!)
      (by decide!)).trans (by decide!),
   (C12_grid_diffusion_constants.2 scenarioLibm SimulationAlgorithm3DBase.new 2 1 1 1 1 2 [10, 0]
      [0, 0] [0, 1] 1 [3] [1] [-1] [1, 1 / 2] [1, 3] [0, 0, 0] 0 [] 1 1 10 (1 / 10) scenarioRng
      0 0 1 (-1) 1 1 1 (by decide) (by decide) (by decide) (by decide!) (by decide!) (by decide!)
      (by decide!)).trans (by decide!),
   (C12_grid_diffusion_constants.1 environmentsGrid [1, 3] 0 0 0 1 1 3 (by decide!) (by decide!)
      (by decide) (by decide!) (by decide!) (by decide!)).2.2.2 (by decide) (by decide!)
      (by decide!) (by decide!)⟩

/-! ## C13: the diffusion constants of the graph -/

/-- C13.  In the tables that `Build_mesh_kd` of the graph builds (which leaves
the rest of the object as it is), for node `i`, species `s` and slot `n`, with
`j = mesh_neighbor_index[i][n]`, surface `A` and distance `L` of the slot,
`hi = pow(vol[i], 1/3)`, `hj = pow(vol[j], 1/3)`, `Di = D[s*n_env+mesh_env[i]]`
and `Dj = D[s*n_env+mesh_env[j]]`: `Dij = (hi+hj)/(hi/Di+hj/Dj)` when `Di` and
`Dj` are both non-zero and `0` otherwise, `mesh_kd_out[i][s*nn+n] =
Dij*A/(vol[i]*L)` and `mesh_kd_in[i][s*nn+n] = Dij*A/(vol[j]*L)`.  On scenario
S6 (volumes `[1, 8]`, one edge of surface `1` and distance `1`, `D = 1` in both
environments), with `pow(1, 1/3) = 1` and `pow(8, 1/3) = 2`: `Dij = 1`,
`kd_out = 1` and `kd_in = 1/8` at node `0`. -/
theorem C13_graph_diffusion_constants :
    (∀ (m : Libm) (b : SimulationAlgorithmGraphBase) (D : List ℚ),
      (∃ ko ki, b.Build_mesh_kd m D = { b with mesh_kd_out := ko, mesh_kd_in := ki }) ∧
      ∀ (i s n j : Nat) (A L hi hj Di Dj Dij : ℚ),
        i < b.n_meshes → s < b.n_species → n < rd b.mesh_neighbor_n i →
        j = rd (rdRow b.mesh_neighbor_index i) n →
        A = rd (rdRow b.mesh_neighbor_sfc i) n → L = rd (rdRow b.mesh_neighbor_dst i) n →
        hi = m.pow (rd b.mesh_vol i) (1 / 3) → hj = m.pow (rd b.mesh_vol j) (1 / 3) →
        Di = rdI D ((s * b.n_env : Nat) + rd b.mesh_env i) →
        Dj = rdI D ((s * b.n_env : Nat) + rd b.mesh_env j) →
        Dij = (if Di ≠ 0 ∧ Dj ≠ 0 then (hi + hj) / (hi / Di + hj / Dj) else 0) →
        rd (rdRow (b.Build_mesh_kd m D).mesh_kd_out i) (s * rd b.mesh_neighbor_n i + n) =
          Dij * A / (rd b.mesh_vol i * L) ∧
        rd (rdRow (b.Build_mesh_kd m D).mesh_kd_in i) (s * rd b.mesh_neighbor_n i + n) =
          Dij * A / (rd b.mesh_vol j * L)) ∧
    (∀ (m : Libm) (seed : Rng), m.pow 1 (1 / 3) = 1 → m.pow 8 (1 / 3) = 2 →
      SimulationAlgorithmGraphBase.Dij m (harmonicGraph m seed) [1, 1] 0 1 0 = 1 ∧
      rd (rdRow (harmonicGraph m seed).mesh_kd_out 0) 0 = 1 ∧
      rd (rdRow (harmonicGraph m seed).mesh_kd_in 0) 0 = 1 / 8) := by
  constructor
  · intro m b D
    obtain ⟨hfr, hcells⟩ := SimulationAlgorithmGraphBase.Build_mesh_kd_cells m b D
    refine ⟨hfr, ?_⟩
    intro i s n j A L hi hj Di Dj Dij h1 h2 h3 e1 e2 e3 e4 e5 e6 e7 e8
    subst e1 e2 e3 e4 e5 e6 e7 e8
    exact hcells i s n h1 h2 h3
  · intro m seed h1 h8
    refine ⟨?_, ?_, ?_⟩
    · show (m.pow 1 (1 / 3) + m.pow 8 (1 / 3)) / (m.pow 1 (1 / 3) / 1 + m.pow 8 (1 / 3) / 1) = 1
      rw [h1, h8]
      norm_num
    · show (m.pow 1 (1 / 3) + m.pow 8 (1 / 3)) / (m.pow 1 (1 / 3) / 1 + m.pow 8 (1 / 3) / 1) * 1 /
        (1 * 1) = 1
      rw [h1, h8]
      norm_num
    · show (m.pow 1 (1 / 3) + m.pow 8 (1 / 3)) / (m.pow 1 (1 / 3) / 1 + m.pow 8 (1 / 3) / 1) * 1 /
        (8 * 1) = 1 / 8
      rw [h1, h8]
      norm_num

/-- C13 on scenario S6, with a math library for which `pow(8, 1/3) = 2`: the
tables rebuilt on the object and the tables that `Init` built hold
`kd_out = 1` and `kd_in = 1/8` at node `0`. -/
theorem C13_graph_diffusion_constants_witness :
    (rd (rdRow ((harmonicGraph cubeRootLibm scenarioRng).Build_mesh_kd cubeRootLibm
        [1, 1]).mesh_kd_out 0) (0 * rd (harmonicGraph cubeRootLibm scenarioRng).mesh_neighbor_n 0 + 0) =
        1 * 1 / (rd (harmonicGraph cubeRootLibm scenarioRng).mesh_vol 0 * 1) ∧
      rd (rdRow ((harmonicGraph cubeRootLibm scenarioRng).Build_mesh_kd cubeRootLibm
        [1, 1]).mesh_kd_in 0) (0 * rd (harmonicGraph cubeRootLibm scenarioRng).mesh_neighbor_n 0 + 0) =
        1 * 1 / (rd (harmonicGraph cubeRootLibm scenarioRng).mesh_vol 1 * 1)) ∧
    (SimulationAlgorithmGraphBase.Dij cubeRootLibm (harmonicGraph cubeRootLibm scenarioRng)
        [1, 1] 0 1 0 = 1 ∧
      rd (rdRow (harmonicGraph cubeRootLibm scenarioRng).mesh_kd_out 0) 0 = 1 ∧
      rd (rdRow (harmonicGraph cubeRootLibm scenarioRng).mesh_kd_in 0) 0 = 1 / 8) :=
  ⟨(C13_graph_diffusion_constants.1 cubeRootLibm (harmonicGraph cubeRootLibm scenarioRng)
      [1, 1]).2 0 0 0 1 1 1 1 2 1 1 1 (by decide!) (by decide!) (by decide!) (by decide!)
      (by decide!) (by decide!) (by decide!) (by decide!) (by decide!) (by decide!) (by decide!),
   C13_graph_diffusion_constants.2 cubeRootLibm scenarioRng (by decide!) (by decide!)⟩

/-! ## C14: the neighbours on the lattice -/

/-- The move of direction `n` along the three axes, as tables. -/
theorem dirDelta_table (n : Nat) (hn : n < 6) :
    dirDelta 0 n = rd ([1, -1, 0, 0, 0, 0] : List Int) n ∧
    dirDelta 1 n = rd ([0, 0, 1, -1, 0, 0] : List Int) n ∧
    dirDelta 2 n = rd ([0, 0, 0, 0, 1, -1] : List Int) n := by
  interval_cases n <;> exact ⟨rfl, rfl, rfl⟩

/-- One axis of `GetNeighborIndex`, from a coordinate `c` of the lattice: the
resolved coordinate is the moved coordinate wrapped modulo the size when the
moved coordinate is inside or the axis is periodic, and it is out of range
otherwise. -/
theorem axisStep_resolve (per : Prop) [Decidable per] (w c : Nat) (δ : Int) (hc : c < w)
    (hδ : δ = 1 ∨ δ = -1 ∨ δ = 0) :
    ((0 ≤ (c : Int) + δ ∧ (c : Int) + δ < w) ∨ per →
      axisStep per w c δ = ((c : Int) + δ) % w ∧ 0 ≤ axisStep per w c δ ∧
        axisStep per w c δ < w) ∧
    (¬ (0 ≤ (c : Int) + δ ∧ (c : Int) + δ < w) → ¬ per →
      ¬ (0 ≤ axisStep per w c δ ∧ axisStep per w c δ < w)) ∧
    (0 ≤ (c : Int) + δ ∧ (c : Int) + δ < w → ((c : Int) + δ) % w = (c : Int) + δ) := by
  have hw : (0 : Int) < w := by omega
  have h3 : 0 ≤ (c : Int) + δ ∧ (c : Int) + δ < w → ((c : Int) + δ) % w = (c : Int) + δ :=
    fun h => Int.emod_eq_of_lt h.1 h.2
  refine ⟨fun h => ?_, fun h hp => ?_, h3⟩
  · unfold axisStep
    by_cases hp : per
    · rw [if_pos hp, Int.tmod_eq_emod (by omega) (by omega), Int.add_emod_self_left]
      exact ⟨rfl, Int.emod_nonneg _ (by omega), Int.emod_lt_of_pos _ hw⟩
    · rw [if_neg hp]
      have hin := h.resolve_right hp
      exact ⟨(h3 hin).symm, hin.1, hin.2⟩
  · unfold axisStep
    rw [if_neg hp]
    exact h

/-- C14.  For the mesh of coordinates `(x, y, z)` of a `w*h*d` lattice and a
direction `n < 6`, let `(X, Y, Z)` be the coordinates moved by the displacement
of the direction (`+x, -x, +y, -y, +z, -z`).  The entry
`mesh_neighbors[i*6+n]` that `BuildMeshNeighbors` writes for
`i = w*h*z + w*y + x` is the index of the moved cell when it is inside the
lattice; it is `-1` when the moved coordinate leaves the lattice on an axis
that is not periodic; and when every axis that is left is periodic it is the
index of the cell whose coordinates are wrapped modulo the sizes.  `Init`
stores this table. -/
theorem C14_grid_neighbors :
    (∀ (w h d : Nat) (bc : List Int) (x y z n : Nat) (X Y Z : Int),
      x < w → y < h → z < d → n < 6 →
      X = (x : Int) + rd ([1, -1, 0, 0, 0, 0] : List Int) n →
      Y = (y : Int) + rd ([0, 0, 1, -1, 0, 0] : List Int) n →
      Z = (z : Int) + rd ([0, 0, 0, 0, 1, -1] : List Int) n →
      (0 ≤ X ∧ X < w ∧ 0 ≤ Y ∧ Y < h ∧ 0 ≤ Z ∧ Z < d →
        rd (SimulationAlgorithm3DBase.BuildMeshNeighbors w h d bc)
          ((w * h * z + w * y + x) * 6 + n) = w * h * Z + w * Y + X) ∧
      ((¬ (0 ≤ X ∧ X < w) ∧ rd bc 0 ≠ 1) ∨ (¬ (0 ≤ Y ∧ Y < h) ∧ rd bc 1 ≠ 1) ∨
          (¬ (0 ≤ Z ∧ Z < d) ∧ rd bc 2 ≠ 1) →
        rd (SimulationAlgorithm3DBase.BuildMeshNeighbors w h d bc)
          ((w * h * z + w * y + x) * 6 + n) = -1) ∧
      (((0 ≤ X ∧ X < w) ∨ rd bc 0 = 1) ∧ ((0 ≤ Y ∧ Y < h) ∨ rd bc 1 = 1) ∧
          ((0 ≤ Z ∧ Z < d) ∨ rd bc 2 = 1) →
        rd (SimulationAlgorithm3DBase.BuildMeshNeighbors w h d bc)
          ((w * h * z + w * y + x) * 6 + n) = w * h * (Z % d) + w * (Y % h) + X % w)) ∧
    (∀ (m : Libm) (b : SimulationAlgorithm3DBase) (w h d n_species n_reactions n_env : Nat)
      (mesh_x0 : List ℚ) (mesh_chstt mesh_env : List Int) (mesh_vol : ℚ)
      (k sub sto r_env D : List ℚ) (boundary_conditions : List Int) (sample_n : Nat)
      (t_samples : List ℚ) (sampling_policy_code : Int) (sampling_interval t_max time_step : ℚ)
      (seed : Rng),
      (b.Init m w h d n_species n_reactions n_env mesh_x0 mesh_chstt mesh_env mesh_vol k sub
        sto r_env D boundary_conditions sample_n t_samples sampling_policy_code
        sampling_interval t_max time_step seed).mesh_neighbors =
          SimulationAlgorithm3DBase.BuildMeshNeighbors w h d boundary_conditions) := by
  refine ⟨?_, fun _ _ _ _ _ _ _ _ _ _ _ _ _ _ _ _ _ _ _ _ _ _ _ _ _ => rfl⟩
  intro w h d bc x y z n X Y Z hx hy hz hn hX hY hZ
  subst hX hY hZ
  have hcell := SimulationAlgorithm3DBase.BuildMeshNeighbors_cell w h d bc (meshIndex w h x y z) n
    (meshIndex_lt hx hy hz) hn
  obtain ⟨c1, c2, c3⟩ := meshIndex_coords (Z := z) hx hy
  rw [c1, c2, c3, GetNeighborIndex_eq] at hcell
  obtain ⟨t0, t1, t2⟩ := dirDelta_table n hn
  rw [t0, t1, t2] at hcell
  have hd0 := dirDelta_cases 0 n
  have hd1 := dirDelta_cases 1 n
  have hd2 := dirDelta_cases 2 n
  rw [t0] at hd0
  rw [t1] at hd1
  rw [t2] at hd2
  obtain ⟨ax1, ax2, ax3⟩ := axisStep_resolve (rd bc 0 = 1) w x _ hx hd0
  obtain ⟨ay1, ay2, ay3⟩ := axisStep_resolve (rd bc 1 = 1) h y _ hy hd1
  obtain ⟨az1, az2, az3⟩ := axisStep_resolve (rd bc 2 = 1) d z _ hz hd2
  unfold meshIndex at hcell
  refine ⟨fun hin => ?_, fun hout => ?_, fun hper => ?_⟩
  · obtain ⟨i1, i2, i3, i4, i5, i6⟩ := hin
    obtain ⟨ex, ex0, ex1⟩ := ax1 (Or.inl ⟨i1, i2⟩)
    obtain ⟨ey, ey0, ey1⟩ := ay1 (Or.inl ⟨i3, i4⟩)
    obtain ⟨ez, ez0, ez1⟩ := az1 (Or.inl ⟨i5, i6⟩)
    rw [hcell, if_pos ⟨ex0, ex1, ey0, ey1, ez0, ez1⟩, ex, ey, ez, ax3 ⟨i1, i2⟩, ay3 ⟨i3, i4⟩,
      az3 ⟨i5, i6⟩]
  · rw [hcell, if_neg]
    rintro ⟨q1, q2, q3, q4, q5, q6⟩
    rcases hout with ⟨o1, o2⟩ | ⟨o1, o2⟩ | ⟨o1, o2⟩
    · exact ax2 o1 o2 ⟨q1, q2⟩
    · exact ay2 o1 o2 ⟨q3, q4⟩
    · exact az2 o1 o2 ⟨q5, q6⟩
  · obtain ⟨p1, p2, p3⟩ := hper
    obtain ⟨ex, ex0, ex1⟩ := ax1 p1
    obtain ⟨ey, ey0, ey1⟩ := ay1 p2
    obtain ⟨ez, ez0, ez1⟩ := az1 p3
    rw [hcell, if_pos ⟨ex0, ex1, ey0, ey1, ez0, ez1⟩, ex, ey, ez]

/-- C14 on a `3*2*1` lattice that is periodic along `x` only, for the mesh of
coordinates `(2, 0, 0)`: toward `+y` the neighbour is the mesh `(2, 1, 0)` of
index `5`; toward `-y` there is none; toward `+x` it is the mesh `(0, 0, 0)`. -/
theorem C14_grid_neighbors_witness :
    rd (SimulationAlgorithm3DBase.BuildMeshNeighbors 3 2 1 [1, 0, 0])
      ((3 * 2 * 0 + 3 * 0 + 2) * 6 + 2) = 5 ∧
    rd (SimulationAlgorithm3DBase.BuildMeshNeighbors 3 2 1 [1, 0, 0])
      ((3 * 2 * 0 + 3 * 0 + 2) * 6 + 3) = -1 ∧
    rd (SimulationAlgorithm3DBase.BuildMeshNeighbors 3 2 1 [1, 0, 0])
      ((3 * 2 * 0 + 3 * 0 + 2) * 6 + 0) = 0 :=
  ⟨((C14_grid_neighbors.1 3 2 1 [1, 0, 0] 2 0 0 2 2 1 0 (by decide) (by decide) (by decide)
      (by decide) (by decide) (by decide) (by decide)).1 (by decide)).trans (by decide),
   (C14_grid_neighbors.1 3 2 1 [1, 0, 0] 2 0 0 3 2 (-1) 0 (by decide) (by decide) (by decide)
      (by decide) (by decide) (by decide) (by decide)).2.1 (by decide),
   ((C14_grid_neighbors.1 3 2 1 [1, 0, 0] 2 0 0 0 3 0 0 (by decide) (by decide) (by decide)
      (by decide) (by decide) (by decide) (by decide)).2.2 (by decide)).trans (by decide)⟩

/-! ## C15: the opposed directions -/

/-- C15.  The table `opposed_direction` that `Init` stores is
`{1, 0, 3, 2, 5, 4}`: it swaps `0` with `1`, `2` with `3`, `4` with `5`, and
applying it twice gives the direction back.  It points back in the neighbour
table that `Init` builds: for every size of the grid, all boundary conditions,
every mesh `i` and direction `n` with `j = mesh_neighbors[i*6+n]` not `-1`,
`j` is a mesh and `mesh_neighbors[j*6+opposed_direction[n]] = i`. -/
theorem C15_opposed_directions :
    ∀ (m : Libm) (b : SimulationAlgorithm3DBase) (w h d n_species n_reactions n_env : Nat)
      (mesh_x0 : List ℚ) (mesh_chstt mesh_env : List Int) (mesh_vol : ℚ)
      (k sub sto r_env D : List ℚ) (boundary_conditions : List Int) (sample_n : Nat)
      (t_samples : List ℚ) (sampling_policy_code : Int) (sampling_interval t_max time_step : ℚ)
      (seed : Rng) (r : SimulationAlgorithm3DBase),
      r = b.Init m w h d n_species n_reactions n_env mesh_x0 mesh_chstt mesh_env mesh_vol k sub
        sto r_env D boundary_conditions sample_n t_samples sampling_policy_code
        sampling_interval t_max time_step seed →
      r.opposed_direction = [1, 0, 3, 2, 5, 4] ∧
      (rd r.opposed_direction 0 = 1 ∧ rd r.opposed_direction 1 = 0 ∧
        rd r.opposed_direction 2 = 3 ∧ rd r.opposed_direction 3 = 2 ∧
        rd r.opposed_direction 4 = 5 ∧ rd r.opposed_direction 5 = 4) ∧
      (∀ n, n < 6 → rd r.opposed_direction n < 6 ∧
        rd r.opposed_direction (rd r.opposed_direction n) = n) ∧
      (∀ (i n : Nat) (j : Int), i < w * h * d → n < 6 → j = rd r.mesh_neighbors (i * 6 + n) →
        j ≠ -1 →
        0 ≤ j ∧ j < ((w * h * d : Nat) : Int) ∧
          rd r.mesh_neighbors (j.toNat * 6 + rd r.opposed_direction n) = i) := by
  intro m b w h d n_species n_reactions n_env mesh_x0 mesh_chstt mesh_env mesh_vol k sub sto
    r_env D boundary_conditions sample_n t_samples sampling_policy_code sampling_interval t_max
    time_step seed r hr
  have hp := SimulationAlgorithm3DBase.Init_FacesPaired m b w h d n_species n_reactions n_env
    mesh_x0 mesh_chstt mesh_env mesh_vol k sub sto r_env D boundary_conditions sample_n
    t_samples sampling_policy_code sampling_interval t_max time_step seed
  rw [← hr] at hp
  have hopp : r.opposed_direction = [1, 0, 3, 2, 5, 4] := by rw [hr]; rfl
  have hnm : r.n_meshes = w * h * d := by rw [hr]; rfl
  refine ⟨hopp, ?_, ?_, ?_⟩
  · rw [hopp]
    exact ⟨rfl, rfl, rfl, rfl, rfl, rfl⟩
  · intro n hn
    rw [hopp]
    interval_cases n <;> exact ⟨by decide, rfl⟩
  · intro i n j hi hn hj hne
    subst hj
    obtain ⟨h0, h1, _, _, h4⟩ := hp i (by rw [hnm]; exact hi) n hn hne
    rw [hnm] at h1
    refine ⟨h0, ?_, h4⟩
    have := Int.toNat_of_nonneg h0
    omega

/-- C15 on a `2*1*1` lattice that is periodic along `x`: the neighbour of mesh
`0` in direction `1` is mesh `1`, and the neighbour of mesh `1` in the opposed
direction `0` is mesh `0`. -/
theorem C15_opposed_directions_witness :
    rd (SimulationAlgorithm3DBase.new.Init scenarioLibm 2 1 1 1 1 1 [100, 0] [0, 0] [0, 0] 1 [0]
      [1] [-1] [1] [1] [1, 0, 0] 0 [] 1 1 10 (1 / 10) scenarioRng).mesh_neighbors (0 * 6 + 1) =
      1 ∧
    rd (SimulationAlgorithm3DBase.new.Init scenarioLibm 2 1 1 1 1 1 [100, 0] [0, 0] [0, 0] 1 [0]
      [1] [-1] [1] [1] [1, 0, 0] 0 [] 1 1 10 (1 / 10) scenarioRng).mesh_neighbors
      ((1 : Int).toNat * 6 +
        rd (SimulationAlgorithm3DBase.new.Init scenarioLibm 2 1 1 1 1 1 [100, 0] [0, 0] [0, 0] 1
          [0] [1] [-1] [1] [1] [1, 0, 0] 0 [] 1 1 10 (1 / 10) scenarioRng).opposed_direction 1) =
      ((0 : Nat) : Int) :=
  ⟨by decide!,
   ((C15_opposed_directions scenarioLibm SimulationAlgorithm3DBase.new 2 1 1 1 1 1 [100, 0]
      [0, 0] [0, 0] 1 [0] [1] [-1] [1] [1] [1, 0, 0] 0 [] 1 1 10 (1 / 10) scenarioRng _
      rfl).2.2.2 0 1 1 (by decide) (by decide) (by decide!) (by decide)).2.2⟩

/-! ## C16: the clock of the kernels with a fixed step -/

namespace SimulationAlgorithmBase

/-- Method `SamplingStep` keeps the clock and the flag `complete`. -/
theorem SamplingStep_clock (b : SimulationAlgorithmBase) :
    b.SamplingStep.t = b.t ∧ b.SamplingStep.dt = b.dt ∧ b.SamplingStep.t_max = b.t_max ∧
      b.SamplingStep.complete = b.complete := by
  obtain ⟨g, p, l, h | ⟨_, h⟩⟩ := b.SamplingStep_once <;> rw [h] <;> exact ⟨rfl, rfl, rfl, rfl⟩

/-- The end of a step of a kernel: after the state, the generator and the
time are set, `SamplingStep` and `CheckTMax` run, and the flag returned is the
negation of `complete`. -/
theorem clock_of_step (b b1 : SimulationAlgorithmBase) (x : List ℚ) (r : Rng) (flag : Bool)
    (hc : b.complete = false)
    (h1 : b1 = CheckTMax (SamplingStep
      { b with mesh_x := x, rng := r, t := b.t + b.dt, sampling_done_this_iteration := false }))
    (hf : flag = !b1.complete) :
    b1.t = b.t + b.dt ∧ b1.dt = b.dt ∧ b1.t_max = b.t_max ∧
      (flag = false ↔ b.t_max ≥ 0 ∧ b.t + b.dt > b.t_max) ∧
      (b1.complete = true ↔ b.t_max ≥ 0 ∧ b.t + b.dt > b.t_max) := by
  obtain ⟨b0, hb0⟩ : ∃ b0 : SimulationAlgorithmBase, b0 =
      { b with mesh_x := x, rng := r, t := b.t + b.dt, sampling_done_this_iteration := false } :=
    ⟨_, rfl⟩
  rw [← hb0] at h1
  obtain ⟨s1, s2, s3, s4⟩ := b0.SamplingStep_clock
  have e1 : b0.t = b.t + b.dt := by rw [hb0]
  have e2 : b0.dt = b.dt := by rw [hb0]
  have e3 : b0.t_max = b.t_max := by rw [hb0]
  have e4 : b0.complete = false := by rw [hb0]; exact hc
  rw [e1] at s1
  rw [e2] at s2
  rw [e3] at s3
  rw [e4] at s4
  have hcomp : b1.complete = true ↔ b.t_max ≥ 0 ∧ b.t + b.dt > b.t_max := by
    rw [h1]
    unfold CheckTMax
    rw [s1, s3]
    split_ifs with hcond
    · exact ⟨fun _ => hcond, fun _ => rfl⟩
    · rw [s4]
      exact ⟨fun h => Bool.noConfusion h, fun h => absurd h hcond⟩
  have hkeep : b1.t = b.t + b.dt ∧ b1.dt = b.dt ∧ b1.t_max = b.t_max := by
    rw [h1]
    unfold CheckTMax
    split_ifs
    · exact ⟨s1, s2, s3⟩
    · exact ⟨s1, s2, s3⟩
  refine ⟨hkeep.1, hkeep.2.1, hkeep.2.2, ?_, hcomp⟩
  rw [hf, ← hcomp]
  cases b1.complete <;> simp

end SimulationAlgorithmBase

theorem Euler3D.Iterate_clock_euler3D (m : Libm) (e : Euler3D) (hc : e.complete = false) :
    (e.Iterate m).2.t = e.t + e.dt ∧ (e.Iterate m).2.dt = e.dt ∧
      (e.Iterate m).2.t_max = e.t_max ∧
      ((e.Iterate m).1 = false ↔ e.t_max ≥ 0 ∧ e.t + e.dt > e.t_max) ∧
      ((e.Iterate m).2.complete = true ↔ e.t_max ≥ 0 ∧ e.t + e.dt > e.t_max) := by
  unfold Euler3D.Iterate
  dsimp only
  rw [if_neg (by rw [hc]; exact Bool.false_ne_true)]
  exact SimulationAlgorithmBase.clock_of_step e.toSimulationAlgorithmBase _ _ e.rng _ hc rfl rfl

theorem EulerGraph.Iterate_clock_eulerGraph (m : Libm) (e : EulerGraph)
    (hc : e.complete = false) :
    (e.Iterate m).2.t = e.t + e.dt ∧ (e.Iterate m).2.dt = e.dt ∧
      (e.Iterate m).2.t_max = e.t_max ∧
      ((e.Iterate m).1 = false ↔ e.t_max ≥ 0 ∧ e.t + e.dt > e.t_max) ∧
      ((e.Iterate m).2.complete = true ↔ e.t_max ≥ 0 ∧ e.t + e.dt > e.t_max) := by
  unfold EulerGraph.Iterate
  dsimp only
  rw [if_neg (by rw [hc]; exact Bool.false_ne_true)]
  exact SimulationAlgorithmBase.clock_of_step e.toSimulationAlgorithmBase _ _ e.rng _ hc rfl rfl

theorem TauLeap3D.Iterate_clock_tauLeap3D (e : TauLeap3D) (hc : e.complete = false) :
    e.Iterate.2.t = e.t + e.dt ∧ e.Iterate.2.dt = e.dt ∧ e.Iterate.2.t_max = e.t_max ∧
      (e.Iterate.1 = false ↔ e.t_max ≥ 0 ∧ e.t + e.dt > e.t_max) ∧
      (e.Iterate.2.complete = true ↔ e.t_max ≥ 0 ∧ e.t + e.dt > e.t_max) := by
  unfold TauLeap3D.Iterate
  dsimp only
  rw [if_neg (by rw [hc]; exact Bool.false_ne_true)]
  obtain ⟨nr, nd, g, hg⟩ :=
    TauLeap3D.Compute_nevt_frame_tauLeap3D { e with sampling_done_this_iteration := false }
  rw [hg]
  exact SimulationAlgorithmBase.clock_of_step e.toSimulationAlgorithmBase _ _ g _ hc rfl rfl

theorem TauLeapGraph.Iterate_clock_tauLeapGraph (e : TauLeapGraph) (hc : e.complete = false) :
    e.Iterate.2.t = e.t + e.dt ∧ e.Iterate.2.dt = e.dt ∧ e.Iterate.2.t_max = e.t_max ∧
      (e.Iterate.1 = false ↔ e.t_max ≥ 0 ∧ e.t + e.dt > e.t_max) ∧
      (e.Iterate.2.complete = true ↔ e.t_max ≥ 0 ∧ e.t + e.dt > e.t_max) := by
  unfold TauLeapGraph.Iterate
  dsimp only
  rw [if_neg (by rw [hc]; exact Bool.false_ne_true)]
  obtain ⟨nr, nd, g, hg⟩ :=
    TauLeapGraph.Compute_nevt_frame_tauLeapGraph { e with sampling_done_this_iteration := false }
  rw [hg]
  exact SimulationAlgorithmBase.clock_of_step e.toSimulationAlgorithmBase _ _ g _ hc rfl rfl

/-- A step that keeps `t_max` and does not complete when `t_max < 0` never
completes from a state that is not complete and has `t_max < 0`. -/
theorem never_complete {σ : Type} (step : σ → Bool × σ) (base : σ → SimulationAlgorithmBase)
    (h : ∀ s, (base s).complete = false →
      (base (step s).2).t_max = (base s).t_max ∧
      ((step s).1 = false ↔ (base s).t_max ≥ 0 ∧ (base s).t + (base s).dt > (base s).t_max) ∧
      ((base (step s).2).complete = true ↔
        (base s).t_max ≥ 0 ∧ (base s).t + (base s).dt > (base s).t_max))
    (s : σ) (hc : (base s).complete = false) (ht : (base s).t_max < 0) (n : Nat) :
    (base ((fun s => (step s).2)^[n] s)).complete = false ∧
      (step ((fun s => (step s).2)^[n] s)).1 = true := by
  have key := iterate_keeps (fun s => (step s).2)
    (fun s => (base s).complete = false ∧ (base s).t_max < 0) (fun _ => ())
    (fun s hs => by
      obtain ⟨h1, _, h3⟩ := h s hs.1
      refine ⟨?_, by rw [h1]; exact hs.2⟩
      cases hcomp : (base (step s).2).complete
      · rfl
      · exact absurd (h3.mp hcomp).1 (not_le.mpr hs.2))
    (fun _ _ => rfl) n s ⟨hc, ht⟩
  obtain ⟨⟨k1, k2⟩, _⟩ := key
  refine ⟨k1, ?_⟩
  obtain ⟨_, h2, _⟩ := h _ k1
  cases hfl : (step ((fun s => (step s).2)^[n] s)).1
  · exact absurd (h2.mp hfl).1 (not_le.mpr k2)
  · rfl


/-- C16.  For `Euler3D`, `EulerGraph`, `TauLeap3D` and `TauLeapGraph`, from
every state with `complete = false`, `Iterate` advances `t` to `t + dt`; it
returns `false` exactly when `t_max >= 0` and the new `t` is greater than
`t_max`, and exactly then it sets `complete`; otherwise it returns `true`.  A
step that lands on `t = t_max` returns `true`; and with `t_max < 0`, after any
number of calls the simulation is not complete and `Iterate` returns `true`. -/
theorem C16_fixed_step_clock :
    (∀ (m : Libm) (e : Euler3D), e.complete = false →
      (e.Iterate m).2.t = e.t + e.dt ∧
      ((e.Iterate m).1 = false ↔ e.t_max ≥ 0 ∧ e.t + e.dt > e.t_max) ∧
      ((e.Iterate m).2.complete = true ↔ e.t_max ≥ 0 ∧ e.t + e.dt > e.t_max) ∧
      (e.t + e.dt = e.t_max → (e.Iterate m).1 = true) ∧
      (e.t_max < 0 → ∀ n,
        ((fun e => (Euler3D.Iterate m e).2)^[n] e).complete = false ∧
        (Euler3D.Iterate m ((fun e => (Euler3D.Iterate m e).2)^[n] e)).1 = true)) ∧
    (∀ (m : Libm) (e : EulerGraph), e.complete = false →
      (e.Iterate m).2.t = e.t + e.dt ∧
      ((e.Iterate m).1 = false ↔ e.t_max ≥ 0 ∧ e.t + e.dt > e.t_max) ∧
      ((e.Iterate m).2.complete = true ↔ e.t_max ≥ 0 ∧ e.t + e.dt > e.t_max) ∧
      (e.t + e.dt = e.t_max → (e.Iterate m).1 = true) ∧
      (e.t_max < 0 → ∀ n,
        ((fun e => (EulerGraph.Iterate m e).2)^[n] e).complete = false ∧
        (EulerGraph.Iterate m ((fun e => (EulerGraph.Iterate m e).2)^[n] e)).1 = true)) ∧
    (∀ (e : TauLeap3D), e.complete = false →
      e.Iterate.2.t = e.t + e.dt ∧
      (e.Iterate.1 = false ↔ e.t_max ≥ 0 ∧ e.t + e.dt > e.t_max) ∧
      (e.Iterate.2.complete = true ↔ e.t_max ≥ 0 ∧ e.t + e.dt > e.t_max) ∧
      (e.t + e.dt = e.t_max → e.Iterate.1 = true) ∧
      (e.t_max < 0 → ∀ n,
        ((fun e => (TauLeap3D.Iterate e).2)^[n] e).complete = false ∧
        (TauLeap3D.Iterate ((fun e => (TauLeap3D.Iterate e).2)^[n] e)).1 = true)) ∧
    (∀ (e : TauLeapGraph), e.complete = false →
      e.Iterate.2.t = e.t + e.dt ∧
      (e.Iterate.1 = false ↔ e.t_max ≥ 0 ∧ e.t + e.dt > e.t_max) ∧
      (e.Iterate.2.complete = true ↔ e.t_max ≥ 0 ∧ e.t + e.dt > e.t_max) ∧
      (e.t + e.dt = e.t_max → e.Iterate.1 = true) ∧
      (e.t_max < 0 → ∀ n,
        ((fun e => (TauLeapGraph.Iterate e).2)^[n] e).complete = false ∧
        (TauLeapGraph.Iterate ((fun e => (TauLeapGraph.Iterate e).2)^[n] e)).1 = true)) := by
  have landing : ∀ (flag : Bool) (t dt t_max : ℚ),
      (flag = false ↔ t_max ≥ 0 ∧ t + dt > t_max) → t + dt = t_max → flag = true := by
    intro flag t dt t_max h e
    cases hf : flag
    · exact absurd (h.mp hf).2 (by rw [e]; exact lt_irrefl _)
    · rfl
  refine ⟨fun m e hc => ?_, fun m e hc => ?_, fun e hc => ?_, fun e hc => ?_⟩
  · obtain ⟨h1, _, _, h4, h5⟩ := Euler3D.Iterate_clock_euler3D m e hc
    exact ⟨h1, h4, h5, landing _ _ _ _ h4, fun ht n =>
      never_complete (fun e => Euler3D.Iterate m e) (fun e => e.toSimulationAlgorithmBase)
        (fun s hs => by
          obtain ⟨_, _, k3, k4, k5⟩ := Euler3D.Iterate_clock_euler3D m s hs
          exact ⟨k3, k4, k5⟩) e hc ht n⟩
  · obtain ⟨h1, _, _, h4, h5⟩ := EulerGraph.Iterate_clock_eulerGraph m e hc
    exact ⟨h1, h4, h5, landing _ _ _ _ h4, fun ht n =>
      never_complete (fun e => EulerGraph.Iterate m e) (fun e => e.toSimulationAlgorithmBase)
        (fun s hs => by
          obtain ⟨_, _, k3, k4, k5⟩ := EulerGraph.Iterate_clock_eulerGraph m s hs
          exact ⟨k3, k4, k5⟩) e hc ht n⟩
  · obtain ⟨h1, _, _, h4, h5⟩ := TauLeap3D.Iterate_clock_tauLeap3D e hc
    exact ⟨h1, h4, h5, landing _ _ _ _ h4, fun ht n =>
      never_complete (fun e => TauLeap3D.Iterate e) (fun e => e.toSimulationAlgorithmBase)
        (fun s hs => by
          obtain ⟨_, _, k3, k4, k5⟩ := TauLeap3D.Iterate_clock_tauLeap3D s hs
          exact ⟨k3, k4, k5⟩) e hc ht n⟩
  · obtain ⟨h1, _, _, h4, h5⟩ := TauLeapGraph.Iterate_clock_tauLeapGraph e hc
    exact ⟨h1, h4, h5, landing _ _ _ _ h4, fun ht n =>
      never_complete (fun e => TauLeapGraph.Iterate e) (fun e => e.toSimulationAlgorithmBase)
        (fun s hs => by
          obtain ⟨_, _, k3, k4, k5⟩ := TauLeapGraph.Iterate_clock_tauLeapGraph s hs
          exact ⟨k3, k4, k5⟩) e hc ht n⟩

/-- C16 on scenario S5 (`t = 0`, `dt = 1/10`, `t_max = 10`): one `Iterate` of
each of the four kernels moves the time to `0 + 1/10`; with `t_max = 0` instead,
`Euler3D` returns `false`; with `t_max = 1/10` it lands on `t_max` and returns
`true`; with `t_max = -1` it returns `true` after three calls. -/
theorem C16_fixed_step_clock_witness :
    ((chemostatEuler3D.Iterate scenarioLibm).2.t = chemostatEuler3D.t + chemostatEuler3D.dt ∧
      (chemostatEulerGraph.Iterate scenarioLibm).2.t =
        chemostatEulerGraph.t + chemostatEulerGraph.dt ∧
      chemostatTauLeap3D.Iterate.2.t = chemostatTauLeap3D.t + chemostatTauLeap3D.dt ∧
      chemostatTauLeapGraph.Iterate.2.t = chemostatTauLeapGraph.t + chemostatTauLeapGraph.dt) ∧
    (Euler3D.Iterate scenarioLibm { chemostatEuler3D with t_max := 0 }).1 = false ∧
    (Euler3D.Iterate scenarioLibm { chemostatEuler3D with t_max := 1 / 10 }).1 = true ∧
    (Euler3D.Iterate scenarioLibm ((fun e => (Euler3D.Iterate scenarioLibm e).2)^[3]
      { chemostatEuler3D with t_max := -1 })).1 = true :=
  ⟨⟨(C16_fixed_step_clock.1 scenarioLibm chemostatEuler3D (by decide!)).1,
    (C16_fixed_step_clock.2.1 scenarioLibm chemostatEulerGraph (by decide!)).1,
    (C16_fixed_step_clock.2.2.1 chemostatTauLeap3D (by decide!)).1,
    (C16_fixed_step_clock.2.2.2 chemostatTauLeapGraph (by decide!)).1⟩,
   (C16_fixed_step_clock.1 scenarioLibm { chemostatEuler3D with t_max := 0 }
      (by decide!)).2.1.mpr ⟨by decide!, by decide!⟩,
   (C16_fixed_step_clock.1 scenarioLibm { chemostatEuler3D with t_max := 1 / 10 }
      (by decide!)).2.2.2.1 (by decide!),
   ((C16_fixed_step_clock.1 scenarioLibm { chemostatEuler3D with t_max := -1 }
      (by decide!)).2.2.2.2 (by decide!) 3).2⟩

/-! ## C17: completion is sticky -/

/-- C17.  For each of the six kernels, from every state with
`complete = true`, `Iterate` returns `false` and leaves the object as it is
but for the guard `sampling_done_this_iteration`, which it clears: `t`,
`mesh_x`, the trajectory, `sample_pos`, `last_tsi_ratio` and `complete` itself
are unchanged.  `Sample` does not change `complete` either. -/
theorem C17_completion_is_sticky :
    (∀ (m : Libm) (g : Gillespie3D), g.complete = true →
      g.Iterate m = (false, { g with sampling_done_this_iteration := false })) ∧
    (∀ (e : TauLeap3D), e.complete = true →
      e.Iterate = (false, { e with sampling_done_this_iteration := false })) ∧
    (∀ (m : Libm) (e : Euler3D), e.complete = true →
      e.Iterate m = (false, { e with sampling_done_this_iteration := false })) ∧
    (∀ (m : Libm) (g : GillespieGraph), g.complete = true →
      g.Iterate m = (false, { g with sampling_done_this_iteration := false })) ∧
    (∀ (e : TauLeapGraph), e.complete = true →
      e.Iterate = (false, { e with sampling_done_this_iteration := false })) ∧
    (∀ (m : Libm) (e : EulerGraph), e.complete = true →
      e.Iterate m = (false, { e with sampling_done_this_iteration := false })) ∧
    (∀ (m : Libm) (a : GridAlgo), a.base.complete = true →
      (a.Iterate m).1 = false ∧ (a.Iterate m).2.base.complete = true ∧
      (a.Iterate m).2.base.t = a.base.t ∧ (a.Iterate m).2.base.mesh_x = a.base.mesh_x ∧
      (a.Iterate m).2.base.sampled_t = a.base.sampled_t ∧
      (a.Iterate m).2.base.sampled_mesh_x = a.base.sampled_mesh_x ∧
      (a.Iterate m).2.base.sample_pos = a.base.sample_pos ∧
      (a.Iterate m).2.base.last_tsi_ratio = a.base.last_tsi_ratio) ∧
    (∀ (m : Libm) (a : GraphAlgo), a.base.complete = true →
      (a.Iterate m).1 = false ∧ (a.Iterate m).2.base.complete = true ∧
      (a.Iterate m).2.base.t = a.base.t ∧ (a.Iterate m).2.base.mesh_x = a.base.mesh_x ∧
      (a.Iterate m).2.base.sampled_t = a.base.sampled_t ∧
      (a.Iterate m).2.base.sampled_mesh_x = a.base.sampled_mesh_x ∧
      (a.Iterate m).2.base.sample_pos = a.base.sample_pos ∧
      (a.Iterate m).2.base.last_tsi_ratio = a.base.last_tsi_ratio) ∧
    (∀ a : GridAlgo, a.Sample.base.complete = a.base.complete) ∧
    (∀ a : GraphAlgo, a.Sample.base.complete = a.base.complete) := by
  have k1 : ∀ (m : Libm) (g : Gillespie3D), g.complete = true →
      g.Iterate m = (false, { g with sampling_done_this_iteration := false }) := by
    intro m g hc
    unfold Gillespie3D.Iterate
    dsimp only
    rw [if_pos hc]
  have k2 : ∀ (e : TauLeap3D), e.complete = true →
      e.Iterate = (false, { e with sampling_done_this_iteration := false }) := by
    intro e hc
    unfold TauLeap3D.Iterate
    dsimp only
    rw [if_pos hc]
  have k3 : ∀ (m : Libm) (e : Euler3D), e.complete = true →
      e.Iterate m = (false, { e with sampling_done_this_iteration := false }) := by
    intro m e hc
    unfold Euler3D.Iterate
    dsimp only
    rw [if_pos hc]
  have k4 : ∀ (m : Libm) (g : GillespieGraph), g.complete = true →
      g.Iterate m = (false, { g with sampling_done_this_iteration := false }) := by
    intro m g hc
    unfold GillespieGraph.Iterate
    dsimp only
    rw [if_pos hc]
  have k5 : ∀ (e : TauLeapGraph), e.complete = true →
      e.Iterate = (false, { e with sampling_done_this_iteration := false }) := by
    intro e hc
    unfold TauLeapGraph.Iterate
    dsimp only
    rw [if_pos hc]
  have k6 : ∀ (m : Libm) (e : EulerGraph), e.complete = true →
      e.Iterate m = (false, { e with sampling_done_this_iteration := false }) := by
    intro m e hc
    unfold EulerGraph.Iterate
    dsimp only
    rw [if_pos hc]
  refine ⟨k1, k2, k3, k4, k5, k6, ?_, ?_, ?_, ?_⟩
  · intro m a hc
    cases a with
    | gillespie g =>
      have h := k1 m g hc
      unfold GridAlgo.Iterate
      dsimp only
      rw [h]
      exact ⟨rfl, hc, rfl, rfl, rfl, rfl, rfl, rfl⟩
    | tauleap e =>
      have h := k2 e hc
      unfold GridAlgo.Iterate
      dsimp only
      rw [h]
      exact ⟨rfl, hc, rfl, rfl, rfl, rfl, rfl, rfl⟩
    | euler e =>
      have h := k3 m e hc
      unfold GridAlgo.Iterate
      dsimp only
      rw [h]
      exact ⟨rfl, hc, rfl, rfl, rfl, rfl, rfl, rfl⟩
  · intro m a hc
    cases a with
    | gillespie g =>
      have h := k4 m g hc
      unfold GraphAlgo.Iterate
      dsimp only
      rw [h]
      exact ⟨rfl, hc, rfl, rfl, rfl, rfl, rfl, rfl⟩
    | tauleap e =>
      have h := k5 e hc
      unfold GraphAlgo.Iterate
      dsimp only
      rw [h]
      exact ⟨rfl, hc, rfl, rfl, rfl, rfl, rfl, rfl⟩
    | euler e =>
      have h := k6 m e hc
      unfold GraphAlgo.Iterate
      dsimp only
      rw [h]
      exact ⟨rfl, hc, rfl, rfl, rfl, rfl, rfl, rfl⟩
  · intro a
    have h : a.base.toSimulationAlgorithmBase.Sample.complete = a.base.complete := by
      rw [a.base.toSimulationAlgorithmBase.Sample_eq]
    cases a <;> exact h
  · intro a
    have h : a.base.toSimulationAlgorithmBase.Sample.complete = a.base.complete := by
      rw [a.base.toSimulationAlgorithmBase.Sample_eq]
    cases a <;> exact h

/-- C17 on scenario S5 flagged as complete: `Iterate` of each of the six
kernels returns `false`. -/
theorem C17_completion_is_sticky_witness :
    (Gillespie3D.Iterate scenarioLibm { chemostatGillespie3D with complete := true }).1 = false ∧
    (TauLeap3D.Iterate { chemostatTauLeap3D with complete := true }).1 = false ∧
    (Euler3D.Iterate scenarioLibm { chemostatEuler3D with complete := true }).1 = false ∧
    (GillespieGraph.Iterate scenarioLibm { chemostatGillespieGraph with complete := true }).1 =
      false ∧
    (TauLeapGraph.Iterate { chemostatTauLeapGraph with complete := true }).1 = false ∧
    (EulerGraph.Iterate scenarioLibm { chemostatEulerGraph with complete := true }).1 = false ∧
    (GridAlgo.Iterate scenarioLibm
      (GridAlgo.euler { chemostatEuler3D with complete := true })).2.base.t = 0 ∧
    (GraphAlgo.Iterate scenarioLibm
      (GraphAlgo.euler { chemostatEulerGraph with complete := true })).2.base.t = 0 :=
  ⟨congrArg Prod.fst (C17_completion_is_sticky.1 scenarioLibm
      { chemostatGillespie3D with complete := true } rfl),
   congrArg Prod.fst (C17_completion_is_sticky.2.1
      { chemostatTauLeap3D with complete := true } rfl),
   congrArg Prod.fst (C17_completion_is_sticky.2.2.1 scenarioLibm
      { chemostatEuler3D with complete := true } rfl),
   congrArg Prod.fst (C17_completion_is_sticky.2.2.2.1 scenarioLibm
      { chemostatGillespieGraph with complete := true } rfl),
   congrArg Prod.fst (C17_completion_is_sticky.2.2.2.2.1
      { chemostatTauLeapGraph with complete := true } rfl),
   congrArg Prod.fst (C17_completion_is_sticky.2.2.2.2.2.1 scenarioLibm
      { chemostatEulerGraph with complete := true } rfl),
   ((C17_completion_is_sticky.2.2.2.2.2.2.1 scenarioLibm
      (GridAlgo.euler { chemostatEuler3D with complete := true }) rfl).2.2.1).trans (by decide!),
   ((C17_completion_is_sticky.2.2.2.2.2.2.2.1 scenarioLibm
      (GraphAlgo.euler { chemostatEulerGraph with complete := true }) rfl).2.2.1).trans
      (by decide!)⟩

/-! ## C18: a quiescent system under the Gillespie kernels -/

/-- A map that commutes with the body of a loop commutes with the loop. -/
theorem forLoop_map {σ τ : Type} (f : σ → τ) (n : Nat) (body : Nat → σ → σ)
    (body1 : Nat → τ → τ) (st : σ) (st1 : τ) (hst : f st = st1)
    (h : ∀ k, k < n → ∀ s, f (body k s) = body1 k (f s)) :
    f (forLoop n body st) = forLoop n body1 st1 := by
  subst hst
  induction n with
  | zero => simp
  | succ n ih =>
    rw [forLoop_succ, forLoop_succ, h n (Nat.lt_succ_self n),
      ih (fun k hk s => h k (Nat.lt_succ_of_lt hk) s)]

/-- The propensity of a reaction depends on the state, the substrates and the
constants only. -/
theorem SimulationAlgorithmBase.ReactionProp_congr (b b1 : SimulationAlgorithmBase)
    (hx : b1.mesh_x = b.mesh_x) (hs : b1.sub = b.sub) (hn : b1.n_species = b.n_species)
    (hr : b1.n_reactions = b.n_reactions) (hk : b1.mesh_kr = b.mesh_kr) (i r : Nat) :
    b1.ReactionProp i r = b.ReactionProp i r := by
  have hl : ∀ (l : List Nat) (a : ℚ),
      ReactionPropLoop b1 i r l a = ReactionPropLoop b i r l a := by
    intro l
    induction l with
    | nil => intro a; rfl
    | cons s rest ih =>
      intro a
      unfold ReactionPropLoop
      rw [hx, hs, hn, hr]
      split_ifs
      · exact ih _
      · rfl
  unfold ReactionProp
  rw [hl, hn, hr, hk]

/-- Method `ComputePropensities` of the grid does not read the guard of the
sampling. -/
theorem Gillespie3D.ComputePropensities_guard (g : Gillespie3D) (v : Bool) :
    Gillespie3D.ComputePropensities { g with sampling_done_this_iteration := v } =
      { g.ComputePropensities with sampling_done_this_iteration := v } := by
  have hrp : ∀ i r, SimulationAlgorithmBase.ReactionProp
      ({ g with sampling_done_this_iteration := v } : Gillespie3D).toSimulationAlgorithmBase i r =
      g.toSimulationAlgorithmBase.ReactionProp i r :=
    fun i r => SimulationAlgorithmBase.ReactionProp_congr g.toSimulationAlgorithmBase
      ({ g with sampling_done_this_iteration := v } : Gillespie3D).toSimulationAlgorithmBase
      rfl rfl rfl rfl rfl i r
  unfold Gillespie3D.ComputePropensities
  symm
  refine forLoop_map (fun s : Gillespie3D => { s with sampling_done_this_iteration := v })
    _ _ _ _ _ rfl (fun i _ s => ?_)
  dsimp only
  refine forLoop_map (fun s : Gillespie3D => { s with sampling_done_this_iteration := v })
    _ _ _ _ _ ?_ (fun sp _ s => ?_)
  · refine forLoop_map (fun s : Gillespie3D => { s with sampling_done_this_iteration := v })
      _ _ _ _ _ rfl (fun r _ s => ?_)
    dsimp only
    rw [hrp]
  · refine forLoop_map (fun s : Gillespie3D => { s with sampling_done_this_iteration := v })
      _ _ _ _ _ rfl (fun n _ s => ?_)
    dsimp only
    split_ifs <;> rfl

/-- Method `ComputePropensities` of the graph does not read the guard of the
sampling. -/
theorem GillespieGraph.ComputePropensities_guard_graph (g : GillespieGraph) (v : Bool) :
    GillespieGraph.ComputePropensities { g with sampling_done_this_iteration := v } =
      { g.ComputePropensities with sampling_done_this_iteration := v } := by
  have hrp : ∀ i r, SimulationAlgorithmBase.ReactionProp
      ({ g with sampling_done_this_iteration := v } : GillespieGraph).toSimulationAlgorithmBase
        i r = g.toSimulationAlgorithmBase.ReactionProp i r :=
    fun i r => SimulationAlgorithmBase.ReactionProp_congr g.toSimulationAlgorithmBase
      ({ g with sampling_done_this_iteration := v } : GillespieGraph).toSimulationAlgorithmBase
      rfl rfl rfl rfl rfl i r
  unfold GillespieGraph.ComputePropensities
  symm
  refine forLoop_map (fun s : GillespieGraph => { s with sampling_done_this_iteration := v })
    _ _ _ _ _ rfl (fun i _ s => ?_)
  dsimp only
  refine forLoop_map (fun s : GillespieGraph => { s with sampling_done_this_iteration := v })
    _ _ _ _ _ ?_ (fun sp _ s => ?_)
  · refine forLoop_map (fun s : GillespieGraph => { s with sampling_done_this_iteration := v })
      _ _ _ _ _ rfl (fun r _ s => ?_)
    dsimp only
    rw [hrp]
  · refine forLoop_map (fun s : GillespieGraph => { s with sampling_done_this_iteration := v })
      _ _ _ _ _ rfl (fun n _ s => ?_)
    rfl

/-- C18.  For `Gillespie3D` and `GillespieGraph`, from every state that is
not complete and whose total propensity `a0`, as `ComputePropensities`
computes it, is `0`: `Iterate` returns `false` and sets `complete`; it leaves
`mesh_x`, `t`, the trajectory and the generator (no draw is consumed) as they
are. -/
theorem C18_gillespie_quiescence :
    (∀ (m : Libm) (g : Gillespie3D), g.complete = false → g.ComputePropensities.a0 = 0 →
      (g.Iterate m).1 = false ∧ (g.Iterate m).2.complete = true ∧
      (g.Iterate m).2.mesh_x = g.mesh_x ∧ (g.Iterate m).2.t = g.t ∧
      (g.Iterate m).2.sampled_t = g.sampled_t ∧
      (g.Iterate m).2.sampled_mesh_x = g.sampled_mesh_x ∧
      (g.Iterate m).2.rng = g.rng) ∧
    (∀ (m : Libm) (g : GillespieGraph), g.complete = false → g.ComputePropensities.a0 = 0 →
      (g.Iterate m).1 = false ∧ (g.Iterate m).2.complete = true ∧
      (g.Iterate m).2.mesh_x = g.mesh_x ∧ (g.Iterate m).2.t = g.t ∧
      (g.Iterate m).2.sampled_t = g.sampled_t ∧
      (g.Iterate m).2.sampled_mesh_x = g.sampled_mesh_x ∧
      (g.Iterate m).2.rng = g.rng) := by
  constructor
  · intro m g hc ha
    obtain ⟨ar, ad, a0r, a0d, a0, hcp⟩ := g.ComputePropensities_frame_gillespie3D
    rw [hcp] at ha
    have ha0 : a0 = 0 := ha
    unfold Gillespie3D.Iterate
    dsimp only
    rw [if_neg (by rw [hc]; exact Bool.false_ne_true), Gillespie3D.ComputePropensities_guard, hcp]
    dsimp only
    rw [if_pos ha0]
    exact ⟨rfl, rfl, rfl, rfl, rfl, rfl, rfl⟩
  · intro m g hc ha
    obtain ⟨ar, ad, a0r, a0d, a0, hcp⟩ := g.ComputePropensities_frame_gillespieGraph
    rw [hcp] at ha
    have ha0 : a0 = 0 := ha
    unfold GillespieGraph.Iterate
    dsimp only
    rw [if_neg (by rw [hc]; exact Bool.false_ne_true),
      GillespieGraph.ComputePropensities_guard_graph, hcp]
    dsimp only
    rw [if_pos ha0]
    exact ⟨rfl, rfl, rfl, rfl, rfl, rfl, rfl⟩


/-- C18 on an empty system: every propensity is `0`, and the first `Iterate`
of both Gillespie kernels returns `false`, flags the simulation as complete
and leaves the time at `0`. -/
theorem C18_gillespie_quiescence_witness :
    ((quiescentGillespie3D.Iterate scenarioLibm).1 = false ∧
      (quiescentGillespie3D.Iterate scenarioLibm).2.complete = true ∧
      (quiescentGillespie3D.Iterate scenarioLibm).2.t = 0) ∧
    ((quiescentGillespieGraph.Iterate scenarioLibm).1 = false ∧
      (quiescentGillespieGraph.Iterate scenarioLibm).2.complete = true ∧
      (quiescentGillespieGraph.Iterate scenarioLibm).2.t = 0) :=
  ⟨⟨(C18_gillespie_quiescence.1 scenarioLibm quiescentGillespie3D (by decide!) (by decide!)).1,
    (C18_gillespie_quiescence.1 scenarioLibm quiescentGillespie3D (by decide!) (by decide!)).2.1,
    (C18_gillespie_quiescence.1 scenarioLibm quiescentGillespie3D (by decide!)
      (by decide!)).2.2.2.1.trans (by decide!)⟩,
   ⟨(C18_gillespie_quiescence.2 scenarioLibm quiescentGillespieGraph (by decide!)
      (by decide!)).1,
    (C18_gillespie_quiescence.2 scenarioLibm quiescentGillespieGraph (by decide!)
      (by decide!)).2.1,
    (C18_gillespie_quiescence.2 scenarioLibm quiescentGillespieGraph (by decide!)
      (by decide!)).2.2.2.1.trans (by decide!)⟩⟩

/-! ## C19: the sampling pass of `Init` -/

/-- The first sampling pass, from a state with an empty trajectory, the guard
unset and `sample_pos = 0`. -/
theorem SimulationAlgorithmBase.initial_pass (b0 : SimulationAlgorithmBase)
    (hg : b0.sampling_done_this_iteration = false) (hl : b0.sampled_t = [])
    (hm : b0.sampled_mesh_x = []) (hp : b0.sample_pos = 0) :
    (b0.sampling_policy_code = 1 →
      b0.SamplingStep.sampled_t = [b0.t] ∧ b0.SamplingStep.sampled_mesh_x = [b0.mesh_x]) ∧
    (b0.sampling_policy_code = 2 →
      b0.last_tsi_ratio < ((⌊b0.t / b0.sampling_interval⌋ : Int) : ℚ) →
      b0.SamplingStep.sampled_t = [b0.t] ∧ b0.SamplingStep.sampled_mesh_x = [b0.mesh_x]) ∧
    (b0.sampling_policy_code = 3 →
      b0.SamplingStep.sampled_t = [] ∧ b0.SamplingStep.sampled_mesh_x = []) ∧
    (b0.sampling_policy_code = 0 → 1 ≤ b0.n_samples → rd b0.t_samples 0 ≤ b0.t →
      b0.SamplingStep.sampled_t = [b0.t] ∧ b0.SamplingStep.sampled_mesh_x = [b0.mesh_x]) ∧
    (b0.sampling_policy_code = 0 → 1 ≤ b0.n_samples → b0.t < rd b0.t_samples 0 →
      b0.SamplingStep.sampled_t = [] ∧ b0.SamplingStep.sampled_mesh_x = []) := by
  have hS : b0.Sample.sampled_t = [b0.t] ∧ b0.Sample.sampled_mesh_x = [b0.mesh_x] := by
    rw [b0.Sample_eq]
    dsimp only
    rw [hg, hl, hm]
    exact ⟨rfl, rfl⟩
  refine ⟨fun hc => ?_, fun hc hr => ?_, fun hc => ?_, fun hc hn ht => ?_, fun hc hn ht => ?_⟩
  · unfold SamplingStep
    rw [if_neg (by rw [hc]; decide), if_pos hc]
    exact hS
  · unfold SamplingStep
    rw [if_neg (by rw [hc]; decide), if_neg (by rw [hc]; decide), if_pos hc]
    unfold SampleOnInterval
    dsimp only
    rw [if_pos hr]
    exact hS
  · unfold SamplingStep
    rw [if_neg (by rw [hc]; decide), if_neg (by rw [hc]; decide), if_neg (by rw [hc]; decide)]
    exact ⟨hl, hm⟩
  · unfold SamplingStep
    rw [if_pos hc]
    unfold SampleOnTSample
    obtain ⟨p, h, _, _, hexit⟩ := SampleOnTSampleLoop_spec (b0.n_samples - b0.sample_pos) b0
    rw [h, hp]
    rw [hp] at hexit
    have hpos : 0 < p := by
      by_contra hn0
      have hp0 : p = 0 := by omega
      have := hexit (le_refl _) (by omega)
      rw [hp0] at this
      exact absurd ht (not_le.mpr this)
    rw [if_pos hpos]
    exact hS
  · unfold SamplingStep
    rw [if_pos hc]
    unfold SampleOnTSample
    obtain ⟨p, h, _, hadv, _⟩ := SampleOnTSampleLoop_spec (b0.n_samples - b0.sample_pos) b0
    rw [h, hp]
    rw [hp] at hadv
    have hpos : ¬ 0 < p := fun hpos => absurd (hadv hpos).1 (not_le.mpr ht)
    rw [if_neg hpos]
    exact ⟨hl, hm⟩

/-- C19.  Immediately after `Init` (both topologies, any kernel), the time is
`0` and the trajectory holds the one snapshot `(0, mesh_x0)` under
`on_iteration` (code `1`) and under `on_interval` (code `2`, with an interval
that is not `0`), no snapshot under `no_sampling` (code `3`), and under
`on_t_sample` (code `0`) with `n_samples >= 1` the one snapshot `(0, mesh_x0)`
if `t_samples[0] <= 0` and none if `t_samples[0] > 0`. -/
theorem C19_initial_sampling_pass :
    (∀ (m : Libm) (a : GridAlgo) (w h d n_species n_reactions n_env : Nat)
      (mesh_x0 : List ℚ) (mesh_chstt mesh_env : List Int) (mesh_vol : ℚ)
      (k sub sto r_env D : List ℚ) (boundary_conditions : List Int) (sample_n : Nat)
      (t_samples : List ℚ) (sampling_policy_code : Int) (sampling_interval t_max time_step : ℚ)
      (seed : Rng) (r : SimulationAlgorithmBase),
      r = (a.Init m w h d n_species n_reactions n_env mesh_x0 mesh_chstt mesh_env mesh_vol k sub
        sto r_env D boundary_conditions sample_n t_samples sampling_policy_code
        sampling_interval t_max time_step seed).base.toSimulationAlgorithmBase →
      r.t = 0 ∧ r.mesh_x = mesh_x0 ∧
      (sampling_policy_code = 1 → r.sampled_t = [0] ∧ r.sampled_mesh_x = [mesh_x0]) ∧
      (sampling_policy_code = 2 → sampling_interval ≠ 0 →
        r.sampled_t = [0] ∧ r.sampled_mesh_x = [mesh_x0]) ∧
      (sampling_policy_code = 3 → r.sampled_t = [] ∧ r.sampled_mesh_x = []) ∧
      (sampling_policy_code = 0 → 1 ≤ sample_n → rd t_samples 0 ≤ 0 →
        r.sampled_t = [0] ∧ r.sampled_mesh_x = [mesh_x0]) ∧
      (sampling_policy_code = 0 → 1 ≤ sample_n → 0 < rd t_samples 0 →
        r.sampled_t = [] ∧ r.sampled_mesh_x = [])) ∧
    (∀ (m : Libm) (a : GraphAlgo) (n_nodes n_species n_reactions n_env n_edges : Nat)
      (edge_i edge_j : List Nat) (edge_sfc edge_dst : List ℚ) (mesh_x0 : List ℚ)
      (mesh_chstt mesh_env : List Int) (mesh_vol : List ℚ) (k sub sto r_env D : List ℚ)
      (sample_n : Nat) (t_samples : List ℚ) (sampling_policy_code : Int)
      (sampling_interval t_max time_step : ℚ) (seed : Rng) (r : SimulationAlgorithmBase),
      r = (a.Init m n_nodes n_species n_reactions n_env n_edges edge_i edge_j edge_sfc edge_dst
        mesh_x0 mesh_chstt mesh_env mesh_vol k sub sto r_env D sample_n t_samples
        sampling_policy_code sampling_interval t_max time_step seed).base.toSimulationAlgorithmBase →
      r.t = 0 ∧ r.mesh_x = mesh_x0 ∧
      (sampling_policy_code = 1 → r.sampled_t = [0] ∧ r.sampled_mesh_x = [mesh_x0]) ∧
      (sampling_policy_code = 2 → sampling_interval ≠ 0 →
        r.sampled_t = [0] ∧ r.sampled_mesh_x = [mesh_x0]) ∧
      (sampling_policy_code = 3 → r.sampled_t = [] ∧ r.sampled_mesh_x = []) ∧
      (sampling_policy_code = 0 → 1 ≤ sample_n → rd t_samples 0 ≤ 0 →
        r.sampled_t = [0] ∧ r.sampled_mesh_x = [mesh_x0]) ∧
      (sampling_policy_code = 0 → 1 ≤ sample_n → 0 < rd t_samples 0 →
        r.sampled_t = [] ∧ r.sampled_mesh_x = [])) := by
  have key : ∀ (b0 r : SimulationAlgorithmBase) (mesh_x0 : List ℚ) (sample_n : Nat)
      (t_samples : List ℚ) (sampling_policy_code : Int) (sampling_interval : ℚ),
      r = b0.SamplingStep → b0.sampling_done_this_iteration = false → b0.sampled_t = [] →
      b0.sampled_mesh_x = [] → b0.sample_pos = 0 → b0.t = 0 → b0.mesh_x = mesh_x0 →
      b0.last_tsi_ratio = -1 → b0.sampling_policy_code = sampling_policy_code →
      b0.sampling_interval = sampling_interval → b0.n_samples = sample_n →
      b0.t_samples = t_samples →
      r.t = 0 ∧ r.mesh_x = mesh_x0 ∧
      (sampling_policy_code = 1 → r.sampled_t = [0] ∧ r.sampled_mesh_x = [mesh_x0]) ∧
      (sampling_policy_code = 2 → sampling_interval ≠ 0 →
        r.sampled_t = [0] ∧ r.sampled_mesh_x = [mesh_x0]) ∧
      (sampling_policy_code = 3 → r.sampled_t = [] ∧ r.sampled_mesh_x = []) ∧
      (sampling_policy_code = 0 → 1 ≤ sample_n → rd t_samples 0 ≤ 0 →
        r.sampled_t = [0] ∧ r.sampled_mesh_x = [mesh_x0]) ∧
      (sampling_policy_code = 0 → 1 ≤ sample_n → 0 < rd t_samples 0 →
        r.sampled_t = [] ∧ r.sampled_mesh_x = []) := by
    intro b0 r mesh_x0 sample_n t_samples code si hr hg hl hm hp ht hx hlast hcode hsi hn hts
    obtain ⟨p1, p2, p3, p4, p5⟩ := b0.initial_pass hg hl hm hp
    simp only [ht, hx, hcode, hn, hts, hlast, hsi, ← hr] at p1 p2 p3 p4 p5
    have hframe : r.t = 0 ∧ r.mesh_x = mesh_x0 := by
      rw [hr, ← ht, ← hx]
      obtain ⟨g, p, l, h | ⟨_, h⟩⟩ := b0.SamplingStep_once <;> rw [h] <;> exact ⟨rfl, rfl⟩
    refine ⟨hframe.1, hframe.2, p1, fun hc _ => p2 hc ?_, p3, p4, p5⟩
    rw [zero_div, Int.floor_zero]
    norm_num
  constructor
  · intro m a w h d n_species n_reactions n_env mesh_x0 mesh_chstt mesh_env mesh_vol k sub sto
      r_env D boundary_conditions sample_n t_samples sampling_policy_code sampling_interval t_max
      time_step seed r hr
    obtain ⟨kr, hb⟩ := GridAlgo.Init_base_grid m a w h d n_species n_reactions n_env mesh_x0
      mesh_chstt mesh_env mesh_vol k sub sto r_env D boundary_conditions sample_n t_samples
      sampling_policy_code sampling_interval t_max time_step seed
    rw [hb] at hr
    exact key _ r mesh_x0 sample_n t_samples sampling_policy_code sampling_interval hr rfl rfl
      rfl rfl rfl rfl rfl rfl rfl rfl rfl
  · intro m a n_nodes n_species n_reactions n_env n_edges edge_i edge_j edge_sfc edge_dst mesh_x0
      mesh_chstt mesh_env mesh_vol k sub sto r_env D sample_n t_samples sampling_policy_code
      sampling_interval t_max time_step seed r hr
    obtain ⟨kr, hb⟩ := GraphAlgo.Init_base_graphAlgo m a n_nodes n_species n_reactions n_env
      n_edges edge_i edge_j edge_sfc edge_dst mesh_x0 mesh_chstt mesh_env mesh_vol k sub sto
      r_env D sample_n t_samples sampling_policy_code sampling_interval t_max time_step seed
    rw [hb] at hr
    exact key _ r mesh_x0 sample_n t_samples sampling_policy_code sampling_interval hr rfl rfl
      rfl rfl rfl rfl rfl rfl rfl rfl rfl


/-- C19 on the scenario with targets: with the first target at `1/2` nothing is
recorded by `Init`, with the first target at `0` the snapshot `(0, [100, 0])`
is; the same scenario records that snapshot under `on_interval` with interval
`1` and under `on_iteration`, and nothing under `no_sampling`. -/
theorem C19_initial_sampling_pass_witness :
    ((targetsGrid [1 / 2, 3 / 2]).base.sampled_t = [] ∧
      (targetsGrid [1 / 2, 3 / 2]).base.sampled_mesh_x = []) ∧
    ((targetsGraph [0, 1]).base.sampled_t = [0] ∧
      (targetsGraph [0, 1]).base.sampled_mesh_x = [[100, 0]]) ∧
    (((GridAlgo.euler Euler3D.new).Init scenarioLibm 2 1 1 1 1 1 [100, 0] [0, 0] [0, 0] 1
        [0] [1] [-1] [1] [1 / 10] [0, 0, 0] 0 [] 2 1 10 1 scenarioRng).base.sampled_t = [0] ∧
      ((GridAlgo.euler Euler3D.new).Init scenarioLibm 2 1 1 1 1 1 [100, 0] [0, 0] [0, 0] 1
        [0] [1] [-1] [1] [1 / 10] [0, 0, 0] 0 [] 2 1 10 1 scenarioRng).base.sampled_mesh_x =
        [[100, 0]]) ∧
    (((GraphAlgo.euler EulerGraph.new).Init scenarioLibm 2 1 1 1 1 [0] [1] [1] [1]
        [100, 0] [0, 0] [0, 0] [1, 1] [0] [1] [-1] [1] [1 / 10] 0 [] 1 1 10 1
        scenarioRng).base.sampled_t = [0] ∧
      ((GraphAlgo.euler EulerGraph.new).Init scenarioLibm 2 1 1 1 1 [0] [1] [1] [1]
        [100, 0] [0, 0] [0, 0] [1, 1] [0] [1] [-1] [1] [1 / 10] 0 [] 1 1 10 1
        scenarioRng).base.sampled_mesh_x = [[100, 0]]) ∧
    (((GridAlgo.euler Euler3D.new).Init scenarioLibm 2 1 1 1 1 1 [100, 0] [0, 0] [0, 0] 1
        [0] [1] [-1] [1] [1 / 10] [0, 0, 0] 0 [] 3 1 10 1 scenarioRng).base.sampled_t = [] ∧
      ((GridAlgo.euler Euler3D.new).Init scenarioLibm 2 1 1 1 1 1 [100, 0] [0, 0] [0, 0] 1
        [0] [1] [-1] [1] [1 / 10] [0, 0, 0] 0 [] 3 1 10 1 scenarioRng).base.sampled_mesh_x = []) :=
  ⟨(C19_initial_sampling_pass.1 scenarioLibm (GridAlgo.euler Euler3D.new) 2 1 1 1 1 1 [100, 0]
      [0, 0] [0, 0] 1 [0] [1] [-1] [1] [1 / 10] [0, 0, 0] 2 [1 / 2, 3 / 2] 0 1 10 1 scenarioRng _
      rfl).2.2.2.2.2.2 rfl (by decide) (by decide!),
   (C19_initial_sampling_pass.2 scenarioLibm (GraphAlgo.euler EulerGraph.new) 2 1 1 1 1 [0] [1]
      [1] [1] [100, 0] [0, 0] [0, 0] [1, 1] [0] [1] [-1] [1] [1 / 10] 2 [0, 1] 0 1 10 1
      scenarioRng _ rfl).2.2.2.2.2.1 rfl (by decide) (by decide!),
   (C19_initial_sampling_pass.1 scenarioLibm (GridAlgo.euler Euler3D.new) 2 1 1 1 1 1 [100, 0]
      [0, 0] [0, 0] 1 [0] [1] [-1] [1] [1 / 10] [0, 0, 0] 0 [] 2 1 10 1 scenarioRng _
      rfl).2.2.2.1 rfl (by decide!),
   (C19_initial_sampling_pass.2 scenarioLibm (GraphAlgo.euler EulerGraph.new) 2 1 1 1 1 [0] [1]
      [1] [1] [100, 0] [0, 0] [0, 0] [1, 1] [0] [1] [-1] [1] [1 / 10] 0 [] 1 1 10 1
      scenarioRng _ rfl).2.2.1 rfl,
   (C19_initial_sampling_pass.1 scenarioLibm (GridAlgo.euler Euler3D.new) 2 1 1 1 1 1 [100, 0]
      [0, 0] [0, 0] 1 [0] [1] [-1] [1] [1 / 10] [0, 0, 0] 0 [] 3 1 10 1 scenarioRng _
      rfl).2.2.2.2.1 rfl⟩

/-! ## C20: sampling on an interval -/

namespace SimulationAlgorithmBase

/-- Method `SampleOnInterval` never lowers `last_tsi_ratio`. -/
theorem SampleOnInterval_mono (b : SimulationAlgorithmBase) :
    b.last_tsi_ratio ≤ b.SampleOnInterval.last_tsi_ratio := by
  unfold SampleOnInterval
  dsimp only
  split_ifs with h
  · exact le_of_lt h
  · exact le_refl _

/-- Method `SamplingStep` never lowers `last_tsi_ratio`. -/
theorem SamplingStep_mono (b : SimulationAlgorithmBase) :
    b.last_tsi_ratio ≤ b.SamplingStep.last_tsi_ratio := by
  unfold SamplingStep
  split_ifs
  · unfold SampleOnTSample
    obtain ⟨p, h, _⟩ := SampleOnTSampleLoop_spec (b.n_samples - b.sample_pos) b
    rw [h]
    split_ifs
    · rw [b.Sample_eq]
    · exact le_refl _
  · rw [b.Sample_eq]
  · exact b.SampleOnInterval_mono
  · exact le_refl _

/-- One `Iterate` never lowers `last_tsi_ratio`. -/
theorem IterateShape_mono (b b1 : SimulationAlgorithmBase) (h : b.IterateShape b1) :
    b.last_tsi_ratio ≤ b1.last_tsi_ratio := by
  rcases h with h | h | ⟨x, r, dt, t, h⟩
  · rw [h]
  · rw [h]
  · rw [h]
    unfold CheckTMax
    split_ifs
    · exact SamplingStep_mono _
    · exact SamplingStep_mono _

end SimulationAlgorithmBase

/-- C20.  From every state with `sampling_interval > 0` and the guard unset,
`SampleOnInterval` appends the snapshot `(t, mesh_x)`, sets the guard and sets
`last_tsi_ratio` to `floor(t/sampling_interval)` if that number is greater
than `last_tsi_ratio`, and changes nothing otherwise; hence, when it appends a
snapshot of time `ts`, `last_tsi_ratio` is `floor(ts/sampling_interval)`
afterwards.  From every state, `SampleOnInterval` and `Iterate` of every kernel
leave `last_tsi_ratio` at least as large as it was. -/
theorem C20_sampling_on_interval :
    (∀ b : SimulationAlgorithmBase, 0 < b.sampling_interval →
      b.sampling_done_this_iteration = false →
      (b.last_tsi_ratio < ((⌊b.t / b.sampling_interval⌋ : Int) : ℚ) →
        b.SampleOnInterval =
          { b with
            sampled_mesh_x := b.sampled_mesh_x ++ [b.mesh_x]
            sampled_t := b.sampled_t ++ [b.t]
            sampling_done_this_iteration := true
            last_tsi_ratio := ((⌊b.t / b.sampling_interval⌋ : Int) : ℚ) }) ∧
      (¬ b.last_tsi_ratio < ((⌊b.t / b.sampling_interval⌋ : Int) : ℚ) →
        b.SampleOnInterval = b) ∧
      (∀ ts, b.SampleOnInterval.sampled_t = b.sampled_t ++ [ts] →
        b.SampleOnInterval.last_tsi_ratio = ((⌊ts / b.sampling_interval⌋ : Int) : ℚ))) ∧
    (∀ b : SimulationAlgorithmBase, b.last_tsi_ratio ≤ b.SampleOnInterval.last_tsi_ratio) ∧
    (∀ (m : Libm) (a : GridAlgo),
      a.base.last_tsi_ratio ≤ (a.Iterate m).2.base.last_tsi_ratio) ∧
    (∀ (m : Libm) (a : GraphAlgo),
      a.base.last_tsi_ratio ≤ (a.Iterate m).2.base.last_tsi_ratio) := by
  refine ⟨fun b _ hg => ?_, fun b => b.SampleOnInterval_mono,
    fun m a => SimulationAlgorithmBase.IterateShape_mono _ _ (GridAlgo.Iterate_shape_grid m a),
    fun m a => SimulationAlgorithmBase.IterateShape_mono _ _ (GraphAlgo.Iterate_shape_graph m a)⟩
  have h1 : b.last_tsi_ratio < ((⌊b.t / b.sampling_interval⌋ : Int) : ℚ) →
      b.SampleOnInterval =
        { b with
          sampled_mesh_x := b.sampled_mesh_x ++ [b.mesh_x]
          sampled_t := b.sampled_t ++ [b.t]
          sampling_done_this_iteration := true
          last_tsi_ratio := ((⌊b.t / b.sampling_interval⌋ : Int) : ℚ) } := by
    intro h
    unfold SimulationAlgorithmBase.SampleOnInterval
    dsimp only
    rw [if_pos h, b.Sample_eq, hg]
    rfl
  have h2 : ¬ b.last_tsi_ratio < ((⌊b.t / b.sampling_interval⌋ : Int) : ℚ) →
      b.SampleOnInterval = b := by
    intro h
    unfold SimulationAlgorithmBase.SampleOnInterval
    dsimp only
    rw [if_neg h]
  refine ⟨h1, h2, fun ts hts => ?_⟩
  by_cases h : b.last_tsi_ratio < ((⌊b.t / b.sampling_interval⌋ : Int) : ℚ)
  · rw [h1 h] at hts ⊢
    have e : ts = b.t := by
      have := List.append_cancel_left hts
      exact ((List.cons.inj this).1).symm
    rw [e]
  · rw [h2 h] at hts
    have := congrArg List.length hts
    rw [List.length_append] at this
    simp at this

/-- C20 on scenario S5 at `t = 0` with `sampling_interval = 1`: from
`last_tsi_ratio = -1` the snapshot of time `0` is appended and `last_tsi_ratio`
becomes `0`; from `last_tsi_ratio = 0` nothing changes. -/
theorem C20_sampling_on_interval_witness :
    (SimulationAlgorithmBase.SampleOnInterval chemostatGrid.toSimulationAlgorithmBase).sampled_t =
      [0] ∧
    (SimulationAlgorithmBase.SampleOnInterval
      chemostatGrid.toSimulationAlgorithmBase).last_tsi_ratio = 0 ∧
    (SimulationAlgorithmBase.SampleOnInterval
      { chemostatGrid.toSimulationAlgorithmBase with last_tsi_ratio := 0 }).sampled_t = [] :=
  ⟨(congrArg SimulationAlgorithmBase.sampled_t
      ((C20_sampling_on_interval.1 chemostatGrid.toSimulationAlgorithmBase (by decide!)
        (by decide!)).1 (by decide!))).trans (by decide!),
   (congrArg SimulationAlgorithmBase.last_tsi_ratio
      ((C20_sampling_on_interval.1 chemostatGrid.toSimulationAlgorithmBase (by decide!)
        (by decide!)).1 (by decide!))).trans (by decide!),
   (congrArg SimulationAlgorithmBase.sampled_t
      ((C20_sampling_on_interval.1
        { chemostatGrid.toSimulationAlgorithmBase with last_tsi_ratio := 0 } (by decide!)
        (by decide!)).2.1 (by decide!))).trans (by decide!)⟩

/-! ## C26: `Finalize` called twice -/

/-- C26 fails on the code.  `Finalize` assigns no global, so a second call
does what the first call did.  Without a live session (the globals as the
library loads them) it returns `0` and deletes nothing; but after
`Initialize3D` or `InitializeGraph` has allocated a kernel,
`global_algo_freed` is `false` and stays `false`: the first `Finalize` deletes
the kernel and the second `Finalize` deletes the same pointer again. -/
theorem C26_finalize_releases_twice :
    (∀ G : Session, (Finalize G).1 = 0 ∧ (Finalize G).2.1 = G ∧
      Finalize (Finalize G).2.1 = Finalize G) ∧
    Finalize Session.initial = (0, Session.initial, []) ∧
    (∃ G1, Initialize3D 0 scenarioLibm Session.initial 3 1 1 2 1 1 [1, 2, 3, 4, 5, 6]
        [0, 0, 0, 0, 0, 0] [0, 0, 0] 1 [1] [1, 0] [-1, 1] [1] [1, 1] "reflecting" "periodical"
        "reflecting" 0 [] "on_iteration" 1 10 (1 / 10) scenarioRng "euler" = some (0, G1) ∧
      G1.global_algo_freed = false ∧
      (Finalize G1).2.2 = [Deleted.global_grid_algo] ∧
      (Finalize (Finalize G1).2.1).2.2 = [Deleted.global_grid_algo]) ∧
    (∃ G1, InitializeGraph 0 scenarioLibm Session.initial 3 2 1 1 2 [0, 1] [1, 2] [1, 1] [1, 1]
        [1, 2, 3, 4, 5, 6] [0, 0, 0, 0, 0, 0] [0, 0, 0] [1, 1, 1] [1] [1, 0] [-1, 1] [1] [1, 1]
        0 [] "no_sampling" 1 10 (1 / 10) scenarioRng "euler" = some (0, G1) ∧
      G1.global_algo_freed = false ∧
      (Finalize G1).2.2 = [Deleted.global_graph_algo] ∧
      (Finalize (Finalize G1).2.1).2.2 = [Deleted.global_graph_algo]) := by
  have h1 : ∀ G : Session, (Finalize G).1 = 0 ∧ (Finalize G).2.1 = G := by
    intro G
    unfold Finalize
    split_ifs <;> exact ⟨rfl, rfl⟩
  refine ⟨fun G => ⟨(h1 G).1, (h1 G).2, by rw [(h1 G).2]⟩, rfl, ?_, ?_⟩
  · exact ⟨_, rfl, rfl, rfl, rfl⟩
  · exact ⟨_, rfl, rfl, rfl, rfl⟩

/-! ## C29: the tau-leap kernels and negative counts -/

/-- Counterexample to C29 as stated.  One mesh holds one molecule of a species
that decays with `k = 1`; the counts and the constants are non-negative and
`dt = 1/10 > 0`.  The number of decays of the step is a Poisson draw of mean
`1/10`; when the draw is `2`, `Apply_nevt` adds `-1 * 2` to the count, and the
count after `Iterate` is `-1`, in `TauLeap3D` and in `TauLeapGraph`. -/
theorem C29_tauleap_negative_count :
    (burstTauLeap3D.mesh_x = [1] ∧ burstTauLeap3D.mesh_kr = [1] ∧
      burstTauLeap3D.mesh_kd = [0, 0, 0, 0, 0, 0] ∧ burstTauLeap3D.dt = 1 / 10 ∧
      burstTauLeap3D.complete = false ∧
      SimulationAlgorithmBase.ReactionProp burstTauLeap3D.toSimulationAlgorithmBase 0 0 *
        burstTauLeap3D.dt = 1 / 10 ∧
      burstTauLeap3D.Iterate.2.mesh_x = [-1]) ∧
    (burstTauLeapGraph.mesh_x = [1] ∧ burstTauLeapGraph.mesh_kr = [1] ∧
      burstTauLeapGraph.mesh_kd_out = [[]] ∧ burstTauLeapGraph.dt = 1 / 10 ∧
      burstTauLeapGraph.complete = false ∧
      SimulationAlgorithmBase.ReactionProp burstTauLeapGraph.toSimulationAlgorithmBase 0 0 *
        burstTauLeapGraph.dt = 1 / 10 ∧
      burstTauLeapGraph.Iterate.2.mesh_x = [-1]) := by
  refine ⟨⟨?_, ?_, ?_, ?_, ?_, ?_, ?_⟩, ⟨?_, ?_, ?_, ?_, ?_, ?_, ?_⟩⟩ <;> decide!

/-! ## C21: sampling on every iteration -/

namespace SimulationAlgorithmBase

/-- The end of a step under the policy `on_iteration`: the pair `(t, mesh_x)`
that the step has set is appended to the trajectory. -/
theorem step_on_iteration (b b1 : SimulationAlgorithmBase) (x : List ℚ) (r : Rng) (dt t : ℚ)
    (hp : b.sampling_policy_code = 1)
    (h1 : b1 = CheckTMax (SamplingStep
      { b with mesh_x := x, rng := r, dt := dt, t := t, sampling_done_this_iteration := false })) :
    b1.sampled_t = b.sampled_t ++ [b1.t] ∧ b1.sampled_mesh_x = b.sampled_mesh_x ++ [b1.mesh_x] ∧
      b1.t = t ∧ b1.mesh_x = x := by
  have hs : SamplingStep
      { b with mesh_x := x, rng := r, dt := dt, t := t, sampling_done_this_iteration := false } =
      { b with
        mesh_x := x, rng := r, dt := dt, t := t
        sampled_mesh_x := b.sampled_mesh_x ++ [x]
        sampled_t := b.sampled_t ++ [t]
        sampling_done_this_iteration := true } := by
    unfold SamplingStep
    rw [if_neg (by show ¬ b.sampling_policy_code = 0; rw [hp]; decide),
      if_pos (by show b.sampling_policy_code = 1; exact hp), Sample_eq]
    rfl
  rw [h1, hs]
  unfold CheckTMax
  split_ifs <;> exact ⟨rfl, rfl, rfl, rfl⟩

end SimulationAlgorithmBase

theorem Euler3D.Iterate_on_iteration_euler3D (m : Libm) (e : Euler3D) (hc : e.complete = false)
    (hp : e.sampling_policy_code = 1) :
    (e.Iterate m).2.sampled_t = e.sampled_t ++ [(e.Iterate m).2.t] ∧
      (e.Iterate m).2.sampled_mesh_x = e.sampled_mesh_x ++ [(e.Iterate m).2.mesh_x] := by
  unfold Euler3D.Iterate
  dsimp only
  rw [if_neg (by rw [hc]; exact Bool.false_ne_true)]
  obtain ⟨h1, h2, _⟩ := SimulationAlgorithmBase.step_on_iteration e.toSimulationAlgorithmBase _ _
    e.rng e.dt (e.t + e.dt) hp rfl
  exact ⟨h1, h2⟩

theorem EulerGraph.Iterate_on_iteration_eulerGraph (m : Libm) (e : EulerGraph)
    (hc : e.complete = false) (hp : e.sampling_policy_code = 1) :
    (e.Iterate m).2.sampled_t = e.sampled_t ++ [(e.Iterate m).2.t] ∧
      (e.Iterate m).2.sampled_mesh_x = e.sampled_mesh_x ++ [(e.Iterate m).2.mesh_x] := by
  unfold EulerGraph.Iterate
  dsimp only
  rw [if_neg (by rw [hc]; exact Bool.false_ne_true)]
  obtain ⟨h1, h2, _⟩ := SimulationAlgorithmBase.step_on_iteration e.toSimulationAlgorithmBase _ _
    e.rng e.dt (e.t + e.dt) hp rfl
  exact ⟨h1, h2⟩

theorem TauLeap3D.Iterate_on_iteration_tauLeap3D (e : TauLeap3D) (hc : e.complete = false)
    (hp : e.sampling_policy_code = 1) :
    e.Iterate.2.sampled_t = e.sampled_t ++ [e.Iterate.2.t] ∧
      e.Iterate.2.sampled_mesh_x = e.sampled_mesh_x ++ [e.Iterate.2.mesh_x] := by
  unfold TauLeap3D.Iterate
  dsimp only
  rw [if_neg (by rw [hc]; exact Bool.false_ne_true)]
  obtain ⟨nr, nd, g, hg⟩ :=
    TauLeap3D.Compute_nevt_frame_tauLeap3D { e with sampling_done_this_iteration := false }
  rw [hg]
  obtain ⟨h1, h2, _⟩ := SimulationAlgorithmBase.step_on_iteration e.toSimulationAlgorithmBase _ _
    g e.dt (e.t + e.dt) hp rfl
  exact ⟨h1, h2⟩

theorem TauLeapGraph.Iterate_on_iteration_tauLeapGraph (e : TauLeapGraph)
    (hc : e.complete = false) (hp : e.sampling_policy_code = 1) :
    e.Iterate.2.sampled_t = e.sampled_t ++ [e.Iterate.2.t] ∧
      e.Iterate.2.sampled_mesh_x = e.sampled_mesh_x ++ [e.Iterate.2.mesh_x] := by
  unfold TauLeapGraph.Iterate
  dsimp only
  rw [if_neg (by rw [hc]; exact Bool.false_ne_true)]
  obtain ⟨nr, nd, g, hg⟩ :=
    TauLeapGraph.Compute_nevt_frame_tauLeapGraph { e with sampling_done_this_iteration := false }
  rw [hg]
  obtain ⟨h1, h2, _⟩ := SimulationAlgorithmBase.step_on_iteration e.toSimulationAlgorithmBase _ _
    g e.dt (e.t + e.dt) hp rfl
  exact ⟨h1, h2⟩

theorem Gillespie3D.Iterate_on_iteration_gillespie3D (m : Libm) (g : Gillespie3D)
    (hc : g.complete = false) (hp : g.sampling_policy_code = 1)
    (ha : g.ComputePropensities.a0 ≠ 0) :
    (g.Iterate m).2.sampled_t = g.sampled_t ++ [(g.Iterate m).2.t] ∧
      (g.Iterate m).2.sampled_mesh_x = g.sampled_mesh_x ++ [(g.Iterate m).2.mesh_x] := by
  obtain ⟨ar, ad, a0r, a0d, a0, hcp⟩ := g.ComputePropensities_frame_gillespie3D
  rw [hcp] at ha
  have ha0 : ¬ a0 = 0 := ha
  unfold Gillespie3D.Iterate
  dsimp only
  rw [if_neg (by rw [hc]; exact Bool.false_ne_true), Gillespie3D.ComputePropensities_guard, hcp]
  dsimp only
  rw [if_neg ha0]
  obtain ⟨x, hd⟩ := Gillespie3D.DrawAndApplyEvent_frame
    { g with sampling_done_this_iteration := false, mesh_ar := ar, mesh_ad := ad,
             mesh_a0r := a0r, mesh_a0d := a0d, a0 := a0 }
  rw [hd]
  obtain ⟨h1, h2, _⟩ := SimulationAlgorithmBase.step_on_iteration g.toSimulationAlgorithmBase _ x
    _ _ _ hp rfl
  exact ⟨h1, h2⟩

theorem GillespieGraph.Iterate_on_iteration_gillespieGraph (m : Libm) (g : GillespieGraph)
    (hc : g.complete = false) (hp : g.sampling_policy_code = 1)
    (ha : g.ComputePropensities.a0 ≠ 0) :
    (g.Iterate m).2.sampled_t = g.sampled_t ++ [(g.Iterate m).2.t] ∧
      (g.Iterate m).2.sampled_mesh_x = g.sampled_mesh_x ++ [(g.Iterate m).2.mesh_x] := by
  obtain ⟨ar, ad, a0r, a0d, a0, hcp⟩ := g.ComputePropensities_frame_gillespieGraph
  rw [hcp] at ha
  have ha0 : ¬ a0 = 0 := ha
  unfold GillespieGraph.Iterate
  dsimp only
  rw [if_neg (by rw [hc]; exact Bool.false_ne_true),
    GillespieGraph.ComputePropensities_guard_graph, hcp]
  dsimp only
  rw [if_neg ha0]
  obtain ⟨x, gr, hd, _⟩ := GillespieGraph.DrawAndApplyEvent_keeps
    { g with sampling_done_this_iteration := false, mesh_ar := ar, mesh_ad := ad,
             mesh_a0r := a0r, mesh_a0d := a0d, a0 := a0 }
  rw [hd]
  obtain ⟨h1, h2, _⟩ := SimulationAlgorithmBase.step_on_iteration g.toSimulationAlgorithmBase _ x
    _ _ _ hp rfl
  exact ⟨h1, h2⟩

/-- C21 as stated fails for the Gillespie kernels: the empty system of the
quiescence scenario is not complete and samples on every iteration, but its
total propensity is `0`, and `Iterate` records nothing. -/
theorem C21_quiescent_iteration_records_nothing :
    (quiescentGillespie3D.complete = false ∧ quiescentGillespie3D.sampling_policy_code = 1 ∧
      (quiescentGillespie3D.Iterate scenarioLibm).2.sampled_t = quiescentGillespie3D.sampled_t ∧
      (quiescentGillespie3D.Iterate scenarioLibm).2.sampled_mesh_x =
        quiescentGillespie3D.sampled_mesh_x) ∧
    (quiescentGillespieGraph.complete = false ∧
      quiescentGillespieGraph.sampling_policy_code = 1 ∧
      (quiescentGillespieGraph.Iterate scenarioLibm).2.sampled_t =
        quiescentGillespieGraph.sampled_t ∧
      (quiescentGillespieGraph.Iterate scenarioLibm).2.sampled_mesh_x =
        quiescentGillespieGraph.sampled_mesh_x) := by
  refine ⟨⟨?_, ?_, ?_, ?_⟩, ⟨?_, ?_, ?_, ?_⟩⟩ <;> decide!

/-- C21, amended.  Under the policy `on_iteration` (code `1`), from every state
with `complete = false`: one `Iterate` of `Euler3D`, `EulerGraph`, `TauLeap3D`
or `TauLeapGraph` appends exactly one snapshot to the trajectory, the pair
`(t, mesh_x)` that the call leaves; one `Iterate` of `Gillespie3D` or
`GillespieGraph` does so when the total propensity `a0` that
`ComputePropensities` computes is not `0`, and appends nothing when it is
`0`. -/
theorem C21_on_iteration_snapshot :
    (∀ (m : Libm) (e : Euler3D), e.complete = false → e.sampling_policy_code = 1 →
      (e.Iterate m).2.sampled_t = e.sampled_t ++ [(e.Iterate m).2.t] ∧
      (e.Iterate m).2.sampled_mesh_x = e.sampled_mesh_x ++ [(e.Iterate m).2.mesh_x]) ∧
    (∀ (m : Libm) (e : EulerGraph), e.complete = false → e.sampling_policy_code = 1 →
      (e.Iterate m).2.sampled_t = e.sampled_t ++ [(e.Iterate m).2.t] ∧
      (e.Iterate m).2.sampled_mesh_x = e.sampled_mesh_x ++ [(e.Iterate m).2.mesh_x]) ∧
    (∀ (e : TauLeap3D), e.complete = false → e.sampling_policy_code = 1 →
      e.Iterate.2.sampled_t = e.sampled_t ++ [e.Iterate.2.t] ∧
      e.Iterate.2.sampled_mesh_x = e.sampled_mesh_x ++ [e.Iterate.2.mesh_x]) ∧
    (∀ (e : TauLeapGraph), e.complete = false → e.sampling_policy_code = 1 →
      e.Iterate.2.sampled_t = e.sampled_t ++ [e.Iterate.2.t] ∧
      e.Iterate.2.sampled_mesh_x = e.sampled_mesh_x ++ [e.Iterate.2.mesh_x]) ∧
    (∀ (m : Libm) (g : Gillespie3D), g.complete = false → g.sampling_policy_code = 1 →
      (g.ComputePropensities.a0 ≠ 0 →
        (g.Iterate m).2.sampled_t = g.sampled_t ++ [(g.Iterate m).2.t] ∧
        (g.Iterate m).2.sampled_mesh_x = g.sampled_mesh_x ++ [(g.Iterate m).2.mesh_x]) ∧
      (g.ComputePropensities.a0 = 0 →
        (g.Iterate m).2.sampled_t = g.sampled_t ∧
        (g.Iterate m).2.sampled_mesh_x = g.sampled_mesh_x)) ∧
    (∀ (m : Libm) (g : GillespieGraph), g.complete = false → g.sampling_policy_code = 1 →
      (g.ComputePropensities.a0 ≠ 0 →
        (g.Iterate m).2.sampled_t = g.sampled_t ++ [(g.Iterate m).2.t] ∧
        (g.Iterate m).2.sampled_mesh_x = g.sampled_mesh_x ++ [(g.Iterate m).2.mesh_x]) ∧
      (g.ComputePropensities.a0 = 0 →
        (g.Iterate m).2.sampled_t = g.sampled_t ∧
        (g.Iterate m).2.sampled_mesh_x = g.sampled_mesh_x)) := by
  refine ⟨fun m e hc hp => Euler3D.Iterate_on_iteration_euler3D m e hc hp,
    fun m e hc hp => EulerGraph.Iterate_on_iteration_eulerGraph m e hc hp,
    fun e hc hp => TauLeap3D.Iterate_on_iteration_tauLeap3D e hc hp,
    fun e hc hp => TauLeapGraph.Iterate_on_iteration_tauLeapGraph e hc hp,
    fun m g hc hp => ⟨fun ha => Gillespie3D.Iterate_on_iteration_gillespie3D m g hc hp ha,
      fun ha => ?_⟩,
    fun m g hc hp => ⟨fun ha => GillespieGraph.Iterate_on_iteration_gillespieGraph m g hc hp ha,
      fun ha => ?_⟩⟩
  · obtain ⟨ar, ad, a0r, a0d, a0, hcp⟩ := g.ComputePropensities_frame_gillespie3D
    rw [hcp] at ha
    have ha0 : a0 = 0 := ha
    unfold Gillespie3D.Iterate
    dsimp only
    rw [if_neg (by rw [hc]; exact Bool.false_ne_true), Gillespie3D.ComputePropensities_guard, hcp]
    dsimp only
    rw [if_pos ha0]
    exact ⟨rfl, rfl⟩
  · obtain ⟨ar, ad, a0r, a0d, a0, hcp⟩ := g.ComputePropensities_frame_gillespieGraph
    rw [hcp] at ha
    have ha0 : a0 = 0 := ha
    unfold GillespieGraph.Iterate
    dsimp only
    rw [if_neg (by rw [hc]; exact Bool.false_ne_true),
      GillespieGraph.ComputePropensities_guard_graph, hcp]
    dsimp only
    rw [if_pos ha0]
    exact ⟨rfl, rfl⟩

/-- C21 on scenario S5, which samples on every iteration: from the empty
trajectory, one `Iterate` of each of the six kernels leaves one snapshot, taken
at the time that the call leaves. -/
theorem C21_on_iteration_snapshot_witness :
    (chemostatEuler3D.Iterate scenarioLibm).2.sampled_t = [1 / 10] ∧
    (chemostatEulerGraph.Iterate scenarioLibm).2.sampled_t = [1 / 10] ∧
    chemostatTauLeap3D.Iterate.2.sampled_t = [1 / 10] ∧
    chemostatTauLeapGraph.Iterate.2.sampled_t = [1 / 10] ∧
    (chemostatGillespie3D.Iterate scenarioLibm).2.sampled_t =
      [(chemostatGillespie3D.Iterate scenarioLibm).2.t] ∧
    (chemostatGillespieGraph.Iterate scenarioLibm).2.sampled_t =
      [(chemostatGillespieGraph.Iterate scenarioLibm).2.t] :=
  ⟨(C21_on_iteration_snapshot.1 scenarioLibm chemostatEuler3D (by decide!)
      (by decide!)).1.trans (by decide!),
   (C21_on_iteration_snapshot.2.1 scenarioLibm chemostatEulerGraph (by decide!)
      (by decide!)).1.trans (by decide!),
   (C21_on_iteration_snapshot.2.2.1 chemostatTauLeap3D (by decide!)
      (by decide!)).1.trans (by decide!),
   (C21_on_iteration_snapshot.2.2.2.1 chemostatTauLeapGraph (by decide!)
      (by decide!)).1.trans (by decide!),
   ((C21_on_iteration_snapshot.2.2.2.2.1 scenarioLibm chemostatGillespie3D (by decide!)
      (by decide!)).1 (by decide!)).1,
   ((C21_on_iteration_snapshot.2.2.2.2.2 scenarioLibm chemostatGillespieGraph (by decide!)
      (by decide!)).1 (by decide!)).1⟩

/-! ## C23: the layout of the output -/

/-- The index of the output is injective on the range of the loops. -/
theorem output_index_inj {N ns nm n s i n1 s1 i1 : Nat} (hs : s < ns) (hi : i < nm)
    (hs1 : s1 < ns) (hi1 : i1 < nm)
    (h : n * nm * ns + s * nm + i = n1 * nm * ns + s1 * nm + i1) (_hn : n < N) :
    n = n1 ∧ s = s1 ∧ i = i1 := by
  have e1 : n * nm * ns + s * nm + i = (n * ns + s) * nm + i := by ring
  have e2 : n1 * nm * ns + s1 * nm + i1 = (n1 * ns + s1) * nm + i1 := by ring
  rw [e1, e2] at h
  obtain ⟨q1, q2⟩ := flat_index_inj hi hi1 h
  obtain ⟨q3, q4⟩ := flat_index_inj hs hs1 q1
  exact ⟨q3, q4, q2⟩

/-- The index of the output stays below `N * ns * nm`. -/
theorem output_index_lt {N ns nm n s i : Nat} (hn : n < N) (hs : s < ns) (hi : i < nm) :
    n * nm * ns + s * nm + i < N * ns * nm := by
  have e1 : n * nm * ns + s * nm + i = (n * ns + s) * nm + i := by ring
  rw [e1]
  exact flat_index_lt (flat_index_lt hn hs) hi

/-- Every cell below `N * ns * nm` is the index of one triple of the loops. -/
theorem output_index_surj {N ns nm c : Nat} (hc : c < N * ns * nm) :
    ∃ n s i, n < N ∧ s < ns ∧ i < nm ∧ c = n * nm * ns + s * nm + i := by
  have hnm : 0 < nm := by
    rcases Nat.eq_zero_or_pos nm with h | h
    · rw [h] at hc; simp at hc
    · exact h
  have hns : 0 < ns := by
    rcases Nat.eq_zero_or_pos ns with h | h
    · rw [h] at hc; simp at hc
    · exact h
  refine ⟨c / nm / ns, c / nm % ns, c % nm, ?_, Nat.mod_lt _ hns, Nat.mod_lt _ hnm, ?_⟩
  · rw [Nat.div_div_eq_div_mul, Nat.div_lt_iff_lt_mul (Nat.mul_pos hnm hns)]
    calc c < N * ns * nm := hc
      _ = N * (nm * ns) := by ring
  · have h1 := Nat.div_add_mod c nm
    have h2 := Nat.div_add_mod (c / nm) ns
    calc c = nm * (c / nm) + c % nm := h1.symm
      _ = nm * (ns * (c / nm / ns) + c / nm % ns) + c % nm := by rw [h2]
      _ = c / nm / ns * nm * ns + c / nm % ns * nm + c % nm := by ring

/-- Three nested loops that write in cells `idx a b c`: a cell that is not one
of them keeps its value. -/
theorem forLoop_write3_other {α : Type} [Zero α] (n1 n2 n3 : Nat) (idx : Nat → Nat → Nat → Nat)
    (val : Nat → Nat → Nat → α) (v : List α) (f : Nat)
    (hf : ∀ a b c, a < n1 → b < n2 → c < n3 → f ≠ idx a b c) :
    rd (forLoop n1 (fun a v => forLoop n2 (fun b v => forLoop n3 (fun c v =>
      wr v (idx a b c) (val a b c)) v) v) v) f = rd v f := by
  refine forLoop_induction (fun _ s => rd s f = rd v f) n1 _ v rfl (fun a ha s hs => ?_)
  refine forLoop_induction (fun _ s => rd s f = rd v f) n2 _ s hs (fun b hb s hs => ?_)
  refine forLoop_induction (fun _ s => rd s f = rd v f) n3 _ s hs (fun c hc s hs => ?_)
  show rd (wr s (idx a b c) (val a b c)) f = rd v f
  rw [rd_wr_ne _ _ (hf a b c ha hb hc).symm]
  exact hs

/-- Three nested loops that write do not change the length. -/
theorem forLoop_write3_length {α : Type} (n1 n2 n3 : Nat) (idx : Nat → Nat → Nat → Nat)
    (val : Nat → Nat → Nat → α) (v : List α) :
    (forLoop n1 (fun a v => forLoop n2 (fun b v => forLoop n3 (fun c v =>
      wr v (idx a b c) (val a b c)) v) v) v).length = v.length := by
  refine forLoop_induction (fun _ s => s.length = v.length) n1 _ v rfl (fun a _ s hs => ?_)
  refine forLoop_induction (fun _ s => s.length = v.length) n2 _ s hs (fun b _ s hs => ?_)
  refine forLoop_induction (fun _ s => s.length = v.length) n3 _ s hs (fun c _ s hs => ?_)
  show (wr s (idx a b c) (val a b c)).length = v.length
  rw [length_wr]
  exact hs

/-- C23.  With `N` sampled states, `copyOutput`, the loops of `GetOutput`,
leaves in the caller's buffer of at least `N * n_species * n_meshes` cells:
`trajectory_data[n*n_meshes*n_species + s*n_meshes + i] =
sampled_mesh_x[n][i*n_species + s]` for every `n < N`, `s < n_species`,
`i < n_meshes`; these cells are written once each, since the index is
injective on the range of the loops, and they are all the cells below
`N * n_species * n_meshes`; the cells from `N * n_species * n_meshes` on keep
their values and the buffer keeps its length.  `GetOutput` returns `0` and this
buffer, with `N` the size of `sampled_t`, for the grid and for the graph. -/
theorem C23_output_layout :
    (∀ (vec : List (List ℚ)) (N ns nm : Nat) (data : List ℚ), N * ns * nm ≤ data.length →
      (∀ n s i, n < N → s < ns → i < nm →
        rd (copyOutput vec N ns nm data) (n * nm * ns + s * nm + i) =
          rd (rdRow vec n) (i * ns + s)) ∧
      (∀ n s i n1 s1 i1, n < N → s < ns → i < nm → n1 < N → s1 < ns → i1 < nm →
        n * nm * ns + s * nm + i = n1 * nm * ns + s1 * nm + i1 → n = n1 ∧ s = s1 ∧ i = i1) ∧
      (∀ c, c < N * ns * nm → ∃ n s i, n < N ∧ s < ns ∧ i < nm ∧
        c = n * nm * ns + s * nm + i) ∧
      (∀ c, N * ns * nm ≤ c → rd (copyOutput vec N ns nm data) c = rd data c) ∧
      (copyOutput vec N ns nm data).length = data.length) ∧
    (∀ (G : Session) (a : GridAlgo) (data : List ℚ), G.global_space_type = 0 →
      G.global_grid_algo = some a →
      GetOutput G data = some (0, copyOutput a.base.sampled_mesh_x a.base.sampled_t.length
        a.base.n_species a.base.n_meshes data)) ∧
    (∀ (G : Session) (a : GraphAlgo) (data : List ℚ), G.global_space_type ≠ 0 →
      G.global_graph_algo = some a →
      GetOutput G data = some (0, copyOutput a.base.sampled_mesh_x a.base.sampled_t.length
        a.base.n_species a.base.n_meshes data)) := by
  refine ⟨fun vec N ns nm data hlen => ⟨fun n s i hn hs hi => ?_,
    fun n s i n1 s1 i1 hn hs hi _ hs1 hi1 h => output_index_inj hs hi hs1 hi1 h hn,
    fun c hc => output_index_surj hc, fun c hc => ?_, ?_⟩, fun G a data h0 ha => ?_,
    fun G a data h0 ha => ?_⟩
  · exact forLoop_write3 N ns nm (fun n s i => n * nm * ns + s * nm + i)
      (fun n s i => rd (rdRow vec n) (i * ns + s)) data
      (fun a b c a1 b1 c1 ha hb hc _ hb1 hc1 h => output_index_inj hb hc hb1 hc1 h ha)
      (fun a b c ha hb hc => lt_of_lt_of_le (output_index_lt ha hb hc) hlen) n s i hn hs hi
  · exact forLoop_write3_other N ns nm (fun n s i => n * nm * ns + s * nm + i)
      (fun n s i => rd (rdRow vec n) (i * ns + s)) data c
      (fun a b c1 ha hb hc1 => ne_of_gt (lt_of_lt_of_le (output_index_lt ha hb hc1) hc))
  · exact forLoop_write3_length N ns nm (fun n s i => n * nm * ns + s * nm + i)
      (fun n s i => rd (rdRow vec n) (i * ns + s)) data
  · unfold GetOutput
    rw [if_pos h0, ha]
  · unfold GetOutput
    rw [if_neg h0, ha]

/-- C23 on two sampled states of two meshes and two species: the mesh-major
states `[1, 2, 3, 4]` and `[5, 6, 7, 8]` are written as
`[1, 3, 2, 4, 5, 7, 6, 8]`; and `GetOutput` on a session of the grid whose
trajectory holds the one state `[100, 0]`. -/
theorem C23_output_layout_witness :
    copyOutput [[1, 2, 3, 4], [5, 6, 7, 8]] 2 2 2 [0, 0, 0, 0, 0, 0, 0, 0] =
      [1, 3, 2, 4, 5, 7, 6, 8] ∧
    rd (copyOutput [[1, 2, 3, 4], [5, 6, 7, 8]] 2 2 2 [0, 0, 0, 0, 0, 0, 0, 0])
      (1 * 2 * 2 + 0 * 2 + 1) = rd (rdRow [[1, 2, 3, 4], [5, 6, 7, 8]] 1) (1 * 2 + 0) ∧
    GetOutput
      { global_grid_algo := some (targetsGrid [0, 1]), global_graph_algo := none,
        global_space_type := 0, global_algo_freed := false } [0, 0] =
      some (0, copyOutput (targetsGrid [0, 1]).base.sampled_mesh_x
        (targetsGrid [0, 1]).base.sampled_t.length (targetsGrid [0, 1]).base.n_species
        (targetsGrid [0, 1]).base.n_meshes [0, 0]) ∧
    copyOutput (targetsGrid [0, 1]).base.sampled_mesh_x
      (targetsGrid [0, 1]).base.sampled_t.length (targetsGrid [0, 1]).base.n_species
      (targetsGrid [0, 1]).base.n_meshes [0, 0] = [100, 0] :=
  ⟨by decide!,
   (C23_output_layout.1 [[1, 2, 3, 4], [5, 6, 7, 8]] 2 2 2 [0, 0, 0, 0, 0, 0, 0, 0]
      (by decide)).1 1 0 1 (by decide) (by decide) (by decide),
   C23_output_layout.2.1 _ (targetsGrid [0, 1]) [0, 0] rfl rfl,
   by decide!⟩

/-! ## C25: the number of neighbours and the boundary conditions -/

/-- The entry of the neighbour table for the cell `(x, y, z)` and direction `n`
is a mesh exactly when, on every axis, the moved coordinate is inside the
lattice or the axis is periodic. -/
theorem neighbor_present_iff (w h d : Nat) (bc : List Int) (x y z n : Nat) (hx : x < w)
    (hy : y < h) (hz : z < d) (hn : n < 6) :
    rd (SimulationAlgorithm3DBase.BuildMeshNeighbors w h d bc)
        ((w * h * z + w * y + x) * 6 + n) ≠ -1 ↔
      ((0 ≤ (x : Int) + dirDelta 0 n ∧ (x : Int) + dirDelta 0 n < w) ∨ rd bc 0 = 1) ∧
      ((0 ≤ (y : Int) + dirDelta 1 n ∧ (y : Int) + dirDelta 1 n < h) ∨ rd bc 1 = 1) ∧
      ((0 ≤ (z : Int) + dirDelta 2 n ∧ (z : Int) + dirDelta 2 n < d) ∨ rd bc 2 = 1) := by
  have hcell := SimulationAlgorithm3DBase.BuildMeshNeighbors_cell w h d bc (meshIndex w h x y z) n
    (meshIndex_lt hx hy hz) hn
  obtain ⟨c1, c2, c3⟩ := meshIndex_coords (Z := z) hx hy
  rw [c1, c2, c3, GetNeighborIndex_eq] at hcell
  unfold meshIndex at hcell
  obtain ⟨ax1, ax2, _⟩ := axisStep_resolve (rd bc 0 = 1) w x _ hx (dirDelta_cases 0 n)
  obtain ⟨ay1, ay2, _⟩ := axisStep_resolve (rd bc 1 = 1) h y _ hy (dirDelta_cases 1 n)
  obtain ⟨az1, az2, _⟩ := axisStep_resolve (rd bc 2 = 1) d z _ hz (dirDelta_cases 2 n)
  rw [hcell]
  constructor
  · intro hne
    by_contra hnot
    apply hne
    rw [if_neg]
    rintro ⟨q1, q2, q3, q4, q5, q6⟩
    apply hnot
    refine ⟨?_, ?_, ?_⟩
    · by_contra hc
      rw [not_or] at hc
      exact ax2 hc.1 hc.2 ⟨q1, q2⟩
    · by_contra hc
      rw [not_or] at hc
      exact ay2 hc.1 hc.2 ⟨q3, q4⟩
    · by_contra hc
      rw [not_or] at hc
      exact az2 hc.1 hc.2 ⟨q5, q6⟩
  · rintro ⟨p1, p2, p3⟩
    obtain ⟨_, ex0, ex1⟩ := ax1 p1
    obtain ⟨_, ey0, ey1⟩ := ay1 p2
    obtain ⟨_, ez0, ez1⟩ := az1 p3
    rw [if_pos ⟨ex0, ex1, ey0, ey1, ez0, ez1⟩]
    have hw : (0 : Int) ≤ w * h := by positivity
    have hw1 : (0 : Int) ≤ w := by positivity
    nlinarith [mul_nonneg hw ez0, mul_nonneg hw1 ey0]

/-- C25.  With the three axes periodic, no entry of the neighbour table that
`BuildMeshNeighbors` builds is `-1`: every mesh of every lattice has six
neighbours.  With no axis periodic (the three axes reflecting), the number of
directions in which the cell `(x, y, z)` has a neighbour is `6` minus the
number of faces of the lattice that the cell lies on, each of `x = 0`,
`x = w-1`, `y = 0`, `y = h-1`, `z = 0`, `z = d-1` counting once; hence a cell
on a face has fewer than six. -/
theorem C25_boundary_parity :
    (∀ (w h d : Nat) (bc : List Int) (i n : Nat), rd bc 0 = 1 → rd bc 1 = 1 → rd bc 2 = 1 →
      i < w * h * d → n < 6 →
      rd (SimulationAlgorithm3DBase.BuildMeshNeighbors w h d bc) (i * 6 + n) ≠ -1) ∧
    (∀ (w h d : Nat) (bc : List Int) (x y z : Nat), rd bc 0 ≠ 1 → rd bc 1 ≠ 1 → rd bc 2 ≠ 1 →
      x < w → y < h → z < d →
      ((List.range 6).filter (fun n =>
        decide (rd (SimulationAlgorithm3DBase.BuildMeshNeighbors w h d bc)
          ((w * h * z + w * y + x) * 6 + n) ≠ -1))).length =
        6 - ((if x = 0 then 1 else 0) + (if x + 1 = w then 1 else 0) +
          (if y = 0 then 1 else 0) + (if y + 1 = h then 1 else 0) +
          (if z = 0 then 1 else 0) + (if z + 1 = d then 1 else 0)) ∧
      (x = 0 ∨ x + 1 = w ∨ y = 0 ∨ y + 1 = h ∨ z = 0 ∨ z + 1 = d →
        ((List.range 6).filter (fun n =>
          decide (rd (SimulationAlgorithm3DBase.BuildMeshNeighbors w h d bc)
            ((w * h * z + w * y + x) * 6 + n) ≠ -1))).length < 6)) := by
  constructor
  · intro w h d bc i n b0 b1 b2 hi hn
    obtain ⟨cx, cy, cz, ci⟩ := coords_meshIndex hi
    have key := (neighbor_present_iff w h d bc (i % w) (i % (w * h) / w) (i / (w * h)) n cx cy cz
      hn).mpr ⟨Or.inr b0, Or.inr b1, Or.inr b2⟩
    unfold meshIndex at ci
    rw [ci] at key
    exact key
  · intro w h d bc x y z b0 b1 b2 hx hy hz
    have p : ∀ n, n < 6 →
        (rd (SimulationAlgorithm3DBase.BuildMeshNeighbors w h d bc)
          ((w * h * z + w * y + x) * 6 + n) ≠ -1 ↔
        (0 ≤ (x : Int) + dirDelta 0 n ∧ (x : Int) + dirDelta 0 n < w) ∧
        (0 ≤ (y : Int) + dirDelta 1 n ∧ (y : Int) + dirDelta 1 n < h) ∧
        (0 ≤ (z : Int) + dirDelta 2 n ∧ (z : Int) + dirDelta 2 n < d)) := by
      intro n hn
      rw [neighbor_present_iff w h d bc x y z n hx hy hz hn]
      simp only [b0, b1, b2, or_false]
    have p0 : rd (SimulationAlgorithm3DBase.BuildMeshNeighbors w h d bc)
        ((w * h * z + w * y + x) * 6 + 0) ≠ -1 ↔ x + 1 < w := by
      rw [p 0 (by decide)]
      simp only [dirDelta]
      norm_num
      omega
    have p1 : rd (SimulationAlgorithm3DBase.BuildMeshNeighbors w h d bc)
        ((w * h * z + w * y + x) * 6 + 1) ≠ -1 ↔ 0 < x := by
      rw [p 1 (by decide)]
      simp only [dirDelta]
      norm_num
      omega
    have p2 : rd (SimulationAlgorithm3DBase.BuildMeshNeighbors w h d bc)
        ((w * h * z + w * y + x) * 6 + 2) ≠ -1 ↔ y + 1 < h := by
      rw [p 2 (by decide)]
      simp only [dirDelta]
      norm_num
      omega
    have p3 : rd (SimulationAlgorithm3DBase.BuildMeshNeighbors w h d bc)
        ((w * h * z + w * y + x) * 6 + 3) ≠ -1 ↔ 0 < y := by
      rw [p 3 (by decide)]
      simp only [dirDelta]
      norm_num
      omega
    have p4 : rd (SimulationAlgorithm3DBase.BuildMeshNeighbors w h d bc)
        ((w * h * z + w * y + x) * 6 + 4) ≠ -1 ↔ z + 1 < d := by
      rw [p 4 (by decide)]
      simp only [dirDelta]
      norm_num
      omega
    have p5 : rd (SimulationAlgorithm3DBase.BuildMeshNeighbors w h d bc)
        ((w * h * z + w * y + x) * 6 + 5) ≠ -1 ↔ 0 < z := by
      rw [p 5 (by decide)]
      simp only [dirDelta]
      norm_num
      omega
    have hcount : ((List.range 6).filter (fun n =>
        decide (rd (SimulationAlgorithm3DBase.BuildMeshNeighbors w h d bc)
          ((w * h * z + w * y + x) * 6 + n) ≠ -1))).length =
        (if x + 1 < w then 1 else 0) + (if 0 < x then 1 else 0) +
          (if y + 1 < h then 1 else 0) + (if 0 < y then 1 else 0) +
          (if z + 1 < d then 1 else 0) + (if 0 < z then 1 else 0) := by
      rw [show List.range 6 = [0, 1, 2, 3, 4, 5] from rfl]
      simp only [List.filter_cons, List.filter_nil, decide_eq_true_eq, p0, p1, p2, p3, p4, p5]
      split_ifs <;> rfl
    have bit : ∀ (c : Prop) [Decidable c], (if c then 1 else 0 : Nat) ≤ 1 := by
      intro c _
      split_ifs <;> omega
    have up : ∀ a b : Nat, a < b → (if a + 1 < b then 1 else 0 : Nat) =
        1 - (if a + 1 = b then 1 else 0) := by
      intro a b hab
      split_ifs <;> omega
    have dn : ∀ a : Nat, (if 0 < a then 1 else 0 : Nat) = 1 - (if a = 0 then 1 else 0) := by
      intro a
      split_ifs <;> omega
    rw [hcount, up x w hx, up y h hy, up z d hz, dn x, dn y, dn z]
    have b1 := bit (x = 0)
    have b2 := bit (x + 1 = w)
    have b3 := bit (y = 0)
    have b4 := bit (y + 1 = h)
    have b5 := bit (z = 0)
    have b6 := bit (z + 1 = d)
    constructor
    · omega
    · intro hface
      have : 1 ≤ (if x = 0 then 1 else 0) + (if x + 1 = w then 1 else 0) +
          (if y = 0 then 1 else 0) + (if y + 1 = h then 1 else 0) +
          (if z = 0 then 1 else 0) + (if z + 1 = d then 1 else 0) := by
        rcases hface with f | f | f | f | f | f <;> rw [if_pos f] <;> omega
      omega

/-- C25 on a `3*2*1` lattice: with the three axes periodic the entry of mesh
`2` in direction `0` is not `-1`; with the three axes reflecting the cell
`(2, 0, 0)` lies on four faces and has two neighbours. -/
theorem C25_boundary_parity_witness :
    rd (SimulationAlgorithm3DBase.BuildMeshNeighbors 3 2 1 [1, 1, 1]) (2 * 6 + 0) ≠ -1 ∧
    ((List.range 6).filter (fun n =>
      decide (rd (SimulationAlgorithm3DBase.BuildMeshNeighbors 3 2 1 [0, 0, 0])
        ((3 * 2 * 0 + 3 * 0 + 2) * 6 + n) ≠ -1))).length = 2 ∧
    ((List.range 6).filter (fun n =>
      decide (rd (SimulationAlgorithm3DBase.BuildMeshNeighbors 3 2 1 [0, 0, 0])
        ((3 * 2 * 0 + 3 * 0 + 2) * 6 + n) ≠ -1))).length < 6 :=
  ⟨C25_boundary_parity.1 3 2 1 [1, 1, 1] 2 0 rfl rfl rfl (by decide) (by decide),
   (C25_boundary_parity.2 3 2 1 [0, 0, 0] 2 0 0 (by decide) (by decide) (by decide) (by decide)
      (by decide) (by decide)).1.trans (by decide),
   (C25_boundary_parity.2 3 2 1 [0, 0, 0] 2 0 0 (by decide) (by decide) (by decide) (by decide)
      (by decide) (by decide)).2 (by decide)⟩

/-! ## C24: the adjacency lists of the graph -/

theorem edgeEntries_succ {α : Type} (edge_i edge_j : List Nat) (at_i at_j : Nat → α)
    (v k : Nat) :
    edgeEntries edge_i edge_j at_i at_j v (k + 1) =
      edgeEntries edge_i edge_j at_i at_j v k ++
        ((if rd edge_i k = v then [at_i k] else []) ++
          (if rd edge_j k = v then [at_j k] else [])) := by
  unfold edgeEntries
  rw [List.range_succ, List.map_append, List.flatten_append]
  simp

/-- The length of the entries of a node does not depend on the values. -/
theorem edgeEntries_length {α β : Type} (edge_i edge_j : List Nat) (at_i at_j : Nat → α)
    (bt_i bt_j : Nat → β) (v k : Nat) :
    (edgeEntries edge_i edge_j at_i at_j v k).length =
      (edgeEntries edge_i edge_j bt_i bt_j v k).length := by
  induction k with
  | zero => rfl
  | succ k ih =>
    rw [edgeEntries_succ, edgeEntries_succ]
    simp only [List.length_append]
    rw [ih]
    congr 1
    split_ifs <;> rfl

/-- The row of node `v` after the two `push_back` of one edge. -/
theorem pushRow_pair_row {α : Type} (T : List (List α)) (a c : Nat) (x y : α) (ha : a < T.length)
    (hc : c < T.length) (v : Nat) :
    rdRow (pushRow (pushRow T a x) c y) v =
      rdRow T v ++ ((if a = v then [x] else []) ++ (if c = v then [y] else [])) := by
  rw [rdRow_pushRow _ _ _ _ (by rw [length_pushRow]; exact hc), rdRow_pushRow _ _ _ _ ha]
  by_cases h1 : a = v <;> by_cases h2 : c = v <;> simp [h1, h2]

/-- The sum over the nodes of the lengths of their entries is twice the number
of edges, when the ends of the edges are nodes. -/
theorem edgeEntries_total {α : Type} (edge_i edge_j : List Nat) (at_i at_j : Nat → α)
    (nm : Nat) (k : Nat) (hrange : ∀ e, e < k → rd edge_i e < nm ∧ rd edge_j e < nm) :
    ∑ v in Finset.range nm, (edgeEntries edge_i edge_j at_i at_j v k).length = 2 * k := by
  induction k with
  | zero => simp [edgeEntries]
  | succ k ih =>
    have e : ∀ v, (edgeEntries edge_i edge_j at_i at_j v (k + 1)).length =
        (edgeEntries edge_i edge_j at_i at_j v k).length +
          ((if rd edge_i k = v then 1 else 0) + (if rd edge_j k = v then 1 else 0)) := by
      intro v
      rw [edgeEntries_succ]
      simp only [List.length_append]
      congr 1
      split_ifs <;> rfl
    simp only [e]
    rw [Finset.sum_add_distrib, Finset.sum_add_distrib, ih (fun e he => hrange e (by omega)),
      Finset.sum_ite_eq, Finset.sum_ite_eq,
      if_pos (Finset.mem_range.mpr (hrange k (Nat.lt_succ_self k)).1),
      if_pos (Finset.mem_range.mpr (hrange k (Nat.lt_succ_self k)).2)]
    ring

namespace SimulationAlgorithmGraphBase

/-- The tables that `SetNeighbors` builds on an object whose neighbour tables
are empty, with edges between nodes of the graph. -/
theorem SetNeighbors_rows (b : SimulationAlgorithmGraphBase)
    (h1 : b.mesh_neighbor_n = []) (h2 : b.mesh_neighbor_index = [])
    (h3 : b.mesh_neighbor_sfc = []) (h4 : b.mesh_neighbor_dst = [])
    (n_edges : Nat) (edge_i edge_j : List Nat) (edge_sfc edge_dst : List ℚ)
    (hrange : ∀ e, e < n_edges → rd edge_i e < b.n_meshes ∧ rd edge_j e < b.n_meshes)
    (v : Nat) (hv : v < b.n_meshes) :
    rdRow (b.SetNeighbors n_edges edge_i edge_j edge_sfc edge_dst).mesh_neighbor_index v =
      edgeEntries edge_i edge_j (fun k => rd edge_j k) (fun k => rd edge_i k) v n_edges ∧
    rdRow (b.SetNeighbors n_edges edge_i edge_j edge_sfc edge_dst).mesh_neighbor_sfc v =
      edgeEntries edge_i edge_j (fun k => rd edge_sfc k) (fun k => rd edge_sfc k) v n_edges ∧
    rdRow (b.SetNeighbors n_edges edge_i edge_j edge_sfc edge_dst).mesh_neighbor_dst v =
      edgeEntries edge_i edge_j (fun k => rd edge_dst k) (fun k => rd edge_dst k) v n_edges ∧
    rd (b.SetNeighbors n_edges edge_i edge_j edge_sfc edge_dst).mesh_neighbor_n v =
      (edgeEntries edge_i edge_j (fun k => rd edge_j k) (fun k => rd edge_i k) v
        n_edges).length := by
  unfold SetNeighbors
  dsimp only
  refine (forLoop_induction
    (fun k (s : SimulationAlgorithmGraphBase) =>
      s.mesh_neighbor_n.length = b.n_meshes ∧ s.mesh_neighbor_index.length = b.n_meshes ∧
      s.mesh_neighbor_sfc.length = b.n_meshes ∧ s.mesh_neighbor_dst.length = b.n_meshes ∧
      ∀ u, u < b.n_meshes →
        rdRow s.mesh_neighbor_index u =
          edgeEntries edge_i edge_j (fun k => rd edge_j k) (fun k => rd edge_i k) u k ∧
        rdRow s.mesh_neighbor_sfc u =
          edgeEntries edge_i edge_j (fun k => rd edge_sfc k) (fun k => rd edge_sfc k) u k ∧
        rdRow s.mesh_neighbor_dst u =
          edgeEntries edge_i edge_j (fun k => rd edge_dst k) (fun k => rd edge_dst k) u k ∧
        rd s.mesh_neighbor_n u =
          (edgeEntries edge_i edge_j (fun k => rd edge_j k) (fun k => rd edge_i k) u k).length)
    n_edges _ _ ?_ (fun e he s hs => ?_)).2.2.2.2 v hv
  · show (resize b.mesh_neighbor_n b.n_meshes).length = b.n_meshes ∧
      (resizeD b.mesh_neighbor_index b.n_meshes []).length = b.n_meshes ∧
      (resizeD b.mesh_neighbor_sfc b.n_meshes []).length = b.n_meshes ∧
      (resizeD b.mesh_neighbor_dst b.n_meshes []).length = b.n_meshes ∧
      ∀ u, u < b.n_meshes →
        rdRow (resizeD b.mesh_neighbor_index b.n_meshes []) u =
          edgeEntries edge_i edge_j (fun k => rd edge_j k) (fun k => rd edge_i k) u 0 ∧
        rdRow (resizeD b.mesh_neighbor_sfc b.n_meshes []) u =
          edgeEntries edge_i edge_j (fun k => rd edge_sfc k) (fun k => rd edge_sfc k) u 0 ∧
        rdRow (resizeD b.mesh_neighbor_dst b.n_meshes []) u =
          edgeEntries edge_i edge_j (fun k => rd edge_dst k) (fun k => rd edge_dst k) u 0 ∧
        rd (resize b.mesh_neighbor_n b.n_meshes) u =
          (edgeEntries edge_i edge_j (fun k => rd edge_j k) (fun k => rd edge_i k) u 0).length
    rw [h1, h2, h3, h4]
    unfold resize
    rw [resizeD_nil, resizeD_nil, resizeD_nil]
    refine ⟨List.length_replicate _ _, List.length_replicate _ _, List.length_replicate _ _,
      List.length_replicate _ _, fun u _ => ?_⟩
    simp only [rdRow_replicate_nil, rd_replicate_zero]
    exact ⟨rfl, rfl, rfl, rfl⟩
  · obtain ⟨l1, l2, l3, l4, hrows⟩ := hs
    obtain ⟨ri, rj⟩ := hrange e he
    have step : ∀ (nn : List Nat) (idx : List (List Nat)) (sfc dst : List (List ℚ)),
        nn.length = b.n_meshes → idx.length = b.n_meshes → sfc.length = b.n_meshes →
        dst.length = b.n_meshes →
        (∀ u, u < b.n_meshes →
          rdRow idx u =
            edgeEntries edge_i edge_j (fun k => rd edge_j k) (fun k => rd edge_i k) u e ∧
          rdRow sfc u =
            edgeEntries edge_i edge_j (fun k => rd edge_sfc k) (fun k => rd edge_sfc k) u e ∧
          rdRow dst u =
            edgeEntries edge_i edge_j (fun k => rd edge_dst k) (fun k => rd edge_dst k) u e ∧
          rd nn u =
            (edgeEntries edge_i edge_j (fun k => rd edge_j k) (fun k => rd edge_i k) u
              e).length) →
        (wr (wr nn (rd edge_i e) (rd nn (rd edge_i e) + 1)) (rd edge_j e)
          (rd (wr nn (rd edge_i e) (rd nn (rd edge_i e) + 1)) (rd edge_j e) + 1)).length =
            b.n_meshes ∧
        (pushRow (pushRow idx (rd edge_i e) (rd edge_j e)) (rd edge_j e) (rd edge_i e)).length =
          b.n_meshes ∧
        (pushRow (pushRow sfc (rd edge_i e) (rd edge_sfc e)) (rd edge_j e)
          (rd edge_sfc e)).length = b.n_meshes ∧
        (pushRow (pushRow dst (rd edge_i e) (rd edge_dst e)) (rd edge_j e)
          (rd edge_dst e)).length = b.n_meshes ∧
        ∀ u, u < b.n_meshes →
          rdRow (pushRow (pushRow idx (rd edge_i e) (rd edge_j e)) (rd edge_j e)
              (rd edge_i e)) u =
            edgeEntries edge_i edge_j (fun k => rd edge_j k) (fun k => rd edge_i k) u (e + 1) ∧
          rdRow (pushRow (pushRow sfc (rd edge_i e) (rd edge_sfc e)) (rd edge_j e)
              (rd edge_sfc e)) u =
            edgeEntries edge_i edge_j (fun k => rd edge_sfc k) (fun k => rd edge_sfc k) u
              (e + 1) ∧
          rdRow (pushRow (pushRow dst (rd edge_i e) (rd edge_dst e)) (rd edge_j e)
              (rd edge_dst e)) u =
            edgeEntries edge_i edge_j (fun k => rd edge_dst k) (fun k => rd edge_dst k) u
              (e + 1) ∧
          rd (wr (wr nn (rd edge_i e) (rd nn (rd edge_i e) + 1)) (rd edge_j e)
              (rd (wr nn (rd edge_i e) (rd nn (rd edge_i e) + 1)) (rd edge_j e) + 1)) u =
            (edgeEntries edge_i edge_j (fun k => rd edge_j k) (fun k => rd edge_i k) u
              (e + 1)).length := by
      intro nn idx sfc dst q1 q2 q3 q4 hr
      refine ⟨by rw [length_wr, length_wr]; exact q1,
        by rw [length_pushRow, length_pushRow]; exact q2,
        by rw [length_pushRow, length_pushRow]; exact q3,
        by rw [length_pushRow, length_pushRow]; exact q4, fun u hu => ?_⟩
      obtain ⟨r1, r2, r3, r4⟩ := hr u hu
      rw [pushRow_pair_row _ _ _ _ _ (by rw [q2]; exact ri) (by rw [q2]; exact rj),
        pushRow_pair_row _ _ _ _ _ (by rw [q3]; exact ri) (by rw [q3]; exact rj),
        pushRow_pair_row _ _ _ _ _ (by rw [q4]; exact ri) (by rw [q4]; exact rj),
        rd_wr_wr_count _ _ _ _ (by rw [q1]; exact ri) (by rw [q1]; exact rj),
        edgeEntries_succ, edgeEntries_succ, edgeEntries_succ, r1, r2, r3, r4]
      refine ⟨rfl, rfl, rfl, ?_⟩
      simp only [List.length_append]
      rw [add_assoc]
      congr 1
      split_ifs <;> rfl
    exact step s.mesh_neighbor_n s.mesh_neighbor_index s.mesh_neighbor_sfc s.mesh_neighbor_dst
      l1 l2 l3 l4 hrows

end SimulationAlgorithmGraphBase

/-- The entries of a node after `n` edges extend its entries after the first
`k` edges. -/
theorem edgeEntries_prefix {α : Type} (edge_i edge_j : List Nat) (at_i at_j : Nat → α)
    (v k n : Nat) (hk : k ≤ n) :
    ∃ tail, edgeEntries edge_i edge_j at_i at_j v n =
      edgeEntries edge_i edge_j at_i at_j v k ++ tail := by
  induction n with
  | zero =>
    have : k = 0 := by omega
    subst this
    exact ⟨[], by simp⟩
  | succ n ih =>
    by_cases h : k = n + 1
    · subst h
      exact ⟨[], by simp⟩
    · obtain ⟨tail, ht⟩ := ih (by omega)
      rw [edgeEntries_succ, ht]
      exact ⟨_, List.append_assoc _ _ _⟩

/-- Edge `k` is in the entries of its first end, after the entries of the
earlier edges. -/
theorem edgeEntries_at_i {α : Type} [Zero α] (edge_i edge_j : List Nat) (at_i at_j : Nat → α)
    (k n : Nat) (hk : k < n) :
    (edgeEntries edge_i edge_j at_i at_j (rd edge_i k) k).length <
      (edgeEntries edge_i edge_j at_i at_j (rd edge_i k) n).length ∧
    rd (edgeEntries edge_i edge_j at_i at_j (rd edge_i k) n)
      (edgeEntries edge_i edge_j at_i at_j (rd edge_i k) k).length = at_i k := by
  obtain ⟨tail, ht⟩ := edgeEntries_prefix edge_i edge_j at_i at_j (rd edge_i k) (k + 1) n hk
  rw [ht, edgeEntries_succ, if_pos rfl]
  have e : edgeEntries edge_i edge_j at_i at_j (rd edge_i k) k ++
      ([at_i k] ++ if rd edge_j k = rd edge_i k then [at_j k] else []) ++ tail =
      (edgeEntries edge_i edge_j at_i at_j (rd edge_i k) k ++ [at_i k]) ++
        ((if rd edge_j k = rd edge_i k then [at_j k] else []) ++ tail) := by
    simp
  rw [e]
  constructor
  · simp only [List.length_append, List.length_singleton]
    omega
  · rw [rd_append_left _ _ (by simp), rd_append_length]

/-- Edge `k` is in the entries of its second end, after the entries of the
earlier edges and after its own entry as a first end when its two ends are the
same node. -/
theorem edgeEntries_at_j {α : Type} [Zero α] (edge_i edge_j : List Nat) (at_i at_j : Nat → α)
    (k n : Nat) (hk : k < n) :
    (edgeEntries edge_i edge_j at_i at_j (rd edge_j k) k).length +
        (if rd edge_i k = rd edge_j k then 1 else 0) <
      (edgeEntries edge_i edge_j at_i at_j (rd edge_j k) n).length ∧
    rd (edgeEntries edge_i edge_j at_i at_j (rd edge_j k) n)
      ((edgeEntries edge_i edge_j at_i at_j (rd edge_j k) k).length +
        (if rd edge_i k = rd edge_j k then 1 else 0)) = at_j k := by
  obtain ⟨tail, ht⟩ := edgeEntries_prefix edge_i edge_j at_i at_j (rd edge_j k) (k + 1) n hk
  rw [ht, edgeEntries_succ, if_pos rfl]
  have e : edgeEntries edge_i edge_j at_i at_j (rd edge_j k) k ++
      ((if rd edge_i k = rd edge_j k then [at_i k] else []) ++ [at_j k]) ++ tail =
      ((edgeEntries edge_i edge_j at_i at_j (rd edge_j k) k ++
        (if rd edge_i k = rd edge_j k then [at_i k] else [])) ++ [at_j k]) ++ tail := by
    simp
  have l : (edgeEntries edge_i edge_j at_i at_j (rd edge_j k) k ++
        (if rd edge_i k = rd edge_j k then [at_i k] else [])).length =
      (edgeEntries edge_i edge_j at_i at_j (rd edge_j k) k).length +
        (if rd edge_i k = rd edge_j k then 1 else 0) := by
    rw [List.length_append]
    congr 1
    split_ifs <;> rfl
  rw [e, ← l]
  constructor
  · simp only [List.length_append, List.length_singleton]
    omega
  · rw [rd_append_left _ _ (by simp), rd_append_length]

/-- C24.  On an object whose neighbour tables are empty, `SetNeighbors` with
edges between nodes of the graph builds, for every node `v`: the list
`mesh_neighbor_index[v]` of the other ends of the edges that have `v` as an
end, in the order of the edges (an edge with `edge_i[k] = v` puts `edge_j[k]`,
an edge with `edge_j[k] = v` puts `edge_i[k]`), the lists `mesh_neighbor_sfc[v]`
and `mesh_neighbor_dst[v]` of the surfaces and distances of the same edges in
the same order, all three of the same length, which is `mesh_neighbor_n[v]`.
Every edge `k` is in the list of `edge_i[k]`, as the neighbour `edge_j[k]` with
surface `edge_sfc[k]` and distance `edge_dst[k]`, at the position after the
entries of the earlier edges, and likewise in the list of `edge_j[k]` as the
neighbour `edge_i[k]`.  The degrees `mesh_neighbor_n[v]` sum to
`2 * n_edges`. -/
theorem C24_graph_adjacency :
    ∀ (b : SimulationAlgorithmGraphBase) (n_edges : Nat) (edge_i edge_j : List Nat)
      (edge_sfc edge_dst : List ℚ) (R : SimulationAlgorithmGraphBase),
      b.mesh_neighbor_n = [] → b.mesh_neighbor_index = [] → b.mesh_neighbor_sfc = [] →
      b.mesh_neighbor_dst = [] →
      (∀ e, e < n_edges → rd edge_i e < b.n_meshes ∧ rd edge_j e < b.n_meshes) →
      R = b.SetNeighbors n_edges edge_i edge_j edge_sfc edge_dst →
      (∀ v, v < b.n_meshes →
        rdRow R.mesh_neighbor_index v =
          edgeEntries edge_i edge_j (fun k => rd edge_j k) (fun k => rd edge_i k) v n_edges ∧
        rdRow R.mesh_neighbor_sfc v =
          edgeEntries edge_i edge_j (fun k => rd edge_sfc k) (fun k => rd edge_sfc k) v
            n_edges ∧
        rdRow R.mesh_neighbor_dst v =
          edgeEntries edge_i edge_j (fun k => rd edge_dst k) (fun k => rd edge_dst k) v
            n_edges ∧
        rd R.mesh_neighbor_n v = (rdRow R.mesh_neighbor_index v).length ∧
        (rdRow R.mesh_neighbor_sfc v).length = (rdRow R.mesh_neighbor_index v).length ∧
        (rdRow R.mesh_neighbor_dst v).length = (rdRow R.mesh_neighbor_index v).length) ∧
      (∀ k p, k < n_edges →
        p = (edgeEntries edge_i edge_j (fun k => rd edge_j k) (fun k => rd edge_i k)
          (rd edge_i k) k).length →
        p < rd R.mesh_neighbor_n (rd edge_i k) ∧
        rd (rdRow R.mesh_neighbor_index (rd edge_i k)) p = rd edge_j k ∧
        rd (rdRow R.mesh_neighbor_sfc (rd edge_i k)) p = rd edge_sfc k ∧
        rd (rdRow R.mesh_neighbor_dst (rd edge_i k)) p = rd edge_dst k) ∧
      (∀ k q, k < n_edges →
        q = (edgeEntries edge_i edge_j (fun k => rd edge_j k) (fun k => rd edge_i k)
          (rd edge_j k) k).length + (if rd edge_i k = rd edge_j k then 1 else 0) →
        q < rd R.mesh_neighbor_n (rd edge_j k) ∧
        rd (rdRow R.mesh_neighbor_index (rd edge_j k)) q = rd edge_i k ∧
        rd (rdRow R.mesh_neighbor_sfc (rd edge_j k)) q = rd edge_sfc k ∧
        rd (rdRow R.mesh_neighbor_dst (rd edge_j k)) q = rd edge_dst k) ∧
      ∑ v in Finset.range b.n_meshes, rd R.mesh_neighbor_n v = 2 * n_edges := by
  intro b n_edges edge_i edge_j edge_sfc edge_dst R h1 h2 h3 h4 hrange hR
  have rows := fun v hv => SimulationAlgorithmGraphBase.SetNeighbors_rows b h1 h2 h3 h4 n_edges
    edge_i edge_j edge_sfc edge_dst hrange v hv
  rw [← hR] at rows
  refine ⟨fun v hv => ?_, fun k p hk hp => ?_, fun k q hk hq => ?_, ?_⟩
  · obtain ⟨r1, r2, r3, r4⟩ := rows v hv
    refine ⟨r1, r2, r3, by rw [r4, r1], ?_, ?_⟩
    · rw [r2, r1]
      exact edgeEntries_length _ _ _ _ _ _ _ _
    · rw [r3, r1]
      exact edgeEntries_length _ _ _ _ _ _ _ _
  · obtain ⟨r1, r2, r3, r4⟩ := rows (rd edge_i k) (hrange k hk).1
    obtain ⟨a1, a2⟩ := edgeEntries_at_i edge_i edge_j (fun k => rd edge_j k)
      (fun k => rd edge_i k) k n_edges hk
    obtain ⟨_, b2⟩ := edgeEntries_at_i edge_i edge_j (fun k => rd edge_sfc k)
      (fun k => rd edge_sfc k) k n_edges hk
    obtain ⟨_, c2⟩ := edgeEntries_at_i edge_i edge_j (fun k => rd edge_dst k)
      (fun k => rd edge_dst k) k n_edges hk
    rw [edgeEntries_length edge_i edge_j (fun k => rd edge_sfc k) (fun k => rd edge_sfc k)
      (fun k => rd edge_j k) (fun k => rd edge_i k) (rd edge_i k) k] at b2
    rw [edgeEntries_length edge_i edge_j (fun k => rd edge_dst k) (fun k => rd edge_dst k)
      (fun k => rd edge_j k) (fun k => rd edge_i k) (rd edge_i k) k] at c2
    rw [r1, r2, r3, r4, hp]
    exact ⟨a1, a2, b2, c2⟩
  · obtain ⟨r1, r2, r3, r4⟩ := rows (rd edge_j k) (hrange k hk).2
    obtain ⟨a1, a2⟩ := edgeEntries_at_j edge_i edge_j (fun k => rd edge_j k)
      (fun k => rd edge_i k) k n_edges hk
    obtain ⟨_, b2⟩ := edgeEntries_at_j edge_i edge_j (fun k => rd edge_sfc k)
      (fun k => rd edge_sfc k) k n_edges hk
    obtain ⟨_, c2⟩ := edgeEntries_at_j edge_i edge_j (fun k => rd edge_dst k)
      (fun k => rd edge_dst k) k n_edges hk
    rw [edgeEntries_length edge_i edge_j (fun k => rd edge_sfc k) (fun k => rd edge_sfc k)
      (fun k => rd edge_j k) (fun k => rd edge_i k) (rd edge_j k) k] at b2
    rw [edgeEntries_length edge_i edge_j (fun k => rd edge_dst k) (fun k => rd edge_dst k)
      (fun k => rd edge_j k) (fun k => rd edge_i k) (rd edge_j k) k] at c2
    rw [r1, r2, r3, r4, hq]
    exact ⟨a1, a2, b2, c2⟩
  · rw [← edgeEntries_total edge_i edge_j (fun k => rd edge_j k) (fun k => rd edge_i k)
      b.n_meshes n_edges hrange]
    exact Finset.sum_congr rfl (fun v hv => (rows v (Finset.mem_range.mp hv)).2.2.2)

/-- C24 on the chain of three nodes with the edges `(0, 1)` and `(1, 2)`: the
list of node `1` is `[0, 2]`, its degree is `2`, and the degrees sum to `4`. -/
theorem C24_graph_adjacency_witness :
    rdRow (SimulationAlgorithmGraphBase.SetNeighbors
      { SimulationAlgorithmGraphBase.new with n_meshes := 3 } 2 [0, 1] [1, 2] [1, 1]
      [1, 1]).mesh_neighbor_index 1 = [0, 2] ∧
    rd (SimulationAlgorithmGraphBase.SetNeighbors
      { SimulationAlgorithmGraphBase.new with n_meshes := 3 } 2 [0, 1] [1, 2] [1, 1]
      [1, 1]).mesh_neighbor_n 1 = 2 ∧
    ∑ v in Finset.range 3, rd (SimulationAlgorithmGraphBase.SetNeighbors
      { SimulationAlgorithmGraphBase.new with n_meshes := 3 } 2 [0, 1] [1, 2] [1, 1]
      [1, 1]).mesh_neighbor_n v = 2 * 2 :=
  ⟨((C24_graph_adjacency { SimulationAlgorithmGraphBase.new with n_meshes := 3 } 2 [0, 1] [1, 2]
      [1, 1] [1, 1] _ rfl rfl rfl rfl (by decide) rfl).1 1 (by decide)).1.trans (by decide),
   ((C24_graph_adjacency { SimulationAlgorithmGraphBase.new with n_meshes := 3 } 2 [0, 1] [1, 2]
      [1, 1] [1, 1] _ rfl rfl rfl rfl (by decide) rfl).1 1 (by decide)).2.2.2.1.trans
      (by decide),
   (C24_graph_adjacency { SimulationAlgorithmGraphBase.new with n_meshes := 3 } 2 [0, 1] [1, 2]
      [1, 1] [1, 1] _ rfl rfl rfl rfl (by decide) rfl).2.2.2⟩


/-! ## C28: scenario S1, the decay under the Euler kernel -/

theorem decayGrid_initial (m : Libm) (h0 : m.pow 1 0 = 1) :
    ∃ e, decayGrid m = GridAlgo.euler e ∧ e.DecayAfter 0 := by
  refine ⟨_, rfl, ?_⟩
  simp [Euler3D.DecayAfter, GridAlgo.withBase, GridAlgo.base, GridAlgo.AlgorithmSpecificInit,
    Euler3D.AlgorithmSpecificInit, SimulationAlgorithm3DBase.Init, Euler3D.new,
    SimulationAlgorithm3DBase.new, SimulationAlgorithmBase.new,
    SimulationAlgorithm3DBase.Build_mesh_kd, SimulationAlgorithmBase.Build_mesh_kr,
    SimulationAlgorithm3DBase.BuildMeshNeighbors, SimulationAlgorithm3DBase.GetNeighborIndex,
    SimulationAlgorithmBase.SamplingStep, SimulationAlgorithmBase.SampleOnInterval,
    SimulationAlgorithmBase.Sample, forLoop, rd, wr, rdI, resize, resizeD, List.range_succ, h0]

theorem floor_hundredth (n : Nat) : (⌊((n : ℚ) / 100)⌋ : Int) = ((n / 100 : Nat) : Int) := by
  have h := Rat.floor_intCast_div_natCast (n : Int) 100
  simp only [Int.cast_natCast, Nat.cast_ofNat] at h
  rw [h]
  rfl

theorem Euler3D.decay_step (m : Libm) (h1 : ∀ x, m.pow x 1 = x) (n : Nat) (hn : n ≤ 500)
    (e : Euler3D) (h : e.DecayAfter n) :
    (e.Iterate m).1 = decide (n + 1 ≤ 500) ∧ (e.Iterate m).2.DecayAfter (n + 1) := by
  obtain ⟨⟨⟨nm, ns, nr, ne, x, ch, env, sto, sub, kr, nsamp, sp, ts, smx, st, pc, si, tmax,
    sd, ltr, t, dt, comp, rng⟩, w, hh, d, di, od, nb, vol, edge, kd, bc⟩, dx⟩ := e
  obtain ⟨a1, a2, a3, a4, a5, a6, a7, a8, a9, a10, a11, a12, a13, a14, a15, a16, a17, a18, a19⟩ :=
    h
  dsimp only at a1 a2 a3 a4 a5 a6 a7 a8 a9 a10 a11 a12 a13 a14 a15 a16 a17 a18 a19
  subst a1 a2 a3 a4 a5 a6 a7 a8 a10 a11 a12 a13 a15 a16 a17 a18 a19
  obtain ⟨d0, hd0⟩ : ∃ d0, dx = [d0] := by
    match dx, a9 with
    | [d0], _ => exact ⟨d0, rfl⟩
  subst hd0
  have hc : comp = false := by rw [a14]; simp; omega
  subst hc
  have hfl : ⌊(n : ℚ) / 100 + 100⁻¹⌋ = (((n + 1) / 100 : Nat) : Int) := by
    rw [← floor_hundredth]
    congr 1
    push_cast
    ring
  have hx : (100 : ℚ) * (99 / 100) ^ n + -(100 * (99 / 100) ^ n * 100⁻¹) =
      100 * (99 / 100) ^ (n + 1) := by
    ring
  have htt : (n : ℚ) / 100 + 100⁻¹ = ((n + 1 : Nat) : ℚ) / 100 := by
    push_cast
    ring
  have c2 : (5 : ℚ) < (n : ℚ) / 100 + 100⁻¹ ↔ 500 < n + 1 := by
    rw [htt, lt_div_iff₀ (by norm_num)]
    norm_num
    norm_cast
  by_cases hs : (n + 1) % 100 = 0
  · have e1 : (n + 1) / 100 = n / 100 + 1 := by omega
    have c1 : ((n / 100 : Nat) : ℚ) < ((⌊(n : ℚ) / 100 + 100⁻¹⌋ : Int) : ℚ) := by
      rw [hfl, e1, Int.cast_natCast]
      push_cast
      linarith
    have c3 : ¬ (500 < n + 1) := by omega
    have c4 : n + 1 ≤ 500 := by omega
    simp [Euler3D.DecayAfter, Euler3D.Iterate, Euler3D.Compute_dxdt, Euler3D.Apply_dxdt,
      SimulationAlgorithmBase.ReactionRate, SimulationAlgorithmBase.SamplingStep,
      SimulationAlgorithmBase.SampleOnInterval, SimulationAlgorithmBase.CheckTMax,
      SimulationAlgorithmBase.FlagAsComplete,
      SimulationAlgorithmBase.Sample, forLoop, rd, wr, List.range_succ, h1, c1, c2, c3, c4, hx]
    have e2 : 100 * (n / 100 + 1) = n + 1 := by omega
    have e3 : (n : ℚ) / 100 + 100⁻¹ = ((n / 100 : Nat) : ℚ) + 1 := by
      have : ((n + 1 : Nat) : ℚ) = ((100 * (n / 100 + 1) : Nat) : ℚ) := by rw [e2]
      push_cast at this
      linarith
    refine ⟨by ring, by rw [hfl, Int.cast_natCast], ?_, ?_⟩
    · rw [e1, List.range_succ, e3]
      simp
    · rw [e1, List.range_succ, e2]
      simp
  · have e1 : (n + 1) / 100 = n / 100 := by omega
    have c1 : ¬ ((n / 100 : Nat) : ℚ) < ((⌊(n : ℚ) / 100 + 100⁻¹⌋ : Int) : ℚ) := by
      rw [hfl, e1, Int.cast_natCast]
      exact lt_irrefl _
    by_cases h5 : n = 500
    · have c3 : 500 < n + 1 := by omega
      have c4 : ¬ (n + 1 ≤ 500) := by omega
      simp [Euler3D.DecayAfter, Euler3D.Iterate, Euler3D.Compute_dxdt, Euler3D.Apply_dxdt,
        SimulationAlgorithmBase.ReactionRate, SimulationAlgorithmBase.SamplingStep,
        SimulationAlgorithmBase.SampleOnInterval, SimulationAlgorithmBase.CheckTMax,
        SimulationAlgorithmBase.FlagAsComplete,
        SimulationAlgorithmBase.Sample, forLoop, rd, wr, List.range_succ, h1, c1, c2, c3, c4, hx]
      refine ⟨by ring, e1.symm, ?_, ?_⟩
      · rw [e1]
      · rw [e1]
    · have c3 : ¬ (500 < n + 1) := by omega
      have c4 : n + 1 ≤ 500 := by omega
      simp [Euler3D.DecayAfter, Euler3D.Iterate, Euler3D.Compute_dxdt, Euler3D.Apply_dxdt,
        SimulationAlgorithmBase.ReactionRate, SimulationAlgorithmBase.SamplingStep,
        SimulationAlgorithmBase.SampleOnInterval, SimulationAlgorithmBase.CheckTMax,
        SimulationAlgorithmBase.FlagAsComplete,
        SimulationAlgorithmBase.Sample, forLoop, rd, wr, List.range_succ, h1, c1, c2, c3, c4, hx]
      refine ⟨by ring, e1.symm, ?_, ?_⟩
      · rw [e1]
      · rw [e1]

/-- Scenario S1 after `n` calls of `Iterate`, for `n` up to `501`: the object
is the Euler kernel in the state of `DecayAfter n`. -/
theorem decayGrid_after (m : Libm) (h1 : ∀ x, m.pow x 1 = x) (h0 : m.pow 1 0 = 1) (n : Nat)
    (hn : n ≤ 501) :
    ∃ e, (fun a => (GridAlgo.Iterate m a).2)^[n] (decayGrid m) = GridAlgo.euler e ∧
      e.DecayAfter n := by
  induction n with
  | zero => exact decayGrid_initial m h0
  | succ n ih =>
    obtain ⟨e, he, hd⟩ := ih (by omega)
    rw [Function.iterate_succ_apply', he]
    exact ⟨(e.Iterate m).2, rfl, (Euler3D.decay_step m h1 n (by omega) e hd).2⟩

/-- C28.  Scenario S1 in rational arithmetic, with a `pow` such that
`pow(x, 1) = x` and `pow(1, 0) = 1`: the Euler kernel on a grid of one mesh,
one species, the reaction `A -> 0` with `k = 1`, `mesh_vol = 1`, `x0 = 100`,
`dt = 1/100`, `t_max = 5`, sampling on the interval `1`.  Each of the first
`500` calls of `Iterate` returns `true` and call `501` returns `false`; after
`n` calls (`n` up to `501`) the time is `n / 100`, the state is
`100 * (1 - 1 * (1/100))^n`, and the trajectory holds the snapshots at times
`0, 1, ..., n / 100` (quotient of integers), the snapshot at time `j` being
`100 * (99/100)^(100 * j)`; so after call `501` the trajectory holds six
snapshots, at times `0, 1, 2, 3, 4, 5`. -/
theorem C28_euler_decay (m : Libm) (h1 : ∀ x, m.pow x 1 = x) (h0 : m.pow 1 0 = 1) :
    (∀ n, n < 500 →
      (GridAlgo.Iterate m ((fun a => (GridAlgo.Iterate m a).2)^[n] (decayGrid m))).1 = true) ∧
    (GridAlgo.Iterate m ((fun a => (GridAlgo.Iterate m a).2)^[500] (decayGrid m))).1 = false ∧
    (∀ n, n ≤ 501 →
      ((fun a => (GridAlgo.Iterate m a).2)^[n] (decayGrid m)).base.t = (n : ℚ) / 100 ∧
      ((fun a => (GridAlgo.Iterate m a).2)^[n] (decayGrid m)).base.mesh_x =
        [100 * (1 - 1 * (1 / 100)) ^ n] ∧
      ((fun a => (GridAlgo.Iterate m a).2)^[n] (decayGrid m)).base.sampled_t =
        (List.range (n / 100 + 1)).map (fun j => (j : ℚ)) ∧
      ((fun a => (GridAlgo.Iterate m a).2)^[n] (decayGrid m)).base.sampled_mesh_x =
        (List.range (n / 100 + 1)).map (fun j => [100 * (99 / 100) ^ (100 * j)])) ∧
    ((fun a => (GridAlgo.Iterate m a).2)^[501] (decayGrid m)).base.sampled_t =
      [0, 1, 2, 3, 4, 5] ∧
    ((fun a => (GridAlgo.Iterate m a).2)^[501] (decayGrid m)).base.sampled_mesh_x =
      [[100 * (99 / 100) ^ (100 * 0)], [100 * (99 / 100) ^ (100 * 1)],
        [100 * (99 / 100) ^ (100 * 2)], [100 * (99 / 100) ^ (100 * 3)],
        [100 * (99 / 100) ^ (100 * 4)], [100 * (99 / 100) ^ (100 * 5)]] ∧
    ((fun a => (GridAlgo.Iterate m a).2)^[501] (decayGrid m)).base.complete = true := by
  have flag : ∀ n, n ≤ 500 →
      (GridAlgo.Iterate m ((fun a => (GridAlgo.Iterate m a).2)^[n] (decayGrid m))).1 =
        decide (n + 1 ≤ 500) := by
    intro n hn
    obtain ⟨e, he, hd⟩ := decayGrid_after m h1 h0 n (by omega)
    rw [he]
    exact (Euler3D.decay_step m h1 n hn e hd).1
  have e99 : (1 : ℚ) - 1 * (1 / 100) = 99 / 100 := by norm_num
  refine ⟨fun n hn => ?_, ?_, fun n hn => ?_, ?_, ?_, ?_⟩
  · rw [flag n (by omega)]
    exact decide_eq_true (by omega)
  · rw [flag 500 (le_refl _)]
    rfl
  · obtain ⟨e, he, hd⟩ := decayGrid_after m h1 h0 n hn
    rw [he, e99]
    exact ⟨hd.2.2.2.2.2.2.2.2.2.2.2.2.2.2.1, hd.2.2.2.2.2.2.2.2.2.2.2.2.2.2.2.1,
      hd.2.2.2.2.2.2.2.2.2.2.2.2.2.2.2.2.2.1, hd.2.2.2.2.2.2.2.2.2.2.2.2.2.2.2.2.2.2⟩
  · obtain ⟨e, he, hd⟩ := decayGrid_after m h1 h0 501 (le_refl _)
    rw [he]
    refine hd.2.2.2.2.2.2.2.2.2.2.2.2.2.2.2.2.2.1.trans ?_
    simp [List.range_succ]
  · obtain ⟨e, he, hd⟩ := decayGrid_after m h1 h0 501 (le_refl _)
    rw [he]
    refine hd.2.2.2.2.2.2.2.2.2.2.2.2.2.2.2.2.2.2.trans ?_
    have r6 : List.range (501 / 100 + 1) = [0, 1, 2, 3, 4, 5] := by decide
    rw [r6]
    simp only [List.map_cons, List.map_nil]
  · obtain ⟨e, he, hd⟩ := decayGrid_after m h1 h0 501 (le_refl _)
    rw [he]
    exact hd.2.2.2.2.2.2.2.2.2.2.2.2.2.1.trans (by decide)

/-- C28 with the `pow` of the scenarios: call `501` returns `false` and the
snapshots are at the times `0, 1, 2, 3, 4, 5`. -/
theorem C28_euler_decay_witness :
    (∀ x, scenarioLibm.pow x 1 = x) ∧ scenarioLibm.pow 1 0 = 1 ∧
    (GridAlgo.Iterate scenarioLibm
      ((fun a => (GridAlgo.Iterate scenarioLibm a).2)^[500] (decayGrid scenarioLibm))).1 = false ∧
    ((fun a => (GridAlgo.Iterate scenarioLibm a).2)^[501]
      (decayGrid scenarioLibm)).base.sampled_t = [0, 1, 2, 3, 4, 5] :=
  ⟨fun _ => rfl, rfl, (C28_euler_decay scenarioLibm (fun _ => rfl) rfl).2.1,
    (C28_euler_decay scenarioLibm (fun _ => rfl) rfl).2.2.2.1⟩


/-! ## C27: scenario S2, the extinction under the grid Gillespie kernel -/

namespace SimulationAlgorithmBase

/-- What the sampling pass and the `t_max` test keep of the shared members,
and the flag `complete` after them. -/
theorem SamplingStep_CheckTMax_keeps (b : SimulationAlgorithmBase) :
    b.SamplingStep.CheckTMax.n_meshes = b.n_meshes ∧
    b.SamplingStep.CheckTMax.n_species = b.n_species ∧
    b.SamplingStep.CheckTMax.n_reactions = b.n_reactions ∧
    b.SamplingStep.CheckTMax.sub = b.sub ∧ b.SamplingStep.CheckTMax.sto = b.sto ∧
    b.SamplingStep.CheckTMax.mesh_kr = b.mesh_kr ∧ b.SamplingStep.CheckTMax.mesh_x = b.mesh_x ∧
    b.SamplingStep.CheckTMax.rng = b.rng ∧ b.SamplingStep.CheckTMax.t_max = b.t_max ∧
    b.SamplingStep.CheckTMax.t = b.t ∧ b.SamplingStep.CheckTMax.dt = b.dt ∧
    (b.t_max < 0 → b.SamplingStep.CheckTMax.complete = b.complete) := by
  obtain ⟨s1, s2, s3, s4⟩ := b.SamplingStep_clock
  have hc : b.t_max < 0 → b.SamplingStep.CheckTMax.complete = b.complete := by
    intro ht
    unfold CheckTMax
    rw [if_neg (by rw [s3]; exact fun h => absurd h.1 (not_le.mpr ht)), s4]
  obtain ⟨sx, st, g, p, l, c, h⟩ := b.SamplingStep_CheckTMax_frame
  rw [h] at hc ⊢
  exact ⟨rfl, rfl, rfl, rfl, rfl, rfl, rfl, rfl, rfl, rfl, rfl, hc⟩

/-- What the sampling pass keeps of the shared members. -/
theorem SamplingStep_keeps (b : SimulationAlgorithmBase) :
    b.SamplingStep.n_meshes = b.n_meshes ∧ b.SamplingStep.n_species = b.n_species ∧
    b.SamplingStep.n_reactions = b.n_reactions ∧ b.SamplingStep.sub = b.sub ∧
    b.SamplingStep.sto = b.sto ∧ b.SamplingStep.mesh_kr = b.mesh_kr ∧
    b.SamplingStep.mesh_x = b.mesh_x ∧ b.SamplingStep.rng = b.rng ∧
    b.SamplingStep.t_max = b.t_max ∧ b.SamplingStep.complete = b.complete := by
  obtain ⟨sx, st, g, p, l, h⟩ := b.SamplingStep_frame
  rw [h]
  exact ⟨rfl, rfl, rfl, rfl, rfl, rfl, rfl, rfl, rfl, rfl⟩

end SimulationAlgorithmBase

namespace Gillespie3D

/-- With `x >= 1` molecules the total propensity is `x`, and the event drawn
with a target under `x` is the decay of one molecule. -/
theorem extinction_event (g : Gillespie3D) (x : ℚ) (h : g.ExtinctionShape x) (hx : 1 ≤ x)
    (hU : g.rng.uniform g.rng.pos * x < x) :
    g.ComputePropensities.a0 = x ∧
    g.ComputePropensities.DrawAndApplyEvent.ExtinctionShape (x - 1) ∧
    g.ComputePropensities.DrawAndApplyEvent.toSimulationAlgorithmBase =
      { g.toSimulationAlgorithmBase with mesh_x := [x - 1], rng := g.rng.advance } := by
  obtain ⟨⟨⟨nm, ns, nr, ne, mx, ch, env, sto, sub, kr, nsamp, sp, ts, smx, st, pc, si, tmax,
    sd, ltr, t, dt, comp, rng⟩, w, hh, d, di, od, nb, vol, edge, kd, bc⟩, ar, ad, a0r, a0d, a0⟩ := g
  obtain ⟨a1, a2, a3, a4, a5, a6, a7, a8, a9, a10, a11, a12⟩ := h
  dsimp only at a1 a2 a3 a4 a5 a6 a7 a8 a9 a10 a11 a12 hU
  subst a1 a2 a3 a4 a5 a6 a7 a8
  obtain ⟨r0, rfl⟩ : ∃ r0, ar = [r0] := by
    match ar, a9 with
    | [r0], _ => exact ⟨r0, rfl⟩
  obtain ⟨c0, rfl⟩ : ∃ c0, a0r = [c0] := by
    match a0r, a11 with
    | [c0], _ => exact ⟨c0, rfl⟩
  obtain ⟨e0, rfl⟩ : ∃ e0, a0d = [e0] := by
    match a0d, a12 with
    | [e0], _ => exact ⟨e0, rfl⟩
  obtain ⟨d0, d1, d2, d3, d4, d5, rfl⟩ : ∃ d0 d1 d2 d3 d4 d5, ad = [d0, d1, d2, d3, d4, d5] := by
    match ad, a10 with
    | [d0, d1, d2, d3, d4, d5], _ => exact ⟨d0, d1, d2, d3, d4, d5, rfl⟩
  have hx1 : ¬ x < 1 := not_lt.mpr hx
  simp [ExtinctionShape, ComputePropensities, DrawAndApplyEvent, walkMeshes, walkReactions,
    ApplyReaction, SimulationAlgorithmBase.ReactionProp, SimulationAlgorithmBase.ReactionPropLoop,
    forLoop, rd, wr, List.range_succ, hx, hx1, hU]
  ring

/-- With no molecule left the total propensity is `0`. -/
theorem extinction_quiescent (g : Gillespie3D) (h : g.ExtinctionShape 0) :
    g.ComputePropensities.a0 = 0 := by
  obtain ⟨⟨⟨nm, ns, nr, ne, mx, ch, env, sto, sub, kr, nsamp, sp, ts, smx, st, pc, si, tmax,
    sd, ltr, t, dt, comp, rng⟩, w, hh, d, di, od, nb, vol, edge, kd, bc⟩, ar, ad, a0r, a0d, a0⟩ := g
  obtain ⟨a1, a2, a3, a4, a5, a6, a7, a8, a9, a10, a11, a12⟩ := h
  dsimp only at a1 a2 a3 a4 a5 a6 a7 a8 a9 a10 a11 a12
  subst a1 a2 a3 a4 a5 a6 a7 a8
  obtain ⟨r0, rfl⟩ : ∃ r0, ar = [r0] := by
    match ar, a9 with
    | [r0], _ => exact ⟨r0, rfl⟩
  obtain ⟨c0, rfl⟩ : ∃ c0, a0r = [c0] := by
    match a0r, a11 with
    | [c0], _ => exact ⟨c0, rfl⟩
  obtain ⟨e0, rfl⟩ : ∃ e0, a0d = [e0] := by
    match a0d, a12 with
    | [e0], _ => exact ⟨e0, rfl⟩
  obtain ⟨d0, d1, d2, d3, d4, d5, rfl⟩ : ∃ d0 d1 d2 d3 d4 d5, ad = [d0, d1, d2, d3, d4, d5] := by
    match ad, a10 with
    | [d0, d1, d2, d3, d4, d5], _ => exact ⟨d0, d1, d2, d3, d4, d5, rfl⟩
  simp [ComputePropensities, SimulationAlgorithmBase.ReactionProp,
    SimulationAlgorithmBase.ReactionPropLoop, forLoop, rd, wr, List.range_succ]

/-- The call of `Iterate` that draws an event: the kernel state `G` after the
event, then the time step, the sampling pass and the `t_max` test. -/
theorem Iterate_event_gillespie3D (m : Libm) (g G : Gillespie3D) (hc : g.complete = false)
    (hG : G = DrawAndApplyEvent
      (ComputePropensities { g with sampling_done_this_iteration := false }))
    (ha : (ComputePropensities { g with sampling_done_this_iteration := false }).a0 ≠ 0) :
    g.Iterate m =
      (!(SimulationAlgorithmBase.CheckTMax (SimulationAlgorithmBase.SamplingStep
          { G.toSimulationAlgorithmBase with
            dt := m.log (1 / G.rng.uniform G.rng.pos) / G.a0
            rng := G.rng.advance
            t := G.t + m.log (1 / G.rng.uniform G.rng.pos) / G.a0 })).complete,
        { G with
          toSimulationAlgorithmBase :=
            SimulationAlgorithmBase.CheckTMax (SimulationAlgorithmBase.SamplingStep
              { G.toSimulationAlgorithmBase with
                dt := m.log (1 / G.rng.uniform G.rng.pos) / G.a0
                rng := G.rng.advance
                t := G.t + m.log (1 / G.rng.uniform G.rng.pos) / G.a0 }) }) := by
  subst hG
  unfold Iterate
  dsimp only
  rw [if_neg (by rw [hc]; exact Bool.false_ne_true), if_neg ha]

/-- One call of `Iterate` in scenario S2 with `x >= 1` molecules, no `t_max`
and a draw under `1`: the call returns `true`, one molecule has decayed, and
the generator has advanced. -/
theorem extinction_step (m : Libm) (g : Gillespie3D) (x : ℚ) (h : g.ExtinctionShape x)
    (hx : 1 ≤ x) (hc : g.complete = false) (ht : g.t_max < 0)
    (hU : g.rng.uniform g.rng.pos < 1) :
    (g.Iterate m).1 = true ∧ (g.Iterate m).2.ExtinctionShape (x - 1) ∧
    (g.Iterate m).2.complete = false ∧ (g.Iterate m).2.t_max = g.t_max ∧
    (g.Iterate m).2.rng.uniform = g.rng.uniform ∧
    (g.Iterate m).2.rng.pos = g.rng.pos + 2 := by
  have hU1 : g.rng.uniform g.rng.pos * x < x := by nlinarith
  obtain ⟨e1, e2, e3⟩ := extinction_event { g with sampling_done_this_iteration := false } x h hx
    hU1
  obtain ⟨G, hG⟩ : ∃ G, G = DrawAndApplyEvent
      (ComputePropensities { g with sampling_done_this_iteration := false }) := ⟨_, rfl⟩
  rw [← hG] at e2 e3
  rw [Iterate_event_gillespie3D m g G hc hG (by rw [e1]; linarith)]
  obtain ⟨k1, k2, k3, k4, k5, k6, k7, k8, k9, k10, k11, k12⟩ :=
    SimulationAlgorithmBase.SamplingStep_CheckTMax_keeps
      { G.toSimulationAlgorithmBase with
        dt := m.log (1 / G.rng.uniform G.rng.pos) / G.a0
        rng := G.rng.advance
        t := G.t + m.log (1 / G.rng.uniform G.rng.pos) / G.a0 }
  have f1 : G.t_max = g.t_max := by
    have h3 := congrArg (fun b : SimulationAlgorithmBase => b.t_max) e3
    exact h3
  have f2 : G.complete = g.complete := by
    have h3 := congrArg (fun b : SimulationAlgorithmBase => b.complete) e3
    exact h3
  have f3 : G.rng = g.rng.advance := by
    have h3 := congrArg (fun b : SimulationAlgorithmBase => b.rng) e3
    exact h3
  obtain ⟨a1, a2, a3, a4, a5, a6, a7, a8, a9, a10, a11, a12⟩ := e2
  have kc := k12 (by show G.t_max < 0; rw [f1]; exact ht)
  refine ⟨?_, ⟨?_, ?_, ?_, ?_, ?_, ?_, a7, ?_, a9, a10, a11, a12⟩, ?_, ?_, ?_, ?_⟩
  · show (!_) = true
    rw [kc]
    show (!G.complete) = true
    rw [f2, hc]
    rfl
  · exact k1.trans a1
  · exact k2.trans a2
  · exact k3.trans a3
  · exact k4.trans a4
  · exact k5.trans a5
  · exact k6.trans a6
  · exact k7.trans a8
  · exact kc.trans (f2.trans hc)
  · exact k9.trans f1
  · show (SimulationAlgorithmBase.CheckTMax _).rng.uniform = _
    rw [k8]
    show G.rng.advance.uniform = _
    rw [f3]
    rfl
  · show (SimulationAlgorithmBase.CheckTMax _).rng.pos = _
    rw [k8]
    show G.rng.advance.pos = _
    rw [f3]
    rfl

/-- The call of `Iterate` in scenario S2 when no molecule is left: it returns
`false`, flags the simulation as complete and leaves the state. -/
theorem extinction_last (m : Libm) (g : Gillespie3D) (h : g.ExtinctionShape 0)
    (hc : g.complete = false) :
    (g.Iterate m).1 = false ∧ (g.Iterate m).2.mesh_x = [0] ∧
    (g.Iterate m).2.complete = true := by
  have e1 := extinction_quiescent { g with sampling_done_this_iteration := false } h
  obtain ⟨ar, ad, a0r, a0d, a0, hcp⟩ :=
    ComputePropensities_frame_gillespie3D { g with sampling_done_this_iteration := false }
  unfold Iterate
  dsimp only
  rw [if_neg (by rw [hc]; exact Bool.false_ne_true), if_pos e1]
  refine ⟨rfl, ?_, rfl⟩
  show (ComputePropensities { g with sampling_done_this_iteration := false }).mesh_x = [0]
  rw [hcp]
  exact h.2.2.2.2.2.2.2.1

end Gillespie3D

/-- The object of scenario S2 after `Init`. -/
theorem extinctionGrid_initial (m : Libm) (h0 : m.pow 1 0 = 1) (sample_n : Nat)
    (t_samples : List ℚ) (sampling_policy_code : Int) (sampling_interval t_max time_step : ℚ)
    (seed : Rng) :
    ∃ g, extinctionGrid m sample_n t_samples sampling_policy_code sampling_interval t_max
        time_step seed = GridAlgo.gillespie g ∧
      g.ExtinctionShape 10 ∧ g.complete = false ∧ g.t_max = t_max ∧
      g.rng.uniform = seed.uniform ∧ g.rng.pos = seed.pos := by
  refine ⟨_, rfl, ?_⟩
  simp [Gillespie3D.ExtinctionShape, GridAlgo.withBase, GridAlgo.base,
    GridAlgo.AlgorithmSpecificInit, Gillespie3D.AlgorithmSpecificInit,
    SimulationAlgorithm3DBase.Init, Gillespie3D.new,
    SimulationAlgorithm3DBase.new, SimulationAlgorithmBase.new,
    SimulationAlgorithm3DBase.Build_mesh_kd, SimulationAlgorithmBase.Build_mesh_kr,
    SimulationAlgorithm3DBase.BuildMeshNeighbors, SimulationAlgorithm3DBase.GetNeighborIndex,
    fun b => (SimulationAlgorithmBase.SamplingStep_keeps b).1,
    fun b => (SimulationAlgorithmBase.SamplingStep_keeps b).2.1,
    fun b => (SimulationAlgorithmBase.SamplingStep_keeps b).2.2.1,
    fun b => (SimulationAlgorithmBase.SamplingStep_keeps b).2.2.2.1,
    fun b => (SimulationAlgorithmBase.SamplingStep_keeps b).2.2.2.2.1,
    fun b => (SimulationAlgorithmBase.SamplingStep_keeps b).2.2.2.2.2.1,
    fun b => (SimulationAlgorithmBase.SamplingStep_keeps b).2.2.2.2.2.2.1,
    fun b => (SimulationAlgorithmBase.SamplingStep_keeps b).2.2.2.2.2.2.2.1,
    fun b => (SimulationAlgorithmBase.SamplingStep_keeps b).2.2.2.2.2.2.2.2.1,
    fun b => (SimulationAlgorithmBase.SamplingStep_keeps b).2.2.2.2.2.2.2.2.2,
    forLoop, rd, wr, rdI, resize, resizeD, List.range_succ, h0]

/-- Scenario S2 after `n` calls of `Iterate`, for `n` up to `10`: the object is
the Gillespie kernel holding `10 - n` molecules, not complete. -/
theorem extinctionGrid_after (m : Libm) (h0 : m.pow 1 0 = 1) (sample_n : Nat)
    (t_samples : List ℚ) (sampling_policy_code : Int) (sampling_interval t_max time_step : ℚ)
    (seed : Rng) (ht : t_max < 0) (hU : ∀ k, seed.uniform k < 1) (n : Nat) (hn : n ≤ 10) :
    ∃ g, (fun a => (GridAlgo.Iterate m a).2)^[n] (extinctionGrid m sample_n t_samples
        sampling_policy_code sampling_interval t_max time_step seed) = GridAlgo.gillespie g ∧
      g.ExtinctionShape (10 - (n : ℚ)) ∧ g.complete = false ∧ g.t_max = t_max ∧
      g.rng.uniform = seed.uniform := by
  induction n with
  | zero =>
    obtain ⟨g, h1, h2, h3, h4, h5, _⟩ := extinctionGrid_initial m h0 sample_n t_samples
      sampling_policy_code sampling_interval t_max time_step seed
    refine ⟨g, h1, ?_, h3, h4, h5⟩
    rw [Nat.cast_zero, sub_zero]
    exact h2
  | succ n ih =>
    obtain ⟨g, h1, h2, h3, h4, h5⟩ := ih (by omega)
    have hx : (1 : ℚ) ≤ 10 - (n : ℚ) := by
      have : (n : ℚ) + 1 ≤ 10 := by exact_mod_cast hn
      linarith
    obtain ⟨_, s2, s3, s4, s5, _⟩ := Gillespie3D.extinction_step m g (10 - (n : ℚ)) h2 hx h3
      (by rw [h4]; exact ht) (by rw [h5]; exact hU _)
    rw [Function.iterate_succ_apply', h1]
    refine ⟨(g.Iterate m).2, rfl, ?_, s3, s4.trans h4, s5.trans h5⟩
    have e : (10 : ℚ) - ((n + 1 : Nat) : ℚ) = 10 - (n : ℚ) - 1 := by
      push_cast
      ring
    rw [e]
    exact s2

/-- C27.  Scenario S2, with a `pow` such that `pow(1, 0) = 1`: a 1x1x1
reflecting grid, one species, the reaction `A -> 0` with `k = 1` (`sub = 1`,
`sto = -1`), `mesh_vol = 1`, `10` molecules, `t_max < 0`, under `Gillespie3D`,
for any sampling plan and any generator whose uniform draws are under `1`.
Before call `n + 1` of `Iterate` (`n < 10`) the count is `10 - n`; the call
returns `true` and leaves the count `10 - n - 1`.  Call `11` returns `false`,
with the count `0` before and after it, and the simulation complete. -/
theorem C27_gillespie_extinction (m : Libm) (h0 : m.pow 1 0 = 1) (sample_n : Nat)
    (t_samples : List ℚ) (sampling_policy_code : Int) (sampling_interval t_max time_step : ℚ)
    (seed : Rng) (ht : t_max < 0) (hU : ∀ k, seed.uniform k < 1) :
    (∀ n, n < 10 →
      ((fun a => (GridAlgo.Iterate m a).2)^[n] (extinctionGrid m sample_n t_samples
        sampling_policy_code sampling_interval t_max time_step seed)).base.mesh_x =
          [10 - (n : ℚ)] ∧
      (GridAlgo.Iterate m ((fun a => (GridAlgo.Iterate m a).2)^[n] (extinctionGrid m sample_n
        t_samples sampling_policy_code sampling_interval t_max time_step seed))).1 = true ∧
      ((fun a => (GridAlgo.Iterate m a).2)^[n + 1] (extinctionGrid m sample_n t_samples
        sampling_policy_code sampling_interval t_max time_step seed)).base.mesh_x =
          [10 - (n : ℚ) - 1]) ∧
    ((fun a => (GridAlgo.Iterate m a).2)^[10] (extinctionGrid m sample_n t_samples
      sampling_policy_code sampling_interval t_max time_step seed)).base.mesh_x = [0] ∧
    (GridAlgo.Iterate m ((fun a => (GridAlgo.Iterate m a).2)^[10] (extinctionGrid m sample_n
      t_samples sampling_policy_code sampling_interval t_max time_step seed))).1 = false ∧
    ((fun a => (GridAlgo.Iterate m a).2)^[11] (extinctionGrid m sample_n t_samples
      sampling_policy_code sampling_interval t_max time_step seed)).base.mesh_x = [0] ∧
    ((fun a => (GridAlgo.Iterate m a).2)^[11] (extinctionGrid m sample_n t_samples
      sampling_policy_code sampling_interval t_max time_step seed)).base.complete = true := by
  have e10 : (10 : ℚ) - ((10 : Nat) : ℚ) = 0 := by norm_num
  obtain ⟨g10, p1, p2, p3, p4, p5⟩ := extinctionGrid_after m h0 sample_n t_samples
    sampling_policy_code sampling_interval t_max time_step seed ht hU 10 (le_refl _)
  rw [e10] at p2
  obtain ⟨l1, l2, l3⟩ := Gillespie3D.extinction_last m g10 p2 p3
  refine ⟨fun n hn => ?_, ?_, ?_, ?_, ?_⟩
  · obtain ⟨g, h1, h2, h3, h4, h5⟩ := extinctionGrid_after m h0 sample_n t_samples
      sampling_policy_code sampling_interval t_max time_step seed ht hU n (by omega)
    have hx : (1 : ℚ) ≤ 10 - (n : ℚ) := by
      have : (n : ℚ) + 1 ≤ 10 := by exact_mod_cast hn
      linarith
    obtain ⟨s1, s2, _⟩ := Gillespie3D.extinction_step m g (10 - (n : ℚ)) h2 hx h3
      (by rw [h4]; exact ht) (by rw [h5]; exact hU _)
    rw [Function.iterate_succ_apply', h1]
    exact ⟨h2.2.2.2.2.2.2.2.1, s1, s2.2.2.2.2.2.2.2.1⟩
  · rw [p1]
    exact p2.2.2.2.2.2.2.2.1
  · rw [p1]
    exact l1
  · rw [Function.iterate_succ_apply', p1]
    exact l2
  · rw [Function.iterate_succ_apply', p1]
    exact l3

/-- C27 with the `pow` and the generator of the scenarios, sampling on every
iteration: call `11` returns `false` and leaves the count `0`. -/
theorem C27_gillespie_extinction_witness :
    scenarioLibm.pow 1 0 = 1 ∧ (-1 : ℚ) < 0 ∧ (∀ k, scenarioRng.uniform k < 1) ∧
    (GridAlgo.Iterate scenarioLibm ((fun a => (GridAlgo.Iterate scenarioLibm a).2)^[10]
      (extinctionGrid scenarioLibm 0 [] 1 1 (-1) 0 scenarioRng))).1 = false ∧
    ((fun a => (GridAlgo.Iterate scenarioLibm a).2)^[11]
      (extinctionGrid scenarioLibm 0 [] 1 1 (-1) 0 scenarioRng)).base.mesh_x = [0] :=
  ⟨rfl, by norm_num, fun _ => (by norm_num : (1 / 2 : ℚ) < 1),
    (C27_gillespie_extinction scenarioLibm rfl 0 [] 1 1 (-1) 0 scenarioRng (by norm_num)
      (fun _ => (by norm_num : (1 / 2 : ℚ) < 1))).2.2.1,
    (C27_gillespie_extinction scenarioLibm rfl 0 [] 1 1 (-1) 0 scenarioRng (by norm_num)
      (fun _ => (by norm_num : (1 / 2 : ℚ) < 1))).2.2.2.1⟩


/-! ## C22: the order of the trajectory -/

theorem rdRow_append_left {α : Type} (l l1 : List (List α)) {k : Nat} (h : k < l.length) :
    rdRow (l ++ l1) k = rdRow l k := by
  unfold rdRow
  rw [List.getD_eq_getElem?_getD, List.getD_eq_getElem?_getD, List.getElem?_append_left h]

theorem rdRow_append_length {α : Type} (l : List (List α)) (a : List α) :
    rdRow (l ++ [a]) l.length = a := by
  unfold rdRow
  rw [List.getD_eq_getElem?_getD, List.getElem?_append_right (le_refl _)]
  simp

/-- A trajectory that starts empty or with the one snapshot of the current
time and state, and to which every call appends at most the snapshot of the
time and state that it leaves, while the time never decreases, is recorded in
order. -/
theorem recorded_in_order {σ : Type} (base : σ → SimulationAlgorithmBase) (step : Call → σ → σ)
    (hone : ∀ c s, (base s).AtMostOneSnapshot (base (step c s))) (s0 : σ)
    (h0 : ((base s0).sampled_t = [] ∧ (base s0).sampled_mesh_x = []) ∨
      ((base s0).sampled_t = [(base s0).t] ∧ (base s0).sampled_mesh_x = [(base s0).mesh_x]))
    (calls : List Call)
    (hmono : ∀ pre c post, calls = pre ++ c :: post →
      (base (pre.foldl (fun s c => step c s) s0)).t ≤
        (base (step c (pre.foldl (fun s c => step c s) s0))).t) :
    RecordedInOrder (fun pre => base (pre.foldl (fun s c => step c s) s0)) calls := by
  induction calls using List.reverseRecOn with
  | nil =>
    unfold RecordedInOrder
    dsimp only [List.foldl_nil]
    rcases h0 with ⟨h1, h2⟩ | ⟨h1, h2⟩
    · rw [h1, h2]
      exact ⟨rfl, fun j k _ hk => absurd hk (Nat.not_lt_zero _),
        fun k hk => absurd hk (Nat.not_lt_zero _), fun k hk => absurd hk (Nat.not_lt_zero _)⟩
    · rw [h1, h2]
      have one : ∀ k, k < [(base s0).t].length → k = 0 := fun k hk => by
        simpa using hk
      refine ⟨rfl, fun j k hjk hk => ?_, fun k hk => ?_, fun k hk => ?_⟩
      · have ek := one k hk
        subst ek
        have ej : j = 0 := by omega
        subst ej
        exact le_refl _
      · have ek := one k hk
        subst ek
        exact le_refl _
      · have ek := one k hk
        subst ek
        refine ⟨[], [], rfl, ?_, Or.inl rfl, rfl, rfl⟩
        dsimp only [List.foldl_nil]
        rw [h1]
        rfl
  | append_singleton l c ih =>
    have hl := ih (fun pre c1 post hp => hmono pre c1 (post ++ [c]) (by rw [hp]; simp))
    have ht := hmono l c [] rfl
    obtain ⟨i1, i2, i3, i4⟩ := hl
    dsimp only at i1 i2 i3 i4
    unfold RecordedInOrder
    dsimp only
    have hrun : (l ++ [c]).foldl (fun s c => step c s) s0 =
        step c (l.foldl (fun s c => step c s) s0) := by
      rw [List.foldl_append]
      rfl
    rw [hrun]
    obtain ⟨b, hb⟩ : ∃ b, b = base (l.foldl (fun s c => step c s) s0) := ⟨_, rfl⟩
    obtain ⟨r, hr⟩ : ∃ r, r = base (step c (l.foldl (fun s c => step c s) s0)) := ⟨_, rfl⟩
    have h1 := hone c (l.foldl (fun s c => step c s) s0)
    rw [← hb] at i1 i2 i3 i4 ht h1
    rw [← hr] at ht h1 ⊢
    rcases h1 with ⟨e1, e2⟩ | ⟨e1, e2⟩
    · rw [e1, e2]
      refine ⟨i1, i2, fun k hk => le_trans (i3 k hk) ht, fun k hk => ?_⟩
      obtain ⟨pre, post, p1, p2, p3, p4, p5⟩ := i4 k hk
      exact ⟨pre, post ++ [c], by rw [p1]; simp, p2, p3, p4, p5⟩
    · rw [e1, e2]
      have hlen : (b.sampled_t ++ [r.t]).length = b.sampled_t.length + 1 := by simp
      rw [hlen]
      refine ⟨by simp [i1], fun j k hjk hk => ?_, fun k hk => ?_, fun k hk => ?_⟩
      · by_cases hk1 : k < b.sampled_t.length
        · rw [rd_append_left _ _ hk1, rd_append_left _ _ (by omega)]
          exact i2 j k hjk hk1
        · have ek : k = b.sampled_t.length := by omega
          subst ek
          rw [rd_append_length]
          by_cases hj1 : j < b.sampled_t.length
          · rw [rd_append_left _ _ hj1]
            exact le_trans (i3 j hj1) ht
          · have ej : j = b.sampled_t.length := by omega
            rw [ej, rd_append_length]
      · by_cases hk1 : k < b.sampled_t.length
        · rw [rd_append_left _ _ hk1]
          exact le_trans (i3 k hk1) ht
        · have ek : k = b.sampled_t.length := by omega
          subst ek
          rw [rd_append_length]
      · by_cases hk1 : k < b.sampled_t.length
        · obtain ⟨pre, post, p1, p2, p3, p4, p5⟩ := i4 k hk1
          refine ⟨pre, post ++ [c], by rw [p1]; simp, p2, p3, ?_, ?_⟩
          · rw [rd_append_left _ _ hk1]
            exact p4
          · rw [rdRow_append_left _ _ (by rw [← i1]; exact hk1)]
            exact p5
        · have ek : k = b.sampled_t.length := by omega
          subst ek
          refine ⟨l ++ [c], [], by simp, ?_, Or.inr ⟨l, c, rfl, by rw [← hb]⟩, ?_, ?_⟩
          · rw [hrun, ← hr, e1, hlen]
          · rw [rd_append_length, hrun, ← hr]
          · rw [i1, rdRow_append_length, hrun, ← hr]

namespace SimulationAlgorithmBase

/-- One `Sample` call appends at most one snapshot, of the current time and
state, which it keeps. -/
theorem Sample_once (b : SimulationAlgorithmBase) : b.AtMostOneSnapshot b.Sample := by
  rcases b.Sample_iterate_cases 1 with h | ⟨_, h⟩
  · have h1 : b.Sample = b := h
    rw [h1]
    exact Or.inl ⟨rfl, rfl⟩
  · have h1 : b.Sample = _ := h
    rw [h1]
    exact Or.inr ⟨rfl, rfl⟩

/-- The sampling pass from an empty trajectory leaves it empty or holding the
one snapshot of the current time and state. -/
theorem SamplingStep_first (b : SimulationAlgorithmBase) (h1 : b.sampled_t = [])
    (h2 : b.sampled_mesh_x = []) :
    (b.SamplingStep.sampled_t = [] ∧ b.SamplingStep.sampled_mesh_x = []) ∨
    (b.SamplingStep.sampled_t = [b.SamplingStep.t] ∧
      b.SamplingStep.sampled_mesh_x = [b.SamplingStep.mesh_x]) := by
  obtain ⟨g, p, l, h | ⟨_, h⟩⟩ := b.SamplingStep_once
  · rw [h]
    exact Or.inl ⟨h1, h2⟩
  · rw [h]
    refine Or.inr ⟨?_, ?_⟩
    · show b.sampled_t ++ [b.t] = [b.t]
      rw [h1]
      rfl
    · show b.sampled_mesh_x ++ [b.mesh_x] = [b.mesh_x]
      rw [h2]
      rfl

end SimulationAlgorithmBase

/-- A call of `Iterate` of a kernel with a fixed step `dt >= 0` does not
decrease the time and keeps `dt`. -/
theorem Euler3D.Iterate_time_euler3D (m : Libm) (e : Euler3D) (hdt : 0 ≤ e.dt) :
    e.t ≤ (e.Iterate m).2.t ∧ (e.Iterate m).2.dt = e.dt := by
  cases hc : e.complete
  · obtain ⟨h1, h2, _⟩ := Euler3D.Iterate_clock_euler3D m e hc
    rw [h1, h2]
    exact ⟨by linarith, rfl⟩
  · unfold Euler3D.Iterate
    dsimp only
    rw [if_pos hc]
    exact ⟨le_refl _, rfl⟩

theorem EulerGraph.Iterate_time_eulerGraph (m : Libm) (e : EulerGraph) (hdt : 0 ≤ e.dt) :
    e.t ≤ (e.Iterate m).2.t ∧ (e.Iterate m).2.dt = e.dt := by
  cases hc : e.complete
  · obtain ⟨h1, h2, _⟩ := EulerGraph.Iterate_clock_eulerGraph m e hc
    rw [h1, h2]
    exact ⟨by linarith, rfl⟩
  · unfold EulerGraph.Iterate
    dsimp only
    rw [if_pos hc]
    exact ⟨le_refl _, rfl⟩

theorem TauLeap3D.Iterate_time_tauLeap3D (e : TauLeap3D) (hdt : 0 ≤ e.dt) :
    e.t ≤ e.Iterate.2.t ∧ e.Iterate.2.dt = e.dt := by
  cases hc : e.complete
  · obtain ⟨h1, h2, _⟩ := TauLeap3D.Iterate_clock_tauLeap3D e hc
    rw [h1, h2]
    exact ⟨by linarith, rfl⟩
  · unfold TauLeap3D.Iterate
    dsimp only
    rw [if_pos hc]
    exact ⟨le_refl _, rfl⟩

theorem TauLeapGraph.Iterate_time_tauLeapGraph (e : TauLeapGraph) (hdt : 0 ≤ e.dt) :
    e.t ≤ e.Iterate.2.t ∧ e.Iterate.2.dt = e.dt := by
  cases hc : e.complete
  · obtain ⟨h1, h2, _⟩ := TauLeapGraph.Iterate_clock_tauLeapGraph e hc
    rw [h1, h2]
    exact ⟨by linarith, rfl⟩
  · unfold TauLeapGraph.Iterate
    dsimp only
    rw [if_pos hc]
    exact ⟨le_refl _, rfl⟩

/-- A call of `Iterate` of the grid Gillespie kernel does not decrease the
time when the total propensity is not negative and the logarithm drawn for the
time step is not negative. -/
theorem Gillespie3D.Iterate_time_gillespie3D (m : Libm) (g : Gillespie3D)
    (ha : 0 ≤ g.ComputePropensities.a0)
    (hl : 0 ≤ m.log (1 / g.rng.uniform (g.rng.pos + 1))) :
    g.t ≤ (g.Iterate m).2.t := by
  obtain ⟨ar, ad, a0r, a0d, a0, hcp⟩ := g.ComputePropensities_frame_gillespie3D
  rw [hcp] at ha
  have ha0 : 0 ≤ a0 := ha
  unfold Gillespie3D.Iterate
  dsimp only
  by_cases hcomp : g.complete = true
  · rw [if_pos hcomp]
  · rw [if_neg hcomp, Gillespie3D.ComputePropensities_guard, hcp]
    dsimp only
    by_cases hz : a0 = 0
    · rw [if_pos hz]
      exact le_refl _
    · rw [if_neg hz]
      obtain ⟨x, hd⟩ := Gillespie3D.DrawAndApplyEvent_frame
        { g with sampling_done_this_iteration := false, mesh_ar := ar, mesh_ad := ad,
                 mesh_a0r := a0r, mesh_a0d := a0d, a0 := a0 }
      rw [hd]
      dsimp only
      obtain ⟨_, _, _, _, _, _, _, _, _, k10, _⟩ :=
        SimulationAlgorithmBase.SamplingStep_CheckTMax_keeps
          { g.toSimulationAlgorithmBase with
            mesh_x := x
            sampling_done_this_iteration := false
            dt := m.log (1 / g.rng.advance.uniform g.rng.advance.pos) / a0
            rng := g.rng.advance.advance
            t := g.t + m.log (1 / g.rng.advance.uniform g.rng.advance.pos) / a0 }
      refine le_of_le_of_eq ?_ k10.symm
      show g.t ≤ g.t + m.log (1 / g.rng.uniform (g.rng.pos + 1)) / a0
      have := div_nonneg hl ha0
      linarith

/-- Method `DrawAndApplyEvent` of the graph kernel changes the state and
advances the generator by one draw. -/
theorem GillespieGraph.DrawAndApplyEvent_frame_graph (g : GillespieGraph) :
    ∃ x, g.DrawAndApplyEvent = { g with mesh_x := x, rng := g.rng.advance } := by
  unfold GillespieGraph.DrawAndApplyEvent
  dsimp only
  obtain ⟨x, hx, _⟩ := GillespieGraph.walkMeshes_keeps { g with rng := g.rng.advance }
    (g.rng.uniform g.rng.pos * g.a0) (List.range g.n_meshes) 0
  exact ⟨x, hx⟩

/-- A call of `Iterate` of the graph Gillespie kernel does not decrease the
time when the total propensity is not negative and the logarithm drawn for the
time step is not negative. -/
theorem GillespieGraph.Iterate_time_gillespieGraph (m : Libm) (g : GillespieGraph)
    (ha : 0 ≤ g.ComputePropensities.a0)
    (hl : 0 ≤ m.log (1 / g.rng.uniform (g.rng.pos + 1))) :
    g.t ≤ (g.Iterate m).2.t := by
  obtain ⟨ar, ad, a0r, a0d, a0, hcp⟩ := g.ComputePropensities_frame_gillespieGraph
  rw [hcp] at ha
  have ha0 : 0 ≤ a0 := ha
  unfold GillespieGraph.Iterate
  dsimp only
  by_cases hcomp : g.complete = true
  · rw [if_pos hcomp]
  · rw [if_neg hcomp, GillespieGraph.ComputePropensities_guard_graph, hcp]
    dsimp only
    by_cases hz : a0 = 0
    · rw [if_pos hz]
      exact le_refl _
    · rw [if_neg hz]
      obtain ⟨x, hd⟩ := GillespieGraph.DrawAndApplyEvent_frame_graph
        { g with sampling_done_this_iteration := false, mesh_ar := ar, mesh_ad := ad,
                 mesh_a0r := a0r, mesh_a0d := a0d, a0 := a0 }
      rw [hd]
      dsimp only
      obtain ⟨_, _, _, _, _, _, _, _, _, k10, _⟩ :=
        SimulationAlgorithmBase.SamplingStep_CheckTMax_keeps
          { g.toSimulationAlgorithmBase with
            mesh_x := x
            sampling_done_this_iteration := false
            dt := m.log (1 / g.rng.advance.uniform g.rng.advance.pos) / a0
            rng := g.rng.advance.advance
            t := g.t + m.log (1 / g.rng.advance.uniform g.rng.advance.pos) / a0 }
      refine le_of_le_of_eq ?_ k10.symm
      show g.t ≤ g.t + m.log (1 / g.rng.uniform (g.rng.pos + 1)) / a0
      have := div_nonneg hl ha0
      linarith

/-- One call appends at most one snapshot, of the time and state that it
leaves. -/
theorem GridAlgo.call_once (m : Libm) (c : Call) (a : GridAlgo) :
    a.base.toSimulationAlgorithmBase.AtMostOneSnapshot
      (a.call m c).base.toSimulationAlgorithmBase := by
  cases c with
  | iterate =>
    exact SimulationAlgorithmBase.IterateShape_once _ _ (GridAlgo.Iterate_shape_grid m a) 0
  | sample =>
    show a.base.toSimulationAlgorithmBase.AtMostOneSnapshot a.Sample.base.toSimulationAlgorithmBase
    rw [GridAlgo.Sample_base]
    exact SimulationAlgorithmBase.Sample_once _

theorem GraphAlgo.call_once_graph (m : Libm) (c : Call) (a : GraphAlgo) :
    a.base.toSimulationAlgorithmBase.AtMostOneSnapshot
      (a.call m c).base.toSimulationAlgorithmBase := by
  cases c with
  | iterate =>
    exact SimulationAlgorithmBase.IterateShape_once _ _ (GraphAlgo.Iterate_shape_graph m a) 0
  | sample =>
    show a.base.toSimulationAlgorithmBase.AtMostOneSnapshot a.Sample.base.toSimulationAlgorithmBase
    rw [GraphAlgo.Sample_base_graph]
    exact SimulationAlgorithmBase.Sample_once _

/-- A call of `Sample` keeps the time and the step. -/
theorem GridAlgo.Sample_clock (a : GridAlgo) :
    a.Sample.base.t = a.base.t ∧ a.Sample.base.dt = a.base.dt ∧
      a.Sample.fixedStep = a.fixedStep := by
  obtain ⟨sx, st, g, h⟩ := a.base.toSimulationAlgorithmBase.Sample_frame
  have hb := GridAlgo.Sample_base a
  rw [h] at hb
  refine ⟨?_, ?_, by cases a <;> rfl⟩
  · show a.Sample.base.toSimulationAlgorithmBase.t = _
    rw [hb]
  · show a.Sample.base.toSimulationAlgorithmBase.dt = _
    rw [hb]

theorem GraphAlgo.Sample_clock_graph (a : GraphAlgo) :
    a.Sample.base.t = a.base.t ∧ a.Sample.base.dt = a.base.dt ∧
      a.Sample.fixedStep = a.fixedStep := by
  obtain ⟨sx, st, g, h⟩ := a.base.toSimulationAlgorithmBase.Sample_frame
  have hb := GraphAlgo.Sample_base_graph a
  rw [h] at hb
  refine ⟨?_, ?_, by cases a <;> rfl⟩
  · show a.Sample.base.toSimulationAlgorithmBase.t = _
    rw [hb]
  · show a.Sample.base.toSimulationAlgorithmBase.dt = _
    rw [hb]

/-- A call on a kernel with a fixed step `dt >= 0` does not decrease the time
and keeps the step and the kind of the kernel. -/
theorem GridAlgo.call_fixed (m : Libm) (c : Call) (a : GridAlgo) (hf : a.fixedStep = true)
    (hdt : 0 ≤ a.base.dt) :
    a.base.t ≤ (a.call m c).base.t ∧ (a.call m c).base.dt = a.base.dt ∧
      (a.call m c).fixedStep = true := by
  cases c with
  | iterate =>
    cases a with
    | gillespie g => exact absurd hf Bool.false_ne_true
    | tauleap e =>
      obtain ⟨h1, h2⟩ := TauLeap3D.Iterate_time_tauLeap3D e hdt
      exact ⟨h1, h2, rfl⟩
    | euler e =>
      obtain ⟨h1, h2⟩ := Euler3D.Iterate_time_euler3D m e hdt
      exact ⟨h1, h2, rfl⟩
  | sample =>
    obtain ⟨h1, h2, h3⟩ := GridAlgo.Sample_clock a
    exact ⟨le_of_eq h1.symm, h2, h3.trans hf⟩

theorem GraphAlgo.call_fixed_graph (m : Libm) (c : Call) (a : GraphAlgo)
    (hf : a.fixedStep = true) (hdt : 0 ≤ a.base.dt) :
    a.base.t ≤ (a.call m c).base.t ∧ (a.call m c).base.dt = a.base.dt ∧
      (a.call m c).fixedStep = true := by
  cases c with
  | iterate =>
    cases a with
    | gillespie g => exact absurd hf Bool.false_ne_true
    | tauleap e =>
      obtain ⟨h1, h2⟩ := TauLeapGraph.Iterate_time_tauLeapGraph e hdt
      exact ⟨h1, h2, rfl⟩
    | euler e =>
      obtain ⟨h1, h2⟩ := EulerGraph.Iterate_time_eulerGraph m e hdt
      exact ⟨h1, h2, rfl⟩
  | sample =>
    obtain ⟨h1, h2, h3⟩ := GraphAlgo.Sample_clock_graph a
    exact ⟨le_of_eq h1.symm, h2, h3.trans hf⟩

/-- Along any sequence of calls, a kernel with a fixed step `dt >= 0` keeps
its step and its kind. -/
theorem GridAlgo.run_fixed (m : Libm) (calls : List Call) :
    ∀ a : GridAlgo, a.fixedStep = true → 0 ≤ a.base.dt →
      (a.run m calls).fixedStep = true ∧ (a.run m calls).base.dt = a.base.dt := by
  induction calls with
  | nil => intro a hf _; exact ⟨hf, rfl⟩
  | cons c rest ih =>
    intro a hf hdt
    obtain ⟨_, h2, h3⟩ := GridAlgo.call_fixed m c a hf hdt
    obtain ⟨i1, i2⟩ := ih (a.call m c) h3 (by rw [h2]; exact hdt)
    exact ⟨i1, i2.trans h2⟩

theorem GraphAlgo.run_fixed_graph (m : Libm) (calls : List Call) :
    ∀ a : GraphAlgo, a.fixedStep = true → 0 ≤ a.base.dt →
      (a.run m calls).fixedStep = true ∧ (a.run m calls).base.dt = a.base.dt := by
  induction calls with
  | nil => intro a hf _; exact ⟨hf, rfl⟩
  | cons c rest ih =>
    intro a hf hdt
    obtain ⟨_, h2, h3⟩ := GraphAlgo.call_fixed_graph m c a hf hdt
    obtain ⟨i1, i2⟩ := ih (a.call m c) h3 (by rw [h2]; exact hdt)
    exact ⟨i1, i2.trans h2⟩

/-- The object after `Init` holds an empty trajectory or the one snapshot of
its time and state. -/
theorem GridAlgo.Init_trajectory (m : Libm) (a : GridAlgo)
    (w h d n_species n_reactions n_env : Nat) (mesh_x0 : List ℚ) (mesh_chstt mesh_env : List Int)
    (mesh_vol : ℚ) (k sub sto r_env D : List ℚ) (boundary_conditions : List Int) (sample_n : Nat)
    (t_samples : List ℚ) (sampling_policy_code : Int) (sampling_interval t_max time_step : ℚ)
    (seed : Rng) (a0 : GridAlgo)
    (ha0 : a0 = a.Init m w h d n_species n_reactions n_env mesh_x0 mesh_chstt mesh_env mesh_vol k
      sub sto r_env D boundary_conditions sample_n t_samples sampling_policy_code
      sampling_interval t_max time_step seed) :
    ((a0.base.sampled_t = [] ∧ a0.base.sampled_mesh_x = []) ∨
      (a0.base.sampled_t = [a0.base.t] ∧ a0.base.sampled_mesh_x = [a0.base.mesh_x])) ∧
    a0.base.dt = time_step ∧ a0.fixedStep = a.fixedStep := by
  obtain ⟨kr, hkr⟩ := GridAlgo.Init_base_grid m a w h d n_species n_reactions n_env mesh_x0
    mesh_chstt mesh_env mesh_vol k sub sto r_env D boundary_conditions sample_n t_samples
    sampling_policy_code sampling_interval t_max time_step seed
  rw [← ha0] at hkr
  refine ⟨?_, ?_, by rw [ha0]; cases a <;> rfl⟩
  · show (a0.base.toSimulationAlgorithmBase.sampled_t = [] ∧
        a0.base.toSimulationAlgorithmBase.sampled_mesh_x = []) ∨
      (a0.base.toSimulationAlgorithmBase.sampled_t = [a0.base.toSimulationAlgorithmBase.t] ∧
        a0.base.toSimulationAlgorithmBase.sampled_mesh_x =
          [a0.base.toSimulationAlgorithmBase.mesh_x])
    rw [hkr]
    exact SimulationAlgorithmBase.SamplingStep_first _ rfl rfl
  · show a0.base.toSimulationAlgorithmBase.dt = time_step
    rw [hkr]
    exact (SimulationAlgorithmBase.SamplingStep_clock _).2.1

theorem GraphAlgo.Init_trajectory_graph (m : Libm) (a : GraphAlgo)
    (n_nodes n_species n_reactions n_env n_edges : Nat) (edge_i edge_j : List Nat)
    (edge_sfc edge_dst : List ℚ) (mesh_x0 : List ℚ) (mesh_chstt mesh_env : List Int)
    (mesh_vol : List ℚ) (k sub sto r_env D : List ℚ) (sample_n : Nat) (t_samples : List ℚ)
    (sampling_policy_code : Int) (sampling_interval t_max time_step : ℚ) (seed : Rng)
    (a0 : GraphAlgo)
    (ha0 : a0 = a.Init m n_nodes n_species n_reactions n_env n_edges edge_i edge_j edge_sfc
      edge_dst mesh_x0 mesh_chstt mesh_env mesh_vol k sub sto r_env D sample_n t_samples
      sampling_policy_code sampling_interval t_max time_step seed) :
    ((a0.base.sampled_t = [] ∧ a0.base.sampled_mesh_x = []) ∨
      (a0.base.sampled_t = [a0.base.t] ∧ a0.base.sampled_mesh_x = [a0.base.mesh_x])) ∧
    a0.base.dt = time_step ∧ a0.fixedStep = a.fixedStep := by
  obtain ⟨kr, hkr⟩ := GraphAlgo.Init_base_graphAlgo m a n_nodes n_species n_reactions n_env
    n_edges edge_i edge_j edge_sfc edge_dst mesh_x0 mesh_chstt mesh_env mesh_vol k sub sto r_env D
    sample_n t_samples sampling_policy_code sampling_interval t_max time_step seed
  rw [← ha0] at hkr
  refine ⟨?_, ?_, by rw [ha0]; cases a <;> rfl⟩
  · show (a0.base.toSimulationAlgorithmBase.sampled_t = [] ∧
        a0.base.toSimulationAlgorithmBase.sampled_mesh_x = []) ∨
      (a0.base.toSimulationAlgorithmBase.sampled_t = [a0.base.toSimulationAlgorithmBase.t] ∧
        a0.base.toSimulationAlgorithmBase.sampled_mesh_x =
          [a0.base.toSimulationAlgorithmBase.mesh_x])
    rw [hkr]
    exact SimulationAlgorithmBase.SamplingStep_first _ rfl rfl
  · show a0.base.toSimulationAlgorithmBase.dt = time_step
    rw [hkr]
    exact (SimulationAlgorithmBase.SamplingStep_clock _).2.1

/-- C22.  Take the object `a0` that `Init` leaves (any kernel, either
topology) and any sequence `calls` of `Iterate` and `Sample` calls.  If no
`Iterate` call of the sequence decreases the time, then after the calls the
recorded times are in non-decreasing order (and not after the current time),
there are as many recorded states as recorded times, and every recorded pair
`(sampled_t[k], sampled_mesh_x[k])` is the pair `(t, mesh_x)` that the object
had right after the call that recorded it as snapshot `k` (`Init` itself for a
snapshot taken by its sampling pass).  No `Iterate` call decreases the time
under `Euler3D`, `TauLeap3D`, `EulerGraph` and `TauLeapGraph` when
`time_step >= 0`; and one `Iterate` call of `Gillespie3D` or `GillespieGraph`
does not decrease the time when the total propensity `a0` is not negative, the
draw for the time step is in `(0, 1)` and the logarithm is not negative from
`1` on. -/
theorem C22_trajectory_order :
    (∀ (m : Libm) (a : GridAlgo) (w h d n_species n_reactions n_env : Nat) (mesh_x0 : List ℚ)
      (mesh_chstt mesh_env : List Int) (mesh_vol : ℚ) (k sub sto r_env D : List ℚ)
      (boundary_conditions : List Int) (sample_n : Nat) (t_samples : List ℚ)
      (sampling_policy_code : Int) (sampling_interval t_max time_step : ℚ) (seed : Rng)
      (a0 : GridAlgo) (calls : List Call),
      a0 = a.Init m w h d n_species n_reactions n_env mesh_x0 mesh_chstt mesh_env mesh_vol k sub
        sto r_env D boundary_conditions sample_n t_samples sampling_policy_code sampling_interval
        t_max time_step seed →
      (∀ pre post, calls = pre ++ Call.iterate :: post →
        (a0.run m pre).base.t ≤ ((a0.run m pre).Iterate m).2.base.t) →
      RecordedInOrder (fun pre => (a0.run m pre).base.toSimulationAlgorithmBase) calls) ∧
    (∀ (m : Libm) (a : GraphAlgo) (n_nodes n_species n_reactions n_env n_edges : Nat)
      (edge_i edge_j : List Nat) (edge_sfc edge_dst : List ℚ) (mesh_x0 : List ℚ)
      (mesh_chstt mesh_env : List Int) (mesh_vol : List ℚ) (k sub sto r_env D : List ℚ)
      (sample_n : Nat) (t_samples : List ℚ) (sampling_policy_code : Int)
      (sampling_interval t_max time_step : ℚ) (seed : Rng) (a0 : GraphAlgo) (calls : List Call),
      a0 = a.Init m n_nodes n_species n_reactions n_env n_edges edge_i edge_j edge_sfc edge_dst
        mesh_x0 mesh_chstt mesh_env mesh_vol k sub sto r_env D sample_n t_samples
        sampling_policy_code sampling_interval t_max time_step seed →
      (∀ pre post, calls = pre ++ Call.iterate :: post →
        (a0.run m pre).base.t ≤ ((a0.run m pre).Iterate m).2.base.t) →
      RecordedInOrder (fun pre => (a0.run m pre).base.toSimulationAlgorithmBase) calls) ∧
    (∀ (m : Libm) (a : GridAlgo) (w h d n_species n_reactions n_env : Nat) (mesh_x0 : List ℚ)
      (mesh_chstt mesh_env : List Int) (mesh_vol : ℚ) (k sub sto r_env D : List ℚ)
      (boundary_conditions : List Int) (sample_n : Nat) (t_samples : List ℚ)
      (sampling_policy_code : Int) (sampling_interval t_max time_step : ℚ) (seed : Rng)
      (a0 : GridAlgo) (pre : List Call),
      a0 = a.Init m w h d n_species n_reactions n_env mesh_x0 mesh_chstt mesh_env mesh_vol k sub
        sto r_env D boundary_conditions sample_n t_samples sampling_policy_code sampling_interval
        t_max time_step seed →
      a.fixedStep = true → 0 ≤ time_step →
      (a0.run m pre).base.t ≤ ((a0.run m pre).Iterate m).2.base.t) ∧
    (∀ (m : Libm) (a : GraphAlgo) (n_nodes n_species n_reactions n_env n_edges : Nat)
      (edge_i edge_j : List Nat) (edge_sfc edge_dst : List ℚ) (mesh_x0 : List ℚ)
      (mesh_chstt mesh_env : List Int) (mesh_vol : List ℚ) (k sub sto r_env D : List ℚ)
      (sample_n : Nat) (t_samples : List ℚ) (sampling_policy_code : Int)
      (sampling_interval t_max time_step : ℚ) (seed : Rng) (a0 : GraphAlgo) (pre : List Call),
      a0 = a.Init m n_nodes n_species n_reactions n_env n_edges edge_i edge_j edge_sfc edge_dst
        mesh_x0 mesh_chstt mesh_env mesh_vol k sub sto r_env D sample_n t_samples
        sampling_policy_code sampling_interval t_max time_step seed →
      a.fixedStep = true → 0 ≤ time_step →
      (a0.run m pre).base.t ≤ ((a0.run m pre).Iterate m).2.base.t) ∧
    (∀ (m : Libm) (g : Gillespie3D), (∀ y, 1 ≤ y → 0 ≤ m.log y) →
      0 ≤ g.ComputePropensities.a0 →
      0 < g.rng.uniform (g.rng.pos + 1) → g.rng.uniform (g.rng.pos + 1) < 1 →
      g.t ≤ (g.Iterate m).2.t) ∧
    (∀ (m : Libm) (g : GillespieGraph), (∀ y, 1 ≤ y → 0 ≤ m.log y) →
      0 ≤ g.ComputePropensities.a0 →
      0 < g.rng.uniform (g.rng.pos + 1) → g.rng.uniform (g.rng.pos + 1) < 1 →
      g.t ≤ (g.Iterate m).2.t) := by
  have hinv : ∀ U : ℚ, 0 < U → U < 1 → (1 : ℚ) ≤ 1 / U := fun U h0 h1 => by
    rw [le_div_iff₀ h0]
    linarith
  refine ⟨?_, ?_, ?_, ?_, ?_, ?_⟩
  · intro m a w h d n_species n_reactions n_env mesh_x0 mesh_chstt mesh_env mesh_vol k sub sto
      r_env D boundary_conditions sample_n t_samples sampling_policy_code sampling_interval t_max
      time_step seed a0 calls ha0 hmono
    obtain ⟨h0, _, _⟩ := GridAlgo.Init_trajectory m a w h d n_species n_reactions n_env mesh_x0
      mesh_chstt mesh_env mesh_vol k sub sto r_env D boundary_conditions sample_n t_samples
      sampling_policy_code sampling_interval t_max time_step seed a0 ha0
    refine recorded_in_order (fun a : GridAlgo => a.base.toSimulationAlgorithmBase)
      (fun c a => a.call m c) (fun c s => GridAlgo.call_once m c s) a0 h0 calls ?_
    intro pre c post hp
    cases c with
    | iterate => exact hmono pre post hp
    | sample => exact le_of_eq (GridAlgo.Sample_clock _).1.symm
  · intro m a n_nodes n_species n_reactions n_env n_edges edge_i edge_j edge_sfc edge_dst mesh_x0
      mesh_chstt mesh_env mesh_vol k sub sto r_env D sample_n t_samples sampling_policy_code
      sampling_interval t_max time_step seed a0 calls ha0 hmono
    obtain ⟨h0, _, _⟩ := GraphAlgo.Init_trajectory_graph m a n_nodes n_species n_reactions n_env
      n_edges edge_i edge_j edge_sfc edge_dst mesh_x0 mesh_chstt mesh_env mesh_vol k sub sto r_env
      D sample_n t_samples sampling_policy_code sampling_interval t_max time_step seed a0 ha0
    refine recorded_in_order (fun a : GraphAlgo => a.base.toSimulationAlgorithmBase)
      (fun c a => a.call m c) (fun c s => GraphAlgo.call_once_graph m c s) a0 h0 calls ?_
    intro pre c post hp
    cases c with
    | iterate => exact hmono pre post hp
    | sample => exact le_of_eq (GraphAlgo.Sample_clock_graph _).1.symm
  · intro m a w h d n_species n_reactions n_env mesh_x0 mesh_chstt mesh_env mesh_vol k sub sto
      r_env D boundary_conditions sample_n t_samples sampling_policy_code sampling_interval t_max
      time_step seed a0 pre ha0 hf hdt
    obtain ⟨_, h1, h2⟩ := GridAlgo.Init_trajectory m a w h d n_species n_reactions n_env mesh_x0
      mesh_chstt mesh_env mesh_vol k sub sto r_env D boundary_conditions sample_n t_samples
      sampling_policy_code sampling_interval t_max time_step seed a0 ha0
    obtain ⟨r1, r2⟩ := GridAlgo.run_fixed m pre a0 (h2.trans hf) (by rw [h1]; exact hdt)
    exact (GridAlgo.call_fixed m Call.iterate _ r1 (by rw [r2, h1]; exact hdt)).1
  · intro m a n_nodes n_species n_reactions n_env n_edges edge_i edge_j edge_sfc edge_dst mesh_x0
      mesh_chstt mesh_env mesh_vol k sub sto r_env D sample_n t_samples sampling_policy_code
      sampling_interval t_max time_step seed a0 pre ha0 hf hdt
    obtain ⟨_, h1, h2⟩ := GraphAlgo.Init_trajectory_graph m a n_nodes n_species n_reactions n_env
      n_edges edge_i edge_j edge_sfc edge_dst mesh_x0 mesh_chstt mesh_env mesh_vol k sub sto r_env
      D sample_n t_samples sampling_policy_code sampling_interval t_max time_step seed a0 ha0
    obtain ⟨r1, r2⟩ := GraphAlgo.run_fixed_graph m pre a0 (h2.trans hf) (by rw [h1]; exact hdt)
    exact (GraphAlgo.call_fixed_graph m Call.iterate _ r1 (by rw [r2, h1]; exact hdt)).1
  · intro m g hlog ha h0 h1
    exact Gillespie3D.Iterate_time_gillespie3D m g ha (hlog _ (hinv _ h0 h1))
  · intro m g hlog ha h0 h1
    exact GillespieGraph.Iterate_time_gillespieGraph m g ha (hlog _ (hinv _ h0 h1))

/-- C22 on the Euler kernel of a 2x1x1 grid with `time_step = 1/10`, sampling
on every iteration, for the calls `Iterate`, `Sample`, `Iterate`: the
trajectory is recorded in order, at the times `0`, `1/10` and `1/5`. -/
theorem C22_trajectory_order_witness :
    RecordedInOrder
      (fun pre => ((GridAlgo.Init scenarioLibm (GridAlgo.euler Euler3D.new) 2 1 1 1 1 1 [100, 0]
        [0, 0] [0, 0] 1 [1] [1] [-1] [1] [1 / 10] [0, 0, 0] 0 [] 1 1 10 (1 / 10)
        scenarioRng).run scenarioLibm pre).base.toSimulationAlgorithmBase)
      [Call.iterate, Call.sample, Call.iterate] ∧
    ((GridAlgo.Init scenarioLibm (GridAlgo.euler Euler3D.new) 2 1 1 1 1 1 [100, 0]
      [0, 0] [0, 0] 1 [1] [1] [-1] [1] [1 / 10] [0, 0, 0] 0 [] 1 1 10 (1 / 10)
      scenarioRng).run scenarioLibm [Call.iterate, Call.sample, Call.iterate]).base.sampled_t =
      [0, 1 / 10, 1 / 5] :=
  ⟨C22_trajectory_order.1 scenarioLibm (GridAlgo.euler Euler3D.new) 2 1 1 1 1 1 [100, 0]
      [0, 0] [0, 0] 1 [1] [1] [-1] [1] [1 / 10] [0, 0, 0] 0 [] 1 1 10 (1 / 10) scenarioRng _
      [Call.iterate, Call.sample, Call.iterate] rfl
      (fun pre _ _ => C22_trajectory_order.2.2.1 scenarioLibm (GridAlgo.euler Euler3D.new) 2 1 1
        1 1 1 [100, 0] [0, 0] [0, 0] 1 [1] [1] [-1] [1] [1 / 10] [0, 0, 0] 0 [] 1 1 10 (1 / 10)
        scenarioRng _ pre rfl rfl (by norm_num)),
    by decide!⟩


/-! ## C30: the event drawn by the Gillespie kernels -/

@[simp] theorem totalPropensity_nil {α : Type} : totalPropensity ([] : List (α × ℚ)) = 0 := rfl

@[simp] theorem totalPropensity_cons {α : Type} (x : α × ℚ) (l : List (α × ℚ)) :
    totalPropensity (x :: l) = x.2 + totalPropensity l := by
  simp [totalPropensity]

@[simp] theorem totalPropensity_append {α : Type} (l l1 : List (α × ℚ)) :
    totalPropensity (l ++ l1) = totalPropensity l + totalPropensity l1 := by
  simp [totalPropensity]

theorem totalPropensity_flatMap {α β : Type} (l : List β) (F : β → List (α × ℚ)) :
    totalPropensity (l.flatMap F) = (l.map (fun i => totalPropensity (F i))).sum := by
  induction l with
  | nil => rfl
  | cons a rest ih => simp [List.flatMap_cons, ih]

theorem totalPropensity_map {α β : Type} (l : List β) (e : β → α) (p : β → ℚ) :
    totalPropensity (l.map (fun x => (e x, p x))) = (l.map p).sum := by
  unfold totalPropensity
  rw [List.map_map]
  rfl

theorem totalPropensity_nonneg {α : Type} (l : List (α × ℚ)) (h : ∀ x ∈ l, 0 ≤ x.2) :
    0 ≤ totalPropensity l := by
  induction l with
  | nil => exact le_refl _
  | cons a rest ih =>
    rw [totalPropensity_cons]
    exact add_nonneg (h a (List.mem_cons_self _ _))
      (ih (fun x hx => h x (List.mem_cons_of_mem _ hx)))

namespace Selects

theorem head {α : Type} (e : α) (p : ℚ) (rest : List (α × ℚ)) (acc r : ℚ) (h0 : acc ≤ r)
    (h1 : r < acc + p) : Selects ((e, p) :: rest) acc r e :=
  ⟨[], p, rest, rfl, by simpa using h0, by simpa using h1⟩

theorem append_right {α : Type} {l : List (α × ℚ)} {acc r : ℚ} {e : α} (h : Selects l acc r e)
    (l1 : List (α × ℚ)) : Selects (l ++ l1) acc r e := by
  obtain ⟨pre, p, post, h1, h2, h3⟩ := h
  exact ⟨pre, p, post ++ l1, by rw [h1]; simp, h2, h3⟩

theorem append_left {α : Type} {l : List (α × ℚ)} {acc r : ℚ} {e : α} (l0 : List (α × ℚ))
    (h : Selects l (acc + totalPropensity l0) r e) : Selects (l0 ++ l) acc r e := by
  obtain ⟨pre, p, post, h1, h2, h3⟩ := h
  refine ⟨l0 ++ pre, p, post, by rw [h1]; simp, ?_, ?_⟩
  · rw [totalPropensity_append]
    linarith
  · rw [totalPropensity_append]
    linarith

theorem shift {α : Type} {l : List (α × ℚ)} {c r : ℚ} {e : α} (h : Selects l 0 (r - c) e) :
    Selects l c r e := by
  obtain ⟨pre, p, post, h1, h2, h3⟩ := h
  exact ⟨pre, p, post, h1, by linarith, by linarith⟩

/-- When no propensity is negative, one interval at most holds the target. -/
theorem unique {α : Type} (l : List (α × ℚ)) (hnn : ∀ x ∈ l, 0 ≤ x.2) (acc r : ℚ)
    (pre : List (α × ℚ)) (e : α) (p : ℚ) (post : List (α × ℚ))
    (pre1 : List (α × ℚ)) (e1 : α) (p1 : ℚ) (post1 : List (α × ℚ))
    (h1 : l = pre ++ (e, p) :: post) (h2 : acc + totalPropensity pre ≤ r)
    (h3 : r < acc + totalPropensity pre + p)
    (k1 : l = pre1 ++ (e1, p1) :: post1) (k2 : acc + totalPropensity pre1 ≤ r)
    (k3 : r < acc + totalPropensity pre1 + p1) :
    pre1 = pre ∧ e1 = e ∧ p1 = p ∧ post1 = post := by
  have key : ∀ (a b : List (α × ℚ)) (x y : α × ℚ) (c d : List (α × ℚ)),
      l = a ++ x :: c → l = b ++ y :: d → acc + totalPropensity b ≤ r →
      r < acc + totalPropensity a + x.2 → ¬ a.length < b.length := by
    intro a b x y c d ha hb hbr har hlt
    have hab : a ++ x :: c = b ++ y :: d := ha.symm.trans hb
    rcases List.append_eq_append_iff.mp hab with ⟨a', e1, e2⟩ | ⟨c', e1, e2⟩
    · cases a' with
      | nil =>
        rw [List.append_nil] at e1
        rw [e1] at hlt
        exact absurd hlt (lt_irrefl _)
      | cons z zs =>
        rw [List.cons_append] at e2
        have hz : x = z := (List.cons.inj e2).1
        have hbnn : ∀ w ∈ zs, 0 ≤ w.2 := by
          intro w hw
          refine hnn w ?_
          rw [hb, e1]
          simp [hw]
        have := totalPropensity_nonneg zs hbnn
        rw [e1, totalPropensity_append, totalPropensity_cons, ← hz] at hbr
        linarith
    · rw [e1] at hlt
      simp at hlt
  have hlen : pre1.length = pre.length := by
    have a1 := key pre pre1 (e, p) (e1, p1) post post1 h1 k1 k2 h3
    have a2 := key pre1 pre (e1, p1) (e, p) post1 post k1 h1 h2 k3
    omega
  have hab : pre ++ (e, p) :: post = pre1 ++ (e1, p1) :: post1 := h1.symm.trans k1
  obtain ⟨q1, q2⟩ := List.append_inj hab hlen.symm
  obtain ⟨q3, q4⟩ := List.cons.inj q2
  obtain ⟨q5, q6⟩ := Prod.mk.inj q3
  exact ⟨q1.symm, q5.symm, q6.symm, q4.symm⟩

end Selects

theorem Selects.cons {α : Type} (x : α × ℚ) {l : List (α × ℚ)} {acc r : ℚ} {e : α}
    (h : Selects l (acc + x.2) r e) : Selects (x :: l) acc r e := by
  have h1 : Selects l (acc + totalPropensity [x]) r e := by
    rw [totalPropensity_cons, totalPropensity_nil, add_zero]
    exact h
  exact Selects.append_left [x] h1

namespace Gillespie3D

/-- The loop over the reactions of a mesh stops at the reaction whose interval
holds the target, when the target is under the total of the reactions. -/
theorem walkReactions_selects (g : Gillespie3D) (i : Nat) (r2 : ℚ) :
    ∀ (l : List Nat) (acc : ℚ), acc ≤ r2 →
      r2 < acc + totalPropensity (l.map
        (fun r => (Event.reaction i r, rd g.mesh_ar (i * g.n_reactions + r)))) →
      ∃ e, Selects (l.map
          (fun r => (Event.reaction i r, rd g.mesh_ar (i * g.n_reactions + r)))) acc r2 e ∧
        walkReactions g i r2 l acc = g.applyEvent e := by
  intro l
  induction l with
  | nil =>
    intro acc h0 h1
    rw [List.map_nil, totalPropensity_nil, add_zero] at h1
    exact absurd h1 (not_lt.mpr h0)
  | cons j rest ih =>
    intro acc h0 h1
    rw [List.map_cons, totalPropensity_cons] at h1
    unfold walkReactions
    dsimp only
    by_cases hc : r2 < acc + rd g.mesh_ar (i * g.n_reactions + j)
    · rw [if_pos hc]
      exact ⟨Event.reaction i j, Selects.head _ _ _ _ _ h0 hc, rfl⟩
    · rw [if_neg hc]
      obtain ⟨e, he, hw⟩ := ih (acc + rd g.mesh_ar (i * g.n_reactions + j)) (not_lt.mp hc)
        (by linarith)
      exact ⟨e, Selects.cons _ he, hw⟩

/-- The loop over the directions of a species stops at the direction whose
interval holds the target, or ends with the propensities of the species
cumulated, not above the target. -/
theorem walkDirections_selects (g : Gillespie3D) (i j : Nat) (r2 : ℚ) :
    ∀ (l : List Nat) (acc : ℚ), acc ≤ r2 →
      ((walkDirections g i j r2 l acc).2.2 = true ∧
        ∃ e, Selects (l.map (fun n => (Event.diffusion i j n,
            rd g.mesh_ad (i * g.n_species * 6 + j * 6 + n)))) acc r2 e ∧
          (walkDirections g i j r2 l acc).1 = g.applyEvent e) ∨
      ((walkDirections g i j r2 l acc).2.2 = false ∧
        (walkDirections g i j r2 l acc).2.1 = acc + totalPropensity (l.map
          (fun n => (Event.diffusion i j n,
            rd g.mesh_ad (i * g.n_species * 6 + j * 6 + n)))) ∧
        acc + totalPropensity (l.map (fun n => (Event.diffusion i j n,
          rd g.mesh_ad (i * g.n_species * 6 + j * 6 + n)))) ≤ r2) := by
  intro l
  induction l with
  | nil =>
    intro acc h0
    refine Or.inr ⟨rfl, ?_, ?_⟩
    · rw [List.map_nil, totalPropensity_nil, add_zero]
      rfl
    · rw [List.map_nil, totalPropensity_nil, add_zero]
      exact h0
  | cons n rest ih =>
    intro acc h0
    unfold walkDirections
    dsimp only
    by_cases hc : r2 < acc + rd g.mesh_ad (i * g.n_species * 6 + j * 6 + n)
    · rw [if_pos hc]
      exact Or.inl ⟨rfl, Event.diffusion i j n, Selects.head _ _ _ _ _ h0 hc, rfl⟩
    · rw [if_neg hc, List.map_cons, totalPropensity_cons]
      rcases ih (acc + rd g.mesh_ad (i * g.n_species * 6 + j * 6 + n)) (not_lt.mp hc) with
        ⟨h1, e, he, hw⟩ | ⟨h1, h2, h3⟩
      · exact Or.inl ⟨h1, e, Selects.cons _ he, hw⟩
      · refine Or.inr ⟨h1, ?_, ?_⟩
        · rw [h2]
          ring
        · linarith

/-- The loop over the species of a mesh stops at the diffusion event whose
interval holds the target, when the target is under the total of the
diffusion events. -/
theorem walkSpecies_selects (g : Gillespie3D) (i : Nat) (r2 : ℚ) :
    ∀ (l : List Nat) (acc : ℚ), acc ≤ r2 →
      r2 < acc + totalPropensity (l.flatMap (fun s => (List.range 6).map
        (fun n => (Event.diffusion i s n,
          rd g.mesh_ad (i * g.n_species * 6 + s * 6 + n))))) →
      ∃ e, Selects (l.flatMap (fun s => (List.range 6).map
          (fun n => (Event.diffusion i s n,
            rd g.mesh_ad (i * g.n_species * 6 + s * 6 + n))))) acc r2 e ∧
        walkSpecies g i r2 l acc = g.applyEvent e := by
  intro l
  induction l with
  | nil =>
    intro acc h0 h1
    rw [List.flatMap_nil, totalPropensity_nil, add_zero] at h1
    exact absurd h1 (not_lt.mpr h0)
  | cons s rest ih =>
    intro acc h0 h1
    rw [List.flatMap_cons, totalPropensity_append] at h1
    unfold walkSpecies
    dsimp only
    rw [List.flatMap_cons]
    rcases walkDirections_selects g i s r2 (List.range 6) acc h0 with
      ⟨k1, e, he, hw⟩ | ⟨k1, k2, k3⟩
    · rw [if_pos k1]
      exact ⟨e, Selects.append_right he _, hw⟩
    · rw [if_neg (by rw [k1]; exact Bool.false_ne_true), k2]
      obtain ⟨e, he, hw⟩ := ih _ k3 (by linarith)
      exact ⟨e, Selects.append_left _ he, hw⟩

/-- The loop over the meshes stops at the event whose interval holds the
target, when the sums `mesh_a0r[i]` and `mesh_a0d[i]` are the totals of the
reactions and of the diffusion events of mesh `i` and the target is under the
total of the events. -/
theorem walkMeshes_selects (g : Gillespie3D) (r : ℚ) :
    ∀ (l : List Nat) (cum : ℚ),
      (∀ i ∈ l, rd g.mesh_a0r i = totalPropensity (g.reactionEvents i) ∧
        rd g.mesh_a0d i = totalPropensity (g.diffusionEvents i)) →
      cum ≤ r →
      r < cum + totalPropensity (l.flatMap
        (fun i => g.reactionEvents i ++ g.diffusionEvents i)) →
      ∃ e, Selects (l.flatMap (fun i => g.reactionEvents i ++ g.diffusionEvents i)) cum r e ∧
        walkMeshes g r l cum = g.applyEvent e := by
  intro l
  induction l with
  | nil =>
    intro cum _ h0 h1
    rw [List.flatMap_nil, totalPropensity_nil, add_zero] at h1
    exact absurd h1 (not_lt.mpr h0)
  | cons i rest ih =>
    intro cum hcons h0 h1
    obtain ⟨c1, c2⟩ := hcons i (List.mem_cons_self _ _)
    rw [List.flatMap_cons, totalPropensity_append, totalPropensity_append] at h1
    unfold walkMeshes
    dsimp only
    rw [List.flatMap_cons]
    by_cases hr : r < cum + rd g.mesh_a0r i
    · rw [if_pos hr]
      obtain ⟨e, he, hw⟩ := walkReactions_selects g i (r - cum) (List.range g.n_reactions) 0
        (by linarith) (by
          have : totalPropensity (g.reactionEvents i) = rd g.mesh_a0r i := c1.symm
          unfold reactionEvents at this
          rw [this]
          linarith)
      refine ⟨e, ?_, hw⟩
      exact Selects.append_right (Selects.append_right (Selects.shift he) _) _
    · rw [if_neg hr]
      by_cases hd : r < cum + rd g.mesh_a0r i + rd g.mesh_a0d i
      · rw [if_pos hd]
        obtain ⟨e, he, hw⟩ := walkSpecies_selects g i (r - (cum + rd g.mesh_a0r i))
          (List.range g.n_species) 0 (by linarith) (by
            have : totalPropensity (g.diffusionEvents i) = rd g.mesh_a0d i := c2.symm
            unfold diffusionEvents at this
            rw [this]
            linarith)
        refine ⟨e, ?_, hw⟩
        refine Selects.append_right ?_ _
        refine Selects.append_left _ ?_
        rw [← c1]
        exact Selects.shift he
      · rw [if_neg hd]
        obtain ⟨e, he, hw⟩ := ih (cum + rd g.mesh_a0r i + rd g.mesh_a0d i)
          (fun k hk => hcons k (List.mem_cons_of_mem _ hk)) (not_lt.mp hd) (by
            rw [c1, c2]
            linarith)
        refine ⟨e, ?_, hw⟩
        refine Selects.append_left _ ?_
        rw [totalPropensity_append, ← c1, ← c2, ← add_assoc]
        exact he

/-- Method `DrawAndApplyEvent` applies the event whose interval holds the
target `U * a0`, when the sums of the tables are the totals of the events,
`a0 > 0` and `0 <= U < 1`. -/
theorem DrawAndApplyEvent_selects (g : Gillespie3D)
    (hcons : ∀ i, i < g.n_meshes → rd g.mesh_a0r i = totalPropensity (g.reactionEvents i) ∧
      rd g.mesh_a0d i = totalPropensity (g.diffusionEvents i))
    (ha0 : g.a0 = totalPropensity g.events) (ha : 0 < g.a0)
    (hU0 : 0 ≤ g.rng.uniform g.rng.pos) (hU1 : g.rng.uniform g.rng.pos < 1) :
    ∃ e, Selects g.events 0 (g.rng.uniform g.rng.pos * g.a0) e ∧
      g.DrawAndApplyEvent = Gillespie3D.applyEvent { g with rng := g.rng.advance } e := by
  unfold DrawAndApplyEvent
  dsimp only
  exact walkMeshes_selects { g with rng := g.rng.advance } (g.rng.uniform g.rng.pos * g.a0)
    (List.range g.n_meshes) 0 (fun i hi => hcons i (List.mem_range.mp hi))
    (mul_nonneg hU0 (le_of_lt ha)) (by
      rw [zero_add]
      show g.rng.uniform g.rng.pos * g.a0 < totalPropensity g.events
      rw [← ha0]
      nlinarith)

end Gillespie3D

/-- A loop whose round `c` adds to an accumulator the cell `c` that it has
just written, and leaves the other cells, adds up the cells that it leaves. -/
theorem forLoop_acc_sum {σ : Type} (N : Nat) (body : Nat → σ → σ) (J : σ → Prop)
    (cell : σ → Nat → ℚ) (acc : σ → ℚ) (st : σ) (hJ : J st)
    (hstep : ∀ c, c < N → ∀ s, J s → J (body c s) ∧
      acc (body c s) = acc s + cell (body c s) c ∧
      ∀ c1, c1 ≠ c → cell (body c s) c1 = cell s c1) :
    J (forLoop N body st) ∧
    acc (forLoop N body st) = acc st + ((List.range N).map (cell (forLoop N body st))).sum := by
  refine forLoop_induction
    (fun k s => J s ∧ acc s = acc st + ((List.range k).map (cell s)).sum) N body st
    ⟨hJ, by simp⟩ (fun k hk s hs => ?_)
  obtain ⟨j1, j2⟩ := hs
  obtain ⟨s1, s2, s3⟩ := hstep k hk s j1
  refine ⟨s1, ?_⟩
  show acc (body k s) = acc st + ((List.range (k + 1)).map (cell (body k s))).sum
  rw [List.sum_range_succ, s2, j2, ← add_assoc]
  congr 2
  refine congrArg List.sum (List.map_congr_left (fun c hc => ?_))
  exact (s3 c (by have := List.mem_range.mp hc; omega)).symm

/-- The sum over the species and the directions is the sum over the flat
index. -/
theorem flatMap_range_mul {α : Type} (ns w : Nat) (f : Nat → Nat → α) :
    (List.range ns).flatMap (fun s => (List.range w).map (fun n => f s n)) =
      (List.range (ns * w)).map (fun c => f (c / w) (c % w)) := by
  induction ns with
  | zero => simp
  | succ ns ih =>
    rw [List.range_succ, List.flatMap_append, ih, Nat.succ_mul, List.range_add, List.map_append]
    congr 1
    rw [List.flatMap_cons, List.flatMap_nil, List.append_nil, List.map_map]
    refine List.map_congr_left (fun n hn => ?_)
    have hn1 := List.mem_range.mp hn
    have hw : 0 < w := by omega
    show f ns n = f ((ns * w + n) / w) ((ns * w + n) % w)
    rw [Nat.mul_comm ns w, Nat.mul_add_div hw, Nat.mul_add_mod, Nat.div_eq_of_lt hn1,
      Nat.mod_eq_of_lt hn1, Nat.add_zero]

namespace Gillespie3D

/-- The round of `ComputePropensities` for mesh `i`, from any state `st` of
the tables: the sums `mesh_a0r[i]` and `mesh_a0d[i]` that it leaves are the
sums of the cells of mesh `i` that it leaves, `a0` has grown by both, and the
cells and sums of the other meshes are as before. -/
theorem propensities_of_mesh (g : Gillespie3D) (i : Nat) (st : Gillespie3D)
    (h1 : i < st.mesh_a0r.length) (h2 : i < st.mesh_a0d.length) (r : Gillespie3D)
    (hr : r = forLoop g.n_species (fun s st =>
      forLoop 6 (fun n st =>
        let st :=
          if rd g.mesh_neighbors (i * 6 + n) ≠ -1 then
            { st with
              mesh_ad := wr st.mesh_ad (i * 6 * g.n_species + s * 6 + n)
                (g.toSimulationAlgorithm3DBase.DiffusionProp i s n) }
          else
            { st with mesh_ad := wr st.mesh_ad (i * 6 * g.n_species + s * 6 + n) 0 }
        let st := { st with
          mesh_a0d := wr st.mesh_a0d i
            (rd st.mesh_a0d i + rd st.mesh_ad (i * 6 * g.n_species + s * 6 + n)) }
        { st with a0 := st.a0 + rd st.mesh_ad (i * 6 * g.n_species + s * 6 + n) }) st)
      (forLoop g.n_reactions (fun r st =>
        let st := { st with
          mesh_ar := wr st.mesh_ar (i * g.n_reactions + r)
            (g.toSimulationAlgorithmBase.ReactionProp i r) }
        let st := { st with
          mesh_a0r := wr st.mesh_a0r i (rd st.mesh_a0r i + rd st.mesh_ar (i * g.n_reactions + r)) }
        { st with a0 := st.a0 + rd st.mesh_ar (i * g.n_reactions + r) })
        { ({ st with mesh_a0d := wr st.mesh_a0d i 0 } : Gillespie3D) with
          mesh_a0r := wr st.mesh_a0r i 0 })) :
    r.mesh_a0r.length = st.mesh_a0r.length ∧ r.mesh_a0d.length = st.mesh_a0d.length ∧
    rd r.mesh_a0r i =
      ((List.range g.n_reactions).map (fun c => rd r.mesh_ar (i * g.n_reactions + c))).sum ∧
    rd r.mesh_a0d i =
      ((List.range (g.n_species * 6)).map
        (fun c => rd r.mesh_ad (i * 6 * g.n_species + c))).sum ∧
    r.a0 = st.a0 + rd r.mesh_a0r i + rd r.mesh_a0d i ∧
    (∀ k, k ≠ i → rd r.mesh_a0r k = rd st.mesh_a0r k ∧ rd r.mesh_a0d k = rd st.mesh_a0d k) ∧
    (∀ f, (∀ c, c < g.n_reactions → f ≠ i * g.n_reactions + c) →
      rd r.mesh_ar f = rd st.mesh_ar f) ∧
    (∀ f, (∀ c, c < g.n_species * 6 → f ≠ i * 6 * g.n_species + c) →
      rd r.mesh_ad f = rd st.mesh_ad f) := by
  -- the state after the two sums are reset
  obtain ⟨s0, hs0⟩ : ∃ s0 : Gillespie3D, s0 =
      { ({ st with mesh_a0d := wr st.mesh_a0d i 0 } : Gillespie3D) with
        mesh_a0r := wr st.mesh_a0r i 0 } := ⟨_, rfl⟩
  rw [← hs0] at hr
  -- the state after the loop over the reactions
  obtain ⟨s1, hs1⟩ : ∃ s1 : Gillespie3D, s1 = forLoop g.n_reactions (fun r st =>
        let st := { st with
          mesh_ar := wr st.mesh_ar (i * g.n_reactions + r)
            (g.toSimulationAlgorithmBase.ReactionProp i r) }
        let st := { st with
          mesh_a0r := wr st.mesh_a0r i (rd st.mesh_a0r i + rd st.mesh_ar (i * g.n_reactions + r)) }
        { st with a0 := st.a0 + rd st.mesh_ar (i * g.n_reactions + r) }) s0 := ⟨_, rfl⟩
  rw [← hs1, forLoop_nested] at hr
  have z1 : rd s0.mesh_a0r i = 0 := by rw [hs0]; exact rd_wr_zero _ _
  have z2 : rd s0.mesh_a0d i = 0 := by rw [hs0]; exact rd_wr_zero _ _
  have l1 : s0.mesh_a0r.length = st.mesh_a0r.length := by rw [hs0]; exact length_wr _ _ _
  have l2 : s0.mesh_a0d.length = st.mesh_a0d.length := by rw [hs0]; exact length_wr _ _ _
  -- the loop over the reactions
  have R1 : s1.mesh_a0r.length = st.mesh_a0r.length ∧ rd s1.mesh_a0r i = rd s0.mesh_a0r i +
      ((List.range g.n_reactions).map (fun c => rd s1.mesh_ar (i * g.n_reactions + c))).sum := by
    rw [hs1]
    exact forLoop_acc_sum g.n_reactions _
      (fun s : Gillespie3D => s.mesh_a0r.length = st.mesh_a0r.length)
      (fun s c => rd s.mesh_ar (i * g.n_reactions + c)) (fun s => rd s.mesh_a0r i) s0 l1
      (fun c _ s hs => ⟨by
        show (wr _ _ _).length = _
        rw [length_wr]
        exact hs, by
        show rd (wr _ _ _) i = _
        rw [rd_wr_self _ _ (by rw [hs]; exact h1)], fun c1 hc1 => by
        show rd (wr _ _ _) _ = _
        exact rd_wr_ne _ _ (by omega)⟩)
  have R2 : True ∧ s1.a0 = s0.a0 +
      ((List.range g.n_reactions).map (fun c => rd s1.mesh_ar (i * g.n_reactions + c))).sum := by
    rw [hs1]
    exact forLoop_acc_sum g.n_reactions _ (fun _ : Gillespie3D => True)
      (fun s c => rd s.mesh_ar (i * g.n_reactions + c)) (fun s => s.a0) s0 trivial
      (fun c _ s _ => ⟨trivial, rfl, fun c1 hc1 => by
        show rd (wr _ _ _) _ = _
        exact rd_wr_ne _ _ (by omega)⟩)
  have R3 : s1.mesh_a0d = s0.mesh_a0d ∧ s1.mesh_ad = s0.mesh_ad := by
    rw [hs1]
    exact ⟨forLoop_preserve (fun s : Gillespie3D => s.mesh_a0d) _ _ _ (fun _ _ _ => rfl),
      forLoop_preserve (fun s : Gillespie3D => s.mesh_ad) _ _ _ (fun _ _ _ => rfl)⟩
  have R4 : ∀ k, k ≠ i → rd s1.mesh_a0r k = rd s0.mesh_a0r k := by
    intro k hk
    rw [hs1]
    exact forLoop_preserve (fun s : Gillespie3D => rd s.mesh_a0r k) _ _ _
      (fun _ _ s => rd_wr_ne _ _ (fun e => hk e.symm))
  have R5 : ∀ f, (∀ c, c < g.n_reactions → f ≠ i * g.n_reactions + c) →
      rd s1.mesh_ar f = rd s0.mesh_ar f := by
    intro f hf
    rw [hs1]
    exact forLoop_preserve (fun s : Gillespie3D => rd s.mesh_ar f) _ _ _
      (fun c hc s => rd_wr_ne _ _ (fun e => hf c hc e.symm))
  -- the loops over the species and the directions, as one loop
  have e6 : ∀ c, i * 6 * g.n_species + c / 6 * 6 + c % 6 = i * 6 * g.n_species + c := by
    intro c
    omega
  have D1 : r.mesh_a0d.length = st.mesh_a0d.length ∧ rd r.mesh_a0d i = rd s1.mesh_a0d i +
      ((List.range (g.n_species * 6)).map
        (fun c => rd r.mesh_ad (i * 6 * g.n_species + c))).sum := by
    rw [hr]
    exact forLoop_acc_sum (g.n_species * 6) _
      (fun s : Gillespie3D => s.mesh_a0d.length = st.mesh_a0d.length)
      (fun s c => rd s.mesh_ad (i * 6 * g.n_species + c)) (fun s => rd s.mesh_a0d i) s1
      (by show s1.mesh_a0d.length = _; rw [R3.1]; exact l2)
      (fun c _ s hs => ⟨by
        show (wr _ _ _).length = _
        rw [length_wr]
        split_ifs <;> exact hs, by
        show rd (wr _ _ _) i = _
        rw [rd_wr_self _ _ (by split_ifs <;> (rw [hs]; exact h2)), e6]
        split_ifs <;> rfl, fun c1 hc1 => by
        dsimp only
        rw [e6]
        split_ifs <;> exact rd_wr_ne _ _ (by omega)⟩)
  have D2 : True ∧ r.a0 = s1.a0 + ((List.range (g.n_species * 6)).map
      (fun c => rd r.mesh_ad (i * 6 * g.n_species + c))).sum := by
    rw [hr]
    exact forLoop_acc_sum (g.n_species * 6) _ (fun _ : Gillespie3D => True)
      (fun s c => rd s.mesh_ad (i * 6 * g.n_species + c)) (fun s => s.a0) s1 trivial
      (fun c _ s _ => ⟨trivial, by
        dsimp only
        rw [e6]
        split_ifs <;> rfl, fun c1 hc1 => by
        dsimp only
        rw [e6]
        split_ifs <;> exact rd_wr_ne _ _ (by omega)⟩)
  have D3 : r.mesh_a0r = s1.mesh_a0r ∧ r.mesh_ar = s1.mesh_ar := by
    rw [hr]
    refine ⟨forLoop_preserve (fun s : Gillespie3D => s.mesh_a0r) _ _ _ (fun _ _ s => ?_),
      forLoop_preserve (fun s : Gillespie3D => s.mesh_ar) _ _ _ (fun _ _ s => ?_)⟩
    · dsimp only
      split_ifs <;> rfl
    · dsimp only
      split_ifs <;> rfl
  have D4 : ∀ k, k ≠ i → rd r.mesh_a0d k = rd s1.mesh_a0d k := by
    intro k hk
    rw [hr]
    refine forLoop_preserve (fun s : Gillespie3D => rd s.mesh_a0d k) _ _ _ (fun _ _ s => ?_)
    dsimp only
    split_ifs <;> exact rd_wr_ne _ _ (fun e => hk e.symm)
  have D5 : ∀ f, (∀ c, c < g.n_species * 6 → f ≠ i * 6 * g.n_species + c) →
      rd r.mesh_ad f = rd s1.mesh_ad f := by
    intro f hf
    rw [hr]
    refine forLoop_preserve (fun s : Gillespie3D => rd s.mesh_ad f) _ _ _ (fun c hc s => ?_)
    dsimp only
    rw [e6]
    split_ifs <;> exact rd_wr_ne _ _ (fun e => hf c hc e.symm)
  have A0 : s0.a0 = st.a0 := by rw [hs0]
  have A1 : s0.mesh_ar = st.mesh_ar ∧ s0.mesh_ad = st.mesh_ad := by rw [hs0]; exact ⟨rfl, rfl⟩
  have A2 : ∀ k, k ≠ i → rd s0.mesh_a0r k = rd st.mesh_a0r k ∧
      rd s0.mesh_a0d k = rd st.mesh_a0d k := by
    intro k hk
    rw [hs0]
    exact ⟨rd_wr_ne _ _ (fun e => hk e.symm), rd_wr_ne _ _ (fun e => hk e.symm)⟩
  have Rsum : rd r.mesh_a0r i =
      ((List.range g.n_reactions).map (fun c => rd r.mesh_ar (i * g.n_reactions + c))).sum := by
    rw [D3.1, D3.2, R1.2, z1, zero_add]
  have Dsum : rd r.mesh_a0d i = ((List.range (g.n_species * 6)).map
      (fun c => rd r.mesh_ad (i * 6 * g.n_species + c))).sum := by
    rw [D1.2, R3.1, z2, zero_add]
  refine ⟨by rw [D3.1, R1.1], D1.1, Rsum, Dsum, ?_, fun k hk => ?_, fun f hf => ?_,
    fun f hf => ?_⟩
  · rw [D2.2, R2.2, A0, Rsum, Dsum, D3.2]
  · exact ⟨by rw [D3.1, R4 k hk]; exact (A2 k hk).1, by rw [D4 k hk, R3.1]; exact (A2 k hk).2⟩
  · rw [D3.2, R5 f hf, A1.1]
  · rw [D5 f hf, R3.2, A1.2]

end Gillespie3D

namespace Gillespie3D

/-- After `ComputePropensities` on tables with a cell per mesh in `mesh_a0r`
and `mesh_a0d`, the sums of every mesh are the sums of its cells, and `a0` is
the sum of the sums of the meshes. -/
theorem ComputePropensities_sums (g : Gillespie3D) (h1 : g.n_meshes ≤ g.mesh_a0r.length)
    (h2 : g.n_meshes ≤ g.mesh_a0d.length) :
    (∀ i, i < g.n_meshes →
      rd g.ComputePropensities.mesh_a0r i = ((List.range g.n_reactions).map
        (fun c => rd g.ComputePropensities.mesh_ar (i * g.n_reactions + c))).sum ∧
      rd g.ComputePropensities.mesh_a0d i = ((List.range (g.n_species * 6)).map
        (fun c => rd g.ComputePropensities.mesh_ad (i * 6 * g.n_species + c))).sum) ∧
    g.ComputePropensities.a0 = ((List.range g.n_meshes).map
      (fun i => rd g.ComputePropensities.mesh_a0r i + rd g.ComputePropensities.mesh_a0d i)).sum := by
  have key : g.ComputePropensities.mesh_a0r.length = g.mesh_a0r.length ∧
      g.ComputePropensities.mesh_a0d.length = g.mesh_a0d.length ∧
      (∀ i, i < g.n_meshes →
        rd g.ComputePropensities.mesh_a0r i = ((List.range g.n_reactions).map
          (fun c => rd g.ComputePropensities.mesh_ar (i * g.n_reactions + c))).sum ∧
        rd g.ComputePropensities.mesh_a0d i = ((List.range (g.n_species * 6)).map
          (fun c => rd g.ComputePropensities.mesh_ad (i * 6 * g.n_species + c))).sum) ∧
      g.ComputePropensities.a0 = ((List.range g.n_meshes).map
        (fun i => rd g.ComputePropensities.mesh_a0r i +
          rd g.ComputePropensities.mesh_a0d i)).sum := by
    unfold ComputePropensities
    refine forLoop_induction
      (fun k (st : Gillespie3D) => st.mesh_a0r.length = g.mesh_a0r.length ∧
        st.mesh_a0d.length = g.mesh_a0d.length ∧
        (∀ i, i < k →
          rd st.mesh_a0r i = ((List.range g.n_reactions).map
            (fun c => rd st.mesh_ar (i * g.n_reactions + c))).sum ∧
          rd st.mesh_a0d i = ((List.range (g.n_species * 6)).map
            (fun c => rd st.mesh_ad (i * 6 * g.n_species + c))).sum) ∧
        st.a0 = ((List.range k).map (fun i => rd st.mesh_a0r i + rd st.mesh_a0d i)).sum)
      g.n_meshes _ _ ⟨rfl, rfl, fun i hi => absurd hi (Nat.not_lt_zero _), rfl⟩
      (fun k hk s hs => ?_)
    obtain ⟨p1, p2, p3, p4⟩ := hs
    suffices hgoal : ∀ r : Gillespie3D, r = forLoop g.n_species (fun sp st =>
          forLoop 6 (fun n st =>
            let st :=
              if rd g.mesh_neighbors (k * 6 + n) ≠ -1 then
                { st with
                  mesh_ad := wr st.mesh_ad (k * 6 * g.n_species + sp * 6 + n)
                    (g.toSimulationAlgorithm3DBase.DiffusionProp k sp n) }
              else
                { st with mesh_ad := wr st.mesh_ad (k * 6 * g.n_species + sp * 6 + n) 0 }
            let st := { st with
              mesh_a0d := wr st.mesh_a0d k
                (rd st.mesh_a0d k + rd st.mesh_ad (k * 6 * g.n_species + sp * 6 + n)) }
            { st with a0 := st.a0 + rd st.mesh_ad (k * 6 * g.n_species + sp * 6 + n) }) st)
          (forLoop g.n_reactions (fun r st =>
            let st := { st with
              mesh_ar := wr st.mesh_ar (k * g.n_reactions + r)
                (g.toSimulationAlgorithmBase.ReactionProp k r) }
            let st := { st with
              mesh_a0r := wr st.mesh_a0r k
                (rd st.mesh_a0r k + rd st.mesh_ar (k * g.n_reactions + r)) }
            { st with a0 := st.a0 + rd st.mesh_ar (k * g.n_reactions + r) })
            { ({ s with mesh_a0d := wr s.mesh_a0d k 0 } : Gillespie3D) with
              mesh_a0r := wr s.mesh_a0r k 0 }) →
        (r.mesh_a0r.length = g.mesh_a0r.length ∧ r.mesh_a0d.length = g.mesh_a0d.length ∧
          (∀ i, i < k + 1 →
            rd r.mesh_a0r i = ((List.range g.n_reactions).map
              (fun c => rd r.mesh_ar (i * g.n_reactions + c))).sum ∧
            rd r.mesh_a0d i = ((List.range (g.n_species * 6)).map
              (fun c => rd r.mesh_ad (i * 6 * g.n_species + c))).sum) ∧
          r.a0 = ((List.range (k + 1)).map
            (fun i => rd r.mesh_a0r i + rd r.mesh_a0d i)).sum) from hgoal _ rfl
    intro r hr
    obtain ⟨q1, q2, q3, q4, q5, q6, q7, q8⟩ := propensities_of_mesh g k s
      (by rw [p1]; omega) (by rw [p2]; omega) r hr
    have old : ∀ i, i < k →
        ((List.range g.n_reactions).map (fun c => rd r.mesh_ar (i * g.n_reactions + c))) =
          ((List.range g.n_reactions).map (fun c => rd s.mesh_ar (i * g.n_reactions + c))) ∧
        ((List.range (g.n_species * 6)).map
          (fun c => rd r.mesh_ad (i * 6 * g.n_species + c))) =
          ((List.range (g.n_species * 6)).map
            (fun c => rd s.mesh_ad (i * 6 * g.n_species + c))) := by
      intro i hi
      refine ⟨List.map_congr_left (fun c hc => ?_), List.map_congr_left (fun c hc => ?_)⟩
      · refine q7 _ (fun c1 hc1 e => ?_)
        have := (flat_index_inj (List.mem_range.mp hc) hc1 e).1
        omega
      · refine q8 _ (fun c1 hc1 e => ?_)
        have e1 : i * (g.n_species * 6) + c = k * (g.n_species * 6) + c1 := by
          have a1 : i * (g.n_species * 6) = i * 6 * g.n_species := by ring
          have a2 : k * (g.n_species * 6) = k * 6 * g.n_species := by ring
          rw [a1, a2]
          exact e
        have := (flat_index_inj (List.mem_range.mp hc) hc1 e1).1
        omega
    refine ⟨q1.trans p1, q2.trans p2, fun i hi => ?_, ?_⟩
    · by_cases hik : i = k
      · rw [hik]
        exact ⟨q3, q4⟩
      · have hi1 : i < k := by omega
        rw [(q6 i hik).1, (q6 i hik).2, (old i hi1).1, (old i hi1).2]
        exact p3 i hi1
    · rw [List.sum_range_succ, q5, p4, add_assoc]
      congr 1
      refine congrArg List.sum (List.map_congr_left (fun i hi => ?_))
      have hik : i ≠ k := by
        have := List.mem_range.mp hi
        omega
      rw [(q6 i hik).1, (q6 i hik).2]
  exact ⟨key.2.2.1, key.2.2.2⟩

end Gillespie3D

namespace Gillespie3D

/-- The totals of the lists of events of a mesh, as sums of cells. -/
theorem totalPropensity_events_of_mesh (g : Gillespie3D) (i : Nat) :
    totalPropensity (g.reactionEvents i) = ((List.range g.n_reactions).map
      (fun c => rd g.mesh_ar (i * g.n_reactions + c))).sum ∧
    totalPropensity (g.diffusionEvents i) = ((List.range (g.n_species * 6)).map
      (fun c => rd g.mesh_ad (i * 6 * g.n_species + c))).sum := by
  constructor
  · unfold reactionEvents
    exact totalPropensity_map _ _ _
  · unfold diffusionEvents
    rw [flatMap_range_mul g.n_species 6
      (fun s n => (Event.diffusion i s n, rd g.mesh_ad (i * g.n_species * 6 + s * 6 + n))),
      totalPropensity_map]
    refine congrArg List.sum (List.map_congr_left (fun c _ => ?_))
    have e : i * g.n_species * 6 + c / 6 * 6 + c % 6 = i * 6 * g.n_species + c := by
      have a1 : i * g.n_species * 6 = i * 6 * g.n_species := by ring
      rw [a1]
      omega
    rw [e]

/-- After `ComputePropensities` on tables with a cell per mesh in `mesh_a0r`
and `mesh_a0d`: the sums of every mesh are the totals of its events and `a0`
is the total of all the events. -/
theorem ComputePropensities_consistent (g0 g : Gillespie3D)
    (h1 : g0.n_meshes ≤ g0.mesh_a0r.length) (h2 : g0.n_meshes ≤ g0.mesh_a0d.length)
    (hg : g = g0.ComputePropensities) :
    (∀ i, i < g.n_meshes → rd g.mesh_a0r i = totalPropensity (g.reactionEvents i) ∧
      rd g.mesh_a0d i = totalPropensity (g.diffusionEvents i)) ∧
    g.a0 = totalPropensity g.events := by
  obtain ⟨ar, ad, a0r, a0d, a0, hcp⟩ := g0.ComputePropensities_frame_gillespie3D
  have n1 : g.n_meshes = g0.n_meshes := by rw [hg, hcp]
  have n2 : g.n_reactions = g0.n_reactions := by rw [hg, hcp]
  have n3 : g.n_species = g0.n_species := by rw [hg, hcp]
  obtain ⟨s1, s2⟩ := ComputePropensities_sums g0 h1 h2
  rw [← hg, ← n1, ← n2, ← n3] at s1
  rw [← hg, ← n1] at s2
  have cons : ∀ i, i < g.n_meshes → rd g.mesh_a0r i = totalPropensity (g.reactionEvents i) ∧
      rd g.mesh_a0d i = totalPropensity (g.diffusionEvents i) := by
    intro i hi
    obtain ⟨t1, t2⟩ := totalPropensity_events_of_mesh g i
    rw [t1, t2]
    exact s1 i hi
  refine ⟨cons, ?_⟩
  unfold events
  rw [totalPropensity_flatMap, s2]
  refine congrArg List.sum (List.map_congr_left (fun i hi => ?_))
  rw [totalPropensity_append, (cons i (List.mem_range.mp hi)).1,
    (cons i (List.mem_range.mp hi)).2]

/-- After `ComputePropensities`, no event has a negative propensity when the
rate constants and the counts are not negative. -/
theorem ComputePropensities_events_nonneg (g0 g : Gillespie3D)
    (hkr : ∀ f, 0 ≤ rd g0.mesh_kr f) (hkd : ∀ f, 0 ≤ rd g0.mesh_kd f)
    (hx : ∀ f, 0 ≤ rd g0.mesh_x f) (hg : g = g0.ComputePropensities) :
    ∀ x ∈ g.events, 0 ≤ x.2 := by
  obtain ⟨ar, ad, a0r, a0d, a0, hcp⟩ := g0.ComputePropensities_frame_gillespie3D
  have n1 : g.n_meshes = g0.n_meshes := by rw [hg, hcp]
  have n2 : g.n_reactions = g0.n_reactions := by rw [hg, hcp]
  have n3 : g.n_species = g0.n_species := by rw [hg, hcp]
  intro x hx1
  unfold events at hx1
  rw [List.mem_flatMap] at hx1
  obtain ⟨i, hi, hx2⟩ := hx1
  have hi1 : i < g0.n_meshes := by rw [← n1]; exact List.mem_range.mp hi
  rcases List.mem_append.mp hx2 with h | h
  · unfold reactionEvents at h
    rw [List.mem_map] at h
    obtain ⟨r, hr, rfl⟩ := h
    have hr1 : r < g0.n_reactions := by rw [← n2]; exact List.mem_range.mp hr
    show 0 ≤ rd g.mesh_ar (i * g.n_reactions + r)
    rw [n2, hg]
    rcases ComputePropensities_mesh_ar_gillespie3D g0 i r hi1 hr1 with h0 | h0
    · rw [h0]
    · rw [h0]
      exact SimulationAlgorithmBase.ReactionProp_nonneg _ _ _ (hkr _)
  · unfold diffusionEvents at h
    rw [List.mem_flatMap] at h
    obtain ⟨s, hs, h⟩ := h
    rw [List.mem_map] at h
    obtain ⟨n, hn, rfl⟩ := h
    have hs1 : s < g0.n_species := by rw [← n3]; exact List.mem_range.mp hs
    show 0 ≤ rd g.mesh_ad (i * g.n_species * 6 + s * 6 + n)
    have e : i * g.n_species * 6 + s * 6 + n = i * 6 * g0.n_species + s * 6 + n := by
      rw [n3]
      ring
    rw [e, hg]
    rcases ComputePropensities_mesh_ad_gillespie3D g0 i s n hi1 hs1 (List.mem_range.mp hn) with
      h0 | ⟨_, h0⟩
    · rw [h0]
    · rw [h0]
      exact mul_nonneg (hx _) (hkd _)

end Gillespie3D

namespace GillespieGraph

/-- The loop over the reactions of a node stops at the reaction whose interval
holds the target, when the target is under the total of the reactions. -/
theorem walkReactions_selects_graph (g : GillespieGraph) (i : Nat) (r2 : ℚ) :
    ∀ (l : List Nat) (acc : ℚ), acc ≤ r2 →
      r2 < acc + totalPropensity (l.map
        (fun r => (Event.reaction i r, rd g.mesh_ar (i * g.n_reactions + r)))) →
      ∃ e, Selects (l.map
          (fun r => (Event.reaction i r, rd g.mesh_ar (i * g.n_reactions + r)))) acc r2 e ∧
        walkReactions g i r2 l acc = g.applyEvent e := by
  intro l
  induction l with
  | nil =>
    intro acc h0 h1
    rw [List.map_nil, totalPropensity_nil, add_zero] at h1
    exact absurd h1 (not_lt.mpr h0)
  | cons j rest ih =>
    intro acc h0 h1
    rw [List.map_cons, totalPropensity_cons] at h1
    unfold walkReactions
    dsimp only
    by_cases hc : r2 < acc + rd g.mesh_ar (i * g.n_reactions + j)
    · rw [if_pos hc]
      exact ⟨Event.reaction i j, Selects.head _ _ _ _ _ h0 hc, rfl⟩
    · rw [if_neg hc]
      obtain ⟨e, he, hw⟩ := ih (acc + rd g.mesh_ar (i * g.n_reactions + j)) (not_lt.mp hc)
        (by linarith)
      exact ⟨e, Selects.cons _ he, hw⟩

/-- The loop over the neighbours for a species stops at the neighbour whose
interval holds the target, or ends with the propensities of the species
cumulated, not above the target. -/
theorem walkDirections_selects_graph (g : GillespieGraph) (i j : Nat) (r2 : ℚ) :
    ∀ (l : List Nat) (acc : ℚ), acc ≤ r2 →
      ((walkDirections g i j r2 l acc).2.2 = true ∧
        ∃ e, Selects (l.map (fun n => (Event.diffusion i j n,
            rd (rdRow g.mesh_ad i) (j * rd g.mesh_neighbor_n i + n)))) acc r2 e ∧
          (walkDirections g i j r2 l acc).1 = g.applyEvent e) ∨
      ((walkDirections g i j r2 l acc).2.2 = false ∧
        (walkDirections g i j r2 l acc).2.1 = acc + totalPropensity (l.map
          (fun n => (Event.diffusion i j n,
            rd (rdRow g.mesh_ad i) (j * rd g.mesh_neighbor_n i + n)))) ∧
        acc + totalPropensity (l.map (fun n => (Event.diffusion i j n,
          rd (rdRow g.mesh_ad i) (j * rd g.mesh_neighbor_n i + n)))) ≤ r2) := by
  intro l
  induction l with
  | nil =>
    intro acc h0
    refine Or.inr ⟨rfl, ?_, ?_⟩
    · rw [List.map_nil, totalPropensity_nil, add_zero]
      rfl
    · rw [List.map_nil, totalPropensity_nil, add_zero]
      exact h0
  | cons n rest ih =>
    intro acc h0
    unfold walkDirections
    dsimp only
    by_cases hc : r2 < acc + rd (rdRow g.mesh_ad i) (j * rd g.mesh_neighbor_n i + n)
    · rw [if_pos hc]
      exact Or.inl ⟨rfl, Event.diffusion i j n, Selects.head _ _ _ _ _ h0 hc, rfl⟩
    · rw [if_neg hc, List.map_cons, totalPropensity_cons]
      rcases ih (acc + rd (rdRow g.mesh_ad i) (j * rd g.mesh_neighbor_n i + n))
        (not_lt.mp hc) with ⟨h1, e, he, hw⟩ | ⟨h1, h2, h3⟩
      · exact Or.inl ⟨h1, e, Selects.cons _ he, hw⟩
      · refine Or.inr ⟨h1, ?_, ?_⟩
        · rw [h2]
          ring
        · linarith

/-- The loop over the species of a node stops at the diffusion event whose
interval holds the target, when the target is under the total of the
diffusion events. -/
theorem walkSpecies_selects_graph (g : GillespieGraph) (i : Nat) (r2 : ℚ) :
    ∀ (l : List Nat) (acc : ℚ), acc ≤ r2 →
      r2 < acc + totalPropensity (l.flatMap (fun s =>
        (List.range (rd g.mesh_neighbor_n i)).map
          (fun n => (Event.diffusion i s n,
            rd (rdRow g.mesh_ad i) (s * rd g.mesh_neighbor_n i + n))))) →
      ∃ e, Selects (l.flatMap (fun s => (List.range (rd g.mesh_neighbor_n i)).map
          (fun n => (Event.diffusion i s n,
            rd (rdRow g.mesh_ad i) (s * rd g.mesh_neighbor_n i + n))))) acc r2 e ∧
        walkSpecies g i r2 l acc = g.applyEvent e := by
  intro l
  induction l with
  | nil =>
    intro acc h0 h1
    rw [List.flatMap_nil, totalPropensity_nil, add_zero] at h1
    exact absurd h1 (not_lt.mpr h0)
  | cons s rest ih =>
    intro acc h0 h1
    rw [List.flatMap_cons, totalPropensity_append] at h1
    unfold walkSpecies
    dsimp only
    rw [List.flatMap_cons]
    rcases walkDirections_selects_graph g i s r2 (List.range (rd g.mesh_neighbor_n i)) acc h0
      with ⟨k1, e, he, hw⟩ | ⟨k1, k2, k3⟩
    · rw [if_pos k1]
      exact ⟨e, Selects.append_right he _, hw⟩
    · rw [if_neg (by rw [k1]; exact Bool.false_ne_true), k2]
      obtain ⟨e, he, hw⟩ := ih _ k3 (by linarith)
      exact ⟨e, Selects.append_left _ he, hw⟩

/-- The loop over the nodes stops at the event whose interval holds the
target, when the sums `mesh_a0r[i]` and `mesh_a0d[i]` are the totals of the
reactions and of the diffusion events of node `i` and the target is under the
total of the events. -/
theorem walkMeshes_selects_graph (g : GillespieGraph) (r : ℚ) :
    ∀ (l : List Nat) (cum : ℚ),
      (∀ i ∈ l, rd g.mesh_a0r i = totalPropensity (g.reactionEvents i) ∧
        rd g.mesh_a0d i = totalPropensity (g.diffusionEvents i)) →
      cum ≤ r →
      r < cum + totalPropensity (l.flatMap
        (fun i => g.reactionEvents i ++ g.diffusionEvents i)) →
      ∃ e, Selects (l.flatMap (fun i => g.reactionEvents i ++ g.diffusionEvents i)) cum r e ∧
        walkMeshes g r l cum = g.applyEvent e := by
  intro l
  induction l with
  | nil =>
    intro cum _ h0 h1
    rw [List.flatMap_nil, totalPropensity_nil, add_zero] at h1
    exact absurd h1 (not_lt.mpr h0)
  | cons i rest ih =>
    intro cum hcons h0 h1
    obtain ⟨c1, c2⟩ := hcons i (List.mem_cons_self _ _)
    rw [List.flatMap_cons, totalPropensity_append, totalPropensity_append] at h1
    unfold walkMeshes
    dsimp only
    rw [List.flatMap_cons]
    by_cases hr : r < cum + rd g.mesh_a0r i
    · rw [if_pos hr]
      obtain ⟨e, he, hw⟩ := walkReactions_selects_graph g i (r - cum)
        (List.range g.n_reactions) 0 (by linarith) (by
          have : totalPropensity (g.reactionEvents i) = rd g.mesh_a0r i := c1.symm
          unfold reactionEvents at this
          rw [this]
          linarith)
      refine ⟨e, ?_, hw⟩
      exact Selects.append_right (Selects.append_right (Selects.shift he) _) _
    · rw [if_neg hr]
      by_cases hd : r < cum + rd g.mesh_a0r i + rd g.mesh_a0d i
      · rw [if_pos hd]
        obtain ⟨e, he, hw⟩ := walkSpecies_selects_graph g i (r - (cum + rd g.mesh_a0r i))
          (List.range g.n_species) 0 (by linarith) (by
            have : totalPropensity (g.diffusionEvents i) = rd g.mesh_a0d i := c2.symm
            unfold diffusionEvents at this
            rw [this]
            linarith)
        refine ⟨e, ?_, hw⟩
        refine Selects.append_right ?_ _
        refine Selects.append_left _ ?_
        rw [← c1]
        exact Selects.shift he
      · rw [if_neg hd]
        obtain ⟨e, he, hw⟩ := ih (cum + rd g.mesh_a0r i + rd g.mesh_a0d i)
          (fun k hk => hcons k (List.mem_cons_of_mem _ hk)) (not_lt.mp hd) (by
            rw [c1, c2]
            linarith)
        refine ⟨e, ?_, hw⟩
        refine Selects.append_left _ ?_
        rw [totalPropensity_append, ← c1, ← c2, ← add_assoc]
        exact he

/-- Method `DrawAndApplyEvent` applies the event whose interval holds the
target `U * a0`, when the sums of the tables are the totals of the events,
`a0 > 0` and `0 <= U < 1`. -/
theorem DrawAndApplyEvent_selects_graph (g : GillespieGraph)
    (hcons : ∀ i, i < g.n_meshes → rd g.mesh_a0r i = totalPropensity (g.reactionEvents i) ∧
      rd g.mesh_a0d i = totalPropensity (g.diffusionEvents i))
    (ha0 : g.a0 = totalPropensity g.events) (ha : 0 < g.a0)
    (hU0 : 0 ≤ g.rng.uniform g.rng.pos) (hU1 : g.rng.uniform g.rng.pos < 1) :
    ∃ e, Selects g.events 0 (g.rng.uniform g.rng.pos * g.a0) e ∧
      g.DrawAndApplyEvent = GillespieGraph.applyEvent { g with rng := g.rng.advance } e := by
  unfold DrawAndApplyEvent
  dsimp only
  exact walkMeshes_selects_graph { g with rng := g.rng.advance }
    (g.rng.uniform g.rng.pos * g.a0)
    (List.range g.n_meshes) 0 (fun i hi => hcons i (List.mem_range.mp hi))
    (mul_nonneg hU0 (le_of_lt ha)) (by
      rw [zero_add]
      show g.rng.uniform g.rng.pos * g.a0 < totalPropensity g.events
      rw [← ha0]
      nlinarith)

end GillespieGraph

namespace GillespieGraph

/-- The round of `ComputePropensities` for node `i`, from any state `st` of
the tables: the sums `mesh_a0r[i]` and `mesh_a0d[i]` that it leaves are the
sums of the cells of node `i` that it leaves, `a0` has grown by both, and the
cells and sums of the other nodes are as before. -/
theorem propensities_of_node (g : GillespieGraph) (i : Nat) (st : GillespieGraph)
    (h1 : i < st.mesh_a0r.length) (h2 : i < st.mesh_a0d.length) (r : GillespieGraph)
    (hr : r = forLoop g.n_species (fun s st =>
      forLoop (rd g.mesh_neighbor_n i) (fun n st =>
        let st := { st with
          mesh_ad :=
            wr st.mesh_ad i
              (wr (rdRow st.mesh_ad i) (s * rd g.mesh_neighbor_n i + n)
                (g.toSimulationAlgorithmGraphBase.DiffusionProp i s n)) }
        let st := { st with
          mesh_a0d := wr st.mesh_a0d i
            (rd st.mesh_a0d i + rd (rdRow st.mesh_ad i) (s * rd g.mesh_neighbor_n i + n)) }
        { st with a0 := st.a0 + rd (rdRow st.mesh_ad i) (s * rd g.mesh_neighbor_n i + n) }) st)
      (forLoop g.n_reactions (fun r st =>
        let st := { st with
          mesh_ar := wr st.mesh_ar (i * g.n_reactions + r)
            (g.toSimulationAlgorithmBase.ReactionProp i r) }
        let st := { st with
          mesh_a0r := wr st.mesh_a0r i (rd st.mesh_a0r i + rd st.mesh_ar (i * g.n_reactions + r)) }
        { st with a0 := st.a0 + rd st.mesh_ar (i * g.n_reactions + r) })
        { ({ st with mesh_a0d := wr st.mesh_a0d i 0 } : GillespieGraph) with
          mesh_a0r := wr st.mesh_a0r i 0 })) :
    r.mesh_a0r.length = st.mesh_a0r.length ∧ r.mesh_a0d.length = st.mesh_a0d.length ∧
    rd r.mesh_a0r i =
      ((List.range g.n_reactions).map (fun c => rd r.mesh_ar (i * g.n_reactions + c))).sum ∧
    rd r.mesh_a0d i =
      ((List.range (g.n_species * rd g.mesh_neighbor_n i)).map
        (fun c => rd (rdRow r.mesh_ad i) c)).sum ∧
    r.a0 = st.a0 + rd r.mesh_a0r i + rd r.mesh_a0d i ∧
    (∀ k, k ≠ i → rd r.mesh_a0r k = rd st.mesh_a0r k ∧ rd r.mesh_a0d k = rd st.mesh_a0d k) ∧
    (∀ f, (∀ c, c < g.n_reactions → f ≠ i * g.n_reactions + c) →
      rd r.mesh_ar f = rd st.mesh_ar f) ∧
    (∀ k f, k ≠ i → rd (rdRow r.mesh_ad k) f = rd (rdRow st.mesh_ad k) f) := by
  -- the state after the two sums are reset
  obtain ⟨s0, hs0⟩ : ∃ s0 : GillespieGraph, s0 =
      { ({ st with mesh_a0d := wr st.mesh_a0d i 0 } : GillespieGraph) with
        mesh_a0r := wr st.mesh_a0r i 0 } := ⟨_, rfl⟩
  rw [← hs0] at hr
  -- the state after the loop over the reactions
  obtain ⟨s1, hs1⟩ : ∃ s1 : GillespieGraph, s1 = forLoop g.n_reactions (fun r st =>
        let st := { st with
          mesh_ar := wr st.mesh_ar (i * g.n_reactions + r)
            (g.toSimulationAlgorithmBase.ReactionProp i r) }
        let st := { st with
          mesh_a0r := wr st.mesh_a0r i (rd st.mesh_a0r i + rd st.mesh_ar (i * g.n_reactions + r)) }
        { st with a0 := st.a0 + rd st.mesh_ar (i * g.n_reactions + r) }) s0 := ⟨_, rfl⟩
  rw [← hs1, forLoop_nested] at hr
  have z1 : rd s0.mesh_a0r i = 0 := by rw [hs0]; exact rd_wr_zero _ _
  have z2 : rd s0.mesh_a0d i = 0 := by rw [hs0]; exact rd_wr_zero _ _
  have l1 : s0.mesh_a0r.length = st.mesh_a0r.length := by rw [hs0]; exact length_wr _ _ _
  have l2 : s0.mesh_a0d.length = st.mesh_a0d.length := by rw [hs0]; exact length_wr _ _ _
  -- the loop over the reactions
  have R1 : s1.mesh_a0r.length = st.mesh_a0r.length ∧ rd s1.mesh_a0r i = rd s0.mesh_a0r i +
      ((List.range g.n_reactions).map (fun c => rd s1.mesh_ar (i * g.n_reactions + c))).sum := by
    rw [hs1]
    exact forLoop_acc_sum g.n_reactions _
      (fun s : GillespieGraph => s.mesh_a0r.length = st.mesh_a0r.length)
      (fun s c => rd s.mesh_ar (i * g.n_reactions + c)) (fun s => rd s.mesh_a0r i) s0 l1
      (fun c _ s hs => ⟨by
        show (wr _ _ _).length = _
        rw [length_wr]
        exact hs, by
        show rd (wr _ _ _) i = _
        rw [rd_wr_self _ _ (by rw [hs]; exact h1)], fun c1 hc1 => by
        show rd (wr _ _ _) _ = _
        exact rd_wr_ne _ _ (by omega)⟩)
  have R2 : True ∧ s1.a0 = s0.a0 +
      ((List.range g.n_reactions).map (fun c => rd s1.mesh_ar (i * g.n_reactions + c))).sum := by
    rw [hs1]
    exact forLoop_acc_sum g.n_reactions _ (fun _ : GillespieGraph => True)
      (fun s c => rd s.mesh_ar (i * g.n_reactions + c)) (fun s => s.a0) s0 trivial
      (fun c _ s _ => ⟨trivial, rfl, fun c1 hc1 => by
        show rd (wr _ _ _) _ = _
        exact rd_wr_ne _ _ (by omega)⟩)
  have R3 : s1.mesh_a0d = s0.mesh_a0d ∧ s1.mesh_ad = s0.mesh_ad := by
    rw [hs1]
    exact ⟨forLoop_preserve (fun s : GillespieGraph => s.mesh_a0d) _ _ _ (fun _ _ _ => rfl),
      forLoop_preserve (fun s : GillespieGraph => s.mesh_ad) _ _ _ (fun _ _ _ => rfl)⟩
  have R4 : ∀ k, k ≠ i → rd s1.mesh_a0r k = rd s0.mesh_a0r k := by
    intro k hk
    rw [hs1]
    exact forLoop_preserve (fun s : GillespieGraph => rd s.mesh_a0r k) _ _ _
      (fun _ _ s => rd_wr_ne _ _ (fun e => hk e.symm))
  have R5 : ∀ f, (∀ c, c < g.n_reactions → f ≠ i * g.n_reactions + c) →
      rd s1.mesh_ar f = rd s0.mesh_ar f := by
    intro f hf
    rw [hs1]
    exact forLoop_preserve (fun s : GillespieGraph => rd s.mesh_ar f) _ _ _
      (fun c hc s => rd_wr_ne _ _ (fun e => hf c hc e.symm))
  -- the loops over the species and the neighbours, as one loop
  have e6 : ∀ c, c / rd g.mesh_neighbor_n i * rd g.mesh_neighbor_n i +
      c % rd g.mesh_neighbor_n i = c := fun c => Nat.div_add_mod' c _
  have D1 : r.mesh_a0d.length = st.mesh_a0d.length ∧ rd r.mesh_a0d i = rd s1.mesh_a0d i +
      ((List.range (g.n_species * rd g.mesh_neighbor_n i)).map
        (fun c => rd (rdRow r.mesh_ad i) c)).sum := by
    rw [hr]
    exact forLoop_acc_sum (g.n_species * rd g.mesh_neighbor_n i) _
      (fun s : GillespieGraph => s.mesh_a0d.length = st.mesh_a0d.length)
      (fun s c => rd (rdRow s.mesh_ad i) c) (fun s => rd s.mesh_a0d i) s1
      (by show s1.mesh_a0d.length = _; rw [R3.1]; exact l2)
      (fun c _ s hs => ⟨by
        show (wr _ _ _).length = _
        rw [length_wr]
        exact hs, by
        show rd (wr _ _ _) i = _
        rw [rd_wr_self _ _ (by rw [hs]; exact h2), e6], fun c1 hc1 => by
        dsimp only
        rw [e6]
        exact rd_row_wr_other _ _ _ _ _ _ (fun e => hc1 e.2)⟩)
  have D2 : True ∧ r.a0 = s1.a0 + ((List.range (g.n_species * rd g.mesh_neighbor_n i)).map
      (fun c => rd (rdRow r.mesh_ad i) c)).sum := by
    rw [hr]
    exact forLoop_acc_sum (g.n_species * rd g.mesh_neighbor_n i) _
      (fun _ : GillespieGraph => True)
      (fun s c => rd (rdRow s.mesh_ad i) c) (fun s => s.a0) s1 trivial
      (fun c _ s _ => ⟨trivial, by
        dsimp only
        rw [e6], fun c1 hc1 => by
        dsimp only
        rw [e6]
        exact rd_row_wr_other _ _ _ _ _ _ (fun e => hc1 e.2)⟩)
  have D3 : r.mesh_a0r = s1.mesh_a0r ∧ r.mesh_ar = s1.mesh_ar := by
    rw [hr]
    exact ⟨forLoop_preserve (fun s : GillespieGraph => s.mesh_a0r) _ _ _ (fun _ _ s => rfl),
      forLoop_preserve (fun s : GillespieGraph => s.mesh_ar) _ _ _ (fun _ _ s => rfl)⟩
  have D4 : ∀ k, k ≠ i → rd r.mesh_a0d k = rd s1.mesh_a0d k := by
    intro k hk
    rw [hr]
    refine forLoop_preserve (fun s : GillespieGraph => rd s.mesh_a0d k) _ _ _ (fun _ _ s => ?_)
    dsimp only
    exact rd_wr_ne _ _ (fun e => hk e.symm)
  have D5 : ∀ k f, k ≠ i → rd (rdRow r.mesh_ad k) f = rd (rdRow s1.mesh_ad k) f := by
    intro k f hk
    rw [hr]
    refine forLoop_preserve (fun s : GillespieGraph => rd (rdRow s.mesh_ad k) f) _ _ _
      (fun c hc s => ?_)
    dsimp only
    exact rd_row_wr_other _ _ _ _ _ _ (fun e => hk e.1)
  have A0 : s0.a0 = st.a0 := by rw [hs0]
  have A1 : s0.mesh_ar = st.mesh_ar ∧ s0.mesh_ad = st.mesh_ad := by rw [hs0]; exact ⟨rfl, rfl⟩
  have A2 : ∀ k, k ≠ i → rd s0.mesh_a0r k = rd st.mesh_a0r k ∧
      rd s0.mesh_a0d k = rd st.mesh_a0d k := by
    intro k hk
    rw [hs0]
    exact ⟨rd_wr_ne _ _ (fun e => hk e.symm), rd_wr_ne _ _ (fun e => hk e.symm)⟩
  have Rsum : rd r.mesh_a0r i =
      ((List.range g.n_reactions).map (fun c => rd r.mesh_ar (i * g.n_reactions + c))).sum := by
    rw [D3.1, D3.2, R1.2, z1, zero_add]
  have Dsum : rd r.mesh_a0d i = ((List.range (g.n_species * rd g.mesh_neighbor_n i)).map
      (fun c => rd (rdRow r.mesh_ad i) c)).sum := by
    rw [D1.2, R3.1, z2, zero_add]
  refine ⟨by rw [D3.1, R1.1], D1.1, Rsum, Dsum, ?_, fun k hk => ?_, fun f hf => ?_,
    fun k f hk => ?_⟩
  · rw [D2.2, R2.2, A0, Rsum, Dsum, D3.2]
  · exact ⟨by rw [D3.1, R4 k hk]; exact (A2 k hk).1, by rw [D4 k hk, R3.1]; exact (A2 k hk).2⟩
  · rw [D3.2, R5 f hf, A1.1]
  · rw [D5 k f hk, R3.2, A1.2]

end GillespieGraph

namespace GillespieGraph

/-- After `ComputePropensities` on tables with a cell per node in `mesh_a0r`
and `mesh_a0d`, the sums of every node are the sums of its cells, and `a0` is
the sum of the sums of the nodes. -/
theorem ComputePropensities_sums_graph (g : GillespieGraph)
    (h1 : g.n_meshes ≤ g.mesh_a0r.length) (h2 : g.n_meshes ≤ g.mesh_a0d.length) :
    (∀ i, i < g.n_meshes →
      rd g.ComputePropensities.mesh_a0r i = ((List.range g.n_reactions).map
        (fun c => rd g.ComputePropensities.mesh_ar (i * g.n_reactions + c))).sum ∧
      rd g.ComputePropensities.mesh_a0d i =
        ((List.range (g.n_species * rd g.mesh_neighbor_n i)).map
          (fun c => rd (rdRow g.ComputePropensities.mesh_ad i) c)).sum) ∧
    g.ComputePropensities.a0 = ((List.range g.n_meshes).map
      (fun i => rd g.ComputePropensities.mesh_a0r i + rd g.ComputePropensities.mesh_a0d i)).sum := by
  have key : g.ComputePropensities.mesh_a0r.length = g.mesh_a0r.length ∧
      g.ComputePropensities.mesh_a0d.length = g.mesh_a0d.length ∧
      (∀ i, i < g.n_meshes →
        rd g.ComputePropensities.mesh_a0r i = ((List.range g.n_reactions).map
          (fun c => rd g.ComputePropensities.mesh_ar (i * g.n_reactions + c))).sum ∧
        rd g.ComputePropensities.mesh_a0d i =
          ((List.range (g.n_species * rd g.mesh_neighbor_n i)).map
            (fun c => rd (rdRow g.ComputePropensities.mesh_ad i) c)).sum) ∧
      g.ComputePropensities.a0 = ((List.range g.n_meshes).map
        (fun i => rd g.ComputePropensities.mesh_a0r i +
          rd g.ComputePropensities.mesh_a0d i)).sum := by
    unfold ComputePropensities
    refine forLoop_induction
      (fun k (st : GillespieGraph) => st.mesh_a0r.length = g.mesh_a0r.length ∧
        st.mesh_a0d.length = g.mesh_a0d.length ∧
        (∀ i, i < k →
          rd st.mesh_a0r i = ((List.range g.n_reactions).map
            (fun c => rd st.mesh_ar (i * g.n_reactions + c))).sum ∧
          rd st.mesh_a0d i = ((List.range (g.n_species * rd g.mesh_neighbor_n i)).map
            (fun c => rd (rdRow st.mesh_ad i) c)).sum) ∧
        st.a0 = ((List.range k).map (fun i => rd st.mesh_a0r i + rd st.mesh_a0d i)).sum)
      g.n_meshes _ _ ⟨rfl, rfl, fun i hi => absurd hi (Nat.not_lt_zero _), rfl⟩
      (fun k hk s hs => ?_)
    obtain ⟨p1, p2, p3, p4⟩ := hs
    suffices hgoal : ∀ r : GillespieGraph, r = forLoop g.n_species (fun sp st =>
          forLoop (rd g.mesh_neighbor_n k) (fun n st =>
            let st := { st with
              mesh_ad :=
                wr st.mesh_ad k
                  (wr (rdRow st.mesh_ad k) (sp * rd g.mesh_neighbor_n k + n)
                    (g.toSimulationAlgorithmGraphBase.DiffusionProp k sp n)) }
            let st := { st with
              mesh_a0d := wr st.mesh_a0d k
                (rd st.mesh_a0d k +
                  rd (rdRow st.mesh_ad k) (sp * rd g.mesh_neighbor_n k + n)) }
            { st with
              a0 := st.a0 + rd (rdRow st.mesh_ad k) (sp * rd g.mesh_neighbor_n k + n) }) st)
          (forLoop g.n_reactions (fun r st =>
            let st := { st with
              mesh_ar := wr st.mesh_ar (k * g.n_reactions + r)
                (g.toSimulationAlgorithmBase.ReactionProp k r) }
            let st := { st with
              mesh_a0r := wr st.mesh_a0r k
                (rd st.mesh_a0r k + rd st.mesh_ar (k * g.n_reactions + r)) }
            { st with a0 := st.a0 + rd st.mesh_ar (k * g.n_reactions + r) })
            { ({ s with mesh_a0d := wr s.mesh_a0d k 0 } : GillespieGraph) with
              mesh_a0r := wr s.mesh_a0r k 0 }) →
        (r.mesh_a0r.length = g.mesh_a0r.length ∧ r.mesh_a0d.length = g.mesh_a0d.length ∧
          (∀ i, i < k + 1 →
            rd r.mesh_a0r i = ((List.range g.n_reactions).map
              (fun c => rd r.mesh_ar (i * g.n_reactions + c))).sum ∧
            rd r.mesh_a0d i = ((List.range (g.n_species * rd g.mesh_neighbor_n i)).map
              (fun c => rd (rdRow r.mesh_ad i) c)).sum) ∧
          r.a0 = ((List.range (k + 1)).map
            (fun i => rd r.mesh_a0r i + rd r.mesh_a0d i)).sum) from hgoal _ rfl
    intro r hr
    obtain ⟨q1, q2, q3, q4, q5, q6, q7, q8⟩ := propensities_of_node g k s
      (by rw [p1]; omega) (by rw [p2]; omega) r hr
    have old : ∀ i, i < k →
        ((List.range g.n_reactions).map (fun c => rd r.mesh_ar (i * g.n_reactions + c))) =
          ((List.range g.n_reactions).map (fun c => rd s.mesh_ar (i * g.n_reactions + c))) ∧
        ((List.range (g.n_species * rd g.mesh_neighbor_n i)).map
          (fun c => rd (rdRow r.mesh_ad i) c)) =
          ((List.range (g.n_species * rd g.mesh_neighbor_n i)).map
            (fun c => rd (rdRow s.mesh_ad i) c)) := by
      intro i hi
      refine ⟨List.map_congr_left (fun c hc => ?_), List.map_congr_left (fun c hc => ?_)⟩
      · refine q7 _ (fun c1 hc1 e => ?_)
        have := (flat_index_inj (List.mem_range.mp hc) hc1 e).1
        omega
      · exact q8 i c (by omega)
    refine ⟨q1.trans p1, q2.trans p2, fun i hi => ?_, ?_⟩
    · by_cases hik : i = k
      · rw [hik]
        exact ⟨q3, q4⟩
      · have hi1 : i < k := by omega
        rw [(q6 i hik).1, (q6 i hik).2, (old i hi1).1, (old i hi1).2]
        exact p3 i hi1
    · rw [List.sum_range_succ, q5, p4, add_assoc]
      congr 1
      refine congrArg List.sum (List.map_congr_left (fun i hi => ?_))
      have hik : i ≠ k := by
        have := List.mem_range.mp hi
        omega
      rw [(q6 i hik).1, (q6 i hik).2]
  exact ⟨key.2.2.1, key.2.2.2⟩

/-- The totals of the lists of events of a node, as sums of cells. -/
theorem totalPropensity_events_of_node (g : GillespieGraph) (i : Nat) :
    totalPropensity (g.reactionEvents i) = ((List.range g.n_reactions).map
      (fun c => rd g.mesh_ar (i * g.n_reactions + c))).sum ∧
    totalPropensity (g.diffusionEvents i) =
      ((List.range (g.n_species * rd g.mesh_neighbor_n i)).map
        (fun c => rd (rdRow g.mesh_ad i) c)).sum := by
  constructor
  · unfold reactionEvents
    exact totalPropensity_map _ _ _
  · unfold diffusionEvents
    rw [flatMap_range_mul g.n_species (rd g.mesh_neighbor_n i)
      (fun s n => (Event.diffusion i s n,
        rd (rdRow g.mesh_ad i) (s * rd g.mesh_neighbor_n i + n))),
      totalPropensity_map]
    refine congrArg List.sum (List.map_congr_left (fun c _ => ?_))
    show rd (rdRow g.mesh_ad i) (c / rd g.mesh_neighbor_n i * rd g.mesh_neighbor_n i +
      c % rd g.mesh_neighbor_n i) = _
    rw [Nat.div_add_mod']

/-- After `ComputePropensities` on tables with a cell per node in `mesh_a0r`
and `mesh_a0d`: the sums of every node are the totals of its events and `a0`
is the total of all the events. -/
theorem ComputePropensities_consistent_graph (g0 g : GillespieGraph)
    (h1 : g0.n_meshes ≤ g0.mesh_a0r.length) (h2 : g0.n_meshes ≤ g0.mesh_a0d.length)
    (hg : g = g0.ComputePropensities) :
    (∀ i, i < g.n_meshes → rd g.mesh_a0r i = totalPropensity (g.reactionEvents i) ∧
      rd g.mesh_a0d i = totalPropensity (g.diffusionEvents i)) ∧
    g.a0 = totalPropensity g.events := by
  obtain ⟨ar, ad, a0r, a0d, a0, hcp⟩ := g0.ComputePropensities_frame_gillespieGraph
  have n1 : g.n_meshes = g0.n_meshes := by rw [hg, hcp]
  have n2 : g.n_reactions = g0.n_reactions := by rw [hg, hcp]
  have n3 : g.n_species = g0.n_species := by rw [hg, hcp]
  have n4 : g.mesh_neighbor_n = g0.mesh_neighbor_n := by rw [hg, hcp]
  obtain ⟨s1, s2⟩ := ComputePropensities_sums_graph g0 h1 h2
  rw [← hg, ← n1, ← n2, ← n3, ← n4] at s1
  rw [← hg, ← n1] at s2
  have cons : ∀ i, i < g.n_meshes → rd g.mesh_a0r i = totalPropensity (g.reactionEvents i) ∧
      rd g.mesh_a0d i = totalPropensity (g.diffusionEvents i) := by
    intro i hi
    obtain ⟨t1, t2⟩ := totalPropensity_events_of_node g i
    rw [t1, t2]
    exact s1 i hi
  refine ⟨cons, ?_⟩
  unfold events
  rw [totalPropensity_flatMap, s2]
  refine congrArg List.sum (List.map_congr_left (fun i hi => ?_))
  rw [totalPropensity_append, (cons i (List.mem_range.mp hi)).1,
    (cons i (List.mem_range.mp hi)).2]

/-- After `ComputePropensities`, no event has a negative propensity when the
rate constants and the counts are not negative. -/
theorem ComputePropensities_events_nonneg_graph (g0 g : GillespieGraph)
    (hkr : ∀ f, 0 ≤ rd g0.mesh_kr f) (hkd : ∀ i f, 0 ≤ rd (rdRow g0.mesh_kd_out i) f)
    (hx : ∀ f, 0 ≤ rd g0.mesh_x f) (hg : g = g0.ComputePropensities) :
    ∀ x ∈ g.events, 0 ≤ x.2 := by
  obtain ⟨ar, ad, a0r, a0d, a0, hcp⟩ := g0.ComputePropensities_frame_gillespieGraph
  have n1 : g.n_meshes = g0.n_meshes := by rw [hg, hcp]
  have n2 : g.n_reactions = g0.n_reactions := by rw [hg, hcp]
  have n3 : g.n_species = g0.n_species := by rw [hg, hcp]
  have n4 : g.mesh_neighbor_n = g0.mesh_neighbor_n := by rw [hg, hcp]
  intro x hx1
  unfold events at hx1
  rw [List.mem_flatMap] at hx1
  obtain ⟨i, hi, hx2⟩ := hx1
  have hi1 : i < g0.n_meshes := by rw [← n1]; exact List.mem_range.mp hi
  rcases List.mem_append.mp hx2 with h | h
  · unfold reactionEvents at h
    rw [List.mem_map] at h
    obtain ⟨r, hr, rfl⟩ := h
    have hr1 : r < g0.n_reactions := by rw [← n2]; exact List.mem_range.mp hr
    show 0 ≤ rd g.mesh_ar (i * g.n_reactions + r)
    rw [n2, hg]
    rcases ComputePropensities_mesh_ar_gillespieGraph g0 i r hi1 hr1 with h0 | h0
    · rw [h0]
    · rw [h0]
      exact SimulationAlgorithmBase.ReactionProp_nonneg _ _ _ (hkr _)
  · unfold diffusionEvents at h
    rw [List.mem_flatMap] at h
    obtain ⟨s, hs, h⟩ := h
    rw [List.mem_map] at h
    obtain ⟨n, hn, rfl⟩ := h
    have hs1 : s < g0.n_species := by rw [← n3]; exact List.mem_range.mp hs
    have hn1 : n < rd g0.mesh_neighbor_n i := by rw [← n4]; exact List.mem_range.mp hn
    show 0 ≤ rd (rdRow g.mesh_ad i) (s * rd g.mesh_neighbor_n i + n)
    rw [n4, hg]
    rcases ComputePropensities_mesh_ad_gillespieGraph g0 i s n hi1 hs1 hn1 with h0 | h0
    · rw [h0]
    · rw [h0]
      exact mul_nonneg (hx _) (hkd _ _)

end GillespieGraph

/-- C30.  Take the tables that `ComputePropensities` leaves (on an object with
a cell per mesh in `mesh_a0r` and `mesh_a0d`, as `AlgorithmSpecificInit` sizes
them), in rational arithmetic, with no negative propensity and `a0 > 0`, and
list the events in canonical order (mesh by mesh; in a mesh the reactions by
index, then the diffusion events by species, then direction) with their
propensities.  Then `a0` is the total of the list, and for a draw `U` with
`0 <= U < 1` and the target `r = U * a0`, `DrawAndApplyEvent` applies one event
of the list (and advances the generator): the event `e` with
`p_0 + ... + p_(e-1) <= r < p_0 + ... + p_e`, whose propensity is positive, and
there is no other position in the list with this property.  Both topologies.
No propensity is negative when the rate constants `mesh_kr`, the diffusion
constants and the counts are not negative. -/
theorem C30_gillespie_event_selection :
    (∀ (g0 g : Gillespie3D),
      g0.n_meshes ≤ g0.mesh_a0r.length → g0.n_meshes ≤ g0.mesh_a0d.length →
      g = g0.ComputePropensities → (∀ x ∈ g.events, 0 ≤ x.2) → 0 < g.a0 →
      0 ≤ g.rng.uniform g.rng.pos → g.rng.uniform g.rng.pos < 1 →
      g.a0 = totalPropensity g.events ∧
      ∃ pre e p post, g.events = pre ++ (e, p) :: post ∧
        totalPropensity pre ≤ g.rng.uniform g.rng.pos * g.a0 ∧
        g.rng.uniform g.rng.pos * g.a0 < totalPropensity pre + p ∧ 0 < p ∧
        g.DrawAndApplyEvent = Gillespie3D.applyEvent { g with rng := g.rng.advance } e ∧
        ∀ pre1 e1 p1 post1, g.events = pre1 ++ (e1, p1) :: post1 →
          totalPropensity pre1 ≤ g.rng.uniform g.rng.pos * g.a0 →
          g.rng.uniform g.rng.pos * g.a0 < totalPropensity pre1 + p1 →
          pre1 = pre ∧ e1 = e ∧ p1 = p ∧ post1 = post) ∧
    (∀ (g0 g : GillespieGraph),
      g0.n_meshes ≤ g0.mesh_a0r.length → g0.n_meshes ≤ g0.mesh_a0d.length →
      g = g0.ComputePropensities → (∀ x ∈ g.events, 0 ≤ x.2) → 0 < g.a0 →
      0 ≤ g.rng.uniform g.rng.pos → g.rng.uniform g.rng.pos < 1 →
      g.a0 = totalPropensity g.events ∧
      ∃ pre e p post, g.events = pre ++ (e, p) :: post ∧
        totalPropensity pre ≤ g.rng.uniform g.rng.pos * g.a0 ∧
        g.rng.uniform g.rng.pos * g.a0 < totalPropensity pre + p ∧ 0 < p ∧
        g.DrawAndApplyEvent = GillespieGraph.applyEvent { g with rng := g.rng.advance } e ∧
        ∀ pre1 e1 p1 post1, g.events = pre1 ++ (e1, p1) :: post1 →
          totalPropensity pre1 ≤ g.rng.uniform g.rng.pos * g.a0 →
          g.rng.uniform g.rng.pos * g.a0 < totalPropensity pre1 + p1 →
          pre1 = pre ∧ e1 = e ∧ p1 = p ∧ post1 = post) ∧
    (∀ (g0 g : Gillespie3D), (∀ f, 0 ≤ rd g0.mesh_kr f) → (∀ f, 0 ≤ rd g0.mesh_kd f) →
      (∀ f, 0 ≤ rd g0.mesh_x f) → g = g0.ComputePropensities → ∀ x ∈ g.events, 0 ≤ x.2) ∧
    (∀ (g0 g : GillespieGraph), (∀ f, 0 ≤ rd g0.mesh_kr f) →
      (∀ i f, 0 ≤ rd (rdRow g0.mesh_kd_out i) f) →
      (∀ f, 0 ≤ rd g0.mesh_x f) → g = g0.ComputePropensities → ∀ x ∈ g.events, 0 ≤ x.2) := by
  refine ⟨?_, ?_, ?_, ?_⟩
  · intro g0 g h1 h2 hg hnn ha hU0 hU1
    obtain ⟨c1, c2⟩ := Gillespie3D.ComputePropensities_consistent g0 g h1 h2 hg
    obtain ⟨e, ⟨pre, p, post, s1, s2, s3⟩, hd⟩ :=
      Gillespie3D.DrawAndApplyEvent_selects g c1 c2 ha hU0 hU1
    rw [zero_add] at s2 s3
    refine ⟨c2, pre, e, p, post, s1, s2, s3, by linarith, hd, ?_⟩
    intro pre1 e1 p1 post1 k1 k2 k3
    exact Selects.unique g.events hnn 0 (g.rng.uniform g.rng.pos * g.a0) pre e p post pre1 e1 p1
      post1 s1
      (by rw [zero_add]; exact s2) (by rw [zero_add]; exact s3) k1
      (by rw [zero_add]; exact k2) (by rw [zero_add]; exact k3)
  · intro g0 g h1 h2 hg hnn ha hU0 hU1
    obtain ⟨c1, c2⟩ := GillespieGraph.ComputePropensities_consistent_graph g0 g h1 h2 hg
    obtain ⟨e, ⟨pre, p, post, s1, s2, s3⟩, hd⟩ :=
      GillespieGraph.DrawAndApplyEvent_selects_graph g c1 c2 ha hU0 hU1
    rw [zero_add] at s2 s3
    refine ⟨c2, pre, e, p, post, s1, s2, s3, by linarith, hd, ?_⟩
    intro pre1 e1 p1 post1 k1 k2 k3
    exact Selects.unique g.events hnn 0 (g.rng.uniform g.rng.pos * g.a0) pre e p post pre1 e1 p1
      post1 s1
      (by rw [zero_add]; exact s2) (by rw [zero_add]; exact s3) k1
      (by rw [zero_add]; exact k2) (by rw [zero_add]; exact k3)
  · intro g0 g hkr hkd hx hg
    exact Gillespie3D.ComputePropensities_events_nonneg g0 g hkr hkd hx hg
  · intro g0 g hkr hkd hx hg
    exact GillespieGraph.ComputePropensities_events_nonneg_graph g0 g hkr hkd hx hg

/-- C30 on scenario S3 (ten molecules in the first of three meshes, `D = 1`,
the draw `1/2`), both topologies: `a0` is the total of the events, and the
event applied is one of the list, of positive propensity; it moves one
molecule to the second mesh. -/
theorem C30_gillespie_event_selection_witness :
    (diffusionGillespie3D.ComputePropensities.a0 =
        totalPropensity diffusionGillespie3D.ComputePropensities.events ∧
      ∃ pre e p post, diffusionGillespie3D.ComputePropensities.events = pre ++ (e, p) :: post ∧
        0 < p ∧
        diffusionGillespie3D.ComputePropensities.DrawAndApplyEvent =
          Gillespie3D.applyEvent
            { diffusionGillespie3D.ComputePropensities with
              rng := diffusionGillespie3D.ComputePropensities.rng.advance } e) ∧
    (diffusionGillespieGraph.ComputePropensities.a0 =
        totalPropensity diffusionGillespieGraph.ComputePropensities.events ∧
      ∃ pre e p post, diffusionGillespieGraph.ComputePropensities.events =
          pre ++ (e, p) :: post ∧ 0 < p ∧
        diffusionGillespieGraph.ComputePropensities.DrawAndApplyEvent =
          GillespieGraph.applyEvent
            { diffusionGillespieGraph.ComputePropensities with
              rng := diffusionGillespieGraph.ComputePropensities.rng.advance } e) ∧
    diffusionGillespie3D.ComputePropensities.DrawAndApplyEvent.mesh_x = [9, 1, 0] ∧
    diffusionGillespieGraph.ComputePropensities.DrawAndApplyEvent.mesh_x = [9, 1, 0] := by
  obtain ⟨a1, pre, e, p, post, a2, _, _, a3, a4, _⟩ :=
    C30_gillespie_event_selection.1 diffusionGillespie3D _ (by decide) (by decide) rfl
      (by decide!) (by decide!) (by decide!) (by decide!)
  obtain ⟨b1, pre1, e1, p1, post1, b2, _, _, b3, b4, _⟩ :=
    C30_gillespie_event_selection.2.1 diffusionGillespieGraph _ (by decide) (by decide) rfl
      (by decide!) (by decide!) (by decide!) (by decide!)
  exact ⟨⟨a1, pre, e, p, post, a2, a3, a4⟩, ⟨b1, pre1, e1, p1, post1, b2, b3, b4⟩,
    by decide!, by decide!⟩


/-! ## The counts under the tau-leap kernels stay integers -/

theorem IntegerValued.wr_of_int {v : List ℚ} (h : IntegerValued v) (i : Nat) (a : ℚ)
    (ha : ∃ z : Int, a = (z : ℚ)) : IntegerValued (wr v i a) := by
  obtain ⟨z, rfl⟩ := ha
  exact h.wr_int i z

theorem IntegerValued.rdI_int {v : List ℚ} (h : IntegerValued v) (i : Int) :
    ∃ z : Int, rdI v i = (z : ℚ) := by
  unfold rdI
  split_ifs
  · exact h _
  · exact ⟨0, by simp⟩

theorem IntegerValued.wrI_of_int {v : List ℚ} (h : IntegerValued v) (i : Int) (a : ℚ)
    (ha : ∃ z : Int, a = (z : ℚ)) : IntegerValued (wrI v i a) := by
  unfold wrI
  split_ifs
  · exact h.wr_of_int _ a ha
  · exact h

theorem IntegerValued.ite {c : Prop} [Decidable c] {a b : List ℚ} (ha : IntegerValued a)
    (hb : IntegerValued b) : IntegerValued (if c then a else b) := by
  split_ifs
  · exact ha
  · exact hb

theorem int_add_int (a b : ℚ) (ha : ∃ z : Int, a = (z : ℚ)) (hb : ∃ z : Int, b = (z : ℚ)) :
    ∃ z : Int, a + b = (z : ℚ) := by
  obtain ⟨z1, rfl⟩ := ha
  obtain ⟨z2, rfl⟩ := hb
  exact ⟨z1 + z2, by push_cast; rfl⟩

theorem int_sub_int (a b : ℚ) (ha : ∃ z : Int, a = (z : ℚ)) (hb : ∃ z : Int, b = (z : ℚ)) :
    ∃ z : Int, a - b = (z : ℚ) := by
  obtain ⟨z1, rfl⟩ := ha
  obtain ⟨z2, rfl⟩ := hb
  exact ⟨z1 - z2, by push_cast; rfl⟩

theorem int_mul_int (a b : ℚ) (ha : ∃ z : Int, a = (z : ℚ)) (hb : ∃ z : Int, b = (z : ℚ)) :
    ∃ z : Int, a * b = (z : ℚ) := by
  obtain ⟨z1, rfl⟩ := ha
  obtain ⟨z2, rfl⟩ := hb
  exact ⟨z1 * z2, by push_cast; rfl⟩

/-- Method `Apply_nevt` of the grid keeps the counts integers when the
stoichiometric coefficients are integers. -/
theorem TauLeap3D.Apply_nevt_integers (e : TauLeap3D) (hx : IntegerValued e.mesh_x)
    (hs : IntegerValued e.sto) : IntegerValued e.Apply_nevt.mesh_x := by
  unfold TauLeap3D.Apply_nevt
  dsimp only
  refine forLoop_invariant IntegerValued _ _ _ hx (fun i _ x hx => ?_)
  dsimp only
  refine forLoop_invariant IntegerValued _ _ _ ?_ (fun s _ x hx => ?_)
  · refine forLoop_invariant IntegerValued _ _ _ hx (fun r _ x hx => ?_)
    refine forLoop_invariant IntegerValued _ _ _ hx (fun j _ x hx => ?_)
    exact IntegerValued.ite hx (hx.wr_of_int _ _
      (int_add_int _ _ (hx _) (int_mul_int _ _ (hs _) ⟨_, rfl⟩)))
  · refine forLoop_invariant IntegerValued _ _ _ hx (fun n _ x hx => ?_)
    have hsrc : IntegerValued (if ¬ (rd e.mesh_chstt (i * e.n_species + s) ≠ 0) then
        wr x (i * e.n_species + s) (rd x (i * e.n_species + s) -
          ((rd e.mesh_nd (i * 6 * e.n_species + s * 6 + n) : Int) : ℚ)) else x) :=
      IntegerValued.ite (hx.wr_of_int _ _ (int_sub_int _ _ (hx _) ⟨_, rfl⟩)) hx
    exact IntegerValued.ite hx (IntegerValued.ite
      (hsrc.wrI_of_int _ _ (int_add_int _ _ (hsrc.rdI_int _) ⟨_, rfl⟩)) hsrc)

/-- Method `Apply_nevt` of the graph keeps the counts integers when the
stoichiometric coefficients are integers. -/
theorem TauLeapGraph.Apply_nevt_integers_graph (e : TauLeapGraph)
    (hx : IntegerValued e.mesh_x) (hs : IntegerValued e.sto) :
    IntegerValued e.Apply_nevt.mesh_x := by
  unfold TauLeapGraph.Apply_nevt
  dsimp only
  refine forLoop_invariant IntegerValued _ _ _ hx (fun i _ x hx => ?_)
  dsimp only
  refine forLoop_invariant IntegerValued _ _ _ ?_ (fun s _ x hx => ?_)
  · refine forLoop_invariant IntegerValued _ _ _ hx (fun r _ x hx => ?_)
    refine forLoop_invariant IntegerValued _ _ _ hx (fun j _ x hx => ?_)
    exact IntegerValued.ite hx (hx.wr_of_int _ _
      (int_add_int _ _ (hx _) (int_mul_int _ _ (hs _) ⟨_, rfl⟩)))
  · refine forLoop_invariant IntegerValued _ _ _ hx (fun n _ x hx => ?_)
    have hsrc : IntegerValued (if ¬ (rd e.mesh_chstt (i * e.n_species + s) ≠ 0) then
        wr x (i * e.n_species + s) (rd x (i * e.n_species + s) -
          ((rd (rdRow e.mesh_nd i) (s * rd e.mesh_neighbor_n i + n) : Int) : ℚ)) else x) :=
      IntegerValued.ite (hx.wr_of_int _ _ (int_sub_int _ _ (hx _) ⟨_, rfl⟩)) hx
    exact IntegerValued.ite hx (IntegerValued.ite
      (hsrc.wr_of_int _ _ (int_add_int _ _ (hsrc _) ⟨_, rfl⟩)) hsrc)

theorem TauLeap3D.Iterate_integers (e : TauLeap3D) (hx : IntegerValued e.mesh_x)
    (hs : IntegerValued e.sto) : IntegerValued e.Iterate.2.mesh_x := by
  unfold TauLeap3D.Iterate
  dsimp only
  by_cases hc : e.complete = true
  · rw [if_pos hc]
    exact hx
  · rw [if_neg hc]
    obtain ⟨nr, nd, g, hg⟩ :=
      TauLeap3D.Compute_nevt_frame_tauLeap3D { e with sampling_done_this_iteration := false }
    rw [hg]
    dsimp only
    have h1 := TauLeap3D.Apply_nevt_integers
      { e with sampling_done_this_iteration := false, mesh_nr := nr, mesh_nd := nd, rng := g }
      hx hs
    obtain ⟨_, _, _, _, _, _, k7, _⟩ := SimulationAlgorithmBase.SamplingStep_CheckTMax_keeps
      { (TauLeap3D.Apply_nevt { e with
          sampling_done_this_iteration := false, mesh_nr := nr, mesh_nd := nd,
          rng := g }).toSimulationAlgorithmBase with
        t := e.t + e.dt }
    exact (congrArg IntegerValued k7).mpr h1

theorem TauLeapGraph.Iterate_integers_graph (e : TauLeapGraph) (hx : IntegerValued e.mesh_x)
    (hs : IntegerValued e.sto) : IntegerValued e.Iterate.2.mesh_x := by
  unfold TauLeapGraph.Iterate
  dsimp only
  by_cases hc : e.complete = true
  · rw [if_pos hc]
    exact hx
  · rw [if_neg hc]
    obtain ⟨nr, nd, g, hg⟩ :=
      TauLeapGraph.Compute_nevt_frame_tauLeapGraph
        { e with sampling_done_this_iteration := false }
    rw [hg]
    dsimp only
    have h1 := TauLeapGraph.Apply_nevt_integers_graph
      { e with sampling_done_this_iteration := false, mesh_nr := nr, mesh_nd := nd, rng := g }
      hx hs
    obtain ⟨_, _, _, _, _, _, k7, _⟩ := SimulationAlgorithmBase.SamplingStep_CheckTMax_keeps
      { (TauLeapGraph.Apply_nevt { e with
          sampling_done_this_iteration := false, mesh_nr := nr, mesh_nd := nd,
          rng := g }).toSimulationAlgorithmBase with
        t := e.t + e.dt }
    exact (congrArg IntegerValued k7).mpr h1

/-! ## C31: the reaction propensity -/

theorem forLoop_factors (x : ℚ) (k : Nat) (a : ℚ) :
    forLoop k (fun q a => a * (x - (q : ℚ))) a = a * ∏ q in Finset.range k, (x - (q : ℚ)) := by
  induction k with
  | zero => simp
  | succ k ih => rw [forLoop_succ, ih, Finset.prod_range_succ, mul_assoc]

theorem prod_range_eq_list (f : Nat → ℚ) (n : Nat) :
    ∏ s in Finset.range n, f s = ((List.range n).map f).prod := by
  induction n with
  | zero => simp
  | succ n ih => rw [Finset.prod_range_succ, ih, List.range_succ, List.map_append,
      List.prod_append, List.map_singleton, List.prod_singleton]

theorem falling_product (c k : Nat) :
    ∏ q in Finset.range k, ((c : ℚ) - (q : ℚ)) = ((c.descFactorial k : Nat) : ℚ) := by
  induction k with
  | zero => simp
  | succ k ih =>
    rw [Finset.prod_range_succ, ih, Nat.descFactorial_succ]
    by_cases h : k ≤ c
    · push_cast [Nat.cast_sub h]
      ring
    · rw [Nat.descFactorial_of_lt (not_le.mp h)]
      simp

namespace SimulationAlgorithmBase

/-- The loop of `ReactionProp` over the species of `l` yields `0` as soon as a
species of `l` is below its coefficient. -/
theorem ReactionPropLoop_below (b : SimulationAlgorithmBase) (i r : Nat) (l : List Nat) :
    ∀ a, (∃ s ∈ l, rd b.mesh_x (i * b.n_species + s) < rd b.sub (s * b.n_reactions + r)) →
      ReactionPropLoop b i r l a = 0 := by
  induction l with
  | nil => intro a h; obtain ⟨s, hs, _⟩ := h; simp at hs
  | cons s0 rest ih =>
    intro a h
    unfold ReactionPropLoop
    split_ifs with h0
    · obtain ⟨s, hs, hlt⟩ := h
      rcases List.mem_cons.mp hs with e | e
      · subst e
        exact absurd h0 (not_le.mpr hlt)
      · exact ih _ ⟨s, e, hlt⟩
    · rfl

/-- The loop of `ReactionProp` over the species of `l`, all of which reach
their coefficient `k s`: the accumulator times the factors. -/
theorem ReactionPropLoop_factors (b : SimulationAlgorithmBase) (i r : Nat) (k : Nat → Nat)
    (l : List Nat) (hsub : ∀ s ∈ l, rd b.sub (s * b.n_reactions + r) = (k s : ℚ))
    (hx : ∀ s ∈ l, (k s : ℚ) ≤ rd b.mesh_x (i * b.n_species + s)) :
    ∀ a, ReactionPropLoop b i r l a =
      a * (l.map (fun s => ∏ q in Finset.range (k s),
        (rd b.mesh_x (i * b.n_species + s) - (q : ℚ)))).prod := by
  induction l with
  | nil => intro a; simp [ReactionPropLoop]
  | cons s0 rest ih =>
    intro a
    unfold ReactionPropLoop
    have e0 := hsub s0 (List.mem_cons_self _ _)
    rw [e0, if_pos (hx s0 (List.mem_cons_self _ _)), Nat.ceil_natCast, forLoop_factors,
      ih (fun s hs => hsub s (List.mem_cons_of_mem _ hs))
        (fun s hs => hx s (List.mem_cons_of_mem _ hs)),
      List.map_cons, List.prod_cons, mul_assoc]

end SimulationAlgorithmBase

/-- C31.  Take a mesh `i` and a reaction `r` whose substrate coefficients are
natural numbers `k s`.  `ReactionProp(i, r)` is `0` if some species `s` has
`mesh_x[i,s] < sub[s,r]`; otherwise it is `mesh_kr[i,r]` times the product over
the species `s` of `x * (x-1) * ... * (x - sub[s,r] + 1)` with `x = mesh_x[i,s]`.
When the counts are natural numbers `c s`, it is `mesh_kr[i,r]` times the
product over `s` of the falling factorial of `c s` of order `k s` (which is `0`
when `c s < k s`).  It is not negative when `mesh_kr[i,r]` is not negative. -/
theorem C31_reaction_propensity (b : SimulationAlgorithmBase) (i r : Nat) (k : Nat → Nat)
    (hsub : ∀ s, s < b.n_species → rd b.sub (s * b.n_reactions + r) = (k s : ℚ)) :
    ((∃ s, s < b.n_species ∧ rd b.mesh_x (i * b.n_species + s) < rd b.sub (s * b.n_reactions + r)) →
      b.ReactionProp i r = 0) ∧
    ((∀ s, s < b.n_species →
        rd b.sub (s * b.n_reactions + r) ≤ rd b.mesh_x (i * b.n_species + s)) →
      b.ReactionProp i r = rd b.mesh_kr (i * b.n_reactions + r) *
        ∏ s in Finset.range b.n_species, ∏ q in Finset.range (k s),
          (rd b.mesh_x (i * b.n_species + s) - (q : ℚ))) ∧
    (∀ c : Nat → Nat, (∀ s, s < b.n_species → rd b.mesh_x (i * b.n_species + s) = (c s : ℚ)) →
      b.ReactionProp i r = rd b.mesh_kr (i * b.n_reactions + r) *
        ∏ s in Finset.range b.n_species, (((c s).descFactorial (k s) : Nat) : ℚ)) ∧
    (0 ≤ rd b.mesh_kr (i * b.n_reactions + r) → 0 ≤ b.ReactionProp i r) := by
  have hfac : (∀ s, s < b.n_species →
        rd b.sub (s * b.n_reactions + r) ≤ rd b.mesh_x (i * b.n_species + s)) →
      b.ReactionProp i r = rd b.mesh_kr (i * b.n_reactions + r) *
        ∏ s in Finset.range b.n_species, ∏ q in Finset.range (k s),
          (rd b.mesh_x (i * b.n_species + s) - (q : ℚ)) := by
    intro hx
    unfold SimulationAlgorithmBase.ReactionProp
    rw [SimulationAlgorithmBase.ReactionPropLoop_factors b i r k _
      (fun s hs => hsub s (List.mem_range.mp hs))
      (fun s hs => by rw [← hsub s (List.mem_range.mp hs)]; exact hx s (List.mem_range.mp hs)),
      prod_range_eq_list]
  have hzero : (∃ s, s < b.n_species ∧
        rd b.mesh_x (i * b.n_species + s) < rd b.sub (s * b.n_reactions + r)) →
      b.ReactionProp i r = 0 := by
    intro h
    obtain ⟨s, hs, hlt⟩ := h
    exact SimulationAlgorithmBase.ReactionPropLoop_below b i r _ _
      ⟨s, List.mem_range.mpr hs, hlt⟩
  refine ⟨hzero, hfac, fun c hc => ?_, SimulationAlgorithmBase.ReactionProp_nonneg b i r⟩
  by_cases hall : ∀ s, s < b.n_species →
      rd b.sub (s * b.n_reactions + r) ≤ rd b.mesh_x (i * b.n_species + s)
  · rw [hfac hall]
    congr 1
    refine Finset.prod_congr rfl (fun s hs => ?_)
    rw [hc s (Finset.mem_range.mp hs), falling_product]
  · rw [not_forall] at hall
    obtain ⟨s, hs⟩ := hall
    rw [Classical.not_imp] at hs
    obtain ⟨hs, hlt⟩ := hs
    rw [hzero ⟨s, hs, not_le.mp hlt⟩]
    have hck : c s < k s := by
      have h1 := not_le.mp hlt
      rw [hsub s hs, hc s hs] at h1
      exact_mod_cast h1
    rw [Finset.prod_eq_zero (Finset.mem_range.mpr hs)
      (by rw [Nat.descFactorial_of_lt hck]; simp), mul_zero]

/-- C31 on the reaction `2 A + B -> 0` with `k = 2`: the mesh holding `5 A` and
`3 B` has the propensity `2 * (5 * 4) * 3 = 120`, and the mesh holding `1 A`
has the propensity `0`. -/
theorem C31_reaction_propensity_witness :
    (∀ s, s < trimolecularGrid.n_species →
      rd trimolecularGrid.sub (s * trimolecularGrid.n_reactions + 0) =
        ((if s = 0 then 2 else 1 : Nat) : ℚ)) ∧
    trimolecularGrid.toSimulationAlgorithmBase.ReactionProp 0 0 = 120 ∧
    trimolecularGrid.toSimulationAlgorithmBase.ReactionProp 1 0 = 0 := by
  have hsub : ∀ s, s < trimolecularGrid.n_species →
      rd trimolecularGrid.sub (s * trimolecularGrid.n_reactions + 0) =
        ((if s = 0 then 2 else 1 : Nat) : ℚ) := by
    intro s hs
    have h2 : s < 2 := hs
    interval_cases s <;> decide!
  refine ⟨hsub, ?_, ?_⟩
  · rw [(C31_reaction_propensity trimolecularGrid.toSimulationAlgorithmBase 0 0
      (fun s => if s = 0 then 2 else 1) hsub).2.2.1 (fun s => if s = 0 then 5 else 3)
      (fun s hs => by
        have h2 : s < 2 := hs
        interval_cases s <;> decide!)]
    decide!
  · exact (C31_reaction_propensity trimolecularGrid.toSimulationAlgorithmBase 1 0
      (fun s => if s = 0 then 2 else 1) hsub).1 ⟨0, by decide!, by decide!⟩

/-! ## C35: the reads of `t_samples` -/

namespace SimulationAlgorithmBase

/-- The loop of `SampleOnTSample` reads `t_samples` at `sample_pos`,
`sample_pos + 1`, ..., up to the position at which it stops, and does not move
`sample_pos` back. -/
theorem SampleOnTSampleReads_spec (fuel : Nat) : ∀ b : SimulationAlgorithmBase,
    b.sample_pos ≤ (SampleOnTSampleLoop fuel b).sample_pos ∧
    SampleOnTSampleReads fuel b =
      (List.range ((SampleOnTSampleLoop fuel b).sample_pos - b.sample_pos + 1)).map
        (fun k => b.sample_pos + k) := by
  induction fuel with
  | zero =>
    intro b
    refine ⟨le_refl _, ?_⟩
    unfold SampleOnTSampleReads SampleOnTSampleLoop
    simp [List.range_succ]
  | succ k ih =>
    intro b
    unfold SampleOnTSampleReads SampleOnTSampleLoop
    by_cases hc : b.t ≥ rd b.t_samples b.sample_pos ∧ b.sample_pos < b.n_samples
    · rw [if_pos hc, if_pos hc]
      obtain ⟨h1, h2⟩ := ih { b.Sample with sample_pos := b.sample_pos + 1 }
      have h1' : b.sample_pos + 1 ≤
          (SampleOnTSampleLoop k { b.Sample with sample_pos := b.sample_pos + 1 }).sample_pos :=
        h1
      refine ⟨by omega, ?_⟩
      rw [h2]
      show b.sample_pos :: List.map (fun j => b.sample_pos + 1 + j) _ = _
      obtain ⟨p, hp⟩ : ∃ p, (SampleOnTSampleLoop k
          { b.Sample with sample_pos := b.sample_pos + 1 }).sample_pos = b.sample_pos + 1 + p :=
        ⟨_, (Nat.add_sub_cancel' h1').symm⟩
      rw [hp]
      have e1 : b.sample_pos + 1 + p - (b.sample_pos + 1) + 1 = p + 1 := by omega
      have e2 : b.sample_pos + 1 + p - b.sample_pos + 1 = (p + 1) + 1 := by omega
      rw [e1, e2, List.range_succ_eq_map (p + 1), List.map_cons, List.map_map]
      refine congrArg₂ _ rfl (List.map_congr_left (fun j _ => ?_))
      show b.sample_pos + 1 + j = b.sample_pos + (j + 1)
      omega
    · rw [if_neg hc, if_neg hc]
      refine ⟨le_refl _, ?_⟩
      simp [List.range_succ]

/-- The position `sample_pos` after `SampleOnTSample` is not below the one
before, and not above `n_samples` unless it was before. -/
theorem SampleOnTSample_pos (b : SimulationAlgorithmBase) :
    b.sample_pos ≤ b.SampleOnTSample.sample_pos ∧
    b.SampleOnTSample.sample_pos ≤ max b.sample_pos b.n_samples := by
  unfold SampleOnTSample
  obtain ⟨p, h, hle, hadv, _⟩ := SampleOnTSampleLoop_spec (b.n_samples - b.sample_pos) b
  rw [h]
  by_cases hp : b.sample_pos < p
  · rw [if_pos hp]
    exact ⟨hle, le_max_of_le_right (hadv hp).2⟩
  · rw [if_neg hp]
    exact ⟨le_refl _, le_max_left _ _⟩

end SimulationAlgorithmBase

/-- C35 fails on the code.  The condition of the loop of `SampleOnTSample`
reads `t_samples[sample_pos]` before it tests `sample_pos<n_samples`.  In every
state with `sample_pos = n_samples` the call reads `t_samples` at the index
`n_samples`, which is the size of the vector.  With no target at all the call
reads index `0` of an empty vector; with the two targets `1/2` and `7/10` and
`t = 1` it reads the indices `0, 1, 2` of a vector of size `2`, and in the state
that this call leaves every later call reads index `2`.  The other half of the
claim holds: `sample_pos` does not decrease and does not pass `n_samples`. -/
theorem C35_t_samples_read_past_the_end :
    (∀ b : SimulationAlgorithmBase,
      ({ b with sample_pos := b.n_samples } : SimulationAlgorithmBase).tSampleReads =
        [b.n_samples]) ∧
    (noTargetGrid.base.n_samples = 0 ∧ noTargetGrid.base.t_samples = [] ∧
      noTargetGrid.base.sample_pos = 0 ∧
      noTargetGrid.base.toSimulationAlgorithmBase.tSampleReads = [0]) ∧
    ((targetsGrid [1 / 2, 7 / 10]).base.n_samples = 2 ∧
      (targetsGrid [1 / 2, 7 / 10]).base.t_samples.length = 2 ∧
      (targetsGrid [1 / 2, 7 / 10]).base.sample_pos = 0 ∧
      ({ (targetsGrid [1 / 2, 7 / 10]).base.toSimulationAlgorithmBase with
          t := 1 } : SimulationAlgorithmBase).tSampleReads = [0, 1, 2] ∧
      (SimulationAlgorithmBase.SampleOnTSample
        { (targetsGrid [1 / 2, 7 / 10]).base.toSimulationAlgorithmBase with
          t := 1 }).sample_pos = 2 ∧
      (SimulationAlgorithmBase.SampleOnTSample
        { (targetsGrid [1 / 2, 7 / 10]).base.toSimulationAlgorithmBase with
          t := 1 }).tSampleReads = [2]) ∧
    (∀ b : SimulationAlgorithmBase,
      b.sample_pos ≤ b.SampleOnTSample.sample_pos ∧
      b.SampleOnTSample.sample_pos ≤ max b.sample_pos b.n_samples) := by
  refine ⟨fun b => ?_, ⟨?_, ?_, ?_, ?_⟩, ⟨?_, ?_, ?_, ?_, ?_, ?_⟩,
    SimulationAlgorithmBase.SampleOnTSample_pos⟩
  · unfold SimulationAlgorithmBase.tSampleReads
    show SimulationAlgorithmBase.SampleOnTSampleReads (b.n_samples - b.n_samples) _ = _
    rw [Nat.sub_self]
    rfl
  all_goals decide!

/-! ## C38: initialisation that fails -/

/-- C38 fails on the code.  `Initialize3D` and `InitializeGraph` assign
`global_space_type` in their first statement, before they validate anything.
A call of `Initialize3D` with a wrong boundary string returns `2` and leaves
`global_space_type = 0`; a call of `InitializeGraph` with a wrong sampling
policy returns `3` and leaves `global_space_type = 1`; the other globals are
kept.  So after a graph session has been initialised, a failing `Initialize3D`
makes `Iterate` and `GetState` work on `global_grid_algo`, which was never
assigned, and no longer on the graph session; and likewise for a grid session
and a failing `InitializeGraph`. -/
theorem C38_failed_initialization_switches_topology :
    (∀ (fuel : Nat) (m : Libm) (G : Session) (w h d n_species n_reactions n_env : Nat)
      (mesh_state : List ℚ) (mesh_chstt mesh_env : List Int) (mesh_vol : ℚ) (k : List ℚ)
      (sub sto r_env : List Int) (D : List ℚ) (boundary_conditions_y boundary_conditions_z : String)
      (sample_n : Nat) (sample_t : List ℚ) (sampling_policy : String)
      (sampling_interval t_max time_step : ℚ) (seed : Rng) (option : String),
      Initialize3D fuel m G w h d n_species n_reactions n_env mesh_state mesh_chstt mesh_env
        mesh_vol k sub sto r_env D "open" boundary_conditions_y boundary_conditions_z sample_n
        sample_t sampling_policy sampling_interval t_max time_step seed option =
        some (2, { G with global_space_type := 0 })) ∧
    (∀ (fuel : Nat) (m : Libm) (G : Session) (n_nodes n_species n_reactions n_env : Nat)
      (n_edges : Nat) (edge_i edge_j : List Nat) (edge_sfc edge_dst : List ℚ)
      (mesh_state : List ℚ) (mesh_chstt mesh_env : List Int) (mesh_vol : List ℚ) (k : List ℚ)
      (sub sto r_env : List Int) (D : List ℚ) (sample_n : Nat) (sample_t : List ℚ)
      (sampling_interval t_max time_step : ℚ) (seed : Rng) (option : String),
      InitializeGraph fuel m G n_nodes n_species n_reactions n_env n_edges edge_i edge_j edge_sfc
        edge_dst mesh_state mesh_chstt mesh_env mesh_vol k sub sto r_env D sample_n sample_t
        "sometimes" sampling_interval t_max time_step seed option =
        some (3, { G with global_space_type := 1 })) ∧
    (∃ G1, InitializeGraph 0 scenarioLibm Session.initial 3 2 1 1 2 [0, 1] [1, 2] [1, 1] [1, 1]
        [1, 2, 3, 4, 5, 6] [0, 0, 0, 0, 0, 0] [0, 0, 0] [1, 1, 1] [1] [1, 0] [-1, 1] [1] [1, 1]
        0 [] "no_sampling" 1 10 (1 / 10) scenarioRng "euler" = some (0, G1) ∧
      G1.global_space_type = 1 ∧ G1.global_grid_algo.isNone = true ∧
      (Iterate scenarioLibm G1).isSome = true ∧ (GetState G1 []).isSome = true ∧
      (∃ G2, Initialize3D 0 scenarioLibm G1 3 1 1 2 1 1 [1, 2, 3, 4, 5, 6]
          [0, 0, 0, 0, 0, 0] [0, 0, 0] 1 [1] [1, 0] [-1, 1] [1] [1, 1] "open" "periodical"
          "reflecting" 0 [] "on_iteration" 1 10 (1 / 10) scenarioRng "euler" = some (2, G2) ∧
        G2.global_space_type = 0 ∧ G2.global_grid_algo.isNone = true ∧
        G2.global_graph_algo.isSome = true ∧ G2.global_algo_freed = false ∧
        (Iterate scenarioLibm G2).isNone = true ∧ (GetState G2 []).isNone = true)) ∧
    (∃ G1, Initialize3D 0 scenarioLibm Session.initial 3 1 1 2 1 1 [1, 2, 3, 4, 5, 6]
        [0, 0, 0, 0, 0, 0] [0, 0, 0] 1 [1] [1, 0] [-1, 1] [1] [1, 1] "reflecting" "periodical"
        "reflecting" 0 [] "on_iteration" 1 10 (1 / 10) scenarioRng "euler" = some (0, G1) ∧
      G1.global_space_type = 0 ∧ G1.global_graph_algo.isNone = true ∧
      (Iterate scenarioLibm G1).isSome = true ∧ (GetState G1 []).isSome = true ∧
      (∃ G2, InitializeGraph 0 scenarioLibm G1 3 2 1 1 2 [0, 1] [1, 2] [1, 1] [1, 1]
          [1, 2, 3, 4, 5, 6] [0, 0, 0, 0, 0, 0] [0, 0, 0] [1, 1, 1] [1] [1, 0] [-1, 1] [1] [1, 1]
          0 [] "no_sampling" 1 10 (1 / 10) scenarioRng "runge_kutta" = some (1, G2) ∧
        G2.global_space_type = 1 ∧ G2.global_graph_algo.isNone = true ∧
        G2.global_grid_algo.isSome = true ∧ G2.global_algo_freed = false ∧
        (Iterate scenarioLibm G2).isNone = true ∧ (GetState G2 []).isNone = true)) := by
  refine ⟨?_, ?_, ?_, ?_⟩
  · intros
    rfl
  · intros
    rfl
  · exact ⟨_, rfl, rfl, rfl, rfl, rfl, _, rfl, rfl, rfl, rfl, rfl, rfl, rfl⟩
  · exact ⟨_, rfl, rfl, rfl, rfl, rfl, _, rfl, rfl, rfl, rfl, rfl, rfl, rfl⟩

/-! ## C34: the correction loop that does not end -/

/-- With the original state `[3/10, 3/10]`, the total `0` and the trial state
`[0, 1]`, every round of the correction loop selects mesh `0`, which holds no
molecule to remove: the loop is still running after any number of rounds. -/
theorem correctionLoop_stuck (fuel : Nat) : ∀ rng : Rng,
    correctionLoop [3 / 10, 3 / 10] 2 1 0 true 0 1 fuel [0, 1] 0 rng = none := by
  induction fuel with
  | zero => intro rng; rfl
  | succ fuel ih =>
    intro rng
    unfold correctionLoop
    have h : correctOnce [3 / 10, 3 / 10] 1 0 true (rng.uniform rng.pos * 0) (List.range 2) 0
        [0, 1] 0 = ([0, 1], 0) := by
      rw [mul_zero]
      decide!
    simp only [h]
    rw [if_neg (by decide)]
    exact ih _

/-- The trial state of the two meshes that hold `3/10` each, when the Poisson
draws give `0` and `1`. -/
theorem drawTrialState_stuck (uniform : Nat → ℚ) (normal : Nat → ℚ → ℚ) :
    drawTrialState [3 / 10, 3 / 10] 2 1 (stuckRng uniform normal) =
      ([0, 1], { stuckRng uniform normal with pos := 2 }) := by
  have c0 : (3 / 10 : ℚ) < 100 := by norm_num
  simp [drawTrialState, forLoop, List.range_succ, rd, wr, Rng.advance, stuckRng, c0]

/-- On the two meshes that hold `3/10` each, with the Poisson draws `0` and
`1`, `GenerateStochasticDistribution` has not returned after any number of
rounds of its correction loop. -/
theorem GenerateStochasticDistribution_stuck (fuel : Nat) (uniform : Nat → ℚ)
    (normal : Nat → ℚ → ℚ) :
    GenerateStochasticDistribution fuel [3 / 10, 3 / 10] 2 1 (stuckRng uniform normal) =
      none := by
  unfold GenerateStochasticDistribution
  rw [drawTrialState_stuck]
  have h1 : (countSpecies [3 / 10, 3 / 10] 2 1).map (fun q => ((⌊q⌋ : Int) : ℚ)) = [0] := by
    decide!
  have h2 : countSpecies [0, 1] 2 1 = [1] := by decide!
  simp only [h1, h2]
  have h3 : (List.range 1).map (fun i => rd ([1] : List ℚ) i - rd ([0] : List ℚ) i) = [1] := by
    decide!
  rw [h3]
  have h4 : correctAll fuel [3 / 10, 3 / 10] 2 1 [0] [1] (List.range 1)
      ([0, 1], { stuckRng uniform normal with pos := 2 }) = none := by
    show correctAll fuel [3 / 10, 3 / 10] 2 1 [0] [1] [0] _ = none
    unfold correctAll
    have h5 : correctSpecies fuel [3 / 10, 3 / 10] 2 1 [0] [1] 0
        ([0, 1], { stuckRng uniform normal with pos := 2 }) = none := by
      unfold correctSpecies
      have h6 : static_cast_int (rd ([1] : List ℚ) 0) = 1 := by decide!
      simp only [h6]
      rw [if_neg (by decide)]
      have h7 : rd ([0] : List ℚ) 0 = 0 := by decide!
      rw [h7]
      exact correctionLoop_stuck fuel _
    rw [h5]
  rw [h4]
  rfl

/-- C34 fails on the code.  Two meshes hold `3/10` each of one species, so the
floored total is `0`; the Poisson draws of the trial state give `0` in mesh `0`
and `1` in mesh `1`.  One molecule has to be removed.  The target of every round
is `uniform * 0 = 0`, the first mesh whose cumulated original quantity exceeds
it is mesh `0`, and mesh `0` holds nothing to remove: `delta_count` stays `0`
whatever the uniform draws are, and `GenerateStochasticDistribution` has not
returned after any number of rounds. -/
theorem C34_correction_loop_does_not_terminate :
    ∀ (fuel : Nat) (uniform : Nat → ℚ) (normal : Nat → ℚ → ℚ),
      (drawTrialState [3 / 10, 3 / 10] 2 1 (stuckRng uniform normal)).1 = [0, 1] ∧
      GenerateStochasticDistribution fuel [3 / 10, 3 / 10] 2 1 (stuckRng uniform normal) =
        none :=
  fun fuel uniform normal =>
    ⟨by rw [drawTrialState_stuck], GenerateStochasticDistribution_stuck fuel uniform normal⟩

/-! ## C39: the shape of the stochastic initial state -/

/-- The trial state holds natural numbers, and `0` wherever the original state
is `0` when a Poisson draw of mean `0` gives `0`; the generator keeps its
outcomes. -/
theorem drawTrialState_shape (mesh_x : List ℚ) (n m : Nat) (rng : Rng)
    (hp : ∀ k, rng.poisson k 0 = 0) :
    StochasticShape mesh_x (drawTrialState mesh_x n m rng).1 ∧
    (drawTrialState mesh_x n m rng).2.uniform = rng.uniform := by
  unfold drawTrialState
  refine forLoop_invariant
    (fun p : List ℚ × Rng => StochasticShape mesh_x p.1 ∧ p.2.uniform = rng.uniform ∧
      p.2.poisson = rng.poisson) _ _ _ ?_ ?_ |> fun h => ⟨h.1, h.2.1⟩
  · exact ⟨⟨fun f => ⟨0, by simp [rd_replicate_zero]⟩, fun f _ => rd_replicate_zero _ _⟩,
      rfl, rfl⟩
  · intro k _ p ⟨⟨hnat, hzero⟩, hu, hpo⟩
    split_ifs with h100
    · refine ⟨⟨hnat.wr_nat k _, fun f hf => ?_⟩, hu, hpo⟩
      show rd (wr p.1 k _) f = 0
      rw [rd_wr]
      split_ifs with hk
      · rw [hk.1, hf, hpo, hp]
        rfl
      · exact hzero f hf
    · refine ⟨⟨?_, fun f hf => ?_⟩, hu, hpo⟩
      · have e : (max 0 ((⌊p.2.normal p.2.pos (rd mesh_x k)⌋ : Int) : ℚ)) =
            (((max 0 ⌊p.2.normal p.2.pos (rd mesh_x k)⌋).toNat : Nat) : ℚ) := by
          rw [← Int.cast_natCast, Int.toNat_of_nonneg (le_max_left _ _)]
          simp
        show CountsAreNaturals (wr p.1 k _)
        rw [e]
        exact hnat.wr_nat k _
      · show rd (wr p.1 k _) f = 0
        rw [rd_wr]
        split_ifs with hk
        · exfalso
          rw [hk.1, hf] at h100
          exact h100 (by norm_num)
        · exact hzero f hf

/-- One round of the correction keeps the shape: the mesh it selects has a
positive original quantity, because the cumulated quantity passes the target
there. -/
theorem correctOnce_shape (mesh_x : List ℚ) (m s : Nat) (rm_species : Bool) (target : ℚ)
    (meshes : List Nat) :
    ∀ (cumul : ℚ) (sto : List ℚ) (c : Nat), cumul ≤ target → StochasticShape mesh_x sto →
      StochasticShape mesh_x (correctOnce mesh_x m s rm_species target meshes cumul sto c).1 := by
  induction meshes with
  | nil =>
    intro cumul sto c _ h
    simpa [correctOnce] using h
  | cons i rest ih =>
    intro cumul sto c hc h
    unfold correctOnce
    dsimp only
    by_cases ht : target < cumul + rd mesh_x (i * m + s)
    · rw [if_pos ht]
      have hne : rd mesh_x (i * m + s) ≠ 0 := by
        intro h0
        rw [h0, add_zero] at ht
        exact absurd hc (not_le.mpr ht)
      have hkeep : ∀ (a : ℚ) (f : Nat), rd mesh_x f = 0 → rd (wr sto (i * m + s) a) f = 0 := by
        intro a f hf
        rw [rd_wr_ne _ _ (fun e => hne (by rw [e]; exact hf))]
        exact h.2 f hf
      cases rm_species with
      | true =>
        by_cases hpos : rd sto (i * m + s) > 0
        · simp only [if_true, if_pos hpos]
          obtain ⟨k, hk⟩ := h.1 (i * m + s)
          have hk1 : 1 ≤ k := by
            rw [hk] at hpos
            exact_mod_cast hpos
          have e : rd sto (i * m + s) - 1 = ((k - 1 : Nat) : ℚ) := by
            rw [hk, Nat.cast_sub hk1]
            simp
          rw [e]
          exact ⟨h.1.wr_nat _ _, hkeep _⟩
        · simp only [if_true, if_neg hpos]
          exact h
      | false =>
        simp only [Bool.false_eq_true, if_false]
        obtain ⟨k, hk⟩ := h.1 (i * m + s)
        have e : rd sto (i * m + s) + 1 = ((k + 1 : Nat) : ℚ) := by
          rw [hk]
          simp
        rw [e]
        exact ⟨h.1.wr_nat _ _, hkeep _⟩
    · rw [if_neg ht]
      exact ih _ _ _ (not_lt.mp ht) h

theorem correctionLoop_shape (mesh_x : List ℚ) (n m s : Nat) (rm_species : Bool) (tot_s : ℚ)
    (delta : Nat) (htot : 0 ≤ tot_s) (fuel : Nat) :
    ∀ (sto : List ℚ) (c : Nat) (rng : Rng) (out : List ℚ × Rng), (∀ k, 0 ≤ rng.uniform k) →
      StochasticShape mesh_x sto →
      correctionLoop mesh_x n m s rm_species tot_s delta fuel sto c rng = some out →
      StochasticShape mesh_x out.1 ∧ out.2.uniform = rng.uniform := by
  induction fuel with
  | zero => intro sto c rng out _ _ h; simp [correctionLoop] at h
  | succ fuel ih =>
    intro sto c rng out hu hsh h
    unfold correctionLoop at h
    dsimp only at h
    have hone := correctOnce_shape mesh_x m s rm_species (rng.uniform rng.pos * tot_s)
      (List.range n) 0 sto c (mul_nonneg (hu _) htot) hsh
    by_cases hd : (correctOnce mesh_x m s rm_species (rng.uniform rng.pos * tot_s)
        (List.range n) 0 sto c).2 = delta
    · rw [if_pos hd] at h
      have hout := Option.some.inj h
      subst hout
      exact ⟨hone, rfl⟩
    · rw [if_neg hd] at h
      exact ih _ _ rng.advance out hu hone h

theorem correctSpecies_shape (fuel : Nat) (mesh_x : List ℚ) (n m : Nat)
    (tot_species dtot_species : List ℚ) (s : Nat) (htot : 0 ≤ rd tot_species s)
    (p out : List ℚ × Rng) (hu : ∀ k, 0 ≤ p.2.uniform k) (hsh : StochasticShape mesh_x p.1)
    (h : correctSpecies fuel mesh_x n m tot_species dtot_species s p = some out) :
    StochasticShape mesh_x out.1 ∧ out.2.uniform = p.2.uniform := by
  unfold correctSpecies at h
  dsimp only at h
  by_cases hz : static_cast_int (rd dtot_species s) = 0
  · rw [if_pos hz] at h
    have := Option.some.inj h
    subst this
    exact ⟨hsh, rfl⟩
  · rw [if_neg hz] at h
    exact correctionLoop_shape mesh_x n m s _ _ _ htot fuel _ _ _ out hu hsh h

theorem correctAll_shape (fuel : Nat) (mesh_x : List ℚ) (n m : Nat)
    (tot_species dtot_species : List ℚ) (htot : ∀ s, 0 ≤ rd tot_species s)
    (species : List Nat) :
    ∀ (p out : List ℚ × Rng), (∀ k, 0 ≤ p.2.uniform k) → StochasticShape mesh_x p.1 →
      correctAll fuel mesh_x n m tot_species dtot_species species p = some out →
      StochasticShape mesh_x out.1 := by
  induction species with
  | nil =>
    intro p out _ hsh h
    simp only [correctAll] at h
    have := Option.some.inj h
    subst this
    exact hsh
  | cons s rest ih =>
    intro p out hu hsh h
    unfold correctAll at h
    cases hc : correctSpecies fuel mesh_x n m tot_species dtot_species s p with
    | none => rw [hc] at h; simp at h
    | some q =>
      rw [hc] at h
      dsimp only at h
      obtain ⟨q1, q2⟩ := correctSpecies_shape fuel mesh_x n m tot_species dtot_species s
        (htot s) p q hu hsh hc
      exact ih q out (fun k => by rw [q2]; exact hu k) q1 h

theorem countSpecies_nonneg (v : List ℚ) (n m : Nat) (hv : ∀ f, 0 ≤ rd v f) :
    ∀ f, 0 ≤ rd (countSpecies v n m) f := by
  unfold countSpecies
  refine forLoop_invariant (fun t : List ℚ => ∀ f, 0 ≤ rd t f) _ _ _
    (fun f => by rw [rd_replicate_zero]) (fun i _ t ht => ?_)
  refine forLoop_invariant (fun t : List ℚ => ∀ f, 0 ≤ rd t f) _ _ _ ht (fun j _ t ht f => ?_)
  show 0 ≤ rd (wr t j _) f
  rw [rd_wr]
  split_ifs
  · exact add_nonneg (ht _) (hv _)
  · exact ht f

/-- C39.  Take a non-negative input and a generator whose Poisson draws of
mean `0` give `0` and whose uniform draws are not negative.  Whenever
`GenerateStochasticDistribution` returns, every cell of the returned state is a
natural number, and the cell `(i, s)` is `0` whenever the input is `0` there:
the trial draw of such a cell is `0`, and the correction loop changes only
meshes that it selects, all of which hold a positive original quantity. -/
theorem C39_stochastic_output_shape (fuel n_meshes n_species : Nat) (mesh_x : List ℚ)
    (rng : Rng) (out : List ℚ) (hnn : ∀ q ∈ mesh_x, 0 ≤ q) (hp : ∀ k, rng.poisson k 0 = 0)
    (hu : ∀ k, 0 ≤ rng.uniform k)
    (hret : GenerateStochasticDistribution fuel mesh_x n_meshes n_species rng = some out) :
    CountsAreNaturals out ∧
    ∀ i s, i < n_meshes → s < n_species → rd mesh_x (i * n_species + s) = 0 →
      rd out (i * n_species + s) = 0 := by
  unfold GenerateStochasticDistribution at hret
  dsimp only at hret
  obtain ⟨tsh, tu⟩ := drawTrialState_shape mesh_x n_meshes n_species rng hp
  have htot : ∀ s, 0 ≤ rd ((countSpecies mesh_x n_meshes n_species).map
      (fun q => ((⌊q⌋ : Int) : ℚ))) s := by
    intro s
    rw [rd_map_floor]
    exact_mod_cast Int.floor_nonneg.mpr
      (countSpecies_nonneg mesh_x n_meshes n_species (rd_nonneg_of_forall mesh_x hnn) s)
  cases hc : correctAll fuel mesh_x n_meshes n_species
      ((countSpecies mesh_x n_meshes n_species).map (fun q => ((⌊q⌋ : Int) : ℚ)))
      ((List.range n_species).map (fun i =>
        rd (countSpecies (drawTrialState mesh_x n_meshes n_species rng).1 n_meshes n_species) i -
          rd ((countSpecies mesh_x n_meshes n_species).map (fun q => ((⌊q⌋ : Int) : ℚ))) i))
      (List.range n_species) (drawTrialState mesh_x n_meshes n_species rng) with
  | none => rw [hc] at hret; simp at hret
  | some p =>
    rw [hc] at hret
    have hpo : p.1 = out := by simpa using hret
    have key := correctAll_shape fuel mesh_x n_meshes n_species _ _ htot (List.range n_species)
      _ p (fun k => by rw [tu]; exact hu k) tsh hc
    rw [← hpo]
    exact ⟨key.1, fun i s _ _ h0 => key.2 _ h0⟩

/-- C39 on a run: mesh 0 is empty and mesh 1 holds `5/2` of one species; the
trial draws give `0` and `1`, and the correction adds one molecule to mesh 1:
the returned state is `[0, 2]`. -/
theorem C39_stochastic_output_shape_witness :
    GenerateStochasticDistribution 5 [0, 5 / 2] 2 1
        { pos := 0, uniform := fun _ => 1 / 2, poisson := fun k mean => if mean = 0 then 0 else k,
          normal := fun _ _ => 0 }
      = some [0, 2] ∧
    CountsAreNaturals [0, 2] ∧
    ∀ i s, i < 2 → s < 1 → rd ([0, 5 / 2] : List ℚ) (i * 1 + s) = 0 →
      rd ([0, 2] : List ℚ) (i * 1 + s) = 0 :=
  ⟨by decide!, C39_stochastic_output_shape 5 2 1 [0, 5 / 2]
    { pos := 0, uniform := fun _ => 1 / 2, poisson := fun k mean => if mean = 0 then 0 else k,
      normal := fun _ _ => 0 }
    [0, 2] (by decide!) (fun k => by simp) (fun k => by norm_num) (by decide!)⟩

/-! ## C37: the diffusion constants of the two ends of an interface -/

theorem rdI_natCast {α : Type} [Zero α] (v : List α) (k : Nat) : rdI v (k : Int) = rd v k := by
  unfold rdI
  rw [if_pos (Int.natCast_nonneg k), Int.toNat_natCast]

theorem rdI_toNat {α : Type} [Zero α] (v : List α) (j : Int) (hj : 0 ≤ j) :
    rdI v j = rd v j.toNat := by
  unfold rdI
  rw [if_pos hj]

namespace SimulationAlgorithm3DBase

/-- When the neighbour table pairs the faces, the constant of mesh `i` toward
its neighbour `j` across face `n` is the constant of `j` toward `i` across the
opposed face. -/
theorem Build_mesh_kd_reciprocal (b : SimulationAlgorithm3DBase) (D : List ℚ)
    (hp : b.FacesPaired) (i s n : Nat) (hi : i < b.n_meshes) (hs : s < b.n_species) (hn : n < 6)
    (hj : rd b.mesh_neighbors (i * 6 + n) ≠ -1) :
    rd (b.Build_mesh_kd D).mesh_kd (i * b.n_species * 6 + s * 6 + n) =
      rd (b.Build_mesh_kd D).mesh_kd
        ((rd b.mesh_neighbors (i * 6 + n)).toNat * b.n_species * 6 + s * 6 +
          rd b.opposed_direction n) := by
  obtain ⟨h0, hJ, ho, _, hback⟩ := hp i hi n hn hj
  have hi1 : ((i : Nat) : Int) ≠ -1 := by omega
  rw [Build_mesh_kd_cell b D i s n hi hs hn, Build_mesh_kd_cell b D _ s _ hJ hs ho, hback,
    if_neg hj, if_neg hi1, rdI_natCast, rdI_toNat _ _ h0]
  by_cases hc : rdI D ((s * b.n_env : Nat) + rd b.mesh_env i) ≠ 0 ∧
      rdI D ((s * b.n_env : Nat) + rd b.mesh_env (rd b.mesh_neighbors (i * 6 + n)).toNat) ≠ 0
  · rw [if_pos hc, if_pos ⟨hc.2, hc.1⟩, add_comm (b.mesh_edge / _)]
  · rw [if_neg hc, if_neg (fun h => hc ⟨h.2, h.1⟩)]

end SimulationAlgorithm3DBase

namespace SimulationAlgorithmGraphBase

/-- When slot `n` of node `i` and slot `p` of node `j` hold the two ends of one
edge, the constant `kd_in` of `i` in slot `n` is the constant `kd_out` of `j` in
slot `p`, and the two constants of slot `n` are in the ratio of the volumes. -/
theorem Build_mesh_kd_reciprocal_graph (m : Libm) (b : SimulationAlgorithmGraphBase)
    (D : List ℚ) (i j n p s : Nat) (hi : i < b.n_meshes) (hj : j < b.n_meshes)
    (hn : n < rd b.mesh_neighbor_n i) (hp : p < rd b.mesh_neighbor_n j) (hs : s < b.n_species)
    (e1 : rd (rdRow b.mesh_neighbor_index i) n = j)
    (e2 : rd (rdRow b.mesh_neighbor_index j) p = i)
    (e3 : rd (rdRow b.mesh_neighbor_sfc i) n = rd (rdRow b.mesh_neighbor_sfc j) p)
    (e4 : rd (rdRow b.mesh_neighbor_dst i) n = rd (rdRow b.mesh_neighbor_dst j) p) :
    rd (rdRow (b.Build_mesh_kd m D).mesh_kd_in i) (s * rd b.mesh_neighbor_n i + n) =
      rd (rdRow (b.Build_mesh_kd m D).mesh_kd_out j) (s * rd b.mesh_neighbor_n j + p) ∧
    (rd b.mesh_vol i ≠ 0 → rd b.mesh_vol j ≠ 0 →
      rd b.mesh_vol i *
          rd (rdRow (b.Build_mesh_kd m D).mesh_kd_out i) (s * rd b.mesh_neighbor_n i + n) =
        rd b.mesh_vol j *
          rd (rdRow (b.Build_mesh_kd m D).mesh_kd_in i) (s * rd b.mesh_neighbor_n i + n)) := by
  obtain ⟨_, hcells⟩ := b.Build_mesh_kd_cells m D
  rw [(hcells i s n hi hs hn).1, (hcells i s n hi hs hn).2, (hcells j s p hj hs hp).1]
  unfold kdInCell kdOutCell
  rw [e1, e2, ← e3, ← e4, Dij_comm m b D j i s]
  refine ⟨rfl, fun hvi hvj => ?_⟩
  have key : ∀ v X L : ℚ, v ≠ 0 → v * (X / (v * L)) = X / L := by
    intro v X L hv
    rw [← mul_div_assoc, mul_div_mul_left _ _ hv]
  rw [key _ _ _ hvi, key _ _ _ hvj]

end SimulationAlgorithmGraphBase

/-- Method `Init` of the graph ends with `Build_mesh_kd` on an object that has
the tables of `SetNeighbors` and the volumes given to `Init`. -/
theorem SimulationAlgorithmGraphBase.Init_built (m : Libm) (b : SimulationAlgorithmGraphBase)
    (n_nodes n_species n_reactions n_env n_edges : Nat) (edge_i edge_j : List Nat)
    (edge_sfc edge_dst : List ℚ) (mesh_x0 : List ℚ) (mesh_chstt mesh_env : List Int)
    (mesh_vol : List ℚ) (k sub sto r_env D : List ℚ) (sample_n : Nat) (t_samples : List ℚ)
    (sampling_policy_code : Int) (sampling_interval t_max time_step : ℚ) (seed : Rng) :
    ∃ c : SimulationAlgorithmGraphBase,
      b.Init m n_nodes n_species n_reactions n_env n_edges edge_i edge_j edge_sfc edge_dst
          mesh_x0 mesh_chstt mesh_env mesh_vol k sub sto r_env D sample_n t_samples
          sampling_policy_code sampling_interval t_max time_step seed =
        { c.Build_mesh_kd m D with rng := seed } ∧
      c.n_meshes = n_nodes ∧ c.n_species = n_species ∧ c.mesh_vol = mesh_vol ∧
      c.mesh_neighbor_n =
        (SimulationAlgorithmGraphBase.SetNeighbors { b with n_meshes := n_nodes } n_edges edge_i
          edge_j edge_sfc edge_dst).mesh_neighbor_n ∧
      c.mesh_neighbor_index =
        (SimulationAlgorithmGraphBase.SetNeighbors { b with n_meshes := n_nodes } n_edges edge_i
          edge_j edge_sfc edge_dst).mesh_neighbor_index ∧
      c.mesh_neighbor_sfc =
        (SimulationAlgorithmGraphBase.SetNeighbors { b with n_meshes := n_nodes } n_edges edge_i
          edge_j edge_sfc edge_dst).mesh_neighbor_sfc ∧
      c.mesh_neighbor_dst =
        (SimulationAlgorithmGraphBase.SetNeighbors { b with n_meshes := n_nodes } n_edges edge_i
          edge_j edge_sfc edge_dst).mesh_neighbor_dst := by
  have hbase := congrArg SimulationAlgorithmBase.n_meshes
    (SimulationAlgorithmGraphBase.SetNeighbors_base { b with n_meshes := n_nodes } n_edges
      edge_i edge_j edge_sfc edge_dst)
  unfold SimulationAlgorithmGraphBase.Init
  dsimp only
  refine ⟨_, rfl, ?_, rfl, rfl, rfl, rfl, rfl, rfl⟩
  unfold SimulationAlgorithmBase.Build_mesh_kr
  dsimp only
  exact hbase

/-- C37.  On the grid, when the neighbour table pairs the faces (as the table
that `Init` builds does), for every mesh `i`, species `s` and direction `n`
whose neighbour `j` is not `-1`: `mesh_kd[i,s,n] = mesh_kd[j,s,opposed[n]]`, for
the table of `Build_mesh_kd` and for the table after `Init`.  On the graph,
when slot `n` of node `i` and slot `p` of node `j` hold the two ends of one edge
(each holds the other node, with the same surface and distance):
`mesh_kd_in[i][s,n] = mesh_kd_out[j][s,p]`, and with volumes other than `0`,
`vol[i] * mesh_kd_out[i][s,n] = vol[j] * mesh_kd_in[i][s,n]`.  After `Init` of a
new object with edges between nodes of the graph, this holds for the two slots
of every edge `k`: the slot of `edge_i[k]` after the entries of the earlier
edges, and the slot of `edge_j[k]` after the entries of the earlier edges (and
after the other end of `k` when the edge is a loop). -/
theorem C37_diffusion_reciprocity :
    (∀ (b : SimulationAlgorithm3DBase) (D : List ℚ) (i s n : Nat) (j : Int), b.FacesPaired →
      i < b.n_meshes → s < b.n_species → n < 6 → j = rd b.mesh_neighbors (i * 6 + n) →
      j ≠ -1 →
      rd (b.Build_mesh_kd D).mesh_kd (i * b.n_species * 6 + s * 6 + n) =
        rdI (b.Build_mesh_kd D).mesh_kd
          (j * b.n_species * 6 + s * 6 + rd b.opposed_direction n)) ∧
    (∀ (m : Libm) (b : SimulationAlgorithm3DBase) (w h d n_species n_reactions n_env : Nat)
      (mesh_x0 : List ℚ) (mesh_chstt mesh_env : List Int) (mesh_vol : ℚ)
      (k sub sto r_env D : List ℚ) (boundary_conditions : List Int) (sample_n : Nat)
      (t_samples : List ℚ) (sampling_policy_code : Int) (sampling_interval t_max time_step : ℚ)
      (seed : Rng) (R : SimulationAlgorithm3DBase) (i s n : Nat) (j : Int),
      R = b.Init m w h d n_species n_reactions n_env mesh_x0 mesh_chstt mesh_env mesh_vol k sub
          sto r_env D boundary_conditions sample_n t_samples sampling_policy_code
          sampling_interval t_max time_step seed →
      i < w * h * d → s < n_species → n < 6 → j = rd R.mesh_neighbors (i * 6 + n) → j ≠ -1 →
      rd R.mesh_kd (i * n_species * 6 + s * 6 + n) =
        rdI R.mesh_kd (j * n_species * 6 + s * 6 + rd R.opposed_direction n)) ∧
    (∀ (m : Libm) (b : SimulationAlgorithmGraphBase) (D : List ℚ) (i j n p s : Nat),
      i < b.n_meshes → j < b.n_meshes → n < rd b.mesh_neighbor_n i →
      p < rd b.mesh_neighbor_n j → s < b.n_species →
      rd (rdRow b.mesh_neighbor_index i) n = j → rd (rdRow b.mesh_neighbor_index j) p = i →
      rd (rdRow b.mesh_neighbor_sfc i) n = rd (rdRow b.mesh_neighbor_sfc j) p →
      rd (rdRow b.mesh_neighbor_dst i) n = rd (rdRow b.mesh_neighbor_dst j) p →
      rd (rdRow (b.Build_mesh_kd m D).mesh_kd_in i) (s * rd b.mesh_neighbor_n i + n) =
        rd (rdRow (b.Build_mesh_kd m D).mesh_kd_out j) (s * rd b.mesh_neighbor_n j + p) ∧
      (rd b.mesh_vol i ≠ 0 → rd b.mesh_vol j ≠ 0 →
        rd b.mesh_vol i *
            rd (rdRow (b.Build_mesh_kd m D).mesh_kd_out i) (s * rd b.mesh_neighbor_n i + n) =
          rd b.mesh_vol j *
            rd (rdRow (b.Build_mesh_kd m D).mesh_kd_in i) (s * rd b.mesh_neighbor_n i + n))) ∧
    (∀ (m : Libm) (b : SimulationAlgorithmGraphBase)
      (n_nodes n_species n_reactions n_env n_edges : Nat) (edge_i edge_j : List Nat)
      (edge_sfc edge_dst : List ℚ) (mesh_x0 : List ℚ) (mesh_chstt mesh_env : List Int)
      (mesh_vol : List ℚ) (k sub sto r_env D : List ℚ) (sample_n : Nat) (t_samples : List ℚ)
      (sampling_policy_code : Int) (sampling_interval t_max time_step : ℚ) (seed : Rng)
      (R : SimulationAlgorithmGraphBase) (e s i j n p : Nat),
      b.mesh_neighbor_n = [] → b.mesh_neighbor_index = [] → b.mesh_neighbor_sfc = [] →
      b.mesh_neighbor_dst = [] →
      (∀ e, e < n_edges → rd edge_i e < n_nodes ∧ rd edge_j e < n_nodes) →
      R = b.Init m n_nodes n_species n_reactions n_env n_edges edge_i edge_j edge_sfc edge_dst
          mesh_x0 mesh_chstt mesh_env mesh_vol k sub sto r_env D sample_n t_samples
          sampling_policy_code sampling_interval t_max time_step seed →
      e < n_edges → s < n_species → i = rd edge_i e → j = rd edge_j e →
      n = (edgeEntries edge_i edge_j (fun k => rd edge_j k) (fun k => rd edge_i k) i e).length →
      p = (edgeEntries edge_i edge_j (fun k => rd edge_j k) (fun k => rd edge_i k) j e).length +
          (if i = j then 1 else 0) →
      (n < rd R.mesh_neighbor_n i ∧ rd (rdRow R.mesh_neighbor_index i) n = j ∧
        p < rd R.mesh_neighbor_n j ∧ rd (rdRow R.mesh_neighbor_index j) p = i) ∧
      rd (rdRow R.mesh_kd_in i) (s * rd R.mesh_neighbor_n i + n) =
        rd (rdRow R.mesh_kd_out j) (s * rd R.mesh_neighbor_n j + p) ∧
      rd (rdRow R.mesh_kd_in j) (s * rd R.mesh_neighbor_n j + p) =
        rd (rdRow R.mesh_kd_out i) (s * rd R.mesh_neighbor_n i + n) ∧
      (rd mesh_vol i ≠ 0 → rd mesh_vol j ≠ 0 →
        rd mesh_vol i * rd (rdRow R.mesh_kd_out i) (s * rd R.mesh_neighbor_n i + n) =
          rd mesh_vol j * rd (rdRow R.mesh_kd_in i) (s * rd R.mesh_neighbor_n i + n))) := by
  have grid : ∀ (b : SimulationAlgorithm3DBase) (D : List ℚ) (i s n : Nat) (j : Int),
      b.FacesPaired → i < b.n_meshes → s < b.n_species → n < 6 →
      j = rd b.mesh_neighbors (i * 6 + n) → j ≠ -1 →
      rd (b.Build_mesh_kd D).mesh_kd (i * b.n_species * 6 + s * 6 + n) =
        rdI (b.Build_mesh_kd D).mesh_kd
          (j * b.n_species * 6 + s * 6 + rd b.opposed_direction n) := by
    intro b D i s n j hp hi hs hn hj hne
    subst hj
    obtain ⟨h0, _, _, _, _⟩ := hp i hi n hn hne
    rw [SimulationAlgorithm3DBase.Build_mesh_kd_reciprocal b D hp i s n hi hs hn hne]
    have e : rd b.mesh_neighbors (i * 6 + n) * b.n_species * 6 + s * 6 +
        rd b.opposed_direction n =
        (((rd b.mesh_neighbors (i * 6 + n)).toNat * b.n_species * 6 + s * 6 +
          rd b.opposed_direction n : Nat) : Int) := by
      push_cast
      rw [Int.toNat_of_nonneg h0]
    rw [e, rdI_natCast]
  refine ⟨grid, ?_, ?_, ?_⟩
  · intro m b w h d n_species n_reactions n_env mesh_x0 mesh_chstt mesh_env mesh_vol k sub sto
      r_env D boundary_conditions sample_n t_samples sampling_policy_code sampling_interval t_max
      time_step seed R i s n j hR hi hs hn hj hne
    subst hR
    unfold SimulationAlgorithm3DBase.Init at hj ⊢
    dsimp only at hj ⊢
    exact grid _ D i s n j (SimulationAlgorithm3DBase.FacesPaired_of_built _ rfl rfl rfl) hi hs hn
      hj hne
  · intro m b D i j n p s hi hj hn hp hs e1 e2 e3 e4
    exact SimulationAlgorithmGraphBase.Build_mesh_kd_reciprocal_graph m b D i j n p s hi hj hn hp
      hs e1 e2 e3 e4
  · intro m b n_nodes n_species n_reactions n_env n_edges edge_i edge_j edge_sfc edge_dst mesh_x0
      mesh_chstt mesh_env mesh_vol k sub sto r_env D sample_n t_samples sampling_policy_code
      sampling_interval t_max time_step seed R e s i j n p h1 h2 h3 h4 hrange hR he hs hi hj hn hp
    have rows := fun v hv => SimulationAlgorithmGraphBase.SetNeighbors_rows
      { b with n_meshes := n_nodes } h1 h2 h3 h4 n_edges edge_i edge_j edge_sfc edge_dst hrange
      v hv
    have hbase := congrArg SimulationAlgorithmBase.n_meshes
      (SimulationAlgorithmGraphBase.SetNeighbors_base { b with n_meshes := n_nodes } n_edges
        edge_i edge_j edge_sfc edge_dst)
    have hin : i < n_nodes := by rw [hi]; exact (hrange e he).1
    have hjn : j < n_nodes := by rw [hj]; exact (hrange e he).2
    obtain ⟨ri1, ri2, ri3, ri4⟩ := rows i hin
    obtain ⟨rj1, rj2, rj3, rj4⟩ := rows j hjn
    obtain ⟨a1, a2⟩ := edgeEntries_at_i edge_i edge_j (fun k => rd edge_j k)
      (fun k => rd edge_i k) e n_edges he
    obtain ⟨_, a3⟩ := edgeEntries_at_i edge_i edge_j (fun k => rd edge_sfc k)
      (fun k => rd edge_sfc k) e n_edges he
    obtain ⟨_, a4⟩ := edgeEntries_at_i edge_i edge_j (fun k => rd edge_dst k)
      (fun k => rd edge_dst k) e n_edges he
    obtain ⟨c1, c2⟩ := edgeEntries_at_j edge_i edge_j (fun k => rd edge_j k)
      (fun k => rd edge_i k) e n_edges he
    obtain ⟨_, c3⟩ := edgeEntries_at_j edge_i edge_j (fun k => rd edge_sfc k)
      (fun k => rd edge_sfc k) e n_edges he
    obtain ⟨_, c4⟩ := edgeEntries_at_j edge_i edge_j (fun k => rd edge_dst k)
      (fun k => rd edge_dst k) e n_edges he
    rw [edgeEntries_length edge_i edge_j (fun k => rd edge_sfc k) (fun k => rd edge_sfc k)
      (fun k => rd edge_j k) (fun k => rd edge_i k) (rd edge_i e) e] at a3
    rw [edgeEntries_length edge_i edge_j (fun k => rd edge_dst k) (fun k => rd edge_dst k)
      (fun k => rd edge_j k) (fun k => rd edge_i k) (rd edge_i e) e] at a4
    rw [edgeEntries_length edge_i edge_j (fun k => rd edge_sfc k) (fun k => rd edge_sfc k)
      (fun k => rd edge_j k) (fun k => rd edge_i k) (rd edge_j e) e] at c3
    rw [edgeEntries_length edge_i edge_j (fun k => rd edge_dst k) (fun k => rd edge_dst k)
      (fun k => rd edge_j k) (fun k => rd edge_i k) (rd edge_j e) e] at c4
    rw [← hi] at a1 a2 a3 a4
    rw [← hj] at c1 c2 c3 c4 a2
    rw [← hi] at c1 c2 c3 c4
    rw [← hn] at a1 a2 a3 a4
    rw [← hp] at c1 c2 c3 c4
    rw [← ri1] at a2
    rw [← ri2] at a3
    rw [← ri3] at a4
    rw [← ri4] at a1
    rw [← rj1] at c2
    rw [← rj2] at c3
    rw [← rj3] at c4
    rw [← rj4] at c1
    obtain ⟨c, hc, q1, q2, q3, q4, q5, q6, q7⟩ := SimulationAlgorithmGraphBase.Init_built m b
      n_nodes n_species n_reactions n_env n_edges edge_i edge_j edge_sfc edge_dst mesh_x0
      mesh_chstt mesh_env mesh_vol k sub sto r_env D sample_n t_samples sampling_policy_code
      sampling_interval t_max time_step seed
    obtain ⟨⟨ko, ki, hf⟩, _⟩ := SimulationAlgorithmGraphBase.Build_mesh_kd_cells m c D
    have t1 : R.mesh_neighbor_n = c.mesh_neighbor_n := by rw [hR, hc, hf]
    have t2 : R.mesh_neighbor_index = c.mesh_neighbor_index := by rw [hR, hc, hf]
    have t3 : R.mesh_kd_in = (c.Build_mesh_kd m D).mesh_kd_in := by rw [hR, hc]
    have t4 : R.mesh_kd_out = (c.Build_mesh_kd m D).mesh_kd_out := by rw [hR, hc]
    rw [t1, t2, t3, t4, ← q3]
    rw [← q4] at a1 c1
    rw [← q5] at a2 c2
    rw [← q6] at a3 c3
    rw [← q7] at a4 c4
    rw [← q1] at hin hjn
    rw [← q2] at hs
    obtain ⟨f1, f2⟩ := SimulationAlgorithmGraphBase.Build_mesh_kd_reciprocal_graph m c D i j n p s
      hin hjn a1 c1 hs a2 c2 (a3.trans c3.symm) (a4.trans c4.symm)
    obtain ⟨g1, _⟩ := SimulationAlgorithmGraphBase.Build_mesh_kd_reciprocal_graph m c D j i p n s
      hjn hin c1 a1 hs c2 a2 (c3.trans a3.symm) (c4.trans a4.symm)
    exact ⟨⟨a1, a2, c1, c2⟩, f1, g1, f2⟩
/-- C37 on the grid with two environments (`D = [1, 3]`): the constant of mesh
`0` toward mesh `1` and the constant of mesh `1` toward mesh `0` are both `3/2`.
On scenario S6 (volumes `[1, 8]`): `kd_in` of node `0` and `kd_out` of node `1`
are both `1/8`, `kd_in` of node `1` and `kd_out` of node `0` are both `1`, and
`1 * 1 = 8 * (1/8)`. -/
theorem C37_diffusion_reciprocity_witness :
    (rdI environmentsGrid.mesh_kd ((1 : Int) * ((1 : Nat) : Int) * 6 + ((0 : Nat) : Int) * 6 +
        ((rd environmentsGrid.opposed_direction 0 : Nat) : Int)) = 3 / 2 ∧
      rd environmentsGrid.mesh_kd (0 * 1 * 6 + 0 * 6 + 0) = 3 / 2) ∧
    (rd (rdRow (harmonicGraph cubeRootLibm scenarioRng).mesh_kd_out 1)
        (0 * rd (harmonicGraph cubeRootLibm scenarioRng).mesh_neighbor_n 1 + 0) = 1 / 8 ∧
      rd (rdRow (harmonicGraph cubeRootLibm scenarioRng).mesh_kd_in 0)
        (0 * rd (harmonicGraph cubeRootLibm scenarioRng).mesh_neighbor_n 0 + 0) = 1 / 8 ∧
      rd (rdRow (harmonicGraph cubeRootLibm scenarioRng).mesh_kd_out 0)
        (0 * rd (harmonicGraph cubeRootLibm scenarioRng).mesh_neighbor_n 0 + 0) = 1 ∧
      rd ([1, 8] : List ℚ) 0 *
          rd (rdRow (harmonicGraph cubeRootLibm scenarioRng).mesh_kd_out 0)
            (0 * rd (harmonicGraph cubeRootLibm scenarioRng).mesh_neighbor_n 0 + 0) =
        rd ([1, 8] : List ℚ) 1 *
          rd (rdRow (harmonicGraph cubeRootLibm scenarioRng).mesh_kd_in 0)
            (0 * rd (harmonicGraph cubeRootLibm scenarioRng).mesh_neighbor_n 0 + 0)) :=
  ⟨⟨(C37_diffusion_reciprocity.2.1 scenarioLibm SimulationAlgorithm3DBase.new 2 1 1 1 1 2 [10, 0]
      [0, 0] [0, 1] 1 [3] [1] [-1] [1, 1 / 2] [1, 3] [0, 0, 0] 0 [] 1 1 10 (1 / 10) scenarioRng
      environmentsGrid 0 0 0 1 rfl (by decide) (by decide) (by decide) (by decide!)
      (by decide)).symm.trans (by decide!), by decide!⟩,
   ⟨((C37_diffusion_reciprocity.2.2.2 cubeRootLibm SimulationAlgorithmGraphBase.new 2 1 0 2 1 [0]
      [1] [1] [1] [9, 0] [0, 0] [0, 1] [1, 8] [] [] [] [] [1, 1] 0 [] 3 1 10 (1 / 10) scenarioRng
      (harmonicGraph cubeRootLibm scenarioRng) 0 0 0 1 0 0 rfl rfl rfl rfl (by decide) rfl
      (by decide) (by decide) (by decide!) (by decide!) (by decide!) (by decide!)).2.1).symm.trans
      (by decide!), by decide!, by decide!,
    (C37_diffusion_reciprocity.2.2.2 cubeRootLibm SimulationAlgorithmGraphBase.new 2 1 0 2 1 [0]
      [1] [1] [1] [9, 0] [0, 0] [0, 1] [1, 8] [] [] [] [] [1, 1] 0 [] 3 1 10 (1 / 10) scenarioRng
      (harmonicGraph cubeRootLibm scenarioRng) 0 0 0 1 0 0 rfl rfl rfl rfl (by decide) rfl
      (by decide) (by decide) (by decide!) (by decide!) (by decide!) (by decide!)).2.2.2
      (by decide!) (by decide!)⟩⟩

/-! ## C36: absent neighbours of the grid are not used -/

namespace Gillespie3D

theorem walkReactions_call (g : Gillespie3D) (i : Nat) (r2 : ℚ) (l : List Nat) :
    ∀ a, walkReactions g i r2 l a = (callReactions g i r2 l a).elim g g.applyEvent := by
  induction l with
  | nil => intro a; rfl
  | cons j rest ih =>
    intro a
    unfold walkReactions callReactions
    dsimp only
    split_ifs
    · rfl
    · exact ih _

theorem walkDirections_call (g : Gillespie3D) (i j : Nat) (r2 : ℚ) (l : List Nat) :
    ∀ a, walkDirections g i j r2 l a =
      ((callDirections g i j r2 l a).1.elim g g.applyEvent, (callDirections g i j r2 l a).2,
        (callDirections g i j r2 l a).1.isSome) := by
  induction l with
  | nil => intro a; rfl
  | cons n rest ih =>
    intro a
    unfold walkDirections callDirections
    dsimp only
    split_ifs
    · rfl
    · exact ih _

theorem walkSpecies_call (g : Gillespie3D) (i : Nat) (r2 : ℚ) (l : List Nat) :
    ∀ a, walkSpecies g i r2 l a = (callSpecies g i r2 l a).elim g g.applyEvent := by
  induction l with
  | nil => intro a; rfl
  | cons j rest ih =>
    intro a
    unfold walkSpecies callSpecies
    dsimp only
    rw [walkDirections_call]
    dsimp only
    split_ifs
    · rfl
    · exact ih _

theorem walkMeshes_call (g : Gillespie3D) (r : ℚ) (l : List Nat) :
    ∀ a, walkMeshes g r l a = (callMeshes g r l a).elim g g.applyEvent := by
  induction l with
  | nil => intro a; rfl
  | cons i rest ih =>
    intro a
    unfold walkMeshes callMeshes
    dsimp only
    split_ifs
    · exact walkReactions_call g i _ _ _
    · exact walkSpecies_call g i _ _ _
    · exact ih _

/-- Method `DrawAndApplyEvent` is the call recorded by `drawnCall`, on the
object whose generator has made the draw. -/
theorem DrawAndApplyEvent_call (g : Gillespie3D) :
    g.DrawAndApplyEvent =
      g.drawnCall.elim { g with rng := g.rng.advance }
        (Gillespie3D.applyEvent { g with rng := g.rng.advance }) := by
  unfold DrawAndApplyEvent drawnCall
  dsimp only
  exact walkMeshes_call _ _ _ _

theorem callReactions_reaction (g : Gillespie3D) (i : Nat) (r2 : ℚ) (l : List Nat) :
    ∀ a e, callReactions g i r2 l a = some e → ∃ j, e = Event.reaction i j := by
  induction l with
  | nil => intro a e h; simp [callReactions] at h
  | cons j rest ih =>
    intro a e h
    unfold callReactions at h
    dsimp only at h
    split_ifs at h
    · exact ⟨j, (Option.some.inj h).symm⟩
    · exact ih _ e h

/-- A call made by the loop over directions is a diffusion of positive
propensity; without a call, `a_cumul` stays at most `r2`. -/
theorem callDirections_positive (g : Gillespie3D) (i j : Nat) (r2 : ℚ) (l : List Nat) :
    ∀ a, a ≤ r2 →
      (∀ e, (callDirections g i j r2 l a).1 = some e →
        ∃ n, n ∈ l ∧ e = Event.diffusion i j n ∧
          0 < rd g.mesh_ad (i * g.n_species * 6 + j * 6 + n)) ∧
      ((callDirections g i j r2 l a).1.isSome = false → (callDirections g i j r2 l a).2 ≤ r2) := by
  induction l with
  | nil =>
    intro a ha
    exact ⟨fun e h => by simp [callDirections] at h, fun _ => ha⟩
  | cons n rest ih =>
    intro a ha
    unfold callDirections
    dsimp only
    by_cases h : r2 < a + rd g.mesh_ad (i * g.n_species * 6 + j * 6 + n)
    · rw [if_pos h]
      refine ⟨fun e he => ⟨n, List.mem_cons_self _ _, (Option.some.inj he).symm, by linarith⟩,
        fun hf => by simp at hf⟩
    · rw [if_neg h]
      obtain ⟨h1, h2⟩ := ih _ (not_lt.mp h)
      refine ⟨fun e he => ?_, h2⟩
      obtain ⟨n', hn', q⟩ := h1 e he
      exact ⟨n', List.mem_cons_of_mem _ hn', q⟩

theorem callSpecies_positive (g : Gillespie3D) (i : Nat) (r2 : ℚ) (l : List Nat) :
    ∀ a, a ≤ r2 → ∀ e, callSpecies g i r2 l a = some e →
      ∃ j n, j ∈ l ∧ n < 6 ∧ e = Event.diffusion i j n ∧
        0 < rd g.mesh_ad (i * g.n_species * 6 + j * 6 + n) := by
  induction l with
  | nil => intro a _ e h; simp [callSpecies] at h
  | cons j rest ih =>
    intro a ha e h
    unfold callSpecies at h
    dsimp only at h
    obtain ⟨h1, h2⟩ := callDirections_positive g i j r2 (List.range 6) a ha
    by_cases hd : (callDirections g i j r2 (List.range 6) a).1.isSome = true
    · rw [if_pos hd] at h
      obtain ⟨n, hn, q1, q2⟩ := h1 e h
      exact ⟨j, n, List.mem_cons_self _ _, List.mem_range.mp hn, q1, q2⟩
    · rw [if_neg hd] at h
      obtain ⟨j', n, hj', q⟩ := ih _ (h2 (by simpa using hd)) e h
      exact ⟨j', n, List.mem_cons_of_mem _ hj', q⟩

/-- A diffusion call made by the loop over meshes has a positive propensity in
`mesh_ad`, whatever the target `r` is. -/
theorem callMeshes_diffusion (g : Gillespie3D) (r : ℚ) (l : List Nat) :
    ∀ a i s n, callMeshes g r l a = some (Event.diffusion i s n) →
      i ∈ l ∧ s < g.n_species ∧ n < 6 ∧ 0 < rd g.mesh_ad (i * g.n_species * 6 + s * 6 + n) := by
  induction l with
  | nil => intro a i s n h; simp [callMeshes] at h
  | cons i0 rest ih =>
    intro a i s n h
    unfold callMeshes at h
    dsimp only at h
    by_cases h1 : r < a + rd g.mesh_a0r i0
    · rw [if_pos h1] at h
      obtain ⟨j, hj⟩ := callReactions_reaction g i0 _ _ _ _ h
      exact absurd hj (by simp)
    · rw [if_neg h1] at h
      by_cases h2 : r < a + rd g.mesh_a0r i0 + rd g.mesh_a0d i0
      · rw [if_pos h2] at h
        obtain ⟨j, n', hj, hn', q1, q2⟩ := callSpecies_positive g i0 _ _ 0
          (by linarith [not_lt.mp h1]) _ h
        have q3 := Event.diffusion.inj q1
        obtain ⟨e1, e2, e3⟩ := q3
        subst e1 e2 e3
        exact ⟨List.mem_cons_self _ _, List.mem_range.mp hj, hn', q2⟩
      · rw [if_neg h2] at h
        obtain ⟨q0, q⟩ := ih _ i s n h
        exact ⟨List.mem_cons_of_mem _ q0, q⟩

end Gillespie3D

/-- A loop whose rounds may stop: when no round stops, it is the loop of the
rounds. -/
theorem forLoop_bind_some {σ : Type} (n : Nat) (body : Nat → σ → σ) (cbody : Nat → σ → Option σ)
    (s0 : σ) (h : ∀ k, k < n → ∀ s, cbody k s = some (body k s)) :
    forLoop n (fun k (acc : Option σ) => acc.bind (cbody k)) (some s0) =
      some (forLoop n body s0) := by
  induction n with
  | zero => rfl
  | succ n ih =>
    rw [forLoop_succ, forLoop_succ, ih (fun k hk => h k (Nat.lt_succ_of_lt hk))]
    exact h n (Nat.lt_succ_self n) _

/-- A loop whose rounds may stop: when one round stops from every state, the
loop stops. -/
theorem forLoop_bind_none {σ : Type} (n : Nat) (cbody : Nat → σ → Option σ) (k : Nat)
    (hk : k < n) (h : ∀ s, cbody k s = none) (a : Option σ) :
    forLoop n (fun k (acc : Option σ) => acc.bind (cbody k)) a = none := by
  induction n with
  | zero => exact absurd hk (Nat.not_lt_zero k)
  | succ n ih =>
    rw [forLoop_succ]
    by_cases hkn : k = n
    · subst hkn
      cases forLoop k (fun k (acc : Option σ) => acc.bind (cbody k)) a with
      | none => rfl
      | some s => exact h s
    · rw [ih (by omega)]
      rfl

namespace TauLeap3D

/-- The checked run of `Apply_nevt` is `Apply_nevt` when no round with a
number of diffusion events other than `0` has an absent neighbour. -/
theorem Apply_nevtChecked_some (e : TauLeap3D)
    (h : ∀ i s n, i < e.n_meshes → s < e.n_species → n < 6 →
      rd e.mesh_nd (i * 6 * e.n_species + s * 6 + n) ≠ 0 →
      rd e.mesh_neighbors (i * 6 + n) ≠ -1) :
    e.Apply_nevtChecked = some e.Apply_nevt := by
  unfold Apply_nevtChecked Apply_nevt
  rw [forLoop_bind_some e.n_meshes
    (fun i mesh_x =>
      forLoop e.n_species (fun s mesh_x =>
        forLoop 6 (fun n mesh_x =>
          if rd e.mesh_nd (i * 6 * e.n_species + s * 6 + n) = 0 then mesh_x
          else
            if ¬ (rdI e.mesh_chstt (rd e.mesh_neighbors (i * 6 + n) * e.n_species + s) ≠ 0) then
              wrI
                (if ¬ (rd e.mesh_chstt (i * e.n_species + s) ≠ 0) then
                  wr mesh_x (i * e.n_species + s)
                    (rd mesh_x (i * e.n_species + s) -
                      ((rd e.mesh_nd (i * 6 * e.n_species + s * 6 + n) : Int) : ℚ))
                else mesh_x)
                (rd e.mesh_neighbors (i * 6 + n) * e.n_species + s)
                (rdI
                  (if ¬ (rd e.mesh_chstt (i * e.n_species + s) ≠ 0) then
                    wr mesh_x (i * e.n_species + s)
                      (rd mesh_x (i * e.n_species + s) -
                        ((rd e.mesh_nd (i * 6 * e.n_species + s * 6 + n) : Int) : ℚ))
                  else mesh_x)
                  (rd e.mesh_neighbors (i * 6 + n) * e.n_species + s) +
                  ((rd e.mesh_nd (i * 6 * e.n_species + s * 6 + n) : Int) : ℚ))
            else
              (if ¬ (rd e.mesh_chstt (i * e.n_species + s) ≠ 0) then
                wr mesh_x (i * e.n_species + s)
                  (rd mesh_x (i * e.n_species + s) -
                    ((rd e.mesh_nd (i * 6 * e.n_species + s * 6 + n) : Int) : ℚ))
              else mesh_x)) mesh_x)
        (forLoop e.n_reactions (fun r mesh_x =>
          forLoop e.n_species (fun j mesh_x =>
            if rd e.mesh_chstt (i * e.n_species + j) ≠ 0 then mesh_x
            else
              wr mesh_x (i * e.n_species + j)
                (rd mesh_x (i * e.n_species + j) +
                  rd e.sto (j * e.n_reactions + r) *
                    ((rd e.mesh_nr (i * e.n_reactions + r) : Int) : ℚ)))
            mesh_x) mesh_x)) _ e.mesh_x ?_]
  · rfl
  · intro i hi x
    dsimp only
    refine forLoop_bind_some e.n_species _ _ _ (fun s hs x => ?_)
    refine forLoop_bind_some 6 _ _ _ (fun n hn x => ?_)
    by_cases h0 : rd e.mesh_nd (i * 6 * e.n_species + s * 6 + n) = 0
    · rw [if_pos h0, if_pos h0]
    · rw [if_neg h0, if_neg h0, if_neg (h i s n hi hs hn h0)]
      split_ifs <;> rfl

/-- The checked run of `Apply_nevt` stops when a round with a number of
diffusion events other than `0` has an absent neighbour. -/
theorem Apply_nevtChecked_none (e : TauLeap3D) (i s n : Nat) (hi : i < e.n_meshes)
    (hs : s < e.n_species) (hn : n < 6)
    (h0 : rd e.mesh_nd (i * 6 * e.n_species + s * 6 + n) ≠ 0)
    (hj : rd e.mesh_neighbors (i * 6 + n) = -1) :
    e.Apply_nevtChecked = none := by
  unfold Apply_nevtChecked
  rw [forLoop_bind_none e.n_meshes _ i hi (fun x => ?_)]
  · rfl
  · dsimp only
    refine forLoop_bind_none e.n_species _ s hs (fun x => ?_) _
    refine forLoop_bind_none 6 _ n hn (fun x => ?_) _
    rw [if_neg h0, if_pos hj]

/-- The checked run of `Apply_nevt`, when it does not stop, is `Apply_nevt`. -/
theorem Apply_nevtChecked_eq (e x : TauLeap3D) (h : e.Apply_nevtChecked = some x) :
    x = e.Apply_nevt := by
  by_cases hb : ∃ i s n, i < e.n_meshes ∧ s < e.n_species ∧ n < 6 ∧
      rd e.mesh_nd (i * 6 * e.n_species + s * 6 + n) ≠ 0 ∧
      rd e.mesh_neighbors (i * 6 + n) = -1
  · obtain ⟨i, s, n, hi, hs, hn, h0, hj⟩ := hb
    rw [Apply_nevtChecked_none e i s n hi hs hn h0 hj] at h
    exact Option.noConfusion h
  · rw [Apply_nevtChecked_some e (fun i s n hi hs hn h0 hj =>
      hb ⟨i, s, n, hi, hs, hn, h0, hj⟩)] at h
    exact (Option.some.inj h).symm

/-- After `Compute_nevt` the checked run of `Apply_nevt` does not stop. -/
theorem Apply_nevtChecked_Compute_nevt (e : TauLeap3D) :
    e.Compute_nevt.Apply_nevtChecked = some e.Compute_nevt.Apply_nevt := by
  obtain ⟨nr, nd, gr, hf⟩ := Compute_nevt_frame_tauLeap3D e
  have e1 : e.Compute_nevt.n_meshes = e.n_meshes := by rw [hf]
  have e2 : e.Compute_nevt.n_species = e.n_species := by rw [hf]
  have e3 : e.Compute_nevt.mesh_neighbors = e.mesh_neighbors := by rw [hf]
  refine Apply_nevtChecked_some _ (fun i s n hi hs hn h0 => ?_)
  rw [e1] at hi
  rw [e2] at hs h0
  rw [e3]
  rcases Compute_nevt_mesh_nd e i s n hi hs hn with h1 | h1
  · exact absurd h1 h0
  · exact h1

end TauLeap3D

/-- C36.  In `Gillespie3D`, `DrawAndApplyEvent` is the one call that `drawnCall`
records (or no call).  On the tables that `ComputePropensities` leaves, a
recorded call `ApplyDiffusion(i, s, n)` has a mesh `i`, a species `s` and a
direction `n` of the grid, a positive propensity `mesh_ad`, and
`mesh_neighbors[i*6+n]` is not `-1`, for every state and every outcome of the
draw.  In `TauLeap3D`, the run of `Apply_nevt` that stops at the first access
through an absent neighbour `j = -1` computes `Apply_nevt` when it does not
stop; it stops when some round `(i, s, n)` has a number of diffusion events
other than `0` and no neighbour; and after `Compute_nevt` it never stops,
because the number of diffusion events toward an absent neighbour is `0` and
`Apply_nevt` leaves such a round at its first test. -/
theorem C36_absent_neighbors_not_used :
    (∀ g : Gillespie3D,
      g.DrawAndApplyEvent =
        g.drawnCall.elim { g with rng := g.rng.advance }
          (Gillespie3D.applyEvent { g with rng := g.rng.advance })) ∧
    (∀ (g : Gillespie3D) (i s n : Nat),
      g.ComputePropensities.drawnCall = some (Event.diffusion i s n) →
      i < g.n_meshes ∧ s < g.n_species ∧ n < 6 ∧
        0 < rd g.ComputePropensities.mesh_ad (i * g.n_species * 6 + s * 6 + n) ∧
        rd g.mesh_neighbors (i * 6 + n) ≠ -1) ∧
    (∀ e x : TauLeap3D, e.Apply_nevtChecked = some x → x = e.Apply_nevt) ∧
    (∀ (e : TauLeap3D) (i s n : Nat), i < e.n_meshes → s < e.n_species → n < 6 →
      rd e.mesh_nd (i * 6 * e.n_species + s * 6 + n) ≠ 0 →
      rd e.mesh_neighbors (i * 6 + n) = -1 → e.Apply_nevtChecked = none) ∧
    (∀ e : TauLeap3D, e.Compute_nevt.Apply_nevtChecked = some e.Compute_nevt.Apply_nevt) ∧
    (∀ (e : TauLeap3D) (i s n : Nat), i < e.n_meshes → s < e.n_species → n < 6 →
      rd e.mesh_neighbors (i * 6 + n) = -1 →
      rd e.Compute_nevt.mesh_nd (i * 6 * e.n_species + s * 6 + n) = 0) := by
  refine ⟨Gillespie3D.DrawAndApplyEvent_call, fun g i s n h => ?_,
    TauLeap3D.Apply_nevtChecked_eq, TauLeap3D.Apply_nevtChecked_none,
    TauLeap3D.Apply_nevtChecked_Compute_nevt, fun e i s n hi hs hn hj => ?_⟩
  · obtain ⟨ar, ad, a0r, a0d, a0, hf⟩ := Gillespie3D.ComputePropensities_frame_gillespie3D g
    have e1 : g.ComputePropensities.n_meshes = g.n_meshes := by rw [hf]
    have e2 : g.ComputePropensities.n_species = g.n_species := by rw [hf]
    unfold Gillespie3D.drawnCall at h
    dsimp only at h
    obtain ⟨q1, q2, q3, q4⟩ := Gillespie3D.callMeshes_diffusion _ _ _ _ i s n h
    have q1' : i < g.ComputePropensities.n_meshes := List.mem_range.mp q1
    rw [e1] at q1'
    have q2' : s < g.n_species := by rw [← e2]; exact q2
    have q4' : 0 < rd g.ComputePropensities.mesh_ad (i * g.n_species * 6 + s * 6 + n) := by
      rw [← e2]
      exact q4
    refine ⟨q1', q2', q3, q4', ?_⟩
    have e3 : i * g.n_species * 6 + s * 6 + n = i * 6 * g.n_species + s * 6 + n := by ring
    rcases Gillespie3D.ComputePropensities_mesh_ad_gillespie3D g i s n q1' q2' q3 with h0 | h1
    · rw [e3, h0] at q4'
      exact absurd q4' (lt_irrefl 0)
    · exact h1.1
  · rcases TauLeap3D.Compute_nevt_mesh_nd e i s n hi hs hn with h1 | h1
    · exact h1
    · exact absurd hj h1

/-- C36 on scenario S3 (3x1x1 reflecting grid, `10` molecules in mesh `0`).
Under `Gillespie3D` with the draw `1/2` the call is `ApplyDiffusion(0, 0, 0)`,
toward mesh `1`.  Under `TauLeap3D` the checked run of `Apply_nevt` after
`Compute_nevt` does not stop and leaves `[9, 1, 0]`; toward the absent
neighbour of mesh `0` in direction `1` the number of events is `0`; and on the
same object with one event written toward that absent neighbour the checked
run stops. -/
theorem C36_absent_neighbors_not_used_witness :
    diffusionGillespie3D.ComputePropensities.drawnCall = some (Event.diffusion 0 0 0) ∧
    rd diffusionGillespie3D.mesh_neighbors (0 * 6 + 0) ≠ -1 ∧
    diffusionTauLeap3D.Compute_nevt.Apply_nevtChecked.map (fun e => e.mesh_x) =
      some [9, 1, 0] ∧
    rd diffusionTauLeap3D.mesh_neighbors (0 * 6 + 1) = -1 ∧
    rd diffusionTauLeap3D.Compute_nevt.mesh_nd (0 * 6 * diffusionTauLeap3D.n_species + 0 * 6 + 1) =
      0 ∧
    ({ diffusionTauLeap3D with
        mesh_nd := wr diffusionTauLeap3D.mesh_nd 1 1 } : TauLeap3D).Apply_nevtChecked = none :=
  ⟨by decide!, (C36_absent_neighbors_not_used.2.1 diffusionGillespie3D 0 0 0 (by decide!)).2.2.2.2,
    (congrArg (Option.map (fun e : TauLeap3D => e.mesh_x))
      (C36_absent_neighbors_not_used.2.2.2.2.1 diffusionTauLeap3D)).trans (by decide!),
    by decide!,
    C36_absent_neighbors_not_used.2.2.2.2.2 diffusionTauLeap3D 0 0 1 (by decide!) (by decide!)
      (by decide) (by decide!),
    C36_absent_neighbors_not_used.2.2.2.1
      { diffusionTauLeap3D with mesh_nd := wr diffusionTauLeap3D.mesh_nd 1 1 } 0 0 1
      (by decide!) (by decide!) (by decide) (by decide!) (by decide!)⟩

/-! ## C32: the Euler step -/

theorem forLoop_product (f : Nat → ℚ) (n : Nat) (a : ℚ) :
    forLoop n (fun s r => r * f s) a = a * ∏ s in Finset.range n, f s := by
  induction n with
  | zero => simp
  | succ n ih => rw [forLoop_succ, ih, Finset.prod_range_succ, mul_assoc]

namespace SimulationAlgorithmBase

/-- Method `ReactionRate`: the constant times the powers of the counts. -/
theorem ReactionRate_eq (m : Libm) (b : SimulationAlgorithmBase) (i r : Nat) :
    b.ReactionRate m i r = rd b.mesh_kr (i * b.n_reactions + r) *
      ∏ s in Finset.range b.n_species,
        m.pow (rd b.mesh_x (i * b.n_species + s)) (rd b.sub (s * b.n_reactions + r)) := by
  unfold ReactionRate
  exact forLoop_product _ _ _

/-- The local table `rr` of `Compute_dxdt` holds the reaction rates of the
mesh. -/
theorem reactionRates_cell (m : Libm) (b : SimulationAlgorithmBase) (i r : Nat)
    (hr : r < b.n_reactions) :
    rd (forLoop b.n_reactions (fun r rr => wr rr r (b.ReactionRate m i r))
      (List.replicate b.n_reactions 0)) r = b.ReactionRate m i r :=
  forLoop_update b.n_reactions (fun r _ => b.ReactionRate m i r)
    (List.replicate b.n_reactions 0) (by rw [List.length_replicate]) r hr

end SimulationAlgorithmBase

namespace Euler3D

/-- The derivative that `Compute_dxdt` leaves in cell `(i, s)`: `0` for a
chemostatted cell, and otherwise the reaction terms minus the flux differences
over the faces that have a neighbour, all computed from the state `e`. -/
theorem Compute_dxdt_cell_general (m : Libm) (e : Euler3D)
    (hlen : e.n_meshes * e.n_species ≤ e.mesh_dxdt.length)
    (i s : Nat) (hi : i < e.n_meshes) (hs : s < e.n_species) :
    rd (e.Compute_dxdt m).mesh_dxdt (i * e.n_species + s) =
      if rd e.mesh_chstt (i * e.n_species + s) ≠ 0 then 0
      else
        ∑ r in Finset.range e.n_reactions,
            rd e.sto (s * e.n_reactions + r) * e.toSimulationAlgorithmBase.ReactionRate m i r +
          ∑ n in Finset.range 6, (if rd e.mesh_neighbors (i * 6 + n) ≠ -1 then
            -e.toSimulationAlgorithm3DBase.DiffusionRateDifference i s n else 0) := by
  unfold Compute_dxdt
  dsimp only
  have hcell : ∀ i', i' < e.n_meshes → ∀ v : List ℚ,
      forLoop e.n_species (fun s mesh_dxdt =>
        if rd e.mesh_chstt (i' * e.n_species + s) ≠ 0 then wr mesh_dxdt (i' * e.n_species + s) 0
        else
          forLoop 6 (fun n mesh_dxdt =>
            if rd e.mesh_neighbors (i' * 6 + n) ≠ -1 then
              wr mesh_dxdt (i' * e.n_species + s)
                (rd mesh_dxdt (i' * e.n_species + s) -
                  e.toSimulationAlgorithm3DBase.DiffusionRateDifference i' s n)
            else mesh_dxdt)
          (forLoop e.n_reactions (fun r mesh_dxdt =>
            wr mesh_dxdt (i' * e.n_species + s)
              (rd mesh_dxdt (i' * e.n_species + s) + rd e.sto (s * e.n_reactions + r) *
                rd (forLoop e.n_reactions
                  (fun r rr => wr rr r (e.toSimulationAlgorithmBase.ReactionRate m i' r))
                  (List.replicate e.n_reactions 0)) r))
            (wr mesh_dxdt (i' * e.n_species + s) 0))) v =
      forLoop e.n_species (fun s x => wr x (i' * e.n_species + s)
        ((fun i s (_ : ℚ) =>
          if rd e.mesh_chstt (i * e.n_species + s) ≠ 0 then 0
          else
            ∑ r in Finset.range e.n_reactions,
                rd e.sto (s * e.n_reactions + r) *
                  e.toSimulationAlgorithmBase.ReactionRate m i r +
              ∑ n in Finset.range 6, (if rd e.mesh_neighbors (i * 6 + n) ≠ -1 then
                -e.toSimulationAlgorithm3DBase.DiffusionRateDifference i s n else 0)) i' s
          (rd x (i' * e.n_species + s)))) v := by
    intro i' _ v
    refine forLoop_congr _ _ _ _ (fun s' _ d => ?_)
    show _ = wr d (i' * e.n_species + s') (if rd e.mesh_chstt (i' * e.n_species + s') ≠ 0 then 0
      else _)
    by_cases hch : rd e.mesh_chstt (i' * e.n_species + s') ≠ 0
    · rw [if_pos hch, if_pos hch]
    · rw [if_neg hch, if_neg hch]
      have hR : forLoop e.n_reactions (fun r mesh_dxdt =>
          wr mesh_dxdt (i' * e.n_species + s')
            (rd mesh_dxdt (i' * e.n_species + s') + rd e.sto (s' * e.n_reactions + r) *
              rd (forLoop e.n_reactions
                (fun r rr => wr rr r (e.toSimulationAlgorithmBase.ReactionRate m i' r))
                (List.replicate e.n_reactions 0)) r))
          (wr d (i' * e.n_species + s') 0) =
          forLoop e.n_reactions (fun r mesh_dxdt =>
            wr mesh_dxdt (i' * e.n_species + s')
              (rd mesh_dxdt (i' * e.n_species + s') + rd e.sto (s' * e.n_reactions + r) *
                e.toSimulationAlgorithmBase.ReactionRate m i' r))
            (wr d (i' * e.n_species + s') 0) := by
        refine forLoop_congr _ _ _ _ (fun r hr v => ?_)
        rw [e.toSimulationAlgorithmBase.reactionRates_cell m i' r hr]
      rw [hR, forLoop_cell_acc, forLoop_cell_sub_if,
        wr_wr_rd d _ 0 (fun a => a + ∑ r in Finset.range e.n_reactions,
          rd e.sto (s' * e.n_reactions + r) * e.toSimulationAlgorithmBase.ReactionRate m i' r)]
      exact (wr_wr_rd d _ _ (fun a => a + ∑ n in Finset.range 6,
        (if rd e.mesh_neighbors (i' * 6 + n) ≠ -1 then
          -e.toSimulationAlgorithm3DBase.DiffusionRateDifference i' s' n else 0))).trans
        (by rw [zero_add])
  rw [forLoop_congr _ _ _ _ (fun i' hi' v => hcell i' hi' v)]
  exact forLoop_update_cells e.n_meshes e.n_species
    (fun i s (_ : ℚ) =>
      if rd e.mesh_chstt (i * e.n_species + s) ≠ 0 then 0
      else
        ∑ r in Finset.range e.n_reactions,
            rd e.sto (s * e.n_reactions + r) * e.toSimulationAlgorithmBase.ReactionRate m i r +
          ∑ n in Finset.range 6, (if rd e.mesh_neighbors (i * 6 + n) ≠ -1 then
            -e.toSimulationAlgorithm3DBase.DiffusionRateDifference i s n else 0))
    e.mesh_dxdt hlen i s hi hs

end Euler3D
namespace EulerGraph

/-- The derivative that `Compute_dxdt` leaves in cell `(i, s)`: `0` for a
chemostatted cell, and otherwise the reaction terms minus the flux differences
over the neighbours of `i`, all computed from the state `e`. -/
theorem Compute_dxdt_cell_general_graph (m : Libm) (e : EulerGraph)
    (hlen : e.n_meshes * e.n_species ≤ e.mesh_dxdt.length)
    (i s : Nat) (hi : i < e.n_meshes) (hs : s < e.n_species) :
    rd (e.Compute_dxdt m).mesh_dxdt (i * e.n_species + s) =
      if rd e.mesh_chstt (i * e.n_species + s) ≠ 0 then 0
      else
        ∑ r in Finset.range e.n_reactions,
            rd e.sto (s * e.n_reactions + r) * e.toSimulationAlgorithmBase.ReactionRate m i r +
          ∑ n in Finset.range (rd e.mesh_neighbor_n i),
            -e.toSimulationAlgorithmGraphBase.DiffusionRateDifference i s n := by
  unfold Compute_dxdt
  dsimp only
  have hcell : ∀ i', i' < e.n_meshes → ∀ v : List ℚ,
      forLoop e.n_species (fun s mesh_dxdt =>
        if rd e.mesh_chstt (i' * e.n_species + s) ≠ 0 then wr mesh_dxdt (i' * e.n_species + s) 0
        else
          forLoop (rd e.mesh_neighbor_n i') (fun n mesh_dxdt =>
            wr mesh_dxdt (i' * e.n_species + s)
              (rd mesh_dxdt (i' * e.n_species + s) -
                e.toSimulationAlgorithmGraphBase.DiffusionRateDifference i' s n))
          (forLoop e.n_reactions (fun r mesh_dxdt =>
            wr mesh_dxdt (i' * e.n_species + s)
              (rd mesh_dxdt (i' * e.n_species + s) + rd e.sto (s * e.n_reactions + r) *
                rd (forLoop e.n_reactions
                  (fun r rr => wr rr r (e.toSimulationAlgorithmBase.ReactionRate m i' r))
                  (List.replicate e.n_reactions 0)) r))
            (wr mesh_dxdt (i' * e.n_species + s) 0))) v =
      forLoop e.n_species (fun s x => wr x (i' * e.n_species + s)
        ((fun i s (_ : ℚ) =>
          if rd e.mesh_chstt (i * e.n_species + s) ≠ 0 then 0
          else
            ∑ r in Finset.range e.n_reactions,
                rd e.sto (s * e.n_reactions + r) *
                  e.toSimulationAlgorithmBase.ReactionRate m i r +
              ∑ n in Finset.range (rd e.mesh_neighbor_n i),
                -e.toSimulationAlgorithmGraphBase.DiffusionRateDifference i s n) i' s
          (rd x (i' * e.n_species + s)))) v := by
    intro i' _ v
    refine forLoop_congr _ _ _ _ (fun s' _ d => ?_)
    show _ = wr d (i' * e.n_species + s') (if rd e.mesh_chstt (i' * e.n_species + s') ≠ 0 then 0
      else _)
    by_cases hch : rd e.mesh_chstt (i' * e.n_species + s') ≠ 0
    · rw [if_pos hch, if_pos hch]
    · rw [if_neg hch, if_neg hch]
      have hR : forLoop e.n_reactions (fun r mesh_dxdt =>
          wr mesh_dxdt (i' * e.n_species + s')
            (rd mesh_dxdt (i' * e.n_species + s') + rd e.sto (s' * e.n_reactions + r) *
              rd (forLoop e.n_reactions
                (fun r rr => wr rr r (e.toSimulationAlgorithmBase.ReactionRate m i' r))
                (List.replicate e.n_reactions 0)) r))
          (wr d (i' * e.n_species + s') 0) =
          forLoop e.n_reactions (fun r mesh_dxdt =>
            wr mesh_dxdt (i' * e.n_species + s')
              (rd mesh_dxdt (i' * e.n_species + s') + rd e.sto (s' * e.n_reactions + r) *
                e.toSimulationAlgorithmBase.ReactionRate m i' r))
            (wr d (i' * e.n_species + s') 0) := by
        refine forLoop_congr _ _ _ _ (fun r hr v => ?_)
        rw [e.toSimulationAlgorithmBase.reactionRates_cell m i' r hr]
      rw [hR, forLoop_cell_acc, forLoop_cell_sub,
        wr_wr_rd d _ 0 (fun a => a + ∑ r in Finset.range e.n_reactions,
          rd e.sto (s' * e.n_reactions + r) * e.toSimulationAlgorithmBase.ReactionRate m i' r)]
      exact (wr_wr_rd d _ _ (fun a => a + ∑ n in Finset.range (rd e.mesh_neighbor_n i'),
        -e.toSimulationAlgorithmGraphBase.DiffusionRateDifference i' s' n)).trans
        (by rw [zero_add])
  rw [forLoop_congr _ _ _ _ (fun i' hi' v => hcell i' hi' v)]
  exact forLoop_update_cells e.n_meshes e.n_species
    (fun i s (_ : ℚ) =>
      if rd e.mesh_chstt (i * e.n_species + s) ≠ 0 then 0
      else
        ∑ r in Finset.range e.n_reactions,
            rd e.sto (s * e.n_reactions + r) * e.toSimulationAlgorithmBase.ReactionRate m i r +
          ∑ n in Finset.range (rd e.mesh_neighbor_n i),
            -e.toSimulationAlgorithmGraphBase.DiffusionRateDifference i s n)
    e.mesh_dxdt hlen i s hi hs

end EulerGraph

/-- Method `DiffusionRate` of the grid at a mesh of the grid. -/
theorem SimulationAlgorithm3DBase.DiffusionRate_natCast (b : SimulationAlgorithm3DBase)
    (i s n : Nat) :
    b.DiffusionRate (i : Int) s n =
      rd b.mesh_x (i * b.n_species + s) * rd b.mesh_kd (i * b.n_species * 6 + s * 6 + n) := by
  unfold SimulationAlgorithm3DBase.DiffusionRate
  have e1 : ((i : Int) * (b.n_species : Int) + (s : Int)) = ((i * b.n_species + s : Nat) : Int) := by
    push_cast
    rfl
  have e2 : ((i : Int) * (b.n_species : Int) * 6 + (s : Int) * 6 + (n : Int)) =
      ((i * b.n_species * 6 + s * 6 + n : Nat) : Int) := by
    push_cast
    rfl
  rw [e1, e2, rdI_natCast, rdI_natCast]

/-- The cell `(i, s)` after one `Iterate` of `Euler3D` on an object that is not
complete: the cell before, plus `dt` times the derivative computed from the
state before. -/
theorem Euler3D.Iterate_cell (m : Libm) (e : Euler3D) (hc : e.complete = false)
    (hx : e.n_meshes * e.n_species ≤ e.mesh_x.length)
    (i s : Nat) (hi : i < e.n_meshes) (hs : s < e.n_species) :
    rd (e.Iterate m).2.mesh_x (i * e.n_species + s) =
      rd e.mesh_x (i * e.n_species + s) +
        rd (e.Compute_dxdt m).mesh_dxdt (i * e.n_species + s) * e.dt := by
  unfold Euler3D.Iterate
  dsimp only
  rw [if_neg (by rw [hc]; exact Bool.false_ne_true)]
  obtain ⟨sx, st, g, p, l, c, h⟩ := SimulationAlgorithmBase.SamplingStep_CheckTMax_frame
    { (Euler3D.Apply_dxdt (Euler3D.Compute_dxdt m
        { e with sampling_done_this_iteration := false })).toSimulationAlgorithmBase with
      t := (Euler3D.Apply_dxdt (Euler3D.Compute_dxdt m
          { e with sampling_done_this_iteration := false })).t +
        (Euler3D.Apply_dxdt (Euler3D.Compute_dxdt m
          { e with sampling_done_this_iteration := false })).dt }
  rw [h]
  exact Euler3D.Apply_dxdt_cell_euler3D
    (Euler3D.Compute_dxdt m { e with sampling_done_this_iteration := false }) hx i s hi hs

/-- The same for `EulerGraph`. -/
theorem EulerGraph.Iterate_cell_graph (m : Libm) (e : EulerGraph) (hc : e.complete = false)
    (hx : e.n_meshes * e.n_species ≤ e.mesh_x.length)
    (i s : Nat) (hi : i < e.n_meshes) (hs : s < e.n_species) :
    rd (e.Iterate m).2.mesh_x (i * e.n_species + s) =
      rd e.mesh_x (i * e.n_species + s) +
        rd (e.Compute_dxdt m).mesh_dxdt (i * e.n_species + s) * e.dt := by
  unfold EulerGraph.Iterate
  dsimp only
  rw [if_neg (by rw [hc]; exact Bool.false_ne_true)]
  obtain ⟨sx, st, g, p, l, c, h⟩ := SimulationAlgorithmBase.SamplingStep_CheckTMax_frame
    { (EulerGraph.Apply_dxdt (EulerGraph.Compute_dxdt m
        { e with sampling_done_this_iteration := false })).toSimulationAlgorithmBase with
      t := (EulerGraph.Apply_dxdt (EulerGraph.Compute_dxdt m
          { e with sampling_done_this_iteration := false })).t +
        (EulerGraph.Apply_dxdt (EulerGraph.Compute_dxdt m
          { e with sampling_done_this_iteration := false })).dt }
  rw [h]
  exact EulerGraph.Apply_dxdt_cell_eulerGraph
    (EulerGraph.Compute_dxdt m { e with sampling_done_this_iteration := false }) hx i s hi hs
/-- C32.  Exact arithmetic, with `pow` the `std::pow` of the library.  Take an
object of `Euler3D` or `EulerGraph` that is not complete and whose vectors
`mesh_x` and `mesh_dxdt` hold the `n_meshes * n_species` cells.  After one
`Iterate`, a chemostatted cell `(i, s)` holds what it held, and every other cell
holds `x[i,s] + dt * (R - F)`, where `R` is the sum over the reactions `r` of
`sto[s,r] * kr[i,r] * prod over s' of pow(x[i,s'], sub[s',r])` and `F` is the sum
over the neighbour slots `n` of `x[i,s] * kd_out - x[j,s] * kd_back`, with `j`
the neighbour in slot `n`: on the grid the slots are the directions whose
neighbour is not `-1`, `kd_out = mesh_kd[i,s,n]` and
`kd_back = mesh_kd[j,s,opposed[n]]`; on the graph the slots are the entries of
the list of `i`, `kd_out = mesh_kd_out[i][s,n]` and
`kd_back = mesh_kd_in[i][s,n]`.  Every `x` on the right is the state before the
call. -/
theorem C32_euler_step :
    (∀ (m : Libm) (e : Euler3D) (i s : Nat), e.complete = false →
      e.n_meshes * e.n_species ≤ e.mesh_x.length →
      e.n_meshes * e.n_species ≤ e.mesh_dxdt.length → i < e.n_meshes → s < e.n_species →
      (rd e.mesh_chstt (i * e.n_species + s) ≠ 0 →
        rd (e.Iterate m).2.mesh_x (i * e.n_species + s) = rd e.mesh_x (i * e.n_species + s)) ∧
      (rd e.mesh_chstt (i * e.n_species + s) = 0 →
        rd (e.Iterate m).2.mesh_x (i * e.n_species + s) =
          rd e.mesh_x (i * e.n_species + s) +
            e.dt *
              (∑ r in Finset.range e.n_reactions,
                  rd e.sto (s * e.n_reactions + r) *
                    (rd e.mesh_kr (i * e.n_reactions + r) *
                      ∏ s' in Finset.range e.n_species,
                        m.pow (rd e.mesh_x (i * e.n_species + s'))
                          (rd e.sub (s' * e.n_reactions + r))) -
                ∑ n in Finset.range 6,
                  (if rd e.mesh_neighbors (i * 6 + n) ≠ -1 then
                    rd e.mesh_x (i * e.n_species + s) *
                        rd e.mesh_kd (i * e.n_species * 6 + s * 6 + n) -
                      rdI e.mesh_x (rd e.mesh_neighbors (i * 6 + n) * e.n_species + s) *
                        rdI e.mesh_kd
                          (rd e.mesh_neighbors (i * 6 + n) * e.n_species * 6 + s * 6 +
                            rd e.opposed_direction n)
                   else 0)))) ∧
    (∀ (m : Libm) (e : EulerGraph) (i s : Nat), e.complete = false →
      e.n_meshes * e.n_species ≤ e.mesh_x.length →
      e.n_meshes * e.n_species ≤ e.mesh_dxdt.length → i < e.n_meshes → s < e.n_species →
      (rd e.mesh_chstt (i * e.n_species + s) ≠ 0 →
        rd (e.Iterate m).2.mesh_x (i * e.n_species + s) = rd e.mesh_x (i * e.n_species + s)) ∧
      (rd e.mesh_chstt (i * e.n_species + s) = 0 →
        rd (e.Iterate m).2.mesh_x (i * e.n_species + s) =
          rd e.mesh_x (i * e.n_species + s) +
            e.dt *
              (∑ r in Finset.range e.n_reactions,
                  rd e.sto (s * e.n_reactions + r) *
                    (rd e.mesh_kr (i * e.n_reactions + r) *
                      ∏ s' in Finset.range e.n_species,
                        m.pow (rd e.mesh_x (i * e.n_species + s'))
                          (rd e.sub (s' * e.n_reactions + r))) -
                ∑ n in Finset.range (rd e.mesh_neighbor_n i),
                  (rd e.mesh_x (i * e.n_species + s) *
                      rd (rdRow e.mesh_kd_out i) (s * rd e.mesh_neighbor_n i + n) -
                    rd e.mesh_x (rd (rdRow e.mesh_neighbor_index i) n * e.n_species + s) *
                      rd (rdRow e.mesh_kd_in i) (s * rd e.mesh_neighbor_n i + n))))) := by
  constructor
  · intro m e i s hc hx hd hi hs
    have h := Euler3D.Iterate_cell m e hc hx i s hi hs
    rw [Euler3D.Compute_dxdt_cell_general m e hd i s hi hs] at h
    refine ⟨fun hch => ?_, fun hch => ?_⟩
    · rw [h, if_pos hch, zero_mul, add_zero]
    · rw [h, if_neg (not_not.mpr hch)]
      have e1 : ∀ r, e.toSimulationAlgorithmBase.ReactionRate m i r =
          rd e.mesh_kr (i * e.n_reactions + r) *
            ∏ s' in Finset.range e.n_species,
              m.pow (rd e.mesh_x (i * e.n_species + s')) (rd e.sub (s' * e.n_reactions + r)) :=
        fun r => SimulationAlgorithmBase.ReactionRate_eq m e.toSimulationAlgorithmBase i r
      have e2 : ∀ n, (if rd e.mesh_neighbors (i * 6 + n) ≠ -1 then
            -e.toSimulationAlgorithm3DBase.DiffusionRateDifference i s n else 0) =
          -(if rd e.mesh_neighbors (i * 6 + n) ≠ -1 then
            rd e.mesh_x (i * e.n_species + s) *
                rd e.mesh_kd (i * e.n_species * 6 + s * 6 + n) -
              rdI e.mesh_x (rd e.mesh_neighbors (i * 6 + n) * e.n_species + s) *
                rdI e.mesh_kd
                  (rd e.mesh_neighbors (i * 6 + n) * e.n_species * 6 + s * 6 +
                    rd e.opposed_direction n)
           else 0) := by
        intro n
        split_ifs
        · unfold SimulationAlgorithm3DBase.DiffusionRateDifference
          rw [SimulationAlgorithm3DBase.DiffusionRate_natCast]
          rfl
        · exact neg_zero.symm
      simp only [e1, e2, Finset.sum_neg_distrib]
      ring
  · intro m e i s hc hx hd hi hs
    have h := EulerGraph.Iterate_cell_graph m e hc hx i s hi hs
    rw [EulerGraph.Compute_dxdt_cell_general_graph m e hd i s hi hs] at h
    refine ⟨fun hch => ?_, fun hch => ?_⟩
    · rw [h, if_pos hch, zero_mul, add_zero]
    · rw [h, if_neg (not_not.mpr hch)]
      have e1 : ∀ r, e.toSimulationAlgorithmBase.ReactionRate m i r =
          rd e.mesh_kr (i * e.n_reactions + r) *
            ∏ s' in Finset.range e.n_species,
              m.pow (rd e.mesh_x (i * e.n_species + s')) (rd e.sub (s' * e.n_reactions + r)) :=
        fun r => SimulationAlgorithmBase.ReactionRate_eq m e.toSimulationAlgorithmBase i r
      unfold SimulationAlgorithmGraphBase.DiffusionRateDifference
      simp only [e1, Finset.sum_neg_distrib]
      ring

/-- C32 on scenario S5 (`x = [100, 0]`, mesh `0` chemostatted, `D = 1`, the
reaction `A -> 0` with `k = 1`, `dt = 1/10`): after one `Iterate` mesh `0` holds
`100` and mesh `1` holds `0 + (1/10) * (0 - (0 * 1 - 100 * 1)) = 10`, on the
grid and on the graph. -/
theorem C32_euler_step_witness :
    (rd (chemostatEuler3D.Iterate scenarioLibm).2.mesh_x (0 * chemostatEuler3D.n_species + 0) =
        100 ∧
      rd (chemostatEuler3D.Iterate scenarioLibm).2.mesh_x (1 * chemostatEuler3D.n_species + 0) =
        10) ∧
    (rd (chemostatEulerGraph.Iterate scenarioLibm).2.mesh_x
        (0 * chemostatEulerGraph.n_species + 0) = 100 ∧
      rd (chemostatEulerGraph.Iterate scenarioLibm).2.mesh_x
        (1 * chemostatEulerGraph.n_species + 0) = 10) :=
  ⟨⟨((C32_euler_step.1 scenarioLibm chemostatEuler3D 0 0 (by decide!) (by decide!) (by decide!)
        (by decide!) (by decide!)).1 (by decide!)).trans (by decide!),
    ((C32_euler_step.1 scenarioLibm chemostatEuler3D 1 0 (by decide!) (by decide!) (by decide!)
        (by decide!) (by decide!)).2 (by decide!)).trans (by decide!)⟩,
   ⟨((C32_euler_step.2 scenarioLibm chemostatEulerGraph 0 0 (by decide!) (by decide!)
        (by decide!) (by decide!) (by decide!)).1 (by decide!)).trans (by decide!),
    ((C32_euler_step.2 scenarioLibm chemostatEulerGraph 1 0 (by decide!) (by decide!)
        (by decide!) (by decide!) (by decide!)).2 (by decide!)).trans (by decide!)⟩⟩

/-! ## C33: the tau-leap step -/

theorem AddsAt.skip (L c : Nat) : AddsAt L c (fun v => v) 0 :=
  fun _ hv => ⟨hv, (add_zero _).symm⟩

theorem AddsAt.write (L c : Nat) (hc : c < L) (k : Nat) (a : ℚ) :
    AddsAt L c (fun v => wr v k (rd v k + a)) (if k = c then a else 0) := by
  intro v hv
  refine ⟨by rw [length_wr, hv], ?_⟩
  by_cases h : k = c
  · subst h
    rw [if_pos rfl, rd_wr_self _ _ (by rw [hv]; exact hc)]
  · rw [if_neg h, rd_wr_ne _ _ h, add_zero]

theorem AddsAt.writeI (L c : Nat) (hc : c < L) (k : Int) (a : ℚ) :
    AddsAt L c (fun v => wrI v k (rdI v k + a)) (if k = (c : Int) then a else 0) := by
  intro v hv
  by_cases h0 : 0 ≤ k
  · have e1 : wrI v k (rdI v k + a) = wr v k.toNat (rd v k.toNat + a) := by
      unfold wrI rdI
      rw [if_pos h0, if_pos h0]
    have e2 : (k = (c : Int)) ↔ (k.toNat = c) := by omega
    rw [show (fun v => wrI v k (rdI v k + a)) v = wr v k.toNat (rd v k.toNat + a) from e1]
    have h := AddsAt.write L c hc k.toNat a v hv
    by_cases h1 : k = (c : Int)
    · rw [if_pos h1]
      rw [if_pos (e2.mp h1)] at h
      exact h
    · rw [if_neg h1]
      rw [if_neg (fun hh => h1 (e2.mpr hh))] at h
      exact h
  · have e1 : wrI v k (rdI v k + a) = v := by
      unfold wrI
      rw [if_neg h0]
    rw [show (fun v => wrI v k (rdI v k + a)) v = v from e1,
      if_neg (by omega : ¬ k = (c : Int)), add_zero]
    exact ⟨hv, rfl⟩

theorem AddsAt.comp {L c : Nat} (f g : List ℚ → List ℚ) (δ1 δ2 : ℚ) (hf : AddsAt L c f δ1)
    (hg : AddsAt L c g δ2) : AddsAt L c (fun v => g (f v)) (δ1 + δ2) := by
  intro v hv
  obtain ⟨l1, r1⟩ := hf v hv
  obtain ⟨l2, r2⟩ := hg (f v) l1
  exact ⟨l2, by rw [r2, r1, add_assoc]⟩

theorem AddsAt.branch {L c : Nat} (p : Prop) [Decidable p] (f g : List ℚ → List ℚ) (δ1 δ2 : ℚ)
    (hf : AddsAt L c f δ1) (hg : AddsAt L c g δ2) :
    AddsAt L c (fun v => if p then f v else g v) (if p then δ1 else δ2) := by
  intro v hv
  by_cases h : p
  · simp only [if_pos h]
    exact hf v hv
  · simp only [if_neg h]
    exact hg v hv

theorem AddsAt.loop {L c : Nat} (N : Nat) (body : Nat → List ℚ → List ℚ) (δ : Nat → ℚ)
    (h : ∀ k, k < N → AddsAt L c (body k) (δ k)) :
    AddsAt L c (fun v => forLoop N body v) (∑ k in Finset.range N, δ k) := by
  intro v hv
  induction N with
  | zero => exact ⟨hv, by simp⟩
  | succ N ih =>
    obtain ⟨l1, r1⟩ := ih (fun k hk => h k (Nat.lt_succ_of_lt hk))
    obtain ⟨l2, r2⟩ := h N (Nat.lt_succ_self N) _ l1
    show (forLoop (N + 1) body v).length = L ∧ rd (forLoop (N + 1) body v) c = _
    rw [forLoop_succ, Finset.sum_range_succ]
    exact ⟨l2, by rw [r2, r1, add_assoc]⟩

/-- A mesh-major cell index read as a signed index. -/
theorem flat_index_int {m s s0 i0 : Nat} (j : Int) (hs : s < m) (hs0 : s0 < m) :
    j * (m : Int) + (s : Int) = ((i0 * m + s0 : Nat) : Int) ↔ j = (i0 : Int) ∧ s = s0 := by
  constructor
  · intro h
    push_cast at h
    have h1 : (j - i0) * (m : Int) = (s0 : Int) - (s : Int) := by linarith
    have h2 : j - i0 = 0 := by
      by_contra hne
      have h3 : (1 : Int) ≤ |j - i0| := Int.one_le_abs hne
      have h4 : |(j - (i0 : Int)) * (m : Int)| = |j - i0| * (m : Int) := by
        rw [abs_mul, abs_of_nonneg (Int.natCast_nonneg m)]
      have h5 : |(s0 : Int) - (s : Int)| < (m : Int) := by
        rw [abs_lt]
        constructor <;> omega
      rw [← h1, h4] at h5
      nlinarith [Int.natCast_nonneg m]
    have h6 : j = i0 := by omega
    refine ⟨h6, ?_⟩
    rw [h2, zero_mul] at h1
    omega
  · rintro ⟨h1, h2⟩
    subst h1 h2
    push_cast
    rfl

namespace TauLeap3D

/-- What `Apply_nevt` of the grid adds to the cell `c`: for every mesh `i`, the
reactions of `i` that act on `c`, the molecules that leave `c` from `i`, and
the molecules that arrive in `c` from `i`. -/
theorem Apply_nevt_adds (e : TauLeap3D) (c : Nat) (hc : c < e.mesh_x.length) :
    rd e.Apply_nevt.mesh_x c = rd e.mesh_x c +
      ∑ i in Finset.range e.n_meshes,
        (∑ r in Finset.range e.n_reactions, ∑ j in Finset.range e.n_species,
            (if rd e.mesh_chstt (i * e.n_species + j) ≠ 0 then 0
              else if i * e.n_species + j = c then
                rd e.sto (j * e.n_reactions + r) *
                  ((rd e.mesh_nr (i * e.n_reactions + r) : Int) : ℚ)
              else 0) +
          ∑ s in Finset.range e.n_species, ∑ n in Finset.range 6,
            (if rd e.mesh_nd (i * 6 * e.n_species + s * 6 + n) = 0 then 0
              else
                (if ¬ (rd e.mesh_chstt (i * e.n_species + s) ≠ 0) then
                    (if i * e.n_species + s = c then
                      -((rd e.mesh_nd (i * 6 * e.n_species + s * 6 + n) : Int) : ℚ) else 0)
                  else 0) +
                (if ¬ (rdI e.mesh_chstt (rd e.mesh_neighbors (i * 6 + n) * e.n_species + s) ≠ 0)
                  then
                    (if rd e.mesh_neighbors (i * 6 + n) * e.n_species + s = (c : Int) then
                      ((rd e.mesh_nd (i * 6 * e.n_species + s * 6 + n) : Int) : ℚ) else 0)
                  else 0))) := by
  unfold Apply_nevt
  dsimp only
  refine (AddsAt.loop e.n_meshes _ _ (fun i _ => ?_) e.mesh_x rfl).2
  refine AddsAt.comp _ _ _ _ ?_ ?_
  · refine AddsAt.loop e.n_reactions _ _ (fun r _ => ?_)
    refine AddsAt.loop e.n_species _ _ (fun j _ => ?_)
    exact AddsAt.branch _ _ _ _ _ (AddsAt.skip _ _) (AddsAt.write _ _ hc _ _)
  · refine AddsAt.loop e.n_species _ _ (fun s _ => ?_)
    refine AddsAt.loop 6 _ _ (fun n _ => ?_)
    refine AddsAt.branch _ _ _ _ _ (AddsAt.skip _ _) ?_
    refine AddsAt.comp
      (fun v => if ¬ (rd e.mesh_chstt (i * e.n_species + s) ≠ 0) then
        wr v (i * e.n_species + s) (rd v (i * e.n_species + s) -
          ((rd e.mesh_nd (i * 6 * e.n_species + s * 6 + n) : Int) : ℚ)) else v)
      (fun v =>
        if ¬ (rdI e.mesh_chstt (rd e.mesh_neighbors (i * 6 + n) * e.n_species + s) ≠ 0) then
          wrI v (rd e.mesh_neighbors (i * 6 + n) * e.n_species + s)
            (rdI v (rd e.mesh_neighbors (i * 6 + n) * e.n_species + s) +
              ((rd e.mesh_nd (i * 6 * e.n_species + s * 6 + n) : Int) : ℚ))
        else v) _ _ ?_ ?_
    · refine AddsAt.branch _ _ _ _ _ ?_ (AddsAt.skip _ _)
      intro v hv
      have h := AddsAt.write e.mesh_x.length c hc (i * e.n_species + s)
        (-((rd e.mesh_nd (i * 6 * e.n_species + s * 6 + n) : Int) : ℚ)) v hv
      simp only [← sub_eq_add_neg] at h
      exact h
    · exact AddsAt.branch _ _ _ _ _ (AddsAt.writeI _ _ hc _ _) (AddsAt.skip _ _)

end TauLeap3D

namespace TauLeap3D

/-- The cell `(i0, s0)` after `Apply_nevt` of the grid, when it is not
chemostatted: the reactions of the mesh, minus the molecules that leave in the
six directions, plus the molecules that arrive from the slots whose neighbour
is `i0`. -/
theorem Apply_nevt_cell (e : TauLeap3D) (hx : e.n_meshes * e.n_species ≤ e.mesh_x.length)
    (i0 s0 : Nat) (hi0 : i0 < e.n_meshes) (hs0 : s0 < e.n_species)
    (hch : rd e.mesh_chstt (i0 * e.n_species + s0) = 0) :
    rd e.Apply_nevt.mesh_x (i0 * e.n_species + s0) =
      rd e.mesh_x (i0 * e.n_species + s0) +
        ∑ r in Finset.range e.n_reactions,
          rd e.sto (s0 * e.n_reactions + r) *
            ((rd e.mesh_nr (i0 * e.n_reactions + r) : Int) : ℚ) -
        ∑ n in Finset.range 6,
          ((rd e.mesh_nd (i0 * 6 * e.n_species + s0 * 6 + n) : Int) : ℚ) +
        ∑ j in Finset.range e.n_meshes, ∑ m in Finset.range 6,
          (if rd e.mesh_neighbors (j * 6 + m) = (i0 : Int) then
            ((rd e.mesh_nd (j * 6 * e.n_species + s0 * 6 + m) : Int) : ℚ) else 0) := by
  have hc : i0 * e.n_species + s0 < e.mesh_x.length :=
    Nat.lt_of_lt_of_le (flat_index_lt hi0 hs0) hx
  rw [Apply_nevt_adds e _ hc, Finset.sum_add_distrib]
  have hA : ∑ i in Finset.range e.n_meshes, ∑ r in Finset.range e.n_reactions,
      ∑ j in Finset.range e.n_species,
        (if rd e.mesh_chstt (i * e.n_species + j) ≠ 0 then 0
          else if i * e.n_species + j = i0 * e.n_species + s0 then
            rd e.sto (j * e.n_reactions + r) *
              ((rd e.mesh_nr (i * e.n_reactions + r) : Int) : ℚ)
          else 0) =
      ∑ r in Finset.range e.n_reactions,
        rd e.sto (s0 * e.n_reactions + r) *
          ((rd e.mesh_nr (i0 * e.n_reactions + r) : Int) : ℚ) := by
    rw [Finset.sum_eq_single i0]
    · refine Finset.sum_congr rfl (fun r _ => ?_)
      rw [Finset.sum_eq_single s0]
      · rw [if_neg (not_not.mpr hch), if_pos rfl]
      · intro j hj hne
        rw [if_neg (fun h => hne (flat_index_inj (Finset.mem_range.mp hj) hs0 h).2)]
        split_ifs <;> rfl
      · intro h
        exact absurd (Finset.mem_range.mpr hs0) h
    · intro i _ hne
      refine Finset.sum_eq_zero (fun r _ => Finset.sum_eq_zero (fun j hj => ?_))
      rw [if_neg (fun h => hne (flat_index_inj (Finset.mem_range.mp hj) hs0 h).1)]
      split_ifs <;> rfl
    · intro h
      exact absurd (Finset.mem_range.mpr hi0) h
  have hcell : ∀ i s n, s < e.n_species →
      (if rd e.mesh_nd (i * 6 * e.n_species + s * 6 + n) = 0 then (0 : ℚ)
        else
          (if ¬ (rd e.mesh_chstt (i * e.n_species + s) ≠ 0) then
              (if i * e.n_species + s = i0 * e.n_species + s0 then
                -((rd e.mesh_nd (i * 6 * e.n_species + s * 6 + n) : Int) : ℚ) else 0)
            else 0) +
          (if ¬ (rdI e.mesh_chstt (rd e.mesh_neighbors (i * 6 + n) * e.n_species + s) ≠ 0)
            then
              (if rd e.mesh_neighbors (i * 6 + n) * e.n_species + s =
                  ((i0 * e.n_species + s0 : Nat) : Int) then
                ((rd e.mesh_nd (i * 6 * e.n_species + s * 6 + n) : Int) : ℚ) else 0)
            else 0)) =
      (if i = i0 ∧ s = s0 then
          -((rd e.mesh_nd (i * 6 * e.n_species + s * 6 + n) : Int) : ℚ) else 0) +
        (if rd e.mesh_neighbors (i * 6 + n) = (i0 : Int) ∧ s = s0 then
          ((rd e.mesh_nd (i * 6 * e.n_species + s * 6 + n) : Int) : ℚ) else 0) := by
    intro i s n hs
    by_cases h0 : rd e.mesh_nd (i * 6 * e.n_species + s * 6 + n) = 0
    · rw [if_pos h0, h0]
      simp
    · rw [if_neg h0]
      congr 1
      · by_cases h1 : i = i0 ∧ s = s0
        · obtain ⟨h1, h2⟩ := h1
          subst h1 h2
          rw [if_pos (not_not.mpr hch), if_pos rfl, if_pos ⟨rfl, rfl⟩]
        · rw [if_neg h1, if_neg (fun h => h1 (flat_index_inj hs hs0 h))]
          split_ifs <;> rfl
      · by_cases h1 : rd e.mesh_neighbors (i * 6 + n) = (i0 : Int) ∧ s = s0
        · have h2 := (flat_index_int (rd e.mesh_neighbors (i * 6 + n)) hs hs0).mpr h1
          rw [if_pos h1, if_pos h2, h2, rdI_natCast, if_pos (not_not.mpr hch)]
        · rw [if_neg h1, if_neg (fun h => h1 ((flat_index_int _ hs hs0).mp h))]
          split_ifs <;> rfl
  have hB : ∑ i in Finset.range e.n_meshes, ∑ s in Finset.range e.n_species,
      ∑ n in Finset.range 6,
        (if rd e.mesh_nd (i * 6 * e.n_species + s * 6 + n) = 0 then (0 : ℚ)
          else
            (if ¬ (rd e.mesh_chstt (i * e.n_species + s) ≠ 0) then
                (if i * e.n_species + s = i0 * e.n_species + s0 then
                  -((rd e.mesh_nd (i * 6 * e.n_species + s * 6 + n) : Int) : ℚ) else 0)
              else 0) +
            (if ¬ (rdI e.mesh_chstt (rd e.mesh_neighbors (i * 6 + n) * e.n_species + s) ≠ 0)
              then
                (if rd e.mesh_neighbors (i * 6 + n) * e.n_species + s =
                    ((i0 * e.n_species + s0 : Nat) : Int) then
                  ((rd e.mesh_nd (i * 6 * e.n_species + s * 6 + n) : Int) : ℚ) else 0)
              else 0)) =
      -∑ n in Finset.range 6,
          ((rd e.mesh_nd (i0 * 6 * e.n_species + s0 * 6 + n) : Int) : ℚ) +
        ∑ j in Finset.range e.n_meshes, ∑ m in Finset.range 6,
          (if rd e.mesh_neighbors (j * 6 + m) = (i0 : Int) then
            ((rd e.mesh_nd (j * 6 * e.n_species + s0 * 6 + m) : Int) : ℚ) else 0) := by
    have e1 : ∀ i ∈ Finset.range e.n_meshes, ∑ s in Finset.range e.n_species,
        ∑ n in Finset.range 6,
          (if rd e.mesh_nd (i * 6 * e.n_species + s * 6 + n) = 0 then (0 : ℚ)
            else
              (if ¬ (rd e.mesh_chstt (i * e.n_species + s) ≠ 0) then
                  (if i * e.n_species + s = i0 * e.n_species + s0 then
                    -((rd e.mesh_nd (i * 6 * e.n_species + s * 6 + n) : Int) : ℚ) else 0)
                else 0) +
              (if ¬ (rdI e.mesh_chstt (rd e.mesh_neighbors (i * 6 + n) * e.n_species + s) ≠ 0)
                then
                  (if rd e.mesh_neighbors (i * 6 + n) * e.n_species + s =
                      ((i0 * e.n_species + s0 : Nat) : Int) then
                    ((rd e.mesh_nd (i * 6 * e.n_species + s * 6 + n) : Int) : ℚ) else 0)
                else 0)) =
        (if i = i0 then
            -∑ n in Finset.range 6,
              ((rd e.mesh_nd (i0 * 6 * e.n_species + s0 * 6 + n) : Int) : ℚ) else 0) +
          ∑ m in Finset.range 6,
            (if rd e.mesh_neighbors (i * 6 + m) = (i0 : Int) then
              ((rd e.mesh_nd (i * 6 * e.n_species + s0 * 6 + m) : Int) : ℚ) else 0) := by
      intro i _
      rw [Finset.sum_congr rfl (fun s hs => Finset.sum_congr rfl
        (fun n _ => hcell i s n (Finset.mem_range.mp hs)))]
      simp only [Finset.sum_add_distrib]
      congr 1
      · by_cases hi : i = i0
        · subst hi
          rw [if_pos rfl, Finset.sum_eq_single s0]
          · rw [← Finset.sum_neg_distrib]
            exact Finset.sum_congr rfl (fun n _ => if_pos ⟨rfl, rfl⟩)
          · intro s _ hne
            exact Finset.sum_eq_zero (fun n _ => if_neg (fun h => hne h.2))
          · intro h
            exact absurd (Finset.mem_range.mpr hs0) h
        · rw [if_neg hi]
          exact Finset.sum_eq_zero (fun s _ => Finset.sum_eq_zero
            (fun n _ => if_neg (fun h => hi h.1)))
      · rw [Finset.sum_eq_single s0]
        · refine Finset.sum_congr rfl (fun n _ => ?_)
          by_cases h : rd e.mesh_neighbors (i * 6 + n) = (i0 : Int)
          · rw [if_pos ⟨h, rfl⟩, if_pos h]
          · rw [if_neg (fun hh => h hh.1), if_neg h]
        · intro s _ hne
          exact Finset.sum_eq_zero (fun n _ => if_neg (fun h => hne h.2))
        · intro h
          exact absurd (Finset.mem_range.mpr hs0) h
    rw [Finset.sum_congr rfl e1, Finset.sum_add_distrib, Finset.sum_ite_eq' (Finset.range _) i0,
      if_pos (Finset.mem_range.mpr hi0)]
  push_cast at hB ⊢
  rw [hA, hB]
  ring

end TauLeap3D

namespace TauLeapGraph

/-- What `Apply_nevt` of the graph adds to the cell `c`. -/
theorem Apply_nevt_adds_graph (e : TauLeapGraph) (c : Nat) (hc : c < e.mesh_x.length) :
    rd e.Apply_nevt.mesh_x c = rd e.mesh_x c +
      ∑ i in Finset.range e.n_meshes,
        (∑ r in Finset.range e.n_reactions, ∑ j in Finset.range e.n_species,
            (if rd e.mesh_chstt (i * e.n_species + j) ≠ 0 then 0
              else if i * e.n_species + j = c then
                rd e.sto (j * e.n_reactions + r) *
                  ((rd e.mesh_nr (i * e.n_reactions + r) : Int) : ℚ)
              else 0) +
          ∑ s in Finset.range e.n_species, ∑ n in Finset.range (rd e.mesh_neighbor_n i),
            (if rd (rdRow e.mesh_nd i) (s * rd e.mesh_neighbor_n i + n) = 0 then 0
              else
                (if ¬ (rd e.mesh_chstt (i * e.n_species + s) ≠ 0) then
                    (if i * e.n_species + s = c then
                      -((rd (rdRow e.mesh_nd i) (s * rd e.mesh_neighbor_n i + n) : Int) : ℚ)
                      else 0)
                  else 0) +
                (if ¬ (rd e.mesh_chstt
                    (rd (rdRow e.mesh_neighbor_index i) n * e.n_species + s) ≠ 0) then
                    (if rd (rdRow e.mesh_neighbor_index i) n * e.n_species + s = c then
                      ((rd (rdRow e.mesh_nd i) (s * rd e.mesh_neighbor_n i + n) : Int) : ℚ)
                      else 0)
                  else 0))) := by
  unfold Apply_nevt
  dsimp only
  refine (AddsAt.loop e.n_meshes _ _ (fun i _ => ?_) e.mesh_x rfl).2
  refine AddsAt.comp _ _ _ _ ?_ ?_
  · refine AddsAt.loop e.n_reactions _ _ (fun r _ => ?_)
    refine AddsAt.loop e.n_species _ _ (fun j _ => ?_)
    exact AddsAt.branch _ _ _ _ _ (AddsAt.skip _ _) (AddsAt.write _ _ hc _ _)
  · refine AddsAt.loop e.n_species _ _ (fun s _ => ?_)
    refine AddsAt.loop (rd e.mesh_neighbor_n i) _ _ (fun n _ => ?_)
    refine AddsAt.branch _ _ _ _ _ (AddsAt.skip _ _) ?_
    refine AddsAt.comp
      (fun v => if ¬ (rd e.mesh_chstt (i * e.n_species + s) ≠ 0) then
        wr v (i * e.n_species + s) (rd v (i * e.n_species + s) -
          ((rd (rdRow e.mesh_nd i) (s * rd e.mesh_neighbor_n i + n) : Int) : ℚ)) else v)
      (fun v =>
        if ¬ (rd e.mesh_chstt (rd (rdRow e.mesh_neighbor_index i) n * e.n_species + s) ≠ 0) then
          wr v (rd (rdRow e.mesh_neighbor_index i) n * e.n_species + s)
            (rd v (rd (rdRow e.mesh_neighbor_index i) n * e.n_species + s) +
              ((rd (rdRow e.mesh_nd i) (s * rd e.mesh_neighbor_n i + n) : Int) : ℚ))
        else v) _ _ ?_ ?_
    · refine AddsAt.branch _ _ _ _ _ ?_ (AddsAt.skip _ _)
      intro v hv
      have h := AddsAt.write e.mesh_x.length c hc (i * e.n_species + s)
        (-((rd (rdRow e.mesh_nd i) (s * rd e.mesh_neighbor_n i + n) : Int) : ℚ)) v hv
      simp only [← sub_eq_add_neg] at h
      exact h
    · exact AddsAt.branch _ _ _ _ _ (AddsAt.write _ _ hc _ _) (AddsAt.skip _ _)

/-- The cell `(i0, s0)` after `Apply_nevt` of the graph, when it is not
chemostatted: the reactions of the node, minus the molecules that leave through
the slots of the node, plus the molecules that arrive from the slots whose
neighbour is `i0`. -/
theorem Apply_nevt_cell_graph (e : TauLeapGraph)
    (hx : e.n_meshes * e.n_species ≤ e.mesh_x.length)
    (i0 s0 : Nat) (hi0 : i0 < e.n_meshes) (hs0 : s0 < e.n_species)
    (hch : rd e.mesh_chstt (i0 * e.n_species + s0) = 0) :
    rd e.Apply_nevt.mesh_x (i0 * e.n_species + s0) =
      rd e.mesh_x (i0 * e.n_species + s0) +
        ∑ r in Finset.range e.n_reactions,
          rd e.sto (s0 * e.n_reactions + r) *
            ((rd e.mesh_nr (i0 * e.n_reactions + r) : Int) : ℚ) -
        ∑ n in Finset.range (rd e.mesh_neighbor_n i0),
          ((rd (rdRow e.mesh_nd i0) (s0 * rd e.mesh_neighbor_n i0 + n) : Int) : ℚ) +
        ∑ j in Finset.range e.n_meshes, ∑ m in Finset.range (rd e.mesh_neighbor_n j),
          (if rd (rdRow e.mesh_neighbor_index j) m = i0 then
            ((rd (rdRow e.mesh_nd j) (s0 * rd e.mesh_neighbor_n j + m) : Int) : ℚ) else 0) := by
  have hc : i0 * e.n_species + s0 < e.mesh_x.length :=
    Nat.lt_of_lt_of_le (flat_index_lt hi0 hs0) hx
  rw [Apply_nevt_adds_graph e _ hc, Finset.sum_add_distrib]
  have hA : ∑ i in Finset.range e.n_meshes, ∑ r in Finset.range e.n_reactions,
      ∑ j in Finset.range e.n_species,
        (if rd e.mesh_chstt (i * e.n_species + j) ≠ 0 then 0
          else if i * e.n_species + j = i0 * e.n_species + s0 then
            rd e.sto (j * e.n_reactions + r) *
              ((rd e.mesh_nr (i * e.n_reactions + r) : Int) : ℚ)
          else 0) =
      ∑ r in Finset.range e.n_reactions,
        rd e.sto (s0 * e.n_reactions + r) *
          ((rd e.mesh_nr (i0 * e.n_reactions + r) : Int) : ℚ) := by
    rw [Finset.sum_eq_single i0]
    · refine Finset.sum_congr rfl (fun r _ => ?_)
      rw [Finset.sum_eq_single s0]
      · rw [if_neg (not_not.mpr hch), if_pos rfl]
      · intro j hj hne
        rw [if_neg (fun h => hne (flat_index_inj (Finset.mem_range.mp hj) hs0 h).2)]
        split_ifs <;> rfl
      · intro h
        exact absurd (Finset.mem_range.mpr hs0) h
    · intro i _ hne
      refine Finset.sum_eq_zero (fun r _ => Finset.sum_eq_zero (fun j hj => ?_))
      rw [if_neg (fun h => hne (flat_index_inj (Finset.mem_range.mp hj) hs0 h).1)]
      split_ifs <;> rfl
    · intro h
      exact absurd (Finset.mem_range.mpr hi0) h
  have hcell : ∀ i s n, s < e.n_species →
      (if rd (rdRow e.mesh_nd i) (s * rd e.mesh_neighbor_n i + n) = 0 then (0 : ℚ)
        else
          (if ¬ (rd e.mesh_chstt (i * e.n_species + s) ≠ 0) then
              (if i * e.n_species + s = i0 * e.n_species + s0 then
                -((rd (rdRow e.mesh_nd i) (s * rd e.mesh_neighbor_n i + n) : Int) : ℚ) else 0)
            else 0) +
          (if ¬ (rd e.mesh_chstt
              (rd (rdRow e.mesh_neighbor_index i) n * e.n_species + s) ≠ 0) then
              (if rd (rdRow e.mesh_neighbor_index i) n * e.n_species + s =
                  i0 * e.n_species + s0 then
                ((rd (rdRow e.mesh_nd i) (s * rd e.mesh_neighbor_n i + n) : Int) : ℚ) else 0)
            else 0)) =
      (if i = i0 ∧ s = s0 then
          -((rd (rdRow e.mesh_nd i) (s * rd e.mesh_neighbor_n i + n) : Int) : ℚ) else 0) +
        (if rd (rdRow e.mesh_neighbor_index i) n = i0 ∧ s = s0 then
          ((rd (rdRow e.mesh_nd i) (s * rd e.mesh_neighbor_n i + n) : Int) : ℚ) else 0) := by
    intro i s n hs
    by_cases h0 : rd (rdRow e.mesh_nd i) (s * rd e.mesh_neighbor_n i + n) = 0
    · rw [if_pos h0, h0]
      simp
    · rw [if_neg h0]
      congr 1
      · by_cases h1 : i = i0 ∧ s = s0
        · obtain ⟨h1, h2⟩ := h1
          subst h1 h2
          rw [if_pos (not_not.mpr hch), if_pos rfl, if_pos ⟨rfl, rfl⟩]
        · rw [if_neg h1, if_neg (fun h => h1 (flat_index_inj hs hs0 h))]
          split_ifs <;> rfl
      · by_cases h1 : rd (rdRow e.mesh_neighbor_index i) n = i0 ∧ s = s0
        · have h2 : rd (rdRow e.mesh_neighbor_index i) n * e.n_species + s =
              i0 * e.n_species + s0 := by rw [h1.1, h1.2]
          rw [if_pos h1, if_pos h2, h2, if_pos (not_not.mpr hch)]
        · rw [if_neg h1, if_neg (fun h => h1 (flat_index_inj hs hs0 h))]
          split_ifs <;> rfl
  have hB : ∑ i in Finset.range e.n_meshes, ∑ s in Finset.range e.n_species,
      ∑ n in Finset.range (rd e.mesh_neighbor_n i),
        (if rd (rdRow e.mesh_nd i) (s * rd e.mesh_neighbor_n i + n) = 0 then (0 : ℚ)
          else
            (if ¬ (rd e.mesh_chstt (i * e.n_species + s) ≠ 0) then
                (if i * e.n_species + s = i0 * e.n_species + s0 then
                  -((rd (rdRow e.mesh_nd i) (s * rd e.mesh_neighbor_n i + n) : Int) : ℚ)
                  else 0)
              else 0) +
            (if ¬ (rd e.mesh_chstt
                (rd (rdRow e.mesh_neighbor_index i) n * e.n_species + s) ≠ 0) then
                (if rd (rdRow e.mesh_neighbor_index i) n * e.n_species + s =
                    i0 * e.n_species + s0 then
                  ((rd (rdRow e.mesh_nd i) (s * rd e.mesh_neighbor_n i + n) : Int) : ℚ)
                  else 0)
              else 0)) =
      -∑ n in Finset.range (rd e.mesh_neighbor_n i0),
          ((rd (rdRow e.mesh_nd i0) (s0 * rd e.mesh_neighbor_n i0 + n) : Int) : ℚ) +
        ∑ j in Finset.range e.n_meshes, ∑ m in Finset.range (rd e.mesh_neighbor_n j),
          (if rd (rdRow e.mesh_neighbor_index j) m = i0 then
            ((rd (rdRow e.mesh_nd j) (s0 * rd e.mesh_neighbor_n j + m) : Int) : ℚ) else 0) := by
    have e1 : ∀ i ∈ Finset.range e.n_meshes, ∑ s in Finset.range e.n_species,
        ∑ n in Finset.range (rd e.mesh_neighbor_n i),
          (if rd (rdRow e.mesh_nd i) (s * rd e.mesh_neighbor_n i + n) = 0 then (0 : ℚ)
            else
              (if ¬ (rd e.mesh_chstt (i * e.n_species + s) ≠ 0) then
                  (if i * e.n_species + s = i0 * e.n_species + s0 then
                    -((rd (rdRow e.mesh_nd i) (s * rd e.mesh_neighbor_n i + n) : Int) : ℚ)
                    else 0)
                else 0) +
              (if ¬ (rd e.mesh_chstt
                  (rd (rdRow e.mesh_neighbor_index i) n * e.n_species + s) ≠ 0) then
                  (if rd (rdRow e.mesh_neighbor_index i) n * e.n_species + s =
                      i0 * e.n_species + s0 then
                    ((rd (rdRow e.mesh_nd i) (s * rd e.mesh_neighbor_n i + n) : Int) : ℚ)
                    else 0)
                else 0)) =
        (if i = i0 then
            -∑ n in Finset.range (rd e.mesh_neighbor_n i0),
              ((rd (rdRow e.mesh_nd i0) (s0 * rd e.mesh_neighbor_n i0 + n) : Int) : ℚ)
            else 0) +
          ∑ m in Finset.range (rd e.mesh_neighbor_n i),
            (if rd (rdRow e.mesh_neighbor_index i) m = i0 then
              ((rd (rdRow e.mesh_nd i) (s0 * rd e.mesh_neighbor_n i + m) : Int) : ℚ)
              else 0) := by
      intro i _
      rw [Finset.sum_congr rfl (fun s hs => Finset.sum_congr rfl
        (fun n _ => hcell i s n (Finset.mem_range.mp hs)))]
      simp only [Finset.sum_add_distrib]
      congr 1
      · by_cases hi : i = i0
        · subst hi
          rw [if_pos rfl, Finset.sum_eq_single s0]
          · rw [← Finset.sum_neg_distrib]
            exact Finset.sum_congr rfl (fun n _ => if_pos ⟨rfl, rfl⟩)
          · intro s _ hne
            exact Finset.sum_eq_zero (fun n _ => if_neg (fun h => hne h.2))
          · intro h
            exact absurd (Finset.mem_range.mpr hs0) h
        · rw [if_neg hi]
          exact Finset.sum_eq_zero (fun s _ => Finset.sum_eq_zero
            (fun n _ => if_neg (fun h => hi h.1)))
      · rw [Finset.sum_eq_single s0]
        · refine Finset.sum_congr rfl (fun n _ => ?_)
          by_cases h : rd (rdRow e.mesh_neighbor_index i) n = i0
          · rw [if_pos ⟨h, rfl⟩, if_pos h]
          · rw [if_neg (fun hh => h hh.1), if_neg h]
        · intro s _ hne
          exact Finset.sum_eq_zero (fun n _ => if_neg (fun h => hne h.2))
        · intro h
          exact absurd (Finset.mem_range.mpr hs0) h
    rw [Finset.sum_congr rfl e1, Finset.sum_add_distrib, Finset.sum_ite_eq' (Finset.range _) i0,
      if_pos (Finset.mem_range.mpr hi0)]
  rw [hA, hB]
  ring

end TauLeapGraph

namespace TauLeap3D

/-- Method `Compute_nevt` of the grid does not read the guard of the
sampling. -/
theorem Compute_nevt_guard (e : TauLeap3D) (v : Bool) :
    TauLeap3D.Compute_nevt { e with sampling_done_this_iteration := v } =
      { e.Compute_nevt with sampling_done_this_iteration := v } := by
  have hrp : ∀ i r, SimulationAlgorithmBase.ReactionProp
      ({ e with sampling_done_this_iteration := v } : TauLeap3D).toSimulationAlgorithmBase i r =
      e.toSimulationAlgorithmBase.ReactionProp i r :=
    fun i r => SimulationAlgorithmBase.ReactionProp_congr e.toSimulationAlgorithmBase
      ({ e with sampling_done_this_iteration := v } : TauLeap3D).toSimulationAlgorithmBase
      rfl rfl rfl rfl rfl i r
  unfold TauLeap3D.Compute_nevt
  symm
  refine forLoop_map (fun s : TauLeap3D => { s with sampling_done_this_iteration := v })
    _ _ _ _ _ rfl (fun i _ s => ?_)
  dsimp only
  refine forLoop_map (fun s : TauLeap3D => { s with sampling_done_this_iteration := v })
    _ _ _ _ _ ?_ (fun sp _ s => ?_)
  · refine forLoop_map (fun s : TauLeap3D => { s with sampling_done_this_iteration := v })
      _ _ _ _ _ rfl (fun r _ s => ?_)
    dsimp only
    rw [hrp]
  · refine forLoop_map (fun s : TauLeap3D => { s with sampling_done_this_iteration := v })
      _ _ _ _ _ rfl (fun n _ s => ?_)
    dsimp only
    split_ifs <;> rfl

/-- After `Compute_nevt` of the grid, the number of events of reaction `r` in
mesh `i` is a Poisson draw of the run whose mean is the propensity of the
reaction in the state `e`, times `dt`. -/
theorem Compute_nevt_draws_nr (e : TauLeap3D)
    (hlen : e.n_meshes * e.n_reactions ≤ e.mesh_nr.length) (i r : Nat) (hi : i < e.n_meshes)
    (hr : r < e.n_reactions) :
    ∃ q, e.rng.pos ≤ q ∧
      rd e.Compute_nevt.mesh_nr (i * e.n_reactions + r) =
        ((e.rng.poisson q (e.toSimulationAlgorithmBase.ReactionProp i r * e.dt) : Nat) : Int) := by
  have key : ∀ k, k < e.n_meshes → ∀ f, (∃ r, r < e.n_reactions ∧ f = k * e.n_reactions + r) →
      ∀ i' r', r' < e.n_reactions → f = i' * e.n_reactions + r' →
        ∃ q, e.rng.pos ≤ q ∧ rd e.Compute_nevt.mesh_nr f =
          ((e.rng.poisson q (e.toSimulationAlgorithmBase.ReactionProp i' r' * e.dt) : Nat) :
            Int) := by
    unfold Compute_nevt
    refine (forLoop_cells (fun (st : TauLeap3D) f => rd st.mesh_nr f)
      (fun st => st.rng.poisson = e.rng.poisson ∧ e.rng.pos ≤ st.rng.pos ∧
        st.mesh_nr.length = e.mesh_nr.length)
      (fun i f => ∃ r, r < e.n_reactions ∧ f = i * e.n_reactions + r)
      (fun f v => ∀ i' r', r' < e.n_reactions → f = i' * e.n_reactions + r' →
        ∃ q, e.rng.pos ≤ q ∧ v =
          ((e.rng.poisson q (e.toSimulationAlgorithmBase.ReactionProp i' r' * e.dt) : Nat) :
            Int))
      e.n_meshes _ e ⟨rfl, le_refl _, rfl⟩ ?_ ?_).2
    · rintro a b f _ _ ⟨r1, hr1, e1⟩ ⟨r2, hr2, e2⟩
      exact (flat_index_inj hr1 hr2 (e1.symm.trans e2)).1
    · intro k hk st hJ
      have hD : ∀ st0 : TauLeap3D,
          (forLoop e.n_species (fun s st =>
            forLoop 6 (fun n st =>
              if rd e.mesh_neighbors (k * 6 + n) ≠ -1 then
                { st with
                  mesh_nd := wr st.mesh_nd (k * 6 * e.n_species + s * 6 + n)
                    (SimulationAlgorithmBase.Poisson st.rng
                      (e.toSimulationAlgorithm3DBase.DiffusionProp k s n * e.dt)).1
                  rng := (SimulationAlgorithmBase.Poisson st.rng
                      (e.toSimulationAlgorithm3DBase.DiffusionProp k s n * e.dt)).2 }
              else
                { st with mesh_nd := wr st.mesh_nd (k * 6 * e.n_species + s * 6 + n) 0 })
              st) st0).mesh_nr = st0.mesh_nr ∧
          (st0.rng.poisson = e.rng.poisson ∧ e.rng.pos ≤ st0.rng.pos →
            (forLoop e.n_species (fun s st =>
              forLoop 6 (fun n st =>
                if rd e.mesh_neighbors (k * 6 + n) ≠ -1 then
                  { st with
                    mesh_nd := wr st.mesh_nd (k * 6 * e.n_species + s * 6 + n)
                      (SimulationAlgorithmBase.Poisson st.rng
                        (e.toSimulationAlgorithm3DBase.DiffusionProp k s n * e.dt)).1
                    rng := (SimulationAlgorithmBase.Poisson st.rng
                        (e.toSimulationAlgorithm3DBase.DiffusionProp k s n * e.dt)).2 }
                else
                  { st with mesh_nd := wr st.mesh_nd (k * 6 * e.n_species + s * 6 + n) 0 })
                st) st0).rng.poisson = e.rng.poisson ∧
            e.rng.pos ≤ (forLoop e.n_species (fun s st =>
              forLoop 6 (fun n st =>
                if rd e.mesh_neighbors (k * 6 + n) ≠ -1 then
                  { st with
                    mesh_nd := wr st.mesh_nd (k * 6 * e.n_species + s * 6 + n)
                      (SimulationAlgorithmBase.Poisson st.rng
                        (e.toSimulationAlgorithm3DBase.DiffusionProp k s n * e.dt)).1
                    rng := (SimulationAlgorithmBase.Poisson st.rng
                        (e.toSimulationAlgorithm3DBase.DiffusionProp k s n * e.dt)).2 }
                else
                  { st with mesh_nd := wr st.mesh_nd (k * 6 * e.n_species + s * 6 + n) 0 })
                st) st0).rng.pos) := by
        intro st0
        constructor
        · refine forLoop_preserve (fun st : TauLeap3D => st.mesh_nr) _ _ _ (fun s _ st => ?_)
          refine forLoop_preserve (fun st : TauLeap3D => st.mesh_nr) _ _ _ (fun n _ st => ?_)
          dsimp only
          split_ifs <;> rfl
        · intro h0
          refine forLoop_invariant
            (fun st : TauLeap3D => st.rng.poisson = e.rng.poisson ∧ e.rng.pos ≤ st.rng.pos)
            _ _ _ h0 (fun s _ st hst => ?_)
          refine forLoop_invariant
            (fun st : TauLeap3D => st.rng.poisson = e.rng.poisson ∧ e.rng.pos ≤ st.rng.pos)
            _ _ _ hst (fun n _ st hst => ?_)
          dsimp only
          split_ifs
          · exact ⟨hst.1, Nat.le_succ_of_le hst.2⟩
          · exact hst
      have hR := forLoop_cells (fun (st : TauLeap3D) f => rd st.mesh_nr f)
        (fun st => st.rng.poisson = e.rng.poisson ∧ e.rng.pos ≤ st.rng.pos ∧
          st.mesh_nr.length = e.mesh_nr.length)
        (fun r f => f = k * e.n_reactions + r)
        (fun f v => ∀ i' r', r' < e.n_reactions → f = i' * e.n_reactions + r' →
          ∃ q, e.rng.pos ≤ q ∧ v =
            ((e.rng.poisson q (e.toSimulationAlgorithmBase.ReactionProp i' r' * e.dt) : Nat) :
              Int))
        e.n_reactions
        (fun r st =>
          { st with
            mesh_nr := wr st.mesh_nr (k * e.n_reactions + r)
              (SimulationAlgorithmBase.Poisson st.rng
                (e.toSimulationAlgorithmBase.ReactionProp k r * e.dt)).1
            rng := (SimulationAlgorithmBase.Poisson st.rng
                (e.toSimulationAlgorithmBase.ReactionProp k r * e.dt)).2 })
        st hJ (fun a b f _ _ e1 e2 => by omega)
        (fun r1 hr1 st1 hJ1 => by
          refine ⟨⟨hJ1.1, Nat.le_succ_of_le hJ1.2.1, by
            show (wr st1.mesh_nr _ _).length = _
            rw [length_wr]
            exact hJ1.2.2⟩, ?_, ?_⟩
          · rintro f rfl i' r' hr' he
            obtain ⟨q1, q2⟩ := flat_index_inj hr1 hr' he
            subst q1 q2
            refine ⟨st1.rng.pos, hJ1.2.1, ?_⟩
            show rd (wr st1.mesh_nr _ _) _ = _
            rw [rd_wr_self _ _ (by
              rw [hJ1.2.2]
              exact Nat.lt_of_lt_of_le (flat_index_lt hk hr1) hlen)]
            unfold SimulationAlgorithmBase.Poisson
            dsimp only
            rw [hJ1.1]
          · intro f hf
            exact rd_wr_ne _ _ (fun e' => hf e'.symm))
      refine ⟨?_, ?_, ?_⟩
      · obtain ⟨j1, j2⟩ := (hD _).2 ⟨hR.1.1, hR.1.2.1⟩
        refine ⟨j1, j2, ?_⟩
        dsimp only
        rw [(hD _).1]
        exact hR.1.2.2
      · rintro f ⟨r0, hr0, rfl⟩
        dsimp only
        rw [(hD _).1]
        exact hR.2 r0 hr0 _ rfl
      · intro f hf
        dsimp only
        rw [(hD _).1]
        refine forLoop_preserve (fun st : TauLeap3D => rd st.mesh_nr f) _ _ _
          (fun r1 hr1 st => ?_)
        exact rd_wr_ne _ _ (fun e' => hf ⟨r1, hr1, e'.symm⟩)
  exact key i hi _ ⟨r, hr, rfl⟩ i r hr rfl

end TauLeap3D

namespace TauLeap3D

theorem flat3_index_lt {nm ns i s n : Nat} (hi : i < nm) (hs : s < ns) (hn : n < 6) :
    i * 6 * ns + s * 6 + n < 6 * ns * nm := by
  have h1 : (i * ns + s) * 6 + n < (nm * ns) * 6 := flat_index_lt (flat_index_lt hi hs) hn
  have e1 : (i * ns + s) * 6 + n = i * 6 * ns + s * 6 + n := by ring
  have e2 : (nm * ns) * 6 = 6 * ns * nm := by ring
  rw [e1, e2] at h1
  exact h1

/-- After `Compute_nevt` of the grid, the number of diffusion events of species
`s` from mesh `i` in direction `n` is a Poisson draw of the run whose mean is
the propensity of the diffusion in the state `e`, times `dt`, when the
neighbour is present, and `0` when it is absent. -/
theorem Compute_nevt_draws_nd (e : TauLeap3D)
    (hlen : 6 * e.n_species * e.n_meshes ≤ e.mesh_nd.length) (i s n : Nat)
    (hi : i < e.n_meshes) (hs : s < e.n_species) (hn : n < 6) :
    (rd e.mesh_neighbors (i * 6 + n) ≠ -1 →
      ∃ q, e.rng.pos ≤ q ∧
        rd e.Compute_nevt.mesh_nd (i * 6 * e.n_species + s * 6 + n) =
          ((e.rng.poisson q (e.toSimulationAlgorithm3DBase.DiffusionProp i s n * e.dt) : Nat) :
            Int)) ∧
    (rd e.mesh_neighbors (i * 6 + n) = -1 →
      rd e.Compute_nevt.mesh_nd (i * 6 * e.n_species + s * 6 + n) = 0) := by
  have key : ∀ k, k < e.n_meshes → ∀ f,
      (∃ s n, s < e.n_species ∧ n < 6 ∧ f = k * 6 * e.n_species + s * 6 + n) →
      ∀ i' s' n', s' < e.n_species → n' < 6 → f = i' * 6 * e.n_species + s' * 6 + n' →
        (rd e.mesh_neighbors (i' * 6 + n') ≠ -1 →
          ∃ q, e.rng.pos ≤ q ∧ rd e.Compute_nevt.mesh_nd f =
            ((e.rng.poisson q (e.toSimulationAlgorithm3DBase.DiffusionProp i' s' n' * e.dt) :
              Nat) : Int)) ∧
        (rd e.mesh_neighbors (i' * 6 + n') = -1 → rd e.Compute_nevt.mesh_nd f = 0) := by
    unfold Compute_nevt
    refine (forLoop_cells (fun (st : TauLeap3D) f => rd st.mesh_nd f)
      (fun st => st.rng.poisson = e.rng.poisson ∧ e.rng.pos ≤ st.rng.pos ∧
        st.mesh_nd.length = e.mesh_nd.length)
      (fun k f => ∃ s n, s < e.n_species ∧ n < 6 ∧ f = k * 6 * e.n_species + s * 6 + n)
      (fun f v => ∀ i' s' n', s' < e.n_species → n' < 6 →
        f = i' * 6 * e.n_species + s' * 6 + n' →
        (rd e.mesh_neighbors (i' * 6 + n') ≠ -1 →
          ∃ q, e.rng.pos ≤ q ∧ v =
            ((e.rng.poisson q (e.toSimulationAlgorithm3DBase.DiffusionProp i' s' n' * e.dt) :
              Nat) : Int)) ∧
        (rd e.mesh_neighbors (i' * 6 + n') = -1 → v = 0))
      e.n_meshes _ e ⟨rfl, le_refl _, rfl⟩ ?_ ?_).2
    · rintro a b f _ _ ⟨s1, n1, hs1, hn1, e1⟩ ⟨s2, n2, hs2, hn2, e2⟩
      exact (flat3_index_inj hs1 hs2 hn1 hn2 (e1.symm.trans e2)).1
    · intro k hk st hJ
      have hRJ : (fun st : TauLeap3D => st.rng.poisson = e.rng.poisson ∧
          e.rng.pos ≤ st.rng.pos ∧ st.mesh_nd.length = e.mesh_nd.length)
          (forLoop e.n_reactions (fun r st =>
            { st with
              mesh_nr := wr st.mesh_nr (k * e.n_reactions + r)
                (SimulationAlgorithmBase.Poisson st.rng
                  (e.toSimulationAlgorithmBase.ReactionProp k r * e.dt)).1
              rng := (SimulationAlgorithmBase.Poisson st.rng
                  (e.toSimulationAlgorithmBase.ReactionProp k r * e.dt)).2 }) st) :=
        forLoop_invariant
          (fun st : TauLeap3D => st.rng.poisson = e.rng.poisson ∧ e.rng.pos ≤ st.rng.pos ∧
            st.mesh_nd.length = e.mesh_nd.length) _ _ _ hJ
          (fun r _ st hst => ⟨hst.1, Nat.le_succ_of_le hst.2.1, hst.2.2⟩)
      have hRf : ∀ f, rd (forLoop e.n_reactions (fun r st =>
            { st with
              mesh_nr := wr st.mesh_nr (k * e.n_reactions + r)
                (SimulationAlgorithmBase.Poisson st.rng
                  (e.toSimulationAlgorithmBase.ReactionProp k r * e.dt)).1
              rng := (SimulationAlgorithmBase.Poisson st.rng
                  (e.toSimulationAlgorithmBase.ReactionProp k r * e.dt)).2 }) st).mesh_nd f =
          rd st.mesh_nd f :=
        fun f => forLoop_preserve (fun st : TauLeap3D => rd st.mesh_nd f) _ _ _
          (fun r1 _ st => rfl)
      dsimp only
      have hS := forLoop_cells (fun (st : TauLeap3D) f => rd st.mesh_nd f)
        (fun st => st.rng.poisson = e.rng.poisson ∧ e.rng.pos ≤ st.rng.pos ∧
          st.mesh_nd.length = e.mesh_nd.length)
        (fun s f => ∃ n, n < 6 ∧ f = k * 6 * e.n_species + s * 6 + n)
        (fun f v => ∀ i' s' n', s' < e.n_species → n' < 6 →
          f = i' * 6 * e.n_species + s' * 6 + n' →
          (rd e.mesh_neighbors (i' * 6 + n') ≠ -1 →
            ∃ q, e.rng.pos ≤ q ∧ v =
              ((e.rng.poisson q (e.toSimulationAlgorithm3DBase.DiffusionProp i' s' n' * e.dt) :
                Nat) : Int)) ∧
          (rd e.mesh_neighbors (i' * 6 + n') = -1 → v = 0))
        e.n_species
        (fun s st =>
          forLoop 6 (fun n st =>
            if rd e.mesh_neighbors (k * 6 + n) ≠ -1 then
              { st with
                mesh_nd := wr st.mesh_nd (k * 6 * e.n_species + s * 6 + n)
                  (SimulationAlgorithmBase.Poisson st.rng
                    (e.toSimulationAlgorithm3DBase.DiffusionProp k s n * e.dt)).1
                rng := (SimulationAlgorithmBase.Poisson st.rng
                    (e.toSimulationAlgorithm3DBase.DiffusionProp k s n * e.dt)).2 }
            else
              { st with mesh_nd := wr st.mesh_nd (k * 6 * e.n_species + s * 6 + n) 0 }) st)
        _ hRJ
        (by
          rintro a b f _ _ ⟨n1, hn1, e1⟩ ⟨n2, hn2, e2⟩
          omega)
        (fun s1 hs1 st1 hJ1 => by
          have hN := forLoop_cells (fun (st : TauLeap3D) f => rd st.mesh_nd f)
            (fun st => st.rng.poisson = e.rng.poisson ∧ e.rng.pos ≤ st.rng.pos ∧
              st.mesh_nd.length = e.mesh_nd.length)
            (fun n f => f = k * 6 * e.n_species + s1 * 6 + n)
            (fun f v => ∀ i' s' n', s' < e.n_species → n' < 6 →
              f = i' * 6 * e.n_species + s' * 6 + n' →
              (rd e.mesh_neighbors (i' * 6 + n') ≠ -1 →
                ∃ q, e.rng.pos ≤ q ∧ v =
                  ((e.rng.poisson q
                    (e.toSimulationAlgorithm3DBase.DiffusionProp i' s' n' * e.dt) : Nat) :
                    Int)) ∧
              (rd e.mesh_neighbors (i' * 6 + n') = -1 → v = 0))
            6
            (fun n st =>
              if rd e.mesh_neighbors (k * 6 + n) ≠ -1 then
                { st with
                  mesh_nd := wr st.mesh_nd (k * 6 * e.n_species + s1 * 6 + n)
                    (SimulationAlgorithmBase.Poisson st.rng
                      (e.toSimulationAlgorithm3DBase.DiffusionProp k s1 n * e.dt)).1
                  rng := (SimulationAlgorithmBase.Poisson st.rng
                      (e.toSimulationAlgorithm3DBase.DiffusionProp k s1 n * e.dt)).2 }
              else
                { st with mesh_nd := wr st.mesh_nd (k * 6 * e.n_species + s1 * 6 + n) 0 })
            st1 hJ1 (fun a b f _ _ e1 e2 => by omega)
            (fun n2 hn2 st2 hJ2 => by
              have hidx : k * 6 * e.n_species + s1 * 6 + n2 < st2.mesh_nd.length := by
                rw [hJ2.2.2]
                exact Nat.lt_of_lt_of_le (flat3_index_lt hk hs1 hn2) hlen
              by_cases hc : rd e.mesh_neighbors (k * 6 + n2) ≠ -1
              · simp only [if_pos hc]
                refine ⟨⟨hJ2.1, Nat.le_succ_of_le hJ2.2.1, by
                  show (wr st2.mesh_nd _ _).length = _
                  rw [length_wr]
                  exact hJ2.2.2⟩, ?_, ?_⟩
                · rintro f rfl i' s' n' hs' hn' he
                  obtain ⟨q1, q2, q3⟩ := flat3_index_inj hs1 hs' hn2 hn' he
                  subst q1 q2 q3
                  refine ⟨fun _ => ⟨st2.rng.pos, hJ2.2.1, ?_⟩, fun h => absurd h hc⟩
                  show rd (wr st2.mesh_nd _ _) _ = _
                  rw [rd_wr_self _ _ hidx]
                  unfold SimulationAlgorithmBase.Poisson
                  dsimp only
                  rw [hJ2.1]
                · intro f hf
                  exact rd_wr_ne _ _ (fun e' => hf e'.symm)
              · simp only [if_neg hc]
                refine ⟨⟨hJ2.1, hJ2.2.1, by
                  show (wr st2.mesh_nd _ _).length = _
                  rw [length_wr]
                  exact hJ2.2.2⟩, ?_, ?_⟩
                · rintro f rfl i' s' n' hs' hn' he
                  obtain ⟨q1, q2, q3⟩ := flat3_index_inj hs1 hs' hn2 hn' he
                  subst q1 q2 q3
                  refine ⟨fun h => absurd h hc, fun _ => ?_⟩
                  show rd (wr st2.mesh_nd _ _) _ = _
                  exact rd_wr_zero _ _
                · intro f hf
                  exact rd_wr_ne _ _ (fun e' => hf e'.symm))
          refine ⟨hN.1, ?_, ?_⟩
          · rintro f ⟨n1, hn1, rfl⟩
            exact hN.2 n1 hn1 _ rfl
          · intro f hf
            refine forLoop_preserve (fun st : TauLeap3D => rd st.mesh_nd f) _ _ _
              (fun n2 hn2 st => ?_)
            dsimp only
            split_ifs
            · exact rd_wr_ne _ _ (fun e' => hf ⟨n2, hn2, e'.symm⟩)
            · exact rd_wr_ne _ _ (fun e' => hf ⟨n2, hn2, e'.symm⟩))
      refine ⟨hS.1, ?_, ?_⟩
      · rintro f ⟨s0, n0, hs0, hn0, rfl⟩
        exact hS.2 s0 hs0 _ ⟨n0, hn0, rfl⟩
      · intro f hf
        refine Eq.trans (forLoop_preserve (fun st : TauLeap3D => rd st.mesh_nd f) _ _ _
          (fun s1 hs1 st => ?_)) (hRf f)
        refine forLoop_preserve (fun st : TauLeap3D => rd st.mesh_nd f) _ _ _
          (fun n2 hn2 st => ?_)
        dsimp only
        split_ifs
        · exact rd_wr_ne _ _ (fun e' => hf ⟨s1, n2, hs1, hn2, e'.symm⟩)
        · exact rd_wr_ne _ _ (fun e' => hf ⟨s1, n2, hs1, hn2, e'.symm⟩)
  exact key i hi _ ⟨s, n, hs, hn, rfl⟩ i s n hs hn rfl

end TauLeap3D

/-- Reading a table of rows after one cell of one row was written. -/
theorem rd_rdRow_wr_cell {α : Type} [Zero α] (T : List (List α)) (i c : Nat) (a : α)
    (i1 c1 : Nat) :
    rd (rdRow (wr T i (wr (rdRow T i) c a)) i1) c1 =
      if i = i1 ∧ c = c1 ∧ i < T.length ∧ c < (rdRow T i).length then a
      else rd (rdRow T i1) c1 := by
  rw [rdRow_wr]
  by_cases h1 : i = i1 ∧ i < T.length
  · rw [if_pos h1, rd_wr]
    obtain ⟨rfl, h2⟩ := h1
    by_cases h3 : c = c1 ∧ c < (rdRow T i).length
    · rw [if_pos h3, if_pos ⟨rfl, h3.1, h2, h3.2⟩]
    · rw [if_neg h3, if_neg (fun h => h3 ⟨h.2.1, h.2.2.2⟩)]
  · rw [if_neg h1, if_neg (fun h => h1 ⟨h.1, h.2.2.1⟩)]

/-- Writing one cell of one row keeps the length of every row. -/
theorem rdRow_wr_cell_length {α : Type} (T : List (List α)) (i c : Nat) (a : α) (i1 : Nat) :
    (rdRow (wr T i (wr (rdRow T i) c a)) i1).length = (rdRow T i1).length := by
  rw [rdRow_wr]
  split_ifs with h
  · obtain ⟨rfl, _⟩ := h
    exact length_wr _ _ _
  · rfl

namespace TauLeapGraph

/-- Method `Compute_nevt` of the graph does not read the guard of the
sampling. -/
theorem Compute_nevt_guard_graph (e : TauLeapGraph) (v : Bool) :
    TauLeapGraph.Compute_nevt { e with sampling_done_this_iteration := v } =
      { e.Compute_nevt with sampling_done_this_iteration := v } := by
  have hrp : ∀ i r, SimulationAlgorithmBase.ReactionProp
      ({ e with sampling_done_this_iteration := v } : TauLeapGraph).toSimulationAlgorithmBase
        i r =
      e.toSimulationAlgorithmBase.ReactionProp i r :=
    fun i r => SimulationAlgorithmBase.ReactionProp_congr e.toSimulationAlgorithmBase
      ({ e with sampling_done_this_iteration := v } : TauLeapGraph).toSimulationAlgorithmBase
      rfl rfl rfl rfl rfl i r
  unfold TauLeapGraph.Compute_nevt
  symm
  refine forLoop_map (fun s : TauLeapGraph => { s with sampling_done_this_iteration := v })
    _ _ _ _ _ rfl (fun i _ s => ?_)
  dsimp only
  refine forLoop_map (fun s : TauLeapGraph => { s with sampling_done_this_iteration := v })
    _ _ _ _ _ ?_ (fun sp _ s => ?_)
  · refine forLoop_map (fun s : TauLeapGraph => { s with sampling_done_this_iteration := v })
      _ _ _ _ _ rfl (fun r _ s => ?_)
    dsimp only
    rw [hrp]
  · refine forLoop_map (fun s : TauLeapGraph => { s with sampling_done_this_iteration := v })
      _ _ _ _ _ rfl (fun n _ s => ?_)
    rfl

/-- After `Compute_nevt` of the graph, the number of events of reaction `r` in
node `i` is a Poisson draw of the run whose mean is the propensity of the
reaction in the state `e`, times `dt`. -/
theorem Compute_nevt_draws_nr_graph (e : TauLeapGraph)
    (hlen : e.n_meshes * e.n_reactions ≤ e.mesh_nr.length) (i r : Nat) (hi : i < e.n_meshes)
    (hr : r < e.n_reactions) :
    ∃ q, e.rng.pos ≤ q ∧
      rd e.Compute_nevt.mesh_nr (i * e.n_reactions + r) =
        ((e.rng.poisson q (e.toSimulationAlgorithmBase.ReactionProp i r * e.dt) : Nat) : Int) := by
  have key : ∀ k, k < e.n_meshes → ∀ f, (∃ r, r < e.n_reactions ∧ f = k * e.n_reactions + r) →
      ∀ i' r', r' < e.n_reactions → f = i' * e.n_reactions + r' →
        ∃ q, e.rng.pos ≤ q ∧ rd e.Compute_nevt.mesh_nr f =
          ((e.rng.poisson q (e.toSimulationAlgorithmBase.ReactionProp i' r' * e.dt) : Nat) :
            Int) := by
    unfold Compute_nevt
    refine (forLoop_cells (fun (st : TauLeapGraph) f => rd st.mesh_nr f)
      (fun st => st.rng.poisson = e.rng.poisson ∧ e.rng.pos ≤ st.rng.pos ∧
        st.mesh_nr.length = e.mesh_nr.length)
      (fun i f => ∃ r, r < e.n_reactions ∧ f = i * e.n_reactions + r)
      (fun f v => ∀ i' r', r' < e.n_reactions → f = i' * e.n_reactions + r' →
        ∃ q, e.rng.pos ≤ q ∧ v =
          ((e.rng.poisson q (e.toSimulationAlgorithmBase.ReactionProp i' r' * e.dt) : Nat) :
            Int))
      e.n_meshes _ e ⟨rfl, le_refl _, rfl⟩ ?_ ?_).2
    · rintro a b f _ _ ⟨r1, hr1, e1⟩ ⟨r2, hr2, e2⟩
      exact (flat_index_inj hr1 hr2 (e1.symm.trans e2)).1
    · intro k hk st hJ
      have hD : ∀ st0 : TauLeapGraph,
          (forLoop e.n_species (fun s st =>
            forLoop (rd e.mesh_neighbor_n k) (fun n st =>
              { st with
                mesh_nd := wr st.mesh_nd k
                  (wr (rdRow st.mesh_nd k) (s * rd e.mesh_neighbor_n k + n)
                    (SimulationAlgorithmBase.Poisson st.rng
                      (e.toSimulationAlgorithmGraphBase.DiffusionProp k s n * e.dt)).1)
                rng := (SimulationAlgorithmBase.Poisson st.rng
                    (e.toSimulationAlgorithmGraphBase.DiffusionProp k s n * e.dt)).2 })
              st) st0).mesh_nr = st0.mesh_nr ∧
          (st0.rng.poisson = e.rng.poisson ∧ e.rng.pos ≤ st0.rng.pos →
            (forLoop e.n_species (fun s st =>
              forLoop (rd e.mesh_neighbor_n k) (fun n st =>
                { st with
                  mesh_nd := wr st.mesh_nd k
                    (wr (rdRow st.mesh_nd k) (s * rd e.mesh_neighbor_n k + n)
                      (SimulationAlgorithmBase.Poisson st.rng
                        (e.toSimulationAlgorithmGraphBase.DiffusionProp k s n * e.dt)).1)
                  rng := (SimulationAlgorithmBase.Poisson st.rng
                      (e.toSimulationAlgorithmGraphBase.DiffusionProp k s n * e.dt)).2 })
                st) st0).rng.poisson = e.rng.poisson ∧
            e.rng.pos ≤ (forLoop e.n_species (fun s st =>
              forLoop (rd e.mesh_neighbor_n k) (fun n st =>
                { st with
                  mesh_nd := wr st.mesh_nd k
                    (wr (rdRow st.mesh_nd k) (s * rd e.mesh_neighbor_n k + n)
                      (SimulationAlgorithmBase.Poisson st.rng
                        (e.toSimulationAlgorithmGraphBase.DiffusionProp k s n * e.dt)).1)
                  rng := (SimulationAlgorithmBase.Poisson st.rng
                      (e.toSimulationAlgorithmGraphBase.DiffusionProp k s n * e.dt)).2 })
                st) st0).rng.pos) := by
        intro st0
        constructor
        · refine forLoop_preserve (fun st : TauLeapGraph => st.mesh_nr) _ _ _ (fun s _ st => ?_)
          exact forLoop_preserve (fun st : TauLeapGraph => st.mesh_nr) _ _ _ (fun n _ st => rfl)
        · intro h0
          refine forLoop_invariant
            (fun st : TauLeapGraph => st.rng.poisson = e.rng.poisson ∧ e.rng.pos ≤ st.rng.pos)
            _ _ _ h0 (fun s _ st hst => ?_)
          exact forLoop_invariant
            (fun st : TauLeapGraph => st.rng.poisson = e.rng.poisson ∧ e.rng.pos ≤ st.rng.pos)
            _ _ _ hst (fun n _ st hst => ⟨hst.1, Nat.le_succ_of_le hst.2⟩)
      have hR := forLoop_cells (fun (st : TauLeapGraph) f => rd st.mesh_nr f)
        (fun st => st.rng.poisson = e.rng.poisson ∧ e.rng.pos ≤ st.rng.pos ∧
          st.mesh_nr.length = e.mesh_nr.length)
        (fun r f => f = k * e.n_reactions + r)
        (fun f v => ∀ i' r', r' < e.n_reactions → f = i' * e.n_reactions + r' →
          ∃ q, e.rng.pos ≤ q ∧ v =
            ((e.rng.poisson q (e.toSimulationAlgorithmBase.ReactionProp i' r' * e.dt) : Nat) :
              Int))
        e.n_reactions
        (fun r st =>
          { st with
            mesh_nr := wr st.mesh_nr (k * e.n_reactions + r)
              (SimulationAlgorithmBase.Poisson st.rng
                (e.toSimulationAlgorithmBase.ReactionProp k r * e.dt)).1
            rng := (SimulationAlgorithmBase.Poisson st.rng
                (e.toSimulationAlgorithmBase.ReactionProp k r * e.dt)).2 })
        st hJ (fun a b f _ _ e1 e2 => by omega)
        (fun r1 hr1 st1 hJ1 => by
          refine ⟨⟨hJ1.1, Nat.le_succ_of_le hJ1.2.1, by
            show (wr st1.mesh_nr _ _).length = _
            rw [length_wr]
            exact hJ1.2.2⟩, ?_, ?_⟩
          · rintro f rfl i' r' hr' he
            obtain ⟨q1, q2⟩ := flat_index_inj hr1 hr' he
            subst q1 q2
            refine ⟨st1.rng.pos, hJ1.2.1, ?_⟩
            show rd (wr st1.mesh_nr _ _) _ = _
            rw [rd_wr_self _ _ (by
              rw [hJ1.2.2]
              exact Nat.lt_of_lt_of_le (flat_index_lt hk hr1) hlen)]
            unfold SimulationAlgorithmBase.Poisson
            dsimp only
            rw [hJ1.1]
          · intro f hf
            exact rd_wr_ne _ _ (fun e' => hf e'.symm))
      refine ⟨?_, ?_, ?_⟩
      · obtain ⟨j1, j2⟩ := (hD _).2 ⟨hR.1.1, hR.1.2.1⟩
        refine ⟨j1, j2, ?_⟩
        dsimp only
        rw [(hD _).1]
        exact hR.1.2.2
      · rintro f ⟨r0, hr0, rfl⟩
        dsimp only
        rw [(hD _).1]
        exact hR.2 r0 hr0 _ rfl
      · intro f hf
        dsimp only
        rw [(hD _).1]
        refine forLoop_preserve (fun st : TauLeapGraph => rd st.mesh_nr f) _ _ _
          (fun r1 hr1 st => ?_)
        exact rd_wr_ne _ _ (fun e' => hf ⟨r1, hr1, e'.symm⟩)
  exact key i hi _ ⟨r, hr, rfl⟩ i r hr rfl

end TauLeapGraph

namespace TauLeapGraph

/-- After `Compute_nevt` of the graph, the number of diffusion events of
species `s` from node `i` through its slot `n` is a Poisson draw of the run
whose mean is the propensity of the diffusion in the state `e`, times `dt`. -/
theorem Compute_nevt_draws_nd_graph (e : TauLeapGraph)
    (hlen : e.n_meshes ≤ e.mesh_nd.length)
    (hrow : ∀ i, i < e.n_meshes →
      e.n_species * rd e.mesh_neighbor_n i ≤ (rdRow e.mesh_nd i).length)
    (i s n : Nat) (hi : i < e.n_meshes) (hs : s < e.n_species)
    (hn : n < rd e.mesh_neighbor_n i) :
    ∃ q, e.rng.pos ≤ q ∧
      rd (rdRow e.Compute_nevt.mesh_nd i) (s * rd e.mesh_neighbor_n i + n) =
        ((e.rng.poisson q (e.toSimulationAlgorithmGraphBase.DiffusionProp i s n * e.dt) : Nat) :
          Int) := by
  have key : ∀ k, k < e.n_meshes → ∀ f : Nat × Nat,
      (f.1 = k ∧ ∃ s n, s < e.n_species ∧ n < rd e.mesh_neighbor_n k ∧
        f.2 = s * rd e.mesh_neighbor_n k + n) →
      ∀ s' n', s' < e.n_species → n' < rd e.mesh_neighbor_n f.1 →
        f.2 = s' * rd e.mesh_neighbor_n f.1 + n' →
        ∃ q, e.rng.pos ≤ q ∧ rd (rdRow e.Compute_nevt.mesh_nd f.1) f.2 =
          ((e.rng.poisson q
            (e.toSimulationAlgorithmGraphBase.DiffusionProp f.1 s' n' * e.dt) : Nat) : Int) := by
    unfold Compute_nevt
    refine (forLoop_cells (fun (st : TauLeapGraph) (f : Nat × Nat) => rd (rdRow st.mesh_nd f.1) f.2)
      (fun st => st.rng.poisson = e.rng.poisson ∧ e.rng.pos ≤ st.rng.pos ∧
        st.mesh_nd.length = e.mesh_nd.length ∧
        ∀ j, (rdRow st.mesh_nd j).length = (rdRow e.mesh_nd j).length)
      (fun k f => f.1 = k ∧ ∃ s n, s < e.n_species ∧ n < rd e.mesh_neighbor_n k ∧
        f.2 = s * rd e.mesh_neighbor_n k + n)
      (fun f v => ∀ s' n', s' < e.n_species → n' < rd e.mesh_neighbor_n f.1 →
        f.2 = s' * rd e.mesh_neighbor_n f.1 + n' →
        ∃ q, e.rng.pos ≤ q ∧ v =
          ((e.rng.poisson q
            (e.toSimulationAlgorithmGraphBase.DiffusionProp f.1 s' n' * e.dt) : Nat) : Int))
      e.n_meshes _ e ⟨rfl, le_refl _, rfl, fun _ => rfl⟩ ?_ ?_).2
    · rintro a b f _ _ ⟨e1, _⟩ ⟨e2, _⟩
      exact e1.symm.trans e2
    · intro k hk st hJ
      have hRJ : (fun st : TauLeapGraph => st.rng.poisson = e.rng.poisson ∧
          e.rng.pos ≤ st.rng.pos ∧ st.mesh_nd.length = e.mesh_nd.length ∧
          ∀ j, (rdRow st.mesh_nd j).length = (rdRow e.mesh_nd j).length)
          (forLoop e.n_reactions (fun r st =>
            { st with
              mesh_nr := wr st.mesh_nr (k * e.n_reactions + r)
                (SimulationAlgorithmBase.Poisson st.rng
                  (e.toSimulationAlgorithmBase.ReactionProp k r * e.dt)).1
              rng := (SimulationAlgorithmBase.Poisson st.rng
                  (e.toSimulationAlgorithmBase.ReactionProp k r * e.dt)).2 }) st) :=
        forLoop_invariant
          (fun st : TauLeapGraph => st.rng.poisson = e.rng.poisson ∧ e.rng.pos ≤ st.rng.pos ∧
            st.mesh_nd.length = e.mesh_nd.length ∧
            ∀ j, (rdRow st.mesh_nd j).length = (rdRow e.mesh_nd j).length) _ _ _ hJ
          (fun r _ st hst => ⟨hst.1, Nat.le_succ_of_le hst.2.1, hst.2.2.1, hst.2.2.2⟩)
      have hRf : ∀ f : Nat × Nat, rd (rdRow (forLoop e.n_reactions (fun r st =>
            { st with
              mesh_nr := wr st.mesh_nr (k * e.n_reactions + r)
                (SimulationAlgorithmBase.Poisson st.rng
                  (e.toSimulationAlgorithmBase.ReactionProp k r * e.dt)).1
              rng := (SimulationAlgorithmBase.Poisson st.rng
                  (e.toSimulationAlgorithmBase.ReactionProp k r * e.dt)).2 }) st).mesh_nd f.1)
            f.2 = rd (rdRow st.mesh_nd f.1) f.2 :=
        fun f => forLoop_preserve (fun st : TauLeapGraph => rd (rdRow st.mesh_nd f.1) f.2)
          _ _ _ (fun r1 _ st => rfl)
      dsimp only
      have hS := forLoop_cells
        (fun (st : TauLeapGraph) (f : Nat × Nat) => rd (rdRow st.mesh_nd f.1) f.2)
        (fun st => st.rng.poisson = e.rng.poisson ∧ e.rng.pos ≤ st.rng.pos ∧
          st.mesh_nd.length = e.mesh_nd.length ∧
          ∀ j, (rdRow st.mesh_nd j).length = (rdRow e.mesh_nd j).length)
        (fun s f => f.1 = k ∧ ∃ n, n < rd e.mesh_neighbor_n k ∧
          f.2 = s * rd e.mesh_neighbor_n k + n)
        (fun f v => ∀ s' n', s' < e.n_species → n' < rd e.mesh_neighbor_n f.1 →
          f.2 = s' * rd e.mesh_neighbor_n f.1 + n' →
          ∃ q, e.rng.pos ≤ q ∧ v =
            ((e.rng.poisson q
              (e.toSimulationAlgorithmGraphBase.DiffusionProp f.1 s' n' * e.dt) : Nat) : Int))
        e.n_species
        (fun s st =>
          forLoop (rd e.mesh_neighbor_n k) (fun n st =>
            { st with
              mesh_nd := wr st.mesh_nd k
                (wr (rdRow st.mesh_nd k) (s * rd e.mesh_neighbor_n k + n)
                  (SimulationAlgorithmBase.Poisson st.rng
                    (e.toSimulationAlgorithmGraphBase.DiffusionProp k s n * e.dt)).1)
              rng := (SimulationAlgorithmBase.Poisson st.rng
                  (e.toSimulationAlgorithmGraphBase.DiffusionProp k s n * e.dt)).2 }) st)
        _ hRJ
        (by
          rintro a b f _ _ ⟨_, n1, hn1, e1⟩ ⟨_, n2, hn2, e2⟩
          exact (flat_index_inj hn1 hn2 (e1.symm.trans e2)).1)
        (fun s1 hs1 st1 hJ1 => by
          have hN := forLoop_cells
            (fun (st : TauLeapGraph) (f : Nat × Nat) => rd (rdRow st.mesh_nd f.1) f.2)
            (fun st => st.rng.poisson = e.rng.poisson ∧ e.rng.pos ≤ st.rng.pos ∧
              st.mesh_nd.length = e.mesh_nd.length ∧
              ∀ j, (rdRow st.mesh_nd j).length = (rdRow e.mesh_nd j).length)
            (fun n f => f.1 = k ∧ f.2 = s1 * rd e.mesh_neighbor_n k + n)
            (fun f v => ∀ s' n', s' < e.n_species → n' < rd e.mesh_neighbor_n f.1 →
              f.2 = s' * rd e.mesh_neighbor_n f.1 + n' →
              ∃ q, e.rng.pos ≤ q ∧ v =
                ((e.rng.poisson q
                  (e.toSimulationAlgorithmGraphBase.DiffusionProp f.1 s' n' * e.dt) : Nat) :
                  Int))
            (rd e.mesh_neighbor_n k)
            (fun n st =>
              { st with
                mesh_nd := wr st.mesh_nd k
                  (wr (rdRow st.mesh_nd k) (s1 * rd e.mesh_neighbor_n k + n)
                    (SimulationAlgorithmBase.Poisson st.rng
                      (e.toSimulationAlgorithmGraphBase.DiffusionProp k s1 n * e.dt)).1)
                rng := (SimulationAlgorithmBase.Poisson st.rng
                    (e.toSimulationAlgorithmGraphBase.DiffusionProp k s1 n * e.dt)).2 })
            st1 hJ1 (fun a b f _ _ e1 e2 => by
              have := e1.2.symm.trans e2.2
              omega)
            (fun n2 hn2 st2 hJ2 => by
              have hk2 : k < st2.mesh_nd.length := by
                rw [hJ2.2.2.1]
                exact Nat.lt_of_lt_of_le hk hlen
              have hidx : s1 * rd e.mesh_neighbor_n k + n2 < (rdRow st2.mesh_nd k).length := by
                rw [hJ2.2.2.2]
                exact Nat.lt_of_lt_of_le (flat_index_lt hs1 hn2) (hrow k hk)
              refine ⟨⟨hJ2.1, Nat.le_succ_of_le hJ2.2.1, by
                show (wr st2.mesh_nd _ _).length = _
                rw [length_wr]
                exact hJ2.2.2.1, fun j => by
                show (rdRow (wr st2.mesh_nd _ _) j).length = _
                rw [rdRow_wr_cell_length]
                exact hJ2.2.2.2 j⟩, ?_, ?_⟩
              · rintro ⟨f1, f2⟩ ⟨h1, h2⟩ s' n' hs' hn' he
                dsimp only at h1 h2 hn' he ⊢
                subst h1
                obtain ⟨q1, q2⟩ := flat_index_inj hn2 hn' (h2.symm.trans he)
                subst q1 q2
                refine ⟨st2.rng.pos, hJ2.2.1, ?_⟩
                rw [h2]
                show rd (rdRow (wr st2.mesh_nd _ _) _) _ = _
                rw [rd_rdRow_wr_cell, if_pos ⟨rfl, rfl, hk2, hidx⟩]
                unfold SimulationAlgorithmBase.Poisson
                dsimp only
                rw [hJ2.1]
              · rintro ⟨f1, f2⟩ hf
                show rd (rdRow (wr st2.mesh_nd _ _) _) _ = _
                rw [rd_rdRow_wr_cell, if_neg (fun h => hf ⟨h.1.symm, h.2.1.symm⟩)])
          refine ⟨hN.1, ?_, ?_⟩
          · rintro f ⟨h1, n1, hn1, h2⟩
            exact hN.2 n1 hn1 _ ⟨h1, h2⟩
          · intro f hf
            refine forLoop_preserve
              (fun st : TauLeapGraph => rd (rdRow st.mesh_nd f.1) f.2) _ _ _
              (fun n2 hn2 st => ?_)
            show rd (rdRow (wr st.mesh_nd _ _) _) _ = _
            rw [rd_rdRow_wr_cell, if_neg (fun h => hf ⟨h.1.symm, n2, hn2, h.2.1.symm⟩)])
      refine ⟨hS.1, ?_, ?_⟩
      · rintro f ⟨h1, s0, n0, hs0, hn0, h2⟩
        exact hS.2 s0 hs0 _ ⟨h1, n0, hn0, h2⟩
      · intro f hf
        refine Eq.trans (forLoop_preserve
          (fun st : TauLeapGraph => rd (rdRow st.mesh_nd f.1) f.2) _ _ _
          (fun s1 hs1 st => ?_)) (hRf f)
        refine forLoop_preserve
          (fun st : TauLeapGraph => rd (rdRow st.mesh_nd f.1) f.2) _ _ _
          (fun n2 hn2 st => ?_)
        show rd (rdRow (wr st.mesh_nd _ _) _) _ = _
        rw [rd_rdRow_wr_cell, if_neg (fun h => hf ⟨h.1.symm, s1, n2, hs1, hn2, h.2.1.symm⟩)]
  exact key i hi (i, s * rd e.mesh_neighbor_n i + n) ⟨rfl, s, n, hs, hn, rfl⟩ s n hs hn rfl

end TauLeapGraph

namespace TauLeap3D

/-- One `Iterate` of `TauLeap3D` on a run that is not complete: a cell that is
not chemostatted receives the events counted by `Compute_nevt` on the state
before the call. -/
theorem Iterate_cell_tauLeap3D (e : TauLeap3D) (hc : e.complete = false)
    (hx : e.n_meshes * e.n_species ≤ e.mesh_x.length)
    (i0 s0 : Nat) (hi0 : i0 < e.n_meshes) (hs0 : s0 < e.n_species)
    (hch : rd e.mesh_chstt (i0 * e.n_species + s0) = 0) :
    rd e.Iterate.2.mesh_x (i0 * e.n_species + s0) =
      rd e.mesh_x (i0 * e.n_species + s0) +
        ∑ r in Finset.range e.n_reactions,
          rd e.sto (s0 * e.n_reactions + r) *
            ((rd e.Compute_nevt.mesh_nr (i0 * e.n_reactions + r) : Int) : ℚ) -
        ∑ n in Finset.range 6,
          ((rd e.Compute_nevt.mesh_nd (i0 * 6 * e.n_species + s0 * 6 + n) : Int) : ℚ) +
        ∑ j in Finset.range e.n_meshes, ∑ m in Finset.range 6,
          (if rd e.mesh_neighbors (j * 6 + m) = (i0 : Int) then
            ((rd e.Compute_nevt.mesh_nd (j * 6 * e.n_species + s0 * 6 + m) : Int) : ℚ)
           else 0) := by
  obtain ⟨nr, nd, g', hg⟩ := Compute_nevt_frame_tauLeap3D e
  have hA := Apply_nevt_cell { e.Compute_nevt with sampling_done_this_iteration := false }
  rw [hg] at hA
  dsimp only at hA
  have hA' := hA hx i0 s0 hi0 hs0 hch
  unfold Iterate
  dsimp only
  rw [if_neg (by rw [hc]; exact Bool.false_ne_true)]
  obtain ⟨sx, st, g, p, l, c, h⟩ := SimulationAlgorithmBase.SamplingStep_CheckTMax_frame
    { (Apply_nevt (Compute_nevt { e with sampling_done_this_iteration := false })).toSimulationAlgorithmBase with
      t := (Apply_nevt (Compute_nevt { e with sampling_done_this_iteration := false })).t +
        (Apply_nevt (Compute_nevt { e with sampling_done_this_iteration := false })).dt }
  rw [h, Compute_nevt_guard e false, hg]
  exact hA'

end TauLeap3D

namespace TauLeapGraph

/-- One `Iterate` of `TauLeapGraph` on a run that is not complete: a cell that
is not chemostatted receives the events counted by `Compute_nevt` on the state
before the call. -/
theorem Iterate_cell_tauLeapGraph (e : TauLeapGraph) (hc : e.complete = false)
    (hx : e.n_meshes * e.n_species ≤ e.mesh_x.length)
    (i0 s0 : Nat) (hi0 : i0 < e.n_meshes) (hs0 : s0 < e.n_species)
    (hch : rd e.mesh_chstt (i0 * e.n_species + s0) = 0) :
    rd e.Iterate.2.mesh_x (i0 * e.n_species + s0) =
      rd e.mesh_x (i0 * e.n_species + s0) +
        ∑ r in Finset.range e.n_reactions,
          rd e.sto (s0 * e.n_reactions + r) *
            ((rd e.Compute_nevt.mesh_nr (i0 * e.n_reactions + r) : Int) : ℚ) -
        ∑ n in Finset.range (rd e.mesh_neighbor_n i0),
          ((rd (rdRow e.Compute_nevt.mesh_nd i0) (s0 * rd e.mesh_neighbor_n i0 + n) : Int) : ℚ) +
        ∑ j in Finset.range e.n_meshes, ∑ m in Finset.range (rd e.mesh_neighbor_n j),
          (if rd (rdRow e.mesh_neighbor_index j) m = i0 then
            ((rd (rdRow e.Compute_nevt.mesh_nd j) (s0 * rd e.mesh_neighbor_n j + m) : Int) : ℚ)
           else 0) := by
  obtain ⟨nr, nd, g', hg⟩ := Compute_nevt_frame_tauLeapGraph e
  have hA := Apply_nevt_cell_graph
    { e.Compute_nevt with sampling_done_this_iteration := false }
  rw [hg] at hA
  dsimp only at hA
  have hA' := hA hx i0 s0 hi0 hs0 hch
  unfold Iterate
  dsimp only
  rw [if_neg (by rw [hc]; exact Bool.false_ne_true)]
  obtain ⟨sx, st, g, p, l, c, h⟩ := SimulationAlgorithmBase.SamplingStep_CheckTMax_frame
    { (Apply_nevt (Compute_nevt { e with sampling_done_this_iteration := false })).toSimulationAlgorithmBase with
      t := (Apply_nevt (Compute_nevt { e with sampling_done_this_iteration := false })).t +
        (Apply_nevt (Compute_nevt { e with sampling_done_this_iteration := false })).dt }
  rw [h, Compute_nevt_guard_graph e false, hg]
  exact hA'

end TauLeapGraph

/-- C33.  The tau-leap step, for `TauLeap3D` and `TauLeapGraph`, on a run that
is not complete and whose vectors have the sizes that the initialisation gives
them.  `Compute_nevt` changes the event counts and the generator only, so all
the counts are drawn before the state changes; each `n_r[i,r]` is a Poisson
draw of mean `ReactionProp(i,r) * dt` and each `n_d[i,s,n]` a Poisson draw of
mean `DiffusionProp(i,s,n) * dt`, both propensities taken on the state before
the call (on the grid `n_d` is `0` where the neighbour is absent).  After
`Iterate`, a cell `(i,s)` that is not chemostatted holds
`x[i,s] + Σ_r sto[s,r] * n_r[i,r] - Σ_n n_d[i,s,n] + Σ n_d[j,s,m]`, the last
sum over the pairs `(j,m)` whose neighbour in slot `m` is `i`, and a
chemostatted cell keeps `x[i,s]`. -/
theorem C33_tauleap_step :
    (∀ e : TauLeap3D, e.complete = false →
      e.n_meshes * e.n_species ≤ e.mesh_x.length →
      e.n_meshes * e.n_reactions ≤ e.mesh_nr.length →
      6 * e.n_species * e.n_meshes ≤ e.mesh_nd.length →
      e.Compute_nevt =
        { e with
          mesh_nr := e.Compute_nevt.mesh_nr
          mesh_nd := e.Compute_nevt.mesh_nd
          rng := e.Compute_nevt.rng } ∧
      (∀ i r, i < e.n_meshes → r < e.n_reactions →
        ∃ q, e.rng.pos ≤ q ∧
          rd e.Compute_nevt.mesh_nr (i * e.n_reactions + r) =
            ((e.rng.poisson q (e.toSimulationAlgorithmBase.ReactionProp i r * e.dt) : Nat) :
              Int)) ∧
      (∀ i s n, i < e.n_meshes → s < e.n_species → n < 6 →
        (rd e.mesh_neighbors (i * 6 + n) ≠ -1 →
          ∃ q, e.rng.pos ≤ q ∧
            rd e.Compute_nevt.mesh_nd (i * 6 * e.n_species + s * 6 + n) =
              ((e.rng.poisson q
                (e.toSimulationAlgorithm3DBase.DiffusionProp i s n * e.dt) : Nat) : Int)) ∧
        (rd e.mesh_neighbors (i * 6 + n) = -1 →
          rd e.Compute_nevt.mesh_nd (i * 6 * e.n_species + s * 6 + n) = 0)) ∧
      (∀ i s, i < e.n_meshes → s < e.n_species →
        (rd e.mesh_chstt (i * e.n_species + s) = 0 →
          rd e.Iterate.2.mesh_x (i * e.n_species + s) =
            rd e.mesh_x (i * e.n_species + s) +
              ∑ r in Finset.range e.n_reactions,
                rd e.sto (s * e.n_reactions + r) *
                  ((rd e.Compute_nevt.mesh_nr (i * e.n_reactions + r) : Int) : ℚ) -
              ∑ n in Finset.range 6,
                ((rd e.Compute_nevt.mesh_nd (i * 6 * e.n_species + s * 6 + n) : Int) : ℚ) +
              ∑ j in Finset.range e.n_meshes, ∑ m in Finset.range 6,
                (if rd e.mesh_neighbors (j * 6 + m) = (i : Int) then
                  ((rd e.Compute_nevt.mesh_nd (j * 6 * e.n_species + s * 6 + m) : Int) : ℚ)
                 else 0)) ∧
        (rd e.mesh_chstt (i * e.n_species + s) ≠ 0 →
          rd e.Iterate.2.mesh_x (i * e.n_species + s) = rd e.mesh_x (i * e.n_species + s)))) ∧
    (∀ e : TauLeapGraph, e.complete = false →
      e.n_meshes * e.n_species ≤ e.mesh_x.length →
      e.n_meshes * e.n_reactions ≤ e.mesh_nr.length →
      e.n_meshes ≤ e.mesh_nd.length →
      (∀ i, i < e.n_meshes →
        e.n_species * rd e.mesh_neighbor_n i ≤ (rdRow e.mesh_nd i).length) →
      e.Compute_nevt =
        { e with
          mesh_nr := e.Compute_nevt.mesh_nr
          mesh_nd := e.Compute_nevt.mesh_nd
          rng := e.Compute_nevt.rng } ∧
      (∀ i r, i < e.n_meshes → r < e.n_reactions →
        ∃ q, e.rng.pos ≤ q ∧
          rd e.Compute_nevt.mesh_nr (i * e.n_reactions + r) =
            ((e.rng.poisson q (e.toSimulationAlgorithmBase.ReactionProp i r * e.dt) : Nat) :
              Int)) ∧
      (∀ i s n, i < e.n_meshes → s < e.n_species → n < rd e.mesh_neighbor_n i →
        ∃ q, e.rng.pos ≤ q ∧
          rd (rdRow e.Compute_nevt.mesh_nd i) (s * rd e.mesh_neighbor_n i + n) =
            ((e.rng.poisson q
              (e.toSimulationAlgorithmGraphBase.DiffusionProp i s n * e.dt) : Nat) : Int)) ∧
      (∀ i s, i < e.n_meshes → s < e.n_species →
        (rd e.mesh_chstt (i * e.n_species + s) = 0 →
          rd e.Iterate.2.mesh_x (i * e.n_species + s) =
            rd e.mesh_x (i * e.n_species + s) +
              ∑ r in Finset.range e.n_reactions,
                rd e.sto (s * e.n_reactions + r) *
                  ((rd e.Compute_nevt.mesh_nr (i * e.n_reactions + r) : Int) : ℚ) -
              ∑ n in Finset.range (rd e.mesh_neighbor_n i),
                ((rd (rdRow e.Compute_nevt.mesh_nd i) (s * rd e.mesh_neighbor_n i + n) : Int) :
                  ℚ) +
              ∑ j in Finset.range e.n_meshes, ∑ m in Finset.range (rd e.mesh_neighbor_n j),
                (if rd (rdRow e.mesh_neighbor_index j) m = i then
                  ((rd (rdRow e.Compute_nevt.mesh_nd j) (s * rd e.mesh_neighbor_n j + m) :
                    Int) : ℚ)
                 else 0)) ∧
        (rd e.mesh_chstt (i * e.n_species + s) ≠ 0 →
          rd e.Iterate.2.mesh_x (i * e.n_species + s) =
            rd e.mesh_x (i * e.n_species + s)))) := by
  constructor
  · intro e hc hx hnr hnd
    refine ⟨?_, fun i r hi hr => TauLeap3D.Compute_nevt_draws_nr e hnr i r hi hr,
      fun i s n hi hs hn => TauLeap3D.Compute_nevt_draws_nd e hnd i s n hi hs hn,
      fun i s hi hs => ⟨fun hch => TauLeap3D.Iterate_cell_tauLeap3D e hc hx i s hi hs hch,
        fun hch => (TauLeap3D.Iterate_chstt_tauLeap3D e _ hch).2⟩⟩
    obtain ⟨nr, nd, g, hg⟩ := TauLeap3D.Compute_nevt_frame_tauLeap3D e
    rw [hg]
  · intro e hc hx hnr hnd hrow
    refine ⟨?_, fun i r hi hr => TauLeapGraph.Compute_nevt_draws_nr_graph e hnr i r hi hr,
      fun i s n hi hs hn =>
        TauLeapGraph.Compute_nevt_draws_nd_graph e hnd hrow i s n hi hs hn,
      fun i s hi hs =>
        ⟨fun hch => TauLeapGraph.Iterate_cell_tauLeapGraph e hc hx i s hi hs hch,
          fun hch => (TauLeapGraph.Iterate_chstt_tauLeapGraph e _ hch).2⟩⟩
    obtain ⟨nr, nd, g, hg⟩ := TauLeapGraph.Compute_nevt_frame_tauLeapGraph e
    rw [hg]

/-- C33 on scenario S5 (`x = [100, 0]`, mesh `0` chemostatted, `D = 1`, the
reaction `A -> 0` with `k = 1`, `dt = 1/10`, Poisson draws `0, 1, 2, 0, ...`
and `0` for mean `0`): the draws are `n_r = [0, 0]`, one diffusion event from
mesh `0` to mesh `1` and none back; after one `Iterate` mesh `0` still holds
`100` and mesh `1` holds `0 + 0 - 0 + 1 = 1`, on the grid and on the graph. -/
theorem C33_tauleap_step_witness :
    (rd chemostatTauLeap3D.Iterate.2.mesh_x (0 * chemostatTauLeap3D.n_species + 0) = 100 ∧
      rd chemostatTauLeap3D.Iterate.2.mesh_x (1 * chemostatTauLeap3D.n_species + 0) = 1) ∧
    (rd chemostatTauLeapGraph.Iterate.2.mesh_x (0 * chemostatTauLeapGraph.n_species + 0) =
        100 ∧
      rd chemostatTauLeapGraph.Iterate.2.mesh_x (1 * chemostatTauLeapGraph.n_species + 0) =
        1) :=
  ⟨⟨(((C33_tauleap_step.1 chemostatTauLeap3D (by decide!) (by decide!) (by decide!)
        (by decide!)).2.2.2 0 0 (by decide!) (by decide!)).2 (by decide!)).trans (by decide!),
    (((C33_tauleap_step.1 chemostatTauLeap3D (by decide!) (by decide!) (by decide!)
        (by decide!)).2.2.2 1 0 (by decide!) (by decide!)).1 (by decide!)).trans (by decide!)⟩,
   ⟨(((C33_tauleap_step.2 chemostatTauLeapGraph (by decide!) (by decide!) (by decide!)
        (by decide!) (by decide!)).2.2.2 0 0 (by decide!) (by decide!)).2
        (by decide!)).trans (by decide!),
    (((C33_tauleap_step.2 chemostatTauLeapGraph (by decide!) (by decide!) (by decide!)
        (by decide!) (by decide!)).2.2.2 1 0 (by decide!) (by decide!)).1
        (by decide!)).trans (by decide!)⟩⟩

/-! ## The sampling pass that ends `Init` -/

namespace SimulationAlgorithmBase

/-- When a target at or after `sample_pos` is later than `t`, the loop of
`SampleOnTSample` leaves at that target at the latest: it reads `t_samples` at
no index past it. -/
theorem SampleOnTSampleReads_le (k : Nat) : ∀ (b : SimulationAlgorithmBase) (q : Nat),
    b.sample_pos ≤ q → b.t < rd b.t_samples q → ∀ r ∈ SampleOnTSampleReads k b, r ≤ q := by
  induction k with
  | zero =>
    intro b q hq _ r hr
    rw [SampleOnTSampleReads, List.mem_singleton] at hr
    rw [hr]
    exact hq
  | succ k ih =>
    intro b q hq ht r hr
    rw [SampleOnTSampleReads, List.mem_cons] at hr
    rcases hr with h | h
    · rw [h]
      exact hq
    · split_ifs at h with hc
      · have hne : b.sample_pos ≠ q := fun e => by
          rw [e] at hc
          exact absurd hc.1 (not_le.mpr ht)
        obtain ⟨sx, st, g, hf⟩ := Sample_frame b
        refine ih { b.Sample with sample_pos := b.sample_pos + 1 } q ?_ ?_ r h
        · show b.sample_pos + 1 ≤ q
          omega
        · show b.Sample.t < rd b.Sample.t_samples q
          rw [hf]
          exact ht
      · exact absurd h (List.not_mem_nil r)

/-- The sampling pass reads `t_samples` inside the vector under every policy
but `on_t_sample`, and under `on_t_sample` when a target at or after
`sample_pos` is later than `t`. -/
theorem samplingStepInBounds_of_target (b : SimulationAlgorithmBase)
    (hl : b.n_samples ≤ b.t_samples.length)
    (h : b.sampling_policy_code = 0 →
      ∃ q, b.sample_pos ≤ q ∧ q < b.n_samples ∧ b.t < rd b.t_samples q) :
    b.samplingStepInBounds = true := by
  unfold samplingStepInBounds samplingStepReads
  by_cases hp : b.sampling_policy_code = 0
  · rw [if_pos hp, List.all_eq_true]
    obtain ⟨q, h1, h2, h3⟩ := h hp
    intro r hr
    have := SampleOnTSampleReads_le _ b q h1 h3 r hr
    exact decide_eq_true (by omega)
  · rw [if_neg hp]
    rfl

/-- With no target at all the sampling pass under `on_t_sample` reads index
`0` of the empty vector. -/
theorem samplingStepInBounds_no_target (b : SimulationAlgorithmBase)
    (hp : b.sampling_policy_code = 0) (hl : b.t_samples = []) :
    b.samplingStepInBounds = false := by
  unfold samplingStepInBounds samplingStepReads tSampleReads
  rw [if_pos hp, hl]
  cases (b.n_samples - b.sample_pos) <;> rfl

end SimulationAlgorithmBase

theorem MkVec_length {α β : Type} [Zero α] [Zero β] (cast : α → β) (a : List α) (len : Nat) :
    (MkVec cast a len).length = len := by
  unfold MkVec
  rw [forLoop_preserve (fun v : List β => v.length) _ _ _ (fun i _ v => length_wr _ _ _),
    List.length_replicate]

theorem rd_MkVec {α β : Type} [Zero α] [Zero β] (cast : α → β) (a : List α) (len c : Nat)
    (hc : c < len) : rd (MkVec cast a len) c = cast (rd a c) := by
  unfold MkVec
  exact (forLoop_cells (fun (v : List β) f => rd v f) (fun v => v.length = len)
    (fun i f => f = i) (fun f x => x = cast (rd a f)) len _ _ (List.length_replicate _ _)
    (fun a1 b1 f _ _ e1 e2 => e1.symm.trans e2)
    (fun i hi v hv => ⟨(length_wr _ _ _).trans hv,
      fun f hf => by rw [hf]; exact rd_wr_self _ _ (by rw [hv]; exact hi),
      fun f hf => rd_wr_ne _ _ (fun e => hf e.symm)⟩)).2 c hc c rfl

theorem samplingPolicyCode_zero (s : String) (c : Int) (h : samplingPolicyCode s = some c)
    (hc : c = 0) : s = "on_t_sample" := by
  unfold samplingPolicyCode at h
  by_cases h0 : CompareStr s "on_t_sample" = true
  · exact (CompareStr_iff _ _).mp h0
  · rw [if_neg h0] at h
    split_ifs at h <;> simp at h <;> omega

/-- The shared members of the grid object on which `Init` calls `SamplingStep`
are those set from the arguments. -/
theorem GridAlgo.InitSetup_base (m : Libm) (a : GridAlgo)
    (w h d n_species n_reactions n_env : Nat) (mesh_x0 : List ℚ) (mesh_chstt mesh_env : List Int)
    (mesh_vol : ℚ) (k sub sto r_env D : List ℚ) (boundary_conditions : List Int) (sample_n : Nat)
    (t_samples : List ℚ) (sampling_policy_code : Int) (sampling_interval t_max time_step : ℚ)
    (seed : Rng) :
    ∃ kr, (a.InitSetup m w h d n_species n_reactions n_env mesh_x0 mesh_chstt mesh_env mesh_vol k
        sub sto r_env D boundary_conditions sample_n t_samples sampling_policy_code
        sampling_interval t_max time_step seed).base.toSimulationAlgorithmBase =
      { n_meshes := w * h * d, n_species := n_species, n_reactions := n_reactions,
        n_env := n_env, mesh_x := mesh_x0, mesh_chstt := mesh_chstt, mesh_env := mesh_env,
        sto := sto, sub := sub, mesh_kr := kr, n_samples := sample_n, sample_pos := 0,
        t_samples := t_samples, sampled_mesh_x := [], sampled_t := [],
        sampling_policy_code := sampling_policy_code, sampling_interval := sampling_interval,
        t_max := t_max, sampling_done_this_iteration := false, last_tsi_ratio := -1, t := 0,
        dt := time_step, complete := false, rng := seed } := by
  obtain ⟨kr, hkr⟩ := SimulationAlgorithm3DBase.Init_base m a.base w h d n_species n_reactions
    n_env mesh_x0 mesh_chstt mesh_env mesh_vol k sub sto r_env D boundary_conditions sample_n
    t_samples sampling_policy_code sampling_interval t_max time_step seed
  refine ⟨kr, ?_⟩
  rw [← hkr]
  cases a <;> rfl

/-- Method `Init` on a grid object is `SamplingStep` on the object that
`InitSetup` gives. -/
theorem GridAlgo.Init_eq_setup (m : Libm) (a : GridAlgo)
    (w h d n_species n_reactions n_env : Nat) (mesh_x0 : List ℚ) (mesh_chstt mesh_env : List Int)
    (mesh_vol : ℚ) (k sub sto r_env D : List ℚ) (boundary_conditions : List Int) (sample_n : Nat)
    (t_samples : List ℚ) (sampling_policy_code : Int) (sampling_interval t_max time_step : ℚ)
    (seed : Rng) :
    a.Init m w h d n_species n_reactions n_env mesh_x0 mesh_chstt mesh_env mesh_vol k sub sto
        r_env D boundary_conditions sample_n t_samples sampling_policy_code sampling_interval
        t_max time_step seed =
      (a.InitSetup m w h d n_species n_reactions n_env mesh_x0 mesh_chstt mesh_env mesh_vol k sub
        sto r_env D boundary_conditions sample_n t_samples sampling_policy_code sampling_interval
        t_max time_step seed).withBase
        { (a.InitSetup m w h d n_species n_reactions n_env mesh_x0 mesh_chstt mesh_env mesh_vol k
            sub sto r_env D boundary_conditions sample_n t_samples sampling_policy_code
            sampling_interval t_max time_step seed).base with
          toSimulationAlgorithmBase :=
            (a.InitSetup m w h d n_species n_reactions n_env mesh_x0 mesh_chstt mesh_env mesh_vol
              k sub sto r_env D boundary_conditions sample_n t_samples sampling_policy_code
              sampling_interval t_max time_step
              seed).base.toSimulationAlgorithmBase.SamplingStep } :=
  rfl

/-- The call of `Init` on a grid object returns when its sampling pass stays
inside `t_samples`: under every policy but `on_t_sample`, and under
`on_t_sample` when one of the `sample_n` targets is later than `0`. -/
theorem GridAlgo.InitChecked_of_target (m : Libm) (a : GridAlgo)
    (w h d n_species n_reactions n_env : Nat) (mesh_x0 : List ℚ) (mesh_chstt mesh_env : List Int)
    (mesh_vol : ℚ) (k sub sto r_env D : List ℚ) (boundary_conditions : List Int) (sample_n : Nat)
    (t_samples : List ℚ) (sampling_policy_code : Int) (sampling_interval t_max time_step : ℚ)
    (seed : Rng) (hl : sample_n ≤ t_samples.length)
    (ht : sampling_policy_code = 0 → ∃ q, q < sample_n ∧ 0 < rd t_samples q) :
    a.InitChecked m w h d n_species n_reactions n_env mesh_x0 mesh_chstt mesh_env mesh_vol k sub
        sto r_env D boundary_conditions sample_n t_samples sampling_policy_code sampling_interval
        t_max time_step seed =
      some (a.Init m w h d n_species n_reactions n_env mesh_x0 mesh_chstt mesh_env mesh_vol k sub
        sto r_env D boundary_conditions sample_n t_samples sampling_policy_code sampling_interval
        t_max time_step seed) := by
  obtain ⟨kr, hkr⟩ := GridAlgo.InitSetup_base m a w h d n_species n_reactions n_env mesh_x0
    mesh_chstt mesh_env mesh_vol k sub sto r_env D boundary_conditions sample_n t_samples
    sampling_policy_code sampling_interval t_max time_step seed
  unfold GridAlgo.InitChecked
  rw [hkr, if_pos]
  refine SimulationAlgorithmBase.samplingStepInBounds_of_target _ hl (fun hp => ?_)
  obtain ⟨q, h1, h2⟩ := ht hp
  exact ⟨q, Nat.zero_le _, h1, h2⟩

/-- The call of `Init` on a grid object under `on_t_sample` with no target
does not return. -/
theorem GridAlgo.InitChecked_no_target (m : Libm) (a : GridAlgo)
    (w h d n_species n_reactions n_env : Nat) (mesh_x0 : List ℚ) (mesh_chstt mesh_env : List Int)
    (mesh_vol : ℚ) (k sub sto r_env D : List ℚ) (boundary_conditions : List Int)
    (sampling_interval t_max time_step : ℚ) (seed : Rng) :
    a.InitChecked m w h d n_species n_reactions n_env mesh_x0 mesh_chstt mesh_env mesh_vol k sub
        sto r_env D boundary_conditions 0 [] 0 sampling_interval t_max time_step seed = none := by
  obtain ⟨kr, hkr⟩ := GridAlgo.InitSetup_base m a w h d n_species n_reactions n_env mesh_x0
    mesh_chstt mesh_env mesh_vol k sub sto r_env D boundary_conditions 0 [] 0
    sampling_interval t_max time_step seed
  unfold GridAlgo.InitChecked
  rw [hkr, SimulationAlgorithmBase.samplingStepInBounds_no_target _ rfl rfl]
  rfl

/-- The shared members of the graph object on which `Init` calls
`SamplingStep` are those set from the arguments. -/
theorem GraphAlgo.InitSetup_base_graph (m : Libm) (a : GraphAlgo)
    (n_nodes n_species n_reactions n_env n_edges : Nat) (edge_i edge_j : List Nat)
    (edge_sfc edge_dst : List ℚ) (mesh_x0 : List ℚ) (mesh_chstt mesh_env : List Int)
    (mesh_vol : List ℚ) (k sub sto r_env D : List ℚ) (sample_n : Nat) (t_samples : List ℚ)
    (sampling_policy_code : Int) (sampling_interval t_max time_step : ℚ) (seed : Rng) :
    ∃ kr, (a.InitSetup m n_nodes n_species n_reactions n_env n_edges edge_i edge_j edge_sfc
        edge_dst mesh_x0 mesh_chstt mesh_env mesh_vol k sub sto r_env D sample_n t_samples
        sampling_policy_code sampling_interval t_max time_step
        seed).base.toSimulationAlgorithmBase =
      { n_meshes := n_nodes, n_species := n_species, n_reactions := n_reactions,
        n_env := n_env, mesh_x := mesh_x0, mesh_chstt := mesh_chstt, mesh_env := mesh_env,
        sto := sto, sub := sub, mesh_kr := kr, n_samples := sample_n, sample_pos := 0,
        t_samples := t_samples, sampled_mesh_x := [], sampled_t := [],
        sampling_policy_code := sampling_policy_code, sampling_interval := sampling_interval,
        t_max := t_max, sampling_done_this_iteration := false, last_tsi_ratio := -1, t := 0,
        dt := time_step, complete := false, rng := seed } := by
  obtain ⟨kr, hkr⟩ := SimulationAlgorithmGraphBase.Init_base_graph m a.base n_nodes n_species
    n_reactions n_env n_edges edge_i edge_j edge_sfc edge_dst mesh_x0 mesh_chstt mesh_env mesh_vol
    k sub sto r_env D sample_n t_samples sampling_policy_code sampling_interval t_max time_step
    seed
  refine ⟨kr, ?_⟩
  rw [← hkr]
  unfold GraphAlgo.InitSetup
  rw [GraphAlgo.AlgorithmSpecificInit_base, GraphAlgo.base_withBase]

/-- Method `Init` on a graph object is `SamplingStep` on the object that
`InitSetup` gives. -/
theorem GraphAlgo.Init_eq_setup_graph (m : Libm) (a : GraphAlgo)
    (n_nodes n_species n_reactions n_env n_edges : Nat) (edge_i edge_j : List Nat)
    (edge_sfc edge_dst : List ℚ) (mesh_x0 : List ℚ) (mesh_chstt mesh_env : List Int)
    (mesh_vol : List ℚ) (k sub sto r_env D : List ℚ) (sample_n : Nat) (t_samples : List ℚ)
    (sampling_policy_code : Int) (sampling_interval t_max time_step : ℚ) (seed : Rng) :
    a.Init m n_nodes n_species n_reactions n_env n_edges edge_i edge_j edge_sfc edge_dst mesh_x0
        mesh_chstt mesh_env mesh_vol k sub sto r_env D sample_n t_samples sampling_policy_code
        sampling_interval t_max time_step seed =
      (a.InitSetup m n_nodes n_species n_reactions n_env n_edges edge_i edge_j edge_sfc edge_dst
        mesh_x0 mesh_chstt mesh_env mesh_vol k sub sto r_env D sample_n t_samples
        sampling_policy_code sampling_interval t_max time_step seed).withBase
        { (a.InitSetup m n_nodes n_species n_reactions n_env n_edges edge_i edge_j edge_sfc
            edge_dst mesh_x0 mesh_chstt mesh_env mesh_vol k sub sto r_env D sample_n t_samples
            sampling_policy_code sampling_interval t_max time_step seed).base with
          toSimulationAlgorithmBase :=
            (a.InitSetup m n_nodes n_species n_reactions n_env n_edges edge_i edge_j edge_sfc
              edge_dst mesh_x0 mesh_chstt mesh_env mesh_vol k sub sto r_env D sample_n t_samples
              sampling_policy_code sampling_interval t_max time_step
              seed).base.toSimulationAlgorithmBase.SamplingStep } :=
  rfl

/-- The call of `Init` on a graph object returns when its sampling pass stays
inside `t_samples`. -/
theorem GraphAlgo.InitChecked_of_target_graph (m : Libm) (a : GraphAlgo)
    (n_nodes n_species n_reactions n_env n_edges : Nat) (edge_i edge_j : List Nat)
    (edge_sfc edge_dst : List ℚ) (mesh_x0 : List ℚ) (mesh_chstt mesh_env : List Int)
    (mesh_vol : List ℚ) (k sub sto r_env D : List ℚ) (sample_n : Nat) (t_samples : List ℚ)
    (sampling_policy_code : Int) (sampling_interval t_max time_step : ℚ) (seed : Rng)
    (hl : sample_n ≤ t_samples.length)
    (ht : sampling_policy_code = 0 → ∃ q, q < sample_n ∧ 0 < rd t_samples q) :
    a.InitChecked m n_nodes n_species n_reactions n_env n_edges edge_i edge_j edge_sfc edge_dst
        mesh_x0 mesh_chstt mesh_env mesh_vol k sub sto r_env D sample_n t_samples
        sampling_policy_code sampling_interval t_max time_step seed =
      some (a.Init m n_nodes n_species n_reactions n_env n_edges edge_i edge_j edge_sfc edge_dst
        mesh_x0 mesh_chstt mesh_env mesh_vol k sub sto r_env D sample_n t_samples
        sampling_policy_code sampling_interval t_max time_step seed) := by
  obtain ⟨kr, hkr⟩ := GraphAlgo.InitSetup_base_graph m a n_nodes n_species n_reactions n_env
    n_edges edge_i edge_j edge_sfc edge_dst mesh_x0 mesh_chstt mesh_env mesh_vol k sub sto r_env
    D sample_n t_samples sampling_policy_code sampling_interval t_max time_step seed
  unfold GraphAlgo.InitChecked
  rw [hkr, if_pos]
  refine SimulationAlgorithmBase.samplingStepInBounds_of_target _ hl (fun hp => ?_)
  obtain ⟨q, h1, h2⟩ := ht hp
  exact ⟨q, Nat.zero_le _, h1, h2⟩

/-- The call of `Init` on a graph object under `on_t_sample` with no target
does not return. -/
theorem GraphAlgo.InitChecked_no_target_graph (m : Libm) (a : GraphAlgo)
    (n_nodes n_species n_reactions n_env n_edges : Nat) (edge_i edge_j : List Nat)
    (edge_sfc edge_dst : List ℚ) (mesh_x0 : List ℚ) (mesh_chstt mesh_env : List Int)
    (mesh_vol : List ℚ) (k sub sto r_env D : List ℚ)
    (sampling_interval t_max time_step : ℚ) (seed : Rng) :
    a.InitChecked m n_nodes n_species n_reactions n_env n_edges edge_i edge_j edge_sfc edge_dst
        mesh_x0 mesh_chstt mesh_env mesh_vol k sub sto r_env D 0 [] 0 sampling_interval t_max
        time_step seed = none := by
  obtain ⟨kr, hkr⟩ := GraphAlgo.InitSetup_base_graph m a n_nodes n_species n_reactions n_env
    n_edges edge_i edge_j edge_sfc edge_dst mesh_x0 mesh_chstt mesh_env mesh_vol k sub sto r_env
    D 0 [] 0 sampling_interval t_max time_step seed
  unfold GraphAlgo.InitChecked
  rw [hkr, SimulationAlgorithmBase.samplingStepInBounds_no_target _ rfl rfl]
  rfl

/-! ## C10: the round trip through the initialisers -/

/-- C10.  For every `n_species`, `n_meshes` and every species-major array `a`
of `n_species * n_meshes` cells: `SpeciesFirstToMeshFirstArray` puts
`a[s*n_meshes+i]` in cell `i*n_species+s`, and the loops of `GetState` applied
to the result give `a` back in the caller's buffer.  With valid strings and the
algorithm `euler`, `Initialize3D` and `InitializeGraph` return `0` and
`GetState` then returns `0` and fills the buffer with the caller's
`mesh_state`.  Under the policy `on_t_sample` this is stated for calls with a
target later than `0` among the `sample_n` targets: the sampling pass of `Init`
then reads `t_samples` inside the vector, and otherwise the call returns no
status. -/
theorem C10_layout_round_trip :
    (∀ (n_species n_meshes : Nat) (a buf : List ℚ), a.length = n_species * n_meshes →
      buf.length = n_species * n_meshes →
      (∀ i s, i < n_meshes → s < n_species →
        rd (SpeciesFirstToMeshFirstArray a n_species n_meshes) (i * n_species + s) =
          rd a (s * n_meshes + i)) ∧
      copyState (SpeciesFirstToMeshFirstArray a n_species n_meshes) n_species n_meshes buf = a) ∧
    (∀ (fuel : Nat) (m : Libm) (G : Session) (w h d n_species n_reactions n_env : Nat)
      (mesh_state : List ℚ) (mesh_chstt mesh_env : List Int) (mesh_vol : ℚ) (k : List ℚ)
      (sub sto r_env : List Int) (D : List ℚ) (bx b_y bz : String) (sample_n : Nat)
      (sample_t : List ℚ) (sampling_policy : String) (sampling_interval t_max time_step : ℚ)
      (seed : Rng) (buf : List ℚ),
      (bx = "reflecting" ∨ bx = "periodical") → (b_y = "reflecting" ∨ b_y = "periodical") →
      (bz = "reflecting" ∨ bz = "periodical") →
      (sampling_policy = "on_t_sample" ∨ sampling_policy = "on_iteration" ∨
        sampling_policy = "on_interval" ∨ sampling_policy = "no_sampling") →
      (sampling_policy = "on_t_sample" → ∃ q, q < sample_n ∧ 0 < rd sample_t q) →
      mesh_state.length = w * h * d * n_species → buf.length = w * h * d * n_species →
      ∃ G1, Initialize3D fuel m G w h d n_species n_reactions n_env mesh_state mesh_chstt mesh_env
          mesh_vol k sub sto r_env D bx b_y bz sample_n sample_t sampling_policy
          sampling_interval t_max time_step seed "euler" = some (0, G1) ∧
        GetState G1 buf = some (0, mesh_state)) ∧
    (∀ (fuel : Nat) (m : Libm) (G : Session) (n_nodes n_species n_reactions n_env n_edges : Nat)
      (edge_i edge_j : List Nat) (edge_sfc edge_dst : List ℚ) (mesh_state : List ℚ)
      (mesh_chstt mesh_env : List Int) (mesh_vol : List ℚ) (k : List ℚ)
      (sub sto r_env : List Int) (D : List ℚ) (sample_n : Nat) (sample_t : List ℚ)
      (sampling_policy : String) (sampling_interval t_max time_step : ℚ) (seed : Rng)
      (buf : List ℚ),
      (sampling_policy = "on_t_sample" ∨ sampling_policy = "on_iteration" ∨
        sampling_policy = "on_interval" ∨ sampling_policy = "no_sampling") →
      (sampling_policy = "on_t_sample" → ∃ q, q < sample_n ∧ 0 < rd sample_t q) →
      mesh_state.length = n_nodes * n_species → buf.length = n_nodes * n_species →
      ∃ G1, InitializeGraph fuel m G n_nodes n_species n_reactions n_env n_edges edge_i edge_j
          edge_sfc edge_dst mesh_state mesh_chstt mesh_env mesh_vol k sub sto r_env D sample_n
          sample_t sampling_policy sampling_interval t_max time_step seed "euler" =
            some (0, G1) ∧
        GetState G1 buf = some (0, mesh_state)) := by
  refine ⟨?_, ?_, ?_⟩
  · intro n_species n_meshes a buf ha hb
    refine ⟨fun i s hi hs => ?_, copyState_SpeciesFirstToMeshFirstArray n_species n_meshes a buf
      ha hb⟩
    unfold SpeciesFirstToMeshFirstArray
    exact forLoop_transpose n_species n_meshes (fun s i => rd a (s * n_meshes + i))
      (List.replicate a.length 0) (by rw [List.length_replicate, ha, Nat.mul_comm]) i s hi hs
  · intro fuel m G w h d n_species n_reactions n_env mesh_state mesh_chstt mesh_env mesh_vol k
      sub sto r_env D bx b_y bz sample_n sample_t sampling_policy sampling_interval t_max
      time_step seed buf hbx hby hbz hpol htar hlen hbuf
    obtain ⟨cx, hx⟩ := boundaryCode_valid bx hbx
    obtain ⟨cy, hy⟩ := boundaryCode_valid b_y hby
    obtain ⟨cz, hz⟩ := boundaryCode_valid bz hbz
    obtain ⟨cp, hp⟩ := samplingPolicyCode_valid sampling_policy hpol
    unfold Initialize3D
    dsimp only
    have hin : cp = 0 → ∃ q, q < sample_n ∧ 0 < rd (MkVec (fun q : ℚ => q) sample_t sample_n) q :=
      fun hc => by
        obtain ⟨q, h1, h2⟩ := htar (samplingPolicyCode_zero _ _ hp hc)
        exact ⟨q, h1, by rw [rd_MkVec _ _ _ _ h1]; exact h2⟩
    rw [hx, hy, hz, hp, newGridAlgo_euler, initialMeshX_euler]
    dsimp only
    rw [GridAlgo.InitChecked_of_target m (GridAlgo.euler Euler3D.new) w h d n_species
      n_reactions n_env _ _ _ mesh_vol _ _ _ _ _ [cx, cy, cz] sample_n
      (MkVec (fun q : ℚ => q) sample_t sample_n) cp sampling_interval t_max time_step seed
      (le_of_eq (MkVec_length _ _ _).symm) hin]
    refine ⟨_, rfl, ?_⟩
    unfold GetState
    dsimp only
    rw [if_pos rfl]
    obtain ⟨e1, e2, e3⟩ := GridAlgo.Init_state m (GridAlgo.euler Euler3D.new) w h d n_species
      n_reactions n_env
      (SpeciesFirstToMeshFirstArray (MkVec (fun q : ℚ => q) mesh_state (w * h * d * n_species))
        n_species (w * h * d))
      (SpeciesFirstToMeshFirstArray (MkVec (fun z : Int => z) mesh_chstt (w * h * d * n_species))
        n_species (w * h * d))
      (MkVec (fun z : Int => z) mesh_env (w * h * d)) mesh_vol
      (MkVec (fun q : ℚ => q) k n_reactions)
      (MkVec (fun z : Int => (z : ℚ)) sub (n_species * n_reactions))
      (MkVec (fun z : Int => (z : ℚ)) sto (n_species * n_reactions))
      (MkVec (fun z : Int => (z : ℚ)) r_env (n_reactions * n_env))
      (MkVec (fun q : ℚ => q) D (n_species * n_env)) [cx, cy, cz] sample_n
      (MkVec (fun q : ℚ => q) sample_t sample_n) cp sampling_interval t_max time_step seed _ rfl
    rw [e1, e2, e3, MkVec_id _ _ hlen,
      copyState_SpeciesFirstToMeshFirstArray n_species (w * h * d) mesh_state buf
        (by rw [hlen, Nat.mul_comm]) (by rw [hbuf, Nat.mul_comm])]
  · intro fuel m G n_nodes n_species n_reactions n_env n_edges edge_i edge_j edge_sfc edge_dst
      mesh_state mesh_chstt mesh_env mesh_vol k sub sto r_env D sample_n sample_t sampling_policy
      sampling_interval t_max time_step seed buf hpol htar hlen hbuf
    obtain ⟨cp, hp⟩ := samplingPolicyCode_valid sampling_policy hpol
    unfold InitializeGraph
    dsimp only
    have hin : cp = 0 → ∃ q, q < sample_n ∧ 0 < rd (MkVec (fun q : ℚ => q) sample_t sample_n) q :=
      fun hc => by
        obtain ⟨q, h1, h2⟩ := htar (samplingPolicyCode_zero _ _ hp hc)
        exact ⟨q, h1, by rw [rd_MkVec _ _ _ _ h1]; exact h2⟩
    rw [hp, newGraphAlgo_euler, initialMeshX_euler]
    dsimp only
    rw [GraphAlgo.InitChecked_of_target_graph m (GraphAlgo.euler EulerGraph.new) n_nodes
      n_species n_reactions n_env n_edges _ _ _ _ _ _ _ _ _ _ _ _ _ sample_n
      (MkVec (fun q : ℚ => q) sample_t sample_n) cp sampling_interval t_max time_step seed
      (le_of_eq (MkVec_length _ _ _).symm) hin]
    refine ⟨_, rfl, ?_⟩
    unfold GetState
    dsimp only
    rw [if_neg (by decide : ¬ ((1 : Int) = 0))]
    obtain ⟨e1, e2, e3⟩ := GraphAlgo.Init_state_graph m (GraphAlgo.euler EulerGraph.new) n_nodes
      n_species n_reactions n_env n_edges
      (MkVec (fun z : Nat => z) edge_i n_edges)
      (MkVec (fun z : Nat => z) edge_j n_edges)
      (MkVec (fun q : ℚ => q) edge_sfc n_edges)
      (MkVec (fun q : ℚ => q) edge_dst n_edges)
      (SpeciesFirstToMeshFirstArray (MkVec (fun q : ℚ => q) mesh_state (n_nodes * n_species))
        n_species n_nodes)
      (SpeciesFirstToMeshFirstArray (MkVec (fun z : Int => z) mesh_chstt (n_nodes * n_species))
        n_species n_nodes)
      (MkVec (fun z : Int => z) mesh_env n_nodes)
      (MkVec (fun q : ℚ => q) mesh_vol n_nodes)
      (MkVec (fun q : ℚ => q) k n_reactions)
      (MkVec (fun z : Int => (z : ℚ)) sub (n_species * n_reactions))
      (MkVec (fun z : Int => (z : ℚ)) sto (n_species * n_reactions))
      (MkVec (fun z : Int => (z : ℚ)) r_env (n_reactions * n_env))
      (MkVec (fun q : ℚ => q) D (n_species * n_env)) sample_n
      (MkVec (fun q : ℚ => q) sample_t sample_n) cp sampling_interval t_max time_step seed _ rfl
    rw [e1, e2, e3, MkVec_id _ _ hlen,
      copyState_SpeciesFirstToMeshFirstArray n_species n_nodes mesh_state buf
        (by rw [hlen, Nat.mul_comm]) (by rw [hbuf, Nat.mul_comm])]

/-- C10 on two species and three meshes: the species-major array
`[1, 2, 3, 4, 5, 6]` becomes `[1, 4, 2, 5, 3, 6]` mesh-major and comes back;
and `GetState` after `Initialize3D` (3x1x1 grid, policy `on_t_sample` with the
targets `1/2` and `1`) and after `InitializeGraph` (chain of two edges, no
sampling) with the algorithm `euler` returns it. -/
theorem C10_layout_round_trip_witness :
    SpeciesFirstToMeshFirstArray [(1 : ℚ), 2, 3, 4, 5, 6] 2 3 = [1, 4, 2, 5, 3, 6] ∧
    copyState (SpeciesFirstToMeshFirstArray [1, 2, 3, 4, 5, 6] 2 3) 2 3 [0, 0, 0, 0, 0, 0] =
      [1, 2, 3, 4, 5, 6] ∧
    (∃ G1, Initialize3D 0 scenarioLibm Session.initial 3 1 1 2 1 1 [1, 2, 3, 4, 5, 6]
        [0, 0, 0, 0, 0, 0] [0, 0, 0] 1 [1] [1, 0] [-1, 1] [1] [1, 1] "reflecting" "periodical"
        "reflecting" 2 [1 / 2, 1] "on_t_sample" 1 10 (1 / 10) scenarioRng "euler" = some (0, G1) ∧
      GetState G1 [0, 0, 0, 0, 0, 0] = some (0, [1, 2, 3, 4, 5, 6])) ∧
    (∃ G1, InitializeGraph 0 scenarioLibm Session.initial 3 2 1 1 2 [0, 1] [1, 2] [1, 1] [1, 1]
        [1, 2, 3, 4, 5, 6] [0, 0, 0, 0, 0, 0] [0, 0, 0] [1, 1, 1] [1] [1, 0] [-1, 1] [1] [1, 1]
        0 [] "no_sampling" 1 10 (1 / 10) scenarioRng "euler" = some (0, G1) ∧
      GetState G1 [0, 0, 0, 0, 0, 0] = some (0, [1, 2, 3, 4, 5, 6])) :=
  ⟨by decide!,
   (C10_layout_round_trip.1 2 3 [1, 2, 3, 4, 5, 6] [0, 0, 0, 0, 0, 0] rfl rfl).2,
   C10_layout_round_trip.2.1 0 scenarioLibm Session.initial 3 1 1 2 1 1 [1, 2, 3, 4, 5, 6]
      [0, 0, 0, 0, 0, 0] [0, 0, 0] 1 [1] [1, 0] [-1, 1] [1] [1, 1] "reflecting" "periodical"
      "reflecting" 2 [1 / 2, 1] "on_t_sample" 1 10 (1 / 10) scenarioRng [0, 0, 0, 0, 0, 0]
      (Or.inl rfl) (Or.inr rfl) (Or.inl rfl) (Or.inl rfl)
      (fun _ => ⟨0, by decide, by decide!⟩) rfl rfl,
   C10_layout_round_trip.2.2 0 scenarioLibm Session.initial 3 2 1 1 2 [0, 1] [1, 2] [1, 1] [1, 1]
      [1, 2, 3, 4, 5, 6] [0, 0, 0, 0, 0, 0] [0, 0, 0] [1, 1, 1] [1] [1, 0] [-1, 1] [1] [1, 1]
      0 [] "no_sampling" 1 10 (1 / 10) scenarioRng [0, 0, 0, 0, 0, 0]
      (Or.inr (Or.inr (Or.inr rfl))) (fun h => absurd h (by decide)) rfl rfl⟩

/-! ## C9: the status of the initialisers -/

theorem newGridAlgo_valid (s : String) (h : s = "gillespie" ∨ s = "tauleap" ∨ s = "euler") :
    ∃ a, newGridAlgo s = some a := by
  rcases h with h | h | h <;> rw [h]
  · exact ⟨_, rfl⟩
  · exact ⟨_, rfl⟩
  · exact ⟨_, newGridAlgo_euler⟩

theorem newGraphAlgo_valid (s : String) (h : s = "gillespie" ∨ s = "tauleap" ∨ s = "euler") :
    ∃ a, newGraphAlgo s = some a := by
  rcases h with h | h | h <;> rw [h]
  · exact ⟨_, rfl⟩
  · exact ⟨_, rfl⟩
  · exact ⟨_, newGraphAlgo_euler⟩

/-- The stochastic initial state of the two meshes that hold `3/10` each is
never computed when the Poisson draws give `0` and `1`. -/
theorem initialMeshX_stuck (fuel : Nat) (option : String)
    (h : option = "gillespie" ∨ option = "tauleap") (uniform : Nat → ℚ)
    (normal : Nat → ℚ → ℚ) :
    initialMeshX fuel option [3 / 10, 3 / 10] 2 1 (stuckRng uniform normal) = none := by
  have hs : (CompareStr option "tauleap" || CompareStr option "gillespie") = true := by
    rcases h with h | h <;> rw [h] <;> decide
  have ha : SpeciesFirstToMeshFirstArray (MkVec (fun q : ℚ => q) [3 / 10, 3 / 10] (2 * 1)) 1 2 =
      [3 / 10, 3 / 10] := by decide!
  unfold initialMeshX
  simp only [hs, ha]
  exact GenerateStochasticDistribution_stuck fuel uniform normal

/-- C9 fails on the code: a call with valid strings does not always return `0`,
because it does not always return.  What holds is the order of the tests: the
status of `Initialize3D` is `2` when one of the three boundary strings is
neither `reflecting` nor `periodical`; otherwise `3` when the sampling policy
is none of the four names; otherwise `1` when the algorithm is none of the
three names; otherwise `0` if the call returns.  `InitializeGraph` has the same
chain without the boundary test and never returns `2`.  With valid strings the
call returns exactly when the initial state is computed, provided the sampling
pass of `Init` stays inside `t_samples` (no policy `on_t_sample`, or a target
later than `0`); with the algorithm `euler` the initial state is always
computed.  Two kinds of valid call return no status.  With the algorithm
`gillespie` or `tauleap`, two meshes that hold `3/10` each and the Poisson
draws `0` and `1`, `GenerateStochasticDistribution` never returns.  With the
policy `on_t_sample` and no target, the sampling pass of `Init` reads
`t_samples[0]` of an empty vector. -/
theorem C9_valid_call_without_status :
    (∀ (fuel : Nat) (m : Libm) (G : Session) (w h d n_species n_reactions n_env : Nat)
      (mesh_state : List ℚ) (mesh_chstt mesh_env : List Int) (mesh_vol : ℚ) (k : List ℚ)
      (sub sto r_env : List Int) (D : List ℚ) (bx b_y bz : String) (sample_n : Nat)
      (sample_t : List ℚ) (sampling_policy : String) (sampling_interval t_max time_step : ℚ)
      (seed : Rng) (option : String),
      (Initialize3D fuel m G w h d n_species n_reactions n_env mesh_state mesh_chstt mesh_env
        mesh_vol k sub sto r_env D bx b_y bz sample_n sample_t sampling_policy sampling_interval
        t_max time_step seed option).map Prod.fst =
      (if (bx ≠ "reflecting" ∧ bx ≠ "periodical") ∨ (b_y ≠ "reflecting" ∧ b_y ≠ "periodical") ∨
          (bz ≠ "reflecting" ∧ bz ≠ "periodical") then some 2
       else if sampling_policy ≠ "on_t_sample" ∧ sampling_policy ≠ "on_iteration" ∧
          sampling_policy ≠ "on_interval" ∧ sampling_policy ≠ "no_sampling" then some 3
       else if option ≠ "gillespie" ∧ option ≠ "tauleap" ∧ option ≠ "euler" then some 1
       else if (Initialize3D fuel m G w h d n_species n_reactions n_env mesh_state mesh_chstt
          mesh_env mesh_vol k sub sto r_env D bx b_y bz sample_n sample_t sampling_policy
          sampling_interval t_max time_step seed option).isSome = true then some 0
       else none)) ∧
    (∀ (fuel : Nat) (m : Libm) (G : Session) (n_nodes n_species n_reactions n_env n_edges : Nat)
      (edge_i edge_j : List Nat) (edge_sfc edge_dst : List ℚ) (mesh_state : List ℚ)
      (mesh_chstt mesh_env : List Int) (mesh_vol : List ℚ) (k : List ℚ)
      (sub sto r_env : List Int) (D : List ℚ) (sample_n : Nat) (sample_t : List ℚ)
      (sampling_policy : String) (sampling_interval t_max time_step : ℚ) (seed : Rng)
      (option : String),
      (InitializeGraph fuel m G n_nodes n_species n_reactions n_env n_edges edge_i edge_j edge_sfc
        edge_dst mesh_state mesh_chstt mesh_env mesh_vol k sub sto r_env D sample_n sample_t
        sampling_policy sampling_interval t_max time_step seed option).map Prod.fst =
      (if sampling_policy ≠ "on_t_sample" ∧ sampling_policy ≠ "on_iteration" ∧
          sampling_policy ≠ "on_interval" ∧ sampling_policy ≠ "no_sampling" then some 3
       else if option ≠ "gillespie" ∧ option ≠ "tauleap" ∧ option ≠ "euler" then some 1
       else if (InitializeGraph fuel m G n_nodes n_species n_reactions n_env n_edges edge_i
          edge_j edge_sfc edge_dst mesh_state mesh_chstt mesh_env mesh_vol k sub sto r_env D
          sample_n sample_t sampling_policy sampling_interval t_max time_step seed
          option).isSome = true then some 0
       else none)) ∧
    (∀ (fuel : Nat) (m : Libm) (G : Session) (w h d n_species n_reactions n_env : Nat)
      (mesh_state : List ℚ) (mesh_chstt mesh_env : List Int) (mesh_vol : ℚ) (k : List ℚ)
      (sub sto r_env : List Int) (D : List ℚ) (bx b_y bz : String) (sample_n : Nat)
      (sample_t : List ℚ) (sampling_policy : String) (sampling_interval t_max time_step : ℚ)
      (seed : Rng) (option : String),
      (bx = "reflecting" ∨ bx = "periodical") → (b_y = "reflecting" ∨ b_y = "periodical") →
      (bz = "reflecting" ∨ bz = "periodical") →
      (sampling_policy = "on_t_sample" ∨ sampling_policy = "on_iteration" ∨
        sampling_policy = "on_interval" ∨ sampling_policy = "no_sampling") →
      (option = "gillespie" ∨ option = "tauleap" ∨ option = "euler") →
      (sampling_policy = "on_t_sample" → ∃ q, q < sample_n ∧ 0 < rd sample_t q) →
      (Initialize3D fuel m G w h d n_species n_reactions n_env mesh_state mesh_chstt mesh_env
        mesh_vol k sub sto r_env D bx b_y bz sample_n sample_t sampling_policy sampling_interval
        t_max time_step seed option).map Prod.fst =
      (initialMeshX fuel option mesh_state (w * h * d) n_species seed).map (fun _ => 0)) ∧
    (∀ (fuel : Nat) (m : Libm) (G : Session) (n_nodes n_species n_reactions n_env n_edges : Nat)
      (edge_i edge_j : List Nat) (edge_sfc edge_dst : List ℚ) (mesh_state : List ℚ)
      (mesh_chstt mesh_env : List Int) (mesh_vol : List ℚ) (k : List ℚ)
      (sub sto r_env : List Int) (D : List ℚ) (sample_n : Nat) (sample_t : List ℚ)
      (sampling_policy : String) (sampling_interval t_max time_step : ℚ) (seed : Rng)
      (option : String),
      (sampling_policy = "on_t_sample" ∨ sampling_policy = "on_iteration" ∨
        sampling_policy = "on_interval" ∨ sampling_policy = "no_sampling") →
      (option = "gillespie" ∨ option = "tauleap" ∨ option = "euler") →
      (sampling_policy = "on_t_sample" → ∃ q, q < sample_n ∧ 0 < rd sample_t q) →
      (InitializeGraph fuel m G n_nodes n_species n_reactions n_env n_edges edge_i edge_j edge_sfc
        edge_dst mesh_state mesh_chstt mesh_env mesh_vol k sub sto r_env D sample_n sample_t
        sampling_policy sampling_interval t_max time_step seed option).map Prod.fst =
      (initialMeshX fuel option mesh_state n_nodes n_species seed).map (fun _ => 0)) ∧
    (∀ (fuel : Nat) (mesh_state : List ℚ) (n_meshes n_species : Nat) (seed : Rng),
      (initialMeshX fuel "euler" mesh_state n_meshes n_species seed).map (fun _ => (0 : Int)) =
        some 0) ∧
    (∀ (fuel : Nat) (m : Libm) (G : Session) (uniform : Nat → ℚ) (normal : Nat → ℚ → ℚ),
      Initialize3D fuel m G 2 1 1 1 1 1 [3 / 10, 3 / 10] [0, 0] [0, 0] 1 [1] [1] [-1] [1] [1]
          "reflecting" "reflecting" "reflecting" 0 [] "on_iteration" 1 10 (1 / 10)
          (stuckRng uniform normal) "gillespie" = none ∧
        InitializeGraph fuel m G 2 1 1 1 1 [0] [1] [1] [1] [3 / 10, 3 / 10] [0, 0] [0, 0] [1, 1]
          [1] [1] [-1] [1] [1] 0 [] "on_iteration" 1 10 (1 / 10) (stuckRng uniform normal)
          "tauleap" = none) ∧
    (∀ (fuel : Nat) (m : Libm) (G : Session) (sample_t : List ℚ) (seed : Rng),
      Initialize3D fuel m G 2 1 1 1 1 1 [100, 0] [0, 0] [0, 0] 1 [1] [1] [-1] [1] [1]
          "reflecting" "reflecting" "reflecting" 0 sample_t "on_t_sample" 1 10 (1 / 10) seed
          "euler" = none ∧
        InitializeGraph fuel m G 2 1 1 1 1 [0] [1] [1] [1] [100, 0] [0, 0] [0, 0] [1, 1] [1] [1]
          [-1] [1] [1] 0 sample_t "on_t_sample" 1 10 (1 / 10) seed "euler" = none) := by
  have hR : boundaryCode "reflecting" = some 0 := by decide
  have hI : samplingPolicyCode "on_iteration" = some 1 := by decide
  have hT : samplingPolicyCode "on_t_sample" = some 0 := by decide
  refine ⟨?_, ?_, ?_, ?_, ?_, ?_, ?_⟩
  · intro fuel m G w h d n_species n_reactions n_env mesh_state mesh_chstt mesh_env mesh_vol k
      sub sto r_env D bx b_y bz sample_n sample_t sampling_policy sampling_interval t_max
      time_step seed option
    unfold Initialize3D
    dsimp only
    cases hx : boundaryCode bx with
    | none =>
      rw [if_pos (Or.inl ((boundaryCode_eq_none bx).mp hx))]
      rfl
    | some cx =>
      have nx : ¬ (bx ≠ "reflecting" ∧ bx ≠ "periodical") := fun hn => by
        rw [(boundaryCode_eq_none bx).mpr hn] at hx
        exact Option.noConfusion hx
      cases hy : boundaryCode b_y with
      | none =>
        rw [if_pos (Or.inr (Or.inl ((boundaryCode_eq_none b_y).mp hy)))]
        rfl
      | some cy =>
        have ny : ¬ (b_y ≠ "reflecting" ∧ b_y ≠ "periodical") := fun hn => by
          rw [(boundaryCode_eq_none b_y).mpr hn] at hy
          exact Option.noConfusion hy
        cases hz : boundaryCode bz with
        | none =>
          rw [if_pos (Or.inr (Or.inr ((boundaryCode_eq_none bz).mp hz)))]
          rfl
        | some cz =>
          have nz : ¬ (bz ≠ "reflecting" ∧ bz ≠ "periodical") := fun hn => by
            rw [(boundaryCode_eq_none bz).mpr hn] at hz
            exact Option.noConfusion hz
          rw [if_neg (fun hn => hn.elim nx (fun hn => hn.elim ny nz))]
          cases hp : samplingPolicyCode sampling_policy with
          | none =>
            rw [if_pos ((samplingPolicyCode_eq_none _).mp hp)]
            rfl
          | some cp =>
            rw [if_neg (fun hn => by
              rw [(samplingPolicyCode_eq_none _).mpr hn] at hp
              exact Option.noConfusion hp)]
            cases ha : newGridAlgo option with
            | none =>
              rw [if_pos ((newGridAlgo_eq_none _).mp ha)]
              rfl
            | some algo =>
              rw [if_neg (fun hn => by
                rw [(newGridAlgo_eq_none _).mpr hn] at ha
                exact Option.noConfusion ha)]
              cases initialMeshX fuel option mesh_state (w * h * d) n_species seed with
              | none => rfl
              | some x =>
                dsimp only
                cases GridAlgo.InitChecked m algo w h d n_species n_reactions n_env x
                  (SpeciesFirstToMeshFirstArray
                    (MkVec (fun z : Int => z) mesh_chstt (w * h * d * n_species)) n_species
                    (w * h * d))
                  (MkVec (fun z : Int => z) mesh_env (w * h * d)) mesh_vol
                  (MkVec (fun q : ℚ => q) k n_reactions)
                  (MkVec (fun z : Int => (z : ℚ)) sub (n_species * n_reactions))
                  (MkVec (fun z : Int => (z : ℚ)) sto (n_species * n_reactions))
                  (MkVec (fun z : Int => (z : ℚ)) r_env (n_reactions * n_env))
                  (MkVec (fun q : ℚ => q) D (n_species * n_env)) [cx, cy, cz] sample_n
                  (MkVec (fun q : ℚ => q) sample_t sample_n) cp sampling_interval t_max time_step
                  seed <;> rfl
  · intro fuel m G n_nodes n_species n_reactions n_env n_edges edge_i edge_j edge_sfc edge_dst
      mesh_state mesh_chstt mesh_env mesh_vol k sub sto r_env D sample_n sample_t sampling_policy
      sampling_interval t_max time_step seed option
    unfold InitializeGraph
    dsimp only
    cases hp : samplingPolicyCode sampling_policy with
    | none =>
      rw [if_pos ((samplingPolicyCode_eq_none _).mp hp)]
      rfl
    | some cp =>
      rw [if_neg (fun hn => by
        rw [(samplingPolicyCode_eq_none _).mpr hn] at hp
        exact Option.noConfusion hp)]
      cases ha : newGraphAlgo option with
      | none =>
        rw [if_pos ((newGraphAlgo_eq_none _).mp ha)]
        rfl
      | some algo =>
        rw [if_neg (fun hn => by
          rw [(newGraphAlgo_eq_none _).mpr hn] at ha
          exact Option.noConfusion ha)]
        cases initialMeshX fuel option mesh_state n_nodes n_species seed with
        | none => rfl
        | some x =>
          dsimp only
          cases GraphAlgo.InitChecked m algo n_nodes n_species n_reactions n_env n_edges
            (MkVec (fun z : Nat => z) edge_i n_edges)
            (MkVec (fun z : Nat => z) edge_j n_edges)
            (MkVec (fun q : ℚ => q) edge_sfc n_edges)
            (MkVec (fun q : ℚ => q) edge_dst n_edges) x
            (SpeciesFirstToMeshFirstArray
              (MkVec (fun z : Int => z) mesh_chstt (n_nodes * n_species)) n_species n_nodes)
            (MkVec (fun z : Int => z) mesh_env n_nodes)
            (MkVec (fun q : ℚ => q) mesh_vol n_nodes)
            (MkVec (fun q : ℚ => q) k n_reactions)
            (MkVec (fun z : Int => (z : ℚ)) sub (n_species * n_reactions))
            (MkVec (fun z : Int => (z : ℚ)) sto (n_species * n_reactions))
            (MkVec (fun z : Int => (z : ℚ)) r_env (n_reactions * n_env))
            (MkVec (fun q : ℚ => q) D (n_species * n_env)) sample_n
            (MkVec (fun q : ℚ => q) sample_t sample_n) cp sampling_interval t_max time_step
            seed <;> rfl
  · intro fuel m G w h d n_species n_reactions n_env mesh_state mesh_chstt mesh_env mesh_vol k
      sub sto r_env D bx b_y bz sample_n sample_t sampling_policy sampling_interval t_max
      time_step seed option hbx hby hbz hpol hopt htar
    obtain ⟨cx, hx⟩ := boundaryCode_valid bx hbx
    obtain ⟨cy, hy⟩ := boundaryCode_valid b_y hby
    obtain ⟨cz, hz⟩ := boundaryCode_valid bz hbz
    obtain ⟨cp, hp⟩ := samplingPolicyCode_valid sampling_policy hpol
    obtain ⟨algo, ha⟩ := newGridAlgo_valid option hopt
    have hin : cp = 0 → ∃ q, q < sample_n ∧ 0 < rd (MkVec (fun q : ℚ => q) sample_t sample_n) q :=
      fun hc => by
        obtain ⟨q, h1, h2⟩ := htar (samplingPolicyCode_zero _ _ hp hc)
        exact ⟨q, h1, by rw [rd_MkVec _ _ _ _ h1]; exact h2⟩
    unfold Initialize3D
    dsimp only
    rw [hx, hy, hz, hp, ha]
    dsimp only
    cases initialMeshX fuel option mesh_state (w * h * d) n_species seed with
    | none => rfl
    | some x =>
      dsimp only
      rw [GridAlgo.InitChecked_of_target m algo w h d n_species n_reactions n_env _ _ _ mesh_vol
        _ _ _ _ _ [cx, cy, cz] sample_n (MkVec (fun q : ℚ => q) sample_t sample_n) cp
        sampling_interval t_max time_step seed (le_of_eq (MkVec_length _ _ _).symm) hin]
      rfl
  · intro fuel m G n_nodes n_species n_reactions n_env n_edges edge_i edge_j edge_sfc edge_dst
      mesh_state mesh_chstt mesh_env mesh_vol k sub sto r_env D sample_n sample_t sampling_policy
      sampling_interval t_max time_step seed option hpol hopt htar
    obtain ⟨cp, hp⟩ := samplingPolicyCode_valid sampling_policy hpol
    obtain ⟨algo, ha⟩ := newGraphAlgo_valid option hopt
    have hin : cp = 0 → ∃ q, q < sample_n ∧ 0 < rd (MkVec (fun q : ℚ => q) sample_t sample_n) q :=
      fun hc => by
        obtain ⟨q, h1, h2⟩ := htar (samplingPolicyCode_zero _ _ hp hc)
        exact ⟨q, h1, by rw [rd_MkVec _ _ _ _ h1]; exact h2⟩
    unfold InitializeGraph
    dsimp only
    rw [hp, ha]
    dsimp only
    cases initialMeshX fuel option mesh_state n_nodes n_species seed with
    | none => rfl
    | some x =>
      dsimp only
      rw [GraphAlgo.InitChecked_of_target_graph m algo n_nodes n_species n_reactions n_env
        n_edges _ _ _ _ _ _ _ _ _ _ _ _ _ sample_n (MkVec (fun q : ℚ => q) sample_t sample_n)
        cp sampling_interval t_max time_step seed (le_of_eq (MkVec_length _ _ _).symm) hin]
      rfl
  · intro fuel mesh_state n_meshes n_species seed
    rw [initialMeshX_euler]
    rfl
  · intro fuel m G uniform normal
    constructor
    · unfold Initialize3D
      dsimp only
      rw [hR, hI]
      dsimp only
      rw [initialMeshX_stuck fuel "gillespie" (Or.inl rfl)]
      rfl
    · unfold InitializeGraph
      dsimp only
      rw [hI]
      dsimp only
      rw [initialMeshX_stuck fuel "tauleap" (Or.inr rfl)]
      rfl
  · intro fuel m G sample_t seed
    constructor
    · unfold Initialize3D
      dsimp only
      rw [hR, hT, newGridAlgo_euler, initialMeshX_euler]
      dsimp only
      have e0 : MkVec (fun q : ℚ => q) sample_t 0 = [] := rfl
      rw [e0, GridAlgo.InitChecked_no_target]
    · unfold InitializeGraph
      dsimp only
      rw [hT, newGraphAlgo_euler, initialMeshX_euler]
      dsimp only
      have e0 : MkVec (fun q : ℚ => q) sample_t 0 = [] := rfl
      rw [e0, GraphAlgo.InitChecked_no_target_graph]

/-- C9 on concrete calls.  A grid call with the algorithm `gillespie` and the
policy `on_iteration` returns `0` (the correction loops end within `5`
rounds); a grid call with the algorithm `euler`, the policy `on_t_sample` and
the targets `1/2` and `1` returns `0`; a grid call with the boundary string
`open` returns `2` whatever the other strings; a graph call with the algorithm
`tauleap` returns `0`; and a graph call with the policy `never` returns `3`. -/
theorem C9_valid_call_without_status_witness :
    (Initialize3D 5 scenarioLibm Session.initial 2 1 1 1 1 1 [100, 0] [0, 0] [0, 0] 1 [1] [1]
      [-1] [1] [1] "reflecting" "periodical" "reflecting" 0 [] "on_iteration" 1 10 (1 / 10)
      scenarioRng "gillespie").map Prod.fst = some 0 ∧
    (Initialize3D 0 scenarioLibm Session.initial 2 1 1 1 1 1 [100, 0] [0, 0] [0, 0] 1 [1] [1]
      [-1] [1] [1] "reflecting" "periodical" "reflecting" 2 [1 / 2, 1] "on_t_sample" 1 10
      (1 / 10) scenarioRng "euler").map Prod.fst = some 0 ∧
    (Initialize3D 5 scenarioLibm Session.initial 2 1 1 1 1 1 [100, 0] [0, 0] [0, 0] 1 [1] [1]
      [-1] [1] [1] "reflecting" "open" "reflecting" 0 [] "never" 1 10 (1 / 10)
      scenarioRng "rk4").map Prod.fst = some 2 ∧
    (InitializeGraph 5 scenarioLibm Session.initial 2 1 1 1 1 [0] [1] [1] [1] [100, 0] [0, 0]
      [0, 0] [1, 1] [1] [1] [-1] [1] [1] 0 [] "on_interval" 1 10 (1 / 10)
      scenarioRng "tauleap").map Prod.fst = some 0 ∧
    (InitializeGraph 5 scenarioLibm Session.initial 2 1 1 1 1 [0] [1] [1] [1] [100, 0] [0, 0]
      [0, 0] [1, 1] [1] [1] [-1] [1] [1] 0 [] "never" 1 10 (1 / 10)
      scenarioRng "rk4").map Prod.fst = some 3 :=
  ⟨(C9_valid_call_without_status.2.2.1 5 scenarioLibm Session.initial 2 1 1 1 1 1 [100, 0]
      [0, 0] [0, 0] 1 [1] [1] [-1] [1] [1] "reflecting" "periodical" "reflecting" 0 []
      "on_iteration" 1 10 (1 / 10) scenarioRng "gillespie" (Or.inl rfl) (Or.inr rfl) (Or.inl rfl)
      (Or.inr (Or.inl rfl)) (Or.inl rfl) (fun h => absurd h (by decide))).trans (by decide!),
   (C9_valid_call_without_status.2.2.1 0 scenarioLibm Session.initial 2 1 1 1 1 1 [100, 0]
      [0, 0] [0, 0] 1 [1] [1] [-1] [1] [1] "reflecting" "periodical" "reflecting" 2 [1 / 2, 1]
      "on_t_sample" 1 10 (1 / 10) scenarioRng "euler" (Or.inl rfl) (Or.inr rfl) (Or.inl rfl)
      (Or.inl rfl) (Or.inr (Or.inr rfl)) (fun _ => ⟨0, by decide, by decide!⟩)).trans
      (by decide!),
   (C9_valid_call_without_status.1 5 scenarioLibm Session.initial 2 1 1 1 1 1 [100, 0] [0, 0]
      [0, 0] 1 [1] [1] [-1] [1] [1] "reflecting" "open" "reflecting" 0 [] "never" 1 10 (1 / 10)
      scenarioRng "rk4").trans (by decide!),
   (C9_valid_call_without_status.2.2.2.1 5 scenarioLibm Session.initial 2 1 1 1 1 [0] [1] [1]
      [1] [100, 0] [0, 0] [0, 0] [1, 1] [1] [1] [-1] [1] [1] 0 [] "on_interval" 1 10 (1 / 10)
      scenarioRng "tauleap" (Or.inr (Or.inr (Or.inl rfl))) (Or.inr (Or.inl rfl))
      (fun h => absurd h (by decide))).trans (by decide!),
   (C9_valid_call_without_status.2.1 5 scenarioLibm Session.initial 2 1 1 1 1 [0] [1] [1] [1]
      [100, 0] [0, 0] [0, 0] [1, 1] [1] [1] [-1] [1] [1] 0 [] "never" 1 10 (1 / 10)
      scenarioRng "rk4").trans (by decide!)⟩

/-! ## C29: counts that cover their removals -/

namespace TauLeap3D

/-- The numbers of events that `Compute_nevt` of the grid leaves are not
negative. -/
theorem Compute_nevt_counts_nonneg (e : TauLeap3D)
    (hnr : e.n_meshes * e.n_reactions ≤ e.mesh_nr.length)
    (hnd : 6 * e.n_species * e.n_meshes ≤ e.mesh_nd.length) :
    (∀ i r, i < e.n_meshes → r < e.n_reactions →
      0 ≤ rd e.Compute_nevt.mesh_nr (i * e.n_reactions + r)) ∧
    (∀ i s n, i < e.n_meshes → s < e.n_species → n < 6 →
      0 ≤ rd e.Compute_nevt.mesh_nd (i * 6 * e.n_species + s * 6 + n)) := by
  constructor
  · intro i r hi hr
    obtain ⟨q, _, hq⟩ := Compute_nevt_draws_nr e hnr i r hi hr
    rw [hq]
    exact Int.natCast_nonneg _
  · intro i s n hi hs hn
    obtain ⟨h1, h2⟩ := Compute_nevt_draws_nd e hnd i s n hi hs hn
    by_cases hj : rd e.mesh_neighbors (i * 6 + n) = -1
    · rw [h2 hj]
    · obtain ⟨q, _, hq⟩ := h1 hj
      rw [hq]
      exact Int.natCast_nonneg _

/-- After `Iterate` of `TauLeap3D`, a cell that was not negative and that
holds at least the molecules that the draws of the step remove from it is not
negative. -/
theorem Iterate_cell_nonneg (e : TauLeap3D)
    (hx : e.n_meshes * e.n_species ≤ e.mesh_x.length)
    (hnr : e.n_meshes * e.n_reactions ≤ e.mesh_nr.length)
    (hnd : 6 * e.n_species * e.n_meshes ≤ e.mesh_nd.length)
    (i s : Nat) (hi : i < e.n_meshes) (hs : s < e.n_species)
    (h0 : 0 ≤ rd e.mesh_x (i * e.n_species + s))
    (hrem : ∑ r in Finset.range e.n_reactions,
          (if rd e.sto (s * e.n_reactions + r) < 0 then
            -rd e.sto (s * e.n_reactions + r) *
              ((rd e.Compute_nevt.mesh_nr (i * e.n_reactions + r) : Int) : ℚ)
           else 0) +
        ∑ n in Finset.range 6,
          ((rd e.Compute_nevt.mesh_nd (i * 6 * e.n_species + s * 6 + n) : Int) : ℚ) ≤
      rd e.mesh_x (i * e.n_species + s)) :
    0 ≤ rd e.Iterate.2.mesh_x (i * e.n_species + s) := by
  obtain ⟨cr, cd⟩ := Compute_nevt_counts_nonneg e hnr hnd
  by_cases hc : e.complete = true
  · have hI : e.Iterate.2.mesh_x = e.mesh_x := by
      unfold Iterate
      dsimp only
      rw [if_pos hc]
    rw [hI]
    exact h0
  · by_cases hch : rd e.mesh_chstt (i * e.n_species + s) = 0
    · rw [Iterate_cell_tauLeap3D e ((Bool.not_eq_true _).mp hc) hx i s hi hs hch]
      have hin : 0 ≤ ∑ j in Finset.range e.n_meshes, ∑ m in Finset.range 6,
          (if rd e.mesh_neighbors (j * 6 + m) = (i : Int) then
            ((rd e.Compute_nevt.mesh_nd (j * 6 * e.n_species + s * 6 + m) : Int) : ℚ)
           else 0) := by
        refine Finset.sum_nonneg (fun j hj => Finset.sum_nonneg (fun m hm => ?_))
        split_ifs
        · exact Int.cast_nonneg.mpr
            (cd j s m (Finset.mem_range.mp hj) hs (Finset.mem_range.mp hm))
        · exact le_refl _
      have hre : 0 ≤ ∑ r in Finset.range e.n_reactions,
          ((if rd e.sto (s * e.n_reactions + r) < 0 then
            -rd e.sto (s * e.n_reactions + r) *
              ((rd e.Compute_nevt.mesh_nr (i * e.n_reactions + r) : Int) : ℚ)
           else 0) +
          rd e.sto (s * e.n_reactions + r) *
            ((rd e.Compute_nevt.mesh_nr (i * e.n_reactions + r) : Int) : ℚ)) := by
        refine Finset.sum_nonneg (fun r hr => ?_)
        have hn : (0 : ℚ) ≤ ((rd e.Compute_nevt.mesh_nr (i * e.n_reactions + r) : Int) : ℚ) :=
          Int.cast_nonneg.mpr (cr i r hi (Finset.mem_range.mp hr))
        split_ifs with hneg
        · rw [neg_mul, neg_add_cancel]
        · rw [zero_add]
          exact mul_nonneg (not_lt.mp hneg) hn
      rw [Finset.sum_add_distrib] at hre
      linarith
    · rw [(Iterate_chstt_tauLeap3D e _ hch).2]
      exact h0

end TauLeap3D

namespace TauLeapGraph

/-- The numbers of events that `Compute_nevt` of the graph leaves are not
negative. -/
theorem Compute_nevt_counts_nonneg_graph (e : TauLeapGraph)
    (hnr : e.n_meshes * e.n_reactions ≤ e.mesh_nr.length)
    (hnd : e.n_meshes ≤ e.mesh_nd.length)
    (hrow : ∀ i, i < e.n_meshes →
      e.n_species * rd e.mesh_neighbor_n i ≤ (rdRow e.mesh_nd i).length) :
    (∀ i r, i < e.n_meshes → r < e.n_reactions →
      0 ≤ rd e.Compute_nevt.mesh_nr (i * e.n_reactions + r)) ∧
    (∀ i s n, i < e.n_meshes → s < e.n_species → n < rd e.mesh_neighbor_n i →
      0 ≤ rd (rdRow e.Compute_nevt.mesh_nd i) (s * rd e.mesh_neighbor_n i + n)) := by
  constructor
  · intro i r hi hr
    obtain ⟨q, _, hq⟩ := Compute_nevt_draws_nr_graph e hnr i r hi hr
    rw [hq]
    exact Int.natCast_nonneg _
  · intro i s n hi hs hn
    obtain ⟨q, _, hq⟩ := Compute_nevt_draws_nd_graph e hnd hrow i s n hi hs hn
    rw [hq]
    exact Int.natCast_nonneg _

/-- After `Iterate` of `TauLeapGraph`, a cell that was not negative and that
holds at least the molecules that the draws of the step remove from it is not
negative. -/
theorem Iterate_cell_nonneg_graph (e : TauLeapGraph)
    (hx : e.n_meshes * e.n_species ≤ e.mesh_x.length)
    (hnr : e.n_meshes * e.n_reactions ≤ e.mesh_nr.length)
    (hnd : e.n_meshes ≤ e.mesh_nd.length)
    (hrow : ∀ i, i < e.n_meshes →
      e.n_species * rd e.mesh_neighbor_n i ≤ (rdRow e.mesh_nd i).length)
    (i s : Nat) (hi : i < e.n_meshes) (hs : s < e.n_species)
    (h0 : 0 ≤ rd e.mesh_x (i * e.n_species + s))
    (hrem : ∑ r in Finset.range e.n_reactions,
          (if rd e.sto (s * e.n_reactions + r) < 0 then
            -rd e.sto (s * e.n_reactions + r) *
              ((rd e.Compute_nevt.mesh_nr (i * e.n_reactions + r) : Int) : ℚ)
           else 0) +
        ∑ n in Finset.range (rd e.mesh_neighbor_n i),
          ((rd (rdRow e.Compute_nevt.mesh_nd i) (s * rd e.mesh_neighbor_n i + n) : Int) : ℚ) ≤
      rd e.mesh_x (i * e.n_species + s)) :
    0 ≤ rd e.Iterate.2.mesh_x (i * e.n_species + s) := by
  obtain ⟨cr, cd⟩ := Compute_nevt_counts_nonneg_graph e hnr hnd hrow
  by_cases hc : e.complete = true
  · have hI : e.Iterate.2.mesh_x = e.mesh_x := by
      unfold Iterate
      dsimp only
      rw [if_pos hc]
    rw [hI]
    exact h0
  · by_cases hch : rd e.mesh_chstt (i * e.n_species + s) = 0
    · rw [Iterate_cell_tauLeapGraph e ((Bool.not_eq_true _).mp hc) hx i s hi hs hch]
      have hin : 0 ≤ ∑ j in Finset.range e.n_meshes,
          ∑ m in Finset.range (rd e.mesh_neighbor_n j),
          (if rd (rdRow e.mesh_neighbor_index j) m = i then
            ((rd (rdRow e.Compute_nevt.mesh_nd j) (s * rd e.mesh_neighbor_n j + m) : Int) : ℚ)
           else 0) := by
        refine Finset.sum_nonneg (fun j hj => Finset.sum_nonneg (fun m hm => ?_))
        split_ifs
        · exact Int.cast_nonneg.mpr
            (cd j s m (Finset.mem_range.mp hj) hs (Finset.mem_range.mp hm))
        · exact le_refl _
      have hre : 0 ≤ ∑ r in Finset.range e.n_reactions,
          ((if rd e.sto (s * e.n_reactions + r) < 0 then
            -rd e.sto (s * e.n_reactions + r) *
              ((rd e.Compute_nevt.mesh_nr (i * e.n_reactions + r) : Int) : ℚ)
           else 0) +
          rd e.sto (s * e.n_reactions + r) *
            ((rd e.Compute_nevt.mesh_nr (i * e.n_reactions + r) : Int) : ℚ)) := by
        refine Finset.sum_nonneg (fun r hr => ?_)
        have hn : (0 : ℚ) ≤ ((rd e.Compute_nevt.mesh_nr (i * e.n_reactions + r) : Int) : ℚ) :=
          Int.cast_nonneg.mpr (cr i r hi (Finset.mem_range.mp hr))
        split_ifs with hneg
        · rw [neg_mul, neg_add_cancel]
        · rw [zero_add]
          exact mul_nonneg (not_lt.mp hneg) hn
      rw [Finset.sum_add_distrib] at hre
      linarith
    · rw [(Iterate_chstt_tauLeapGraph e _ hch).2]
      exact h0

end TauLeapGraph

/-- C29, amended.  For `TauLeap3D` and `TauLeapGraph`, on an object whose
vectors have the sizes that the initialisation gives them, for every outcome of
the Poisson draws: a count `mesh_x[i,s]` that is not negative before `Iterate`
is not negative after it whenever the removals drawn for the cell do not exceed
the count, that is `Σ_r max(0, -sto[s,r]) * n_r[i,r] + Σ_n n_d[i,s,n] ≤
mesh_x[i,s]`, where `n_r` and `n_d` are the numbers of events that
`Compute_nevt` draws in the step.  The kernels apply the drawn numbers as they
are, so nothing holds the count back when the removals exceed it. -/
theorem C29_tauleap_counts_nonneg_when_covered :
    (∀ (e : TauLeap3D) (i s : Nat),
      e.n_meshes * e.n_species ≤ e.mesh_x.length →
      e.n_meshes * e.n_reactions ≤ e.mesh_nr.length →
      6 * e.n_species * e.n_meshes ≤ e.mesh_nd.length →
      i < e.n_meshes → s < e.n_species →
      0 ≤ rd e.mesh_x (i * e.n_species + s) →
      ∑ r in Finset.range e.n_reactions,
          (if rd e.sto (s * e.n_reactions + r) < 0 then
            -rd e.sto (s * e.n_reactions + r) *
              ((rd e.Compute_nevt.mesh_nr (i * e.n_reactions + r) : Int) : ℚ)
           else 0) +
        ∑ n in Finset.range 6,
          ((rd e.Compute_nevt.mesh_nd (i * 6 * e.n_species + s * 6 + n) : Int) : ℚ) ≤
        rd e.mesh_x (i * e.n_species + s) →
      0 ≤ rd e.Iterate.2.mesh_x (i * e.n_species + s)) ∧
    (∀ (e : TauLeapGraph) (i s : Nat),
      e.n_meshes * e.n_species ≤ e.mesh_x.length →
      e.n_meshes * e.n_reactions ≤ e.mesh_nr.length →
      e.n_meshes ≤ e.mesh_nd.length →
      (∀ j, j < e.n_meshes →
        e.n_species * rd e.mesh_neighbor_n j ≤ (rdRow e.mesh_nd j).length) →
      i < e.n_meshes → s < e.n_species →
      0 ≤ rd e.mesh_x (i * e.n_species + s) →
      ∑ r in Finset.range e.n_reactions,
          (if rd e.sto (s * e.n_reactions + r) < 0 then
            -rd e.sto (s * e.n_reactions + r) *
              ((rd e.Compute_nevt.mesh_nr (i * e.n_reactions + r) : Int) : ℚ)
           else 0) +
        ∑ n in Finset.range (rd e.mesh_neighbor_n i),
          ((rd (rdRow e.Compute_nevt.mesh_nd i) (s * rd e.mesh_neighbor_n i + n) : Int) : ℚ) ≤
        rd e.mesh_x (i * e.n_species + s) →
      0 ≤ rd e.Iterate.2.mesh_x (i * e.n_species + s)) :=
  ⟨fun e i s hx hnr hnd hi hs h0 hrem =>
      TauLeap3D.Iterate_cell_nonneg e hx hnr hnd i s hi hs h0 hrem,
    fun e i s hx hnr hnd hrow hi hs h0 hrem =>
      TauLeapGraph.Iterate_cell_nonneg_graph e hx hnr hnd hrow i s hi hs h0 hrem⟩

/-- C29, amended, on scenario S3 (`x = [10, 0, 0]`, `D = 1`, `dt = 1/10`,
Poisson draws `0, 1, 2, 0, ...` and `0` for the mean `0`): one molecule is
drawn to leave mesh `0`, which holds `10`, and the count of mesh `0` after
`Iterate` is `9`, not negative, on the grid and on the graph. -/
theorem C29_tauleap_counts_nonneg_when_covered_witness :
    (rd diffusionTauLeap3D.Iterate.2.mesh_x (0 * diffusionTauLeap3D.n_species + 0) = 9 ∧
      0 ≤ rd diffusionTauLeap3D.Iterate.2.mesh_x (0 * diffusionTauLeap3D.n_species + 0)) ∧
    (rd diffusionTauLeapGraph.Iterate.2.mesh_x (0 * diffusionTauLeapGraph.n_species + 0) = 9 ∧
      0 ≤ rd diffusionTauLeapGraph.Iterate.2.mesh_x
        (0 * diffusionTauLeapGraph.n_species + 0)) :=
  ⟨⟨by decide!,
    C29_tauleap_counts_nonneg_when_covered.1 diffusionTauLeap3D 0 0 (by decide!) (by decide!)
      (by decide!) (by decide!) (by decide!) (by decide!) (by decide!)⟩,
   ⟨by decide!,
    C29_tauleap_counts_nonneg_when_covered.2 diffusionTauLeapGraph 0 0 (by decide!) (by decide!)
      (by decide!) (by decide!) (by decide!) (by decide!) (by decide!) (by decide!)⟩⟩


end Strengths
